import Mathlib

/-!
# Target-side request processing of the Portals 4 runtime

A shallow embedding of `ptl_tgt.c` (the `runtime-devel` branch and the older
`ib/src` variant) together with theorems about matching, permission checks,
length/offset computation, data landing and the target state machine.

Conventions of the embedding.

* Wire and size fields (`ptl_size_t`, `uint64_t`, `__le64`) are natural numbers;
  where the C code computes in 64 bits the result is reduced modulo `2 ^ 64`.
* An option word (`ni->options`, `me->options`, `pt->options`, `event_mask`) is
  only ever tested, set or cleared one mask at a time, so it is embedded as a
  record with one Boolean per mask the code names.
* Constants, tables and build switches that live in headers outside the
  translated files are collected in `Consts` and passed as a parameter.
* `buf->le` and `buf->me` share storage in the C code (a union); both are the
  single element type `me_t` here.
-/

namespace Portals

/-- Width of `ptl_size_t` / `uint64_t` arithmetic. -/
def U64 : Nat := 2 ^ 64

/-- Reduction of a natural number to an unsigned 64-bit value. -/
def wrap64 (n : Nat) : Nat := n % U64

/-- Constants, lookup tables and build switches declared in headers that are not
among the translated sources (`portals4.h`, `ptl_param.h`, `ptl_pt.h`,
`ptl_conn.h`, `ptl_atomic.h`, the build configuration). Every function of the
embedding takes them as a parameter. -/
structure Consts where
  PTL_RANK_ANY : Nat
  PTL_NID_ANY : Nat
  PTL_PID_ANY : Nat
  PTL_UID_ANY : Nat
  PTL_SWAP : Nat
  PTL_BXOR : Nat
  PTL_DATATYPE_LAST : Nat
  atom_type_size : Nat → Nat
  PT_ENABLED : Nat
  PT_DISABLED : Nat
  PT_AUTO_DISABLED : Nat
  CONN_STATE_DISCONNECTED : Nat
  CONN_STATE_CONNECTED : Nat
  CONN_TYPE_RDMA : Nat
  PTL_MAX_INLINE_DATA : Nat
  sizeof_ibv_sge : Nat
  sizeof_mem_iovec : Nat
  WITH_TRANSPORT_IB : Bool
  WITH_TRANSPORT_SHMEM : Bool
  USE_KNEM : Bool
  IS_PPE : Bool

/-! ## Header (`ptl_hdr.h`) -/

def OP_PUT : Nat := 1
def OP_GET : Nat := 2
def OP_ATOMIC : Nat := 3
def OP_FETCH : Nat := 4
def OP_SWAP : Nat := 5
def OP_RDMA_DISC : Nat := 6
def OP_REPLY : Nat := 7
def OP_ACK : Nat := 8
def OP_CT_ACK : Nat := 9
def OP_OC_ACK : Nat := 10
def OP_NO_ACK : Nat := 11

def PTL_HDR_VER_1 : Nat := 1

def PKT_FMT_REQ : Nat := 0
def PKT_FMT_REPLY : Nat := 1
def PKT_FMT_ACK : Nat := 2

/-- Modelled from the spec: the `ack_req` codes of `portals4.h`, which the wire
header description gives as 0 = NO_ACK, 1 = ACK, 2 = CT_ACK, 3 = OC_ACK. -/
def PTL_NO_ACK_REQ : Nat := 0

/-- Modelled from the spec: `ack_req` code 1 = ACK (see `PTL_NO_ACK_REQ`). -/
def PTL_ACK_REQ : Nat := 1

/-- Modelled from the spec: `ack_req` code 2 = CT_ACK (see `PTL_NO_ACK_REQ`). -/
def PTL_CT_ACK_REQ : Nat := 2

/-- Modelled from the spec: `ack_req` code 3 = OC_ACK (see `PTL_NO_ACK_REQ`). -/
def PTL_OC_ACK_REQ : Nat := 3

/-- The request header `req_hdr_t`, fields already converted to host order.
`src_rank` shares storage with `src_nid`. -/
structure req_hdr_t where
  version : Nat := PTL_HDR_VER_1
  operation : Nat
  data_in : Nat := 0
  data_out : Nat := 0
  pkt_fmt : Nat := PKT_FMT_REQ
  handle : Nat := 0
  ack_req : Nat := 0
  atom_type : Nat := 0
  atom_op : Nat := 0
  src_nid : Nat := 0
  src_pid : Nat := 0
  match_bits : Nat := 0
  hdr_data : Nat := 0
  operand : Nat := 0
  pt_index : Nat := 0
  uid : Nat := 0
  length : Nat := 0
  offset : Nat := 0

/-- The member `src_rank` of the union `{ src_nid; src_rank }`. -/
def req_hdr_t.src_rank (hdr : req_hdr_t) : Nat := hdr.src_nid

/-- The `ni_fail` codes used by the target. `PTL_NI_OK` is the zero code, so the C
test `if (ni_fail)` is `ni_fail ≠ PTL_NI_OK`. -/
inductive ptl_ni_fail_t where
  | PTL_NI_OK
  | PTL_NI_UNDELIVERABLE
  | PTL_NI_DROPPED
  | PTL_NI_FLOW_CTRL
  | PTL_NI_PT_DISABLED
  | PTL_NI_PERM_VIOLATION
  | PTL_NI_OP_VIOLATION
  deriving DecidableEq, Repr

open ptl_ni_fail_t

/-! ## Network interface, list elements -/

/-- The bits of `ni->options` the target tests. -/
structure ni_options_t where
  PTL_NI_LOGICAL : Bool := false
  PTL_NI_NO_MATCHING : Bool := false
  deriving DecidableEq, Repr

/-- The fields of `ni->limits` the target reads. -/
structure ni_limits_t where
  max_pt_index : Nat
  max_msg_size : Nat
  max_atomic_size : Nat
  deriving DecidableEq, Repr

/-- The bits of `le->options` / `me->options` the target tests. -/
structure me_options_t where
  PTL_ME_OP_PUT : Bool := false
  PTL_ME_OP_GET : Bool := false
  PTL_ME_MANAGE_LOCAL : Bool := false
  PTL_ME_USE_ONCE : Bool := false
  PTL_ME_NO_TRUNCATE : Bool := false
  PTL_ME_EVENT_UNLINK_DISABLE : Bool := false
  PTL_ME_AUTH_USE_JID : Bool := false
  PTL_LE_ACK_DISABLE : Bool := false
  PTL_LE_EVENT_COMM_DISABLE : Bool := false
  PTL_LE_EVENT_SUCCESS_DISABLE : Bool := false
  PTL_LE_EVENT_OVER_DISABLE : Bool := false
  PTL_LE_EVENT_CT_COMM : Bool := false
  PTL_LE_EVENT_CT_OVERFLOW : Bool := false
  PTL_LE_EVENT_CT_BYTES : Bool := false
  deriving DecidableEq, Repr

/-- The union `ptl_process_t`: `rank` shares storage with `phys.nid`. -/
structure ptl_process_t where
  nid : Nat := 0
  pid : Nat := 0
  deriving DecidableEq, Repr

/-- The member `rank` of the union `ptl_process_t`. -/
def ptl_process_t.rank (p : ptl_process_t) : Nat := p.nid

/-- Which list of the portals table entry an element was appended to. -/
inductive ptl_list_t where
  | PTL_PRIORITY_LIST
  | PTL_OVERFLOW_LIST
  deriving DecidableEq, Repr

open ptl_list_t

/-- One entry of an element's iovec array. -/
structure ptl_iovec_t where
  iov_base : Nat
  iov_len : Nat
  deriving DecidableEq, Repr

/-- A list element (`le_t`) or matching list element (`me_t`). When `num_iov` is
zero `start` is the address of a contiguous buffer, otherwise it points at the
iovec array `iov`. `ct` tells whether a counting event is attached. -/
structure me_t where
  start : Nat := 0
  num_iov : Nat := 0
  iov : List ptl_iovec_t := []
  length : Nat := 0
  offset : Nat := 0
  min_free : Nat := 0
  options : me_options_t := {}
  uid : Nat := 0
  id : ptl_process_t := {}
  match_bits : Nat := 0
  ignore_bits : Nat := 0
  ptl_list : ptl_list_t := PTL_PRIORITY_LIST
  ct : Bool := false
  user_ptr : Nat := 0
  jid : Nat := 0
  deriving DecidableEq, Repr

/-! ## Message buffers -/

/-- The bits of `buf->event_mask` used on the target side. -/
structure xt_event_mask_t where
  XT_COMM_EVENT : Bool := false
  XT_CT_COMM_EVENT : Bool := false
  XT_ACK_EVENT : Bool := false
  XT_REPLY_EVENT : Bool := false
  deriving DecidableEq, Repr

/-- The tag of a data descriptor. `DATA_FMT_LAST` stands for every value the
switch statements send to their `default` branch. -/
inductive data_fmt_t where
  | DATA_FMT_IMMEDIATE
  | DATA_FMT_RDMA_DMA
  | DATA_FMT_RDMA_INDIRECT
  | DATA_FMT_KNEM_DMA
  | DATA_FMT_KNEM_INDIRECT
  | DATA_FMT_MEM_DMA
  | DATA_FMT_MEM_INDIRECT
  | DATA_FMT_LAST
  deriving DecidableEq, Repr

open data_fmt_t

/-- A data descriptor `data_t`. `immediate_data i` is byte `i` of
`data->immediate.data`; `num_sge` is `rdma.num_sge`, `sge0_length` is
`rdma.sge_list[0].length`, `num_mem_iovecs` and `mem_iovec0_length` are the
corresponding members of `mem`. -/
structure data_t where
  data_fmt : data_fmt_t
  immediate_data : Nat → Nat := fun _ => 0
  num_sge : Nat := 0
  sge0_length : Nat := 0
  num_mem_iovecs : Nat := 0
  mem_iovec0_length : Nat := 0

/-- Direction of the current RDMA phase. -/
inductive data_dir_t where
  | DATA_DIR_IN
  | DATA_DIR_OUT
  deriving DecidableEq, Repr

open data_dir_t

/-- The response header `ack_hdr_t` (common1 followed by the region). -/
structure ack_hdr_t where
  version : Nat := 0
  operation : Nat := 0
  ni_fail : ptl_ni_fail_t := PTL_NI_OK
  data_in : Nat := 0
  data_out : Nat := 0
  matching_list : ptl_list_t := PTL_PRIORITY_LIST
  pkt_fmt : Nat := 0
  handle : Nat := 0
  length : Nat := 0
  offset : Nat := 0
  deriving DecidableEq, Repr

/-- The size `sizeof(ack_hdr_t)` of the header of an ack or a reply, as `ptl_hdr.h`
declares it: `struct hdr_common1`, two 32-bit words and with `IS_PPE` two more,
followed by `struct hdr_region`, a 64-bit length and a 64-bit offset. -/
def sizeof_ack_hdr (K : Consts) : Nat := (if K.IS_PPE then 16 else 8) + 8 + 8

/-- The size of `ack_hdr->offset` and of `ack_hdr->length` (`__le64`). -/
def sizeof_le64 : Nat := 8

/-- A buffer used to send the ack or reply: its header, its length, whether
`dest` and `conn` have been copied from the request buffer, and whether `xxbuf`
links it to the request buffer. -/
structure send_buf_t where
  data : ack_hdr_t := {}
  length : Nat := 0
  has_dest : Bool := false
  has_conn : Bool := false
  has_xxbuf : Bool := false
  deriving DecidableEq, Repr

/-- Where the remote cursor of a transfer points. -/
inductive rem_cursor_t where
  | none
  | direct
  | indirect
  deriving DecidableEq, Repr

/-- The remote side of `buf->transfer` (`rdma` and `mem` members). -/
structure transfer_t where
  cur_rem : rem_cursor_t := rem_cursor_t.none
  cur_rem_off : Nat := 0
  num_rem : Nat := 0
  deriving DecidableEq, Repr

/-- The states of the target state machine. -/
inductive tgt_state where
  | STATE_TGT_START
  | STATE_TGT_DROP
  | STATE_TGT_GET_MATCH
  | STATE_TGT_GET_LENGTH
  | STATE_TGT_WAIT_CONN
  | STATE_TGT_DATA
  | STATE_TGT_DATA_IN
  | STATE_TGT_RDMA
  | STATE_TGT_ATOMIC_DATA_IN
  | STATE_TGT_SWAP_DATA_IN
  | STATE_TGT_DATA_OUT
  | STATE_TGT_WAIT_RDMA_DESC
  | STATE_TGT_SHMEM_DESC
  | STATE_TGT_SEND_ACK
  | STATE_TGT_SEND_REPLY
  | STATE_TGT_COMM_EVENT
  | STATE_TGT_OVERFLOW_EVENT
  | STATE_TGT_WAIT_APPEND
  | STATE_TGT_CLEANUP
  | STATE_TGT_CLEANUP_2
  | STATE_TGT_ERROR
  | STATE_TGT_DONE
  deriving DecidableEq, Repr

open tgt_state

/-- The fields of a message buffer `buf_t` that the target state machine uses.
`data` is the received request header; `ack` is the view of the same storage as
an `ack_hdr_t`, used when the received buffer is reused for the ack; `addr` is
the address of the buffer, which identifies it on wait lists. Pointers to
list elements (`le`, `matching_le`) are handles into the element table of the
interface; `pt` is an index into `ni->pt`; `conn` tells whether a connection is
attached; `start` is the address saved by `init_local_offset`; `has_mem_buf`
tells whether `buf->mem_buf` is set and `mem_buf_send` whether its type has been
changed to a send type. -/
structure buf_t where
  addr : Nat := 0
  data : req_hdr_t
  ack : ack_hdr_t := {}
  length : Nat := 0
  tgt_state : tgt_state := STATE_TGT_START
  operation : Nat := 0
  event_mask : xt_event_mask_t := {}
  ni_fail : ptl_ni_fail_t := PTL_NI_OK
  pt : Option Nat := none
  le : Option Nat := none
  matching_le : Option Nat := none
  matching_list : ptl_list_t := PTL_PRIORITY_LIST
  conn : Bool := false
  has_dest : Bool := false
  send_buf : Option send_buf_t := none
  data_in : Option data_t := none
  data_out : Option data_t := none
  put_resid : Nat := 0
  get_resid : Nat := 0
  mlength : Nat := 0
  moffset : Nat := 0
  start : Option Nat := none
  cur_loc_iov_index : Nat := 0
  cur_loc_iov_off : Nat := 0
  in_atomic : Nat := 0
  indir_sge : Bool := false
  rdma_dir : data_dir_t := DATA_DIR_IN
  rdma_desc_ok : Bool := false
  rdma_comp : Nat := 0
  xxbuf : Bool := false
  transfer : transfer_t := {}
  on_unexpected_list : Bool := false
  has_mem_buf : Bool := false
  mem_buf_send : Bool := false

/-! ## Portals table, connection, interface -/

/-- The bits of `pt->options` the target tests. -/
structure pt_options_t where
  PTL_PT_FLOWCTRL : Bool := false
  deriving DecidableEq, Repr

/-- A portals table entry `pt_t`. The lists hold handles of list elements (the
priority and overflow lists) and addresses of buffers (the unexpected list);
`eq` tells whether an event queue is attached; `state` is the state word, built
from `PT_ENABLED`, `PT_DISABLED` and `PT_AUTO_DISABLED`. -/
structure pt_t where
  in_use : Bool := false
  state : Nat := 0
  options : pt_options_t := {}
  eq : Bool := false
  priority_list : List Nat := []
  overflow_list : List Nat := []
  unexpected_list : List Nat := []
  num_tgt_active : Int := 0
  deriving DecidableEq, Repr

/-- The connection `conn_t` to the initiator of the request: its state, the type of
its transport and the list of buffers waiting for it. -/
structure conn_t where
  state : Nat := 0
  transport_type : Nat := 0
  buf_list : List Nat := []
  deriving DecidableEq, Repr

/-- The network interface `ni_t`. `atomic_mutex` counts the holders of
`ni->atomic_mutex`. -/
structure ni_t where
  options : ni_options_t := {}
  limits : ni_limits_t
  pt : Nat → pt_t
  atomic_mutex : Int := 0

/-- Kinds of full events posted by the target. -/
inductive ptl_event_kind_t where
  | PTL_EVENT_GET
  | PTL_EVENT_GET_OVERFLOW
  | PTL_EVENT_PUT
  | PTL_EVENT_PUT_OVERFLOW
  | PTL_EVENT_ATOMIC
  | PTL_EVENT_ATOMIC_OVERFLOW
  | PTL_EVENT_FETCH_ATOMIC_OVERFLOW
  | PTL_EVENT_PT_DISABLED
  | PTL_EVENT_SEARCH
  deriving DecidableEq, Repr

open ptl_event_kind_t

/-- The two modes of a counting event update. -/
inductive ct_mode_t where
  | CT_EVENTS
  | CT_MBYTES
  deriving DecidableEq, Repr

open ct_mode_t

/-- Calls the target makes to functions outside `ptl_tgt.c`, in the order they are
made, together with the state names written by `ptl_info` at every turn of
the loop of `process_tgt`. Events carry the `ni_fail`, `mlength` and `moffset` of
the buffer at the time of the call. -/
inductive Action where
  | ptl_info (s : tgt_state)
  | le_get (le : Nat)
  | le_put (le : Nat)
  | le_unlink (le : Nat) (send_event : Bool)
  | buf_get
  | buf_put
  | buf_put_send_buf
  | conn_put
  | set_buf_dest
  | init_connect
  | atomic_mutex_lock
  | atomic_mutex_unlock
  | append_tgt_data (le : Nat) (moffset mlength : Nat)
  | post_tgt_dma
  | process_rdma_desc
  | make_target_event (eq : Bool) (type : ptl_event_kind_t) (user_ptr : Option Nat)
      (start : Option Nat) (ni_fail : ptl_ni_fail_t) (mlength moffset : Nat)
  | make_ct_event (le : Nat) (mode : ct_mode_t) (ni_fail : ptl_ni_fail_t) (mlength : Nat)
  | set_send_flags (inline_hint : Nat)
  | send_message (b : send_buf_t) (signaled : Nat)
  | mem_buf_send (hdr : ack_hdr_t) (length : Nat)
  deriving DecidableEq, Repr

/-- Everything `process_tgt` reads or writes: the interface, the table of list
elements (indexed by handle), process memory (one byte per address), the
connection of the initiator, the message buffer, and the calls made so far. -/
structure World where
  ni : ni_t
  les : Nat → me_t
  mem : Nat → Nat
  conn : conn_t := {}
  buf : buf_t
  trace : List Action := []

/-- The results of the functions `process_tgt` calls but `ptl_tgt.c` does not
define, each as a function of the current world (so that successive calls may
differ). A Boolean `true` is a nonzero error status. For functions that write
memory the new memory is part of the result. -/
structure Collab where
  get_conn : World → Bool
  buf_alloc : World → Option send_buf_t
  init_connect : World → Bool
  append_tgt_data : World → Bool
  post_tgt_dma : World → Bool × Nat × Nat
  process_rdma_desc : World → Bool
  malloc_fails : World → Bool
  mr_lookup : World → Bool
  iov_copy_in : World → Bool × (Nat → Nat)
  iov_copy_out : World → Bool
  atom_op_defined : World → Bool
  atom_op : World → (Nat → Nat)
  iov_atomic_in : World → Bool × (Nat → Nat)
  swap_data_in : World → Bool × (Nat → Nat)
  send_message : World → Bool

/-- Appending a call to the record of calls. -/
def World.log (w : World) (a : Action) : World := { w with trace := w.trace ++ [a] }

/-- The portals table entry `buf->pt` points to. -/
def World.pt (w : World) (i : Nat) : pt_t := w.ni.pt i

/-- Storing a new value of the portals table entry `i`. -/
def World.set_pt (w : World) (i : Nat) (p : pt_t) : World :=
  { w with ni := { w.ni with pt := Function.update w.ni.pt i p } }

/-- Storing a new value of the list element with handle `h`. -/
def World.set_le (w : World) (h : Nat) (m : me_t) : World :=
  { w with les := Function.update w.les h m }

/-- The result of one state handler: the next state, or the process was stopped
by `abort()`, a failed `assert`, or a null pointer dereference. -/
inductive step_t where
  | next (w : World) (s : tgt_state)
  | abort (w : World)

/-- The next state of a handler result, if the handler returned. -/
def step_t.state : step_t → Option tgt_state
  | step_t.next _ s => some s
  | step_t.abort _ => none

/-- The world a handler leaves behind. -/
def step_t.world : step_t → World
  | step_t.next w _ => w
  | step_t.abort w => w

/-! ## Matching and permission checks (`runtime-devel`) -/

namespace RuntimeDevel

/-- The function `check_match` of `branches/runtime-devel/src/ib/ptl_tgt.c`. The sum
`offset + length` is computed in `ptl_size_t`, that is modulo `2 ^ 64`. -/
def check_match (K : Consts) (ni_options : ni_options_t) (buf : buf_t) (me : me_t) : Bool :=
  let hdr := buf.data
  let length := hdr.length
  let req_off := hdr.offset
  if (if ni_options.PTL_NI_LOGICAL then
        !(me.id.rank == K.PTL_RANK_ANY || me.id.rank == hdr.src_rank)
      else
        !(me.id.nid == K.PTL_NID_ANY || me.id.nid == hdr.src_nid) ||
        !(me.id.pid == K.PTL_PID_ANY || me.id.pid == hdr.src_pid)) then
    false
  else
    let offset := if me.options.PTL_ME_MANAGE_LOCAL then me.offset else req_off
    if me.options.PTL_ME_NO_TRUNCATE && decide (wrap64 (offset + length) > me.length) then
      false
    else
      (hdr.match_bits ||| me.ignore_bits) == (me.match_bits ||| me.ignore_bits)

/-- The function `check_perm` of `branches/runtime-devel/src/ib/ptl_tgt.c`. -/
def check_perm (K : Consts) (buf : buf_t) (le : me_t) : ptl_ni_fail_t :=
  let uid := buf.data.uid
  if !(le.uid == K.PTL_UID_ANY || le.uid == uid) then
    PTL_NI_PERM_VIOLATION
  else if buf.operation == OP_ATOMIC || buf.operation == OP_PUT then
    if !le.options.PTL_ME_OP_PUT then PTL_NI_OP_VIOLATION else PTL_NI_OK
  else if buf.operation == OP_GET then
    if !le.options.PTL_ME_OP_GET then PTL_NI_OP_VIOLATION else PTL_NI_OK
  else if buf.operation == OP_FETCH || buf.operation == OP_SWAP then
    if !(le.options.PTL_ME_OP_PUT && le.options.PTL_ME_OP_GET) then PTL_NI_OP_VIOLATION
    else PTL_NI_OK
  else
    PTL_NI_OK

/-- Subtraction in `ptl_size_t`: the difference modulo `2 ^ 64`. -/
def sub64 (a b : Nat) : Nat := (a + U64 - b % U64) % U64

/-- The loop of `init_local_offset`: entry `i` of the iovec array is read while
`i < num_iov` and `loc_offset < moffset`. The result is the final
`(i, loc_offset, iov_offset)`. -/
def init_local_offset_loop (moffset : Nat) (iov : List ptl_iovec_t) :
    Nat → Nat → Nat → Nat → Nat × Nat × Nat
  | 0, i, loc_offset, iov_offset => (i, loc_offset, iov_offset)
  | n + 1, i, loc_offset, iov_offset =>
    if loc_offset < moffset then
      let iov_offset1 := moffset - loc_offset
      let iov_len := (iov.getD i ⟨0, 0⟩).iov_len
      let iov_offset2 := if iov_offset1 > iov_len then iov_len else iov_offset1
      init_local_offset_loop moffset iov n (i + 1) (loc_offset + iov_offset2) iov_offset2
    else
      (i, loc_offset, iov_offset)

/-- The function `init_local_offset` (build without `IS_PPE`). The Boolean is the
error status (`true` is `PTL_FAIL`). An entry read one past the end of the iovec
array is taken to be zero. -/
def init_local_offset (buf : buf_t) (me : me_t) : Bool × buf_t :=
  let buf := { buf with cur_loc_iov_index := 0, cur_loc_iov_off := 0 }
  if me.num_iov != 0 then
    let r := init_local_offset_loop buf.moffset me.iov me.num_iov 0 0 0
    let i := r.1
    let loc_offset := r.2.1
    let iov_offset := r.2.2
    if loc_offset < buf.moffset then
      (true, buf)
    else
      (false, { buf with cur_loc_iov_index := i, cur_loc_iov_off := iov_offset,
                         start := some ((me.iov.getD i ⟨0, 0⟩).iov_base + iov_offset) })
  else
    (false, { buf with cur_loc_iov_off := buf.moffset, start := some (me.start + buf.moffset) })

/-- The offset chosen at the top of `tgt_get_length`. -/
def get_length_offset (buf : buf_t) (me : me_t) : Nat :=
  if me.options.PTL_ME_MANAGE_LOCAL then me.offset else buf.data.offset

/-- The length computed by `tgt_get_length` before the per-operation clamp. -/
def get_length_room (buf : buf_t) (me : me_t) : Nat :=
  let offset := get_length_offset buf me
  let rlength := buf.data.length
  if offset > me.length then 0
  else
    let room := me.length - offset
    if room ≥ rlength then rlength else room

/-- The `switch (buf->operation)` of `tgt_get_length`: the clamped length and the
buffer with both residuals set. -/
def get_length_switch (K : Consts) (limits : ni_limits_t) (buf : buf_t) (length : Nat) :
    Nat × buf_t :=
  if buf.operation == OP_PUT then
    let length := if length > limits.max_msg_size then limits.max_msg_size else length
    (length, { buf with put_resid := length, get_resid := 0 })
  else if buf.operation == OP_GET then
    let length := if length > limits.max_msg_size then limits.max_msg_size else length
    (length, { buf with put_resid := 0, get_resid := length })
  else if buf.operation == OP_ATOMIC then
    let length := if length > limits.max_atomic_size then limits.max_atomic_size else length
    (length, { buf with put_resid := length, get_resid := 0 })
  else if buf.operation == OP_FETCH then
    let length := if length > limits.max_atomic_size then limits.max_atomic_size else length
    (length, { buf with put_resid := length, get_resid := length })
  else if buf.operation == OP_SWAP then
    let length :=
      if buf.data.atom_op == K.PTL_SWAP then
        if length > limits.max_atomic_size then limits.max_atomic_size else length
      else
        if length > K.atom_type_size buf.data.atom_type then K.atom_type_size buf.data.atom_type
        else length
    (length, { buf with put_resid := length, get_resid := length })
  else
    (length, buf)

/-- The outcome of `tgt_get_length`: the next state, the buffer, the list
element, and the argument of the call `le_unlink(buf->le, flag)` when it is
made. -/
structure get_length_result where
  next : tgt_state
  buf : buf_t
  me : me_t
  unlink : Option Bool

/-- The function `tgt_get_length`. `conn_state` is `buf->conn->state`. -/
def tgt_get_length (K : Consts) (limits : ni_limits_t) (conn_state : Nat) (buf : buf_t)
    (me : me_t) : get_length_result :=
  let offset := get_length_offset buf me
  let r := get_length_switch K limits buf (get_length_room buf me)
  let length := r.1
  let buf := { r.2 with mlength := length, moffset := offset }
  let me := if me.options.PTL_ME_MANAGE_LOCAL then { me with offset := wrap64 (me.offset + length) }
            else me
  let unlink : Option Bool :=
    if me.options.PTL_ME_USE_ONCE ||
        (me.options.PTL_ME_MANAGE_LOCAL && me.min_free != 0 &&
          decide (sub64 me.length me.offset < me.min_free)) then
      some (!me.options.PTL_ME_EVENT_UNLINK_DISABLE)
    else none
  let e := init_local_offset buf me
  if e.1 then
    { next := STATE_TGT_ERROR, buf := e.2, me := me, unlink := unlink }
  else if conn_state ≥ K.CONN_STATE_CONNECTED then
    { next := STATE_TGT_DATA, buf := e.2, me := me, unlink := unlink }
  else if (e.2.event_mask.XT_ACK_EVENT || e.2.event_mask.XT_REPLY_EVENT) ||
      (e.2.data_out.isSome ||
        (match e.2.data_in with
         | some d => d.data_fmt != DATA_FMT_IMMEDIATE
         | none => false)) then
    { next := STATE_TGT_WAIT_CONN, buf := e.2, me := me, unlink := unlink }
  else
    { next := STATE_TGT_DATA, buf := e.2, me := me, unlink := unlink }

/-! ### The state handlers of `process_tgt` -/

/-- The function `prepare_send_buf`. The Boolean is the error status. -/
def prepare_send_buf (K : Consts) (C : Collab) (w : World) : Bool × World :=
  let alloc : Option (Option send_buf_t) :=
    if K.WITH_TRANSPORT_IB && w.conn.transport_type == K.CONN_TYPE_RDMA then
      (C.buf_alloc w).map some
    else if !w.buf.event_mask.XT_ACK_EVENT then
      (C.buf_alloc w).map some
    else
      some none
  match alloc with
  | none => (true, w)
  | some none => (false, w)
  | some (some sb) =>
    let hdr : ack_hdr_t :=
      { sb.data with data_in := 0, data_out := 0, version := PTL_HDR_VER_1,
                     handle := w.buf.data.handle }
    let sb : send_buf_t := { sb with has_xxbuf := true, data := hdr, length := sizeof_ack_hdr K }
    (false, { (w.log Action.buf_get) with buf.send_buf := some sb })

/-- The function `tgt_start`. -/
def tgt_start (K : Consts) (C : Collab) (w : World) : step_t :=
  let hdr := w.buf.data
  let w : World :=
    { w with buf.operation := hdr.operation, buf.pt := none, buf.in_atomic := 0,
             buf.matching_le := none, buf.le := none, buf.indir_sge := false,
             buf.send_buf := none }
  if !(hdr.operation == OP_PUT || hdr.operation == OP_ATOMIC || hdr.operation == OP_GET ||
       hdr.operation == OP_FETCH || hdr.operation == OP_SWAP) then
    step_t.next w STATE_TGT_ERROR
  else
    let w : World :=
      if hdr.operation == OP_PUT || hdr.operation == OP_ATOMIC then
        if hdr.ack_req != PTL_NO_ACK_REQ then { w with buf.event_mask.XT_ACK_EVENT := true }
        else w
      else { w with buf.event_mask.XT_REPLY_EVENT := true }
    let w : World := { w with buf.on_unexpected_list := false, buf.matching_le := none,
                              buf.in_atomic := 0 }
    if !C.get_conn w then
      step_t.next { w with buf.conn := false } STATE_TGT_ERROR
    else
      let w : World := { w with buf.conn := true }
      let p : Bool × World :=
        if w.buf.event_mask.XT_ACK_EVENT || w.buf.event_mask.XT_REPLY_EVENT then
          prepare_send_buf K C w
        else (false, w)
      if p.1 then
        step_t.next p.2 STATE_TGT_ERROR
      else
        let w := p.2
        let pt_index := hdr.pt_index
        if pt_index ≥ w.ni.limits.max_pt_index then
          step_t.next { w with buf.ni_fail := PTL_NI_DROPPED } STATE_TGT_DROP
        else
          let w : World := { w with buf.pt := some pt_index }
          let pt := w.pt pt_index
          if !pt.in_use then
            step_t.next { w with buf.ni_fail := PTL_NI_DROPPED } STATE_TGT_DROP
          else if pt.state != K.PT_ENABLED then
            step_t.next { w with buf.ni_fail := PTL_NI_PT_DISABLED } STATE_TGT_DROP
          else
            step_t.next (w.set_pt pt_index { pt with num_tgt_active := pt.num_tgt_active + 1 })
              STATE_TGT_GET_MATCH

/-- The function `request_drop`. -/
def request_drop (w : World) : step_t :=
  let w : World := { w with buf.start := none, buf.put_resid := 0, buf.get_resid := 0 }
  if w.buf.event_mask.XT_ACK_EVENT || w.buf.event_mask.XT_REPLY_EVENT then
    step_t.next w STATE_TGT_WAIT_CONN
  else
    step_t.next w STATE_TGT_CLEANUP

/-- The test made on each element inside the loops of `tgt_get_match`: the
interface is non-matching, or `check_match` holds. -/
def le_taken (K : Consts) (w : World) (h : Nat) : Bool :=
  w.ni.options.PTL_NI_NO_MATCHING || check_match K w.ni.options w.buf (w.les h)

/-- One `list_for_each_entry` loop of `tgt_get_match`: the first element of the
list that passes the test `le_taken`. -/
def find_one (K : Consts) (w : World) (l : List Nat) : Option Nat :=
  l.find? (le_taken K w)

/-- The two loops of `tgt_get_match` in sequence: the element reached at the label
`found_one`, with the list on which it was found, if any. -/
def find_match (K : Consts) (w : World) (pt : pt_t) : Option (ptl_list_t × Nat) :=
  match find_one K w pt.priority_list with
  | some h => some (PTL_PRIORITY_LIST, h)
  | none =>
    match find_one K w pt.overflow_list with
    | some h => some (PTL_OVERFLOW_LIST, h)
    | none => none

/-- The function `init_events`, for the element `le` that `buf->le` points to and
the table entry `pt` that `buf->pt` points to. -/
def init_events (buf : buf_t) (pt : pt_t) (le : me_t) : buf_t :=
  let buf : buf_t :=
    if pt.eq && !le.options.PTL_LE_EVENT_COMM_DISABLE then
      { buf with event_mask.XT_COMM_EVENT := true }
    else buf
  if le.ct && le.options.PTL_LE_EVENT_CT_COMM then
    { buf with event_mask.XT_CT_COMM_EVENT := true }
  else buf

/-- The function `tgt_get_match`. The table entry of the element
(`buf->le->pt`) is the entry `buf->pt` whose lists were walked. -/
def tgt_get_match (K : Consts) (w : World) : step_t :=
  match w.buf.pt with
  | none => step_t.abort w
  | some pi =>
    let pt := w.pt pi
    match find_match K w pt with
    | none =>
      let w : World :=
        if pt.options.PTL_PT_FLOWCTRL then
          { (w.set_pt pi { pt with state := pt.state ||| K.PT_AUTO_DISABLED }) with
              buf.ni_fail := PTL_NI_PT_DISABLED }
        else
          { w with buf.ni_fail := PTL_NI_DROPPED }
      step_t.next { w with buf.le := none } STATE_TGT_DROP
    | some (_, h) =>
      let w : World := { (w.log (Action.le_get h)) with buf.le := some h }
      let ni_fail := check_perm K w.buf (w.les h)
      if ni_fail != PTL_NI_OK then
        step_t.next { (w.log (Action.le_put h)) with buf.le := none, buf.ni_fail := ni_fail }
          STATE_TGT_DROP
      else
        let le := w.les h
        let w : World :=
          if le.ptl_list == PTL_OVERFLOW_LIST then
            { ((w.log Action.buf_get).set_pt pi
                { pt with unexpected_list := pt.unexpected_list ++ [w.buf.addr] }) with
                buf.on_unexpected_list := true }
          else w
        let w : World := { w with buf.matching_list := le.ptl_list }
        step_t.next { w with buf := init_events w.buf (w.pt pi) le } STATE_TGT_GET_LENGTH

/-- The case `STATE_TGT_GET_LENGTH` of `process_tgt`: `tgt_get_length` applied to
the element `buf->le` points to, whose new value is stored back; the call of
`le_unlink` is recorded. -/
def state_get_length (K : Consts) (w : World) : step_t :=
  match w.buf.le with
  | none => step_t.abort w
  | some h =>
    let r := tgt_get_length K w.ni.limits w.conn.state w.buf (w.les h)
    let w : World := { (w.set_le h r.me) with buf := r.buf }
    let w : World :=
      match r.unlink with
      | some flag => w.log (Action.le_unlink h flag)
      | none => w
    step_t.next w r.next

/-- The function `tgt_wait_conn`. -/
def tgt_wait_conn (K : Consts) (C : Collab) (w : World) : step_t :=
  if w.conn.state ≥ K.CONN_STATE_CONNECTED then
    step_t.next w STATE_TGT_DATA
  else if w.conn.state < K.CONN_STATE_CONNECTED then
    let w : World := { w with conn.buf_list := w.conn.buf_list ++ [w.buf.addr] }
    if w.conn.state == K.CONN_STATE_DISCONNECTED then
      let err := C.init_connect w
      let w := w.log Action.init_connect
      if err then
        step_t.next { w with conn.buf_list := w.conn.buf_list.erase w.buf.addr } STATE_TGT_ERROR
      else
        step_t.next w STATE_TGT_WAIT_CONN
    else
      step_t.next w STATE_TGT_WAIT_CONN
  else
    step_t.next w STATE_TGT_DATA

/-- The function `tgt_data`. -/
def tgt_data (K : Consts) (w : World) : step_t :=
  let w : World :=
    if w.conn.state ≥ K.CONN_STATE_CONNECTED then
      { (w.log Action.set_buf_dest) with buf.has_dest := true }
    else w
  let w : World :=
    if w.buf.operation == OP_ATOMIC || w.buf.operation == OP_SWAP ||
        w.buf.operation == OP_FETCH then
      { (w.log Action.atomic_mutex_lock) with
          ni.atomic_mutex := w.ni.atomic_mutex + 1, buf.in_atomic := 1 }
    else w
  if w.buf.get_resid != 0 then
    step_t.next w STATE_TGT_DATA_OUT
  else if w.buf.put_resid != 0 then
    step_t.next w
      (if w.buf.operation == OP_ATOMIC then STATE_TGT_ATOMIC_DATA_IN else STATE_TGT_DATA_IN)
  else
    step_t.next w STATE_TGT_COMM_EVENT

/-- The data-in state that follows a data-out phase when `put_resid` is not zero
(the same choice is made in `tgt_data_out` and in `tgt_rdma`). -/
def next_data_in (K : Consts) (operation atom_op : Nat) : tgt_state :=
  if operation == OP_FETCH then STATE_TGT_ATOMIC_DATA_IN
  else if operation == OP_SWAP then
    (if atom_op == K.PTL_SWAP then STATE_TGT_DATA_IN else STATE_TGT_SWAP_DATA_IN)
  else STATE_TGT_DATA_IN

/-- The `switch (data->data_fmt)` shared by `tgt_data_out` and `tgt_data_in`: the
remote cursor and the next state for a descriptor that is not immediate, or
`none` for the `default` branch. A case compiled out by the build switches falls
to `default`. -/
def rdma_setup (K : Consts) (d : data_t) (buf : buf_t) : Option (buf_t × tgt_state) :=
  match d.data_fmt with
  | DATA_FMT_RDMA_DMA =>
    if K.WITH_TRANSPORT_IB then
      some ({ buf with transfer := { cur_rem := rem_cursor_t.direct, cur_rem_off := 0,
                                     num_rem := d.num_sge } }, STATE_TGT_RDMA)
    else none
  | DATA_FMT_RDMA_INDIRECT =>
    if K.WITH_TRANSPORT_IB then some (buf, STATE_TGT_WAIT_RDMA_DESC) else none
  | DATA_FMT_KNEM_DMA =>
    if K.WITH_TRANSPORT_SHMEM && K.USE_KNEM then
      some ({ buf with transfer := { cur_rem := rem_cursor_t.direct, cur_rem_off := 0,
                                     num_rem := d.num_mem_iovecs } }, STATE_TGT_RDMA)
    else none
  | DATA_FMT_KNEM_INDIRECT =>
    if K.WITH_TRANSPORT_SHMEM && K.USE_KNEM then some (buf, STATE_TGT_SHMEM_DESC) else none
  | DATA_FMT_MEM_DMA =>
    if K.IS_PPE then
      some ({ buf with transfer := { cur_rem := rem_cursor_t.direct, cur_rem_off := 0,
                                     num_rem := d.num_mem_iovecs } }, STATE_TGT_RDMA)
    else none
  | DATA_FMT_MEM_INDIRECT =>
    if K.IS_PPE then
      some ({ buf with transfer := { cur_rem := rem_cursor_t.indirect, cur_rem_off := 0,
                                     num_rem := d.num_mem_iovecs } }, STATE_TGT_RDMA)
    else none
  | _ => none

/-- The function `tgt_data_out`. -/
def tgt_data_out (K : Consts) (C : Collab) (w : World) : step_t :=
  match w.buf.data_out with
  | none => step_t.next w STATE_TGT_ERROR
  | some data =>
    let w : World := { w with buf.rdma_dir := DATA_DIR_OUT }
    if w.buf.mlength < K.PTL_MAX_INLINE_DATA then
      match w.buf.send_buf, w.buf.le with
      | some sb, some h =>
        let w : World := { w with buf.send_buf := some { sb with data.data_out := 1 } }
        let err := C.append_tgt_data w
        let w := w.log (Action.append_tgt_data h w.buf.moffset w.buf.mlength)
        if err then
          step_t.next w STATE_TGT_ERROR
        else if w.buf.put_resid != 0 then
          step_t.next w (next_data_in K w.buf.operation w.buf.data.atom_op)
        else
          step_t.next w STATE_TGT_COMM_EVENT
      | _, _ => step_t.abort w
    else if w.buf.in_atomic != 0 then
      step_t.abort w
    else
      match rdma_setup K data w.buf with
      | some (buf, next) => step_t.next { w with buf := buf } next
      | none => step_t.abort w

/-- The function `tgt_rdma`. The transport function `post_tgt_dma` returns its
status, the residual of the current direction and the number of pending
completions. -/
def tgt_rdma (K : Consts) (C : Collab) (w : World) : step_t :=
  let r := C.post_tgt_dma w
  let w := w.log Action.post_tgt_dma
  if r.1 then
    step_t.next w STATE_TGT_ERROR
  else
    let w : World :=
      if w.buf.rdma_dir == DATA_DIR_IN then
        { w with buf.put_resid := r.2.1, buf.rdma_comp := r.2.2 }
      else
        { w with buf.get_resid := r.2.1, buf.rdma_comp := r.2.2 }
    if r.2.1 != 0 || (K.WITH_TRANSPORT_IB && w.buf.rdma_comp != 0) then
      step_t.next w STATE_TGT_RDMA
    else
      let w : World := if w.buf.indir_sge then { w with buf.indir_sge := false } else w
      if w.buf.put_resid != 0 then
        match w.buf.le with
        | none => step_t.abort w
        | some h =>
          let e := init_local_offset w.buf (w.les h)
          if e.1 then
            step_t.next { w with buf := e.2 } STATE_TGT_ERROR
          else
            step_t.next { w with buf := e.2 }
              (next_data_in K w.buf.data.operation w.buf.data.atom_op)
      else
        step_t.next w STATE_TGT_COMM_EVENT

/-- The function `tgt_wait_rdma_desc`. -/
def tgt_wait_rdma_desc (K : Consts) (C : Collab) (w : World) : step_t :=
  if K.WITH_TRANSPORT_IB then
    if !w.buf.rdma_desc_ok then
      let err := C.process_rdma_desc w
      let w := w.log Action.process_rdma_desc
      if err then step_t.next w STATE_TGT_ERROR
      else step_t.next w STATE_TGT_WAIT_RDMA_DESC
    else
      let w : World := { w with buf.xxbuf := false }
      let d := if w.buf.rdma_dir == DATA_DIR_IN then w.buf.data_in else w.buf.data_out
      match d with
      | none => step_t.abort w
      | some d =>
        step_t.next
          { w with buf.transfer := { cur_rem := rem_cursor_t.indirect, cur_rem_off := 0,
                                     num_rem := d.sge0_length / K.sizeof_ibv_sge } }
          STATE_TGT_RDMA
  else
    step_t.abort w

/-- The function `tgt_shmem_desc`. -/
def tgt_shmem_desc (K : Consts) (C : Collab) (w : World) : step_t :=
  if (K.WITH_TRANSPORT_SHMEM && K.USE_KNEM) || K.IS_PPE then
    let d := if w.buf.rdma_dir == DATA_DIR_IN then w.buf.data_in else w.buf.data_out
    match d with
    | none => step_t.abort w
    | some d =>
      if C.malloc_fails w then
        step_t.next w STATE_TGT_COMM_EVENT
      else if C.mr_lookup w then
        step_t.next w STATE_TGT_COMM_EVENT
      else
        step_t.next
          { w with buf.indir_sge := true,
                   buf.transfer := { cur_rem := rem_cursor_t.indirect, cur_rem_off := 0,
                                     num_rem := d.mem_iovec0_length / K.sizeof_mem_iovec } }
          STATE_TGT_RDMA
  else
    step_t.abort w

/-- The library function `memcpy(dst, src, n)` on the byte memory: byte `i` of the
source lands at address `dst + i` for `i < n`. -/
def memcpy (mem : Nat → Nat) (dst : Nat) (src : Nat → Nat) (n : Nat) : Nat → Nat :=
  fun a => if dst ≤ a ∧ a < dst + n then src (a - dst) else mem a

/-- The function `tgt_copy_in`. The Boolean is the error status. -/
def tgt_copy_in (C : Collab) (w : World) (me : me_t) (data : Nat → Nat) : Bool × World :=
  let offset := w.buf.moffset
  let length := w.buf.mlength
  if me.num_iov != 0 then
    let r := C.iov_copy_in w
    (r.1, { w with mem := r.2 })
  else
    (false, { w with mem := memcpy w.mem (me.start + offset) data length })

/-- Leaving the atomic critical section: `pthread_mutex_unlock(&ni->atomic_mutex)`
followed by `buf->in_atomic = 0`. -/
def atomic_unlock (w : World) : World :=
  { (w.log Action.atomic_mutex_unlock) with
      ni.atomic_mutex := w.ni.atomic_mutex - 1, buf.in_atomic := 0 }

/-- The end of `tgt_data_in`: the atomic critical section is left if the buffer is
in it ("this can happen for a simple swap operation"). -/
def data_in_leave (w : World) (next : tgt_state) : step_t :=
  if w.buf.in_atomic != 0 then step_t.next (atomic_unlock w) next
  else step_t.next w next

/-- The function `tgt_data_in`. -/
def tgt_data_in (K : Consts) (C : Collab) (w : World) : step_t :=
  match w.buf.le, w.buf.data_in with
  | some h, some data =>
    let w : World := { w with buf.rdma_dir := DATA_DIR_IN }
    match data.data_fmt with
    | DATA_FMT_IMMEDIATE =>
      let c := tgt_copy_in C w (w.les h) data.immediate_data
      if c.1 then step_t.next c.2 STATE_TGT_ERROR
      else data_in_leave c.2 STATE_TGT_COMM_EVENT
    | _ =>
      match rdma_setup K data w.buf with
      | some (buf, next) => data_in_leave { w with buf := buf } next
      | none => step_t.abort w
  | _, _ => step_t.abort w

/-- The function `atomic_in`: `none` when the assertion on the operator table
fails, otherwise the error status and the new world. -/
def atomic_in (C : Collab) (w : World) (me : me_t) : Option (Bool × World) :=
  if !C.atom_op_defined w then none
  else if me.num_iov != 0 then
    let r := C.iov_atomic_in w
    some (r.1, { w with mem := r.2 })
  else
    some (false, { w with mem := C.atom_op w })

/-- The function `tgt_atomic_data_in`. -/
def tgt_atomic_data_in (K : Consts) (C : Collab) (w : World) : step_t :=
  match w.buf.le, w.buf.data_in with
  | some h, some data =>
    if data.data_fmt != DATA_FMT_IMMEDIATE then
      step_t.next w STATE_TGT_ERROR
    else if w.buf.data.atom_op > K.PTL_BXOR || w.buf.data.atom_type ≥ K.PTL_DATATYPE_LAST then
      step_t.next w STATE_TGT_ERROR
    else
      match atomic_in C w (w.les h) with
      | none => step_t.abort w
      | some (err, w) =>
        if err then step_t.next w STATE_TGT_ERROR
        else if w.buf.in_atomic == 0 then step_t.abort w
        else step_t.next (atomic_unlock w) STATE_TGT_COMM_EVENT
  | _, _ => step_t.abort w

/-- The function `tgt_swap_data_in`. -/
def tgt_swap_data_in (C : Collab) (w : World) : step_t :=
  match w.buf.le, w.buf.data_in with
  | some h, some data =>
    let me := w.les h
    if data.data_fmt != DATA_FMT_IMMEDIATE then
      step_t.abort w
    else if me.num_iov != 0 && C.iov_copy_out w then
      step_t.next w STATE_TGT_ERROR
    else
      let r := C.swap_data_in w
      let w : World := { w with mem := r.2 }
      if r.1 then
        step_t.next w STATE_TGT_ERROR
      else
        let c : Bool × World :=
          if me.num_iov != 0 then
            let q := C.iov_copy_in w
            (q.1, { w with mem := q.2 })
          else (false, w)
        if c.1 then step_t.next c.2 STATE_TGT_ERROR
        else if c.2.buf.in_atomic == 0 then step_t.abort c.2
        else step_t.next (atomic_unlock c.2) STATE_TGT_COMM_EVENT
  | _, _ => step_t.abort w

/-- The function `make_comm_event`, for the element `le` that `buf->le` points to. -/
def make_comm_event (w : World) (pi : Nat) (le : me_t) : World :=
  let operation := w.buf.data.operation
  let w : World :=
    if w.buf.ni_fail != PTL_NI_OK || !le.options.PTL_LE_EVENT_SUCCESS_DISABLE then
      let type :=
        if operation == OP_PUT then PTL_EVENT_PUT
        else if operation == OP_GET then PTL_EVENT_GET
        else PTL_EVENT_ATOMIC
      w.log (Action.make_target_event (w.pt pi).eq type (some le.user_ptr) w.buf.start
        w.buf.ni_fail w.buf.mlength w.buf.moffset)
    else w
  { w with buf.event_mask.XT_COMM_EVENT := false }

/-- The function `make_ct_comm_event`, for the element with handle `h`. -/
def make_ct_comm_event (w : World) (h : Nat) : World :=
  let bytes := if (w.les h).options.PTL_LE_EVENT_CT_BYTES then CT_MBYTES else CT_EVENTS
  { (w.log (Action.make_ct_event h bytes w.buf.ni_fail w.buf.mlength)) with
      buf.event_mask.XT_CT_COMM_EVENT := false }

/-- The function `tgt_comm_event`. -/
def tgt_comm_event (w : World) : step_t :=
  let r1 : Option World :=
    if w.buf.event_mask.XT_COMM_EVENT then
      match w.buf.le, w.buf.pt with
      | some h, some pi => some (make_comm_event w pi (w.les h))
      | _, _ => none
    else some w
  match r1 with
  | none => step_t.abort w
  | some w =>
    let r2 : Option World :=
      if w.buf.event_mask.XT_CT_COMM_EVENT then
        match w.buf.le with
        | some h => some (make_ct_comm_event w h)
        | none => none
      else some w
    match r2 with
    | none => step_t.abort w
    | some w =>
      if w.buf.event_mask.XT_REPLY_EVENT then step_t.next w STATE_TGT_SEND_REPLY
      else if w.buf.event_mask.XT_ACK_EVENT then step_t.next w STATE_TGT_SEND_ACK
      else step_t.next w STATE_TGT_CLEANUP

/-- Subtraction on `buf->length` (an `unsigned int`). -/
def sub32 (a b : Nat) : Nat := (a + 2 ^ 32 - b % 2 ^ 32) % 2 ^ 32

/-- Writing the response header `hdr` and the length `len` to the buffer the ack
goes out in: the send buffer if there is one, otherwise the received buffer
itself, whose first header words (`operation`, `data_in`, `data_out`, `pkt_fmt`)
are shared between the request view and the response view. -/
def store_ack (w : World) (hdr : ack_hdr_t) (len : Nat) : World :=
  match w.buf.send_buf with
  | some sb => { w with buf.send_buf := some { sb with data := hdr, length := len } }
  | none =>
    { w with buf.ack := hdr, buf.length := len, buf.data.operation := hdr.operation,
             buf.data.data_in := hdr.data_in, buf.data.data_out := hdr.data_out,
             buf.data.pkt_fmt := hdr.pkt_fmt }

/-- The release of a priority-list element before the response is sent (the same
statement in `tgt_send_ack` and `tgt_send_reply`). -/
def put_priority_le (w : World) : World :=
  match w.buf.le with
  | some h =>
    if (w.les h).ptl_list == PTL_PRIORITY_LIST then
      { (w.log (Action.le_put h)) with buf.le := none }
    else w
  | none => w

/-- The function `tgt_send_ack`. -/
def tgt_send_ack (K : Consts) (C : Collab) (w : World) : step_t :=
  let ack_req := w.buf.data.ack_req
  let p : ack_hdr_t × Nat :=
    match w.buf.send_buf with
    | none =>
      ({ w.buf.ack with version := w.buf.data.version, operation := w.buf.data.operation,
                        handle := w.buf.data.handle, data_in := 0, data_out := 0,
                        pkt_fmt := PKT_FMT_REPLY }, sizeof_ack_hdr K)
    | some sb => (sb.data, sb.length)
  let hdr : ack_hdr_t :=
    { p.1 with ni_fail := w.buf.ni_fail, length := w.buf.mlength, offset := w.buf.moffset,
               matching_list := w.buf.matching_list }
  let len := p.2
  let q : Option (ack_hdr_t × Nat) :=
    if ack_req == PTL_ACK_REQ then some ({ hdr with operation := OP_ACK }, len)
    else if ack_req == PTL_CT_ACK_REQ then
      some ({ hdr with operation := OP_CT_ACK }, sub32 len sizeof_le64)
    else if ack_req == PTL_OC_ACK_REQ then
      some ({ hdr with operation := OP_OC_ACK }, sub32 len (sizeof_le64 + sizeof_le64))
    else none
  match q with
  | none => step_t.next (store_ack w hdr len) STATE_TGT_ERROR
  | some (hdr, len) =>
    let ack_disable :=
      match w.buf.le with
      | some h => (w.les h).options.PTL_LE_ACK_DISABLE
      | none => false
    let hdr : ack_hdr_t := if ack_disable then { hdr with operation := OP_NO_ACK } else hdr
    let len := if ack_disable then sizeof_ack_hdr K - sizeof_le64 - sizeof_le64 else len
    let w := put_priority_le (store_ack w hdr len)
    match w.buf.send_buf with
    | some sb =>
      let sb : send_buf_t := { sb with has_dest := w.buf.has_dest, has_conn := w.buf.conn }
      let w : World := { w with buf.send_buf := some sb }
      let w := w.log (Action.set_send_flags 1)
      let err := C.send_message w
      let w := w.log (Action.send_message sb 0)
      if err then step_t.next w STATE_TGT_ERROR
      else step_t.next w STATE_TGT_CLEANUP
    | none =>
      if (K.WITH_TRANSPORT_SHMEM || K.IS_PPE) && w.buf.has_mem_buf then
        step_t.next
          { (w.log (Action.mem_buf_send w.buf.ack w.buf.length)) with buf.mem_buf_send := true }
          STATE_TGT_CLEANUP
      else
        step_t.abort w

/-- The function `tgt_send_reply`. -/
def tgt_send_reply (C : Collab) (w : World) : step_t :=
  match w.buf.send_buf with
  | none => step_t.abort w
  | some sb =>
    let hdr : ack_hdr_t :=
      { sb.data with ni_fail := w.buf.ni_fail, length := w.buf.mlength,
                     offset := w.buf.moffset, operation := OP_REPLY,
                     matching_list := w.buf.matching_list }
    let w := put_priority_le { w with buf.send_buf := some { sb with data := hdr } }
    let sb : send_buf_t :=
      { sb with data := hdr, has_dest := w.buf.has_dest, has_conn := w.buf.conn }
    let w : World := { w with buf.send_buf := some sb }
    let w := w.log (Action.set_send_flags 1)
    let err := C.send_message w
    let w := w.log (Action.send_message sb 0)
    if err then step_t.next w STATE_TGT_ERROR
    else step_t.next w STATE_TGT_CLEANUP

/-- The function `tgt_cleanup`. -/
def tgt_cleanup (K : Consts) (w : World) : step_t :=
  let st : Option tgt_state :=
    match w.buf.matching_le, w.buf.le with
    | some _, some h =>
      if (w.les h).ptl_list == PTL_OVERFLOW_LIST then some STATE_TGT_OVERFLOW_EVENT else none
    | some _, none => none
    | none, some h =>
      if (w.les h).ptl_list == PTL_OVERFLOW_LIST then some STATE_TGT_WAIT_APPEND
      else some STATE_TGT_CLEANUP_2
    | none, none => some STATE_TGT_CLEANUP_2
  match st with
  | none => step_t.abort w
  | some state =>
    if w.buf.indir_sge then step_t.abort w
    else
      let w : World :=
        if w.buf.send_buf.isSome then
          { (w.log Action.buf_put_send_buf) with buf.send_buf := none }
        else w
      match w.buf.pt with
      | none => step_t.next w state
      | some pi =>
        let pt := w.pt pi
        let pt : pt_t := { pt with num_tgt_active := pt.num_tgt_active - 1 }
        if (pt.state &&& K.PT_AUTO_DISABLED != 0) && pt.num_tgt_active == 0 then
          let w := w.set_pt pi { pt with state := K.PT_DISABLED }
          let user_ptr := w.buf.matching_le.map (fun m => (w.les m).user_ptr)
          step_t.next
            (w.log (Action.make_target_event pt.eq PTL_EVENT_PT_DISABLED user_ptr none
              w.buf.ni_fail w.buf.mlength w.buf.moffset))
            state
        else
          step_t.next (w.set_pt pi pt) state

/-- The function `tgt_cleanup_2`. -/
def tgt_cleanup_2 (w : World) : World :=
  let w : World :=
    match w.buf.le with
    | some h => { (w.log (Action.le_put h)) with buf.le := none }
    | none => w
  if w.buf.conn then { (w.log Action.conn_put) with buf.conn := false }
  else w

/-- The function `tgt_wait_append`. -/
def tgt_wait_append (w : World) : step_t :=
  if w.buf.matching_le.isSome then step_t.next w STATE_TGT_OVERFLOW_EVENT
  else step_t.next w STATE_TGT_WAIT_APPEND

/-- The function `tgt_overflow_event`. -/
def tgt_overflow_event (w : World) : step_t :=
  match w.buf.matching_le with
  | none => step_t.abort w
  | some m =>
    let le := w.les m
    let post (w : World) (type : ptl_event_kind_t) : Option World :=
      match w.buf.pt with
      | some pi =>
        some (w.log (Action.make_target_event (w.pt pi).eq type (some le.user_ptr) w.buf.start
          w.buf.ni_fail w.buf.mlength w.buf.moffset))
      | none => none
    let r : Option World :=
      if !le.options.PTL_LE_EVENT_OVER_DISABLE then
        let r1 : Option World :=
          if w.buf.operation == OP_PUT then post w PTL_EVENT_PUT_OVERFLOW
          else if w.buf.operation == OP_ATOMIC then post w PTL_EVENT_ATOMIC_OVERFLOW
          else if w.buf.operation == OP_FETCH || w.buf.operation == OP_SWAP then
            post w PTL_EVENT_FETCH_ATOMIC_OVERFLOW
          else if w.buf.operation == OP_GET then post w PTL_EVENT_GET_OVERFLOW
          else some w
        r1.map (fun w =>
          if le.options.PTL_LE_EVENT_CT_OVERFLOW && le.ct then
            w.log (Action.make_ct_event m CT_MBYTES w.buf.ni_fail w.buf.mlength)
          else w)
      else some w
    match r with
    | none => step_t.abort w
    | some w =>
      step_t.next { (w.log (Action.le_put m)) with buf.matching_le := none } STATE_TGT_CLEANUP_2

/-- The result of a call of `process_tgt`: it returned (with its error status), the
process was stopped inside a handler, or the loop was cut off by the bound on the
number of turns. -/
inductive run_result where
  | returned (w : World) (err : Bool)
  | aborted (w : World)
  | out_of_fuel (w : World) (state : tgt_state)

/-- The error status `process_tgt` returned, if it returned. -/
def run_result.status : run_result → Option Bool
  | run_result.returned _ err => some err
  | run_result.aborted _ => none
  | run_result.out_of_fuel _ _ => none

/-- The world at the end of a call of `process_tgt`. -/
def run_result.world : run_result → World
  | run_result.returned w _ => w
  | run_result.aborted w => w
  | run_result.out_of_fuel w _ => w

/-- The cases of the `switch (state)` of `process_tgt` that call a state function
and go on with the state it returns. The cases `STATE_TGT_ERROR`,
`STATE_TGT_CLEANUP_2` and `STATE_TGT_DONE`, which do not, are in
`process_tgt_loop`. -/
def tgt_handler (K : Consts) (C : Collab) (state : tgt_state) (w : World) : step_t :=
  match state with
  | STATE_TGT_START => tgt_start K C w
  | STATE_TGT_GET_MATCH => tgt_get_match K w
  | STATE_TGT_GET_LENGTH => state_get_length K w
  | STATE_TGT_WAIT_CONN => tgt_wait_conn K C w
  | STATE_TGT_DATA => tgt_data K w
  | STATE_TGT_DATA_IN => tgt_data_in K C w
  | STATE_TGT_WAIT_RDMA_DESC => tgt_wait_rdma_desc K C w
  | STATE_TGT_SHMEM_DESC => tgt_shmem_desc K C w
  | STATE_TGT_RDMA => tgt_rdma K C w
  | STATE_TGT_ATOMIC_DATA_IN => tgt_atomic_data_in K C w
  | STATE_TGT_SWAP_DATA_IN => tgt_swap_data_in C w
  | STATE_TGT_DATA_OUT => tgt_data_out K C w
  | STATE_TGT_COMM_EVENT => tgt_comm_event w
  | STATE_TGT_SEND_ACK => tgt_send_ack K C w
  | STATE_TGT_SEND_REPLY => tgt_send_reply C w
  | STATE_TGT_DROP => request_drop w
  | STATE_TGT_WAIT_APPEND => tgt_wait_append w
  | STATE_TGT_OVERFLOW_EVENT => tgt_overflow_event w
  | STATE_TGT_CLEANUP => tgt_cleanup K w
  | STATE_TGT_ERROR => step_t.next w STATE_TGT_ERROR
  | STATE_TGT_CLEANUP_2 => step_t.next w STATE_TGT_CLEANUP_2
  | STATE_TGT_DONE => step_t.next w STATE_TGT_DONE

/-- The cases of the `switch (state)` that leave the loop through `exit` when the
state function returns the state it was called in. -/
def tgt_suspends (state : tgt_state) : Bool :=
  state == STATE_TGT_WAIT_CONN || state == STATE_TGT_WAIT_RDMA_DESC ||
  state == STATE_TGT_RDMA || state == STATE_TGT_WAIT_APPEND

/-- The loop of `process_tgt`, with a bound on the number of turns. Every turn
records the state name (`ptl_info`). At `exit` the state is saved in
`buf->tgt_state`. -/
def process_tgt_loop (K : Consts) (C : Collab) : Nat → tgt_state → Bool → World → run_result
  | 0, state, _, w => run_result.out_of_fuel w state
  | n + 1, state, err, w =>
    let w := w.log (Action.ptl_info state)
    match state with
    | STATE_TGT_ERROR =>
      let w1 := if w.buf.in_atomic != 0 then atomic_unlock w else w
      process_tgt_loop K C n STATE_TGT_CLEANUP true w1
    | STATE_TGT_CLEANUP_2 =>
      let w1 := tgt_cleanup_2 w
      run_result.returned ({ w1 with buf.tgt_state := STATE_TGT_DONE }.log Action.buf_put) err
    | STATE_TGT_DONE => run_result.returned w err
    | _ =>
      match tgt_handler K C state w with
      | step_t.abort w1 => run_result.aborted w1
      | step_t.next w1 s1 =>
        if tgt_suspends state && s1 == state then
          run_result.returned { w1 with buf.tgt_state := s1 } err
        else process_tgt_loop K C n s1 err w1

/-- The function `process_tgt`: the loop started in the state saved in the buffer,
with `err = PTL_OK`. The lock and unlock of `buf->mutex` around the loop are not
represented. -/
def process_tgt (K : Consts) (C : Collab) (fuel : Nat) (w : World) : run_result :=
  process_tgt_loop K C fuel w.buf.tgt_state false w

end RuntimeDevel

/-! ## Matching in the older variant (`ib/src/ptl_tgt.c`) -/

namespace IbSrc

/-- The fields of the transaction descriptor `xt_t` of the older variant that the
functions translated here use. `matching_le` is the handle of the element in
`xt->matching.le`; `le` is the handle of the element in `xt->le`; `start` is the
address saved by `copy_in` and `tgt_rdma_init_loc_off`; `state` is compared with
`STATE_TGT_WAIT_APPEND` only. -/
structure xt_t where
  initiator : ptl_process_t := {}
  rlength : Nat := 0
  roffset : Nat := 0
  match_bits : Nat := 0
  operation : Nat := 0
  ni_fail : ptl_ni_fail_t := PTL_NI_OK
  event_mask : xt_event_mask_t := {}
  mlength : Nat := 0
  moffset : Nat := 0
  jid : Nat := 0
  uid : Nat := 0
  operand : Nat := 0
  atom_op : Nat := 0
  atom_type : Nat := 0
  start : Option Nat := none
  matching_le : Option Nat := none
  state : tgt_state := STATE_TGT_START
  le : Option Nat := none
  put_resid : Nat := 0
  get_resid : Nat := 0
  cur_loc_iov_index : Nat := 0
  cur_loc_iov_off : Nat := 0
  ack_req : Nat := 0
  deriving DecidableEq

/-- The function `check_match` of `ib/src/ptl_tgt.c`. -/
def check_match (K : Consts) (ni_options : ni_options_t) (xt : xt_t) (me : me_t) : Bool :=
  if (if ni_options.PTL_NI_LOGICAL then
        !(me.id.rank == K.PTL_RANK_ANY || me.id.rank == xt.initiator.rank)
      else
        !(me.id.nid == K.PTL_NID_ANY || me.id.nid == xt.initiator.nid) ||
        !(me.id.pid == K.PTL_PID_ANY || me.id.pid == xt.initiator.pid)) then
    false
  else
    let length := xt.rlength
    let offset := if me.options.PTL_ME_MANAGE_LOCAL then me.offset else xt.roffset
    if me.options.PTL_ME_NO_TRUNCATE && decide (wrap64 (offset + length) > me.length) then
      false
    else
      (xt.match_bits ||| me.ignore_bits) == (me.match_bits ||| me.ignore_bits)

/-- The function `make_comm_event` of `ib/src/ptl_tgt.c`, for the element `le` that
`xt->le` points to and the event queue `pt_eq` of `xt->pt`. The result is the
error status (`true` for the return of `STATE_TGT_ERROR`), the descriptor and the
calls made. -/
def make_comm_event (xt : xt_t) (pt_eq : Bool) (le : me_t) : Bool × xt_t × List Action :=
  let type : Option ptl_event_kind_t :=
    if xt.operation == OP_PUT then some PTL_EVENT_PUT
    else if xt.operation == OP_GET then some PTL_EVENT_GET
    else if xt.operation == OP_ATOMIC || xt.operation == OP_FETCH ||
        xt.operation == OP_SWAP then some PTL_EVENT_ATOMIC
    else none
  match type with
  | none => (true, xt, [])
  | some type =>
    let calls : List Action :=
      if xt.ni_fail != PTL_NI_OK || !le.options.PTL_LE_EVENT_SUCCESS_DISABLE then
        [Action.make_target_event pt_eq type (some le.user_ptr) (some (le.start + xt.moffset))
          xt.ni_fail xt.mlength xt.moffset]
      else []
    (false, { xt with event_mask.XT_COMM_EVENT := false }, calls)

end IbSrc

/-! ## Reading the record of calls -/

/-- The states the loop of `process_tgt` went through, in order. -/
def states_of (trace : List Action) : List tgt_state :=
  trace.filterMap (fun a => match a with
    | Action.ptl_info s => some s
    | _ => none)

/-- The kinds of the full events posted, in order. -/
def events_of (trace : List Action) : List ptl_event_kind_t :=
  trace.filterMap (fun a => match a with
    | Action.make_target_event _ type _ _ _ _ _ => some type
    | _ => none)

/-- The response headers handed to the transport, in order: those passed to
`send_message`, and that of a received buffer marked to be sent back. -/
def responses_of (trace : List Action) : List ack_hdr_t :=
  trace.filterMap (fun a => match a with
    | Action.send_message b _ => some b.data
    | Action.mem_buf_send hdr _ => some hdr
    | _ => none)

/-- The number of bytes described by the `n` iovec entries starting at entry `i`. -/
def iov_sum (iov : List ptl_iovec_t) : Nat → Nat → Nat
  | _, 0 => 0
  | i, n + 1 => (iov.getD i ⟨0, 0⟩).iov_len + iov_sum iov (i + 1) n

/-! ## Statements of the specification used in the theorems -/

/-- The identity filter as the specification words it: on a logical interface the
rank of the element is ANY or the source rank; on a physical interface nid and pid
are each ANY or the source value. -/
def identity_passes (K : Consts) (logical : Bool) (id src : ptl_process_t) : Prop :=
  if logical then id.rank = K.PTL_RANK_ANY ∨ id.rank = src.rank
  else (id.nid = K.PTL_NID_ANY ∨ id.nid = src.nid) ∧ (id.pid = K.PTL_PID_ANY ∨ id.pid = src.pid)

/-- Two words differ only in bit positions that are set in `ignore`. -/
def differ_only_in (ignore a b : Nat) : Prop :=
  ∀ k : Nat, a.testBit k ≠ b.testBit k → ignore.testBit k = true

/-- The source identity carried by a request header. -/
def req_hdr_t.initiator (hdr : req_hdr_t) : ptl_process_t := { nid := hdr.src_nid, pid := hdr.src_pid }

/-- The operation is not allowed by the option bits, as the specification words
it: PUT and ATOMIC need `OP_PUT`, GET needs `OP_GET`, FETCH and SWAP need both. -/
def op_not_allowed (operation : Nat) (o : me_options_t) : Prop :=
  ((operation = OP_PUT ∨ operation = OP_ATOMIC) ∧ o.PTL_ME_OP_PUT = false) ∨
  (operation = OP_GET ∧ o.PTL_ME_OP_GET = false) ∨
  ((operation = OP_FETCH ∨ operation = OP_SWAP) ∧
    ¬ (o.PTL_ME_OP_PUT = true ∧ o.PTL_ME_OP_GET = true))

/-- The premises of the end-to-end PUT law, as the specification states them: a
freshly received PUT with immediate data and `ack_req = ACK` arrives for an
enabled table entry with an event queue; the first element that matches (handle
`h`) is on the priority list, passes the uid test and has `OP_PUT`; its events are
not disabled; the peer is connected; the collaborators succeed (a connection is
found, the ack is sent in an allocated buffer over RDMA or in the received buffer
over shared memory, the transport accepts the message, iovec copies succeed); an
iovec-backed element describes all of its `length` bytes. -/
structure PutPremises (K : Consts) (C : Collab) (w : World) (d : data_t) (h : Nat) : Prop where
  fresh_state : w.buf.tgt_state = STATE_TGT_START
  fresh_mask : w.buf.event_mask = {}
  fresh_fail : w.buf.ni_fail = PTL_NI_OK
  is_put : w.buf.data.operation = OP_PUT
  wants_ack : w.buf.data.ack_req = PTL_ACK_REQ
  data_in : w.buf.data_in = some d
  immediate : d.data_fmt = DATA_FMT_IMMEDIATE
  pt_valid : w.buf.data.pt_index < w.ni.limits.max_pt_index
  pt_in_use : (w.ni.pt w.buf.data.pt_index).in_use = true
  pt_enabled : (w.ni.pt w.buf.data.pt_index).state = K.PT_ENABLED
  pt_eq : (w.ni.pt w.buf.data.pt_index).eq = true
  matched : RuntimeDevel.find_match K w (w.ni.pt w.buf.data.pt_index) =
    some (PTL_PRIORITY_LIST, h)
  on_priority : (w.les h).ptl_list = PTL_PRIORITY_LIST
  uid_ok : (w.les h).uid = K.PTL_UID_ANY ∨ (w.les h).uid = w.buf.data.uid
  op_put : (w.les h).options.PTL_ME_OP_PUT = true
  comm_enabled : (w.les h).options.PTL_LE_EVENT_COMM_DISABLE = false
  success_enabled : (w.les h).options.PTL_LE_EVENT_SUCCESS_DISABLE = false
  connected : w.conn.state ≥ K.CONN_STATE_CONNECTED
  iov_covers : (w.les h).num_iov = 0 ∨
    (w.les h).length ≤ iov_sum (w.les h).iov 0 (w.les h).num_iov
  get_conn_ok : ∀ x, C.get_conn x = true
  send_ok : ∀ x, C.send_message x = false
  iov_copy_ok : ∀ x, (C.iov_copy_in x).1 = false
  transport :
    (K.WITH_TRANSPORT_IB = true ∧ w.conn.transport_type = K.CONN_TYPE_RDMA ∧
      ∃ sb, ∀ x, C.buf_alloc x = some sb) ∨
    ((K.WITH_TRANSPORT_IB && w.conn.transport_type == K.CONN_TYPE_RDMA) = false ∧
      (K.WITH_TRANSPORT_SHMEM || K.IS_PPE) = true ∧ w.buf.has_mem_buf = true)

/-! ## Sample data

Concrete values on which the theorems are instantiated. The header constants are
sample values: the theorems themselves hold for every `Consts`. The limits and
the uid are those of the end-to-end scenarios of the specification (physical
interface, uid 7, `max_msg_size = 1 << 20`, `max_atomic_size = 64`). -/

/-- Sample header constants: build with the InfiniBand transport only. -/
def sample_consts : Consts :=
  { PTL_RANK_ANY := 0xffffffff, PTL_NID_ANY := 0xffffffff, PTL_PID_ANY := 0xffffffff,
    PTL_UID_ANY := 0xffffffff, PTL_SWAP := 10, PTL_BXOR := 9, PTL_DATATYPE_LAST := 14,
    atom_type_size := fun t =>
      if t < 2 then 1 else if t < 4 then 2 else if t < 6 then 4 else if t < 11 then 8 else 16,
    PT_ENABLED := 1, PT_DISABLED := 0, PT_AUTO_DISABLED := 2,
    CONN_STATE_DISCONNECTED := 0, CONN_STATE_CONNECTED := 3, CONN_TYPE_RDMA := 0,
    PTL_MAX_INLINE_DATA := 512, sizeof_ibv_sge := 16, sizeof_mem_iovec := 16,
    WITH_TRANSPORT_IB := true, WITH_TRANSPORT_SHMEM := false, USE_KNEM := false,
    IS_PPE := false }

/-- The limits of the scenarios. -/
def sample_limits : ni_limits_t :=
  { max_pt_index := 4, max_msg_size := 2 ^ 20, max_atomic_size := 64 }

/-- An element of 32 bytes at address 1000 that accepts puts from uid 7 and from
every nid and pid. -/
def sample_me : me_t :=
  { start := 1000, length := 32, options := { PTL_ME_OP_PUT := true }, uid := 7,
    id := { nid := 0xffffffff, pid := 0xffffffff }, match_bits := 0x55, ignore_bits := 0x0f }

/-- A PUT of 16 bytes at offset 0 from uid 7 asking for a full ack. -/
def sample_put : buf_t :=
  { data := { operation := OP_PUT, ack_req := PTL_ACK_REQ, uid := 7, length := 16, offset := 0,
              src_nid := 3, src_pid := 9, match_bits := 0x5a },
    operation := OP_PUT,
    data_in := some { data_fmt := DATA_FMT_IMMEDIATE, immediate_data := fun _ => 0xAA } }

/-- The request of `sample_put` as a transaction descriptor of the older variant. -/
def sample_xt : IbSrc.xt_t :=
  { initiator := { nid := 3, pid := 9 }, rlength := 16, roffset := 0, match_bits := 0x5a }

/-- An element of 32 bytes with `NO_TRUNCATE` that matches every request. -/
def no_truncate_me : me_t :=
  { start := 1000, length := 32,
    options := { PTL_ME_OP_PUT := true, PTL_ME_OP_GET := true, PTL_ME_NO_TRUNCATE := true },
    uid := 7, id := { nid := 0xffffffff, pid := 0xffffffff } }

/-- A PUT of 2 bytes at the request offset `2 ^ 64 - 1`. -/
def wrapping_put : buf_t :=
  { data := { operation := OP_PUT, uid := 7, length := 2, offset := 2 ^ 64 - 1 },
    operation := OP_PUT }

/-- The request of `wrapping_put` as a transaction descriptor of the older variant. -/
def wrapping_xt : IbSrc.xt_t := { rlength := 2, roffset := 2 ^ 64 - 1 }

/-- Collaborators that all succeed and leave memory as it is. -/
def sample_collab : Collab :=
  { get_conn := fun _ => true, buf_alloc := fun _ => some {}, init_connect := fun _ => false,
    append_tgt_data := fun _ => false, post_tgt_dma := fun _ => (false, 0, 0),
    process_rdma_desc := fun _ => false, malloc_fails := fun _ => false,
    mr_lookup := fun _ => false, iov_copy_in := fun w => (false, w.mem),
    iov_copy_out := fun _ => false, atom_op_defined := fun _ => true, atom_op := fun w => w.mem,
    iov_atomic_in := fun w => (false, w.mem), swap_data_in := fun w => (false, w.mem),
    send_message := fun _ => false }

/-- The world of scenario 1: a physical matching interface whose table entry 0 is
enabled, has an event queue and holds the sample element (handle 0) on its
priority list; memory is zero; the peer is connected; the sample PUT has
arrived. -/
def sample_world : World :=
  { ni := { options := {}, limits := sample_limits,
            pt := fun i =>
              if i = 0 then { in_use := true, state := 1, eq := true, priority_list := [0] }
              else {} },
    les := fun _ => sample_me,
    mem := fun _ => 0,
    conn := { state := 3 },
    buf := sample_put }

/-- The sample world after `tgt_start`: the buffer points at table entry 0. -/
def sample_world_started : World := { sample_world with buf.pt := some 0 }

/-- A GET of 40 bytes at request offset 0 (scenario 2). -/
def sample_get : buf_t :=
  { data := { operation := OP_GET, uid := 7, length := 40, offset := 0 }, operation := OP_GET,
    event_mask := { XT_REPLY_EVENT := true } }

/-- An element of 32 bytes that accepts gets. -/
def sample_get_me : me_t :=
  { start := 1000, length := 32, options := { PTL_ME_OP_GET := true }, uid := 7,
    id := { nid := 0xffffffff, pid := 0xffffffff } }

/-- A GET of `2 ^ 64 - 1` bytes at request offset 1. -/
def wrapping_get : buf_t :=
  { data := { operation := OP_GET, uid := 7, length := 2 ^ 64 - 1, offset := 1 },
    operation := OP_GET, event_mask := { XT_REPLY_EVENT := true } }

/-- Limits with a maximal atomic size of 4 bytes. -/
def small_atomic_limits : ni_limits_t :=
  { max_pt_index := 4, max_msg_size := 2 ^ 20, max_atomic_size := 4 }

/-- A compare-and-swap (an `atom_op` other than `PTL_SWAP`) of 8 bytes on the
datatype with code 8, whose size in `sample_consts` is 8 bytes. -/
def sample_cswap : buf_t :=
  { data := { operation := OP_SWAP, uid := 7, length := 8, offset := 0, atom_op := 11,
              atom_type := 8 },
    operation := OP_SWAP, event_mask := { XT_REPLY_EVENT := true } }

/-- A locally managed element of 32 bytes whose offset stands at 8. -/
def sample_managed_me : me_t :=
  { start := 1000, length := 32, offset := 8,
    options := { PTL_ME_OP_PUT := true, PTL_ME_MANAGE_LOCAL := true }, uid := 7,
    id := { nid := 0xffffffff, pid := 0xffffffff } }

/-- An element of 32 bytes that accepts both puts and gets. -/
def sample_swap_me : me_t :=
  { start := 1000, length := 32, options := { PTL_ME_OP_PUT := true, PTL_ME_OP_GET := true },
    uid := 7, id := { nid := 0xffffffff, pid := 0xffffffff } }

/-- A second PUT, of 40 bytes. -/
def sample_put_40 : buf_t :=
  { data := { operation := OP_PUT, ack_req := PTL_ACK_REQ, uid := 7, length := 40, offset := 0 },
    operation := OP_PUT }

/-- The payload of `sample_put`: every byte is `0xAA`. -/
def sample_payload : data_t :=
  { data_fmt := DATA_FMT_IMMEDIATE, immediate_data := fun _ => 0xAA }

/-- The sample world in which the PUT of 16 bytes is aimed at offset 32, the end of
the element of 32 bytes. -/
def end_offset_world : World := { sample_world with buf.data.offset := 32 }

/-- The sample world whose element has `PTL_LE_ACK_DISABLE`. -/
def ack_disabled_world : World :=
  { sample_world with
    les := fun _ =>
      { sample_me with options := { PTL_ME_OP_PUT := true, PTL_LE_ACK_DISABLE := true } } }

/-- The sample world after `tgt_get_match`: the buffer points at table entry 0 and
at the sample element. -/
def sample_world_matched : World := { sample_world with buf.pt := some 0, buf.le := some 0 }

/-- Modelled from the spec: the function `le_unlink` (of `ptl_le.c`, not among the
translated sources). The specification describes unlinking as taking the element
off the list of the portals table entry it sits on ("unlinked when consumed"), so
the handle is removed from the priority and overflow lists of entry `pi`. The
unlink event it may post is not represented. -/
def le_unlink (w : World) (pi h : Nat) : World :=
  w.set_pt pi
    { (w.pt pi) with
      priority_list := (w.pt pi).priority_list.filter (fun x => x != h),
      overflow_list := (w.pt pi).overflow_list.filter (fun x => x != h) }

/-- The case `STATE_TGT_GET_LENGTH` with the effect of the recorded call of
`le_unlink` on the lists of table entry `pi` applied. -/
def get_length_and_unlink (K : Consts) (w : World) (pi : Nat) : World :=
  match w.buf.le with
  | none => w
  | some h =>
    match (RuntimeDevel.tgt_get_length K w.ni.limits w.conn.state w.buf (w.les h)).unlink with
    | some _ => le_unlink (RuntimeDevel.state_get_length K w).world pi h
    | none => (RuntimeDevel.state_get_length K w).world

/-- The sample world after `tgt_get_match`, with the sample element marked
`PTL_ME_USE_ONCE`. -/
def use_once_world : World :=
  { sample_world_matched with
    les := fun _ =>
      { sample_me with options := { PTL_ME_OP_PUT := true, PTL_ME_USE_ONCE := true } } }

/-- The operation is one of the five request operations (the cases of the
`switch (hdr->operation)` of `tgt_start` other than `default`). -/
def valid_operation (op : Nat) : Bool :=
  op == OP_PUT || op == OP_ATOMIC || op == OP_GET || op == OP_FETCH || op == OP_SWAP

/-- The world of `tgt_start` at the call of `get_conn`, for a valid operation: the
fields set at the top of the function and the event mask seeded by the
`switch (hdr->operation)`. -/
def tgt_start_seeded (w : World) : World :=
  { w with
    buf := { w.buf with
      operation := w.buf.data.operation, pt := none, in_atomic := 0, matching_le := none,
      le := none, indir_sge := false, send_buf := none, on_unexpected_list := false,
      event_mask := { w.buf.event_mask with
        XT_ACK_EVENT := w.buf.event_mask.XT_ACK_EVENT ||
          ((w.buf.data.operation == OP_PUT || w.buf.data.operation == OP_ATOMIC) &&
            w.buf.data.ack_req != PTL_NO_ACK_REQ),
        XT_REPLY_EVENT := w.buf.event_mask.XT_REPLY_EVENT ||
          !(w.buf.data.operation == OP_PUT || w.buf.data.operation == OP_ATOMIC) } } }

/-- The end of `tgt_start`, from the test of `pt_index` (the index read from the
request header) on. -/
def tgt_start_check (K : Consts) (pt_index : Nat) (w : World) : step_t :=
  if pt_index ≥ w.ni.limits.max_pt_index then
    step_t.next { w with buf.ni_fail := PTL_NI_DROPPED } STATE_TGT_DROP
  else
    let w : World := { w with buf.pt := some pt_index }
    let pt := w.pt pt_index
    if !pt.in_use then
      step_t.next { w with buf.ni_fail := PTL_NI_DROPPED } STATE_TGT_DROP
    else if pt.state != K.PT_ENABLED then
      step_t.next { w with buf.ni_fail := PTL_NI_PT_DISABLED } STATE_TGT_DROP
    else
      step_t.next (w.set_pt pt_index { pt with num_tgt_active := pt.num_tgt_active + 1 })
        STATE_TGT_GET_MATCH

/-- The sample world with table entry 0 in use but disabled (state `PT_DISABLED`
of the sample constants). -/
def disabled_pt_world : World :=
  { sample_world with
    ni := { options := {}, limits := sample_limits,
            pt := fun i =>
              if i = 0 then { in_use := true, state := 0, eq := true, priority_list := [0] }
              else {} } }

/-- The kind of the full communication event as the specification words it: PUT
for `OP_PUT`, GET for `OP_GET`, ATOMIC for the atomic operations. -/
def comm_event_kind (operation : Nat) : ptl_event_kind_t :=
  if operation = OP_PUT then PTL_EVENT_PUT
  else if operation = OP_GET then PTL_EVENT_GET
  else PTL_EVENT_ATOMIC

/-- The sample world in which the sample element has
`PTL_LE_EVENT_SUCCESS_DISABLE`. -/
def success_disabled_world : World :=
  { sample_world with
    les := fun _ =>
      { sample_me with
        options := { PTL_ME_OP_PUT := true, PTL_LE_EVENT_SUCCESS_DISABLE := true } } }

/-- The world `success_disabled_world` on entry to `STATE_TGT_COMM_EVENT`, with
the given `ni_fail`. -/
def comm_event_world (f : ptl_ni_fail_t) : World :=
  { success_disabled_world with
    buf := { sample_put with
      le := some 0, pt := some 0, ni_fail := f,
      event_mask := { XT_COMM_EVENT := true, XT_ACK_EVENT := true } } }

/-- A transaction descriptor of the older variant for a PUT, with the given
`ni_fail`. -/
def comm_event_xt (f : ptl_ni_fail_t) : IbSrc.xt_t :=
  { operation := OP_PUT, ni_fail := f, event_mask := { XT_COMM_EVENT := true } }

/-- The operation and the length of the responses handed to the transport, in
order. -/
def sent_of (trace : List Action) : List (Nat × Nat) :=
  trace.filterMap (fun a => match a with
    | Action.send_message b _ => some (b.data.operation, b.length)
    | Action.mem_buf_send hdr len => some (hdr.operation, len)
    | _ => none)

/-- Whether the element `buf->le` points to, if any, has `PTL_LE_ACK_DISABLE`. -/
def ack_disabled (w : World) : Bool :=
  match w.buf.le with
  | some h => (w.les h).options.PTL_LE_ACK_DISABLE
  | none => false

/-- The sample world on entry to `STATE_TGT_SEND_ACK` with the given `ack_req`: the
element is pinned and the send buffer has the length set by `prepare_send_buf`. -/
def send_ack_world (ack_req : Nat) : World :=
  { sample_world with
    buf := { sample_put with
      data := { sample_put.data with ack_req := ack_req },
      le := some 0, pt := some 0, conn := true, mlength := 16,
      send_buf := some { length := sizeof_ack_hdr sample_consts },
      event_mask := { XT_ACK_EVENT := true } } }

/-- A world whose table entry 0 is not in use; the sample PUT has arrived. -/
def unused_pt_world : World :=
  { sample_world with
    ni := { options := {}, limits := sample_limits, pt := fun _ => {} } }

/-- The outcome of a call of `process_tgt` satisfies `R` if the call returned and
`G` if it was stopped or cut off. -/
def RuntimeDevel.run_result.holds (R G : World → Prop) : RuntimeDevel.run_result → Prop
  | RuntimeDevel.run_result.returned w _ => R w
  | RuntimeDevel.run_result.aborted w => G w
  | RuntimeDevel.run_result.out_of_fuel w _ => G w

/-- The calls each state function may make, read off the function bodies: `logs s a`
holds when the handler of state `s` may record the call `a`. The two send states
are described by `sends_code` instead. -/
def logs (s : tgt_state) (a : Action) : Bool :=
  match s with
  | STATE_TGT_START => (match a with | Action.buf_get => true | _ => false)
  | STATE_TGT_GET_MATCH =>
    (match a with
     | Action.le_get _ => true
     | Action.le_put _ => true
     | Action.buf_get => true
     | _ => false)
  | STATE_TGT_GET_LENGTH => (match a with | Action.le_unlink _ _ => true | _ => false)
  | STATE_TGT_WAIT_CONN => (match a with | Action.init_connect => true | _ => false)
  | STATE_TGT_DATA =>
    (match a with
     | Action.set_buf_dest => true
     | Action.atomic_mutex_lock => true
     | _ => false)
  | STATE_TGT_DATA_IN => (match a with | Action.atomic_mutex_unlock => true | _ => false)
  | STATE_TGT_WAIT_RDMA_DESC => (match a with | Action.process_rdma_desc => true | _ => false)
  | STATE_TGT_RDMA => (match a with | Action.post_tgt_dma => true | _ => false)
  | STATE_TGT_ATOMIC_DATA_IN => (match a with | Action.atomic_mutex_unlock => true | _ => false)
  | STATE_TGT_SWAP_DATA_IN => (match a with | Action.atomic_mutex_unlock => true | _ => false)
  | STATE_TGT_DATA_OUT => (match a with | Action.append_tgt_data _ _ _ => true | _ => false)
  | STATE_TGT_COMM_EVENT =>
    (match a with
     | Action.make_target_event _ type _ _ _ _ _ =>
       type == PTL_EVENT_PUT || type == PTL_EVENT_GET || type == PTL_EVENT_ATOMIC
     | Action.make_ct_event _ _ _ _ => true
     | _ => false)
  | STATE_TGT_OVERFLOW_EVENT =>
    (match a with
     | Action.make_target_event _ type _ _ _ _ _ =>
       type == PTL_EVENT_PUT_OVERFLOW || type == PTL_EVENT_ATOMIC_OVERFLOW ||
       type == PTL_EVENT_FETCH_ATOMIC_OVERFLOW || type == PTL_EVENT_GET_OVERFLOW
     | Action.make_ct_event _ _ _ _ => true
     | Action.le_put _ => true
     | _ => false)
  | STATE_TGT_CLEANUP =>
    (match a with
     | Action.buf_put_send_buf => true
     | Action.make_target_event _ type _ _ _ _ _ => type == PTL_EVENT_PT_DISABLED
     | _ => false)
  | _ => false

/-- The record of calls of `W` is that of `w` followed by calls that all satisfy `P`. -/
def trace_ext (P : Action → Bool) (w W : World) : Prop :=
  w.trace <+: W.trace ∧ (W.trace.drop w.trace.length).all P = true

/-- A list holds at most one call, and that call is a full communication event
(PUT, GET or ATOMIC). -/
def comm_event_calls (e : List Action) : Prop :=
  e = [] ∨ ∃ eq type up st nf ml mo,
    e = [Action.make_target_event eq type up st nf ml mo] ∧
    (type = PTL_EVENT_PUT ∨ type = PTL_EVENT_GET ∨ type = PTL_EVENT_ATOMIC)

/-- A list holds at most one call, and that call is a counting event. -/
def ct_event_calls (c : List Action) : Prop :=
  c = [] ∨ ∃ h m nf ml, c = [Action.make_ct_event h m nf ml]

/-- The calls `tgt_send_ack` and `tgt_send_reply` may make when the buffer holds the
failure code `nf`: the release of the element, the send flags, and a response that
carries `nf`. -/
def sends_code (nf : ptl_ni_fail_t) (a : Action) : Bool :=
  match a with
  | Action.le_put _ => true
  | Action.set_send_flags _ => true
  | Action.send_message b _ => b.data.ni_fail == nf
  | Action.mem_buf_send hdr _ => hdr.ni_fail == nf
  | _ => false

/-- What a send state leaves alone. -/
def send_frame (w W : World) : Prop :=
  W.mem = w.mem ∧ W.les = w.les ∧ W.ni = w.ni ∧ W.conn = w.conn ∧
  W.buf.matching_le = w.buf.matching_le ∧ W.buf.indir_sge = w.buf.indir_sge ∧
  W.buf.pt = w.buf.pt ∧ W.buf.tgt_state = w.buf.tgt_state ∧
  W.buf.in_atomic = w.buf.in_atomic ∧
  (w.buf.le = none → W.buf.le = none)

/-- The header and the length `tgt_send_ack` starts from: those of the send buffer,
or the received buffer turned into a response, with the result fields filled in. -/
def ack_base (K : Consts) (w : World) : ack_hdr_t × Nat :=
  let p : ack_hdr_t × Nat :=
    match w.buf.send_buf with
    | none =>
      ({ w.buf.ack with version := w.buf.data.version, operation := w.buf.data.operation,
                        handle := w.buf.data.handle, data_in := 0, data_out := 0,
                        pkt_fmt := PKT_FMT_REPLY }, sizeof_ack_hdr K)
    | some sb => (sb.data, sb.length)
  ({ p.1 with ni_fail := w.buf.ni_fail, length := w.buf.mlength, offset := w.buf.moffset,
              matching_list := w.buf.matching_list }, p.2)

/-- The `switch (ack_req)` of `tgt_send_ack`: the operation and the length of the
response, or `none` for the `default` branch. -/
def ack_choice (ack_req : Nat) (hdr : ack_hdr_t) (len : Nat) : Option (ack_hdr_t × Nat) :=
  if ack_req == PTL_ACK_REQ then some ({ hdr with operation := OP_ACK }, len)
  else if ack_req == PTL_CT_ACK_REQ then
    some ({ hdr with operation := OP_CT_ACK }, RuntimeDevel.sub32 len sizeof_le64)
  else if ack_req == PTL_OC_ACK_REQ then
    some ({ hdr with operation := OP_OC_ACK }, RuntimeDevel.sub32 len (sizeof_le64 + sizeof_le64))
  else none

/-- The end of `tgt_send_ack` and of `tgt_send_reply`: the response is handed to
the transport, in the send buffer or in the received buffer. -/
def send_response (K : Consts) (C : Collab) (w : World) : step_t :=
  match w.buf.send_buf with
  | some sb =>
    let sb : send_buf_t := { sb with has_dest := w.buf.has_dest, has_conn := w.buf.conn }
    let w : World := { w with buf.send_buf := some sb }
    let w := w.log (Action.set_send_flags 1)
    let err := C.send_message w
    let w := w.log (Action.send_message sb 0)
    if err then step_t.next w STATE_TGT_ERROR
    else step_t.next w STATE_TGT_CLEANUP
  | none =>
    if (K.WITH_TRANSPORT_SHMEM || K.IS_PPE) && w.buf.has_mem_buf then
      step_t.next
        { (w.log (Action.mem_buf_send w.buf.ack w.buf.length)) with buf.mem_buf_send := true }
        STATE_TGT_CLEANUP
    else
      step_t.abort w

/-- The header of the response a world is about to send carries the code `nf`. -/
def pending_code (nf : ptl_ni_fail_t) (w : World) : Prop :=
  match w.buf.send_buf with
  | some sb => sb.data.ni_fail = nf
  | none => w.buf.ack.ni_fail = nf

/-- A response can leave: there is a send buffer, or the received buffer can be
sent back over shared memory. -/
def can_respond (K : Consts) (w : World) : Prop :=
  w.buf.send_buf.isSome = true ∨
    ((K.WITH_TRANSPORT_SHMEM || K.IS_PPE) = true ∧ w.buf.has_mem_buf = true)

/-- One send state took `w` to `W`: the calls it made all carry the code `nf`, at
most one of them hands a response to the transport, and the rest of the world is
left alone. -/
def send_step (nf : ptl_ni_fail_t) (w W : World) (t : List Action) : Prop :=
  W.trace = w.trace ++ t ∧ (∀ a ∈ t, sends_code nf a = true) ∧
  (responses_of t).length ≤ 1 ∧ send_frame w W

/-- The transitions of the state machine, read off the `return` statements of the
state functions and the cases of `process_tgt`: `follows s s1` holds when state `s1`
may come right after state `s`. -/
def follows (s s1 : tgt_state) : Bool :=
  match s with
  | STATE_TGT_START =>
    s1 == STATE_TGT_ERROR || s1 == STATE_TGT_DROP || s1 == STATE_TGT_GET_MATCH
  | STATE_TGT_GET_MATCH => s1 == STATE_TGT_DROP || s1 == STATE_TGT_GET_LENGTH
  | STATE_TGT_GET_LENGTH =>
    s1 == STATE_TGT_ERROR || s1 == STATE_TGT_DATA || s1 == STATE_TGT_WAIT_CONN
  | STATE_TGT_WAIT_CONN =>
    s1 == STATE_TGT_DATA || s1 == STATE_TGT_WAIT_CONN || s1 == STATE_TGT_ERROR
  | STATE_TGT_DATA =>
    s1 == STATE_TGT_DATA_OUT || s1 == STATE_TGT_ATOMIC_DATA_IN || s1 == STATE_TGT_DATA_IN ||
    s1 == STATE_TGT_COMM_EVENT
  | STATE_TGT_DATA_IN =>
    s1 == STATE_TGT_ERROR || s1 == STATE_TGT_COMM_EVENT || s1 == STATE_TGT_RDMA ||
    s1 == STATE_TGT_WAIT_RDMA_DESC || s1 == STATE_TGT_SHMEM_DESC
  | STATE_TGT_WAIT_RDMA_DESC =>
    s1 == STATE_TGT_ERROR || s1 == STATE_TGT_WAIT_RDMA_DESC || s1 == STATE_TGT_RDMA
  | STATE_TGT_SHMEM_DESC => s1 == STATE_TGT_COMM_EVENT || s1 == STATE_TGT_RDMA
  | STATE_TGT_RDMA =>
    s1 == STATE_TGT_ERROR || s1 == STATE_TGT_RDMA || s1 == STATE_TGT_COMM_EVENT ||
    s1 == STATE_TGT_ATOMIC_DATA_IN || s1 == STATE_TGT_DATA_IN || s1 == STATE_TGT_SWAP_DATA_IN
  | STATE_TGT_ATOMIC_DATA_IN => s1 == STATE_TGT_ERROR || s1 == STATE_TGT_COMM_EVENT
  | STATE_TGT_SWAP_DATA_IN => s1 == STATE_TGT_ERROR || s1 == STATE_TGT_COMM_EVENT
  | STATE_TGT_DATA_OUT =>
    s1 == STATE_TGT_ERROR || s1 == STATE_TGT_COMM_EVENT || s1 == STATE_TGT_ATOMIC_DATA_IN ||
    s1 == STATE_TGT_DATA_IN || s1 == STATE_TGT_SWAP_DATA_IN || s1 == STATE_TGT_RDMA ||
    s1 == STATE_TGT_WAIT_RDMA_DESC || s1 == STATE_TGT_SHMEM_DESC
  | STATE_TGT_COMM_EVENT =>
    s1 == STATE_TGT_SEND_REPLY || s1 == STATE_TGT_SEND_ACK || s1 == STATE_TGT_CLEANUP
  | STATE_TGT_SEND_ACK => s1 == STATE_TGT_ERROR || s1 == STATE_TGT_CLEANUP
  | STATE_TGT_SEND_REPLY => s1 == STATE_TGT_ERROR || s1 == STATE_TGT_CLEANUP
  | STATE_TGT_DROP => s1 == STATE_TGT_WAIT_CONN || s1 == STATE_TGT_CLEANUP
  | STATE_TGT_WAIT_APPEND => s1 == STATE_TGT_OVERFLOW_EVENT || s1 == STATE_TGT_WAIT_APPEND
  | STATE_TGT_OVERFLOW_EVENT => s1 == STATE_TGT_CLEANUP_2
  | STATE_TGT_CLEANUP =>
    s1 == STATE_TGT_OVERFLOW_EVENT || s1 == STATE_TGT_WAIT_APPEND || s1 == STATE_TGT_CLEANUP_2
  | STATE_TGT_ERROR => s1 == STATE_TGT_CLEANUP
  | STATE_TGT_CLEANUP_2 => s1 == STATE_TGT_DONE
  | STATE_TGT_DONE => false

/-- Every state a handler result names satisfies `P`. -/
def step_t.goes (r : step_t) (P : tgt_state → Bool) : Prop :=
  r.state.all P = true

/-- The position of a state with respect to the communication events: 0 before
`STATE_TGT_COMM_EVENT`, 1 in it, 2 in a send state, 3 after. -/
def phase : tgt_state → Nat
  | STATE_TGT_COMM_EVENT => 1
  | STATE_TGT_SEND_ACK => 2
  | STATE_TGT_SEND_REPLY => 2
  | STATE_TGT_CLEANUP => 3
  | STATE_TGT_WAIT_APPEND => 3
  | STATE_TGT_OVERFLOW_EVENT => 3
  | STATE_TGT_ERROR => 3
  | STATE_TGT_CLEANUP_2 => 3
  | STATE_TGT_DONE => 3
  | _ => 0

/-- The state the loop is in after the call `a`, when it was in `cur` before. -/
def next_state (cur : Option tgt_state) (a : Action) : Option tgt_state :=
  match a with
  | Action.ptl_info s => some s
  | _ => cur

/-- The three things the order is about: 0 for a full communication event (PUT, GET
or ATOMIC), 1 for a counting event made in `STATE_TGT_COMM_EVENT` (the counting
event of `STATE_TGT_OVERFLOW_EVENT` is not a communication event), 2 for a response
handed to the transport. -/
def tag_of (cur : Option tgt_state) (a : Action) : Option Nat :=
  match a with
  | Action.make_target_event _ type _ _ _ _ _ =>
    if type == PTL_EVENT_PUT || type == PTL_EVENT_GET || type == PTL_EVENT_ATOMIC then some 0
    else none
  | Action.make_ct_event _ _ _ _ => if cur == some STATE_TGT_COMM_EVENT then some 1 else none
  | Action.send_message _ _ => some 2
  | Action.mem_buf_send _ _ => some 2
  | _ => none

/-- The tags of a record of calls, in order; `cur` is the state the loop is in at
the start of the record. -/
def comm_tags : Option tgt_state → List Action → List Nat
  | _, [] => []
  | cur, a :: t => (tag_of cur a).toList ++ comm_tags (next_state cur a) t

/-- What the rest of the runtime may change between two calls of `process_tgt` for
one buffer: anything but the record of the calls made for it and the state saved in
it. -/
def same_request (w W : World) : Prop :=
  W.trace = w.trace ∧ W.buf.tgt_state = w.buf.tgt_state

/-- The worlds in which `process_tgt` may be called for a buffer first seen in
`w0`: `w0` itself, the world a call returned in, and those worlds after a change
`E` made by the rest of the runtime. -/
inductive reach (K : Consts) (C : Collab) (E : World → World → Prop) (w0 : World) :
    World → Prop where
  | start : reach K C E w0 w0
  | call (w W : World) (fuel : Nat) (err : Bool) :
      reach K C E w0 w →
      RuntimeDevel.process_tgt K C fuel w = RuntimeDevel.run_result.returned W err →
      reach K C E w0 W
  | env (w W : World) : reach K C E w0 w → E w W → reach K C E w0 W

/-- The tags seen so far, for a state of phase `p`. -/
def tags_sub (p : Nat) (l : List Nat) : Prop :=
  if p ≤ 1 then l = [] else if p = 2 then l.Sublist [0, 1] else l.Sublist [0, 1, 2]

/-- The tags one state function of phase `p` adds. -/
def step_tags (p : Nat) (l : List Nat) : Prop :=
  if p = 1 then l.Sublist [0, 1] else if p = 2 then l.Sublist [2] else l = []

/-- The invariant of the loop of `process_tgt` for the order of the events: the
calls made since `w0` carry the tags allowed in the phase of the state `s`, and a
buffer whose loop is in `STATE_TGT_DONE` has that state saved. -/
def order_inv (w0 : World) (s : tgt_state) (w : World) : Prop :=
  (∃ T, w.trace = w0.trace ++ T ∧ tags_sub (phase s) (comm_tags none T)) ∧
  (s = STATE_TGT_DONE → w.buf.tgt_state = STATE_TGT_DONE)

/-- The calls made since `w0` contain, in this order and each at most once, a full
communication event, a counting communication event and a response. -/
def ordered (w0 W : World) : Prop :=
  ∃ T, W.trace = w0.trace ++ T ∧ (comm_tags none T).Sublist [0, 1, 2]

/-- A sample world whose element counts communication events: the sample PUT
arrives for an element with a counter and `PTL_LE_EVENT_CT_COMM`. -/
def counting_world : World :=
  { sample_world with
    les := fun h => { sample_world.les h with
      ct := true,
      options := { (sample_world.les h).options with PTL_LE_EVENT_CT_COMM := true } } }

/-- One step in the life of a portals table entry: a request arrives in the buffer
`b`, or the request held in the buffer `b` completes. -/
inductive pt_op where
  | arrive (b : buf_t)
  | complete (b : buf_t)

/-- The world after one step. An arriving request runs `tgt_start`, and
`tgt_get_match` when `tgt_start` accepts it; a completing request runs
`tgt_cleanup`. The state function runs on the buffer of the step; the table, the
elements and the record of calls carry over from step to step. -/
def pt_step (K : Consts) (C : Collab) (w : World) : pt_op → World
  | pt_op.arrive b =>
    match RuntimeDevel.tgt_start K C { w with buf := b } with
    | step_t.next w1 STATE_TGT_GET_MATCH => (RuntimeDevel.tgt_get_match K w1).world
    | r => r.world
  | pt_op.complete b => (RuntimeDevel.tgt_cleanup K { w with buf := b }).world

/-- The world after a sequence of steps. -/
def pt_run (K : Consts) (C : Collab) (w : World) (ops : List pt_op) : World :=
  ops.foldl (pt_step K C) w

/-- The step concerns table entry `pi`: an arriving request names the entry in its
header, a completing request has `buf->pt` pointing to it. -/
def pt_op.on (pi : Nat) : pt_op → Prop
  | pt_op.arrive b => b.data.pt_index = pi
  | pt_op.complete b => b.pt = some pi

/-- A sample sequence of steps on entry 0: a request arrives, the two requests in
flight complete, another request arrives and completes. -/
def flowctrl_ops : List pt_op :=
  [pt_op.arrive sample_put, pt_op.complete { sample_put with pt := some 0 },
   pt_op.complete { sample_put with pt := some 0 }, pt_op.arrive sample_put,
   pt_op.complete { sample_put with pt := some 0 }]

/-- The call posts a `PTL_EVENT_PT_DISABLED` event. -/
def is_pt_disabled (a : Action) : Bool :=
  match a with
  | Action.make_target_event _ type _ _ _ _ _ => type == PTL_EVENT_PT_DISABLED
  | _ => false

/-- The number of `PTL_EVENT_PT_DISABLED` events posted. -/
def pt_disabled_count (trace : List Action) : Nat := trace.countP is_pt_disabled

/-- The entry `pi` is auto-disabled and no event has been posted since the count
was `n0`, or it is disabled and exactly one event has been posted. -/
def flowctrl_inv (K : Consts) (pi n0 : Nat) (W : World) : Prop :=
  pi < W.ni.limits.max_pt_index ∧ (W.pt pi).in_use = true ∧
  (((W.pt pi).state &&& K.PT_AUTO_DISABLED ≠ 0 ∧ pt_disabled_count W.trace = n0) ∨
   ((W.pt pi).state = K.PT_DISABLED ∧ pt_disabled_count W.trace = n0 + 1))

/-- The calls a request may make once it has been refused: it enters none of the
data states, takes, releases or unlinks no element, moves no data, posts no full
event other than `PTL_EVENT_PT_DISABLED` and no counting event. -/
def drop_call (a : Action) : Bool :=
  match a with
  | Action.ptl_info s =>
    !(s == STATE_TGT_DATA_IN || s == STATE_TGT_ATOMIC_DATA_IN || s == STATE_TGT_SWAP_DATA_IN ||
      s == STATE_TGT_DATA_OUT || s == STATE_TGT_RDMA || s == STATE_TGT_GET_LENGTH ||
      s == STATE_TGT_WAIT_RDMA_DESC || s == STATE_TGT_SHMEM_DESC)
  | Action.le_get _ => false
  | Action.le_put _ => false
  | Action.le_unlink _ _ => false
  | Action.append_tgt_data _ _ _ => false
  | Action.post_tgt_dma => false
  | Action.process_rdma_desc => false
  | Action.make_target_event _ type _ _ _ _ _ => type == PTL_EVENT_PT_DISABLED
  | Action.make_ct_event _ _ _ _ => false
  | _ => true

/-- From `W` to `W1` no byte of memory and no element changed, the buffer holds no
element reference, and the calls `t` were made, all of them allowed to a refused
request. -/
def drop_frame (W W1 : World) (t : List Action) : Prop :=
  W1.mem = W.mem ∧ W1.les = W.les ∧ W1.buf.le = none ∧ W1.trace = W.trace ++ t ∧
  ∀ a ∈ t, drop_call a = true

/-- The fields of the buffer of a refused request that stay as they are up to the
send state. -/
def drop_buf (W W1 : World) : Prop :=
  W1.buf.ni_fail = W.buf.ni_fail ∧ W1.buf.event_mask = W.buf.event_mask ∧
  W1.buf.put_resid = W.buf.put_resid ∧ W1.buf.get_resid = W.buf.get_resid ∧
  W1.buf.send_buf = W.buf.send_buf ∧ W1.buf.has_mem_buf = W.buf.has_mem_buf ∧
  W1.buf.data.ack_req = W.buf.data.ack_req ∧ W1.buf.matching_le = W.buf.matching_le ∧
  W1.buf.indir_sge = W.buf.indir_sge ∧ W1.buf.tgt_state = W.buf.tgt_state

/-- The states a refused request goes through. -/
def on_drop_path (s : tgt_state) : Bool :=
  s == STATE_TGT_DROP || s == STATE_TGT_WAIT_CONN || s == STATE_TGT_DATA ||
  s == STATE_TGT_COMM_EVENT || s == STATE_TGT_SEND_ACK || s == STATE_TGT_SEND_REPLY ||
  s == STATE_TGT_CLEANUP || s == STATE_TGT_ERROR || s == STATE_TGT_CLEANUP_2 ||
  s == STATE_TGT_DONE

/-- The invariant of the loop of `process_tgt` for a request refused in the world
`wD`: the loop is in a state of the drop path; since `wD` only calls allowed to a
refused request were made and nothing else changed; no response has left before the
send state and at most one, with the failure code of `wD`, after it; up to the send
state the failure code and the event mask are those of `wD` and, past
`STATE_TGT_DROP`, both residuals are zero. -/
def drop_inv (wD : World) (s : tgt_state) (W : World) : Prop :=
  on_drop_path s = true ∧
  (∃ t, drop_frame wD W t ∧
    (if phase s ≤ 2 then responses_of t = []
     else (responses_of t).length ≤ 1 ∧ ∀ r ∈ responses_of t, r.ni_fail = wD.buf.ni_fail)) ∧
  (phase s ≤ 2 → W.buf.ni_fail = wD.buf.ni_fail ∧ W.buf.event_mask = wD.buf.event_mask) ∧
  (phase s ≤ 2 → s ≠ STATE_TGT_DROP → W.buf.put_resid = 0 ∧ W.buf.get_resid = 0) ∧
  (s = STATE_TGT_DONE → W.buf.tgt_state = STATE_TGT_DONE)

/-- What holds at the end of every call of `process_tgt` for a request refused in
`wD`: only calls allowed to a refused request were made, nothing else changed, and
at most one response left, with the failure code of `wD`. -/
def drop_outcome (wD W : World) : Prop :=
  ∃ t, drop_frame wD W t ∧ (responses_of t).length ≤ 1 ∧
    ∀ r ∈ responses_of t, r.ni_fail = wD.buf.ni_fail

/-- What the rest of the runtime may change while a refused request waits for its
connection: the connection and the portals table, not the memory, the elements, the
buffer or the record of calls. -/
def conn_change (W W1 : World) : Prop :=
  W1.mem = W.mem ∧ W1.les = W.les ∧ W1.buf = W.buf ∧ W1.trace = W.trace

/-- The world `tgt_get_match` leaves when the first matching element `h` fails
`check_perm`: the reference taken on the element has been released, `buf->le` is
null and `buf->ni_fail` holds the violation code. -/
def refused (K : Consts) (w : World) (h : Nat) : World :=
  { w with
    buf := { w.buf with le := none, ni_fail := RuntimeDevel.check_perm K w.buf (w.les h) },
    trace := w.trace ++ [Action.ptl_info STATE_TGT_GET_MATCH, Action.le_get h, Action.le_put h] }

/-- The number of turns of the loop a refused request still needs, at most, to
leave `process_tgt` when it does not wait for its connection. -/
def drop_rank : tgt_state → Nat
  | STATE_TGT_DROP => 8
  | STATE_TGT_WAIT_CONN => 7
  | STATE_TGT_DATA => 6
  | STATE_TGT_COMM_EVENT => 5
  | STATE_TGT_SEND_ACK => 4
  | STATE_TGT_SEND_REPLY => 4
  | STATE_TGT_ERROR => 3
  | STATE_TGT_CLEANUP => 2
  | STATE_TGT_CLEANUP_2 => 1
  | _ => 0

/-- The response owed by the request of `W` can be sent: a reply has its send
buffer; an ack has one of the three defined `ack_req` values and a send buffer or a
received buffer that can be sent back. -/
def can_answer (K : Consts) (W : World) : Prop :=
  (W.buf.event_mask.XT_REPLY_EVENT = true → W.buf.send_buf.isSome = true) ∧
  (W.buf.event_mask.XT_REPLY_EVENT = false →
    W.buf.event_mask.XT_ACK_EVENT = true ∧
    (W.buf.data.ack_req = PTL_ACK_REQ ∨ W.buf.data.ack_req = PTL_CT_ACK_REQ ∨
      W.buf.data.ack_req = PTL_OC_ACK_REQ) ∧
    can_respond K W)

/-- The invariant of the loop for a refused request that is owed a response, whose
initiator is connected and whose response can be sent: that of `drop_inv`, with `n`
turns left, the fields the send state reads still as in `wD`, and exactly one
response sent once the send state is passed. -/
def answer_inv (K : Consts) (wD : World) (n : Nat) (s : tgt_state) (W : World) : Prop :=
  drop_inv wD s W ∧ drop_rank s ≤ n ∧ s ≠ STATE_TGT_DONE ∧
  (s ≠ STATE_TGT_CLEANUP_2 → W.buf.matching_le = none ∧ W.buf.indir_sge = false) ∧
  (phase s ≤ 2 → W.conn.state ≥ K.CONN_STATE_CONNECTED ∧
    W.buf.send_buf = wD.buf.send_buf ∧ W.buf.has_mem_buf = wD.buf.has_mem_buf ∧
    W.buf.data.ack_req = wD.buf.data.ack_req) ∧
  (s = STATE_TGT_SEND_ACK → wD.buf.event_mask.XT_REPLY_EVENT = false) ∧
  (s = STATE_TGT_SEND_REPLY → wD.buf.event_mask.XT_REPLY_EVENT = true) ∧
  (responses_of W.trace).length =
    (responses_of wD.trace).length + (if phase s = 3 then 1 else 0)

/-- The sample PUT sent by uid 8, which the sample element (uid 7) refuses. -/
def stranger_put : buf_t := { sample_put with data := { sample_put.data with uid := 8 } }

/-- The sample world in which the PUT of uid 8 has arrived and has passed
`tgt_start`. -/
def stranger_world : World :=
  (RuntimeDevel.tgt_start sample_consts sample_collab
    { sample_world with buf := stranger_put }).world

/-- The sample world in which the PUT of uid 8 has arrived from a peer that is not
connected. -/
def stranger_world_disconnected : World :=
  { sample_world with buf := stranger_put, conn := { state := 0 } }

/-- Collaborators that succeed, except that the connection to the peer cannot be
started. -/
def unreachable_collab : Collab := { sample_collab with init_connect := fun _ => true }

/-- The calls that hand a response to the transport. -/
def is_send_call (a : Action) : Bool :=
  match a with
  | Action.set_send_flags _ => true
  | Action.send_message _ _ => true
  | Action.mem_buf_send _ _ => true
  | _ => false

/-- An ATOMIC request of zero bytes (operator code 2 on the datatype with code 4)
from uid 7 asking for a full ack. -/
def zero_atomic : buf_t :=
  { data := { operation := OP_ATOMIC, ack_req := PTL_ACK_REQ, uid := 7, length := 0, offset := 0,
              src_nid := 3, src_pid := 9, match_bits := 0x5a, atom_op := 2, atom_type := 4 },
    operation := OP_ATOMIC,
    data_in := some { data_fmt := DATA_FMT_IMMEDIATE } }

/-- The sample world in which the ATOMIC request of zero bytes has arrived. -/
def zero_atomic_world : World := { sample_world with buf := zero_atomic }

/-- The sample world in which an ATOMIC request of 8 bytes from uid 8 has arrived;
the sample element (uid 7) refuses it, and the request asks for an ack. -/
def refused_atomic_world : World :=
  { sample_world with
    buf := { zero_atomic with data := { zero_atomic.data with uid := 8, length := 8 } } }

/-- The calls of a record that take (`true`) or release (`false`) the atomic mutex
of the interface. -/
def mutex_calls (trace : List Action) : List Bool :=
  trace.filterMap (fun a => match a with
    | Action.atomic_mutex_lock => some true
    | Action.atomic_mutex_unlock => some false
    | _ => none)

/-- A late element with a counting event attached and `PTL_LE_EVENT_CT_OVERFLOW`,
with or without `PTL_LE_EVENT_OVER_DISABLE`. -/
def late_counting_le (over_disable : Bool) : me_t :=
  { sample_me with
    ct := true, user_ptr := 77,
    options := { PTL_ME_OP_PUT := true, PTL_LE_EVENT_CT_OVERFLOW := true,
                 PTL_LE_EVENT_OVER_DISABLE := over_disable } }

/-- The sample PUT of 16 bytes waiting in `STATE_TGT_OVERFLOW_EVENT`: it was
delivered into the overflow element with handle 0, and the late element with
handle 1 (`late_counting_le`) has been assigned to `matching.le`. -/
def late_counting_world (over_disable : Bool) : World :=
  { sample_world with
    les := fun h => if h = 1 then late_counting_le over_disable
                    else { sample_me with ptl_list := PTL_OVERFLOW_LIST },
    buf := { sample_put with
      tgt_state := STATE_TGT_OVERFLOW_EVENT, pt := some 0, le := some 0,
      matching_le := some 1, matching_list := PTL_OVERFLOW_LIST, conn := true,
      mlength := 16, start := some 1000 } }

/-- The full event kind `tgt_overflow_event` selects for an operation. -/
def overflow_event_kind (operation : Nat) : Option ptl_event_kind_t :=
  if operation == OP_PUT then some PTL_EVENT_PUT_OVERFLOW
  else if operation == OP_ATOMIC then some PTL_EVENT_ATOMIC_OVERFLOW
  else if operation == OP_FETCH || operation == OP_SWAP then
    some PTL_EVENT_FETCH_ATOMIC_OVERFLOW
  else if operation == OP_GET then some PTL_EVENT_GET_OVERFLOW
  else none

/-- The calls of `tgt_overflow_event` in a world whose late element is `m` and whose
table entry is `pi`. -/
def overflow_event_calls (w : World) (m pi : Nat) : List Action :=
  (if (w.les m).options.PTL_LE_EVENT_OVER_DISABLE then []
   else
    (match overflow_event_kind w.buf.operation with
     | some k => [Action.make_target_event (w.pt pi).eq k (some (w.les m).user_ptr) w.buf.start
          w.buf.ni_fail w.buf.mlength w.buf.moffset]
     | none => []) ++
    (if (w.les m).options.PTL_LE_EVENT_CT_OVERFLOW && (w.les m).ct then
      [Action.make_ct_event m CT_MBYTES w.buf.ni_fail w.buf.mlength]
     else [])) ++
  [Action.le_put m]

/-- Codes of `portals4.h` (not among the translated sources) that only the
functions of the older variant use: the wildcard job identifier, the swap
operators and the datatypes. -/
structure IbSrc.Codes where
  PTL_JID_ANY : Nat
  PTL_CSWAP : Nat
  PTL_CSWAP_NE : Nat
  PTL_CSWAP_LE : Nat
  PTL_CSWAP_LT : Nat
  PTL_CSWAP_GE : Nat
  PTL_CSWAP_GT : Nat
  PTL_MSWAP : Nat
  PTL_OP_LAST : Nat
  PTL_INT8_T : Nat
  PTL_UINT8_T : Nat
  PTL_INT16_T : Nat
  PTL_UINT16_T : Nat
  PTL_INT32_T : Nat
  PTL_UINT32_T : Nat
  PTL_INT64_T : Nat
  PTL_UINT64_T : Nat
  PTL_FLOAT : Nat
  PTL_FLOAT_COMPLEX : Nat
  PTL_DOUBLE : Nat
  PTL_DOUBLE_COMPLEX : Nat
  PTL_DATATYPE_LAST : Nat

/-- The swap operator codes, in the order of the cases of `tgt_swap_data_in`. -/
def IbSrc.Codes.ops (A : IbSrc.Codes) : List Nat :=
  [A.PTL_CSWAP, A.PTL_CSWAP_NE, A.PTL_CSWAP_LE, A.PTL_CSWAP_LT, A.PTL_CSWAP_GE, A.PTL_CSWAP_GT,
   A.PTL_MSWAP]

/-- The datatype codes `tgt_swap_data_in` has cases for. -/
def IbSrc.Codes.types (A : IbSrc.Codes) : List Nat :=
  [A.PTL_INT8_T, A.PTL_UINT8_T, A.PTL_INT16_T, A.PTL_UINT16_T, A.PTL_INT32_T, A.PTL_UINT32_T,
   A.PTL_INT64_T, A.PTL_UINT64_T, A.PTL_FLOAT, A.PTL_FLOAT_COMPLEX, A.PTL_DOUBLE,
   A.PTL_DOUBLE_COMPLEX]

/-- The codes are those of C enumerations whose last members are `PTL_OP_LAST` and
`PTL_DATATYPE_LAST`: the case labels are distinct, the swap operators lie from
`PTL_CSWAP` up to `PTL_OP_LAST`, the datatypes below `PTL_DATATYPE_LAST`. -/
def IbSrc.Codes.wf (A : IbSrc.Codes) : Prop :=
  A.ops.Nodup ∧ (∀ c ∈ A.ops, A.PTL_CSWAP ≤ c ∧ c < A.PTL_OP_LAST) ∧
  A.types.Nodup ∧ (∀ c ∈ A.types, c < A.PTL_DATATYPE_LAST)

/-- The comparisons of the host on `float` and `double` values, as functions of the
bit patterns of the two operands (32 bits for the `f` members, 64 bits for the `d`
members). -/
structure IbSrc.FloatOps where
  feq : Nat → Nat → Bool
  fne : Nat → Nat → Bool
  fle : Nat → Nat → Bool
  flt : Nat → Nat → Bool
  fge : Nat → Nat → Bool
  fgt : Nat → Nat → Bool
  deq : Nat → Nat → Bool
  dne : Nat → Nat → Bool
  dle : Nat → Nat → Bool
  dlt : Nat → Nat → Bool
  dge : Nat → Nat → Bool
  dgt : Nat → Nat → Bool

/-- The iovec copies `copy_out` and `copy_in` of the older variant call for an
element with `num_iov != 0` (`iov_copy_out`, `iov_copy_in`, defined elsewhere):
given the element, the memory, the scratch datum, `offset` and `length`, the error
status and the new scratch datum, respectively the new memory. -/
structure IbSrc.IovOps where
  iov_copy_out : me_t → (Nat → Nat) → (Nat → Nat) → Nat → Nat → Bool × (Nat → Nat)
  iov_copy_in : me_t → (Nat → Nat) → (Nat → Nat) → Nat → Nat → Bool × (Nat → Nat)

/-- Modelled from the spec: the union `datatype_t`, declared in a header that is
not among the translated sources. The specification describes a single datum of
at most 16 bytes with signed and unsigned members of 8, 16, 32 and 64 bits, float,
double and the two complex types; all members start at byte 0, the second
component of a complex member follows the first. A value is the function from
byte index to byte, and integers are stored little-endian. -/
abbrev IbSrc.datatype_t := Nat → Nat

/-- The unsigned integer stored little-endian in the `n` bytes at address `a`. -/
def IbSrc.load (x : Nat → Nat) (a : Nat) : Nat → Nat
  | 0 => 0
  | n + 1 => IbSrc.load x a n + 256 ^ n * (x (a + n) % 256)

/-- Storing the low `n` bytes of `v` little-endian at address `a`. -/
def IbSrc.store (x : Nat → Nat) (a n v : Nat) : Nat → Nat :=
  fun i => if a ≤ i ∧ i < a + n then v / 256 ^ (i - a) % 256 else x i

/-- The value of the two's complement pattern `v` of `n` bytes. -/
def IbSrc.to_signed (n v : Nat) : Int :=
  if 2 * v < 256 ^ n then (v : Int) else (v : Int) - 256 ^ n

/-- The two's complement pattern of `n` bytes of the integer `v`. -/
def IbSrc.of_signed (n : Nat) (v : Int) : Nat := (v % 256 ^ n).toNat

/-- Reading the member of `n` bytes at byte `off` of a datum (`fc[1]` is at byte 4,
`dc[1]` at byte 8). -/
def IbSrc.get_at (off n : Nat) (x : IbSrc.datatype_t) : Nat := IbSrc.load x off n

/-- Assigning the member of `n` bytes at byte `off` of a datum. -/
def IbSrc.set_at (off n : Nat) (x : IbSrc.datatype_t) (v : Nat) : IbSrc.datatype_t :=
  IbSrc.store x off n v

/-- Reading an unsigned member (`u8`, `u16`, `u32`, `u64`), or the bit pattern of `f`
or `d`. -/
def IbSrc.get_u (n : Nat) (x : IbSrc.datatype_t) : Nat := IbSrc.get_at 0 n x

/-- Assigning an unsigned member, or `f` or `d`. -/
def IbSrc.set_u (n : Nat) (x : IbSrc.datatype_t) (v : Nat) : IbSrc.datatype_t :=
  IbSrc.set_at 0 n x v

/-- Reading a signed member (`s8`, `s16`, `s32`, `s64`). -/
def IbSrc.get_s (n : Nat) (x : IbSrc.datatype_t) : Int := IbSrc.to_signed n (IbSrc.get_u n x)

/-- Assigning a signed member. -/
def IbSrc.set_s (n : Nat) (x : IbSrc.datatype_t) (v : Int) : IbSrc.datatype_t :=
  IbSrc.set_u n x (IbSrc.of_signed n v)

/-- The operator `~` on an operand of `bits` bits. An operand of type `uint8_t` or
`uint16_t` is promoted to `int` first, so `bits` is 32 for the members of 8, 16
and 32 bits and 64 for the members of 64 bits. -/
def IbSrc.bnot (bits x : Nat) : Nat := 2 ^ bits - 1 - x

/-- The `switch (xt->atom_type)` under `case PTL_CSWAP` of `tgt_swap_data_in`: the new
value of `dst`, or `none` for the `default` branch. -/
def IbSrc.cswap (A : IbSrc.Codes) (F : IbSrc.FloatOps) (t : Nat)
    (opr src d dst : IbSrc.datatype_t) : Option IbSrc.datatype_t :=
  if t == A.PTL_INT8_T then
    some (set_s 1 dst (if get_s 1 opr == get_s 1 src then get_s 1 d else get_s 1 src))
  else if t == A.PTL_UINT8_T then
    some (set_u 1 dst (if get_u 1 opr == get_u 1 src then get_u 1 d else get_u 1 src))
  else if t == A.PTL_INT16_T then
    some (set_s 2 dst (if get_s 2 opr == get_s 2 src then get_s 2 d else get_s 2 src))
  else if t == A.PTL_UINT16_T then
    some (set_u 2 dst (if get_u 2 opr == get_u 2 src then get_u 2 d else get_u 2 src))
  else if t == A.PTL_INT32_T then
    some (set_s 4 dst (if get_s 4 opr == get_s 4 src then get_s 4 d else get_s 4 src))
  else if t == A.PTL_UINT32_T then
    some (set_u 4 dst (if get_u 4 opr == get_u 4 src then get_u 4 d else get_u 4 src))
  else if t == A.PTL_INT64_T then
    some (set_s 8 dst (if get_s 8 opr == get_s 8 src then get_s 8 d else get_s 8 src))
  else if t == A.PTL_UINT64_T then
    some (set_u 8 dst (if get_u 8 opr == get_u 8 src then get_u 8 d else get_u 8 src))
  else if t == A.PTL_FLOAT then
    some (set_u 4 dst (if F.feq (get_u 4 opr) (get_u 4 src) then get_u 4 d
      else get_u 4 src))
  else if t == A.PTL_FLOAT_COMPLEX then
    let dst := set_at 0 4 dst (if F.feq (get_at 0 4 opr) (get_at 0 4 src) &&
        F.feq (get_at 4 4 opr) (get_at 4 4 src) then get_at 0 4 d else get_at 0 4 src)
    some (set_at 4 4 dst (if F.feq (get_at 0 4 opr) (get_at 0 4 src) &&
        F.feq (get_at 4 4 opr) (get_at 4 4 src) then get_at 4 4 d else get_at 4 4 src))
  else if t == A.PTL_DOUBLE then
    some (set_u 8 dst (if F.deq (get_u 8 opr) (get_u 8 src) then get_u 8 d
      else get_u 8 src))
  else if t == A.PTL_DOUBLE_COMPLEX then
    let dst := set_at 0 8 dst (if F.deq (get_at 0 8 opr) (get_at 0 8 src) &&
        F.deq (get_at 8 8 opr) (get_at 8 8 src) then get_at 0 8 d else get_at 0 8 src)
    some (set_at 8 8 dst (if F.deq (get_at 0 8 opr) (get_at 0 8 src) &&
        F.deq (get_at 8 8 opr) (get_at 8 8 src) then get_at 8 8 d else get_at 8 8 src))
  else none

/-- The `switch (xt->atom_type)` under `case PTL_CSWAP_NE` of `tgt_swap_data_in`: the new
value of `dst`, or `none` for the `default` branch. -/
def IbSrc.cswap_ne (A : IbSrc.Codes) (F : IbSrc.FloatOps) (t : Nat)
    (opr src d dst : IbSrc.datatype_t) : Option IbSrc.datatype_t :=
  if t == A.PTL_INT8_T then
    some (set_s 1 dst (if get_s 1 opr != get_s 1 src then get_s 1 d else get_s 1 src))
  else if t == A.PTL_UINT8_T then
    some (set_u 1 dst (if get_u 1 opr != get_u 1 src then get_u 1 d else get_u 1 src))
  else if t == A.PTL_INT16_T then
    some (set_s 2 dst (if get_s 2 opr != get_s 2 src then get_s 2 d else get_s 2 src))
  else if t == A.PTL_UINT16_T then
    some (set_u 2 dst (if get_u 2 opr != get_u 2 src then get_u 2 d else get_u 2 src))
  else if t == A.PTL_INT32_T then
    some (set_s 4 dst (if get_s 4 opr != get_s 4 src then get_s 4 d else get_s 4 src))
  else if t == A.PTL_UINT32_T then
    some (set_u 4 dst (if get_u 4 opr != get_u 4 src then get_u 4 d else get_u 4 src))
  else if t == A.PTL_INT64_T then
    some (set_s 8 dst (if get_s 8 opr != get_s 8 src then get_s 8 d else get_s 8 src))
  else if t == A.PTL_UINT64_T then
    some (set_u 8 dst (if get_u 8 opr != get_u 8 src then get_u 8 d else get_u 8 src))
  else if t == A.PTL_FLOAT then
    some (set_u 4 dst (if F.fne (get_u 4 opr) (get_u 4 src) then get_u 4 d
      else get_u 4 src))
  else if t == A.PTL_FLOAT_COMPLEX then
    let dst := set_at 0 4 dst (if F.fne (get_at 0 4 opr) (get_at 0 4 src) ||
        F.fne (get_at 0 4 opr) (get_at 0 4 src) then get_at 0 4 d else get_at 0 4 src)
    some (set_at 4 4 dst (if F.fne (get_at 0 4 opr) (get_at 0 4 src) ||
        F.fne (get_at 0 4 opr) (get_at 0 4 src) then get_at 4 4 d else get_at 4 4 src))
  else if t == A.PTL_DOUBLE then
    some (set_u 8 dst (if F.dne (get_u 8 opr) (get_u 8 src) then get_u 8 d
      else get_u 8 src))
  else if t == A.PTL_DOUBLE_COMPLEX then
    let dst := set_at 0 8 dst (if F.dne (get_at 0 8 opr) (get_at 0 8 src) ||
        F.dne (get_at 0 8 opr) (get_at 0 8 src) then get_at 0 8 d else get_at 0 8 src)
    some (set_at 8 8 dst (if F.dne (get_at 0 8 opr) (get_at 0 8 src) ||
        F.dne (get_at 0 8 opr) (get_at 0 8 src) then get_at 8 8 d else get_at 8 8 src))
  else none

/-- The `switch (xt->atom_type)` under `case PTL_CSWAP_LE` of `tgt_swap_data_in`: the new
value of `dst`, or `none` for the `default` branch. -/
def IbSrc.cswap_le (A : IbSrc.Codes) (F : IbSrc.FloatOps) (t : Nat)
    (opr src d dst : IbSrc.datatype_t) : Option IbSrc.datatype_t :=
  if t == A.PTL_INT8_T then
    some (set_s 1 dst (if decide (get_s 1 opr ≤ get_s 1 src) then get_s 1 d else get_s 1 src))
  else if t == A.PTL_UINT8_T then
    some (set_u 1 dst (if decide (get_u 1 opr ≤ get_u 1 src) then get_u 1 d else get_u 1 src))
  else if t == A.PTL_INT16_T then
    some (set_s 2 dst (if decide (get_s 2 opr ≤ get_s 2 src) then get_s 2 d else get_s 2 src))
  else if t == A.PTL_UINT16_T then
    some (set_u 2 dst (if decide (get_u 2 opr ≤ get_u 2 src) then get_u 2 d else get_u 2 src))
  else if t == A.PTL_INT32_T then
    some (set_s 4 dst (if decide (get_s 4 opr ≤ get_s 4 src) then get_s 4 d else get_s 4 src))
  else if t == A.PTL_UINT32_T then
    some (set_u 4 dst (if decide (get_u 4 opr ≤ get_u 4 src) then get_u 4 d else get_u 4 src))
  else if t == A.PTL_INT64_T then
    some (set_s 8 dst (if decide (get_s 8 opr ≤ get_s 8 src) then get_s 8 d else get_s 8 src))
  else if t == A.PTL_UINT64_T then
    some (set_u 8 dst (if decide (get_u 8 opr ≤ get_u 8 src) then get_u 8 d else get_u 8 src))
  else if t == A.PTL_FLOAT then
    some (set_u 4 dst (if F.fle (get_u 4 opr) (get_u 4 src) then get_u 4 d
      else get_u 4 src))
  else if t == A.PTL_DOUBLE then
    some (set_u 8 dst (if F.dle (get_u 8 opr) (get_u 8 src) then get_u 8 d
      else get_u 8 src))
  else none

/-- The `switch (xt->atom_type)` under `case PTL_CSWAP_LT` of `tgt_swap_data_in`: the new
value of `dst`, or `none` for the `default` branch. -/
def IbSrc.cswap_lt (A : IbSrc.Codes) (F : IbSrc.FloatOps) (t : Nat)
    (opr src d dst : IbSrc.datatype_t) : Option IbSrc.datatype_t :=
  if t == A.PTL_INT8_T then
    some (set_s 1 dst (if decide (get_s 1 opr < get_s 1 src) then get_s 1 d else get_s 1 src))
  else if t == A.PTL_UINT8_T then
    some (set_u 1 dst (if decide (get_u 1 opr < get_u 1 src) then get_u 1 d else get_u 1 src))
  else if t == A.PTL_INT16_T then
    some (set_s 2 dst (if decide (get_s 2 opr < get_s 2 src) then get_s 2 d else get_s 2 src))
  else if t == A.PTL_UINT16_T then
    some (set_u 2 dst (if decide (get_u 2 opr < get_u 2 src) then get_u 2 d else get_u 2 src))
  else if t == A.PTL_INT32_T then
    some (set_s 4 dst (if decide (get_s 4 opr < get_s 4 src) then get_s 4 d else get_s 4 src))
  else if t == A.PTL_UINT32_T then
    some (set_u 4 dst (if decide (get_u 4 opr < get_u 4 src) then get_u 4 d else get_u 4 src))
  else if t == A.PTL_INT64_T then
    some (set_s 8 dst (if decide (get_s 8 opr < get_s 8 src) then get_s 8 d else get_s 8 src))
  else if t == A.PTL_UINT64_T then
    some (set_u 8 dst (if decide (get_u 8 opr < get_u 8 src) then get_u 8 d else get_u 8 src))
  else if t == A.PTL_FLOAT then
    some (set_u 4 dst (if F.flt (get_u 4 opr) (get_u 4 src) then get_u 4 d
      else get_u 4 src))
  else if t == A.PTL_DOUBLE then
    some (set_u 8 dst (if F.dlt (get_u 8 opr) (get_u 8 src) then get_u 8 d
      else get_u 8 src))
  else none

/-- The `switch (xt->atom_type)` under `case PTL_CSWAP_GE` of `tgt_swap_data_in`: the new
value of `dst`, or `none` for the `default` branch. -/
def IbSrc.cswap_ge (A : IbSrc.Codes) (F : IbSrc.FloatOps) (t : Nat)
    (opr src d dst : IbSrc.datatype_t) : Option IbSrc.datatype_t :=
  if t == A.PTL_INT8_T then
    some (set_s 1 dst (if decide (get_s 1 opr ≥ get_s 1 src) then get_s 1 d else get_s 1 src))
  else if t == A.PTL_UINT8_T then
    some (set_u 1 dst (if decide (get_u 1 opr ≥ get_u 1 src) then get_u 1 d else get_u 1 src))
  else if t == A.PTL_INT16_T then
    some (set_s 2 dst (if decide (get_s 2 opr ≥ get_s 2 src) then get_s 2 d else get_s 2 src))
  else if t == A.PTL_UINT16_T then
    some (set_u 2 dst (if decide (get_u 2 opr ≥ get_u 2 src) then get_u 2 d else get_u 2 src))
  else if t == A.PTL_INT32_T then
    some (set_s 4 dst (if decide (get_s 4 opr ≥ get_s 4 src) then get_s 4 d else get_s 4 src))
  else if t == A.PTL_UINT32_T then
    some (set_u 4 dst (if decide (get_u 4 opr ≥ get_u 4 src) then get_u 4 d else get_u 4 src))
  else if t == A.PTL_INT64_T then
    some (set_s 8 dst (if decide (get_s 8 opr ≥ get_s 8 src) then get_s 8 d else get_s 8 src))
  else if t == A.PTL_UINT64_T then
    some (set_u 8 dst (if decide (get_u 8 opr ≥ get_u 8 src) then get_u 8 d else get_u 8 src))
  else if t == A.PTL_FLOAT then
    some (set_u 4 dst (if F.fge (get_u 4 opr) (get_u 4 src) then get_u 4 d
      else get_u 4 src))
  else if t == A.PTL_DOUBLE then
    some (set_u 8 dst (if F.dge (get_u 8 opr) (get_u 8 src) then get_u 8 d
      else get_u 8 src))
  else none

/-- The `switch (xt->atom_type)` under `case PTL_CSWAP_GT` of `tgt_swap_data_in`: the new
value of `dst`, or `none` for the `default` branch. -/
def IbSrc.cswap_gt (A : IbSrc.Codes) (F : IbSrc.FloatOps) (t : Nat)
    (opr src d dst : IbSrc.datatype_t) : Option IbSrc.datatype_t :=
  if t == A.PTL_INT8_T then
    some (set_s 1 dst (if decide (get_s 1 opr > get_s 1 src) then get_s 1 d else get_s 1 src))
  else if t == A.PTL_UINT8_T then
    some (set_u 1 dst (if decide (get_u 1 opr > get_u 1 src) then get_u 1 d else get_u 1 src))
  else if t == A.PTL_INT16_T then
    some (set_s 2 dst (if decide (get_s 2 opr > get_s 2 src) then get_s 2 d else get_s 2 src))
  else if t == A.PTL_UINT16_T then
    some (set_u 2 dst (if decide (get_u 2 opr > get_u 2 src) then get_u 2 d else get_u 2 src))
  else if t == A.PTL_INT32_T then
    some (set_s 4 dst (if decide (get_s 4 opr > get_s 4 src) then get_s 4 d else get_s 4 src))
  else if t == A.PTL_UINT32_T then
    some (set_u 4 dst (if decide (get_u 4 opr > get_u 4 src) then get_u 4 d else get_u 4 src))
  else if t == A.PTL_INT64_T then
    some (set_s 8 dst (if decide (get_s 8 opr > get_s 8 src) then get_s 8 d else get_s 8 src))
  else if t == A.PTL_UINT64_T then
    some (set_u 8 dst (if decide (get_u 8 opr > get_u 8 src) then get_u 8 d else get_u 8 src))
  else if t == A.PTL_FLOAT then
    some (set_u 4 dst (if F.fgt (get_u 4 opr) (get_u 4 src) then get_u 4 d
      else get_u 4 src))
  else if t == A.PTL_DOUBLE then
    some (set_u 8 dst (if F.dgt (get_u 8 opr) (get_u 8 src) then get_u 8 d
      else get_u 8 src))
  else none

/-- The `switch (xt->atom_type)` under `case PTL_MSWAP` of `tgt_swap_data_in`. -/
def IbSrc.mswap (A : IbSrc.Codes) (t : Nat)
    (opr src d dst : IbSrc.datatype_t) : Option IbSrc.datatype_t :=
  if t == A.PTL_INT8_T || t == A.PTL_UINT8_T then
    some (set_u 1 dst ((get_u 1 opr &&& get_u 1 d) ||| (bnot 32 (get_u 1 opr) &&& get_u 1 src)))
  else if t == A.PTL_INT16_T || t == A.PTL_UINT16_T then
    some (set_u 2 dst ((get_u 2 opr &&& get_u 2 d) ||| (bnot 32 (get_u 2 opr) &&& get_u 2 src)))
  else if t == A.PTL_INT32_T || t == A.PTL_UINT32_T || t == A.PTL_FLOAT then
    some (set_u 4 dst ((get_u 4 opr &&& get_u 4 d) ||| (bnot 32 (get_u 4 opr) &&& get_u 4 src)))
  else if t == A.PTL_INT64_T || t == A.PTL_UINT64_T || t == A.PTL_DOUBLE then
    some (set_u 8 dst ((get_u 8 opr &&& get_u 8 d) ||| (bnot 64 (get_u 8 opr) &&& get_u 8 src)))
  else none

/-- The function `copy_out` of `ib/src/ptl_tgt.c`: the error status and the datum
`data` points to. -/
def IbSrc.copy_out (I : IbSrc.IovOps) (xt : IbSrc.xt_t) (me : me_t) (mem : Nat → Nat)
    (data : IbSrc.datatype_t) : Bool × IbSrc.datatype_t :=
  let offset := xt.moffset
  let length := xt.mlength
  if me.num_iov != 0 then
    I.iov_copy_out me mem data offset length
  else
    (false, RuntimeDevel.memcpy data 0 (fun i => mem (me.start + offset + i)) length)

/-- The function `copy_in` of `ib/src/ptl_tgt.c`: the error status, the descriptor
and the memory. -/
def IbSrc.copy_in (I : IbSrc.IovOps) (xt : IbSrc.xt_t) (me : me_t) (mem : Nat → Nat)
    (data : IbSrc.datatype_t) : Bool × IbSrc.xt_t × (Nat → Nat) :=
  let offset := xt.moffset
  let length := xt.mlength
  if me.num_iov != 0 then
    let r := I.iov_copy_in me mem data offset length
    if r.1 then (true, xt, r.2)
    else (false, { xt with start := some 0x123 }, r.2)
  else
    (false, { xt with start := some (me.start + offset) },
      RuntimeDevel.memcpy mem (me.start + offset) data length)

/-- The function `tgt_swap_data_in` of `ib/src/ptl_tgt.c`, for the element `me` that
`xt->me` points to and the data segment `data` that `xt->data_in` points to. The
locals `opr`, `src` and `dst` start with the contents `opr0`, `src0`, `dst0` the
stack happens to hold. The result is the next state, the descriptor and the
memory. -/
def IbSrc.tgt_swap_data_in (A : IbSrc.Codes) (F : IbSrc.FloatOps) (I : IbSrc.IovOps)
    (opr0 src0 dst0 : IbSrc.datatype_t) (xt : IbSrc.xt_t) (me : me_t) (data : data_t)
    (mem : Nat → Nat) : tgt_state × IbSrc.xt_t × (Nat → Nat) :=
  let opr := set_u 8 opr0 xt.operand
  let dst := set_u 8 dst0 0
  let d : IbSrc.datatype_t := data.immediate_data
  if data.data_fmt != DATA_FMT_IMMEDIATE then
    (STATE_TGT_ERROR, xt, mem)
  else if xt.atom_op < A.PTL_CSWAP || xt.atom_op ≥ A.PTL_OP_LAST ||
      xt.atom_type ≥ A.PTL_DATATYPE_LAST then
    (STATE_TGT_ERROR, xt, mem)
  else
    let c := copy_out I xt me mem src0
    if c.1 then (STATE_TGT_ERROR, xt, mem)
    else
      let src := c.2
      let r : Option IbSrc.datatype_t :=
        if xt.atom_op == A.PTL_CSWAP then cswap A F xt.atom_type opr src d dst
        else if xt.atom_op == A.PTL_CSWAP_NE then cswap_ne A F xt.atom_type opr src d dst
        else if xt.atom_op == A.PTL_CSWAP_LE then cswap_le A F xt.atom_type opr src d dst
        else if xt.atom_op == A.PTL_CSWAP_LT then cswap_lt A F xt.atom_type opr src d dst
        else if xt.atom_op == A.PTL_CSWAP_GE then cswap_ge A F xt.atom_type opr src d dst
        else if xt.atom_op == A.PTL_CSWAP_GT then cswap_gt A F xt.atom_type opr src d dst
        else if xt.atom_op == A.PTL_MSWAP then mswap A xt.atom_type opr src d dst
        else none
      match r with
      | none => (STATE_TGT_ERROR, xt, mem)
      | some dst =>
        let q := copy_in I xt me mem dst
        if q.1 then (STATE_TGT_ERROR, q.2.1, q.2.2)
        else (STATE_TGT_COMM_EVENT, q.2.1, q.2.2)

/-- The integer datatypes. -/
inductive IbSrc.int_type where
  | INT8
  | UINT8
  | INT16
  | UINT16
  | INT32
  | UINT32
  | INT64
  | UINT64
  deriving DecidableEq

/-- The code of an integer datatype. -/
def IbSrc.int_type.code (A : IbSrc.Codes) : IbSrc.int_type → Nat
  | INT8 => A.PTL_INT8_T
  | UINT8 => A.PTL_UINT8_T
  | INT16 => A.PTL_INT16_T
  | UINT16 => A.PTL_UINT16_T
  | INT32 => A.PTL_INT32_T
  | UINT32 => A.PTL_UINT32_T
  | INT64 => A.PTL_INT64_T
  | UINT64 => A.PTL_UINT64_T

/-- The size in bytes of an integer datatype. -/
def IbSrc.int_type.size : IbSrc.int_type → Nat
  | INT8 => 1
  | UINT8 => 1
  | INT16 => 2
  | UINT16 => 2
  | INT32 => 4
  | UINT32 => 4
  | INT64 => 8
  | UINT64 => 8

/-- Whether an integer datatype is signed. -/
def IbSrc.int_type.signed : IbSrc.int_type → Bool
  | INT8 => true
  | UINT8 => false
  | INT16 => true
  | UINT16 => false
  | INT32 => true
  | UINT32 => false
  | INT64 => true
  | UINT64 => false

/-- The integer a bit pattern of the width of the type stands for, with the
signedness of the type. -/
def IbSrc.int_type.interp (T : IbSrc.int_type) (v : Nat) : Int :=
  if T.signed then IbSrc.to_signed T.size v else (v : Int)

/-- The integer a 64-bit field stands for once truncated to the width of the type,
with the signedness of the type. -/
def IbSrc.int_type.value (T : IbSrc.int_type) (v : Nat) : Int :=
  T.interp (v % 256 ^ T.size)

/-- The compare-and-swap operators. -/
inductive IbSrc.cswap_op where
  | CSWAP
  | CSWAP_NE
  | CSWAP_LE
  | CSWAP_LT
  | CSWAP_GE
  | CSWAP_GT
  deriving DecidableEq

/-- The code of a compare-and-swap operator. -/
def IbSrc.cswap_op.code (A : IbSrc.Codes) : IbSrc.cswap_op → Nat
  | CSWAP => A.PTL_CSWAP
  | CSWAP_NE => A.PTL_CSWAP_NE
  | CSWAP_LE => A.PTL_CSWAP_LE
  | CSWAP_LT => A.PTL_CSWAP_LT
  | CSWAP_GE => A.PTL_CSWAP_GE
  | CSWAP_GT => A.PTL_CSWAP_GT

/-- The relation of a compare-and-swap operator: `==`, `!=`, `<=`, `<`, `>=`, `>`. -/
def IbSrc.cswap_op.rel : IbSrc.cswap_op → Int → Int → Bool
  | CSWAP, a, b => a == b
  | CSWAP_NE, a, b => a != b
  | CSWAP_LE, a, b => decide (a ≤ b)
  | CSWAP_LT, a, b => decide (a < b)
  | CSWAP_GE, a, b => decide (a ≥ b)
  | CSWAP_GT, a, b => decide (a > b)

/-- The `switch (xt->atom_type)` of a compare-and-swap operator. -/
def IbSrc.cswap_op.rows (R : IbSrc.cswap_op) (A : IbSrc.Codes) (F : IbSrc.FloatOps) (t : Nat)
    (opr src d dst : IbSrc.datatype_t) : Option IbSrc.datatype_t :=
  match R with
  | CSWAP => IbSrc.cswap A F t opr src d dst
  | CSWAP_NE => IbSrc.cswap_ne A F t opr src d dst
  | CSWAP_LE => IbSrc.cswap_le A F t opr src d dst
  | CSWAP_LT => IbSrc.cswap_lt A F t opr src d dst
  | CSWAP_GE => IbSrc.cswap_ge A F t opr src d dst
  | CSWAP_GT => IbSrc.cswap_gt A F t opr src d dst

/-- Sample codes of the swap operators and datatypes, in the order of the
enumerations of Portals 4, after the operators `PTL_MIN` to `PTL_SWAP` (codes 0
to 10) of `sample_consts`. -/
def sample_codes : IbSrc.Codes :=
  { PTL_JID_ANY := 0xffffffff,
    PTL_CSWAP := 11, PTL_CSWAP_NE := 12, PTL_CSWAP_LE := 13, PTL_CSWAP_LT := 14,
    PTL_CSWAP_GE := 15, PTL_CSWAP_GT := 16, PTL_MSWAP := 17, PTL_OP_LAST := 18,
    PTL_INT8_T := 0, PTL_UINT8_T := 1, PTL_INT16_T := 2, PTL_UINT16_T := 3, PTL_INT32_T := 4,
    PTL_UINT32_T := 5, PTL_INT64_T := 6, PTL_UINT64_T := 7, PTL_FLOAT := 8,
    PTL_FLOAT_COMPLEX := 9, PTL_DOUBLE := 10, PTL_DOUBLE_COMPLEX := 11,
    PTL_DATATYPE_LAST := 14 }

/-- Sample comparisons of floating-point patterns (not used by the integer cases). -/
def sample_float_ops : IbSrc.FloatOps :=
  { feq := fun a b => a == b, fne := fun a b => a != b, fle := fun _ _ => false,
    flt := fun _ _ => false, fge := fun _ _ => false, fgt := fun _ _ => false,
    deq := fun a b => a == b, dne := fun a b => a != b, dle := fun _ _ => false,
    dlt := fun _ _ => false, dge := fun _ _ => false, dgt := fun _ _ => false }

/-- Sample iovec copies that fail (not used for a contiguous element). -/
def sample_iov_ops : IbSrc.IovOps :=
  { iov_copy_out := fun _ _ d _ _ => (true, d), iov_copy_in := fun _ m _ _ _ => (true, m) }

/-- The compare-and-swap of scenario 4: `PTL_CSWAP` on `PTL_UINT64_T` with operand 5
at offset 0. -/
def cswap_xt : IbSrc.xt_t :=
  { operation := OP_SWAP, atom_op := 11, atom_type := 7, operand := 5, rlength := 8,
    mlength := 8, moffset := 0 }

/-- A payload whose first 8 bytes hold the 64-bit value 99. -/
def payload_99 : data_t :=
  { data_fmt := DATA_FMT_IMMEDIATE, immediate_data := fun i => if i = 0 then 99 else 0 }

/-- A memory whose 8 bytes at address 1000 hold the 64-bit value 5. -/
def mem_5 : Nat → Nat := fun a => if a = 1000 then 5 else 0

/-- The datatypes of 8, 16, 32 and 64 bits `PTL_MSWAP` has cases for. -/
inductive IbSrc.bits_type where
  | INT8
  | UINT8
  | INT16
  | UINT16
  | INT32
  | UINT32
  | FLOAT
  | INT64
  | UINT64
  | DOUBLE
  deriving DecidableEq

/-- The code of a datatype of `PTL_MSWAP`. -/
def IbSrc.bits_type.code (A : IbSrc.Codes) : IbSrc.bits_type → Nat
  | INT8 => A.PTL_INT8_T
  | UINT8 => A.PTL_UINT8_T
  | INT16 => A.PTL_INT16_T
  | UINT16 => A.PTL_UINT16_T
  | INT32 => A.PTL_INT32_T
  | UINT32 => A.PTL_UINT32_T
  | FLOAT => A.PTL_FLOAT
  | INT64 => A.PTL_INT64_T
  | UINT64 => A.PTL_UINT64_T
  | DOUBLE => A.PTL_DOUBLE

/-- The size in bytes of a datatype of `PTL_MSWAP`. -/
def IbSrc.bits_type.size : IbSrc.bits_type → Nat
  | INT8 => 1
  | UINT8 => 1
  | INT16 => 2
  | UINT16 => 2
  | INT32 => 4
  | UINT32 => 4
  | FLOAT => 4
  | INT64 => 8
  | UINT64 => 8
  | DOUBLE => 8

/-- The masked swap on patterns of `n` bytes: the bits of `v` where the mask `m` is
1, the bits of `pre` where it is 0. -/
def mask_swap (n m v pre : Nat) : Nat := (m &&& v) ||| ((256 ^ n - 1 - m) &&& pre)

/-- The memory `tgt_swap_data_in` leaves. -/
def IbSrc.swap_mem (A : IbSrc.Codes) (F : IbSrc.FloatOps) (I : IbSrc.IovOps)
    (opr0 src0 dst0 : IbSrc.datatype_t) (xt : IbSrc.xt_t) (me : me_t) (data : data_t)
    (mem : Nat → Nat) : Nat → Nat :=
  (IbSrc.tgt_swap_data_in A F I opr0 src0 dst0 xt me data mem).2.2

/-- A masked swap with mask `0x0f` on `PTL_UINT8_T`. -/
def mswap_xt : IbSrc.xt_t :=
  { operation := OP_SWAP, atom_op := 17, atom_type := 1, operand := 0x0f, rlength := 1,
    mlength := 1, moffset := 0 }

/-- A payload whose first byte is `0xAB`. -/
def payload_ab : data_t :=
  { data_fmt := DATA_FMT_IMMEDIATE, immediate_data := fun i => if i = 0 then 0xAB else 0 }

/-- A memory whose byte at address 1000 is `0xCD`. -/
def mem_cd : Nat → Nat := fun a => if a = 1000 then 0xCD else 0

/-- The width in bits at which `~` is applied in the case of a datatype: `int` after
promotion for the members of 8 and 16 bits, 32 bits for `u32`, 64 bits for `u64`. -/
def IbSrc.bits_type.promoted (T : IbSrc.bits_type) : Nat := if T.size = 8 then 64 else 32

/-- The function `check_perm` of `ib/src/ptl_tgt.c`: `some true` for `PTL_FAIL`,
`some false` for `PTL_OK`, `none` when the operation reaches `assert(0)` in the
`default` branch. -/
def IbSrc.check_perm (A : IbSrc.Codes) (K : Consts) (xt : IbSrc.xt_t) (le : me_t) :
    Option Bool :=
  if le.options.PTL_ME_AUTH_USE_JID &&
      (!(le.jid == A.PTL_JID_ANY || le.jid == xt.jid) ||
       !(le.uid == K.PTL_UID_ANY || le.uid == xt.uid)) then
    some true
  else if xt.operation == OP_ATOMIC || xt.operation == OP_PUT then
    some (!le.options.PTL_ME_OP_PUT)
  else if xt.operation == OP_GET then
    some (!le.options.PTL_ME_OP_GET)
  else if xt.operation == OP_FETCH || xt.operation == OP_SWAP then
    some (!(le.options.PTL_ME_OP_PUT && le.options.PTL_ME_OP_GET))
  else
    none

/-- The function `match_le_unexpected` of `ib/src/ptl_tgt.c`, as a walk of the
unexpected list of the table entry of the element: the list `xt_list` it builds
and the unexpected list it leaves, or `none` when `check_perm` stops the process. -/
def IbSrc.match_le_unexpected (A : IbSrc.Codes) (K : Consts) (ni_options : ni_options_t)
    (le : me_t) : List IbSrc.xt_t → Option (List IbSrc.xt_t × List IbSrc.xt_t)
  | [] => some ([], [])
  | xt :: rest =>
    if ni_options.PTL_NI_NO_MATCHING || IbSrc.check_match K ni_options xt le then
      match IbSrc.check_perm A K xt le with
      | none => none
      | some false =>
        if le.options.PTL_ME_USE_ONCE then some ([xt], rest)
        else
          (IbSrc.match_le_unexpected A K ni_options le rest).map (fun r => (xt :: r.1, r.2))
      | some true =>
        (IbSrc.match_le_unexpected A K ni_options le rest).map (fun r => (r.1, xt :: r.2))
    else
      (IbSrc.match_le_unexpected A K ni_options le rest).map (fun r => (r.1, xt :: r.2))

/-- Calls made by the late matching functions of the older variant. -/
inductive IbSrc.call where
  | le_get (le : Nat)
  | process_tgt (xt : IbSrc.xt_t)
  | xt_put (xt : IbSrc.xt_t)
  | make_target_event (xt : IbSrc.xt_t) (type : ptl_event_kind_t) (user_ptr : Nat)
      (start : Option Nat)
  | make_le_event (le : Nat) (type : ptl_event_kind_t) (ni_fail : ptl_ni_fail_t)
  deriving DecidableEq

/-- The loop of `check_overflow` over the descriptors `match_le_unexpected` moved to
`xt_list`: the descriptors with the element `h` assigned to `matching.le` and the
calls made, or `none` when `assert(xt->matching.le == NULL)` fails. `process_tgt`
is called for a descriptor that waits in `STATE_TGT_WAIT_APPEND`; its status only
leads to a warning. -/
def IbSrc.check_overflow_loop (h : Nat) :
    List IbSrc.xt_t → Option (List IbSrc.xt_t × List IbSrc.call)
  | [] => some ([], [])
  | xt :: rest =>
    if xt.matching_le.isSome then none
    else
      let xt1 : IbSrc.xt_t := { xt with matching_le := some h }
      let calls : List IbSrc.call :=
        [IbSrc.call.le_get h] ++
        (if xt1.state == STATE_TGT_WAIT_APPEND then [IbSrc.call.process_tgt xt1] else []) ++
        [IbSrc.call.xt_put xt1]
      (IbSrc.check_overflow_loop h rest).map (fun r => (xt1 :: r.1, calls ++ r.2))

/-- The function `check_overflow` of `ib/src/ptl_tgt.c` for the element `le` with
handle `h`: the value returned, the unexpected list it leaves, the descriptors it
processed and the calls made. The table entry lock is not represented. -/
def IbSrc.check_overflow (A : IbSrc.Codes) (K : Consts) (ni_options : ni_options_t)
    (h : Nat) (le : me_t) (unexpected_list : List IbSrc.xt_t) :
    Option (Bool × List IbSrc.xt_t × List IbSrc.xt_t × List IbSrc.call) :=
  match IbSrc.match_le_unexpected A K ni_options le unexpected_list with
  | none => none
  | some (xt_list, unexpected_list) =>
    let ret := !xt_list.isEmpty
    if ret then
      (IbSrc.check_overflow_loop h xt_list).map (fun r => (ret, unexpected_list, r.1, r.2))
    else some (ret, unexpected_list, [], [])

/-- The loop of `check_overflow_search_only`: the copy `xt_dup` of the first
descriptor that passes the test, if there is one; `none` when `check_perm` stops
the process. -/
def IbSrc.search_only_loop (A : IbSrc.Codes) (K : Consts) (ni_options : ni_options_t)
    (le : me_t) : List IbSrc.xt_t → Option (Option IbSrc.xt_t)
  | [] => some none
  | xt :: rest =>
    if ni_options.PTL_NI_NO_MATCHING || IbSrc.check_match K ni_options xt le then
      match IbSrc.check_perm A K xt le with
      | none => none
      | some false => some (some xt)
      | some true => IbSrc.search_only_loop A K ni_options le rest
    else IbSrc.search_only_loop A K ni_options le rest

/-- The function `check_overflow_search_only` of `ib/src/ptl_tgt.c` for the element
`le` with handle `h`, where `le_eq` tells whether `le->eq` is set: the status
returned (`false` is `PTL_OK`), the unexpected list it leaves and the calls
made. -/
def IbSrc.check_overflow_search_only (A : IbSrc.Codes) (K : Consts)
    (ni_options : ni_options_t) (h : Nat) (le : me_t) (le_eq : Bool)
    (unexpected_list : List IbSrc.xt_t) : Option (Bool × List IbSrc.xt_t × List IbSrc.call) :=
  match IbSrc.search_only_loop A K ni_options le unexpected_list with
  | none => none
  | some found =>
    let calls : List IbSrc.call :=
      if le_eq then
        match found with
        | some xt_dup =>
          let xt_dup : IbSrc.xt_t := { xt_dup with ni_fail := PTL_NI_OK }
          [IbSrc.call.make_target_event xt_dup PTL_EVENT_SEARCH le.user_ptr none]
        | none => [IbSrc.call.make_le_event h PTL_EVENT_SEARCH PTL_NI_UNDELIVERABLE]
      else []
    some (false, unexpected_list, calls)

/-- The test of the late matching walk on one descriptor: the interface is
non-matching or `check_match` holds, and `check_perm` passes. -/
def late_match (A : IbSrc.Codes) (K : Consts) (ni_options : ni_options_t) (le : me_t)
    (xt : IbSrc.xt_t) : Bool :=
  (ni_options.PTL_NI_NO_MATCHING || IbSrc.check_match K ni_options xt le) &&
    (IbSrc.check_perm A K xt le == some false)

/-- The full events among the calls of the late matching functions. -/
def search_events (calls : List IbSrc.call) : List (ptl_event_kind_t × ptl_ni_fail_t) :=
  calls.filterMap (fun c => match c with
    | IbSrc.call.make_target_event xt type _ _ => some (type, xt.ni_fail)
    | IbSrc.call.make_le_event _ type ni_fail => some (type, ni_fail)
    | _ => none)

/-- Whether a call posts an event. -/
def IbSrc.call.is_event : IbSrc.call → Bool
  | IbSrc.call.make_target_event _ _ _ _ => true
  | IbSrc.call.make_le_event _ _ _ => true
  | _ => false

/-- A descriptor on the unexpected list: the request of `sample_xt` with the given
match bits and operation, waiting in `STATE_TGT_WAIT_APPEND`. -/
def late_xt (match_bits operation : Nat) : IbSrc.xt_t :=
  { sample_xt with match_bits := match_bits, operation := operation,
                   state := STATE_TGT_WAIT_APPEND }

/-- An unexpected list of four descriptors: the first and the last match the sample
element and are permitted, the second does not match, the third matches but is a
GET, which the sample element does not permit. -/
def sample_unexpected : List IbSrc.xt_t :=
  [late_xt 0x5a OP_PUT, late_xt 0x60 OP_PUT, late_xt 0x5b OP_GET, late_xt 0x51 OP_PUT]

/-- The states of the initiator state machine of `src/ib/ptl_init.c`
(`init_state_name`). -/
inductive init_state where
  | STATE_INIT_START
  | STATE_INIT_PREP_REQ
  | STATE_INIT_WAIT_CONN
  | STATE_INIT_SEND_REQ
  | STATE_INIT_WAIT_COMP
  | STATE_INIT_SEND_ERROR
  | STATE_INIT_EARLY_SEND_EVENT
  | STATE_INIT_WAIT_RECV
  | STATE_INIT_DATA_IN
  | STATE_INIT_LATE_SEND_EVENT
  | STATE_INIT_ACK_EVENT
  | STATE_INIT_REPLY_EVENT
  | STATE_INIT_CLEANUP
  | STATE_INIT_ERROR
  | STATE_INIT_DONE
  deriving DecidableEq, Repr

open init_state

/-- The bits of `buf->event_mask` used on the initiator side. -/
structure xi_event_mask_t where
  XI_SEND_EVENT : Bool := false
  XI_ACK_EVENT : Bool := false
  XI_REPLY_EVENT : Bool := false
  XI_CT_SEND_EVENT : Bool := false
  XI_CT_ACK_EVENT : Bool := false
  XI_CT_REPLY_EVENT : Bool := false
  XI_RECEIVE_EXPECTED : Bool := false
  XI_PUT_SUCCESS_DISABLE_EVENT : Bool := false
  XI_GET_SUCCESS_DISABLE_EVENT : Bool := false
  XI_PUT_CT_BYTES : Bool := false
  XI_GET_CT_BYTES : Bool := false
  deriving DecidableEq, Repr

/-- The bits of `md->options` the initiator tests. -/
structure md_options_t where
  PTL_MD_EVENT_SUCCESS_DISABLE : Bool := false
  PTL_MD_EVENT_CT_BYTES : Bool := false
  PTL_MD_EVENT_CT_SEND : Bool := false
  PTL_MD_EVENT_CT_ACK : Bool := false
  PTL_MD_EVENT_CT_REPLY : Bool := false
  deriving DecidableEq, Repr

/-- A memory descriptor `md_t`: `eq` and `ct` tell whether an event queue and a
counting event are attached. -/
structure md_t where
  options : md_options_t := {}
  eq : Bool := false
  ct : Bool := false
  start : Nat := 0
  num_iov : Nat := 0
  deriving DecidableEq, Repr

/-- The fields of the request header the initiator reads or writes. -/
structure init_hdr_t where
  version : Nat := 0
  ni_type : Nat := 0
  pkt_fmt : Nat := 0
  dst_nid : Nat := 0
  dst_pid : Nat := 0
  src_nid : Nat := 0
  src_pid : Nat := 0
  hdr_size : Nat := 0
  handle : Nat := 0
  operation : Nat := 0
  ack_req : Nat := 0
  data_in : Nat := 0
  data_out : Nat := 0
  length : Nat := 0
  deriving DecidableEq, Repr

/-- The fields of a message buffer `buf_t` the initiator state machine uses. `data`
is the request header; `recv_buf` is the header of the response, once it has been
received; `data_in` is the data segment of the response; `put_eq`, `get_eq`,
`put_ct` and `get_ct` tell whether the queues and counters the events go to are
set; `handle` is the value of `buf_to_handle(buf)` and `addr` the address of the
buffer. -/
structure init_buf_t where
  addr : Nat := 0
  handle : Nat := 0
  data : init_hdr_t := {}
  length : Nat := 0
  init_state : init_state := STATE_INIT_START
  event_mask : xi_event_mask_t := {}
  put_md : Option md_t := none
  get_md : Option md_t := none
  put_eq : Bool := false
  get_eq : Bool := false
  put_ct : Bool := false
  get_ct : Bool := false
  put_offset : Nat := 0
  get_offset : Nat := 0
  target : ptl_process_t := {}
  ni_fail : ptl_ni_fail_t := PTL_NI_OK
  mlength : Nat := 0
  moffset : Nat := 0
  num_mr : Nat := 0
  signaled : Bool := false
  completed : Bool := false
  recv_buf : Option ack_hdr_t := none
  data_in : Option data_t := none

/-- Kinds of full events posted by the initiator. -/
inductive init_event_t where
  | PTL_EVENT_SEND
  | PTL_EVENT_ACK
  | PTL_EVENT_REPLY
  deriving DecidableEq, Repr

/-- The modes of a counting event update made by the initiator. -/
inductive init_ct_t where
  | CT_EVENTS
  | CT_RBYTES
  | CT_MBYTES
  deriving DecidableEq, Repr

/-- Calls the initiator makes to functions outside `ptl_init.c`, in the order they
are made, together with the state name `process_init` prints at every turn of its
loop. `md_put put` releases the put descriptor (`put = true`) or the get
descriptor. An event carries the `ni_fail` of the buffer at the time of the call;
a counting event also carries `mlength` and the kind of the function that made it
(`make_ct_send_event`, `make_ct_ack_event` or `make_ct_reply_event`). -/
inductive init_call where
  | state (s : init_state)
  | append_init_data (put : Bool) (dir : data_dir_t) (offset length : Nat)
  | set_buf_dest
  | send_message (signaled : Bool)
  | init_connect
  | md_put (put : Bool)
  | make_init_event (eq : Bool) (type : init_event_t) (ni_fail : ptl_ni_fail_t)
  | make_ct_event (kind : init_event_t) (ct : Bool) (mode : init_ct_t)
      (ni_fail : ptl_ni_fail_t) (mlength : Nat)
  | iov_copy_in
  | buf_put_recv_buf
  | buf_put
  deriving DecidableEq, Repr

/-- The fields of the interface the initiator reads. -/
structure init_ni_t where
  ni_type : Nat := 0
  id : ptl_process_t := {}
  deriving DecidableEq, Repr

/-- Everything `process_init` reads or writes: the interface, the connection to the
target, process memory, the message buffer, and the calls made so far. -/
structure init_world where
  ni : init_ni_t := {}
  conn : conn_t := {}
  mem : Nat → Nat
  buf : init_buf_t
  trace : List init_call := []

/-- The results of the functions `process_init` calls but `ptl_init.c` does not
define, each as a function of the current world, and the size of the request
header. `append_init_data` returns its status, the format of the data segment it
appended, and the new values of `buf->length` and `buf->num_mr`. -/
structure init_collab where
  sizeof_req_hdr : Nat
  append_init_data : init_world → Bool × data_fmt_t × Nat × Nat
  send_message : init_world → Bool
  init_connect : init_world → Bool
  iov_copy_in : init_world → Bool × (Nat → Nat)

/-- Appending a call to the record of calls. -/
def init_world.log (w : init_world) (a : init_call) : init_world :=
  { w with trace := w.trace ++ [a] }

/-- The result of one state function of the initiator: the next state, or the
process was stopped by `abort()`, a failed `assert`, or a null pointer dereference. -/
inductive init_step where
  | next (w : init_world) (s : init_state)
  | abort (w : init_world)

/-- The world a state function leaves behind. -/
def init_step.world : init_step → init_world
  | init_step.next w _ => w
  | init_step.abort w => w

/-- The next state of a state function that returned. -/
def init_step.state : init_step → Option init_state
  | init_step.next _ s => some s
  | init_step.abort _ => none

/-- The function `make_send_event`. -/
def PtlInit.make_send_event (w : init_world) : init_world :=
  let w : init_world :=
    if w.buf.ni_fail != PTL_NI_OK || !w.buf.event_mask.XI_PUT_SUCCESS_DISABLE_EVENT then
      w.log (init_call.make_init_event w.buf.put_eq init_event_t.PTL_EVENT_SEND w.buf.ni_fail)
    else w
  { w with buf.event_mask.XI_SEND_EVENT := false }

/-- The function `make_ack_event`. -/
def PtlInit.make_ack_event (w : init_world) : init_world :=
  let w : init_world :=
    if w.buf.ni_fail != PTL_NI_OK || !w.buf.event_mask.XI_PUT_SUCCESS_DISABLE_EVENT then
      w.log (init_call.make_init_event w.buf.put_eq init_event_t.PTL_EVENT_ACK w.buf.ni_fail)
    else w
  { w with buf.event_mask.XI_ACK_EVENT := false }

/-- The function `make_reply_event`. -/
def PtlInit.make_reply_event (w : init_world) : init_world :=
  let w : init_world :=
    if w.buf.ni_fail != PTL_NI_OK || !w.buf.event_mask.XI_GET_SUCCESS_DISABLE_EVENT then
      w.log (init_call.make_init_event w.buf.get_eq init_event_t.PTL_EVENT_REPLY w.buf.ni_fail)
    else w
  { w with buf.event_mask.XI_REPLY_EVENT := false }

/-- The function `make_ct_send_event`. -/
def PtlInit.make_ct_send_event (w : init_world) : init_world :=
  let bytes := if w.buf.event_mask.XI_PUT_CT_BYTES then init_ct_t.CT_RBYTES
    else init_ct_t.CT_EVENTS
  let w := w.log (init_call.make_ct_event init_event_t.PTL_EVENT_SEND w.buf.put_ct bytes
    w.buf.ni_fail w.buf.mlength)
  { w with buf.event_mask.XI_CT_SEND_EVENT := false }

/-- The function `make_ct_ack_event`. -/
def PtlInit.make_ct_ack_event (w : init_world) : init_world :=
  let bytes := if w.buf.event_mask.XI_PUT_CT_BYTES then init_ct_t.CT_MBYTES
    else init_ct_t.CT_EVENTS
  let w := w.log (init_call.make_ct_event init_event_t.PTL_EVENT_ACK w.buf.put_ct bytes
    w.buf.ni_fail w.buf.mlength)
  { w with buf.event_mask.XI_CT_ACK_EVENT := false }

/-- The function `make_ct_reply_event`. -/
def PtlInit.make_ct_reply_event (w : init_world) : init_world :=
  let bytes := if w.buf.event_mask.XI_GET_CT_BYTES then init_ct_t.CT_MBYTES
    else init_ct_t.CT_EVENTS
  let w := w.log (init_call.make_ct_event init_event_t.PTL_EVENT_REPLY w.buf.get_ct bytes
    w.buf.ni_fail w.buf.mlength)
  { w with buf.event_mask.XI_CT_REPLY_EVENT := false }

/-- The bits `start` sets from the options of the two descriptors, before the
`switch (hdr->operation)`. -/
def PtlInit.start_options (buf : init_buf_t) : xi_event_mask_t :=
  let mask : xi_event_mask_t := {}
  let mask : xi_event_mask_t :=
    match buf.put_md with
    | some md =>
      { mask with
        XI_PUT_SUCCESS_DISABLE_EVENT := md.options.PTL_MD_EVENT_SUCCESS_DISABLE,
        XI_PUT_CT_BYTES := md.options.PTL_MD_EVENT_CT_BYTES }
    | none => mask
  match buf.get_md with
  | some md =>
    { mask with
      XI_GET_SUCCESS_DISABLE_EVENT := md.options.PTL_MD_EVENT_SUCCESS_DISABLE,
      XI_GET_CT_BYTES := md.options.PTL_MD_EVENT_CT_BYTES }
  | none => mask

/-- The case `OP_PUT`, `OP_ATOMIC` of the `switch (hdr->operation)` of `start`. The
test of `PTL_MD_EVENT_CT_ACK` stands in a block of its own after the `if` on the
counting ack requests, so it is made for every `ack_req`. -/
def PtlInit.start_put (hdr : init_hdr_t) (put_md : md_t) (mask : xi_event_mask_t) :
    xi_event_mask_t :=
  let mask : xi_event_mask_t :=
    if put_md.eq then { mask with XI_SEND_EVENT := true } else mask
  let mask : xi_event_mask_t :=
    if hdr.ack_req == PTL_ACK_REQ then
      let mask : xi_event_mask_t := { mask with XI_RECEIVE_EXPECTED := true }
      if put_md.eq then { mask with XI_ACK_EVENT := true } else mask
    else mask
  let mask : xi_event_mask_t :=
    if put_md.ct && put_md.options.PTL_MD_EVENT_CT_SEND then
      { mask with XI_CT_SEND_EVENT := true }
    else mask
  let mask : xi_event_mask_t :=
    if hdr.ack_req == PTL_CT_ACK_REQ || hdr.ack_req == PTL_OC_ACK_REQ then
      { mask with XI_RECEIVE_EXPECTED := true }
    else mask
  if put_md.ct && put_md.options.PTL_MD_EVENT_CT_ACK then
    { mask with XI_CT_ACK_EVENT := true }
  else mask

/-- The case `OP_GET` of the `switch (hdr->operation)` of `start`. -/
def PtlInit.start_get (get_md : md_t) (mask : xi_event_mask_t) : xi_event_mask_t :=
  let mask : xi_event_mask_t :=
    if get_md.eq then { mask with XI_REPLY_EVENT := true } else mask
  if get_md.ct && get_md.options.PTL_MD_EVENT_CT_REPLY then
    { mask with XI_CT_REPLY_EVENT := true }
  else mask

/-- The case `OP_FETCH`, `OP_SWAP` of the `switch (hdr->operation)` of `start`. -/
def PtlInit.start_swap (put_md get_md : md_t) (mask : xi_event_mask_t) : xi_event_mask_t :=
  let mask : xi_event_mask_t :=
    if put_md.eq then { mask with XI_SEND_EVENT := true } else mask
  let mask : xi_event_mask_t :=
    if get_md.eq then { mask with XI_REPLY_EVENT := true } else mask
  let mask : xi_event_mask_t :=
    if put_md.ct && put_md.options.PTL_MD_EVENT_CT_SEND then
      { mask with XI_CT_SEND_EVENT := true }
    else mask
  if get_md.ct && get_md.options.PTL_MD_EVENT_CT_REPLY then
    { mask with XI_CT_REPLY_EVENT := true }
  else mask

/-- The function `start`. A descriptor the `switch (hdr->operation)` reads through
a null pointer stops the process. -/
def PtlInit.start (w : init_world) : init_step :=
  let hdr := w.buf.data
  let mask := PtlInit.start_options w.buf
  if hdr.operation == OP_PUT || hdr.operation == OP_ATOMIC then
    match w.buf.put_md with
    | none => init_step.abort { w with buf.event_mask := mask }
    | some put_md =>
      init_step.next { w with buf.event_mask := PtlInit.start_put hdr put_md mask }
        STATE_INIT_PREP_REQ
  else if hdr.operation == OP_GET then
    let mask : xi_event_mask_t := { mask with XI_RECEIVE_EXPECTED := true }
    match w.buf.get_md with
    | none => init_step.abort { w with buf.event_mask := mask }
    | some get_md =>
      init_step.next { w with buf.event_mask := PtlInit.start_get get_md mask }
        STATE_INIT_PREP_REQ
  else if hdr.operation == OP_FETCH || hdr.operation == OP_SWAP then
    let mask : xi_event_mask_t := { mask with XI_RECEIVE_EXPECTED := true }
    match w.buf.put_md, w.buf.get_md with
    | some put_md, some get_md =>
      init_step.next { w with buf.event_mask := PtlInit.start_swap put_md get_md mask }
        STATE_INIT_PREP_REQ
    | _, _ => init_step.abort { w with buf.event_mask := mask }
  else
    init_step.abort { w with buf.event_mask := mask }

/-- The end of `prepare_req`, after the data segments have been appended:
`put_data` is the format of the segment of the put descriptor, if there is one. -/
def PtlInit.prepare_req_end (K : Consts) (w : init_world) (put_data : Option data_fmt_t) :
    init_step :=
  let sends := w.buf.event_mask.XI_SEND_EVENT || w.buf.event_mask.XI_CT_SEND_EVENT
  let w : init_world :=
    if (match put_data with
        | some fmt => fmt != DATA_FMT_IMMEDIATE && sends
        | none => false) || w.buf.num_mr != 0 then
      { w with buf.data.ack_req := PTL_ACK_REQ, buf.event_mask.XI_RECEIVE_EXPECTED := true }
    else w
  let w : init_world :=
    { w with buf.signaled :=
      (match put_data with
       | some fmt => fmt == DATA_FMT_IMMEDIATE && sends
       | none => false) }
  if w.conn.state ≥ K.CONN_STATE_CONNECTED then init_step.next w STATE_INIT_SEND_REQ
  else init_step.next w STATE_INIT_WAIT_CONN

/-- One call of `append_init_data` in `prepare_req`, for the put descriptor
(`put = true`) or the get descriptor: the status, the format of the appended
segment, and the world. -/
def PtlInit.append_data (C : init_collab) (w : init_world) (put : Bool) :
    Bool × data_fmt_t × init_world :=
  let r := C.append_init_data w
  let w := w.log (init_call.append_init_data put
    (if put then DATA_DIR_OUT else DATA_DIR_IN)
    (if put then w.buf.put_offset else w.buf.get_offset) w.buf.data.length)
  (r.1, r.2.1, { w with buf.length := r.2.2.1, buf.num_mr := r.2.2.2 })

/-- The function `prepare_req`. -/
def PtlInit.prepare_req (K : Consts) (C : init_collab) (w : init_world) : init_step :=
  let hdr : init_hdr_t :=
    { w.buf.data with
      version := PTL_HDR_VER_1, ni_type := w.ni.ni_type, pkt_fmt := PKT_FMT_REQ,
      dst_nid := w.buf.target.nid, dst_pid := w.buf.target.pid,
      src_nid := w.ni.id.nid, src_pid := w.ni.id.pid,
      hdr_size := C.sizeof_req_hdr, handle := w.buf.handle }
  let w : init_world := { w with buf.data := hdr, buf.length := C.sizeof_req_hdr }
  if hdr.operation == OP_PUT || hdr.operation == OP_ATOMIC then
    let w : init_world := { w with buf.data.data_in := 0, buf.data.data_out := 1 }
    let r := PtlInit.append_data C w true
    if r.1 then init_step.next r.2.2 STATE_INIT_ERROR
    else PtlInit.prepare_req_end K r.2.2 (some r.2.1)
  else if hdr.operation == OP_GET then
    let w : init_world := { w with buf.data.data_in := 1, buf.data.data_out := 0 }
    let r := PtlInit.append_data C w false
    if r.1 then init_step.next r.2.2 STATE_INIT_ERROR
    else PtlInit.prepare_req_end K r.2.2 none
  else if hdr.operation == OP_FETCH || hdr.operation == OP_SWAP then
    let w : init_world := { w with buf.data.data_in := 1, buf.data.data_out := 1 }
    let r := PtlInit.append_data C w false
    if r.1 then init_step.next r.2.2 STATE_INIT_ERROR
    else
      let q := PtlInit.append_data C r.2.2 true
      if q.1 then init_step.next q.2.2 STATE_INIT_ERROR
      else PtlInit.prepare_req_end K q.2.2 (some q.2.1)
  else
    init_step.abort w

/-- The function `wait_conn`. -/
def PtlInit.wait_conn (K : Consts) (C : init_collab) (w : init_world) : init_step :=
  if w.conn.state ≥ K.CONN_STATE_CONNECTED then
    init_step.next w STATE_INIT_SEND_REQ
  else if w.conn.state < K.CONN_STATE_CONNECTED then
    let w : init_world := { w with conn.buf_list := w.conn.buf_list ++ [w.buf.addr] }
    if w.conn.state == K.CONN_STATE_DISCONNECTED then
      let err := C.init_connect w
      let w := w.log init_call.init_connect
      if err then
        init_step.next { w with conn.buf_list := w.conn.buf_list.erase w.buf.addr }
          STATE_INIT_ERROR
      else
        init_step.next w STATE_INIT_WAIT_CONN
    else
      init_step.next w STATE_INIT_WAIT_CONN
  else
    init_step.next w STATE_INIT_SEND_REQ

/-- The function `send_req` (build without `USE_XRC`). -/
def PtlInit.send_req (K : Consts) (C : init_collab) (w : init_world) : init_step :=
  let signaled := w.buf.signaled
  let w := w.log init_call.set_buf_dest
  let err := C.send_message w
  let w := w.log (init_call.send_message signaled)
  if err then init_step.next w STATE_INIT_SEND_ERROR
  else if signaled then
    if w.conn.transport_type == K.CONN_TYPE_RDMA then init_step.next w STATE_INIT_WAIT_COMP
    else init_step.next w STATE_INIT_EARLY_SEND_EVENT
  else if w.buf.event_mask.XI_RECEIVE_EXPECTED then init_step.next w STATE_INIT_WAIT_RECV
  else init_step.next w STATE_INIT_CLEANUP

/-- The function `send_error`. -/
def PtlInit.send_error (w : init_world) : init_step :=
  let w : init_world := { w with buf.ni_fail := PTL_NI_UNDELIVERABLE }
  if w.buf.event_mask.XI_SEND_EVENT || w.buf.event_mask.XI_CT_SEND_EVENT then
    init_step.next w STATE_INIT_LATE_SEND_EVENT
  else if w.buf.event_mask.XI_ACK_EVENT || w.buf.event_mask.XI_CT_ACK_EVENT then
    init_step.next w STATE_INIT_ACK_EVENT
  else if w.buf.event_mask.XI_REPLY_EVENT || w.buf.event_mask.XI_CT_REPLY_EVENT then
    init_step.next w STATE_INIT_REPLY_EVENT
  else
    init_step.next w STATE_INIT_CLEANUP

/-- The function `wait_comp`. -/
def PtlInit.wait_comp (w : init_world) : init_step :=
  if w.buf.completed || w.buf.recv_buf.isSome then
    init_step.next w STATE_INIT_EARLY_SEND_EVENT
  else init_step.next w STATE_INIT_WAIT_COMP

/-- The two event calls at the head of `early_send_event` and `late_send_event`,
after the put descriptor has been released; `early` tells whether `mlength` is
first set to the requested length. -/
def PtlInit.send_events (w : init_world) (early : Bool) : init_world :=
  let w := if w.buf.event_mask.XI_SEND_EVENT then PtlInit.make_send_event w else w
  if w.buf.event_mask.XI_CT_SEND_EVENT then
    let w : init_world := if early then { w with buf.mlength := w.buf.data.length } else w
    PtlInit.make_ct_send_event w
  else w

/-- The function `early_send_event`. `md_put(buf->put_md)` dereferences the
descriptor. -/
def PtlInit.early_send_event (w : init_world) : init_step :=
  match w.buf.put_md with
  | none => init_step.abort w
  | some _ =>
    let w : init_world := { (w.log (init_call.md_put true)) with buf.put_md := none }
    let w := PtlInit.send_events w true
    if w.buf.event_mask.XI_RECEIVE_EXPECTED && w.buf.ni_fail != PTL_NI_UNDELIVERABLE then
      init_step.next w STATE_INIT_WAIT_RECV
    else init_step.next w STATE_INIT_CLEANUP

/-- The function `wait_recv`. -/
def PtlInit.wait_recv (w : init_world) : init_step :=
  match w.buf.recv_buf with
  | none => init_step.next w STATE_INIT_WAIT_RECV
  | some hdr =>
    let w : init_world :=
      { w with buf.ni_fail := hdr.ni_fail, buf.mlength := hdr.length, buf.moffset := hdr.offset }
    if w.buf.data_in.isSome && w.buf.get_md.isSome then
      init_step.next w STATE_INIT_DATA_IN
    else if w.buf.event_mask.XI_SEND_EVENT || w.buf.event_mask.XI_CT_SEND_EVENT then
      init_step.next w STATE_INIT_LATE_SEND_EVENT
    else if w.buf.event_mask.XI_ACK_EVENT || w.buf.event_mask.XI_CT_ACK_EVENT then
      init_step.next w STATE_INIT_ACK_EVENT
    else if w.buf.event_mask.XI_REPLY_EVENT || w.buf.event_mask.XI_CT_REPLY_EVENT then
      init_step.next w STATE_INIT_REPLY_EVENT
    else
      init_step.next w STATE_INIT_CLEANUP

/-- The function `data_in`. -/
def PtlInit.data_in (C : init_collab) (w : init_world) : init_step :=
  match w.buf.get_md, w.buf.data_in with
  | some md, some data =>
    if data.data_fmt != DATA_FMT_IMMEDIATE then init_step.abort w
    else
      let c : Bool × init_world :=
        if md.num_iov != 0 then
          let r := C.iov_copy_in w
          (r.1, { (w.log init_call.iov_copy_in) with mem := r.2 })
        else
          (false, { w with
            mem := RuntimeDevel.memcpy w.mem (md.start + w.buf.get_offset)
              data.immediate_data w.buf.mlength })
      if c.1 then init_step.next c.2 STATE_INIT_ERROR
      else
        let w := c.2
        if w.buf.event_mask.XI_SEND_EVENT || w.buf.event_mask.XI_CT_SEND_EVENT then
          init_step.next w STATE_INIT_LATE_SEND_EVENT
        else if w.buf.event_mask.XI_REPLY_EVENT || w.buf.event_mask.XI_CT_REPLY_EVENT then
          init_step.next w STATE_INIT_REPLY_EVENT
        else
          init_step.next w STATE_INIT_CLEANUP
  | _, _ => init_step.abort w

/-- The function `late_send_event`. -/
def PtlInit.late_send_event (w : init_world) : init_step :=
  match w.buf.put_md with
  | none => init_step.abort w
  | some _ =>
    let w : init_world := { (w.log (init_call.md_put true)) with buf.put_md := none }
    let w := PtlInit.send_events w false
    if w.buf.ni_fail == PTL_NI_UNDELIVERABLE then
      init_step.next w STATE_INIT_CLEANUP
    else if w.buf.event_mask.XI_ACK_EVENT || w.buf.event_mask.XI_CT_ACK_EVENT then
      init_step.next w STATE_INIT_ACK_EVENT
    else if w.buf.event_mask.XI_REPLY_EVENT || w.buf.event_mask.XI_CT_REPLY_EVENT then
      init_step.next w STATE_INIT_REPLY_EVENT
    else
      init_step.next w STATE_INIT_CLEANUP

/-- The function `ack_event`. -/
def PtlInit.ack_event (w : init_world) : init_step :=
  let w : init_world :=
    if w.buf.put_md.isSome then
      { (w.log (init_call.md_put true)) with buf.put_md := none }
    else w
  let w := if w.buf.event_mask.XI_ACK_EVENT then PtlInit.make_ack_event w else w
  let w := if w.buf.event_mask.XI_CT_ACK_EVENT then PtlInit.make_ct_ack_event w else w
  init_step.next w STATE_INIT_CLEANUP

/-- The function `reply_event`. `md_put(buf->get_md)` dereferences the
descriptor. -/
def PtlInit.reply_event (w : init_world) : init_step :=
  match w.buf.get_md with
  | none => init_step.abort w
  | some _ =>
    let w : init_world := { (w.log (init_call.md_put false)) with buf.get_md := none }
    let w := if w.buf.event_mask.XI_REPLY_EVENT then PtlInit.make_reply_event w else w
    let w := if w.buf.event_mask.XI_CT_REPLY_EVENT then PtlInit.make_ct_reply_event w else w
    init_step.next w STATE_INIT_CLEANUP

/-- The function `cleanup`. -/
def PtlInit.cleanup (w : init_world) : init_world :=
  let w : init_world :=
    if w.buf.get_md.isSome then
      { (w.log (init_call.md_put false)) with buf.get_md := none }
    else w
  let w : init_world :=
    if w.buf.put_md.isSome then
      { (w.log (init_call.md_put true)) with buf.put_md := none }
    else w
  if w.buf.recv_buf.isSome then
    { (w.log init_call.buf_put_recv_buf) with buf.recv_buf := none }
  else w

/-- The cases of the `switch (state)` of `process_init` that call a state function
and go on with the state it returns. The cases `STATE_INIT_ERROR`,
`STATE_INIT_CLEANUP` and `STATE_INIT_DONE`, which do not, are in
`process_init_loop`. -/
def PtlInit.handler (K : Consts) (C : init_collab) (state : init_state) (w : init_world) :
    init_step :=
  match state with
  | STATE_INIT_START => PtlInit.start w
  | STATE_INIT_PREP_REQ => PtlInit.prepare_req K C w
  | STATE_INIT_WAIT_CONN => PtlInit.wait_conn K C w
  | STATE_INIT_SEND_REQ => PtlInit.send_req K C w
  | STATE_INIT_WAIT_COMP => PtlInit.wait_comp w
  | STATE_INIT_SEND_ERROR => PtlInit.send_error w
  | STATE_INIT_EARLY_SEND_EVENT => PtlInit.early_send_event w
  | STATE_INIT_WAIT_RECV => PtlInit.wait_recv w
  | STATE_INIT_DATA_IN => PtlInit.data_in C w
  | STATE_INIT_LATE_SEND_EVENT => PtlInit.late_send_event w
  | STATE_INIT_ACK_EVENT => PtlInit.ack_event w
  | STATE_INIT_REPLY_EVENT => PtlInit.reply_event w
  | STATE_INIT_ERROR => init_step.next w STATE_INIT_ERROR
  | STATE_INIT_CLEANUP => init_step.next w STATE_INIT_CLEANUP
  | STATE_INIT_DONE => init_step.next w STATE_INIT_DONE

/-- The cases of the `switch (state)` that leave the loop through `exit` when the
state function returns the state it was called in. -/
def PtlInit.suspends (state : init_state) : Bool :=
  state == STATE_INIT_WAIT_CONN || state == STATE_INIT_WAIT_COMP ||
  state == STATE_INIT_WAIT_RECV

/-- The result of a call of `process_init`: it returned (with its error status), the
process was stopped inside a state function, or the loop was cut off by the bound
on the number of turns. -/
inductive init_result where
  | returned (w : init_world) (err : Bool)
  | aborted (w : init_world)
  | out_of_fuel (w : init_world) (state : init_state)

/-- The loop of `process_init`, with a bound on the number of turns. Every turn
records the state name. Leaving through `exit` saves the state in
`buf->init_state` and returns `PTL_OK`. -/
def PtlInit.process_init_loop (K : Consts) (C : init_collab) :
    Nat → init_state → Bool → init_world → init_result
  | 0, state, _, w => init_result.out_of_fuel w state
  | n + 1, state, err, w =>
    let w := w.log (init_call.state state)
    match state with
    | STATE_INIT_ERROR => PtlInit.process_init_loop K C n STATE_INIT_CLEANUP true w
    | STATE_INIT_CLEANUP =>
      let w1 := PtlInit.cleanup w
      init_result.returned ({ w1 with buf.init_state := STATE_INIT_DONE }.log init_call.buf_put)
        err
    | STATE_INIT_DONE =>
      init_result.returned { w with buf.init_state := STATE_INIT_DONE } false
    | _ =>
      match PtlInit.handler K C state w with
      | init_step.abort w1 => init_result.aborted w1
      | init_step.next w1 s1 =>
        if PtlInit.suspends state && s1 == state then
          init_result.returned { w1 with buf.init_state := s1 } false
        else PtlInit.process_init_loop K C n s1 err w1

/-- The function `process_init`: the loop started in the state saved in the buffer,
with `err = PTL_OK`. The lock and unlock of `buf->mutex` are not represented. -/
def PtlInit.process_init (K : Consts) (C : init_collab) (fuel : Nat) (w : init_world) :
    init_result :=
  PtlInit.process_init_loop K C fuel w.buf.init_state false w

/-- The events among the calls, in order: the kind, and whether the call updates a
counting event. -/
def init_event_kinds (t : List init_call) : List (init_event_t × Bool) :=
  t.filterMap (fun a => match a with
    | init_call.make_init_event _ type _ => some (type, false)
    | init_call.make_ct_event kind _ _ _ _ => some (kind, true)
    | _ => none)

/-- The six deliveries in the order of the specification: SEND, CT_SEND, ACK, CT_ACK,
REPLY, CT_REPLY. -/
def event_order : List (init_event_t × Bool) :=
  [(init_event_t.PTL_EVENT_SEND, false), (init_event_t.PTL_EVENT_SEND, true),
   (init_event_t.PTL_EVENT_ACK, false), (init_event_t.PTL_EVENT_ACK, true),
   (init_event_t.PTL_EVENT_REPLY, false), (init_event_t.PTL_EVENT_REPLY, true)]

/-- The two deliveries of the send class. -/
def send_order : List (init_event_t × Bool) :=
  [(init_event_t.PTL_EVENT_SEND, false), (init_event_t.PTL_EVENT_SEND, true)]

/-- A scan of the calls in order: `p` and `g` tell whether the put and the get
descriptor have been released so far; the scan fails at a SEND or ACK delivery made
before the put descriptor was released and at a REPLY delivery made before the get
descriptor was released. -/
def released_scan : Bool → Bool → List init_call → Bool
  | _, _, [] => true
  | p, g, a :: t =>
    match a with
    | init_call.md_put true => released_scan true g t
    | init_call.md_put false => released_scan p true t
    | init_call.make_init_event _ type _ =>
      (if type == init_event_t.PTL_EVENT_REPLY then g else p) && released_scan p g t
    | init_call.make_ct_event kind _ _ _ _ =>
      (if kind == init_event_t.PTL_EVENT_REPLY then g else p) && released_scan p g t
    | _ => released_scan p g t

/-- The calls that neither deliver an event nor release a descriptor. -/
def is_quiet (a : init_call) : Bool :=
  match a with
  | init_call.md_put _ => false
  | init_call.make_init_event _ _ _ => false
  | init_call.make_ct_event _ _ _ _ _ => false
  | _ => true

/-- The six event bits of the mask. -/
def event_bits (m : xi_event_mask_t) : List Bool :=
  [m.XI_SEND_EVENT, m.XI_CT_SEND_EVENT, m.XI_ACK_EVENT, m.XI_CT_ACK_EVENT, m.XI_REPLY_EVENT,
   m.XI_CT_REPLY_EVENT]

/-- The position of a state with respect to the events: 0 before any delivery, 1
where send deliveries may have been made, 2 in the ack and reply states, 3 after. -/
def init_phase : init_state → Nat
  | STATE_INIT_WAIT_RECV => 1
  | STATE_INIT_DATA_IN => 1
  | STATE_INIT_LATE_SEND_EVENT => 1
  | STATE_INIT_ACK_EVENT => 2
  | STATE_INIT_REPLY_EVENT => 2
  | STATE_INIT_CLEANUP => 3
  | STATE_INIT_ERROR => 3
  | STATE_INIT_DONE => 3
  | _ => 0

/-- What the rest of the runtime may change between two calls of `process_init` for
one buffer: anything but the record of calls, the saved state, the event mask and
the two descriptor pointers. -/
def init_same (w W : init_world) : Prop :=
  W.trace = w.trace ∧ W.buf.init_state = w.buf.init_state ∧
  W.buf.event_mask = w.buf.event_mask ∧ W.buf.put_md = w.buf.put_md ∧
  W.buf.get_md = w.buf.get_md

/-- The worlds in which `process_init` may be called for a buffer first seen in
`w0`: `w0` itself, the world a call returned in, and those worlds after a change
made by the rest of the runtime. -/
inductive init_reach (K : Consts) (C : init_collab) (w0 : init_world) : init_world → Prop where
  | start : init_reach K C w0 w0
  | call (w W : init_world) (fuel : Nat) (err : Bool) :
      init_reach K C w0 w →
      PtlInit.process_init K C fuel w = init_result.returned W err →
      init_reach K C w0 W
  | env (w W : init_world) : init_reach K C w0 w → init_same w W → init_reach K C w0 W

/-- The deliveries made so far, for a state of phase `p` and the mask `m`. -/
def ev_ok (p : Nat) (m : xi_event_mask_t) (l : List (init_event_t × Bool)) : Prop :=
  if p = 0 then l = []
  else if p = 1 then
    l.Sublist send_order ∧ (l ≠ [] → m.XI_SEND_EVENT = false ∧ m.XI_CT_SEND_EVENT = false)
  else if p = 2 then l.Sublist send_order
  else l.Sublist event_order

/-- The invariant of the loop of `process_init`: the calls made since `w0` pass the
scan, carry the deliveries allowed in the phase of the state, and an ack delivery
still pending finds the put descriptor set or already released. -/
def init_inv (w0 : init_world) (s : init_state) (w : init_world) : Prop :=
  ∃ T, w.trace = w0.trace ++ T ∧ released_scan false false T = true ∧
    ev_ok (init_phase s) w.buf.event_mask (init_event_kinds T) ∧
    (s ≠ STATE_INIT_START →
      (w.buf.event_mask.XI_ACK_EVENT = true ∨ w.buf.event_mask.XI_CT_ACK_EVENT = true) →
      w.buf.put_md.isSome = true ∨ init_call.md_put true ∈ T)

/-- The calls of the send deliveries of `early_send_event` and `late_send_event` in
the world `w`. -/
def send_calls (w : init_world) (early : Bool) : List init_call :=
  (if w.buf.event_mask.XI_SEND_EVENT &&
      (w.buf.ni_fail != PTL_NI_OK || !w.buf.event_mask.XI_PUT_SUCCESS_DISABLE_EVENT) then
    [init_call.make_init_event w.buf.put_eq init_event_t.PTL_EVENT_SEND w.buf.ni_fail]
   else []) ++
  (if w.buf.event_mask.XI_CT_SEND_EVENT then
    [init_call.make_ct_event init_event_t.PTL_EVENT_SEND w.buf.put_ct
      (if w.buf.event_mask.XI_PUT_CT_BYTES then init_ct_t.CT_RBYTES else init_ct_t.CT_EVENTS)
      w.buf.ni_fail (if early then w.buf.data.length else w.buf.mlength)]
   else [])

/-- The calls of the ack deliveries of `ack_event` in the world `w`. -/
def ack_calls (w : init_world) : List init_call :=
  (if w.buf.event_mask.XI_ACK_EVENT &&
      (w.buf.ni_fail != PTL_NI_OK || !w.buf.event_mask.XI_PUT_SUCCESS_DISABLE_EVENT) then
    [init_call.make_init_event w.buf.put_eq init_event_t.PTL_EVENT_ACK w.buf.ni_fail]
   else []) ++
  (if w.buf.event_mask.XI_CT_ACK_EVENT then
    [init_call.make_ct_event init_event_t.PTL_EVENT_ACK w.buf.put_ct
      (if w.buf.event_mask.XI_PUT_CT_BYTES then init_ct_t.CT_MBYTES else init_ct_t.CT_EVENTS)
      w.buf.ni_fail w.buf.mlength]
   else [])

/-- The calls of the reply deliveries of `reply_event` in the world `w`. -/
def reply_calls (w : init_world) : List init_call :=
  (if w.buf.event_mask.XI_REPLY_EVENT &&
      (w.buf.ni_fail != PTL_NI_OK || !w.buf.event_mask.XI_GET_SUCCESS_DISABLE_EVENT) then
    [init_call.make_init_event w.buf.get_eq init_event_t.PTL_EVENT_REPLY w.buf.ni_fail]
   else []) ++
  (if w.buf.event_mask.XI_CT_REPLY_EVENT then
    [init_call.make_ct_event init_event_t.PTL_EVENT_REPLY w.buf.get_ct
      (if w.buf.event_mask.XI_GET_CT_BYTES then init_ct_t.CT_MBYTES else init_ct_t.CT_EVENTS)
      w.buf.ni_fail w.buf.mlength]
   else [])

/-- The calls made between the worlds `w` and `W` all satisfy `P`. -/
def init_ext (P : init_call → Bool) (w W : init_world) : Prop :=
  w.trace <+: W.trace ∧ (W.trace.drop w.trace.length).all P = true

/-- What a state function that delivers no event and releases no descriptor leaves
alone, with the phase of the state it names. -/
def quiet_frame (s : init_state) (w : init_world) (r : init_step) : Prop :=
  init_ext is_quiet w r.world ∧
  r.world.buf.put_md = w.buf.put_md ∧ r.world.buf.get_md = w.buf.get_md ∧
  r.state.all (fun s1 => decide (init_phase s ≤ init_phase s1)) = true

/-- The world at the end of a call of `process_init`. -/
def init_result.world : init_result → init_world
  | init_result.returned w _ => w
  | init_result.aborted w => w
  | init_result.out_of_fuel w _ => w

/-- The states the loop of `process_init` went through, in order. -/
def init_states_of (t : List init_call) : List init_state :=
  t.filterMap (fun a => match a with
    | init_call.state s => some s
    | _ => none)

/-- The deliveries among the calls, in order: the kind, whether the call updates a
counting event, and the `ni_fail` it carries. -/
def init_deliveries (t : List init_call) : List (init_event_t × Bool × ptl_ni_fail_t) :=
  t.filterMap (fun a => match a with
    | init_call.make_init_event _ type f => some (type, false, f)
    | init_call.make_ct_event kind _ _ f _ => some (kind, true, f)
    | _ => none)

/-- Sample collaborators of the initiator: every call succeeds, data is appended as
immediate data of 16 bytes. -/
def sample_init_collab : init_collab :=
  { sizeof_req_hdr := 64,
    append_init_data := fun w => (false, DATA_FMT_IMMEDIATE, w.buf.length + 16, 0),
    send_message := fun _ => false, init_connect := fun _ => false,
    iov_copy_in := fun w => (false, w.mem) }

/-- Sample collaborators of the initiator whose transport refuses the message. -/
def failing_init_collab : init_collab :=
  { sample_init_collab with send_message := fun _ => true }

/-- A PUT of 16 bytes with a full ack request, from a descriptor with an event queue
and a counting event that counts sends and acks; the target is connected over a
transport other than RDMA. -/
def sample_init_world : init_world :=
  { conn := { state := 3, transport_type := 1 },
    mem := fun _ => 0,
    buf := { data := { operation := OP_PUT, ack_req := PTL_ACK_REQ, length := 16 },
             put_md := some { eq := true, ct := true,
                              options := { PTL_MD_EVENT_CT_SEND := true,
                                           PTL_MD_EVENT_CT_ACK := true } },
             put_eq := true, put_ct := true } }

/-- The sample world after a first call of `process_init`, which leaves the buffer
waiting for the response. -/
def sample_init_waiting : init_world :=
  (PtlInit.process_init sample_consts sample_init_collab 9 sample_init_world).world

/-- The waiting world once the ack of the target has arrived. -/
def sample_init_acked : init_world :=
  { sample_init_waiting with
    buf.recv_buf := some { ni_fail := PTL_NI_OK, length := 16, offset := 0 } }

/-- The sample world after the second call of `process_init`. -/
def sample_init_done : init_world :=
  (PtlInit.process_init sample_consts sample_init_collab 9 sample_init_acked).world

/-- The state `send_error` returns for the event mask `m`: the first of the send,
ack and reply event states one of whose two bits is set, or `STATE_INIT_CLEANUP`. -/
def failure_state (m : xi_event_mask_t) : init_state :=
  if m.XI_SEND_EVENT || m.XI_CT_SEND_EVENT then STATE_INIT_LATE_SEND_EVENT
  else if m.XI_ACK_EVENT || m.XI_CT_ACK_EVENT then STATE_INIT_ACK_EVENT
  else if m.XI_REPLY_EVENT || m.XI_CT_REPLY_EVENT then STATE_INIT_REPLY_EVENT
  else STATE_INIT_CLEANUP

/-- The deliveries of one class the mask asks for, each with `PTL_NI_UNDELIVERABLE`:
the full event if `full` is set, then the counting event if `count` is set. -/
def class_deliveries (kind : init_event_t) (full count : Bool) :
    List (init_event_t × Bool × ptl_ni_fail_t) :=
  (if full then [(kind, false, PTL_NI_UNDELIVERABLE)] else []) ++
  (if count then [(kind, true, PTL_NI_UNDELIVERABLE)] else [])

/-- The deliveries after a failed send, for the event mask `m`: those of the first
of the classes send, ack, reply that has a bit set in `m`, and no other. -/
def failure_deliveries (m : xi_event_mask_t) : List (init_event_t × Bool × ptl_ni_fail_t) :=
  if m.XI_SEND_EVENT || m.XI_CT_SEND_EVENT then
    class_deliveries init_event_t.PTL_EVENT_SEND m.XI_SEND_EVENT m.XI_CT_SEND_EVENT
  else if m.XI_ACK_EVENT || m.XI_CT_ACK_EVENT then
    class_deliveries init_event_t.PTL_EVENT_ACK m.XI_ACK_EVENT m.XI_CT_ACK_EVENT
  else
    class_deliveries init_event_t.PTL_EVENT_REPLY m.XI_REPLY_EVENT m.XI_CT_REPLY_EVENT

/-- The test of `tgt_get_match` that puts the request on the unexpected list of the
table entry `pi`: an element was found, `check_perm` passed, and the element is on
the overflow list. -/
def joins_unexpected (K : Consts) (w : World) (pi : Nat) : Bool :=
  match RuntimeDevel.find_match K w (w.pt pi) with
  | some (_, h) =>
    RuntimeDevel.check_perm K w.buf (w.les h) == PTL_NI_OK &&
      (w.les h).ptl_list == PTL_OVERFLOW_LIST
  | none => false

/-- The handles of the elements released by `le_put`, in order. -/
def releases_of (trace : List Action) : List Nat :=
  trace.filterMap (fun a => match a with
    | Action.le_put h => some h
    | _ => none)

/-- The premises of the end-to-end law for a PUT that lands in an overflow element:
those of `PutPremises`, except that the first element that matches (handle `h`) is
found on the overflow list. -/
structure OverflowPremises (K : Consts) (C : Collab) (w : World) (d : data_t) (h : Nat) :
    Prop where
  fresh_state : w.buf.tgt_state = STATE_TGT_START
  fresh_mask : w.buf.event_mask = {}
  fresh_fail : w.buf.ni_fail = PTL_NI_OK
  is_put : w.buf.data.operation = OP_PUT
  wants_ack : w.buf.data.ack_req = PTL_ACK_REQ
  data_in : w.buf.data_in = some d
  immediate : d.data_fmt = DATA_FMT_IMMEDIATE
  pt_valid : w.buf.data.pt_index < w.ni.limits.max_pt_index
  pt_in_use : (w.ni.pt w.buf.data.pt_index).in_use = true
  pt_enabled : (w.ni.pt w.buf.data.pt_index).state = K.PT_ENABLED
  pt_eq : (w.ni.pt w.buf.data.pt_index).eq = true
  matched : RuntimeDevel.find_match K w (w.ni.pt w.buf.data.pt_index) =
    some (PTL_OVERFLOW_LIST, h)
  on_overflow : (w.les h).ptl_list = PTL_OVERFLOW_LIST
  uid_ok : (w.les h).uid = K.PTL_UID_ANY ∨ (w.les h).uid = w.buf.data.uid
  op_put : (w.les h).options.PTL_ME_OP_PUT = true
  comm_enabled : (w.les h).options.PTL_LE_EVENT_COMM_DISABLE = false
  success_enabled : (w.les h).options.PTL_LE_EVENT_SUCCESS_DISABLE = false
  connected : w.conn.state ≥ K.CONN_STATE_CONNECTED
  iov_covers : (w.les h).num_iov = 0 ∨
    (w.les h).length ≤ iov_sum (w.les h).iov 0 (w.les h).num_iov
  get_conn_ok : ∀ x, C.get_conn x = true
  send_ok : ∀ x, C.send_message x = false
  iov_copy_ok : ∀ x, (C.iov_copy_in x).1 = false
  transport :
    (K.WITH_TRANSPORT_IB = true ∧ w.conn.transport_type = K.CONN_TYPE_RDMA ∧
      ∃ sb, ∀ x, C.buf_alloc x = some sb) ∨
    ((K.WITH_TRANSPORT_IB && w.conn.transport_type == K.CONN_TYPE_RDMA) = false ∧
      (K.WITH_TRANSPORT_SHMEM || K.IS_PPE) = true ∧ w.buf.has_mem_buf = true)

/-- The sample element on the overflow list. -/
def overflow_element : me_t := { sample_me with ptl_list := PTL_OVERFLOW_LIST }

/-- An element appended later that matches the sample PUT, with or without
`PTL_LE_EVENT_OVER_DISABLE`. -/
def late_element (over_disable : Bool) : me_t :=
  { sample_me with
    user_ptr := 77,
    options := { PTL_ME_OP_PUT := true, PTL_LE_EVENT_OVER_DISABLE := over_disable } }

/-- The world of scenario 5: the priority list of table entry 0 is empty and its
overflow list holds the sample element (handle 0); handle 1 is the element that is
appended later. -/
def overflow_world (over_disable : Bool) : World :=
  { sample_world with
    ni := { options := {}, limits := sample_limits,
            pt := fun i =>
              if i = 0 then { in_use := true, state := 1, eq := true, overflow_list := [0] }
              else {} },
    les := fun h => if h = 1 then late_element over_disable else overflow_element }

/-- The world of scenario 5 after the first call of `process_tgt`. -/
def overflow_waiting (over_disable : Bool) : World :=
  (RuntimeDevel.process_tgt sample_consts sample_collab 9 (overflow_world over_disable)).world

/-- The waiting world after the append of element 1 has set `matching.le`. -/
def overflow_appended (over_disable : Bool) : World :=
  { overflow_waiting over_disable with buf.matching_le := some 1 }

/-- A PUT of 16 bytes that asks for no acknowledgement, from a descriptor with a
counting event that counts acks (`PTL_MD_EVENT_CT_ACK`) and no event queue; the
target is connected over a transport other than RDMA. -/
def ct_ack_world : init_world :=
  { conn := { state := 3, transport_type := 1 },
    mem := fun _ => 0,
    buf := { data := { operation := OP_PUT, ack_req := PTL_NO_ACK_REQ, length := 16 },
             put_md := some { ct := true, options := { PTL_MD_EVENT_CT_ACK := true } },
             put_ct := true } }

/-- The same PUT from a descriptor that has an event queue instead of the counting
event. -/
def eq_ack_world : init_world :=
  { ct_ack_world with buf.put_md := some { eq := true }, buf.put_eq := true, buf.put_ct := false }

/-- The format of the data segment `put_data` points to at the end of
`prepare_req`: the segment `append_init_data` wrote for the put descriptor, if the
operation has one. -/
def PtlInit.put_data_fmt (C : init_collab) (w : init_world) : Option data_fmt_t :=
  let hdr : init_hdr_t :=
    { w.buf.data with
      version := PTL_HDR_VER_1, ni_type := w.ni.ni_type, pkt_fmt := PKT_FMT_REQ,
      dst_nid := w.buf.target.nid, dst_pid := w.buf.target.pid,
      src_nid := w.ni.id.nid, src_pid := w.ni.id.pid,
      hdr_size := C.sizeof_req_hdr, handle := w.buf.handle }
  let w : init_world := { w with buf.data := hdr, buf.length := C.sizeof_req_hdr }
  if hdr.operation == OP_PUT || hdr.operation == OP_ATOMIC then
    let w : init_world := { w with buf.data.data_in := 0, buf.data.data_out := 1 }
    some (PtlInit.append_data C w true).2.1
  else if hdr.operation == OP_GET then none
  else if hdr.operation == OP_FETCH || hdr.operation == OP_SWAP then
    let w : init_world := { w with buf.data.data_in := 1, buf.data.data_out := 1 }
    some (PtlInit.append_data C (PtlInit.append_data C w false).2.2 true).2.1
  else none

/-- Whether a SEND or CT_SEND event is pending in the event mask. -/
def send_pending (m : xi_event_mask_t) : Bool := m.XI_SEND_EVENT || m.XI_CT_SEND_EVENT

/-- Sample collaborators of the initiator whose `append_init_data` describes the
data by a DMA descriptor and attaches no memory region to the buffer. -/
def dma_init_collab : init_collab :=
  { sample_init_collab with
    append_init_data := fun w => (false, DATA_FMT_RDMA_DMA, w.buf.length + 32, 0) }

/-- A PUT of 4096 bytes that asks for no acknowledgement, from a descriptor without
event queue and counting event. -/
def quiet_put_world : init_world :=
  { conn := { state := 3, transport_type := 1 },
    mem := fun _ => 0,
    buf := { data := { operation := OP_PUT, ack_req := PTL_NO_ACK_REQ, length := 4096 },
             put_md := some {} } }

/-- The PUT of `quiet_put_world` from a descriptor with an event queue. -/
def dma_put_world : init_world :=
  { quiet_put_world with buf.put_md := some { eq := true }, buf.put_eq := true }

/-- Whether `prepare_req` forces the acknowledgement: the put data is not
immediate and a send event is pending, or the buffer holds a memory region. -/
def ack_forced (pd : Option data_fmt_t) (m : xi_event_mask_t) (num_mr : Nat) : Bool :=
  (match pd with
   | some fmt => fmt != DATA_FMT_IMMEDIATE && send_pending m
   | none => false) || num_mr != 0

/-- Whether a call of `process_tgt` ended with the process stopped inside a state
function. -/
def RuntimeDevel.run_result.is_aborted : RuntimeDevel.run_result → Bool
  | RuntimeDevel.run_result.aborted _ => true
  | _ => false

/-- Limits whose `max_atomic_size` is `PTL_MAX_INLINE_DATA` of `sample_consts`. -/
def inline_atomic_limits : ni_limits_t :=
  { max_pt_index := 4, max_msg_size := 2 ^ 20, max_atomic_size := 512 }

/-- The sample element made 1024 bytes long and accepting gets as well as puts. -/
def long_swap_me : me_t :=
  { sample_me with length := 1024, options := { PTL_ME_OP_PUT := true, PTL_ME_OP_GET := true } }

/-- A FETCH of `length` bytes (operator code 2 on the datatype with code 4) from
uid 7, with the operand as immediate data and a DMA descriptor for the reply. -/
def sample_fetch (length : Nat) : buf_t :=
  { data := { operation := OP_FETCH, uid := 7, length := length, offset := 0,
              src_nid := 3, src_pid := 9, match_bits := 0x5a, atom_op := 2, atom_type := 4 },
    operation := OP_FETCH,
    data_in := some { data_fmt := DATA_FMT_IMMEDIATE },
    data_out := some { data_fmt := DATA_FMT_RDMA_DMA, num_sge := 1 } }

/-- The sample world with `max_atomic_size = PTL_MAX_INLINE_DATA`, the element of
1024 bytes, and a FETCH of `length` bytes arrived. -/
def fetch_world (length : Nat) : World :=
  { sample_world with
    ni := { options := {}, limits := inline_atomic_limits,
            pt := fun i =>
              if i = 0 then { in_use := true, state := 1, eq := true, priority_list := [0] }
              else {} },
    les := fun _ => long_swap_me,
    buf := sample_fetch length }

/-- Two iovec entries of 10 bytes each, at addresses 1000 and 2000. -/
def two_iovecs : List ptl_iovec_t := [⟨1000, 10⟩, ⟨2000, 10⟩]

/-- An element backed by `two_iovecs`. -/
def iovec_me : me_t := { sample_me with length := 20, num_iov := 2, iov := two_iovecs }

/-- The world `tgt_wait_conn` works on after `list_add_tail`: the buffer stands at
the tail of the wait list of the connection. -/
def wait_conn_queued (w : World) : World :=
  { w with conn.buf_list := w.conn.buf_list ++ [w.buf.addr] }

/-- The sample world with the connection in state 0 (`CONN_STATE_DISCONNECTED`) and
the buffers 11 and 12 waiting for it; the arrived buffer has address 13. -/
def disconnected_world : World :=
  { sample_world with conn := { state := 0, buf_list := [11, 12] }, buf.addr := 13 }

/-- An element of 64 bytes at address 1000, locally managed with its offset at 40. -/
def managed_me_40 : me_t :=
  { start := 1000, length := 64, offset := 40,
    options := { PTL_ME_OP_PUT := true, PTL_ME_MANAGE_LOCAL := true }, uid := 7,
    id := { nid := 0xffffffff, pid := 0xffffffff } }

/-- The function `tgt_rdma_init_loc_off` of `ib/src/ptl_tgt.c`. The Boolean is the
error status (`true` is `PTL_FAIL`). Its loop is the one of `init_local_offset`. For
an iovec element `xt->start` is set to the constant `0x123`. -/
def IbSrc.tgt_rdma_init_loc_off (xt : IbSrc.xt_t) (me : me_t) : Bool × IbSrc.xt_t :=
  let xt : IbSrc.xt_t := { xt with cur_loc_iov_index := 0, cur_loc_iov_off := 0 }
  if me.num_iov != 0 then
    let r := RuntimeDevel.init_local_offset_loop xt.moffset me.iov me.num_iov 0 0 0
    let i := r.1
    let loc_offset := r.2.1
    let iov_offset := r.2.2
    if loc_offset < xt.moffset then
      (true, xt)
    else
      (false, { xt with cur_loc_iov_index := i, cur_loc_iov_off := iov_offset,
                        start := some 0x123 })
  else
    (false, { xt with cur_loc_iov_off := xt.moffset, start := some (me.start + xt.moffset) })

/-- The function `init_events` of `ib/src/ptl_tgt.c`, for the element `le` that
`xt->le` points to and the event queue `pt_eq` of `xt->pt`. -/
def IbSrc.init_events (xt : IbSrc.xt_t) (pt_eq : Bool) (le : me_t) : IbSrc.xt_t :=
  let xt : IbSrc.xt_t :=
    if pt_eq && !le.options.PTL_LE_EVENT_COMM_DISABLE then
      { xt with event_mask.XT_COMM_EVENT := true }
    else xt
  let xt : IbSrc.xt_t :=
    if le.ct && le.options.PTL_LE_EVENT_CT_COMM then
      { xt with event_mask.XT_CT_COMM_EVENT := true }
    else xt
  if xt.operation == OP_PUT || xt.operation == OP_ATOMIC then
    if xt.ack_req != PTL_NO_ACK_REQ then { xt with event_mask.XT_ACK_EVENT := true } else xt
  else if xt.operation == OP_GET || xt.operation == OP_FETCH || xt.operation == OP_SWAP then
    if xt.ack_req != PTL_NO_ACK_REQ then { xt with event_mask.XT_REPLY_EVENT := true } else xt
  else xt

/-- The `switch (xt->operation)` of `tgt_get_length` of `ib/src/ptl_tgt.c`: the
clamped length and the descriptor with the residuals the case assigns. -/
def IbSrc.get_length_switch (K : Consts) (limits : ni_limits_t) (xt : IbSrc.xt_t)
    (length : Nat) : Nat × IbSrc.xt_t :=
  if xt.operation == OP_PUT then
    let length := if length > limits.max_msg_size then limits.max_msg_size else length
    (length, { xt with put_resid := length })
  else if xt.operation == OP_GET then
    let length := if length > limits.max_msg_size then limits.max_msg_size else length
    (length, { xt with get_resid := length })
  else if xt.operation == OP_ATOMIC then
    let length := if length > limits.max_atomic_size then limits.max_atomic_size else length
    (length, { xt with put_resid := length })
  else if xt.operation == OP_FETCH then
    let length := if length > limits.max_atomic_size then limits.max_atomic_size else length
    (length, { xt with put_resid := length, get_resid := length })
  else if xt.operation == OP_SWAP then
    let length :=
      if xt.atom_op == K.PTL_SWAP then
        if length > limits.max_atomic_size then limits.max_atomic_size else length
      else
        if length > K.atom_type_size xt.atom_type then K.atom_type_size xt.atom_type
        else length
    (length, { xt with put_resid := length, get_resid := length })
  else
    (length, xt)

/-- The outcome of `tgt_get_length` of `ib/src/ptl_tgt.c`: the next state, the
descriptor, the list element, and the argument of the call
`le_unlink(xt->le, flag)` when it is made. -/
structure IbSrc.get_length_result where
  next : tgt_state
  xt : IbSrc.xt_t
  me : me_t
  unlink : Option Bool

/-- The function `tgt_get_length` of `ib/src/ptl_tgt.c`. `room`, of type
`ptl_size_t`, is the difference `me->length - offset` modulo `2 ^ 64`; no test of
`offset` against `me->length` comes before it. `pt_eq` tells whether `xt->pt` has
an event queue. -/
def IbSrc.tgt_get_length (K : Consts) (limits : ni_limits_t) (pt_eq : Bool)
    (xt : IbSrc.xt_t) (me : me_t) : IbSrc.get_length_result :=
  let offset := if me.options.PTL_ME_MANAGE_LOCAL then me.offset else xt.roffset
  let room := RuntimeDevel.sub64 me.length offset
  let length := if room ≥ xt.rlength then xt.rlength else room
  let r := IbSrc.get_length_switch K limits xt length
  let length := r.1
  let xt : IbSrc.xt_t := { r.2 with mlength := length, moffset := offset }
  let xt := IbSrc.init_events xt pt_eq me
  let me := if me.options.PTL_ME_MANAGE_LOCAL then { me with offset := wrap64 (me.offset + length) }
            else me
  let unlink : Option Bool :=
    if me.options.PTL_ME_USE_ONCE ||
        (me.options.PTL_ME_MANAGE_LOCAL && me.min_free != 0 &&
          decide (RuntimeDevel.sub64 me.length me.offset < me.min_free)) then
      some (!me.options.PTL_ME_EVENT_UNLINK_DISABLE)
    else none
  { next := STATE_TGT_WAIT_CONN, xt := xt, me := me, unlink := unlink }

/-- The fields of the portals table entry `pt_t` of the older variant that
`tgt_get_match` uses. `disable` is the word `pt->disable`; the priority and
overflow lists hold handles of list elements, the unexpected list holds
descriptors. -/
structure IbSrc.pt_t where
  options : pt_options_t := {}
  disable : Nat := 0
  priority_list : List Nat := []
  overflow_list : List Nat := []
  unexpected_list : List IbSrc.xt_t := []

/-- The outcome of `tgt_get_match` of `ib/src/ptl_tgt.c`: the next state, the
descriptor, the table entry, the handles passed to `le_get` / `me_get` and to
`le_put`, and whether `xt_get` was called. -/
structure IbSrc.get_match_result where
  next : tgt_state
  xt : IbSrc.xt_t
  pt : IbSrc.pt_t
  le_get : Option Nat := none
  le_put : Option Nat := none
  xt_get : Bool := false

/-- The two `list_for_each` loops of `tgt_get_match` of `ib/src/ptl_tgt.c`: the
first handle, on the priority list and then on the overflow list, whose element
is taken (every element on a non-matching interface, else one that passes
`check_match`). -/
def IbSrc.find_match (K : Consts) (ni_options : ni_options_t) (les : Nat → me_t)
    (xt : IbSrc.xt_t) (pt : IbSrc.pt_t) : Option Nat :=
  (pt.priority_list ++ pt.overflow_list).find?
    (fun h => ni_options.PTL_NI_NO_MATCHING || IbSrc.check_match K ni_options xt (les h))

/-- The function `tgt_get_match` of `ib/src/ptl_tgt.c`, or `none` when `check_perm`
stops the process. `PT_AUTO_DISABLE` is the bit of that name of `ptl_pt.h`, which
is not among the translated sources. The table entry of the element
(`xt->le->pt`) is the entry `xt->pt` whose lists were walked; the descriptor put
on the unexpected list is recorded as it stands at that moment. The table entry
lock is not represented. -/
def IbSrc.tgt_get_match (A : IbSrc.Codes) (K : Consts) (PT_AUTO_DISABLE : Nat)
    (ni_options : ni_options_t) (les : Nat → me_t) (xt : IbSrc.xt_t) (pt : IbSrc.pt_t) :
    Option IbSrc.get_match_result :=
  if pt.options.PTL_PT_FLOWCTRL && (pt.priority_list.isEmpty && pt.overflow_list.isEmpty) then
    some { next := STATE_TGT_DROP,
           xt := { xt with ni_fail := PTL_NI_FLOW_CTRL, le := none },
           pt := { pt with disable := pt.disable ||| PT_AUTO_DISABLE } }
  else
    match IbSrc.find_match K ni_options les xt pt with
    | none =>
      some { next := STATE_TGT_DROP,
             xt := { xt with le := none, ni_fail := PTL_NI_DROPPED }, pt := pt }
    | some h =>
      let xt : IbSrc.xt_t := { xt with le := some h }
      match IbSrc.check_perm A K xt (les h) with
      | none => none
      | some true =>
        some { next := STATE_TGT_DROP,
               xt := { xt with le := none, ni_fail := PTL_NI_PERM_VIOLATION }, pt := pt,
               le_get := some h, le_put := some h }
      | some false =>
        if (les h).ptl_list == PTL_OVERFLOW_LIST then
          some { next := STATE_TGT_GET_LENGTH, xt := xt,
                 pt := { pt with unexpected_list := xt :: pt.unexpected_list },
                 le_get := some h, xt_get := true }
        else
          some { next := STATE_TGT_GET_LENGTH, xt := xt, pt := pt, le_get := some h }

/-- The request of `sample_put` as a descriptor of the older variant, aimed at
offset 40. -/
def beyond_xt : IbSrc.xt_t :=
  { sample_xt with operation := OP_PUT, ack_req := PTL_ACK_REQ, uid := 7, roffset := 40 }

/-- A table entry of the older variant with `PTL_PT_FLOWCTRL` whose priority list
holds the element with handle 0. -/
def flowctrl_pt : IbSrc.pt_t :=
  { options := { PTL_PT_FLOWCTRL := true }, priority_list := [0] }

/-- An element whose match bits `0x77` differ from those of the sample request in a
bit it does not ignore. -/
def other_me : me_t := { sample_me with match_bits := 0x77, ignore_bits := 0 }

/-- Whether the loop of `process_tgt` was cut off by the bound on its turns. -/
def RuntimeDevel.run_result.cut_off : RuntimeDevel.run_result → Bool
  | RuntimeDevel.run_result.out_of_fuel _ _ => true
  | _ => false

/-- The outcome of a call of `process_tgt` satisfies `R` if the call returned and
`A` if the process was stopped inside a state function; the loop was not cut off. -/
def RuntimeDevel.run_result.settles (R A : World → Prop) : RuntimeDevel.run_result → Prop
  | RuntimeDevel.run_result.returned w _ => R w
  | RuntimeDevel.run_result.aborted w => A w
  | RuntimeDevel.run_result.out_of_fuel _ _ => False

/-- The number of turns of the loop of `process_tgt` a buffer in state `s` with the
transfer direction `d` still needs, at most, to leave the function. The states that
set up and run a transfer count twice, once for each direction. -/
def tgt_rank (s : tgt_state) (d : data_dir_t) : Nat :=
  match s with
  | STATE_TGT_START => 18
  | STATE_TGT_GET_MATCH => 17
  | STATE_TGT_GET_LENGTH => 16
  | STATE_TGT_DROP => 16
  | STATE_TGT_WAIT_CONN => 15
  | STATE_TGT_DATA => 14
  | STATE_TGT_DATA_OUT => 13
  | STATE_TGT_WAIT_RDMA_DESC => if d == DATA_DIR_OUT then 12 else 9
  | STATE_TGT_SHMEM_DESC => if d == DATA_DIR_OUT then 12 else 9
  | STATE_TGT_RDMA => if d == DATA_DIR_OUT then 11 else 8
  | STATE_TGT_DATA_IN => 10
  | STATE_TGT_ATOMIC_DATA_IN => 10
  | STATE_TGT_SWAP_DATA_IN => 10
  | STATE_TGT_COMM_EVENT => 7
  | STATE_TGT_SEND_ACK => 6
  | STATE_TGT_SEND_REPLY => 6
  | STATE_TGT_ERROR => 5
  | STATE_TGT_CLEANUP => 4
  | STATE_TGT_WAIT_APPEND => 3
  | STATE_TGT_OVERFLOW_EVENT => 2
  | STATE_TGT_CLEANUP_2 => 1
  | STATE_TGT_DONE => 1

/-- What the state functions do to `buf->rdma_dir`, read off their bodies:
`tgt_data_out` sets it to `DATA_DIR_OUT` unless it fails at once, `tgt_data_in` sets
it to `DATA_DIR_IN`, the descriptor states and `tgt_rdma` leave it alone, and
`tgt_rdma` with `DATA_DIR_IN` goes on to no further data phase. -/
def dir_ok (s : tgt_state) (d : data_dir_t) (s1 : tgt_state) (d1 : data_dir_t) : Bool :=
  match s with
  | STATE_TGT_DATA_OUT => d1 == DATA_DIR_OUT || s1 == STATE_TGT_ERROR
  | STATE_TGT_DATA_IN => d1 == DATA_DIR_IN
  | STATE_TGT_WAIT_RDMA_DESC => d1 == d
  | STATE_TGT_SHMEM_DESC => d1 == d
  | STATE_TGT_RDMA =>
    d1 == d &&
    (d == DATA_DIR_OUT || s1 == STATE_TGT_ERROR || s1 == STATE_TGT_RDMA ||
      s1 == STATE_TGT_COMM_EVENT)
  | _ => true

/-- The handler result respects `dir_ok`. -/
def step_t.dir_goes (r : step_t) (s : tgt_state) (d : data_dir_t) : Prop :=
  r.state.all (fun s1 => dir_ok s d s1 r.world.buf.rdma_dir) = true

/-- The states logged so far, `L`, fit a buffer whose state has rank `r`: at most
`18 - r` of them, `STATE_TGT_RDMA` not before rank 11 and once before rank 8,
`STATE_TGT_DATA_OUT` not before rank 13, `STATE_TGT_DATA_IN` not before rank 10. -/
def within (L : List tgt_state) (r : Nat) : Prop :=
  L.length + r ≤ 18 ∧
  (11 ≤ r → L.count STATE_TGT_RDMA = 0) ∧ (8 ≤ r → L.count STATE_TGT_RDMA ≤ 1) ∧
  L.count STATE_TGT_RDMA ≤ 2 ∧
  (13 ≤ r → L.count STATE_TGT_DATA_OUT = 0) ∧ L.count STATE_TGT_DATA_OUT ≤ 1 ∧
  (10 ≤ r → L.count STATE_TGT_DATA_IN = 0) ∧ L.count STATE_TGT_DATA_IN ≤ 1

/-- The bound on one call of `process_tgt` started in `w0`: the states logged since
`w0` number at most 18, with `STATE_TGT_RDMA` at most twice and `STATE_TGT_DATA_OUT`
and `STATE_TGT_DATA_IN` at most once each. -/
def bounded_since (w0 W : World) : Prop :=
  ∃ L, states_of W.trace = states_of w0.trace ++ L ∧ L.length ≤ 18 ∧
    L.count STATE_TGT_RDMA ≤ 2 ∧ L.count STATE_TGT_DATA_OUT ≤ 1 ∧
    L.count STATE_TGT_DATA_IN ≤ 1

/-- The invariant of the loop of `process_tgt` for its termination. -/
def rank_inv (w0 : World) (n : Nat) (s : tgt_state) (w : World) : Prop :=
  tgt_rank s w.buf.rdma_dir ≤ n ∧
  (s = STATE_TGT_DONE → w.buf.tgt_state = STATE_TGT_DONE) ∧
  ∃ L, states_of w.trace = states_of w0.trace ++ L ∧ within L (tgt_rank s w.buf.rdma_dir)

/-- A GET of 600 bytes from uid 7 whose reply is described by a KNEM descriptor, a
format the build of `sample_consts` (InfiniBand only) has no case for, arrived for
the element of 1024 bytes. -/
def knem_get_world : World :=
  { sample_world with
    les := fun _ => long_swap_me,
    buf := { data := { operation := OP_GET, uid := 7, length := 600, offset := 0,
                       src_nid := 3, src_pid := 9, match_bits := 0x5a },
             operation := OP_GET,
             data_out := some { data_fmt := DATA_FMT_KNEM_DMA } } }

/-- The states in which `process_tgt` leaves a buffer when it returns. -/
def tgt_exit (W : World) : Prop :=
  W.buf.tgt_state = STATE_TGT_WAIT_CONN ∨ W.buf.tgt_state = STATE_TGT_WAIT_RDMA_DESC ∨
  W.buf.tgt_state = STATE_TGT_RDMA ∨ W.buf.tgt_state = STATE_TGT_WAIT_APPEND ∨
  W.buf.tgt_state = STATE_TGT_DONE

/-- What one call does to the reference the buffer holds on the element `buf->le`
points to: `le_get` takes one (`true`), `le_put` releases one (`false`). The
`le_put` of `STATE_TGT_OVERFLOW_EVENT` releases the reference on
`buf->matching.le`, taken by the thread that appended that element, and is left
out. `cur` is the state the loop is in. -/
def ref_of (cur : Option tgt_state) (a : Action) : List Bool :=
  match a with
  | Action.le_get _ => [true]
  | Action.le_put _ => if cur == some STATE_TGT_OVERFLOW_EVENT then [] else [false]
  | _ => []

/-- The calls of a record by which the buffer takes or releases a reference on its
element, in order; `cur` is the state the loop is in at the start of the record. -/
def ref_calls : Option tgt_state → List Action → List Bool
  | _, [] => []
  | cur, a :: t => ref_of cur a ++ ref_calls (next_state cur a) t

/-- The reference counter after a list of calls: `le_get` adds one, `le_put` takes
one off. -/
def ref_count (l : List Bool) : Int := (l.count true : Int) - (l.count false : Int)

/-- At no point of the list have more references been released than taken. -/
def refs_held (l : List Bool) : Prop := ∀ p, p <+: l → 0 ≤ ref_count p

/-- What the rest of the runtime may change between two calls of `process_tgt` for
one buffer, as far as the element reference goes: anything but the record of the
calls made for it, the state saved in it and the pointer `buf->le`. -/
def same_element (w W : World) : Prop :=
  W.trace = w.trace ∧ W.buf.tgt_state = w.buf.tgt_state ∧ W.buf.le = w.buf.le

/-- The invariant of the loop of `process_tgt` for the element reference: the
references taken since `w0` were never outnumbered by the releases, and the counter
is 1 exactly when `buf->le` points to an element (`tgt_start` clears the pointer
itself); a buffer whose loop is in `STATE_TGT_DONE` has that state saved. -/
def ref_inv (w0 : World) (s : tgt_state) (w : World) : Prop :=
  (∃ T, w.trace = w0.trace ++ T ∧ refs_held (ref_calls none T) ∧
    ref_count (ref_calls none T) =
      (if s ≠ STATE_TGT_START ∧ w.buf.le.isSome = true then 1 else 0)) ∧
  (s = STATE_TGT_GET_MATCH → w.buf.le = none) ∧
  (s = STATE_TGT_DONE → w.buf.tgt_state = STATE_TGT_DONE ∧ w.buf.le = none)

/-- What one state function does to the element reference, from `w` to `W`: it
makes no call on it and leaves `buf->le` alone; or, in a send state, it releases
the reference on a priority-list element and clears `buf->le`; or it is
`tgt_start` clearing `buf->le`; or it is `tgt_get_match`, which ends with `buf->le`
null after no call or after a `le_get` followed by a `le_put`, or with `buf->le`
set after one `le_get`. -/
def ref_step (s : tgt_state) (w W : World) : Prop :=
  ∃ t, W.trace = w.trace ++ t ∧ (∀ a ∈ t, ∀ s1, a ≠ Action.ptl_info s1) ∧
    ((ref_calls (some s) t = [] ∧ W.buf.le = w.buf.le) ∨
     (phase s = 2 ∧ ref_calls (some s) t = [false] ∧ W.buf.le = none ∧
       ∃ h, w.buf.le = some h ∧ (w.les h).ptl_list = PTL_PRIORITY_LIST) ∨
     (s = STATE_TGT_START ∧ ref_calls (some s) t = [] ∧ W.buf.le = none) ∨
     (s = STATE_TGT_GET_MATCH ∧ W.buf.le = none ∧
       (ref_calls (some s) t = [] ∨ ref_calls (some s) t = [true, false])) ∨
     (s = STATE_TGT_GET_MATCH ∧ ref_calls (some s) t = [true] ∧ W.buf.le.isSome = true))

/-- The references taken since `w0` were never outnumbered by the releases. -/
def refs_ok_since (w0 W : World) : Prop :=
  ∃ T, W.trace = w0.trace ++ T ∧ refs_held (ref_calls none T)

/-- The elements of the list samples, by handle: the elements 1 and 2 are the sample
element, which matches the sample PUT; element 4 is the same element on the
overflow list; element 3 is on the overflow list and, as every other element, has
match bits that differ from those of the sample PUT in a bit it does not ignore. -/
def listed_les (h : Nat) : me_t :=
  if h = 1 ∨ h = 2 then sample_me
  else if h = 4 then { sample_me with ptl_list := PTL_OVERFLOW_LIST }
  else if h = 3 then { other_me with ptl_list := PTL_OVERFLOW_LIST }
  else other_me

/-- The sample world after `tgt_start` with the elements `listed_les`: table entry 0
is enabled, with `PTL_PT_FLOWCTRL` if `fc`, counts `n` active requests and holds
the handles `prio` on its priority list and `over` on its overflow list. -/
def listed_world (fc : Bool) (n : Int) (prio over : List Nat) : World :=
  { sample_world_started with
    ni := { options := {}, limits := sample_limits,
            pt := fun i =>
              if i = 0 then
                { in_use := true, state := 1, options := { PTL_PT_FLOWCTRL := fc }, eq := true,
                  priority_list := prio, overflow_list := over, num_tgt_active := n }
              else {} },
    les := listed_les }

/-- The world `listed_world` on a non-matching interface. -/
def listed_world_no_matching (prio over : List Nat) : World :=
  { listed_world false 1 prio over with
    ni := { (listed_world false 1 prio over).ni with options := { PTL_NI_NO_MATCHING := true } } }

/-- Collaborators that all succeed, except that no connection to the initiator is
found. -/
def no_conn_collab : Collab := { sample_collab with get_conn := fun _ => false }

/-- Whether `tgt_start` takes one of its error returns, which come before the
portals table is looked at: the operation is none of the five, `get_conn` finds no
connection, or a response is owed and `prepare_send_buf` fails. -/
def tgt_start_fails (K : Consts) (C : Collab) (w : World) : Bool :=
  !valid_operation w.buf.data.operation ||
  !C.get_conn (tgt_start_seeded w) ||
  (((tgt_start_seeded w).buf.event_mask.XT_ACK_EVENT ||
      (tgt_start_seeded w).buf.event_mask.XT_REPLY_EVENT) &&
    (RuntimeDevel.prepare_send_buf K C { (tgt_start_seeded w) with buf.conn := true }).1)

/-- The step is a completion that `tgt_cleanup` carries out in the world `W`. -/
def pt_op.completes (K : Consts) (W : World) : pt_op → Bool
  | pt_op.arrive _ => false
  | pt_op.complete b => (RuntimeDevel.tgt_cleanup K { W with buf := b }).state.isSome

/-- The number of completions carried out along a sequence of steps from `W`. -/
def completions (K : Consts) (C : Collab) : World → List pt_op → Nat
  | _, [] => 0
  | W, op :: ops =>
    (if op.completes K W then 1 else 0) + completions K C (pt_step K C W op) ops

/-- The count of active requests of entry `pi` after `c` completions, when it was
`n` at the auto-disable: `n - c`, and the entry is `PT_DISABLED` exactly from the
`n`-th completion on. -/
def flowctrl_count_inv (K : Consts) (pi : Nat) (n : Int) (c : Nat) (W : World) : Prop :=
  (W.pt pi).num_tgt_active = n - c ∧ ((W.pt pi).state = K.PT_DISABLED ↔ n ≤ c)

/-- The world after the request in the buffer of `w` has run `tgt_get_match` and the
steps `ops` have followed. -/
def after_auto_disable (K : Consts) (C : Collab) (w : World) (ops : List pt_op) : World :=
  pt_run K C (RuntimeDevel.tgt_get_match K w).world ops

/-! # Theorems -/

/-! ## Matching -/

theorem or_ignore_eq_iff (ignore a b : Nat) :
    (a ||| ignore = b ||| ignore) ↔ differ_only_in ignore a b := by
  unfold differ_only_in
  constructor
  · intro h k hk
    have := congrArg (fun n => n.testBit k) h
    simp only [Nat.testBit_or] at this
    cases hi : ignore.testBit k with
    | true => rfl
    | false =>
      rw [hi] at this
      simp only [Bool.or_false] at this
      exact absurd this hk
  · intro h
    apply Nat.eq_of_testBit_eq
    intro k
    simp only [Nat.testBit_or]
    by_cases hk : a.testBit k = b.testBit k
    · rw [hk]
    · rw [h k hk]; simp

/-- C1: for an element without `NO_TRUNCATE`, `check_match` (both variants of
`ptl_tgt.c`) returns true exactly when the identity filter passes and
`(hdr.match_bits | me.ignore_bits) == (me.match_bits | me.ignore_bits)`; and that
equation holds exactly when the two match words differ only in bit positions set
in `ignore_bits`. -/
theorem check_match_iff_identity_and_bits (K : Consts) (o : ni_options_t) (buf : buf_t)
    (xt : IbSrc.xt_t) (me : me_t) (h : me.options.PTL_ME_NO_TRUNCATE = false) :
    (RuntimeDevel.check_match K o buf me = true ↔
      identity_passes K o.PTL_NI_LOGICAL me.id buf.data.initiator ∧
      (buf.data.match_bits ||| me.ignore_bits) = (me.match_bits ||| me.ignore_bits)) ∧
    (IbSrc.check_match K o xt me = true ↔
      identity_passes K o.PTL_NI_LOGICAL me.id xt.initiator ∧
      (xt.match_bits ||| me.ignore_bits) = (me.match_bits ||| me.ignore_bits)) ∧
    ((buf.data.match_bits ||| me.ignore_bits) = (me.match_bits ||| me.ignore_bits) ↔
      differ_only_in me.ignore_bits buf.data.match_bits me.match_bits) ∧
    ((xt.match_bits ||| me.ignore_bits) = (me.match_bits ||| me.ignore_bits) ↔
      differ_only_in me.ignore_bits xt.match_bits me.match_bits) := by
  refine ⟨?_, ?_, or_ignore_eq_iff _ _ _, or_ignore_eq_iff _ _ _⟩
  · unfold RuntimeDevel.check_match identity_passes
    cases hl : o.PTL_NI_LOGICAL <;>
      simp [h, req_hdr_t.initiator, req_hdr_t.src_rank, ptl_process_t.rank]
  · unfold IbSrc.check_match identity_passes
    cases hl : o.PTL_NI_LOGICAL <;>
      simp [h, ptl_process_t.rank]

/-- Instance of C1: the sample PUT (match bits `0x5a`) matches the sample element
(match bits `0x55`, ignore bits `0x0f`) in both variants. -/
theorem check_match_iff_identity_and_bits_witness :
    (RuntimeDevel.check_match sample_consts {} sample_put sample_me = true ↔
      identity_passes sample_consts false sample_me.id sample_put.data.initiator ∧
      (sample_put.data.match_bits ||| sample_me.ignore_bits) =
        (sample_me.match_bits ||| sample_me.ignore_bits)) ∧
    (IbSrc.check_match sample_consts {} sample_xt sample_me = true ↔
      identity_passes sample_consts false sample_me.id sample_xt.initiator ∧
      (sample_xt.match_bits ||| sample_me.ignore_bits) =
        (sample_me.match_bits ||| sample_me.ignore_bits)) ∧
    ((sample_put.data.match_bits ||| sample_me.ignore_bits) =
        (sample_me.match_bits ||| sample_me.ignore_bits) ↔
      differ_only_in sample_me.ignore_bits sample_put.data.match_bits sample_me.match_bits) ∧
    ((sample_xt.match_bits ||| sample_me.ignore_bits) =
        (sample_me.match_bits ||| sample_me.ignore_bits) ↔
      differ_only_in sample_me.ignore_bits sample_xt.match_bits sample_me.match_bits) :=
  check_match_iff_identity_and_bits sample_consts {} sample_put sample_xt sample_me rfl

/-- C3: `check_perm` returns `NI_PERM_VIOLATION` exactly when the uid of the
element is neither `UID_ANY` nor the uid of the request (whatever the option
bits); it returns `NI_OP_VIOLATION` exactly when the uid passes and the operation
is not allowed by the options; and `NI_OK` exactly when the uid passes and the
operation is allowed. -/
theorem check_perm_cases (K : Consts) (buf : buf_t) (le : me_t) :
    (RuntimeDevel.check_perm K buf le = PTL_NI_PERM_VIOLATION ↔
      ¬ (le.uid = K.PTL_UID_ANY ∨ le.uid = buf.data.uid)) ∧
    (RuntimeDevel.check_perm K buf le = PTL_NI_OP_VIOLATION ↔
      (le.uid = K.PTL_UID_ANY ∨ le.uid = buf.data.uid) ∧
        op_not_allowed buf.operation le.options) ∧
    (RuntimeDevel.check_perm K buf le = PTL_NI_OK ↔
      (le.uid = K.PTL_UID_ANY ∨ le.uid = buf.data.uid) ∧
        ¬ op_not_allowed buf.operation le.options) := by
  have hU : (le.uid = K.PTL_UID_ANY ∨ le.uid = buf.data.uid) ↔
      (le.uid == K.PTL_UID_ANY || le.uid == buf.data.uid) = true := by simp
  unfold RuntimeDevel.check_perm op_not_allowed OP_PUT OP_GET OP_ATOMIC OP_FETCH OP_SWAP
  simp only [hU]
  generalize (le.uid == K.PTL_UID_ANY || le.uid == buf.data.uid) = u
  generalize le.options.PTL_ME_OP_PUT = p
  generalize le.options.PTL_ME_OP_GET = g
  generalize buf.operation = op
  cases u
  · simp
  · by_cases h1 : op = 1
    · cases p <;> simp [h1]
    · by_cases h3 : op = 3
      · cases p <;> simp [h3]
      · by_cases h2 : op = 2
        · cases g <;> simp [h2]
        · by_cases h4 : op = 4
          · cases p <;> cases g <;> simp [h4]
          · by_cases h5 : op = 5
            · cases p <;> cases g <;> simp [h5]
            · simp [h1, h2, h3, h4, h5]

/-- Evaluation for C2 (a defect of the code): a PUT of 2 bytes at request offset
`2 ^ 64 - 1` matches an element of 32 bytes that has `NO_TRUNCATE` set, in both
variants, although `offset + length` exceeds the length of the element: the sum is
formed in 64 bits and wraps to 1. -/
theorem check_match_no_truncate_wraps :
    no_truncate_me.options.PTL_ME_NO_TRUNCATE = true ∧
    wrapping_put.data.offset < 2 ^ 64 ∧ wrapping_put.data.length < 2 ^ 64 ∧
    RuntimeDevel.check_match sample_consts {} wrapping_put no_truncate_me = true ∧
    IbSrc.check_match sample_consts {} wrapping_xt no_truncate_me = true ∧
    ¬ (wrapping_put.data.offset + wrapping_put.data.length ≤ no_truncate_me.length) := by
  decide

theorem check_match_no_truncate_bounded (K : Consts) (o : ni_options_t) (buf : buf_t)
    (me : me_t) (hnt : me.options.PTL_ME_NO_TRUNCATE = true)
    (hsum : RuntimeDevel.get_length_offset buf me + buf.data.length < 2 ^ 64)
    (hm : RuntimeDevel.check_match K o buf me = true) :
    RuntimeDevel.get_length_offset buf me + buf.data.length ≤ me.length := by
  unfold RuntimeDevel.check_match at hm
  unfold RuntimeDevel.get_length_offset at hsum ⊢
  by_contra hgt
  have hw : wrap64 ((if me.options.PTL_ME_MANAGE_LOCAL = true then me.offset
      else buf.data.offset) + buf.data.length) > me.length := by
    unfold wrap64 U64
    rw [Nat.mod_eq_of_lt hsum]
    omega
  simp [hnt, hw] at hm

/-! ## The walk of the priority and overflow lists -/

theorem find_match_eq_none_iff (K : Consts) (w : World) (pt : pt_t) :
    RuntimeDevel.find_match K w pt = none ↔
      ∀ x ∈ pt.priority_list ++ pt.overflow_list, RuntimeDevel.le_taken K w x = false := by
  unfold RuntimeDevel.find_match RuntimeDevel.find_one
  cases h1 : pt.priority_list.find? (RuntimeDevel.le_taken K w) with
  | some a =>
    have ht := List.find?_some h1
    have hmem := List.mem_of_find?_eq_some h1
    simp only [reduceCtorEq, false_iff]
    intro hall
    have := hall a (List.mem_append_left _ hmem)
    simp_all
  | none =>
    cases h2 : pt.overflow_list.find? (RuntimeDevel.le_taken K w) with
    | some a =>
      have ht := List.find?_some h2
      have hmem := List.mem_of_find?_eq_some h2
      simp only [reduceCtorEq, false_iff]
      intro hall
      have := hall a (List.mem_append_right _ hmem)
      simp_all
    | none =>
      simp only [true_iff]
      intro x hx
      rw [List.find?_eq_none] at h1 h2
      rcases List.mem_append.1 hx with hx | hx
      · simpa using h1 x hx
      · simpa using h2 x hx

theorem find_match_priority_iff (K : Consts) (w : World) (pt : pt_t) :
    (∃ h, RuntimeDevel.find_match K w pt = some (PTL_PRIORITY_LIST, h)) ↔
      ∃ x ∈ pt.priority_list, RuntimeDevel.le_taken K w x = true := by
  unfold RuntimeDevel.find_match RuntimeDevel.find_one
  cases h1 : pt.priority_list.find? (RuntimeDevel.le_taken K w) with
  | some a =>
    simp only [Option.some.injEq, Prod.mk.injEq, true_and, exists_eq', true_iff]
    exact ⟨a, List.mem_of_find?_eq_some h1, List.find?_some h1⟩
  | none =>
    rw [List.find?_eq_none] at h1
    cases h2 : pt.overflow_list.find? (RuntimeDevel.le_taken K w) <;>
      simp only [false_iff, not_exists, not_and, reduceCtorEq, Option.some.injEq, Prod.mk.injEq,
        false_and, exists_false] <;>
      exact fun x hx => h1 x hx

theorem find_match_overflow_iff (K : Consts) (w : World) (pt : pt_t) :
    (∃ h, RuntimeDevel.find_match K w pt = some (PTL_OVERFLOW_LIST, h)) ↔
      (∀ x ∈ pt.priority_list, RuntimeDevel.le_taken K w x = false) ∧
      ∃ x ∈ pt.overflow_list, RuntimeDevel.le_taken K w x = true := by
  unfold RuntimeDevel.find_match RuntimeDevel.find_one
  cases h1 : pt.priority_list.find? (RuntimeDevel.le_taken K w) with
  | some a =>
    have ht := List.find?_some h1
    have hmem := List.mem_of_find?_eq_some h1
    simp only [Option.some.injEq, Prod.mk.injEq, reduceCtorEq, false_and, exists_false,
      false_iff, not_and]
    intro hall
    have := hall a hmem
    simp_all
  | none =>
    rw [List.find?_eq_none] at h1
    have h1f : ∀ x ∈ pt.priority_list, RuntimeDevel.le_taken K w x = false := by
      intro x hx
      simpa using h1 x hx
    cases h2 : pt.overflow_list.find? (RuntimeDevel.le_taken K w) with
    | some a =>
      simp only [Option.some.injEq, Prod.mk.injEq, true_and, exists_eq', true_iff]
      exact ⟨h1f, a, List.mem_of_find?_eq_some h2, List.find?_some h2⟩
    | none =>
      rw [List.find?_eq_none] at h2
      simp only [reduceCtorEq, exists_false, false_iff, not_and, not_exists]
      intro _ x hx
      exact h2 x hx

theorem find_match_snd (K : Consts) (w : World) (pt : pt_t) :
    (RuntimeDevel.find_match K w pt).map Prod.snd =
      (pt.priority_list ++ pt.overflow_list).find? (RuntimeDevel.le_taken K w) := by
  unfold RuntimeDevel.find_match RuntimeDevel.find_one
  rw [List.find?_append]
  cases h1 : pt.priority_list.find? (RuntimeDevel.le_taken K w) with
  | some a => simp
  | none =>
    cases h2 : pt.overflow_list.find? (RuntimeDevel.le_taken K w) <;> simp

/-- C4: in `tgt_get_match` the element reached at `found_one` is the first element,
in the order priority list then overflow list, for which the interface has
`PTL_NI_NO_MATCHING` or `check_match` holds; an overflow element is found only when
this test fails for every priority element; exactly one of "found on the priority
list", "found on the overflow list", "nothing found" holds; when nothing is found
the next state is DROP with `le = NULL`; when an element is found it becomes
`buf->le` and the next state is GET_LENGTH if `check_perm` passes, otherwise the
next state is DROP with `le = NULL` and `ni_fail` the result of `check_perm`. -/
theorem tgt_get_match_outcomes (K : Consts) (w : World) (pi : Nat)
    (hpt : w.buf.pt = some pi) :
    ((RuntimeDevel.find_match K w (w.pt pi)).map Prod.snd =
      ((w.pt pi).priority_list ++ (w.pt pi).overflow_list).find?
        (fun x => w.ni.options.PTL_NI_NO_MATCHING ||
          RuntimeDevel.check_match K w.ni.options w.buf (w.les x))) ∧
    (∀ h, RuntimeDevel.find_match K w (w.pt pi) = some (PTL_OVERFLOW_LIST, h) →
      ∀ x ∈ (w.pt pi).priority_list,
        (w.ni.options.PTL_NI_NO_MATCHING ||
          RuntimeDevel.check_match K w.ni.options w.buf (w.les x)) = false) ∧
    (((∃ h, RuntimeDevel.find_match K w (w.pt pi) = some (PTL_PRIORITY_LIST, h)) ∧
        (¬ ∃ h, RuntimeDevel.find_match K w (w.pt pi) = some (PTL_OVERFLOW_LIST, h)) ∧
        RuntimeDevel.find_match K w (w.pt pi) ≠ none) ∨
      ((¬ ∃ h, RuntimeDevel.find_match K w (w.pt pi) = some (PTL_PRIORITY_LIST, h)) ∧
        (∃ h, RuntimeDevel.find_match K w (w.pt pi) = some (PTL_OVERFLOW_LIST, h)) ∧
        RuntimeDevel.find_match K w (w.pt pi) ≠ none) ∨
      ((¬ ∃ h, RuntimeDevel.find_match K w (w.pt pi) = some (PTL_PRIORITY_LIST, h)) ∧
        (¬ ∃ h, RuntimeDevel.find_match K w (w.pt pi) = some (PTL_OVERFLOW_LIST, h)) ∧
        RuntimeDevel.find_match K w (w.pt pi) = none)) ∧
    ((∃ h, RuntimeDevel.find_match K w (w.pt pi) = some (PTL_PRIORITY_LIST, h)) ↔
      ∃ x ∈ (w.pt pi).priority_list,
        (w.ni.options.PTL_NI_NO_MATCHING ||
          RuntimeDevel.check_match K w.ni.options w.buf (w.les x)) = true) ∧
    (RuntimeDevel.find_match K w (w.pt pi) = none ↔
      ∀ x ∈ (w.pt pi).priority_list ++ (w.pt pi).overflow_list,
        (w.ni.options.PTL_NI_NO_MATCHING ||
          RuntimeDevel.check_match K w.ni.options w.buf (w.les x)) = false) ∧
    (RuntimeDevel.find_match K w (w.pt pi) = none →
      (RuntimeDevel.tgt_get_match K w).state = some STATE_TGT_DROP ∧
      (RuntimeDevel.tgt_get_match K w).world.buf.le = none) ∧
    (∀ l h, RuntimeDevel.find_match K w (w.pt pi) = some (l, h) →
      (RuntimeDevel.check_perm K w.buf (w.les h) = PTL_NI_OK →
        (RuntimeDevel.tgt_get_match K w).state = some STATE_TGT_GET_LENGTH ∧
        (RuntimeDevel.tgt_get_match K w).world.buf.le = some h) ∧
      (RuntimeDevel.check_perm K w.buf (w.les h) ≠ PTL_NI_OK →
        (RuntimeDevel.tgt_get_match K w).state = some STATE_TGT_DROP ∧
        (RuntimeDevel.tgt_get_match K w).world.buf.le = none ∧
        (RuntimeDevel.tgt_get_match K w).world.buf.ni_fail =
          RuntimeDevel.check_perm K w.buf (w.les h))) := by
  refine ⟨find_match_snd K w _, ?_, ?_, find_match_priority_iff K w _,
    find_match_eq_none_iff K w _, ?_, ?_⟩
  · intro h hh
    exact ((find_match_overflow_iff K w (w.pt pi)).1 ⟨h, hh⟩).1
  · cases hf : RuntimeDevel.find_match K w (w.pt pi) with
    | none => simp
    | some r =>
      obtain ⟨l, h⟩ := r
      cases l <;> simp
  · intro hnone
    unfold RuntimeDevel.tgt_get_match
    simp only [hpt, hnone]
    exact ⟨rfl, rfl⟩
  · intro l h hsome
    constructor
    · intro hok
      unfold RuntimeDevel.tgt_get_match
      simp only [hpt, hsome]
      split
      · rename_i hc
        change (RuntimeDevel.check_perm K w.buf (w.les h) != PTL_NI_OK) = true at hc
        simp [hok] at hc
      · constructor
        · rfl
        · simp only [step_t.world, RuntimeDevel.init_events]
          split <;> split <;> split <;> rfl
    · intro hbad
      unfold RuntimeDevel.tgt_get_match
      simp only [hpt, hsome]
      split
      · exact ⟨rfl, rfl, rfl⟩
      · rename_i hc
        change ¬ (RuntimeDevel.check_perm K w.buf (w.les h) != PTL_NI_OK) = true at hc
        simp [hbad] at hc

/-- C4 (witness): on a matching interface, with the elements 0 and 3 that do not
match the sample PUT and the elements 1, 2 and 4 that do. With the priority list
0, 1, 2 and the overflow list 3, 4 the element found is 1, the first of the two
priority elements that match, and it becomes `buf->le`. With the priority list 0
and the overflow list 3, 4 the element found is 4, on the overflow list, and no
priority element passes the test. With the priority list 0 and the overflow list
3 nothing is found and the next state is DROP. On a non-matching interface the
first element, 0, is found although `check_match` fails for it. -/
theorem tgt_get_match_outcomes_witness :
    RuntimeDevel.check_match sample_consts (listed_world false 1 [0, 1, 2] [3, 4]).ni.options
      (listed_world false 1 [0, 1, 2] [3, 4]).buf (listed_les 0) = false ∧
    RuntimeDevel.check_match sample_consts (listed_world false 1 [0, 1, 2] [3, 4]).ni.options
      (listed_world false 1 [0, 1, 2] [3, 4]).buf (listed_les 1) = true ∧
    (RuntimeDevel.find_match sample_consts (listed_world false 1 [0, 1, 2] [3, 4])
      ((listed_world false 1 [0, 1, 2] [3, 4]).pt 0)).map Prod.snd = some 1 ∧
    (∃ h, RuntimeDevel.find_match sample_consts (listed_world false 1 [0, 1, 2] [3, 4])
      ((listed_world false 1 [0, 1, 2] [3, 4]).pt 0) = some (PTL_PRIORITY_LIST, h)) ∧
    ((RuntimeDevel.tgt_get_match sample_consts (listed_world false 1 [0, 1, 2] [3, 4])).state =
        some STATE_TGT_GET_LENGTH ∧
      (RuntimeDevel.tgt_get_match sample_consts
        (listed_world false 1 [0, 1, 2] [3, 4])).world.buf.le = some 1) ∧
    RuntimeDevel.find_match sample_consts (listed_world false 1 [0] [3, 4])
      ((listed_world false 1 [0] [3, 4]).pt 0) = some (PTL_OVERFLOW_LIST, 4) ∧
    ((listed_world false 1 [0] [3, 4]).ni.options.PTL_NI_NO_MATCHING ||
      RuntimeDevel.check_match sample_consts (listed_world false 1 [0] [3, 4]).ni.options
        (listed_world false 1 [0] [3, 4]).buf ((listed_world false 1 [0] [3, 4]).les 0)) =
      false ∧
    ((RuntimeDevel.tgt_get_match sample_consts (listed_world false 1 [0] [3, 4])).state =
        some STATE_TGT_GET_LENGTH ∧
      (RuntimeDevel.tgt_get_match sample_consts
        (listed_world false 1 [0] [3, 4])).world.buf.le = some 4) ∧
    RuntimeDevel.find_match sample_consts (listed_world false 1 [0] [3])
      ((listed_world false 1 [0] [3]).pt 0) = none ∧
    ((RuntimeDevel.tgt_get_match sample_consts (listed_world false 1 [0] [3])).state =
        some STATE_TGT_DROP ∧
      (RuntimeDevel.tgt_get_match sample_consts (listed_world false 1 [0] [3])).world.buf.le =
        none) ∧
    (RuntimeDevel.find_match sample_consts (listed_world_no_matching [0] [3])
      ((listed_world_no_matching [0] [3]).pt 0)).map Prod.snd = some 0 := by
  have a := tgt_get_match_outcomes sample_consts (listed_world false 1 [0, 1, 2] [3, 4]) 0 rfl
  have b := tgt_get_match_outcomes sample_consts (listed_world false 1 [0] [3, 4]) 0 rfl
  have c := tgt_get_match_outcomes sample_consts (listed_world false 1 [0] [3]) 0 rfl
  have d := tgt_get_match_outcomes sample_consts (listed_world_no_matching [0] [3]) 0 rfl
  exact ⟨by decide, by decide, a.1.trans (by decide), a.2.2.2.1.2 ⟨1, by decide, by decide⟩,
    (a.2.2.2.2.2.2 PTL_PRIORITY_LIST 1 (by decide)).1 (by decide), by decide,
    b.2.1 4 (by decide) 0 (by decide),
    (b.2.2.2.2.2.2 PTL_OVERFLOW_LIST 4 (by decide)).1 (by decide),
    c.2.2.2.2.1.2 (by decide), c.2.2.2.2.2.1 (by decide), d.1.trans (by decide)⟩

/-! ## Length and offset -/

theorem init_local_offset_fields (buf : buf_t) (me : me_t) :
    (RuntimeDevel.init_local_offset buf me).2.mlength = buf.mlength ∧
    (RuntimeDevel.init_local_offset buf me).2.moffset = buf.moffset ∧
    (RuntimeDevel.init_local_offset buf me).2.put_resid = buf.put_resid ∧
    (RuntimeDevel.init_local_offset buf me).2.get_resid = buf.get_resid ∧
    (RuntimeDevel.init_local_offset buf me).2.ni_fail = buf.ni_fail := by
  unfold RuntimeDevel.init_local_offset
  dsimp only
  split_ifs <;> exact ⟨rfl, rfl, rfl, rfl, rfl⟩

theorem get_length_switch_fields (K : Consts) (limits : ni_limits_t) (buf : buf_t) (len : Nat) :
    (RuntimeDevel.get_length_switch K limits buf len).2.ni_fail = buf.ni_fail ∧
    (RuntimeDevel.get_length_switch K limits buf len).2.data = buf.data ∧
    (RuntimeDevel.get_length_switch K limits buf len).2.operation = buf.operation := by
  unfold RuntimeDevel.get_length_switch
  split_ifs <;> exact ⟨rfl, rfl, rfl⟩

theorem tgt_get_length_buf (K : Consts) (limits : ni_limits_t) (cs : Nat) (buf : buf_t)
    (me : me_t) :
    (RuntimeDevel.tgt_get_length K limits cs buf me).buf.mlength =
      (RuntimeDevel.get_length_switch K limits buf (RuntimeDevel.get_length_room buf me)).1 ∧
    (RuntimeDevel.tgt_get_length K limits cs buf me).buf.moffset =
      RuntimeDevel.get_length_offset buf me ∧
    (RuntimeDevel.tgt_get_length K limits cs buf me).buf.put_resid =
      (RuntimeDevel.get_length_switch K limits buf (RuntimeDevel.get_length_room buf me)).2.put_resid ∧
    (RuntimeDevel.tgt_get_length K limits cs buf me).buf.get_resid =
      (RuntimeDevel.get_length_switch K limits buf (RuntimeDevel.get_length_room buf me)).2.get_resid ∧
    (RuntimeDevel.tgt_get_length K limits cs buf me).buf.ni_fail = buf.ni_fail := by
  unfold RuntimeDevel.tgt_get_length
  simp only []
  split_ifs <;>
    simp only [(init_local_offset_fields _ _).1, (init_local_offset_fields _ _).2.1,
      (init_local_offset_fields _ _).2.2.1, (init_local_offset_fields _ _).2.2.2.1,
      (init_local_offset_fields _ _).2.2.2.2, (get_length_switch_fields _ _ _ _).1,
      and_self]

theorem tgt_get_length_me (K : Consts) (limits : ni_limits_t) (cs : Nat) (buf : buf_t)
    (me : me_t) :
    (RuntimeDevel.tgt_get_length K limits cs buf me).me =
      if me.options.PTL_ME_MANAGE_LOCAL then
        { me with offset := wrap64 (me.offset +
            (RuntimeDevel.tgt_get_length K limits cs buf me).buf.mlength) }
      else me := by
  rw [(tgt_get_length_buf K limits cs buf me).1]
  unfold RuntimeDevel.tgt_get_length
  simp only []
  split_ifs <;> rfl

theorem get_length_switch_le (K : Consts) (limits : ni_limits_t) (buf : buf_t) (len : Nat) :
    (RuntimeDevel.get_length_switch K limits buf len).1 ≤ len := by
  unfold RuntimeDevel.get_length_switch
  split_ifs <;> simp only [] <;> omega

theorem get_length_room_le (buf : buf_t) (me : me_t) :
    RuntimeDevel.get_length_room buf me ≤ buf.data.length ∧
    (RuntimeDevel.get_length_offset buf me ≤ me.length →
      RuntimeDevel.get_length_room buf me ≤ me.length - RuntimeDevel.get_length_offset buf me) := by
  unfold RuntimeDevel.get_length_room
  simp only []
  split_ifs <;> constructor <;> intros <;> omega

theorem tgt_get_length_lengths (K : Consts) (limits : ni_limits_t) (cs : Nat) (buf : buf_t)
    (me : me_t) :
    (RuntimeDevel.tgt_get_length K limits cs buf me).buf.moffset =
      (if me.options.PTL_ME_MANAGE_LOCAL then me.offset else buf.data.offset) ∧
    ((RuntimeDevel.tgt_get_length K limits cs buf me).buf.moffset > me.length →
      (RuntimeDevel.tgt_get_length K limits cs buf me).buf.mlength = 0) ∧
    ((RuntimeDevel.tgt_get_length K limits cs buf me).buf.moffset ≤ me.length →
      (buf.operation = OP_PUT ∨ buf.operation = OP_GET) →
      (RuntimeDevel.tgt_get_length K limits cs buf me).buf.mlength =
        min (min buf.data.length
              (me.length - (RuntimeDevel.tgt_get_length K limits cs buf me).buf.moffset))
          limits.max_msg_size) := by
  rw [(tgt_get_length_buf K limits cs buf me).1, (tgt_get_length_buf K limits cs buf me).2.1]
  refine ⟨rfl, ?_, ?_⟩
  · intro hgt
    have hroom : RuntimeDevel.get_length_room buf me = 0 := by
      unfold RuntimeDevel.get_length_room
      simp only []
      rw [if_pos hgt]
    have := get_length_switch_le K limits buf (RuntimeDevel.get_length_room buf me)
    omega
  · intro hle hop
    have hroom : RuntimeDevel.get_length_room buf me =
        min buf.data.length (me.length - RuntimeDevel.get_length_offset buf me) := by
      unfold RuntimeDevel.get_length_room
      simp only []
      rw [if_neg (by omega)]
      split_ifs <;> omega
    rw [hroom]
    unfold RuntimeDevel.get_length_switch
    rcases hop with hop | hop
    · simp only [hop, OP_PUT, OP_GET, beq_self_eq_true, if_true]
      split_ifs <;> omega
    · simp only [hop, OP_PUT, OP_GET, beq_self_eq_true, if_true]
      simp only [show ((2 : Nat) == 1) = false from rfl, Bool.false_eq_true, if_false]
      split_ifs <;> omega

/-- C5: after `tgt_get_length`, `moffset` is `me.offset` for a locally managed
element and the request offset otherwise; if `moffset > me.length` then `mlength`
is 0 (for every operation); otherwise, for PUT and GET, `mlength` is the least of
the request length, `me.length - moffset` and `max_msg_size`. -/
theorem tgt_get_length_put_get (K : Consts) (limits : ni_limits_t) (cs : Nat) (buf : buf_t)
    (me : me_t) :
    (RuntimeDevel.tgt_get_length K limits cs buf me).buf.moffset =
      (if me.options.PTL_ME_MANAGE_LOCAL then me.offset else buf.data.offset) ∧
    ((RuntimeDevel.tgt_get_length K limits cs buf me).buf.moffset > me.length →
      (RuntimeDevel.tgt_get_length K limits cs buf me).buf.mlength = 0) ∧
    ((RuntimeDevel.tgt_get_length K limits cs buf me).buf.moffset ≤ me.length →
      (buf.operation = OP_PUT ∨ buf.operation = OP_GET) →
      (RuntimeDevel.tgt_get_length K limits cs buf me).buf.mlength =
        min (min buf.data.length
              (me.length - (RuntimeDevel.tgt_get_length K limits cs buf me).buf.moffset))
          limits.max_msg_size) :=
  tgt_get_length_lengths K limits cs buf me

/-- Instance of C5: the GET of 40 bytes from the element of 32 bytes gives
`moffset = 0` and `mlength = 32`. -/
theorem tgt_get_length_put_get_witness :
    (RuntimeDevel.tgt_get_length sample_consts sample_limits 3 sample_get sample_get_me).buf.moffset
      = 0 ∧
    (RuntimeDevel.tgt_get_length sample_consts sample_limits 3 sample_get sample_get_me).buf.mlength
      = 32 := by
  have h := tgt_get_length_put_get sample_consts sample_limits 3 sample_get sample_get_me
  refine ⟨h.1, ?_⟩
  rw [h.2.2 (by rw [h.1]; decide) (Or.inr rfl), h.1]
  decide

theorem get_length_switch_get (K : Consts) (limits : ni_limits_t) (buf : buf_t) (len : Nat)
    (hop : buf.operation = OP_GET) :
    (RuntimeDevel.get_length_switch K limits buf len).2.get_resid =
      (RuntimeDevel.get_length_switch K limits buf len).1 := by
  unfold RuntimeDevel.get_length_switch
  simp only [hop, OP_PUT, OP_GET, beq_self_eq_true, if_true,
    show ((2 : Nat) == 1) = false from rfl, Bool.false_eq_true, if_false]

theorem get_truncation_bounded (K : Consts) (limits : ni_limits_t) (cs : Nat)
    (o : ni_options_t) (buf : buf_t) (me : me_t) (hop : buf.operation = OP_GET)
    (hoff : RuntimeDevel.get_length_offset buf me ≤ me.length)
    (hlen : buf.data.length > me.length - RuntimeDevel.get_length_offset buf me)
    (hmax : me.length - RuntimeDevel.get_length_offset buf me ≤ limits.max_msg_size) :
    (RuntimeDevel.tgt_get_length K limits cs buf me).buf.mlength =
        me.length - RuntimeDevel.get_length_offset buf me ∧
    (RuntimeDevel.tgt_get_length K limits cs buf me).buf.get_resid =
        (RuntimeDevel.tgt_get_length K limits cs buf me).buf.mlength ∧
    (RuntimeDevel.tgt_get_length K limits cs buf me).buf.ni_fail = buf.ni_fail ∧
    (me.options.PTL_ME_NO_TRUNCATE = true →
      RuntimeDevel.get_length_offset buf me + buf.data.length < 2 ^ 64 →
      RuntimeDevel.check_match K o buf me = false) := by
  have h5 := tgt_get_length_lengths K limits cs buf me
  have hb := tgt_get_length_buf K limits cs buf me
  have hmo : (RuntimeDevel.tgt_get_length K limits cs buf me).buf.moffset =
      RuntimeDevel.get_length_offset buf me := hb.2.1
  refine ⟨?_, ?_, hb.2.2.2.2, ?_⟩
  · rw [h5.2.2 (by rw [hmo]; exact hoff) (Or.inr hop), hmo]
    omega
  · rw [hb.2.2.2.1, hb.1]
    exact get_length_switch_get K limits buf _ hop
  · intro hnt hsum
    cases hm : RuntimeDevel.check_match K o buf me with
    | false => rfl
    | true =>
      have := check_match_no_truncate_bounded K o buf me hnt hsum hm
      omega

/-- Evaluation for C6 (the defect of C2): a GET of `2 ^ 64 - 1` bytes at offset 1
from an element of 32 bytes with `NO_TRUNCATE` satisfies the premises of the
truncation law (`offset ≤ me.length`, `hdr.length > me.length - offset`,
`me.length - offset ≤ max_msg_size`), yet `check_match` accepts the element,
because `offset + length` wraps to 0 in 64 bits; `tgt_get_length` then truncates
the transfer to 31 bytes. -/
theorem get_no_truncate_wraps :
    wrapping_get.operation = OP_GET ∧
    no_truncate_me.options.PTL_ME_NO_TRUNCATE = true ∧
    RuntimeDevel.get_length_offset wrapping_get no_truncate_me ≤ no_truncate_me.length ∧
    wrapping_get.data.length >
      no_truncate_me.length - RuntimeDevel.get_length_offset wrapping_get no_truncate_me ∧
    no_truncate_me.length - RuntimeDevel.get_length_offset wrapping_get no_truncate_me ≤
      sample_limits.max_msg_size ∧
    wrapping_get.data.length < 2 ^ 64 ∧
    RuntimeDevel.check_match sample_consts {} wrapping_get no_truncate_me = true ∧
    (RuntimeDevel.tgt_get_length sample_consts sample_limits 3 wrapping_get
      no_truncate_me).buf.mlength = 31 := by
  decide

/-- Counterexample to C9 as stated: with `max_atomic_size = 4`, a compare-and-swap
of 8 bytes on an 8-byte datatype gets `mlength = 8`, which exceeds
`max_atomic_size`. -/
theorem atomic_clamp_counterexample :
    sample_cswap.operation = OP_SWAP ∧
    sample_cswap.data.atom_op ≠ sample_consts.PTL_SWAP ∧
    (RuntimeDevel.tgt_get_length sample_consts small_atomic_limits 3 sample_cswap
      sample_swap_me).buf.mlength = 8 ∧
    ¬ ((RuntimeDevel.tgt_get_length sample_consts small_atomic_limits 3 sample_cswap
      sample_swap_me).buf.mlength ≤ small_atomic_limits.max_atomic_size) := by
  decide

/-- C9 as amended: for ATOMIC, FETCH and SWAP with `atom_op = PTL_SWAP` the
resulting `mlength` is at most `max_atomic_size`, for every value of that limit;
for SWAP with any other `atom_op` the resulting `mlength` is at most the size of
the atomic datatype, `atom_type_size[atom_type]`, and so at most `max_atomic_size`
whenever the datatype size does not exceed that limit. -/
theorem atomic_clamp (K : Consts) (limits : ni_limits_t) (cs : Nat) (buf : buf_t) (me : me_t) :
    ((buf.operation = OP_ATOMIC ∨ buf.operation = OP_FETCH ∨
        (buf.operation = OP_SWAP ∧ buf.data.atom_op = K.PTL_SWAP)) →
      (RuntimeDevel.tgt_get_length K limits cs buf me).buf.mlength ≤ limits.max_atomic_size) ∧
    ((buf.operation = OP_SWAP ∧ buf.data.atom_op ≠ K.PTL_SWAP) →
      (RuntimeDevel.tgt_get_length K limits cs buf me).buf.mlength ≤
        K.atom_type_size buf.data.atom_type ∧
      (K.atom_type_size buf.data.atom_type ≤ limits.max_atomic_size →
        (RuntimeDevel.tgt_get_length K limits cs buf me).buf.mlength ≤
          limits.max_atomic_size)) := by
  rw [(tgt_get_length_buf K limits cs buf me).1]
  generalize RuntimeDevel.get_length_room buf me = len
  unfold RuntimeDevel.get_length_switch
  constructor
  · rintro (hop | hop | ⟨hop, hsw⟩)
    · simp only [hop, OP_PUT, OP_GET, OP_ATOMIC, beq_self_eq_true, if_true,
        show ((3 : Nat) == 1) = false from rfl, show ((3 : Nat) == 2) = false from rfl,
        Bool.false_eq_true, if_false]
      split_ifs <;> omega
    · simp only [hop, OP_PUT, OP_GET, OP_ATOMIC, OP_FETCH, beq_self_eq_true, if_true,
        show ((4 : Nat) == 1) = false from rfl, show ((4 : Nat) == 2) = false from rfl,
        show ((4 : Nat) == 3) = false from rfl, Bool.false_eq_true, if_false]
      split_ifs <;> omega
    · simp only [hop, hsw, OP_PUT, OP_GET, OP_ATOMIC, OP_FETCH, OP_SWAP, beq_self_eq_true,
        if_true, show ((5 : Nat) == 1) = false from rfl, show ((5 : Nat) == 2) = false from rfl,
        show ((5 : Nat) == 3) = false from rfl, show ((5 : Nat) == 4) = false from rfl,
        Bool.false_eq_true, if_false]
      split_ifs <;> omega
  · rintro ⟨hop, hsw⟩
    have hsw2 : (buf.data.atom_op == K.PTL_SWAP) = false := by simpa using hsw
    simp only [hop, hsw2, OP_PUT, OP_GET, OP_ATOMIC, OP_FETCH, OP_SWAP, beq_self_eq_true,
      if_true, show ((5 : Nat) == 1) = false from rfl, show ((5 : Nat) == 2) = false from rfl,
      show ((5 : Nat) == 3) = false from rfl, show ((5 : Nat) == 4) = false from rfl,
      Bool.false_eq_true, if_false]
    split_ifs <;> constructor <;> intros <;> omega

/-- Instance of C9 as amended: on the compare-and-swap of the counterexample the
length is bounded by the datatype size, 8. -/
theorem atomic_clamp_witness :
    (RuntimeDevel.tgt_get_length sample_consts small_atomic_limits 3 sample_cswap
      sample_swap_me).buf.mlength ≤ sample_consts.atom_type_size sample_cswap.data.atom_type :=
  ((atomic_clamp sample_consts small_atomic_limits 3 sample_cswap sample_swap_me).2
    ⟨rfl, by decide⟩).1

theorem tgt_get_length_mlength_le_room (K : Consts) (limits : ni_limits_t) (cs : Nat)
    (buf : buf_t) (me : me_t) (hoff : RuntimeDevel.get_length_offset buf me ≤ me.length) :
    (RuntimeDevel.tgt_get_length K limits cs buf me).buf.mlength ≤
      me.length - RuntimeDevel.get_length_offset buf me := by
  rw [(tgt_get_length_buf K limits cs buf me).1]
  have h1 := get_length_switch_le K limits buf (RuntimeDevel.get_length_room buf me)
  have h2 := (get_length_room_le buf me).2 hoff
  omega

theorem manage_local_step (K : Consts) (limits : ni_limits_t) (cs : Nat) (buf : buf_t)
    (me : me_t) (hlen : me.length < 2 ^ 64) (hoff : me.offset ≤ me.length)
    (hml : me.options.PTL_ME_MANAGE_LOCAL = true) :
    (RuntimeDevel.tgt_get_length K limits cs buf me).buf.moffset = me.offset ∧
    (RuntimeDevel.tgt_get_length K limits cs buf me).me.offset =
      me.offset + (RuntimeDevel.tgt_get_length K limits cs buf me).buf.mlength ∧
    (RuntimeDevel.tgt_get_length K limits cs buf me).me.offset ≤ me.length ∧
    (RuntimeDevel.tgt_get_length K limits cs buf me).me.length = me.length ∧
    (RuntimeDevel.tgt_get_length K limits cs buf me).me.options = me.options := by
  have hgo : RuntimeDevel.get_length_offset buf me = me.offset := by
    unfold RuntimeDevel.get_length_offset
    rw [if_pos hml]
  have hle := tgt_get_length_mlength_le_room K limits cs buf me (by rw [hgo]; exact hoff)
  rw [hgo] at hle
  have hme := tgt_get_length_me K limits cs buf me
  rw [if_pos hml] at hme
  have hw : wrap64 (me.offset + (RuntimeDevel.tgt_get_length K limits cs buf me).buf.mlength) =
      me.offset + (RuntimeDevel.tgt_get_length K limits cs buf me).buf.mlength := by
    unfold wrap64 U64
    apply Nat.mod_eq_of_lt
    omega
  rw [hw] at hme
  refine ⟨?_, ?_, ?_, ?_, ?_⟩
  · rw [(tgt_get_length_buf K limits cs buf me).2.1, hgo]
  · rw [hme]
  · rw [hme]
    show me.offset + _ ≤ me.length
    omega
  · rw [hme]
  · rw [hme]

/-- C10: for a locally managed element with `me.offset ≤ me.length`,
`tgt_get_length` sets `moffset` to the old `me.offset`, advances `me.offset` by
exactly `mlength` and keeps `me.offset ≤ me.length`; a second request on the same
element gets `moffset2 = moffset1 + mlength1`, so the two byte ranges are
consecutive and share no byte. For an element without `MANAGE_LOCAL` the element,
and so `me.offset`, is unchanged. -/
theorem manage_local_offset (K : Consts) (limits : ni_limits_t) (cs1 cs2 : Nat)
    (buf1 buf2 : buf_t) (me : me_t) (hlen : me.length < 2 ^ 64) (hoff : me.offset ≤ me.length) :
    (me.options.PTL_ME_MANAGE_LOCAL = true →
      (RuntimeDevel.tgt_get_length K limits cs1 buf1 me).buf.moffset = me.offset ∧
      (RuntimeDevel.tgt_get_length K limits cs1 buf1 me).me.offset =
        me.offset + (RuntimeDevel.tgt_get_length K limits cs1 buf1 me).buf.mlength ∧
      (RuntimeDevel.tgt_get_length K limits cs1 buf1 me).me.offset ≤ me.length ∧
      (RuntimeDevel.tgt_get_length K limits cs2 buf2
          (RuntimeDevel.tgt_get_length K limits cs1 buf1 me).me).buf.moffset =
        (RuntimeDevel.tgt_get_length K limits cs1 buf1 me).buf.moffset +
          (RuntimeDevel.tgt_get_length K limits cs1 buf1 me).buf.mlength ∧
      (RuntimeDevel.tgt_get_length K limits cs2 buf2
          (RuntimeDevel.tgt_get_length K limits cs1 buf1 me).me).me.offset ≤ me.length ∧
      (∀ a : Nat,
        ¬ (((RuntimeDevel.tgt_get_length K limits cs1 buf1 me).buf.moffset ≤ a ∧
              a < (RuntimeDevel.tgt_get_length K limits cs1 buf1 me).buf.moffset +
                (RuntimeDevel.tgt_get_length K limits cs1 buf1 me).buf.mlength) ∧
            ((RuntimeDevel.tgt_get_length K limits cs2 buf2
                (RuntimeDevel.tgt_get_length K limits cs1 buf1 me).me).buf.moffset ≤ a ∧
              a < (RuntimeDevel.tgt_get_length K limits cs2 buf2
                    (RuntimeDevel.tgt_get_length K limits cs1 buf1 me).me).buf.moffset +
                  (RuntimeDevel.tgt_get_length K limits cs2 buf2
                    (RuntimeDevel.tgt_get_length K limits cs1 buf1 me).me).buf.mlength)))) ∧
    (me.options.PTL_ME_MANAGE_LOCAL = false →
      (RuntimeDevel.tgt_get_length K limits cs1 buf1 me).me = me ∧
      (RuntimeDevel.tgt_get_length K limits cs1 buf1 me).me.offset = me.offset) := by
  constructor
  · intro hml
    obtain ⟨h1, h2, h3, h4, h5⟩ := manage_local_step K limits cs1 buf1 me hlen hoff hml
    obtain ⟨g1, _, g3, _, _⟩ := manage_local_step K limits cs2 buf2
      (RuntimeDevel.tgt_get_length K limits cs1 buf1 me).me (by rw [h4]; exact hlen)
      (by rw [h4]; exact h3) (by rw [h5]; exact hml)
    refine ⟨h1, h2, h3, ?_, ?_, ?_⟩
    · rw [g1, h2, h1]
    · rw [h4] at g3
      exact g3
    · intro a
      rw [g1, h2, h1]
      omega
  · intro hml
    have hme := tgt_get_length_me K limits cs1 buf1 me
    rw [hml] at hme
    simp only [Bool.false_eq_true, if_false] at hme
    exact ⟨hme, by rw [hme]⟩

/-- Instance of C10: two PUTs (16 bytes, then 40 bytes) on a locally managed element
of 32 bytes whose offset stands at 8 land at offsets 8 and 24; the second is cut
to the 8 bytes that remain. -/
theorem manage_local_offset_witness :
    (RuntimeDevel.tgt_get_length sample_consts sample_limits 3 sample_put
        sample_managed_me).buf.moffset = 8 ∧
    (RuntimeDevel.tgt_get_length sample_consts sample_limits 3 sample_put
        sample_managed_me).me.offset = 24 ∧
    (RuntimeDevel.tgt_get_length sample_consts sample_limits 3 sample_put_40
        (RuntimeDevel.tgt_get_length sample_consts sample_limits 3 sample_put
          sample_managed_me).me).buf.moffset = 24 ∧
    (RuntimeDevel.tgt_get_length sample_consts sample_limits 3 sample_put_40
        (RuntimeDevel.tgt_get_length sample_consts sample_limits 3 sample_put
          sample_managed_me).me).buf.mlength = 8 := by
  have h := (manage_local_offset sample_consts sample_limits 3 3 sample_put sample_put_40
    sample_managed_me (by decide) (by decide)).1 rfl
  refine ⟨h.1, ?_, ?_, by decide⟩
  · rw [h.2.1]; decide
  · rw [h.2.2.2.1, h.1]; decide


/-! ## Steps of the state machine -/

theorem loop_next (K : Consts) (C : Collab) (n : Nat) (s : tgt_state) (err : Bool)
    (w w1 : World) (s1 : tgt_state)
    (hs : s ≠ STATE_TGT_ERROR ∧ s ≠ STATE_TGT_CLEANUP_2 ∧ s ≠ STATE_TGT_DONE)
    (h : RuntimeDevel.tgt_handler K C s (w.log (Action.ptl_info s)) = step_t.next w1 s1)
    (hns : (RuntimeDevel.tgt_suspends s && s1 == s) = false) :
    RuntimeDevel.process_tgt_loop K C (n + 1) s err w =
      RuntimeDevel.process_tgt_loop K C n s1 err w1 := by
  obtain ⟨h1, h2, h3⟩ := hs
  cases s <;>
    first
    | exact absurd rfl h1
    | exact absurd rfl h2
    | exact absurd rfl h3
    | (rw [RuntimeDevel.process_tgt_loop] <;>
        first
        | (intro hh; cases hh)
        | (simp only [h, hns]; rfl))

theorem prepare_send_buf_alloc (K : Consts) (C : Collab) (w : World) (sb : send_buf_t)
    (hib : K.WITH_TRANSPORT_IB = true) (hrdma : w.conn.transport_type = K.CONN_TYPE_RDMA)
    (halloc : C.buf_alloc w = some sb) :
    RuntimeDevel.prepare_send_buf K C w =
      (false, { w with
        buf.send_buf := some { sb with
          has_xxbuf := true,
          data := { sb.data with data_in := 0, data_out := 0, version := PTL_HDR_VER_1,
                                 handle := w.buf.data.handle },
          length := sizeof_ack_hdr K },
        trace := w.trace ++ [Action.buf_get] }) := by
  unfold RuntimeDevel.prepare_send_buf
  simp [hib, hrdma, halloc, World.log]

theorem prepare_send_buf_reuse (K : Consts) (C : Collab) (w : World)
    (hrdma : (K.WITH_TRANSPORT_IB && w.conn.transport_type == K.CONN_TYPE_RDMA) = false)
    (hack : w.buf.event_mask.XT_ACK_EVENT = true) :
    RuntimeDevel.prepare_send_buf K C w = (false, w) := by
  unfold RuntimeDevel.prepare_send_buf
  simp [hrdma, hack]

theorem tgt_start_put (K : Consts) (C : Collab) (w w1 : World)
    (hop : w.buf.data.operation = OP_PUT) (hack : w.buf.data.ack_req ≠ PTL_NO_ACK_REQ)
    (hmask : w.buf.event_mask = {})
    (hconn : ∀ x, C.get_conn x = true)
    (hprep : RuntimeDevel.prepare_send_buf K C
      { w with buf.operation := OP_PUT, buf.pt := none, buf.in_atomic := 0,
               buf.matching_le := none, buf.le := none, buf.indir_sge := false,
               buf.send_buf := none, buf.event_mask := { XT_ACK_EVENT := true },
               buf.on_unexpected_list := false, buf.conn := true } = (false, w1))
    (hidx : w.buf.data.pt_index < w.ni.limits.max_pt_index)
    (hni : w1.ni = w.ni) (hdata : w1.buf.data = w.buf.data)
    (huse : (w.ni.pt w.buf.data.pt_index).in_use = true)
    (hen : (w.ni.pt w.buf.data.pt_index).state = K.PT_ENABLED) :
    RuntimeDevel.tgt_start K C w =
      step_t.next
        ({ w1 with buf.pt := some w.buf.data.pt_index }.set_pt w.buf.data.pt_index
          { (w.ni.pt w.buf.data.pt_index) with
            num_tgt_active := (w.ni.pt w.buf.data.pt_index).num_tgt_active + 1 })
        STATE_TGT_GET_MATCH := by
  unfold RuntimeDevel.tgt_start
  have hack2 : (w.buf.data.ack_req != PTL_NO_ACK_REQ) = true := by simpa using hack
  simp only [hop, hack2, hmask, hconn, OP_PUT, OP_GET, OP_ATOMIC, OP_FETCH, OP_SWAP,
    beq_self_eq_true, Bool.true_or, Bool.not_true, Bool.false_eq_true, if_false, if_true,
    Bool.or_true, Bool.or_false]
  simp only [OP_PUT] at hprep
  rw [hprep]
  simp [World.pt, World.set_pt, hidx, huse, hen, hni, hdata, Nat.not_le.2 hidx]

theorem le_taken_congr (K : Consts) (w1 w : World) (h1 : w1.ni.options = w.ni.options)
    (h2 : w1.buf.data = w.buf.data) (h3 : w1.les = w.les) :
    RuntimeDevel.le_taken K w1 = RuntimeDevel.le_taken K w := by
  funext h
  unfold RuntimeDevel.le_taken RuntimeDevel.check_match
  rw [h1, h2, h3]

theorem find_match_congr (K : Consts) (w1 w : World) (pt1 pt : pt_t)
    (h1 : w1.ni.options = w.ni.options) (h2 : w1.buf.data = w.buf.data) (h3 : w1.les = w.les)
    (h4 : pt1.priority_list = pt.priority_list) (h5 : pt1.overflow_list = pt.overflow_list) :
    RuntimeDevel.find_match K w1 pt1 = RuntimeDevel.find_match K w pt := by
  unfold RuntimeDevel.find_match RuntimeDevel.find_one
  rw [le_taken_congr K w1 w h1 h2 h3, h4, h5]

theorem check_perm_congr (K : Consts) (b1 b2 : buf_t) (le : me_t)
    (h1 : b1.data.uid = b2.data.uid) (h2 : b1.operation = b2.operation) :
    RuntimeDevel.check_perm K b1 le = RuntimeDevel.check_perm K b2 le := by
  unfold RuntimeDevel.check_perm
  rw [h1, h2]

theorem init_events_eq (buf : buf_t) (pt : pt_t) (le : me_t) (heq : pt.eq = true)
    (hcd : le.options.PTL_LE_EVENT_COMM_DISABLE = false) :
    RuntimeDevel.init_events buf pt le =
      { buf with event_mask :=
        { buf.event_mask with
          XT_COMM_EVENT := true,
          XT_CT_COMM_EVENT := buf.event_mask.XT_CT_COMM_EVENT ||
            (le.ct && le.options.PTL_LE_EVENT_CT_COMM) } } := by
  unfold RuntimeDevel.init_events
  cases hct : (le.ct && le.options.PTL_LE_EVENT_CT_COMM) <;> simp [heq, hcd, hct]

theorem tgt_get_match_found (K : Consts) (w : World) (pi : Nat) (l : ptl_list_t) (h : Nat)
    (hpt : w.buf.pt = some pi)
    (hf : RuntimeDevel.find_match K w (w.pt pi) = some (l, h))
    (hperm : RuntimeDevel.check_perm K w.buf (w.les h) = PTL_NI_OK)
    (hprio : (w.les h).ptl_list = PTL_PRIORITY_LIST) :
    RuntimeDevel.tgt_get_match K w =
      step_t.next
        { w with
          buf := RuntimeDevel.init_events
            { w.buf with le := some h, matching_list := PTL_PRIORITY_LIST } (w.pt pi) (w.les h),
          trace := w.trace ++ [Action.le_get h] }
        STATE_TGT_GET_LENGTH := by
  unfold RuntimeDevel.tgt_get_match
  simp only [hpt, hf]
  rw [if_neg]
  · simp [World.log, hprio, World.pt, hpt]
  · change ¬ (RuntimeDevel.check_perm K w.buf (w.les h) != PTL_NI_OK) = true
    simp [hperm]

theorem state_get_length_some (K : Consts) (w : World) (h : Nat) (hle : w.buf.le = some h) :
    RuntimeDevel.state_get_length K w =
      step_t.next
        { w with
          les := Function.update w.les h
            (RuntimeDevel.tgt_get_length K w.ni.limits w.conn.state w.buf (w.les h)).me,
          buf := (RuntimeDevel.tgt_get_length K w.ni.limits w.conn.state w.buf (w.les h)).buf,
          trace := w.trace ++
            (match (RuntimeDevel.tgt_get_length K w.ni.limits w.conn.state w.buf
              (w.les h)).unlink with
             | some flag => [Action.le_unlink h flag]
             | none => []) }
        (RuntimeDevel.tgt_get_length K w.ni.limits w.conn.state w.buf (w.les h)).next := by
  unfold RuntimeDevel.state_get_length
  simp only [hle]
  cases (RuntimeDevel.tgt_get_length K w.ni.limits w.conn.state w.buf (w.les h)).unlink <;>
    simp [World.log, World.set_le]

theorem init_local_offset_frame (buf : buf_t) (me : me_t) :
    ∃ x y z, (RuntimeDevel.init_local_offset buf me).2 =
      { buf with cur_loc_iov_index := x, cur_loc_iov_off := y, start := z } := by
  unfold RuntimeDevel.init_local_offset
  dsimp only
  split_ifs <;> exact ⟨_, _, _, rfl⟩

theorem get_length_switch_frame (K : Consts) (limits : ni_limits_t) (buf : buf_t) (len : Nat) :
    ∃ p g, (RuntimeDevel.get_length_switch K limits buf len).2 =
      { buf with put_resid := p, get_resid := g } := by
  unfold RuntimeDevel.get_length_switch
  split_ifs <;> exact ⟨_, _, rfl⟩

theorem tgt_get_length_buf_eq (K : Consts) (limits : ni_limits_t) (cs : Nat) (buf : buf_t)
    (me : me_t) :
    ∃ m : me_t, (RuntimeDevel.tgt_get_length K limits cs buf me).buf =
      (RuntimeDevel.init_local_offset
        { (RuntimeDevel.get_length_switch K limits buf (RuntimeDevel.get_length_room buf me)).2
          with
          mlength :=
            (RuntimeDevel.get_length_switch K limits buf (RuntimeDevel.get_length_room buf me)).1,
          moffset := RuntimeDevel.get_length_offset buf me } m).2 := by
  unfold RuntimeDevel.tgt_get_length
  dsimp only
  split_ifs <;> exact ⟨_, rfl⟩

theorem tgt_get_length_frame (K : Consts) (limits : ni_limits_t) (cs : Nat) (buf : buf_t)
    (me : me_t) :
    (RuntimeDevel.tgt_get_length K limits cs buf me).buf =
      { buf with
        put_resid := (RuntimeDevel.tgt_get_length K limits cs buf me).buf.put_resid,
        get_resid := (RuntimeDevel.tgt_get_length K limits cs buf me).buf.get_resid,
        mlength := (RuntimeDevel.tgt_get_length K limits cs buf me).buf.mlength,
        moffset := (RuntimeDevel.tgt_get_length K limits cs buf me).buf.moffset,
        cur_loc_iov_index := (RuntimeDevel.tgt_get_length K limits cs buf me).buf.cur_loc_iov_index,
        cur_loc_iov_off := (RuntimeDevel.tgt_get_length K limits cs buf me).buf.cur_loc_iov_off,
        start := (RuntimeDevel.tgt_get_length K limits cs buf me).buf.start } := by
  obtain ⟨m, hm⟩ := tgt_get_length_buf_eq K limits cs buf me
  obtain ⟨p, g, hsw⟩ := get_length_switch_frame K limits buf (RuntimeDevel.get_length_room buf me)
  rw [hsw] at hm
  obtain ⟨x, y, z, hin⟩ := init_local_offset_frame
    ({ ({ buf with put_resid := p, get_resid := g } : buf_t) with
        mlength :=
          (RuntimeDevel.get_length_switch K limits buf (RuntimeDevel.get_length_room buf me)).1,
        moffset := RuntimeDevel.get_length_offset buf me } : buf_t) m
  rw [hin] at hm
  rw [hm]


theorem init_local_offset_loop_loc (moffset : Nat) (iov : List ptl_iovec_t) :
    ∀ (n i loc off : Nat), loc ≤ moffset →
      (RuntimeDevel.init_local_offset_loop moffset iov n i loc off).2.1 =
        min moffset (loc + iov_sum iov i n) := by
  intro n
  induction n with
  | zero =>
    intro i loc off hle
    simp only [RuntimeDevel.init_local_offset_loop, iov_sum]
    omega
  | succ n ih =>
    intro i loc off hle
    rw [RuntimeDevel.init_local_offset_loop]
    by_cases hlt : loc < moffset
    · rw [if_pos hlt]
      dsimp only
      rw [ih _ _ _ (by split_ifs <;> omega)]
      simp only [iov_sum]
      split_ifs <;> omega
    · rw [if_neg hlt]
      simp only [iov_sum]
      omega

theorem init_local_offset_ok (buf : buf_t) (me : me_t)
    (hcov : me.num_iov = 0 ∨ buf.moffset ≤ iov_sum me.iov 0 me.num_iov) :
    (RuntimeDevel.init_local_offset buf me).1 = false := by
  unfold RuntimeDevel.init_local_offset
  dsimp only
  by_cases h0 : me.num_iov = 0
  · simp [h0]
  · have hc : buf.moffset ≤ iov_sum me.iov 0 me.num_iov := by
      rcases hcov with h | h
      · exact absurd h h0
      · exact h
    have hl := init_local_offset_loop_loc buf.moffset me.iov me.num_iov 0 0 0 (Nat.zero_le _)
    have hn : ¬ (RuntimeDevel.init_local_offset_loop buf.moffset me.iov me.num_iov 0 0 0).2.1 <
        buf.moffset := by
      rw [hl]
      omega
    simp [h0, hn]

theorem tgt_get_length_next_data (K : Consts) (limits : ni_limits_t) (cs : Nat) (buf : buf_t)
    (me : me_t) (hconn : cs ≥ K.CONN_STATE_CONNECTED)
    (hcov : me.num_iov = 0 ∨
      RuntimeDevel.get_length_offset buf me ≤ iov_sum me.iov 0 me.num_iov) :
    (RuntimeDevel.tgt_get_length K limits cs buf me).next = STATE_TGT_DATA := by
  have hinit : ∀ (b : buf_t) (m : me_t), b.moffset = RuntimeDevel.get_length_offset buf me →
      m.num_iov = me.num_iov → m.iov = me.iov →
      (RuntimeDevel.init_local_offset b m).1 = false := by
    intro b m hb h1 h2
    apply init_local_offset_ok
    rw [h1, h2, hb]
    exact hcov
  unfold RuntimeDevel.tgt_get_length
  dsimp only
  split_ifs <;> first
    | rfl
    | (rename_i he
       refine absurd (Eq.trans (Eq.symm ?_) he) Bool.false_ne_true
       apply hinit <;> rfl)

theorem tgt_data_put (K : Consts) (w : World) (hconn : w.conn.state ≥ K.CONN_STATE_CONNECTED)
    (hop : w.buf.operation = OP_PUT) (hget : w.buf.get_resid = 0)
    (hput : w.buf.put_resid ≠ 0) :
    RuntimeDevel.tgt_data K w =
      step_t.next { w with buf.has_dest := true, trace := w.trace ++ [Action.set_buf_dest] }
        STATE_TGT_DATA_IN := by
  unfold RuntimeDevel.tgt_data
  simp [hconn, hop, hget, hput, World.log, OP_PUT, OP_ATOMIC, OP_SWAP, OP_FETCH]

theorem tgt_copy_in_eq (C : Collab) (w : World) (me : me_t) (data : Nat → Nat) :
    RuntimeDevel.tgt_copy_in C w me data =
      (if me.num_iov != 0 then (C.iov_copy_in w).1 else false,
       { w with mem :=
          if me.num_iov != 0 then (C.iov_copy_in w).2
          else RuntimeDevel.memcpy w.mem (me.start + w.buf.moffset) data w.buf.mlength }) := by
  unfold RuntimeDevel.tgt_copy_in
  split_ifs <;> rfl

theorem tgt_data_in_immediate (K : Consts) (C : Collab) (w : World) (h : Nat) (d : data_t)
    (hle : w.buf.le = some h) (hd : w.buf.data_in = some d)
    (hfmt : d.data_fmt = DATA_FMT_IMMEDIATE) (hat : w.buf.in_atomic = 0)
    (hcopy : ∀ x, (C.iov_copy_in x).1 = false) :
    RuntimeDevel.tgt_data_in K C w =
      step_t.next
        { w with
          buf.rdma_dir := DATA_DIR_IN,
          mem :=
            if (w.les h).num_iov != 0 then
              (C.iov_copy_in { w with buf.rdma_dir := DATA_DIR_IN }).2
            else
              RuntimeDevel.memcpy w.mem ((w.les h).start + w.buf.moffset) d.immediate_data
                w.buf.mlength }
        STATE_TGT_COMM_EVENT := by
  unfold RuntimeDevel.tgt_data_in
  simp only [hle, hd, hfmt]
  rw [tgt_copy_in_eq]
  simp [hcopy, RuntimeDevel.data_in_leave, hat]

theorem tgt_comm_event_put (w : World) (h pi : Nat)
    (hle : w.buf.le = some h) (hpt : w.buf.pt = some pi)
    (hop : w.buf.data.operation = OP_PUT)
    (hcomm : w.buf.event_mask.XT_COMM_EVENT = true)
    (hrep : w.buf.event_mask.XT_REPLY_EVENT = false)
    (hack : w.buf.event_mask.XT_ACK_EVENT = true)
    (hsd : w.buf.ni_fail ≠ PTL_NI_OK ∨ (w.les h).options.PTL_LE_EVENT_SUCCESS_DISABLE = false) :
    RuntimeDevel.tgt_comm_event w =
      step_t.next
        { w with
          buf.event_mask.XT_COMM_EVENT := false,
          buf.event_mask.XT_CT_COMM_EVENT := false,
          trace := w.trace ++
            [Action.make_target_event (w.pt pi).eq PTL_EVENT_PUT (some (w.les h).user_ptr)
              w.buf.start w.buf.ni_fail w.buf.mlength w.buf.moffset] ++
            (if w.buf.event_mask.XT_CT_COMM_EVENT then
              [Action.make_ct_event h
                (if (w.les h).options.PTL_LE_EVENT_CT_BYTES then CT_MBYTES else CT_EVENTS)
                w.buf.ni_fail w.buf.mlength]
             else []) }
        STATE_TGT_SEND_ACK := by
  have hsd2 : (w.buf.ni_fail != PTL_NI_OK ||
      !(w.les h).options.PTL_LE_EVENT_SUCCESS_DISABLE) = true := by
    rcases hsd with h1 | h1
    · simp [h1]
    · simp [h1]
  unfold RuntimeDevel.tgt_comm_event
  simp only [hcomm, hle, hpt, if_true]
  unfold RuntimeDevel.make_comm_event
  simp only [hsd2, hop, if_true, OP_PUT, beq_self_eq_true]
  cases hct : w.buf.event_mask.XT_CT_COMM_EVENT
  · simp [World.log, hct, hrep, hack, hle, hpt]
  · simp [World.log, hct, hrep, hack, hle, hpt, RuntimeDevel.make_ct_comm_event]

theorem tgt_send_ack_send_buf (K : Consts) (C : Collab) (w : World) (h : Nat) (sb : send_buf_t)
    (hsb : w.buf.send_buf = some sb) (hreq : w.buf.data.ack_req = PTL_ACK_REQ)
    (hle : w.buf.le = some h)
    (hnd : (w.les h).options.PTL_LE_ACK_DISABLE = false)
    (hprio : (w.les h).ptl_list = PTL_PRIORITY_LIST)
    (hsend : ∀ x, C.send_message x = false) :
    RuntimeDevel.tgt_send_ack K C w =
      step_t.next
        { w with
          buf.le := none,
          buf.send_buf := some
            { sb with
              data := { sb.data with ni_fail := w.buf.ni_fail, length := w.buf.mlength,
                                     offset := w.buf.moffset,
                                     matching_list := w.buf.matching_list,
                                     operation := OP_ACK },
              has_dest := w.buf.has_dest, has_conn := w.buf.conn },
          trace := w.trace ++
            [Action.le_put h, Action.set_send_flags 1,
             Action.send_message
               { sb with
                 data := { sb.data with ni_fail := w.buf.ni_fail, length := w.buf.mlength,
                                        offset := w.buf.moffset,
                                        matching_list := w.buf.matching_list,
                                        operation := OP_ACK },
                 has_dest := w.buf.has_dest, has_conn := w.buf.conn } 0] }
        STATE_TGT_CLEANUP := by
  unfold RuntimeDevel.tgt_send_ack
  simp [hsb, hreq, hle, hnd, hprio, hsend, PTL_ACK_REQ, RuntimeDevel.store_ack,
    RuntimeDevel.put_priority_le, World.log]

theorem tgt_send_ack_reuse (K : Consts) (C : Collab) (w : World) (h : Nat)
    (hsb : w.buf.send_buf = none) (hreq : w.buf.data.ack_req = PTL_ACK_REQ)
    (hle : w.buf.le = some h)
    (hnd : (w.les h).options.PTL_LE_ACK_DISABLE = false)
    (hprio : (w.les h).ptl_list = PTL_PRIORITY_LIST)
    (hmem : (K.WITH_TRANSPORT_SHMEM || K.IS_PPE) = true) (hmb : w.buf.has_mem_buf = true) :
    RuntimeDevel.tgt_send_ack K C w =
      step_t.next
        { w with
          buf.le := none,
          buf.ack :=
            { w.buf.ack with version := w.buf.data.version, handle := w.buf.data.handle,
                             data_in := 0, data_out := 0, pkt_fmt := PKT_FMT_REPLY,
                             ni_fail := w.buf.ni_fail, length := w.buf.mlength,
                             offset := w.buf.moffset, matching_list := w.buf.matching_list,
                             operation := OP_ACK },
          buf.length := sizeof_ack_hdr K,
          buf.data.operation := OP_ACK,
          buf.data.data_in := 0,
          buf.data.data_out := 0,
          buf.data.pkt_fmt := PKT_FMT_REPLY,
          buf.mem_buf_send := true,
          trace := w.trace ++
            [Action.le_put h,
             Action.mem_buf_send
               { w.buf.ack with version := w.buf.data.version, handle := w.buf.data.handle,
                                data_in := 0, data_out := 0, pkt_fmt := PKT_FMT_REPLY,
                                ni_fail := w.buf.ni_fail, length := w.buf.mlength,
                                offset := w.buf.moffset, matching_list := w.buf.matching_list,
                                operation := OP_ACK }
               (sizeof_ack_hdr K)] }
        STATE_TGT_CLEANUP := by
  unfold RuntimeDevel.tgt_send_ack
  simp [hsb, hreq, hle, hnd, hprio, hmem, hmb, PTL_ACK_REQ, RuntimeDevel.store_ack,
    RuntimeDevel.put_priority_le, World.log]

theorem world_send_buf_none (w : World) (h : w.buf.send_buf = none) :
    ({ w with buf.send_buf := none } : World) = w := by
  cases w with
  | mk ni les mem conn buf trace =>
    cases buf
    simp_all

theorem tgt_cleanup_plain (K : Consts) (w : World) (pi : Nat)
    (hm : w.buf.matching_le = none) (hle : w.buf.le = none)
    (hind : w.buf.indir_sge = false) (hpt : w.buf.pt = some pi) :
    RuntimeDevel.tgt_cleanup K w =
      step_t.next
        { w with
          buf.send_buf := none,
          ni.pt := Function.update w.ni.pt pi
            { (w.pt pi) with
              num_tgt_active := (w.pt pi).num_tgt_active - 1,
              state :=
                if ((w.pt pi).state &&& K.PT_AUTO_DISABLED != 0) &&
                    ((w.pt pi).num_tgt_active - 1 == 0) then K.PT_DISABLED
                else (w.pt pi).state },
          trace := w.trace ++
            (if w.buf.send_buf.isSome then [Action.buf_put_send_buf] else []) ++
            (if ((w.pt pi).state &&& K.PT_AUTO_DISABLED != 0) &&
                  ((w.pt pi).num_tgt_active - 1 == 0) then
                [Action.make_target_event (w.pt pi).eq PTL_EVENT_PT_DISABLED none none
                  w.buf.ni_fail w.buf.mlength w.buf.moffset]
              else []) }
        STATE_TGT_CLEANUP_2 := by
  unfold RuntimeDevel.tgt_cleanup
  simp only [hm, hle, hind, Bool.false_eq_true, if_false, World.pt]
  generalize hcdef : (((w.ni.pt pi).state &&& K.PT_AUTO_DISABLED != 0) &&
    ((w.ni.pt pi).num_tgt_active - 1 == 0)) = c
  cases hsb : w.buf.send_buf with
  | none =>
    cases c <;>
      simp [World.log, World.set_pt, World.pt, hsb, hpt, hcdef, hle, hm, hind] <;>
      (cases hb : w.buf; simp_all)
  | some sb =>
    cases c <;>
      simp [World.log, World.set_pt, World.pt, hsb, hpt, hcdef, hle, hm, hind]

theorem loop_CLEANUP_2 (K : Consts) (C : Collab) (n : Nat) (err : Bool) (w : World) :
    RuntimeDevel.process_tgt_loop K C (n + 1) STATE_TGT_CLEANUP_2 err w =
      RuntimeDevel.run_result.returned
        ({ (RuntimeDevel.tgt_cleanup_2 (w.log (Action.ptl_info STATE_TGT_CLEANUP_2))) with
            buf.tgt_state := STATE_TGT_DONE }.log Action.buf_put) err := by
  rw [RuntimeDevel.process_tgt_loop]

theorem tgt_cleanup_2_conn (w : World) (hle : w.buf.le = none) (hconn : w.buf.conn = true) :
    RuntimeDevel.tgt_cleanup_2 w =
      { w with buf.conn := false, trace := w.trace ++ [Action.conn_put] } := by
  unfold RuntimeDevel.tgt_cleanup_2
  simp [hle, hconn, World.log]

theorem check_perm_put_ok (K : Consts) (buf : buf_t) (le : me_t)
    (hop : buf.operation = OP_PUT)
    (huid : le.uid = K.PTL_UID_ANY ∨ le.uid = buf.data.uid)
    (hput : le.options.PTL_ME_OP_PUT = true) :
    RuntimeDevel.check_perm K buf le = PTL_NI_OK := by
  unfold RuntimeDevel.check_perm
  have hu : (!(le.uid == K.PTL_UID_ANY || le.uid == buf.data.uid)) = false := by
    rcases huid with h | h <;> simp [h]
  simp [hu, hop, hput]

theorem get_length_switch_put (K : Consts) (limits : ni_limits_t) (buf : buf_t) (len : Nat)
    (hop : buf.operation = OP_PUT) :
    (RuntimeDevel.get_length_switch K limits buf len).2.put_resid =
      (RuntimeDevel.get_length_switch K limits buf len).1 ∧
    (RuntimeDevel.get_length_switch K limits buf len).2.get_resid = 0 := by
  unfold RuntimeDevel.get_length_switch
  simp only [hop, beq_self_eq_true, if_true, and_self]

theorem tgt_get_length_put (K : Consts) (limits : ni_limits_t) (cs : Nat) (buf : buf_t)
    (me : me_t) (hop : buf.operation = OP_PUT) :
    (RuntimeDevel.tgt_get_length K limits cs buf me).buf.put_resid =
      (RuntimeDevel.tgt_get_length K limits cs buf me).buf.mlength ∧
    (RuntimeDevel.tgt_get_length K limits cs buf me).buf.get_resid = 0 := by
  have hb := tgt_get_length_buf K limits cs buf me
  rw [hb.2.2.1, hb.2.2.2.1, hb.1]
  exact get_length_switch_put K limits buf _ hop

theorem tgt_get_length_me_fields (K : Consts) (limits : ni_limits_t) (cs : Nat) (buf : buf_t)
    (me : me_t) :
    (RuntimeDevel.tgt_get_length K limits cs buf me).me.options = me.options ∧
    (RuntimeDevel.tgt_get_length K limits cs buf me).me.ptl_list = me.ptl_list ∧
    (RuntimeDevel.tgt_get_length K limits cs buf me).me.num_iov = me.num_iov ∧
    (RuntimeDevel.tgt_get_length K limits cs buf me).me.start = me.start ∧
    (RuntimeDevel.tgt_get_length K limits cs buf me).me.user_ptr = me.user_ptr ∧
    (RuntimeDevel.tgt_get_length K limits cs buf me).me.length = me.length := by
  rw [tgt_get_length_me]
  split_ifs <;> exact ⟨rfl, rfl, rfl, rfl, rfl, rfl⟩
theorem loop_trans (K : Consts) (C : Collab) (n : Nat) (s : tgt_state) (err : Bool)
    (w w1 : World) (s1 : tgt_state) (r : RuntimeDevel.run_result)
    (hs : s ≠ STATE_TGT_ERROR ∧ s ≠ STATE_TGT_CLEANUP_2 ∧ s ≠ STATE_TGT_DONE)
    (h : RuntimeDevel.tgt_handler K C s (w.log (Action.ptl_info s)) = step_t.next w1 s1)
    (hns : (RuntimeDevel.tgt_suspends s && s1 == s) = false)
    (hrest : RuntimeDevel.process_tgt_loop K C n s1 err w1 = r) :
    RuntimeDevel.process_tgt_loop K C (n + 1) s err w = r :=
  (loop_next K C n s err w w1 s1 hs h hns).trans hrest

theorem tgt_handler_DATA (K : Consts) (C : Collab) (w : World) :
    RuntimeDevel.tgt_handler K C STATE_TGT_DATA w = RuntimeDevel.tgt_data K w := rfl

theorem tgt_handler_DATA_IN (K : Consts) (C : Collab) (w : World) :
    RuntimeDevel.tgt_handler K C STATE_TGT_DATA_IN w = RuntimeDevel.tgt_data_in K C w := rfl

theorem tgt_handler_COMM_EVENT (K : Consts) (C : Collab) (w : World) :
    RuntimeDevel.tgt_handler K C STATE_TGT_COMM_EVENT w = RuntimeDevel.tgt_comm_event w := rfl

theorem tgt_handler_SEND_ACK (K : Consts) (C : Collab) (w : World) :
    RuntimeDevel.tgt_handler K C STATE_TGT_SEND_ACK w = RuntimeDevel.tgt_send_ack K C w := rfl

theorem tgt_handler_CLEANUP (K : Consts) (C : Collab) (w : World) :
    RuntimeDevel.tgt_handler K C STATE_TGT_CLEANUP w = RuntimeDevel.tgt_cleanup K w := rfl

theorem loop_CLEANUP_2_conn (K : Consts) (C : Collab) (n : Nat) (err : Bool) (w : World)
    (hle : w.buf.le = none) (hconn : w.buf.conn = true) :
    RuntimeDevel.process_tgt_loop K C (n + 1) STATE_TGT_CLEANUP_2 err w =
      RuntimeDevel.run_result.returned
        { w with
          buf.conn := false,
          buf.tgt_state := STATE_TGT_DONE,
          trace := w.trace ++
            [Action.ptl_info STATE_TGT_CLEANUP_2, Action.conn_put, Action.buf_put] } err := by
  rw [loop_CLEANUP_2, tgt_cleanup_2_conn (w.log (Action.ptl_info STATE_TGT_CLEANUP_2)) hle hconn]
  simp [World.log]

set_option maxHeartbeats 1000000 in
theorem put_tail_send_buf (K : Consts) (C : Collab) (w : World) (d : data_t) (h pi n : Nat)
    (sb : send_buf_t)
    (hconn : w.conn.state ≥ K.CONN_STATE_CONNECTED)
    (hop : w.buf.operation = OP_PUT) (hdop : w.buf.data.operation = OP_PUT)
    (hget : w.buf.get_resid = 0) (hput : w.buf.put_resid ≠ 0)
    (hle : w.buf.le = some h) (hd : w.buf.data_in = some d)
    (hfmt : d.data_fmt = DATA_FMT_IMMEDIATE) (hat : w.buf.in_atomic = 0)
    (hcopy : ∀ x, (C.iov_copy_in x).1 = false)
    (hpt : w.buf.pt = some pi)
    (hcomm : w.buf.event_mask.XT_COMM_EVENT = true)
    (hrep : w.buf.event_mask.XT_REPLY_EVENT = false)
    (hack : w.buf.event_mask.XT_ACK_EVENT = true)
    (hsd : (w.les h).options.PTL_LE_EVENT_SUCCESS_DISABLE = false)
    (hsb : w.buf.send_buf = some sb) (hreq : w.buf.data.ack_req = PTL_ACK_REQ)
    (hnd : (w.les h).options.PTL_LE_ACK_DISABLE = false)
    (hprio : (w.les h).ptl_list = PTL_PRIORITY_LIST)
    (hsend : ∀ x, C.send_message x = false)
    (hm : w.buf.matching_le = none) (hind : w.buf.indir_sge = false)
    (hbc : w.buf.conn = true) :
    ∃ Wf, RuntimeDevel.process_tgt_loop K C (n + 6) STATE_TGT_DATA false w =
        RuntimeDevel.run_result.returned Wf false ∧
      Wf.buf.tgt_state = STATE_TGT_DONE ∧
      ((w.les h).num_iov = 0 → Wf.mem =
        RuntimeDevel.memcpy w.mem ((w.les h).start + w.buf.moffset) d.immediate_data
          w.buf.mlength) ∧
      states_of Wf.trace = states_of w.trace ++
        [STATE_TGT_DATA, STATE_TGT_DATA_IN, STATE_TGT_COMM_EVENT, STATE_TGT_SEND_ACK,
         STATE_TGT_CLEANUP, STATE_TGT_CLEANUP_2] ∧
      (events_of Wf.trace).count PTL_EVENT_PUT =
        (events_of w.trace).count PTL_EVENT_PUT + 1 ∧
      responses_of Wf.trace = responses_of w.trace ++
        [{ sb.data with ni_fail := w.buf.ni_fail, length := w.buf.mlength,
                        offset := w.buf.moffset, matching_list := w.buf.matching_list,
                        operation := OP_ACK }] := by
  apply Exists.intro
  refine ⟨?_, ?_, ?_, ?_, ?_, ?_⟩
  -- DATA
  apply loop_trans K C _ STATE_TGT_DATA _ _ _ _ _ (by decide)
  case h =>
    rw [tgt_handler_DATA]
    exact tgt_data_put K _ hconn hop hget hput
  case hns => rfl
  dsimp only [World.log]
  -- DATA_IN
  apply loop_trans K C _ STATE_TGT_DATA_IN _ _ _ _ _ (by decide)
  case h =>
    rw [tgt_handler_DATA_IN]
    exact tgt_data_in_immediate K C _ h d hle hd hfmt hat hcopy
  case hns => rfl
  dsimp only [World.log]
  -- COMM_EVENT
  apply loop_trans K C _ STATE_TGT_COMM_EVENT _ _ _ _ _ (by decide)
  case h =>
    rw [tgt_handler_COMM_EVENT]
    exact tgt_comm_event_put _ h pi hle hpt hdop hcomm hrep hack (Or.inr hsd)
  case hns => rfl
  dsimp only [World.log, World.pt]
  -- SEND_ACK
  apply loop_trans K C _ STATE_TGT_SEND_ACK _ _ _ _ _ (by decide)
  case h =>
    rw [tgt_handler_SEND_ACK]
    exact tgt_send_ack_send_buf K C _ h sb hsb hreq hle hnd hprio hsend
  case hns => rfl
  dsimp only [World.log, World.pt]
  -- CLEANUP
  apply loop_trans K C _ STATE_TGT_CLEANUP _ _ _ _ _ (by decide)
  case h =>
    rw [tgt_handler_CLEANUP]
    exact tgt_cleanup_plain K _ pi hm rfl hind hpt
  case hns => rfl
  dsimp only [World.log, World.pt]
  -- CLEANUP_2
  refine (loop_CLEANUP_2_conn K C _ _ _ ?_ ?_).trans ?_
  · rfl
  · exact hbc
  · rfl
  · rfl
  · intro h0
    simp [h0]
  · simp only [states_of, List.filterMap_append]
    split_ifs <;> simp
  · simp only [events_of, List.filterMap_append, List.count_append]
    split_ifs <;> simp
  · simp only [responses_of, List.filterMap_append]
    split_ifs <;> simp

set_option maxHeartbeats 1000000 in
theorem put_tail_reuse (K : Consts) (C : Collab) (w : World) (d : data_t) (h pi n : Nat)
    (hconn : w.conn.state ≥ K.CONN_STATE_CONNECTED)
    (hop : w.buf.operation = OP_PUT) (hdop : w.buf.data.operation = OP_PUT)
    (hget : w.buf.get_resid = 0) (hput : w.buf.put_resid ≠ 0)
    (hle : w.buf.le = some h) (hd : w.buf.data_in = some d)
    (hfmt : d.data_fmt = DATA_FMT_IMMEDIATE) (hat : w.buf.in_atomic = 0)
    (hcopy : ∀ x, (C.iov_copy_in x).1 = false)
    (hpt : w.buf.pt = some pi)
    (hcomm : w.buf.event_mask.XT_COMM_EVENT = true)
    (hrep : w.buf.event_mask.XT_REPLY_EVENT = false)
    (hack : w.buf.event_mask.XT_ACK_EVENT = true)
    (hsd : (w.les h).options.PTL_LE_EVENT_SUCCESS_DISABLE = false)
    (hsb : w.buf.send_buf = none) (hreq : w.buf.data.ack_req = PTL_ACK_REQ)
    (hnd : (w.les h).options.PTL_LE_ACK_DISABLE = false)
    (hprio : (w.les h).ptl_list = PTL_PRIORITY_LIST)
    (hmem : (K.WITH_TRANSPORT_SHMEM || K.IS_PPE) = true) (hmb : w.buf.has_mem_buf = true)
    (hm : w.buf.matching_le = none) (hind : w.buf.indir_sge = false)
    (hbc : w.buf.conn = true) :
    ∃ Wf, RuntimeDevel.process_tgt_loop K C (n + 6) STATE_TGT_DATA false w =
        RuntimeDevel.run_result.returned Wf false ∧
      Wf.buf.tgt_state = STATE_TGT_DONE ∧
      ((w.les h).num_iov = 0 → Wf.mem =
        RuntimeDevel.memcpy w.mem ((w.les h).start + w.buf.moffset) d.immediate_data
          w.buf.mlength) ∧
      states_of Wf.trace = states_of w.trace ++
        [STATE_TGT_DATA, STATE_TGT_DATA_IN, STATE_TGT_COMM_EVENT, STATE_TGT_SEND_ACK,
         STATE_TGT_CLEANUP, STATE_TGT_CLEANUP_2] ∧
      (events_of Wf.trace).count PTL_EVENT_PUT =
        (events_of w.trace).count PTL_EVENT_PUT + 1 ∧
      responses_of Wf.trace = responses_of w.trace ++
        [{ w.buf.ack with version := w.buf.data.version, handle := w.buf.data.handle,
                          data_in := 0, data_out := 0, pkt_fmt := PKT_FMT_REPLY,
                          ni_fail := w.buf.ni_fail, length := w.buf.mlength,
                          offset := w.buf.moffset, matching_list := w.buf.matching_list,
                          operation := OP_ACK }] := by
  apply Exists.intro
  refine ⟨?_, ?_, ?_, ?_, ?_, ?_⟩
  -- DATA
  apply loop_trans K C _ STATE_TGT_DATA _ _ _ _ _ (by decide)
  case h =>
    rw [tgt_handler_DATA]
    exact tgt_data_put K _ hconn hop hget hput
  case hns => rfl
  dsimp only [World.log]
  -- DATA_IN
  apply loop_trans K C _ STATE_TGT_DATA_IN _ _ _ _ _ (by decide)
  case h =>
    rw [tgt_handler_DATA_IN]
    exact tgt_data_in_immediate K C _ h d hle hd hfmt hat hcopy
  case hns => rfl
  dsimp only [World.log]
  -- COMM_EVENT
  apply loop_trans K C _ STATE_TGT_COMM_EVENT _ _ _ _ _ (by decide)
  case h =>
    rw [tgt_handler_COMM_EVENT]
    exact tgt_comm_event_put _ h pi hle hpt hdop hcomm hrep hack (Or.inr hsd)
  case hns => rfl
  dsimp only [World.log, World.pt]
  -- SEND_ACK
  apply loop_trans K C _ STATE_TGT_SEND_ACK _ _ _ _ _ (by decide)
  case h =>
    rw [tgt_handler_SEND_ACK]
    exact tgt_send_ack_reuse K C _ h hsb hreq hle hnd hprio hmem hmb
  case hns => rfl
  dsimp only [World.log, World.pt]
  -- CLEANUP
  apply loop_trans K C _ STATE_TGT_CLEANUP _ _ _ _ _ (by decide)
  case h =>
    rw [tgt_handler_CLEANUP]
    exact tgt_cleanup_plain K _ pi hm rfl hind hpt
  case hns => rfl
  dsimp only [World.log, World.pt]
  -- CLEANUP_2
  refine (loop_CLEANUP_2_conn K C _ _ _ ?_ ?_).trans ?_
  · rfl
  · exact hbc
  · rfl
  · rfl
  · intro h0
    simp [h0]
  · simp only [states_of, List.filterMap_append]
    split_ifs <;> simp
  · simp only [events_of, List.filterMap_append, List.count_append]
    split_ifs <;> simp
  · simp only [responses_of, List.filterMap_append]
    split_ifs <;> simp


theorem put_tail (K : Consts) (C : Collab) (w : World) (d : data_t) (h pi n : Nat)
    (hconn : w.conn.state ≥ K.CONN_STATE_CONNECTED)
    (hop : w.buf.operation = OP_PUT) (hdop : w.buf.data.operation = OP_PUT)
    (hget : w.buf.get_resid = 0) (hput : w.buf.put_resid ≠ 0)
    (hle : w.buf.le = some h) (hd : w.buf.data_in = some d)
    (hfmt : d.data_fmt = DATA_FMT_IMMEDIATE) (hat : w.buf.in_atomic = 0)
    (hcopy : ∀ x, (C.iov_copy_in x).1 = false)
    (hpt : w.buf.pt = some pi)
    (hcomm : w.buf.event_mask.XT_COMM_EVENT = true)
    (hrep : w.buf.event_mask.XT_REPLY_EVENT = false)
    (hack : w.buf.event_mask.XT_ACK_EVENT = true)
    (hsd : (w.les h).options.PTL_LE_EVENT_SUCCESS_DISABLE = false)
    (hreq : w.buf.data.ack_req = PTL_ACK_REQ)
    (hnd : (w.les h).options.PTL_LE_ACK_DISABLE = false)
    (hprio : (w.les h).ptl_list = PTL_PRIORITY_LIST)
    (hsend : ∀ x, C.send_message x = false)
    (hm : w.buf.matching_le = none) (hind : w.buf.indir_sge = false)
    (hbc : w.buf.conn = true)
    (hsb : (∃ sb, w.buf.send_buf = some sb) ∨
      (w.buf.send_buf = none ∧ (K.WITH_TRANSPORT_SHMEM || K.IS_PPE) = true ∧
        w.buf.has_mem_buf = true)) :
    ∃ Wf, RuntimeDevel.process_tgt_loop K C (n + 6) STATE_TGT_DATA false w =
        RuntimeDevel.run_result.returned Wf false ∧
      Wf.buf.tgt_state = STATE_TGT_DONE ∧
      ((w.les h).num_iov = 0 → Wf.mem =
        RuntimeDevel.memcpy w.mem ((w.les h).start + w.buf.moffset) d.immediate_data
          w.buf.mlength) ∧
      states_of Wf.trace = states_of w.trace ++
        [STATE_TGT_DATA, STATE_TGT_DATA_IN, STATE_TGT_COMM_EVENT, STATE_TGT_SEND_ACK,
         STATE_TGT_CLEANUP, STATE_TGT_CLEANUP_2] ∧
      (events_of Wf.trace).count PTL_EVENT_PUT =
        (events_of w.trace).count PTL_EVENT_PUT + 1 ∧
      ∃ r, responses_of Wf.trace = responses_of w.trace ++ [r] ∧
        r.operation = OP_ACK ∧ r.ni_fail = w.buf.ni_fail ∧
        r.length = w.buf.mlength ∧ r.offset = w.buf.moffset := by
  rcases hsb with ⟨sb, hsb⟩ | ⟨hsb, hmem, hmb⟩
  · obtain ⟨Wf, h1, h2, h3, h4, h5, h6⟩ := put_tail_send_buf K C w d h pi n sb hconn hop hdop
      hget hput hle hd hfmt hat hcopy hpt hcomm hrep hack hsd hsb hreq hnd hprio hsend hm hind hbc
    exact ⟨Wf, h1, h2, h3, h4, h5, _, h6, rfl, rfl, rfl, rfl⟩
  · obtain ⟨Wf, h1, h2, h3, h4, h5, h6⟩ := put_tail_reuse K C w d h pi n hconn hop hdop
      hget hput hle hd hfmt hat hcopy hpt hcomm hrep hack hsd hsb hreq hnd hprio hmem hmb hm hind
      hbc
    exact ⟨Wf, h1, h2, h3, h4, h5, _, h6, rfl, rfl, rfl, rfl⟩

theorem loop_step_ex (K : Consts) (C : Collab) (n : Nat) (s : tgt_state)
    (w w1 : World) (s1 : tgt_state) (P : World → Prop)
    (hs : s ≠ STATE_TGT_ERROR ∧ s ≠ STATE_TGT_CLEANUP_2 ∧ s ≠ STATE_TGT_DONE)
    (h : RuntimeDevel.tgt_handler K C s (w.log (Action.ptl_info s)) = step_t.next w1 s1)
    (hns : (RuntimeDevel.tgt_suspends s && s1 == s) = false)
    (hrest : ∃ Wf, RuntimeDevel.process_tgt_loop K C n s1 false w1 =
      RuntimeDevel.run_result.returned Wf false ∧ P Wf) :
    ∃ Wf, RuntimeDevel.process_tgt_loop K C (n + 1) s false w =
      RuntimeDevel.run_result.returned Wf false ∧ P Wf := by
  obtain ⟨Wf, h1, h2⟩ := hrest
  exact ⟨Wf, (loop_next K C n s false w w1 s1 hs h hns).trans h1, h2⟩

theorem tgt_handler_START (K : Consts) (C : Collab) (w : World) :
    RuntimeDevel.tgt_handler K C STATE_TGT_START w = RuntimeDevel.tgt_start K C w := rfl

theorem tgt_handler_GET_MATCH (K : Consts) (C : Collab) (w : World) :
    RuntimeDevel.tgt_handler K C STATE_TGT_GET_MATCH w = RuntimeDevel.tgt_get_match K w := rfl

theorem tgt_handler_GET_LENGTH (K : Consts) (C : Collab) (w : World) :
    RuntimeDevel.tgt_handler K C STATE_TGT_GET_LENGTH w = RuntimeDevel.state_get_length K w :=
  rfl

theorem prepare_send_buf_put (K : Consts) (C : Collab) (w : World)
    (hack : w.buf.event_mask.XT_ACK_EVENT = true) (hnone : w.buf.send_buf = none)
    (ht : (K.WITH_TRANSPORT_IB = true ∧ w.conn.transport_type = K.CONN_TYPE_RDMA ∧
        ∃ sb, ∀ x, C.buf_alloc x = some sb) ∨
      ((K.WITH_TRANSPORT_IB && w.conn.transport_type == K.CONN_TYPE_RDMA) = false ∧
        (K.WITH_TRANSPORT_SHMEM || K.IS_PPE) = true ∧ w.buf.has_mem_buf = true)) :
    ∃ osb t, RuntimeDevel.prepare_send_buf K C w =
        (false, { w with buf.send_buf := osb, trace := w.trace ++ t }) ∧
      states_of t = [] ∧ events_of t = [] ∧ responses_of t = [] ∧
      ((∃ sb, osb = some sb) ∨
        (osb = none ∧ (K.WITH_TRANSPORT_SHMEM || K.IS_PPE) = true ∧
          w.buf.has_mem_buf = true)) := by
  rcases ht with ⟨hib, hrdma, sb, halloc⟩ | ⟨hrdma, hmem, hmb⟩
  · exact ⟨_, _, prepare_send_buf_alloc K C w sb hib hrdma (halloc w), rfl, rfl, rfl,
      Or.inl ⟨_, rfl⟩⟩
  · refine ⟨none, [], ?_, rfl, rfl, rfl, Or.inr ⟨rfl, hmem, hmb⟩⟩
    rw [prepare_send_buf_reuse K C w hrdma hack, List.append_nil]
    congr 1
    exact (world_send_buf_none w hnone).symm

theorem loop_get_length_put (K : Consts) (C : Collab) (n : Nat) (w : World) (h : Nat)
    (P : World → Prop)
    (hle : w.buf.le = some h) (hop : w.buf.operation = OP_PUT)
    (hconn : w.conn.state ≥ K.CONN_STATE_CONNECTED)
    (hcov : (w.les h).num_iov = 0 ∨
      RuntimeDevel.get_length_offset w.buf (w.les h) ≤
        iov_sum (w.les h).iov 0 (w.les h).num_iov)
    (hrest : ∀ W : World, W.ni = w.ni → W.mem = w.mem → W.conn = w.conn →
      (∃ t, W.trace = w.trace ++ [Action.ptl_info STATE_TGT_GET_LENGTH] ++ t ∧
        states_of t = [] ∧ events_of t = [] ∧ responses_of t = []) →
      W.buf = { w.buf with
        put_resid := W.buf.mlength, get_resid := 0, mlength := W.buf.mlength,
        moffset := RuntimeDevel.get_length_offset w.buf (w.les h),
        cur_loc_iov_index := W.buf.cur_loc_iov_index,
        cur_loc_iov_off := W.buf.cur_loc_iov_off, start := W.buf.start } →
      W.buf.mlength = min (min w.buf.data.length
          ((w.les h).length - RuntimeDevel.get_length_offset w.buf (w.les h)))
        w.ni.limits.max_msg_size →
      ((W.les h).options = (w.les h).options ∧ (W.les h).ptl_list = (w.les h).ptl_list ∧
        (W.les h).num_iov = (w.les h).num_iov ∧ (W.les h).start = (w.les h).start) →
      ∃ Wf, RuntimeDevel.process_tgt_loop K C n STATE_TGT_DATA false W =
        RuntimeDevel.run_result.returned Wf false ∧ P Wf) :
    ∃ Wf, RuntimeDevel.process_tgt_loop K C (n + 1) STATE_TGT_GET_LENGTH false w =
      RuntimeDevel.run_result.returned Wf false ∧ P Wf := by
  have hstep := state_get_length_some K (w.log (Action.ptl_info STATE_TGT_GET_LENGTH)) h hle
  dsimp only [World.log] at hstep
  have hnext := tgt_get_length_next_data K w.ni.limits w.conn.state w.buf (w.les h) hconn hcov
  have hframe := tgt_get_length_frame K w.ni.limits w.conn.state w.buf (w.les h)
  obtain ⟨hmo, hzero, hmin⟩ := tgt_get_length_lengths K w.ni.limits w.conn.state w.buf (w.les h)
  obtain ⟨hpr, hgr⟩ := tgt_get_length_put K w.ni.limits w.conn.state w.buf (w.les h) hop
  obtain ⟨_, hmo2, _⟩ := tgt_get_length_buf K w.ni.limits w.conn.state w.buf (w.les h)
  obtain ⟨ho, hl, hn, hst, _, _⟩ :=
    tgt_get_length_me_fields K w.ni.limits w.conn.state w.buf (w.les h)
  rw [hnext] at hstep
  refine loop_step_ex K C n STATE_TGT_GET_LENGTH w _ STATE_TGT_DATA P (by decide) hstep rfl ?_
  apply hrest
  · rfl
  · rfl
  · rfl
  · refine ⟨_, rfl, ?_, ?_, ?_⟩ <;> (split <;> rfl)
  · dsimp only
    rw [hframe]
    simp only [hpr, hgr, hmo2]
  · dsimp only
    rw [hmo2] at hzero hmin
    by_cases hoff : RuntimeDevel.get_length_offset w.buf (w.les h) ≤ (w.les h).length
    · exact hmin hoff (Or.inl hop)
    · rw [hzero (by omega)]
      have : (w.les h).length - RuntimeDevel.get_length_offset w.buf (w.les h) = 0 := by omega
      rw [this]
      simp
  · dsimp only
    simp only [Function.update_same]
    exact ⟨ho, hl, hn, hst⟩

set_option maxHeartbeats 1000000 in
/-- C8 (amended): a PUT with IMMEDIATE data and a full ack request that satisfies
`PutPremises`, whose clamped length is not zero and whose element does not have
`PTL_LE_ACK_DISABLE`, is carried by one call of `process_tgt` through the nine states
without suspending, with one `PTL_EVENT_PUT` and one `OP_ACK` response. -/
theorem process_tgt_put (K : Consts) (C : Collab) (w : World) (d : data_t) (h n : Nat)
    (hp : PutPremises K C w d h)
    (hlen : 0 < min (min w.buf.data.length
      ((w.les h).length - RuntimeDevel.get_length_offset w.buf (w.les h)))
      w.ni.limits.max_msg_size)
    (hnd : (w.les h).options.PTL_LE_ACK_DISABLE = false) :
    ∃ Wf, RuntimeDevel.process_tgt K C (n + 9) w = RuntimeDevel.run_result.returned Wf false ∧
      (Wf.buf.tgt_state = STATE_TGT_DONE ∧
      states_of Wf.trace = states_of w.trace ++
        [STATE_TGT_START, STATE_TGT_GET_MATCH, STATE_TGT_GET_LENGTH, STATE_TGT_DATA,
         STATE_TGT_DATA_IN, STATE_TGT_COMM_EVENT, STATE_TGT_SEND_ACK, STATE_TGT_CLEANUP,
         STATE_TGT_CLEANUP_2] ∧
      (events_of Wf.trace).count PTL_EVENT_PUT =
        (events_of w.trace).count PTL_EVENT_PUT + 1 ∧
      (∃ r, responses_of Wf.trace = responses_of w.trace ++ [r] ∧
        r.operation = OP_ACK ∧ r.ni_fail = PTL_NI_OK ∧
        r.length = min (min w.buf.data.length
          ((w.les h).length - RuntimeDevel.get_length_offset w.buf (w.les h)))
          w.ni.limits.max_msg_size ∧
        r.offset = RuntimeDevel.get_length_offset w.buf (w.les h)) ∧
      ((w.les h).num_iov = 0 → Wf.mem =
        RuntimeDevel.memcpy w.mem
          ((w.les h).start + RuntimeDevel.get_length_offset w.buf (w.les h))
          d.immediate_data
          (min (min w.buf.data.length
            ((w.les h).length - RuntimeDevel.get_length_offset w.buf (w.les h)))
            w.ni.limits.max_msg_size))) := by
  obtain ⟨hstate, hmask, hfail, hop, hack, hdata, hfmt, hidx, huse, hen, heq, hfind, hprio,
    huid, hput, hcd, hsd, hconn, hiov, hgc, hsend, hcopy, htr⟩ := hp
  obtain ⟨osb, t, hprep, ht1, ht2, ht3, hosb⟩ := prepare_send_buf_put K C
    { (w.log (Action.ptl_info STATE_TGT_START)) with
      buf.operation := OP_PUT, buf.pt := none, buf.in_atomic := 0,
      buf.matching_le := none, buf.le := none, buf.indir_sge := false,
      buf.send_buf := none, buf.event_mask := { XT_ACK_EVENT := true },
      buf.on_unexpected_list := false, buf.conn := true } rfl rfl htr
  unfold RuntimeDevel.process_tgt
  rw [hstate]
  -- START
  apply loop_step_ex K C _ STATE_TGT_START _ _ _ _ (by decide)
  case h =>
    rw [tgt_handler_START]
    refine tgt_start_put K C _ _ hop ?_ hmask hgc hprep hidx rfl rfl huse hen
    show w.buf.data.ack_req ≠ _
    rw [hack]
    decide
  case hns => rfl
  dsimp only [World.log, World.set_pt, World.pt]
  -- GET_MATCH
  apply loop_step_ex K C _ STATE_TGT_GET_MATCH _ _ _ _ (by decide)
  case h =>
    rw [tgt_handler_GET_MATCH]
    refine tgt_get_match_found K _ w.buf.data.pt_index PTL_PRIORITY_LIST h ?_ ?_ ?_ ?_
    · rfl
    · refine (find_match_congr K _ w _ _ rfl rfl rfl ?_ ?_).trans hfind
      · simp [World.pt, World.log, World.set_pt]
      · simp [World.pt, World.log, World.set_pt]
    · exact check_perm_put_ok K _ _ rfl huid hput
    · exact hprio
  case hns => rfl
  dsimp only [World.log, World.set_pt, World.pt]
  rw [init_events_eq _ _ _ (by simp [World.pt, World.log, World.set_pt, heq]) hcd]
  dsimp only [World.log, World.set_pt, World.pt]
  -- GET_LENGTH
  have hoff : RuntimeDevel.get_length_offset w.buf (w.les h) < (w.les h).length := by
    by_contra hcon
    have : (w.les h).length - RuntimeDevel.get_length_offset w.buf (w.les h) = 0 := by omega
    rw [this] at hlen
    simp at hlen
  refine loop_get_length_put K C _ _ h _ ?_ ?_ ?_ ?_ ?_
  · rfl
  · rfl
  · exact hconn
  · rcases hiov with h0 | h1
    · exact Or.inl h0
    · right
      show RuntimeDevel.get_length_offset w.buf (w.les h) ≤ _
      exact le_trans (le_of_lt hoff) h1
  intro W hni hmem hcn htrace hbuf hml hles
  simp only [RuntimeDevel.get_length_offset] at hbuf hml hlen ⊢
  dsimp only at hni hmem hcn htrace hbuf hml hles
  obtain ⟨t3, htr3, hs3, he3, hr3⟩ := htrace
  obtain ⟨ho, hl, hn, hst⟩ := hles
  have hmo := (congrArg buf_t.moffset hbuf).trans rfl
  obtain ⟨Wf, h1, h2, h3, h4, h5, r, h6, h7, h8, h9, h10⟩ :=
    put_tail K C W d h w.buf.data.pt_index n
      (by rw [hcn]; exact hconn)
      ((congrArg buf_t.operation hbuf).trans rfl)
      ((congrArg (fun b => b.data.operation) hbuf).trans hop)
      ((congrArg buf_t.get_resid hbuf).trans rfl)
      (by rw [(congrArg buf_t.put_resid hbuf).trans rfl, hml]; exact Nat.pos_iff_ne_zero.mp hlen)
      ((congrArg buf_t.le hbuf).trans rfl)
      ((congrArg buf_t.data_in hbuf).trans hdata)
      hfmt
      ((congrArg buf_t.in_atomic hbuf).trans rfl)
      hcopy
      ((congrArg buf_t.pt hbuf).trans rfl)
      ((congrArg (fun b => b.event_mask.XT_COMM_EVENT) hbuf).trans rfl)
      ((congrArg (fun b => b.event_mask.XT_REPLY_EVENT) hbuf).trans rfl)
      ((congrArg (fun b => b.event_mask.XT_ACK_EVENT) hbuf).trans rfl)
      (by rw [ho]; exact hsd)
      ((congrArg (fun b => b.data.ack_req) hbuf).trans hack)
      (by rw [ho]; exact hnd)
      (by rw [hl]; exact hprio)
      hsend
      ((congrArg buf_t.matching_le hbuf).trans rfl)
      ((congrArg buf_t.indir_sge hbuf).trans rfl)
      ((congrArg buf_t.conn hbuf).trans rfl)
      (by
        rcases hosb with ⟨sb, hsb⟩ | ⟨hsb, hmem2, hmb⟩
        · exact Or.inl ⟨sb, (congrArg buf_t.send_buf hbuf).trans hsb⟩
        · exact Or.inr ⟨(congrArg buf_t.send_buf hbuf).trans hsb, hmem2,
            (congrArg buf_t.has_mem_buf hbuf).trans hmb⟩)
  refine ⟨Wf, h1, h2, ?_, ?_, ⟨r, ?_, h7, ?_, ?_, ?_⟩, ?_⟩
  · rw [h4, htr3]
    simp only [states_of, List.filterMap_append] at ht1 hs3 ⊢
    rw [ht1, hs3]
    simp
  · rw [h5, htr3]
    simp only [events_of, List.filterMap_append] at ht2 he3 ⊢
    rw [ht2, he3]
    simp
  · rw [h6, htr3]
    simp only [responses_of, List.filterMap_append] at ht3 hr3 ⊢
    rw [ht3, hr3]
    simp
  · rw [h8, (congrArg buf_t.ni_fail hbuf).trans hfail]
  · rw [h9, hml]
  · rw [h10, hmo]
  · intro h0
    rw [h3 (hn.trans h0), hmem, hst, hmo, hml]

theorem sample_world_premises :
    PutPremises sample_consts sample_collab sample_world sample_payload 0 :=
  { fresh_state := rfl, fresh_mask := rfl, fresh_fail := rfl, is_put := rfl, wants_ack := rfl,
    data_in := rfl, immediate := rfl, pt_valid := by decide, pt_in_use := rfl,
    pt_enabled := rfl, pt_eq := rfl, matched := by decide, on_priority := rfl,
    uid_ok := Or.inr rfl, op_put := rfl, comm_enabled := rfl, success_enabled := rfl,
    connected := by decide, iov_covers := Or.inl rfl, get_conn_ok := fun _ => rfl,
    send_ok := fun _ => rfl, iov_copy_ok := fun _ => rfl,
    transport := Or.inl ⟨rfl, rfl, ⟨{}, fun _ => rfl⟩⟩ }

theorem end_offset_world_premises :
    PutPremises sample_consts sample_collab end_offset_world sample_payload 0 :=
  { fresh_state := rfl, fresh_mask := rfl, fresh_fail := rfl, is_put := rfl, wants_ack := rfl,
    data_in := rfl, immediate := rfl, pt_valid := by decide, pt_in_use := rfl,
    pt_enabled := rfl, pt_eq := rfl, matched := by decide, on_priority := rfl,
    uid_ok := Or.inr rfl, op_put := rfl, comm_enabled := rfl, success_enabled := rfl,
    connected := by decide, iov_covers := Or.inl rfl, get_conn_ok := fun _ => rfl,
    send_ok := fun _ => rfl, iov_copy_ok := fun _ => rfl,
    transport := Or.inl ⟨rfl, rfl, ⟨{}, fun _ => rfl⟩⟩ }

theorem ack_disabled_world_premises :
    PutPremises sample_consts sample_collab ack_disabled_world sample_payload 0 :=
  { fresh_state := rfl, fresh_mask := rfl, fresh_fail := rfl, is_put := rfl, wants_ack := rfl,
    data_in := rfl, immediate := rfl, pt_valid := by decide, pt_in_use := rfl,
    pt_enabled := rfl, pt_eq := rfl, matched := by decide, on_priority := rfl,
    uid_ok := Or.inr rfl, op_put := rfl, comm_enabled := rfl, success_enabled := rfl,
    connected := by decide, iov_covers := Or.inl rfl, get_conn_ok := fun _ => rfl,
    send_ok := fun _ => rfl, iov_copy_ok := fun _ => rfl,
    transport := Or.inl ⟨rfl, rfl, ⟨{}, fun _ => rfl⟩⟩ }

/-- C8 (as stated, refuted): two requests that satisfy every premise of the claim.
A PUT of 16 bytes at offset 32 of the element of 32 bytes is clamped to no bytes
and goes from `STATE_TGT_DATA` to `STATE_TGT_COMM_EVENT` without passing through
`STATE_TGT_DATA_IN`; a PUT to an element with `PTL_LE_ACK_DISABLE` is answered with
`OP_NO_ACK`, not `OP_ACK`. -/
theorem process_tgt_put_counterexample :
    PutPremises sample_consts sample_collab end_offset_world sample_payload 0 ∧
    (RuntimeDevel.process_tgt sample_consts sample_collab 9 end_offset_world).status =
      some false ∧
    states_of (RuntimeDevel.process_tgt sample_consts sample_collab 9
        end_offset_world).world.trace =
      [STATE_TGT_START, STATE_TGT_GET_MATCH, STATE_TGT_GET_LENGTH, STATE_TGT_DATA,
       STATE_TGT_COMM_EVENT, STATE_TGT_SEND_ACK, STATE_TGT_CLEANUP, STATE_TGT_CLEANUP_2] ∧
    PutPremises sample_consts sample_collab ack_disabled_world sample_payload 0 ∧
    (RuntimeDevel.process_tgt sample_consts sample_collab 9 ack_disabled_world).status =
      some false ∧
    (responses_of (RuntimeDevel.process_tgt sample_consts sample_collab 9
        ack_disabled_world).world.trace).map (fun r => r.operation) = [OP_NO_ACK] :=
  ⟨end_offset_world_premises, by decide, by decide, ack_disabled_world_premises, by decide,
    by decide⟩

/-- C8 (witness): scenario 1. Sixteen bytes of `0xAA` put at offset 0 into the
element of 32 bytes at address 1000: the nine states, one `PTL_EVENT_PUT`, one
`OP_ACK` with length 16 and offset 0, and bytes `[0, 16)` of the element are `0xAA`
while the rest of memory is unchanged. -/
theorem process_tgt_put_witness :
    ∃ Wf, RuntimeDevel.process_tgt sample_consts sample_collab 9 sample_world =
        RuntimeDevel.run_result.returned Wf false ∧
      Wf.buf.tgt_state = STATE_TGT_DONE ∧
      states_of Wf.trace =
        [STATE_TGT_START, STATE_TGT_GET_MATCH, STATE_TGT_GET_LENGTH, STATE_TGT_DATA,
         STATE_TGT_DATA_IN, STATE_TGT_COMM_EVENT, STATE_TGT_SEND_ACK, STATE_TGT_CLEANUP,
         STATE_TGT_CLEANUP_2] ∧
      (events_of Wf.trace).count PTL_EVENT_PUT = 1 ∧
      (∃ r, responses_of Wf.trace = [r] ∧ r.operation = OP_ACK ∧ r.ni_fail = PTL_NI_OK ∧
        r.length = 16 ∧ r.offset = 0) ∧
      (∀ a, Wf.mem a = if 1000 ≤ a ∧ a < 1016 then 0xAA else 0) := by
  obtain ⟨Wf, h1, h2, h3, h4, h5, h6⟩ :=
    process_tgt_put sample_consts sample_collab sample_world sample_payload 0 0
      sample_world_premises (by decide) rfl
  refine ⟨Wf, h1, h2, h3, h4, h5, ?_⟩
  intro a
  rw [h6 rfl]
  rfl

theorem tgt_data_in_contiguous (K : Consts) (C : Collab) (w : World) (h : Nat) (d : data_t)
    (hle : w.buf.le = some h) (hd : w.buf.data_in = some d)
    (hfmt : d.data_fmt = DATA_FMT_IMMEDIATE) (hat : w.buf.in_atomic = 0)
    (hiov : (w.les h).num_iov = 0) :
    RuntimeDevel.tgt_data_in K C w =
      step_t.next
        { w with
          buf.rdma_dir := DATA_DIR_IN,
          mem := RuntimeDevel.memcpy w.mem ((w.les h).start + w.buf.moffset) d.immediate_data
            w.buf.mlength }
        STATE_TGT_COMM_EVENT := by
  unfold RuntimeDevel.tgt_data_in
  simp only [hle, hd, hfmt]
  rw [tgt_copy_in_eq]
  simp [hiov, RuntimeDevel.data_in_leave, hat]

theorem tgt_data_frame_put (K : Consts) (w : World) (hop : w.buf.operation = OP_PUT) :
    ∃ W s, RuntimeDevel.tgt_data K w = step_t.next W s ∧
      W.mem = w.mem ∧ W.les = w.les ∧ W.buf.le = w.buf.le ∧
      W.buf.data_in = w.buf.data_in ∧ W.buf.mlength = w.buf.mlength ∧
      W.buf.moffset = w.buf.moffset ∧ W.buf.in_atomic = w.buf.in_atomic ∧
      (w.buf.get_resid = 0 → w.buf.put_resid ≠ 0 → s = STATE_TGT_DATA_IN) := by
  unfold RuntimeDevel.tgt_data
  by_cases hc : w.conn.state ≥ K.CONN_STATE_CONNECTED <;>
    by_cases hg : w.buf.get_resid = 0 <;>
    by_cases hp : w.buf.put_resid = 0 <;>
    simp [hc, hg, hp, hop, World.log, OP_PUT, OP_ATOMIC, OP_SWAP, OP_FETCH]
  all_goals exact ⟨_, _, ⟨rfl, rfl⟩, rfl, rfl, rfl, rfl, rfl, rfl, rfl, rfl⟩

/-- C7: a matched PUT with IMMEDIATE data on a contiguous element (`num_iov = 0`)
whose offset does not exceed the element length. After `tgt_get_length`, `tgt_data`
and `tgt_data_in`, the range `[moffset, moffset + mlength)` lies inside the element,
its bytes are the first `mlength` bytes of the payload, and every other byte of
memory is as before. -/
theorem put_immediate_data_lands (K : Consts) (C : Collab) (w : World) (h : Nat) (d : data_t)
    (hle : w.buf.le = some h) (hop : w.buf.operation = OP_PUT)
    (hd : w.buf.data_in = some d) (hfmt : d.data_fmt = DATA_FMT_IMMEDIATE)
    (hat : w.buf.in_atomic = 0) (hiov : (w.les h).num_iov = 0)
    (hoff : RuntimeDevel.get_length_offset w.buf (w.les h) ≤ (w.les h).length) :
    ∃ W1 s1 W2 s2 W3,
      RuntimeDevel.state_get_length K w = step_t.next W1 s1 ∧
      RuntimeDevel.tgt_data K W1 = step_t.next W2 s2 ∧
      RuntimeDevel.tgt_data_in K C W2 = step_t.next W3 STATE_TGT_COMM_EVENT ∧
      (W2.buf.mlength ≠ 0 → s2 = STATE_TGT_DATA_IN) ∧
      W2.buf.moffset = RuntimeDevel.get_length_offset w.buf (w.les h) ∧
      W2.buf.mlength = min (min w.buf.data.length ((w.les h).length - W2.buf.moffset))
        w.ni.limits.max_msg_size ∧
      W2.buf.moffset + W2.buf.mlength ≤ (w.les h).length ∧
      (∀ i, i < W2.buf.mlength →
        W3.mem ((w.les h).start + W2.buf.moffset + i) = d.immediate_data i) ∧
      (∀ a, ¬ ((w.les h).start + W2.buf.moffset ≤ a ∧
          a < (w.les h).start + W2.buf.moffset + W2.buf.mlength) →
        W3.mem a = w.mem a) := by
  have hstep := state_get_length_some K w h hle
  have hframe := tgt_get_length_frame K w.ni.limits w.conn.state w.buf (w.les h)
  obtain ⟨hmo, -, hmin⟩ := tgt_get_length_lengths K w.ni.limits w.conn.state w.buf (w.les h)
  obtain ⟨hpr, hgr⟩ := tgt_get_length_put K w.ni.limits w.conn.state w.buf (w.les h) hop
  obtain ⟨-, hmo2, -⟩ := tgt_get_length_buf K w.ni.limits w.conn.state w.buf (w.les h)
  obtain ⟨-, -, hn, hst, -, -⟩ :=
    tgt_get_length_me_fields K w.ni.limits w.conn.state w.buf (w.les h)
  have hroom := tgt_get_length_mlength_le_room K w.ni.limits w.conn.state w.buf (w.les h) hoff
  generalize RuntimeDevel.tgt_get_length K w.ni.limits w.conn.state w.buf (w.les h) = gl at *
  have hop1 : gl.buf.operation = OP_PUT := (congrArg buf_t.operation hframe).trans hop
  obtain ⟨W2, s2, hdata, hmem, hles, hle2, hd2, hml2, hmo3, hat2, hs2⟩ :=
    tgt_data_frame_put K
      { w with
        les := Function.update w.les h gl.me, buf := gl.buf,
        trace := w.trace ++
          (match gl.unlink with
           | some flag => [Action.le_unlink h flag]
           | none => []) } hop1
  dsimp only at hdata hmem hles hle2 hd2 hml2 hmo3 hat2 hs2
  have hle3 : W2.buf.le = some h := hle2.trans ((congrArg buf_t.le hframe).trans hle)
  have hd3 : W2.buf.data_in = some d := hd2.trans ((congrArg buf_t.data_in hframe).trans hd)
  have hat3 : W2.buf.in_atomic = 0 := hat2.trans ((congrArg buf_t.in_atomic hframe).trans hat)
  have hW2h : W2.les h = gl.me := by rw [hles, Function.update_same]
  have hiov2 : (W2.les h).num_iov = 0 := by rw [hW2h, hn, hiov]
  rw [hmo2] at hmin hmo
  refine ⟨_, _, W2, s2, _, hstep, hdata,
    tgt_data_in_contiguous K C W2 h d hle3 hd3 hfmt hat3 hiov2, ?_, ?_, ?_, ?_, ?_, ?_⟩
  · intro hne
    exact hs2 hgr (by rw [hpr, ← hml2]; exact hne)
  · rw [hmo3, hmo2]
  · rw [hml2, hmo3, hmo2]
    exact hmin hoff (Or.inl hop)
  · rw [hml2, hmo3, hmo2]
    omega
  · intro i hi
    dsimp only
    rw [hW2h, hst, hmem]
    simp [RuntimeDevel.memcpy, hi]
  · intro a ha
    dsimp only
    rw [hW2h, hst, hmem]
    simp only [RuntimeDevel.memcpy]
    rw [if_neg ha]

/-- C7 (witness): the sample PUT of 16 bytes of `0xAA` at offset 0 into the sample
element of 32 bytes at address 1000. -/
theorem put_immediate_data_lands_witness :
    ∃ W1 s1 W2 s2 W3,
      RuntimeDevel.state_get_length sample_consts sample_world_matched = step_t.next W1 s1 ∧
      RuntimeDevel.tgt_data sample_consts W1 = step_t.next W2 s2 ∧
      RuntimeDevel.tgt_data_in sample_consts sample_collab W2 =
        step_t.next W3 STATE_TGT_COMM_EVENT ∧
      s2 = STATE_TGT_DATA_IN ∧ W2.buf.moffset = 0 ∧ W2.buf.mlength = 16 ∧
      (∀ a, W3.mem a = if 1000 ≤ a ∧ a < 1016 then 0xAA else 0) := by
  obtain ⟨W1, s1, W2, s2, W3, h1, h2, h3, h4, h5, h6, -, h8, h9⟩ :=
    put_immediate_data_lands sample_consts sample_collab sample_world_matched 0 sample_payload
      rfl rfl rfl rfl rfl rfl (by decide)
  have hmo : W2.buf.moffset = 0 := h5
  have hml : W2.buf.mlength = 16 := by
    rw [h6, hmo]
    rfl
  refine ⟨W1, s1, W2, s2, W3, h1, h2, h3, h4 (by rw [hml]; decide), hmo, hml, ?_⟩
  intro a
  rw [hmo, hml] at h8 h9
  by_cases ha : 1000 ≤ a ∧ a < 1016
  · rw [if_pos ha]
    have e : (sample_world_matched.les 0).start + 0 + (a - 1000) = a := by
      show 1000 + 0 + (a - 1000) = a
      omega
    have := h8 (a - 1000) (by omega)
    rw [e] at this
    exact this
  · rw [if_neg ha]
    refine h9 a ?_
    show ¬ (1000 + 0 ≤ a ∧ a < 1000 + 0 + 16)
    omega

theorem sub64_eq (a b : Nat) (hb : b ≤ a) (ha : a < 2 ^ 64) :
    RuntimeDevel.sub64 a b = a - b := by
  unfold RuntimeDevel.sub64 U64
  rw [Nat.mod_eq_of_lt (by omega : b < 2 ^ 64)]
  omega

theorem tgt_get_length_unlink (K : Consts) (limits : ni_limits_t) (cs : Nat) (buf : buf_t)
    (me : me_t) :
    (RuntimeDevel.tgt_get_length K limits cs buf me).unlink =
      if (RuntimeDevel.tgt_get_length K limits cs buf me).me.options.PTL_ME_USE_ONCE ||
          ((RuntimeDevel.tgt_get_length K limits cs buf me).me.options.PTL_ME_MANAGE_LOCAL &&
            (RuntimeDevel.tgt_get_length K limits cs buf me).me.min_free != 0 &&
            decide (RuntimeDevel.sub64 (RuntimeDevel.tgt_get_length K limits cs buf me).me.length
              (RuntimeDevel.tgt_get_length K limits cs buf me).me.offset <
                (RuntimeDevel.tgt_get_length K limits cs buf me).me.min_free)) then
        some (!(RuntimeDevel.tgt_get_length K limits cs buf me).me.options.PTL_ME_EVENT_UNLINK_DISABLE)
      else none := by
  unfold RuntimeDevel.tgt_get_length
  simp only []
  split_ifs <;> rfl

theorem tgt_get_length_min_free (K : Consts) (limits : ni_limits_t) (cs : Nat) (buf : buf_t)
    (me : me_t) :
    (RuntimeDevel.tgt_get_length K limits cs buf me).me.min_free = me.min_free := by
  rw [tgt_get_length_me]
  split_ifs <;> rfl

theorem find_one_mem (K : Consts) (w : World) (l : List Nat) (h : Nat)
    (hf : RuntimeDevel.find_one K w l = some h) : h ∈ l := by
  unfold RuntimeDevel.find_one at hf
  exact List.mem_of_find?_eq_some hf

theorem find_match_mem (K : Consts) (w : World) (pt : pt_t) (l : ptl_list_t) (h : Nat)
    (hf : RuntimeDevel.find_match K w pt = some (l, h)) :
    h ∈ pt.priority_list ∨ h ∈ pt.overflow_list := by
  unfold RuntimeDevel.find_match at hf
  cases h1 : RuntimeDevel.find_one K w pt.priority_list with
  | some x =>
    rw [h1] at hf
    simp only [Option.some.injEq, Prod.mk.injEq] at hf
    exact Or.inl (hf.2 ▸ find_one_mem K w _ _ h1)
  | none =>
    rw [h1] at hf
    cases h2 : RuntimeDevel.find_one K w pt.overflow_list with
    | some x =>
      rw [h2] at hf
      simp only [Option.some.injEq, Prod.mk.injEq] at hf
      exact Or.inr (hf.2 ▸ find_one_mem K w _ _ h2)
    | none =>
      rw [h2] at hf
      cases hf

theorem tgt_get_length_unlink_iff (K : Consts) (limits : ni_limits_t) (cs : Nat) (buf : buf_t)
    (me : me_t) (hlen : me.length < 2 ^ 64) (hoff : me.offset ≤ me.length) :
    (RuntimeDevel.tgt_get_length K limits cs buf me).unlink =
      if me.options.PTL_ME_USE_ONCE = true ∨
          (me.options.PTL_ME_MANAGE_LOCAL = true ∧
            me.length - (me.offset + (RuntimeDevel.tgt_get_length K limits cs buf me).buf.mlength) <
              me.min_free) then
        some (!me.options.PTL_ME_EVENT_UNLINK_DISABLE)
      else none := by
  rw [tgt_get_length_unlink, tgt_get_length_min_free]
  obtain ⟨ho, -, -, -, -, hl⟩ := tgt_get_length_me_fields K limits cs buf me
  rw [ho, hl]
  cases hml : me.options.PTL_ME_MANAGE_LOCAL
  · cases hu : me.options.PTL_ME_USE_ONCE <;> simp
  · obtain ⟨-, h2, h3, -, -⟩ := manage_local_step K limits cs buf me hlen hoff hml
    rw [sub64_eq _ _ h3 hlen, h2]
    cases hu : me.options.PTL_ME_USE_ONCE
    · by_cases hc : me.length - (me.offset +
          (RuntimeDevel.tgt_get_length K limits cs buf me).buf.mlength) < me.min_free
      · have : me.min_free ≠ 0 := by omega
        simp [hc, this]
      · simp [hc]
    · simp

/-- C11: in `STATE_TGT_GET_LENGTH`, for an element with `me.offset ≤ me.length`, the
call `le_unlink` is made exactly when `USE_ONCE` is set, or `MANAGE_LOCAL` is set
and the space left after this request, `me.length - (me.offset + mlength)`, is
less than `me.min_free`; a `MANAGE_LOCAL` element with `min_free = 0` and without
`USE_ONCE` is never unlinked; and once a `USE_ONCE` element has been taken off the
lists of its table entry, no later request finds it. -/
theorem unlink_decision (K : Consts) (w : World) (pi h : Nat)
    (hle : w.buf.le = some h) (hlen : (w.les h).length < 2 ^ 64)
    (hoff : (w.les h).offset ≤ (w.les h).length) :
    (RuntimeDevel.state_get_length K w).world.trace =
      w.trace ++
        (if (w.les h).options.PTL_ME_USE_ONCE = true ∨
            ((w.les h).options.PTL_ME_MANAGE_LOCAL = true ∧
              (w.les h).length - ((w.les h).offset +
                (RuntimeDevel.state_get_length K w).world.buf.mlength) < (w.les h).min_free) then
          [Action.le_unlink h (!(w.les h).options.PTL_ME_EVENT_UNLINK_DISABLE)]
        else []) ∧
    ((w.les h).options.PTL_ME_MANAGE_LOCAL = true → (w.les h).min_free = 0 →
      (w.les h).options.PTL_ME_USE_ONCE = false →
      (RuntimeDevel.state_get_length K w).world.trace = w.trace) ∧
    ((w.les h).options.PTL_ME_USE_ONCE = true →
      ∀ w3 : World, w3.ni.pt pi = (get_length_and_unlink K w pi).ni.pt pi →
        ∀ l, RuntimeDevel.find_match K w3 (w3.pt pi) ≠ some (l, h)) := by
  have hstep := state_get_length_some K w h hle
  have hu := tgt_get_length_unlink_iff K w.ni.limits w.conn.state w.buf (w.les h) hlen hoff
  have h1 : (RuntimeDevel.state_get_length K w).world.trace =
      w.trace ++
        (if (w.les h).options.PTL_ME_USE_ONCE = true ∨
            ((w.les h).options.PTL_ME_MANAGE_LOCAL = true ∧
              (w.les h).length - ((w.les h).offset +
                (RuntimeDevel.state_get_length K w).world.buf.mlength) < (w.les h).min_free) then
          [Action.le_unlink h (!(w.les h).options.PTL_ME_EVENT_UNLINK_DISABLE)]
        else []) := by
    rw [hstep]
    simp only [step_t.world]
    rw [hu]
    split_ifs <;> rfl
  refine ⟨h1, ?_, ?_⟩
  · intro hml hmf huo
    rw [h1, if_neg, List.append_nil]
    rw [huo, hmf]
    simp
  · intro huo w3 hpt l hf
    have hmem := find_match_mem K w3 _ l h hf
    unfold World.pt at hmem
    rw [hpt] at hmem
    unfold get_length_and_unlink at hmem
    rw [hle] at hmem
    simp only [hu, huo, true_or, if_true] at hmem
    simp [le_unlink, World.set_pt, World.pt] at hmem

/-- C11 (witness): the sample element with `USE_ONCE` is found by the sample PUT,
is unlinked in `STATE_TGT_GET_LENGTH`, and is not found afterwards. -/
theorem unlink_decision_witness :
    RuntimeDevel.find_match sample_consts use_once_world (use_once_world.pt 0) =
      some (PTL_PRIORITY_LIST, 0) ∧
    (RuntimeDevel.state_get_length sample_consts use_once_world).world.trace =
      [Action.le_unlink 0 true] ∧
    (∀ l, RuntimeDevel.find_match sample_consts
        (get_length_and_unlink sample_consts use_once_world 0)
        ((get_length_and_unlink sample_consts use_once_world 0).pt 0) ≠ some (l, 0)) := by
  have h := unlink_decision sample_consts use_once_world 0 0 rfl (by decide) (by decide)
  refine ⟨by decide, ?_, fun l => h.2.2 rfl _ rfl l⟩
  rw [h.1]
  rfl

theorem world_eta (w : World) :
    ({ w with buf := { w.buf with send_buf := w.buf.send_buf }, trace := w.trace ++ [] } : World)
      = w := by
  cases w
  simp

theorem prepare_send_buf_frame (K : Consts) (C : Collab) (w : World) :
    ∃ (e : Bool) (sb : Option send_buf_t) (t : List Action),
      RuntimeDevel.prepare_send_buf K C w =
        (e, { w with buf := { w.buf with send_buf := sb }, trace := w.trace ++ t }) ∧
      (t = [] ∨ t = [Action.buf_get]) := by
  unfold RuntimeDevel.prepare_send_buf
  dsimp only
  split
  · exact ⟨true, _, [], by rw [world_eta], Or.inl rfl⟩
  · exact ⟨false, _, [], by rw [world_eta], Or.inl rfl⟩
  · exact ⟨false, _, [Action.buf_get], rfl, Or.inr rfl⟩

theorem tgt_start_invalid (K : Consts) (C : Collab) (w : World)
    (hop : valid_operation w.buf.data.operation = false) :
    RuntimeDevel.tgt_start K C w =
      step_t.next
        { w with buf := { w.buf with
            operation := w.buf.data.operation, pt := none, in_atomic := 0, matching_le := none,
            le := none, indir_sge := false, send_buf := none } }
        STATE_TGT_ERROR := by
  unfold valid_operation at hop
  unfold RuntimeDevel.tgt_start
  simp only [hop]
  rfl

theorem tgt_start_valid (K : Consts) (C : Collab) (w : World)
    (hop : valid_operation w.buf.data.operation = true) :
    RuntimeDevel.tgt_start K C w =
      if !C.get_conn (tgt_start_seeded w) then
        step_t.next { (tgt_start_seeded w) with buf.conn := false } STATE_TGT_ERROR
      else
        let p : Bool × World :=
          if (tgt_start_seeded w).buf.event_mask.XT_ACK_EVENT ||
              (tgt_start_seeded w).buf.event_mask.XT_REPLY_EVENT then
            RuntimeDevel.prepare_send_buf K C { (tgt_start_seeded w) with buf.conn := true }
          else (false, { (tgt_start_seeded w) with buf.conn := true })
        if p.1 then step_t.next p.2 STATE_TGT_ERROR
        else tgt_start_check K w.buf.data.pt_index p.2 := by
  unfold valid_operation at hop
  cases h1 : (w.buf.data.operation == OP_PUT || w.buf.data.operation == OP_ATOMIC)
  · unfold RuntimeDevel.tgt_start tgt_start_seeded tgt_start_check
    simp only [hop]
    simp only [h1, Bool.false_and, Bool.or_false, Bool.not_false, Bool.or_true,
      Bool.false_eq_true, Bool.not_true, ↓reduceIte]
  · cases h2 : (w.buf.data.ack_req != PTL_NO_ACK_REQ)
    · unfold RuntimeDevel.tgt_start tgt_start_seeded tgt_start_check
      simp only [hop]
      simp only [h1, h2, Bool.true_and, Bool.and_false, Bool.or_false, Bool.not_true,
        Bool.false_eq_true, Bool.not_false, ↓reduceIte]
    · unfold RuntimeDevel.tgt_start tgt_start_seeded tgt_start_check
      simp only [hop]
      simp only [h1, h2, Bool.true_and, Bool.and_true, Bool.or_true, Bool.or_false,
        Bool.not_true, Bool.false_eq_true, Bool.not_false, ↓reduceIte]

theorem tgt_start_outcome (K : Consts) (C : Collab) (w : World)
    (hop : valid_operation w.buf.data.operation = true) :
    ∃ (sb : Option send_buf_t) (t : List Action), (t = [] ∨ t = [Action.buf_get]) ∧
      (RuntimeDevel.tgt_start K C w =
          step_t.next { (tgt_start_seeded w) with buf.conn := false } STATE_TGT_ERROR ∨
        RuntimeDevel.tgt_start K C w =
          step_t.next
            { (tgt_start_seeded w) with
              buf := { (tgt_start_seeded w).buf with conn := true, send_buf := sb },
              trace := w.trace ++ t } STATE_TGT_ERROR ∨
        RuntimeDevel.tgt_start K C w =
          tgt_start_check K w.buf.data.pt_index
            { (tgt_start_seeded w) with
              buf := { (tgt_start_seeded w).buf with conn := true, send_buf := sb },
              trace := w.trace ++ t }) := by
  rw [tgt_start_valid K C w hop]
  cases hc : C.get_conn (tgt_start_seeded w)
  · exact ⟨none, [], Or.inl rfl, Or.inl rfl⟩
  · simp only [Bool.not_true, Bool.false_eq_true, ↓reduceIte]
    obtain ⟨e, sb, t, hp, ht⟩ := prepare_send_buf_frame K C
      { (tgt_start_seeded w) with buf.conn := true }
    cases hm : ((tgt_start_seeded w).buf.event_mask.XT_ACK_EVENT ||
        (tgt_start_seeded w).buf.event_mask.XT_REPLY_EVENT)
    · refine ⟨none, [], Or.inl rfl, Or.inr (Or.inr ?_)⟩
      simp only [Bool.false_eq_true, ↓reduceIte]
      congr 1
      simp [tgt_start_seeded]
    · simp only [↓reduceIte, hp]
      refine ⟨sb, t, ht, ?_⟩
      cases e
      · exact Or.inr (Or.inr rfl)
      · exact Or.inr (Or.inl rfl)

theorem tgt_start_check_mask (K : Consts) (pi : Nat) (w : World) :
    (tgt_start_check K pi w).world.buf.event_mask = w.buf.event_mask := by
  unfold tgt_start_check
  dsimp only [World.set_pt, World.pt]
  split_ifs <;> rfl

/-- C14: starting from an empty event mask, after `tgt_start` the ACK bit is set
exactly when the operation is PUT or ATOMIC and `ack_req` is not `PTL_NO_ACK_REQ`,
the REPLY bit exactly when the operation is GET, FETCH or SWAP, and the two bits
are never both set. -/
theorem tgt_start_seeds_events (K : Consts) (C : Collab) (w : World)
    (hmask : w.buf.event_mask = {}) :
    ((RuntimeDevel.tgt_start K C w).world.buf.event_mask.XT_ACK_EVENT = true ↔
      ((w.buf.data.operation = OP_PUT ∨ w.buf.data.operation = OP_ATOMIC) ∧
        w.buf.data.ack_req ≠ PTL_NO_ACK_REQ)) ∧
    ((RuntimeDevel.tgt_start K C w).world.buf.event_mask.XT_REPLY_EVENT = true ↔
      (w.buf.data.operation = OP_GET ∨ w.buf.data.operation = OP_FETCH ∨
        w.buf.data.operation = OP_SWAP)) ∧
    ¬ ((RuntimeDevel.tgt_start K C w).world.buf.event_mask.XT_ACK_EVENT = true ∧
      (RuntimeDevel.tgt_start K C w).world.buf.event_mask.XT_REPLY_EVENT = true) := by
  cases hop : valid_operation w.buf.data.operation
  · rw [tgt_start_invalid K C w hop]
    simp only [step_t.world, hmask]
    unfold valid_operation at hop
    simp only [Bool.or_eq_false_iff, beq_eq_false_iff_ne] at hop
    simp [hop]
  · have hm : (RuntimeDevel.tgt_start K C w).world.buf.event_mask =
        (tgt_start_seeded w).buf.event_mask := by
      obtain ⟨sb, t, -, h | h | h⟩ := tgt_start_outcome K C w hop
      · rw [h]; rfl
      · rw [h]; rfl
      · rw [h, tgt_start_check_mask]
    rw [hm]
    unfold valid_operation at hop
    simp only [tgt_start_seeded, hmask]
    simp only [Bool.or_eq_true, beq_iff_eq] at hop
    simp only [Bool.false_or, Bool.and_eq_true, Bool.or_eq_true, beq_iff_eq, bne_iff_ne,
      Bool.not_eq_true', Bool.or_eq_false_iff, beq_eq_false_iff_ne, ne_eq]
    unfold OP_PUT OP_ATOMIC OP_GET OP_FETCH OP_SWAP at *
    refine ⟨trivial, ?_, ?_⟩
    · constructor
      · intro h
        omega
      · intro h
        omega
    · intro h
      omega

/-- C14 (witness): for the sample PUT with a full ack request the ACK bit is set
and the REPLY bit is not. -/
theorem tgt_start_seeds_events_witness :
    (RuntimeDevel.tgt_start sample_consts sample_collab sample_world).world.buf.event_mask.XT_ACK_EVENT
      = true ∧
    (RuntimeDevel.tgt_start sample_consts sample_collab
      sample_world).world.buf.event_mask.XT_REPLY_EVENT = false := by
  have h := tgt_start_seeds_events sample_consts sample_collab sample_world rfl
  refine ⟨h.1.2 ⟨Or.inl rfl, by decide⟩, Bool.eq_false_iff.mpr (fun hr => ?_)⟩
  exact absurd (h.2.1.1 hr) (by decide)

/-- C15: in `tgt_get_match`, when no element of the priority or overflow list
matches: with `PTL_PT_FLOWCTRL` the state of the entry gains `PT_AUTO_DISABLED` and
`ni_fail` is `PTL_NI_PT_DISABLED`; without it the state is unchanged and `ni_fail`
is `PTL_NI_DROPPED`; in both cases `buf->le` is null, no call is made (no element
reference is taken) and the next state is `STATE_TGT_DROP`. When an element
matches, the state of every entry is unchanged. No element matches exactly when
the interface does not have `PTL_NI_NO_MATCHING` and `check_match` fails for every
element of the two lists. -/
theorem tgt_get_match_no_match (K : Consts) (w : World) (pi : Nat)
    (hpt : w.buf.pt = some pi) :
    (RuntimeDevel.find_match K w (w.pt pi) = none →
      (RuntimeDevel.tgt_get_match K w).state = some STATE_TGT_DROP ∧
      (RuntimeDevel.tgt_get_match K w).world.buf.le = none ∧
      (RuntimeDevel.tgt_get_match K w).world.trace = w.trace ∧
      ((w.pt pi).options.PTL_PT_FLOWCTRL = true →
        ((RuntimeDevel.tgt_get_match K w).world.ni.pt pi).state =
          (w.pt pi).state ||| K.PT_AUTO_DISABLED ∧
        (RuntimeDevel.tgt_get_match K w).world.buf.ni_fail = PTL_NI_PT_DISABLED) ∧
      ((w.pt pi).options.PTL_PT_FLOWCTRL = false →
        (RuntimeDevel.tgt_get_match K w).world.ni.pt = w.ni.pt ∧
        (RuntimeDevel.tgt_get_match K w).world.buf.ni_fail = PTL_NI_DROPPED)) ∧
    (∀ l h, RuntimeDevel.find_match K w (w.pt pi) = some (l, h) →
      ∀ j, ((RuntimeDevel.tgt_get_match K w).world.ni.pt j).state = (w.ni.pt j).state) ∧
    (RuntimeDevel.find_match K w (w.pt pi) = none ↔
      ∀ x ∈ (w.pt pi).priority_list ++ (w.pt pi).overflow_list,
        (w.ni.options.PTL_NI_NO_MATCHING ||
          RuntimeDevel.check_match K w.ni.options w.buf (w.les x)) = false) := by
  refine ⟨?_, ?_, find_match_eq_none_iff K w _⟩
  · intro hf
    unfold RuntimeDevel.tgt_get_match
    simp only [hpt, hf]
    cases hfc : (w.pt pi).options.PTL_PT_FLOWCTRL <;>
      simp [step_t.state, step_t.world, World.set_pt, World.pt]
  · intro l h hf j
    unfold RuntimeDevel.tgt_get_match
    simp only [hpt, hf]
    split_ifs with h1 h2
    · rfl
    · simp only [step_t.world, World.set_pt, World.pt, World.log, Function.update_apply]
      split_ifs with hj
      · rw [hj]
      · rfl
    · rfl

/-- C15 (witness): entry 0 holds the element 0 on its priority list and the element
3 on its overflow list, and neither matches the sample PUT. With `PTL_PT_FLOWCTRL`
the next state is DROP, `buf->le` is null, no call is made, the state of the entry
becomes `PT_ENABLED ||| PT_AUTO_DISABLED` and `ni_fail` is `PTL_NI_PT_DISABLED`;
without it the table is unchanged and `ni_fail` is `PTL_NI_DROPPED`. With the
matching element 1 on the priority list after 0, the state of the entry is
unchanged although it has `PTL_PT_FLOWCTRL`. -/
theorem tgt_get_match_no_match_witness :
    RuntimeDevel.find_match sample_consts (listed_world true 1 [0] [3])
      ((listed_world true 1 [0] [3]).pt 0) = none ∧
    (RuntimeDevel.tgt_get_match sample_consts (listed_world true 1 [0] [3])).state =
      some STATE_TGT_DROP ∧
    (RuntimeDevel.tgt_get_match sample_consts (listed_world true 1 [0] [3])).world.buf.le =
      none ∧
    (RuntimeDevel.tgt_get_match sample_consts (listed_world true 1 [0] [3])).world.trace =
      (listed_world true 1 [0] [3]).trace ∧
    ((RuntimeDevel.tgt_get_match sample_consts (listed_world true 1 [0] [3])).world.ni.pt
      0).state = 3 ∧
    (RuntimeDevel.tgt_get_match sample_consts (listed_world true 1 [0] [3])).world.buf.ni_fail =
      PTL_NI_PT_DISABLED ∧
    (RuntimeDevel.tgt_get_match sample_consts (listed_world false 1 [0] [3])).state =
      some STATE_TGT_DROP ∧
    (RuntimeDevel.tgt_get_match sample_consts (listed_world false 1 [0] [3])).world.ni.pt =
      (listed_world false 1 [0] [3]).ni.pt ∧
    (RuntimeDevel.tgt_get_match sample_consts (listed_world false 1 [0] [3])).world.buf.ni_fail =
      PTL_NI_DROPPED ∧
    RuntimeDevel.find_match sample_consts (listed_world true 1 [0, 1] [3])
      ((listed_world true 1 [0, 1] [3]).pt 0) = some (PTL_PRIORITY_LIST, 1) ∧
    ((RuntimeDevel.tgt_get_match sample_consts (listed_world true 1 [0, 1] [3])).world.ni.pt
      0).state = 1 := by
  have h := (tgt_get_match_no_match sample_consts (listed_world true 1 [0] [3]) 0 rfl).1
    (by decide)
  have g := (tgt_get_match_no_match sample_consts (listed_world false 1 [0] [3]) 0 rfl).1
    (by decide)
  have k := (tgt_get_match_no_match sample_consts (listed_world true 1 [0, 1] [3]) 0 rfl).2.1
    PTL_PRIORITY_LIST 1 (by decide) 0
  exact ⟨(tgt_get_match_no_match sample_consts (listed_world true 1 [0] [3]) 0 rfl).2.2.2
      (by decide), h.1, h.2.1, h.2.2.1, (h.2.2.2.1 rfl).1, (h.2.2.2.1 rfl).2, g.1,
    (g.2.2.2.2 rfl).1, (g.2.2.2.2 rfl).2, by decide, k⟩

/-- C18 (as stated, refuted): with `PTL_LE_EVENT_SUCCESS_DISABLE` on the element, a
successful PUT (`ni_fail = PTL_NI_OK`) posts no full event, in `tgt_comm_event`
and over the whole run of `process_tgt`, and a failed one
(`ni_fail = PTL_NI_DROPPED`) posts `PTL_EVENT_PUT`; the older variant does the
same. The claim has it the other way round. -/
theorem comm_event_gating_counterexample :
    (comm_event_world PTL_NI_OK).buf.event_mask.XT_COMM_EVENT = true ∧
    events_of (RuntimeDevel.tgt_comm_event (comm_event_world PTL_NI_OK)).world.trace = [] ∧
    events_of (RuntimeDevel.tgt_comm_event (comm_event_world PTL_NI_DROPPED)).world.trace =
      [PTL_EVENT_PUT] ∧
    (RuntimeDevel.process_tgt sample_consts sample_collab 9 success_disabled_world).status =
      some false ∧
    (RuntimeDevel.process_tgt sample_consts sample_collab 9
      success_disabled_world).world.buf.ni_fail = PTL_NI_OK ∧
    events_of (RuntimeDevel.process_tgt sample_consts sample_collab 9
      success_disabled_world).world.trace = [] ∧
    events_of (IbSrc.make_comm_event (comm_event_xt PTL_NI_OK) true
      (success_disabled_world.les 0)).2.2 = [] ∧
    events_of (IbSrc.make_comm_event (comm_event_xt PTL_NI_DROPPED) true
      (success_disabled_world.les 0)).2.2 = [PTL_EVENT_PUT] := by
  decide

theorem make_comm_event_trace (w : World) (pi : Nat) (le : me_t) :
    (RuntimeDevel.make_comm_event w pi le).trace = w.trace ++
      (if w.buf.ni_fail ≠ PTL_NI_OK ∨ le.options.PTL_LE_EVENT_SUCCESS_DISABLE = false then
        [Action.make_target_event (w.pt pi).eq (comm_event_kind w.buf.data.operation)
          (some le.user_ptr) w.buf.start w.buf.ni_fail w.buf.mlength w.buf.moffset]
      else []) := by
  unfold RuntimeDevel.make_comm_event comm_event_kind
  cases hs : le.options.PTL_LE_EVENT_SUCCESS_DISABLE <;>
    by_cases hf : w.buf.ni_fail = PTL_NI_OK <;>
    simp [hs, hf, World.log]

theorem make_comm_event_buf (w : World) (pi : Nat) (le : me_t) :
    (RuntimeDevel.make_comm_event w pi le).buf =
      { w.buf with event_mask := { w.buf.event_mask with XT_COMM_EVENT := false } } := by
  unfold RuntimeDevel.make_comm_event
  dsimp only
  split_ifs <;> rfl

theorem tgt_comm_event_events (w : World) (h pi : Nat)
    (hle : w.buf.le = some h) (hpt : w.buf.pt = some pi)
    (hcomm : w.buf.event_mask.XT_COMM_EVENT = true) :
    events_of (RuntimeDevel.tgt_comm_event w).world.trace =
      events_of (RuntimeDevel.make_comm_event w pi (w.les h)).trace ∧
    (RuntimeDevel.tgt_comm_event w).world.buf.event_mask.XT_COMM_EVENT = false := by
  have hb := make_comm_event_buf w pi (w.les h)
  unfold RuntimeDevel.tgt_comm_event
  simp only [hcomm, hle, hpt, ↓reduceIte]
  generalize RuntimeDevel.make_comm_event w pi (w.les h) = W at hb ⊢
  have hle2 : W.buf.le = some h := by rw [hb]; exact hle
  have hc2 : W.buf.event_mask.XT_COMM_EVENT = false := by rw [hb]
  simp only [hle2]
  unfold RuntimeDevel.make_ct_comm_event
  cases hct : W.buf.event_mask.XT_CT_COMM_EVENT <;>
    cases hr : W.buf.event_mask.XT_REPLY_EVENT <;>
    cases ha : W.buf.event_mask.XT_ACK_EVENT <;>
    simp [hct, hr, ha, hc2, step_t.world, World.log, events_of, List.filterMap_append]

/-- C18 (amended): when the COMM_EVENT bit is set, `tgt_comm_event` pushes the
full event exactly when the operation failed (`ni_fail ≠ PTL_NI_OK`) or the element
does not have `PTL_LE_EVENT_SUCCESS_DISABLE`, and clears the bit; the older variant
of `make_comm_event` gates the event in the same way for the five request
operations. The kind of the event is PUT for `OP_PUT`, GET for `OP_GET` and ATOMIC
for `OP_ATOMIC`, `OP_FETCH` and `OP_SWAP`. -/
theorem comm_event_gating (w : World) (h pi : Nat) (xt : IbSrc.xt_t) (eq : Bool) (le : me_t)
    (hle : w.buf.le = some h) (hpt : w.buf.pt = some pi)
    (hcomm : w.buf.event_mask.XT_COMM_EVENT = true)
    (hvalid : valid_operation xt.operation = true) :
    events_of (RuntimeDevel.tgt_comm_event w).world.trace =
      events_of w.trace ++
        (if w.buf.ni_fail ≠ PTL_NI_OK ∨
            (w.les h).options.PTL_LE_EVENT_SUCCESS_DISABLE = false then
          [comm_event_kind w.buf.data.operation]
        else []) ∧
    (RuntimeDevel.tgt_comm_event w).world.buf.event_mask.XT_COMM_EVENT = false ∧
    events_of (IbSrc.make_comm_event xt eq le).2.2 =
      (if xt.ni_fail ≠ PTL_NI_OK ∨ le.options.PTL_LE_EVENT_SUCCESS_DISABLE = false then
        [comm_event_kind xt.operation]
      else []) ∧
    (IbSrc.make_comm_event xt eq le).2.1.event_mask.XT_COMM_EVENT = false ∧
    comm_event_kind OP_PUT = PTL_EVENT_PUT ∧ comm_event_kind OP_GET = PTL_EVENT_GET ∧
    comm_event_kind OP_ATOMIC = PTL_EVENT_ATOMIC ∧
    comm_event_kind OP_FETCH = PTL_EVENT_ATOMIC ∧
    comm_event_kind OP_SWAP = PTL_EVENT_ATOMIC := by
  obtain ⟨h1, h2⟩ := tgt_comm_event_events w h pi hle hpt hcomm
  refine ⟨?_, h2, ?_, ?_, rfl, rfl, rfl, rfl, rfl⟩
  · rw [h1, make_comm_event_trace]
    simp only [events_of, List.filterMap_append]
    split_ifs <;> rfl
  · unfold valid_operation at hvalid
    simp only [Bool.or_eq_true, beq_iff_eq] at hvalid
    unfold IbSrc.make_comm_event comm_event_kind
    cases hs : le.options.PTL_LE_EVENT_SUCCESS_DISABLE <;>
      by_cases hf : xt.ni_fail = PTL_NI_OK <;>
      rcases hvalid with (((ho | ho) | ho) | ho) | ho <;>
      simp [ho, hs, hf, events_of, OP_PUT, OP_GET, OP_ATOMIC, OP_FETCH, OP_SWAP]
  · unfold valid_operation at hvalid
    simp only [Bool.or_eq_true, beq_iff_eq] at hvalid
    unfold IbSrc.make_comm_event
    rcases hvalid with (((ho | ho) | ho) | ho) | ho <;>
      simp [ho, OP_PUT, OP_GET, OP_ATOMIC, OP_FETCH, OP_SWAP]

/-- C18 (witness): a failed PUT on an element with
`PTL_LE_EVENT_SUCCESS_DISABLE` posts `PTL_EVENT_PUT`; in the older variant a
successful PUT on the sample element, which does not have the option, posts it
too. -/
theorem comm_event_gating_witness :
    events_of (RuntimeDevel.tgt_comm_event (comm_event_world PTL_NI_DROPPED)).world.trace =
      [PTL_EVENT_PUT] ∧
    events_of (IbSrc.make_comm_event (comm_event_xt PTL_NI_OK) true sample_me).2.2 =
      [PTL_EVENT_PUT] := by
  have h := comm_event_gating (comm_event_world PTL_NI_DROPPED) 0 0 (comm_event_xt PTL_NI_OK)
    true sample_me rfl rfl rfl rfl
  exact ⟨h.1, h.2.2.1⟩

theorem sizeof_ack_hdr_cases (K : Consts) : sizeof_ack_hdr K = 24 ∨ sizeof_ack_hdr K = 32 := by
  unfold sizeof_ack_hdr
  cases K.IS_PPE <;> simp

theorem sub32_ack_hdr (K : Consts) (n : Nat) (hn : n ≤ 16) :
    RuntimeDevel.sub32 (sizeof_ack_hdr K) n = sizeof_ack_hdr K - n := by
  unfold RuntimeDevel.sub32
  rcases sizeof_ack_hdr_cases K with h | h <;> rw [h] <;> omega

theorem put_priority_le_frame (w : World) :
    sent_of (RuntimeDevel.put_priority_le w).trace = sent_of w.trace ∧
    (RuntimeDevel.put_priority_le w).buf.send_buf = w.buf.send_buf ∧
    (RuntimeDevel.put_priority_le w).buf.ack = w.buf.ack ∧
    (RuntimeDevel.put_priority_le w).buf.length = w.buf.length ∧
    (RuntimeDevel.put_priority_le w).buf.has_mem_buf = w.buf.has_mem_buf := by
  unfold RuntimeDevel.put_priority_le
  split
  · split_ifs <;> simp [World.log, sent_of, List.filterMap_append]
  · simp

set_option maxHeartbeats 1000000 in
theorem tgt_send_ack_sent_send_buf (K : Consts) (C : Collab) (w : World) (sb : send_buf_t)
    (hsb : w.buf.send_buf = some sb)
    (hreq : w.buf.data.ack_req = PTL_ACK_REQ ∨ w.buf.data.ack_req = PTL_CT_ACK_REQ ∨
      w.buf.data.ack_req = PTL_OC_ACK_REQ) :
    sent_of (RuntimeDevel.tgt_send_ack K C w).world.trace =
      sent_of w.trace ++
        [if ack_disabled w then (OP_NO_ACK, sizeof_ack_hdr K - sizeof_le64 - sizeof_le64)
         else if w.buf.data.ack_req = PTL_ACK_REQ then (OP_ACK, sb.length)
         else if w.buf.data.ack_req = PTL_CT_ACK_REQ then
           (OP_CT_ACK, RuntimeDevel.sub32 sb.length sizeof_le64)
         else (OP_OC_ACK, RuntimeDevel.sub32 sb.length (sizeof_le64 + sizeof_le64))] := by
  unfold RuntimeDevel.tgt_send_ack ack_disabled
  simp only [hsb]
  cases hle : w.buf.le with
  | none =>
    rcases hreq with h | h | h <;>
      simp only [h, PTL_ACK_REQ, PTL_CT_ACK_REQ, PTL_OC_ACK_REQ] <;>
      simp [RuntimeDevel.store_ack, RuntimeDevel.put_priority_le, hsb, hle, World.log, sent_of,
        List.filterMap_append, step_t.world] <;>
      split_ifs <;> simp [step_t.world]
  | some h0 =>
    cases hd : (w.les h0).options.PTL_LE_ACK_DISABLE <;>
      cases hp : (w.les h0).ptl_list <;>
      rcases hreq with h | h | h <;>
      simp only [h, PTL_ACK_REQ, PTL_CT_ACK_REQ, PTL_OC_ACK_REQ] <;>
      simp [RuntimeDevel.store_ack, RuntimeDevel.put_priority_le, hsb, hle, hd, hp, World.log,
        sent_of, List.filterMap_append, step_t.world] <;>
      split_ifs <;> simp [step_t.world]

set_option maxHeartbeats 1000000 in
theorem tgt_send_ack_sent_reuse (K : Consts) (C : Collab) (w : World)
    (hsb : w.buf.send_buf = none)
    (hmem : (K.WITH_TRANSPORT_SHMEM || K.IS_PPE) = true) (hmb : w.buf.has_mem_buf = true)
    (hreq : w.buf.data.ack_req = PTL_ACK_REQ ∨ w.buf.data.ack_req = PTL_CT_ACK_REQ ∨
      w.buf.data.ack_req = PTL_OC_ACK_REQ) :
    sent_of (RuntimeDevel.tgt_send_ack K C w).world.trace =
      sent_of w.trace ++
        [if ack_disabled w then (OP_NO_ACK, sizeof_ack_hdr K - sizeof_le64 - sizeof_le64)
         else if w.buf.data.ack_req = PTL_ACK_REQ then (OP_ACK, sizeof_ack_hdr K)
         else if w.buf.data.ack_req = PTL_CT_ACK_REQ then
           (OP_CT_ACK, RuntimeDevel.sub32 (sizeof_ack_hdr K) sizeof_le64)
         else (OP_OC_ACK, RuntimeDevel.sub32 (sizeof_ack_hdr K) (sizeof_le64 + sizeof_le64))] := by
  unfold RuntimeDevel.tgt_send_ack ack_disabled
  simp only [hsb]
  cases hle : w.buf.le with
  | none =>
    rcases hreq with h | h | h <;>
      simp only [h, PTL_ACK_REQ, PTL_CT_ACK_REQ, PTL_OC_ACK_REQ] <;>
      simp [RuntimeDevel.store_ack, RuntimeDevel.put_priority_le, hsb, hle, hmem, hmb, World.log,
        sent_of, List.filterMap_append, step_t.world]
  | some h0 =>
    cases hd : (w.les h0).options.PTL_LE_ACK_DISABLE <;>
      cases hp : (w.les h0).ptl_list <;>
      rcases hreq with h | h | h <;>
      simp only [h, PTL_ACK_REQ, PTL_CT_ACK_REQ, PTL_OC_ACK_REQ] <;>
      simp [RuntimeDevel.store_ack, RuntimeDevel.put_priority_le, hsb, hle, hd, hp, hmem, hmb,
        World.log, sent_of, List.filterMap_append, step_t.world]

theorem tgt_send_ack_invalid (K : Consts) (C : Collab) (w : World)
    (h1 : w.buf.data.ack_req ≠ PTL_ACK_REQ) (h2 : w.buf.data.ack_req ≠ PTL_CT_ACK_REQ)
    (h3 : w.buf.data.ack_req ≠ PTL_OC_ACK_REQ) :
    (RuntimeDevel.tgt_send_ack K C w).state = some STATE_TGT_ERROR ∧
    (RuntimeDevel.tgt_send_ack K C w).world.trace = w.trace := by
  unfold RuntimeDevel.tgt_send_ack
  simp only [beq_iff_eq, h1, h2, h3, ↓reduceIte, step_t.state, step_t.world, true_and]
  unfold RuntimeDevel.store_ack
  split <;> rfl

/-- C20: in `tgt_send_ack`, with `H = sizeof(ack_hdr_t)` the length the response
buffer starts with (set by `prepare_send_buf`, or by `tgt_send_ack` itself when the
received buffer is reused): the one response handed to the transport has operation
`OP_ACK` and length `H` for `PTL_ACK_REQ`, `OP_CT_ACK` and `H - 8` for
`PTL_CT_ACK_REQ`, `OP_OC_ACK` and `H - 16` for `PTL_OC_ACK_REQ`, and `OP_NO_ACK` and
`H - 16` for each of the three when the element has `PTL_LE_ACK_DISABLE`; any other
`ack_req` gives `STATE_TGT_ERROR` and no call at all. -/
theorem send_ack_minimisation (K : Consts) (C : Collab) (w : World)
    (hsb : (∃ sb, w.buf.send_buf = some sb ∧ sb.length = sizeof_ack_hdr K) ∨
      (w.buf.send_buf = none ∧ (K.WITH_TRANSPORT_SHMEM || K.IS_PPE) = true ∧
        w.buf.has_mem_buf = true)) :
    ((w.buf.data.ack_req = PTL_ACK_REQ ∨ w.buf.data.ack_req = PTL_CT_ACK_REQ ∨
        w.buf.data.ack_req = PTL_OC_ACK_REQ) →
      sent_of (RuntimeDevel.tgt_send_ack K C w).world.trace =
        sent_of w.trace ++
          [if ack_disabled w then (OP_NO_ACK, sizeof_ack_hdr K - 16)
           else if w.buf.data.ack_req = PTL_ACK_REQ then (OP_ACK, sizeof_ack_hdr K)
           else if w.buf.data.ack_req = PTL_CT_ACK_REQ then (OP_CT_ACK, sizeof_ack_hdr K - 8)
           else (OP_OC_ACK, sizeof_ack_hdr K - 16)]) ∧
    (¬ (w.buf.data.ack_req = PTL_ACK_REQ ∨ w.buf.data.ack_req = PTL_CT_ACK_REQ ∨
        w.buf.data.ack_req = PTL_OC_ACK_REQ) →
      (RuntimeDevel.tgt_send_ack K C w).state = some STATE_TGT_ERROR ∧
      (RuntimeDevel.tgt_send_ack K C w).world.trace = w.trace) := by
  have e8 := sub32_ack_hdr K sizeof_le64 (by decide)
  have e16 := sub32_ack_hdr K (sizeof_le64 + sizeof_le64) (by decide)
  have e0 : sizeof_ack_hdr K - sizeof_le64 - sizeof_le64 = sizeof_ack_hdr K - 16 := by
    unfold sizeof_le64
    omega
  constructor
  · intro hreq
    rcases hsb with ⟨sb, hsb, hlen⟩ | ⟨hsb, hmem, hmb⟩
    · rw [tgt_send_ack_sent_send_buf K C w sb hsb hreq, hlen, e8, e16, e0]
      rfl
    · rw [tgt_send_ack_sent_reuse K C w hsb hmem hmb hreq, e8, e16, e0]
      rfl
  · intro hn
    exact tgt_send_ack_invalid K C w (fun h => hn (Or.inl h)) (fun h => hn (Or.inr (Or.inl h)))
      (fun h => hn (Or.inr (Or.inr h)))

/-- C20 (witness): with the sample constants `H = 24`; a counting ack request is
answered with `OP_CT_ACK` and 16 bytes, a full ack request with `OP_ACK` and 24
bytes. -/
theorem send_ack_minimisation_witness :
    sent_of (RuntimeDevel.tgt_send_ack sample_consts sample_collab
      (send_ack_world PTL_CT_ACK_REQ)).world.trace = [(OP_CT_ACK, 16)] ∧
    sent_of (RuntimeDevel.tgt_send_ack sample_consts sample_collab
      (send_ack_world PTL_ACK_REQ)).world.trace = [(OP_ACK, 24)] := by
  have h := (send_ack_minimisation sample_consts sample_collab (send_ack_world PTL_CT_ACK_REQ)
    (Or.inl ⟨_, rfl, rfl⟩)).1 (Or.inr (Or.inl rfl))
  have g := (send_ack_minimisation sample_consts sample_collab (send_ack_world PTL_ACK_REQ)
    (Or.inl ⟨_, rfl, rfl⟩)).1 (Or.inl rfl)
  exact ⟨h, g⟩

/-- C13 (evaluated on the code): the sample PUT arrives at table entry 0 while
the entry is in use but not enabled, with `num_tgt_active = 0`. `tgt_start` drops
the request with `PTL_NI_PT_DISABLED` after it has set `buf->pt` and without
incrementing `num_tgt_active`; the run goes on to its end, and `tgt_cleanup`
decrements the counter, which is -1 when `process_tgt` returns although no request
is in flight. The same happens for an entry that is not in use. -/
theorem num_tgt_active_after_start_drop :
    (disabled_pt_world.pt 0).num_tgt_active = 0 ∧
    (RuntimeDevel.tgt_start sample_consts sample_collab disabled_pt_world).state =
      some STATE_TGT_DROP ∧
    (RuntimeDevel.tgt_start sample_consts sample_collab disabled_pt_world).world.buf.ni_fail =
      PTL_NI_PT_DISABLED ∧
    ((RuntimeDevel.tgt_start sample_consts sample_collab disabled_pt_world).world.pt 0).num_tgt_active
      = 0 ∧
    (RuntimeDevel.process_tgt sample_consts sample_collab 9 disabled_pt_world).status =
      some false ∧
    states_of (RuntimeDevel.process_tgt sample_consts sample_collab 9 disabled_pt_world).world.trace =
      [STATE_TGT_START, STATE_TGT_DROP, STATE_TGT_WAIT_CONN, STATE_TGT_DATA,
       STATE_TGT_COMM_EVENT, STATE_TGT_SEND_ACK, STATE_TGT_CLEANUP, STATE_TGT_CLEANUP_2] ∧
    ((RuntimeDevel.process_tgt sample_consts sample_collab 9 disabled_pt_world).world.pt 0).num_tgt_active
      = -1 ∧
    (unused_pt_world.pt 0).num_tgt_active = 0 ∧
    (RuntimeDevel.tgt_start sample_consts sample_collab unused_pt_world).state =
      some STATE_TGT_DROP ∧
    ((RuntimeDevel.process_tgt sample_consts sample_collab 9 unused_pt_world).world.pt 0).num_tgt_active
      = -1 := by
  decide

theorem loop_invariant_fuel (K : Consts) (C : Collab) (I : Nat → tgt_state → World → Prop)
    (R G : World → Prop)
    (hG : ∀ s w, I 0 s w → G w)
    (h_err : ∀ n w, I (n + 1) STATE_TGT_ERROR w →
      I n STATE_TGT_CLEANUP
        (if (w.log (Action.ptl_info STATE_TGT_ERROR)).buf.in_atomic != 0 then
          RuntimeDevel.atomic_unlock (w.log (Action.ptl_info STATE_TGT_ERROR))
         else w.log (Action.ptl_info STATE_TGT_ERROR)))
    (h_c2 : ∀ n w, I (n + 1) STATE_TGT_CLEANUP_2 w →
      R ({ (RuntimeDevel.tgt_cleanup_2 (w.log (Action.ptl_info STATE_TGT_CLEANUP_2))) with
            buf.tgt_state := STATE_TGT_DONE }.log Action.buf_put))
    (h_done : ∀ n w, I (n + 1) STATE_TGT_DONE w → R (w.log (Action.ptl_info STATE_TGT_DONE)))
    (h_abort : ∀ n s w w1, I (n + 1) s w →
      RuntimeDevel.tgt_handler K C s (w.log (Action.ptl_info s)) = step_t.abort w1 → G w1)
    (h_next : ∀ n s w w1 s1, I (n + 1) s w →
      s ≠ STATE_TGT_ERROR → s ≠ STATE_TGT_CLEANUP_2 → s ≠ STATE_TGT_DONE →
      RuntimeDevel.tgt_handler K C s (w.log (Action.ptl_info s)) = step_t.next w1 s1 →
      I n s1 w1 ∧
      ((RuntimeDevel.tgt_suspends s && s1 == s) = true → R { w1 with buf.tgt_state := s1 })) :
    ∀ (n : Nat) (s : tgt_state) (err : Bool) (w : World), I n s w →
      (RuntimeDevel.process_tgt_loop K C n s err w).holds R G := by
  intro n
  induction n with
  | zero =>
    intro s err w hI
    exact hG s w hI
  | succ n ih =>
    intro s err w hI
    by_cases h1 : s = STATE_TGT_ERROR
    · subst h1
      rw [RuntimeDevel.process_tgt_loop]
      exact ih _ _ _ (h_err n w hI)
    by_cases h2 : s = STATE_TGT_CLEANUP_2
    · subst h2
      rw [RuntimeDevel.process_tgt_loop]
      exact h_c2 n w hI
    by_cases h3 : s = STATE_TGT_DONE
    · subst h3
      rw [RuntimeDevel.process_tgt_loop]
      exact h_done n w hI
    cases hh : RuntimeDevel.tgt_handler K C s (w.log (Action.ptl_info s)) with
    | abort w1 =>
      have : RuntimeDevel.process_tgt_loop K C (n + 1) s err w =
          RuntimeDevel.run_result.aborted w1 := by
        cases s <;> first
          | exact absurd rfl h1
          | exact absurd rfl h2
          | exact absurd rfl h3
          | (rw [RuntimeDevel.process_tgt_loop] <;> first
              | (intro hx; cases hx)
              | (simp only [hh]))
      rw [this]
      exact h_abort n s w w1 hI hh
    | next w1 s1 =>
      obtain ⟨hI1, hR⟩ := h_next n s w w1 s1 hI h1 h2 h3 hh
      cases hs : (RuntimeDevel.tgt_suspends s && s1 == s) with
      | true =>
        have : RuntimeDevel.process_tgt_loop K C (n + 1) s err w =
            RuntimeDevel.run_result.returned { w1 with buf.tgt_state := s1 } err := by
          cases s <;> first
            | exact absurd rfl h1
            | exact absurd rfl h2
            | exact absurd rfl h3
            | (rw [RuntimeDevel.process_tgt_loop] <;> first
                | (intro hx; cases hx)
                | (simp only [hh, hs]; rfl))
        rw [this]
        exact hR hs
      | false =>
        rw [loop_next K C n s err w w1 s1 ⟨h1, h2, h3⟩ hh hs]
        exact ih _ _ _ hI1

theorem loop_invariant (K : Consts) (C : Collab) (I : tgt_state → World → Prop)
    (R G : World → Prop)
    (hG : ∀ s w, I s w → G w)
    (h_err : ∀ w, I STATE_TGT_ERROR w →
      I STATE_TGT_CLEANUP
        (if (w.log (Action.ptl_info STATE_TGT_ERROR)).buf.in_atomic != 0 then
          RuntimeDevel.atomic_unlock (w.log (Action.ptl_info STATE_TGT_ERROR))
         else w.log (Action.ptl_info STATE_TGT_ERROR)))
    (h_c2 : ∀ w, I STATE_TGT_CLEANUP_2 w →
      R ({ (RuntimeDevel.tgt_cleanup_2 (w.log (Action.ptl_info STATE_TGT_CLEANUP_2))) with
            buf.tgt_state := STATE_TGT_DONE }.log Action.buf_put))
    (h_done : ∀ w, I STATE_TGT_DONE w → R (w.log (Action.ptl_info STATE_TGT_DONE)))
    (h_abort : ∀ s w w1, I s w →
      RuntimeDevel.tgt_handler K C s (w.log (Action.ptl_info s)) = step_t.abort w1 → G w1)
    (h_next : ∀ s w w1 s1, I s w →
      s ≠ STATE_TGT_ERROR → s ≠ STATE_TGT_CLEANUP_2 → s ≠ STATE_TGT_DONE →
      RuntimeDevel.tgt_handler K C s (w.log (Action.ptl_info s)) = step_t.next w1 s1 →
      I s1 w1 ∧
      ((RuntimeDevel.tgt_suspends s && s1 == s) = true → R { w1 with buf.tgt_state := s1 }))
    (n : Nat) (s : tgt_state) (err : Bool) (w : World) (hI : I s w) :
    (RuntimeDevel.process_tgt_loop K C n s err w).holds R G :=
  loop_invariant_fuel K C (fun _ => I) R G hG (fun _ => h_err) (fun _ => h_c2)
    (fun _ => h_done) (fun _ => h_abort) (fun _ => h_next) n s err w hI

theorem trace_ext_iff (P : Action → Bool) (w W : World) :
    trace_ext P w W ↔ ∃ t, W.trace = w.trace ++ t ∧ ∀ a ∈ t, P a = true := by
  constructor
  · rintro ⟨⟨t, ht⟩, h⟩
    refine ⟨t, ht.symm, ?_⟩
    rw [← ht, List.drop_left, List.all_eq_true] at h
    exact h
  · rintro ⟨t, ht, h⟩
    refine ⟨⟨t, ht.symm⟩, ?_⟩
    rw [ht, List.drop_left, List.all_eq_true]
    exact h

theorem request_drop_ext (w : World) :
    trace_ext (logs STATE_TGT_DROP) w (RuntimeDevel.request_drop w).world := by
  unfold RuntimeDevel.request_drop trace_ext
  simp only []
  split_ifs <;> simp [step_t.world]

theorem tgt_wait_conn_ext (K : Consts) (C : Collab) (w : World) :
    trace_ext (logs STATE_TGT_WAIT_CONN) w (RuntimeDevel.tgt_wait_conn K C w).world := by
  unfold RuntimeDevel.tgt_wait_conn trace_ext
  simp only []
  split_ifs <;> simp [step_t.world, World.log, logs]

theorem tgt_data_ext (K : Consts) (w : World) :
    trace_ext (logs STATE_TGT_DATA) w (RuntimeDevel.tgt_data K w).world := by
  unfold RuntimeDevel.tgt_data trace_ext
  simp only []
  split_ifs <;> simp [step_t.world, World.log, logs]

theorem tgt_get_match_ext (K : Consts) (w : World) :
    trace_ext (logs STATE_TGT_GET_MATCH) w (RuntimeDevel.tgt_get_match K w).world := by
  unfold RuntimeDevel.tgt_get_match trace_ext
  simp only []
  repeat' split
  all_goals simp [step_t.world, World.log, World.set_pt, logs]

theorem state_get_length_ext (K : Consts) (w : World) :
    trace_ext (logs STATE_TGT_GET_LENGTH) w (RuntimeDevel.state_get_length K w).world := by
  unfold RuntimeDevel.state_get_length trace_ext
  simp only []
  repeat' split
  all_goals simp [step_t.world, World.log, World.set_le, logs]

theorem prepare_send_buf_ext (K : Consts) (C : Collab) (w : World) :
    trace_ext (logs STATE_TGT_START) w (RuntimeDevel.prepare_send_buf K C w).2 := by
  obtain ⟨e, sb, t, h, ht⟩ := prepare_send_buf_frame K C w
  rw [h, trace_ext_iff]
  refine ⟨t, rfl, ?_⟩
  rcases ht with ht | ht <;> subst ht <;> simp [logs]

theorem tgt_start_ext (K : Consts) (C : Collab) (w : World) :
    trace_ext (logs STATE_TGT_START) w (RuntimeDevel.tgt_start K C w).world := by
  cases hop : valid_operation w.buf.data.operation
  · rw [tgt_start_invalid K C w hop]
    simp [trace_ext, step_t.world]
  · obtain ⟨sb, t, ht, h⟩ := tgt_start_outcome K C w hop
    have hl : ∀ a ∈ t, logs STATE_TGT_START a = true := by
      rcases ht with ht | ht <;> subst ht <;> simp [logs]
    rw [trace_ext_iff]
    rcases h with h | h | h
    · rw [h]
      exact ⟨[], by simp [step_t.world, tgt_start_seeded], by simp⟩
    · rw [h]
      exact ⟨t, rfl, hl⟩
    · rw [h]
      refine ⟨t, ?_, hl⟩
      unfold tgt_start_check
      simp only []
      split_ifs <;> simp [step_t.world, World.set_pt]

theorem tgt_data_out_ext (K : Consts) (C : Collab) (w : World) :
    trace_ext (logs STATE_TGT_DATA_OUT) w (RuntimeDevel.tgt_data_out K C w).world := by
  unfold RuntimeDevel.tgt_data_out trace_ext
  simp only []
  repeat' split
  all_goals simp [step_t.world, World.log, logs]

theorem tgt_rdma_ext (K : Consts) (C : Collab) (w : World) :
    trace_ext (logs STATE_TGT_RDMA) w (RuntimeDevel.tgt_rdma K C w).world := by
  unfold RuntimeDevel.tgt_rdma trace_ext
  simp only []
  repeat' split
  all_goals simp [step_t.world, World.log, logs]

theorem tgt_wait_rdma_desc_ext (K : Consts) (C : Collab) (w : World) :
    trace_ext (logs STATE_TGT_WAIT_RDMA_DESC) w (RuntimeDevel.tgt_wait_rdma_desc K C w).world := by
  unfold RuntimeDevel.tgt_wait_rdma_desc trace_ext
  simp only []
  repeat' split
  all_goals simp [step_t.world, World.log, logs]

theorem tgt_shmem_desc_ext (K : Consts) (C : Collab) (w : World) :
    trace_ext (logs STATE_TGT_SHMEM_DESC) w (RuntimeDevel.tgt_shmem_desc K C w).world := by
  unfold RuntimeDevel.tgt_shmem_desc trace_ext
  simp only []
  repeat' split
  all_goals simp [step_t.world, World.log, logs]

theorem tgt_data_in_ext (K : Consts) (C : Collab) (w : World) :
    trace_ext (logs STATE_TGT_DATA_IN) w (RuntimeDevel.tgt_data_in K C w).world := by
  unfold RuntimeDevel.tgt_data_in RuntimeDevel.data_in_leave RuntimeDevel.tgt_copy_in trace_ext
  simp only []
  repeat' split
  all_goals simp [step_t.world, World.log, logs, RuntimeDevel.atomic_unlock]

theorem atomic_in_trace (C : Collab) (w w1 : World) (me : me_t) (err : Bool)
    (h : RuntimeDevel.atomic_in C w me = some (err, w1)) :
    w1.trace = w.trace ∧ w1.buf = w.buf ∧ w1.les = w.les ∧ w1.ni = w.ni := by
  unfold RuntimeDevel.atomic_in at h
  simp only [] at h
  split_ifs at h
  · cases h
    exact ⟨rfl, rfl, rfl, rfl⟩
  · cases h
    exact ⟨rfl, rfl, rfl, rfl⟩

theorem tgt_atomic_data_in_ext (K : Consts) (C : Collab) (w : World) :
    trace_ext (logs STATE_TGT_ATOMIC_DATA_IN) w (RuntimeDevel.tgt_atomic_data_in K C w).world := by
  unfold RuntimeDevel.tgt_atomic_data_in trace_ext
  split
  · split_ifs
    · simp [step_t.world]
    · simp [step_t.world]
    · split
      · simp [step_t.world]
      · rename_i hh
        have ht := (atomic_in_trace C _ _ _ _ hh).1
        split_ifs <;>
          simp [step_t.world, World.log, logs, RuntimeDevel.atomic_unlock, ht]
  · simp [step_t.world]

theorem tgt_swap_data_in_ext (C : Collab) (w : World) :
    trace_ext (logs STATE_TGT_SWAP_DATA_IN) w (RuntimeDevel.tgt_swap_data_in C w).world := by
  unfold RuntimeDevel.tgt_swap_data_in trace_ext
  simp only []
  repeat' split
  all_goals simp [step_t.world, World.log, logs, RuntimeDevel.atomic_unlock]

theorem comm_event_kind_cases (op : Nat) :
    comm_event_kind op = PTL_EVENT_PUT ∨ comm_event_kind op = PTL_EVENT_GET ∨
      comm_event_kind op = PTL_EVENT_ATOMIC := by
  unfold comm_event_kind
  split_ifs <;> simp

theorem tgt_comm_event_no_comm (w : World) (hc : w.buf.event_mask.XT_COMM_EVENT = false) :
    ∃ c, (RuntimeDevel.tgt_comm_event w).world.trace = w.trace ++ c ∧ ct_event_calls c ∧
      ((RuntimeDevel.tgt_comm_event w).state.isSome = true →
        (RuntimeDevel.tgt_comm_event w).world.buf.event_mask.XT_CT_COMM_EVENT = false ∧
        (RuntimeDevel.tgt_comm_event w).world.buf.event_mask.XT_COMM_EVENT = false ∧
        (RuntimeDevel.tgt_comm_event w).state = some
          (if w.buf.event_mask.XT_REPLY_EVENT then STATE_TGT_SEND_REPLY
           else if w.buf.event_mask.XT_ACK_EVENT then STATE_TGT_SEND_ACK
           else STATE_TGT_CLEANUP)) := by
  unfold RuntimeDevel.tgt_comm_event
  simp only [hc, Bool.false_eq_true, ↓reduceIte]
  cases hct : w.buf.event_mask.XT_CT_COMM_EVENT
  · simp only [Bool.false_eq_true, ↓reduceIte]
    refine ⟨[], ?_, Or.inl rfl, ?_⟩
    · split_ifs <;> simp [step_t.world]
    · split_ifs <;> simp_all [step_t.world, step_t.state]
  · simp only [↓reduceIte]
    cases hle : w.buf.le with
    | none => exact ⟨[], by simp [step_t.world], Or.inl rfl, by simp [step_t.state]⟩
    | some h =>
      simp only [RuntimeDevel.make_ct_comm_event, World.log]
      refine ⟨[Action.make_ct_event h
        (if (w.les h).options.PTL_LE_EVENT_CT_BYTES then CT_MBYTES else CT_EVENTS)
        w.buf.ni_fail w.buf.mlength], ?_, Or.inr ⟨_, _, _, _, rfl⟩, ?_⟩
      · split_ifs <;> simp [step_t.world]
      · split_ifs <;> simp_all [step_t.world, step_t.state]

theorem tgt_comm_event_comm (w : World) (h pi : Nat)
    (hc : w.buf.event_mask.XT_COMM_EVENT = true)
    (hle : w.buf.le = some h) (hpt : w.buf.pt = some pi) :
    RuntimeDevel.tgt_comm_event w =
      RuntimeDevel.tgt_comm_event (RuntimeDevel.make_comm_event w pi (w.les h)) := by
  have hb := make_comm_event_buf w pi (w.les h)
  have hc1 : (RuntimeDevel.make_comm_event w pi (w.les h)).buf.event_mask.XT_COMM_EVENT = false := by
    rw [hb]
  conv_lhs => unfold RuntimeDevel.tgt_comm_event
  conv_rhs => unfold RuntimeDevel.tgt_comm_event
  simp only [hc, hle, hpt, hc1, Bool.false_eq_true, ↓reduceIte]

theorem tgt_comm_event_abort (w : World)
    (hc : w.buf.event_mask.XT_COMM_EVENT = true)
    (hn : w.buf.le = none ∨ w.buf.pt = none) :
    RuntimeDevel.tgt_comm_event w = step_t.abort w := by
  unfold RuntimeDevel.tgt_comm_event
  rcases hn with hn | hn
  · simp only [hc, hn, ↓reduceIte]
  · simp only [hc, hn, ↓reduceIte]
    cases w.buf.le <;> rfl

theorem tgt_comm_event_shape (w : World) :
    ∃ e c, (RuntimeDevel.tgt_comm_event w).world.trace = w.trace ++ (e ++ c) ∧
      comm_event_calls e ∧ ct_event_calls c ∧
      ((RuntimeDevel.tgt_comm_event w).state.isSome = true →
        (RuntimeDevel.tgt_comm_event w).world.buf.event_mask.XT_CT_COMM_EVENT = false ∧
        (RuntimeDevel.tgt_comm_event w).world.buf.event_mask.XT_COMM_EVENT = false ∧
        (RuntimeDevel.tgt_comm_event w).state = some
          (if w.buf.event_mask.XT_REPLY_EVENT then STATE_TGT_SEND_REPLY
           else if w.buf.event_mask.XT_ACK_EVENT then STATE_TGT_SEND_ACK
           else STATE_TGT_CLEANUP)) := by
  cases hc : w.buf.event_mask.XT_COMM_EVENT
  · obtain ⟨c, h1, h2, h3⟩ := tgt_comm_event_no_comm w hc
    exact ⟨[], c, h1, Or.inl rfl, h2, h3⟩
  · cases hle : w.buf.le with
    | none =>
      rw [tgt_comm_event_abort w hc (Or.inl hle)]
      exact ⟨[], [], by simp [step_t.world], Or.inl rfl, Or.inl rfl, by simp [step_t.state]⟩
    | some h =>
      cases hpt : w.buf.pt with
      | none =>
        rw [tgt_comm_event_abort w hc (Or.inr hpt)]
        exact ⟨[], [], by simp [step_t.world], Or.inl rfl, Or.inl rfl, by simp [step_t.state]⟩
      | some pi =>
        rw [tgt_comm_event_comm w h pi hc hle hpt]
        have hb := make_comm_event_buf w pi (w.les h)
        have ht := make_comm_event_trace w pi (w.les h)
        obtain ⟨c, h1, h2, h3⟩ := tgt_comm_event_no_comm
          (RuntimeDevel.make_comm_event w pi (w.les h)) (by rw [hb])
        refine ⟨(if w.buf.ni_fail ≠ PTL_NI_OK ∨
            (w.les h).options.PTL_LE_EVENT_SUCCESS_DISABLE = false then
          [Action.make_target_event (w.pt pi).eq (comm_event_kind w.buf.data.operation)
            (some (w.les h).user_ptr) w.buf.start w.buf.ni_fail w.buf.mlength w.buf.moffset]
          else []), c, ?_, ?_, h2, ?_⟩
        · rw [h1, ht, List.append_assoc]
        · split_ifs
          · exact Or.inr ⟨_, _, _, _, _, _, _, rfl, comm_event_kind_cases _⟩
          · exact Or.inl rfl
        · intro hs
          have h4 := h3 hs
          rw [hb] at h4
          exact h4

theorem tgt_comm_event_ext (w : World) :
    trace_ext (logs STATE_TGT_COMM_EVENT) w (RuntimeDevel.tgt_comm_event w).world := by
  obtain ⟨e, c, h, he, hc, _⟩ := tgt_comm_event_shape w
  rw [trace_ext_iff]
  refine ⟨e ++ c, h, ?_⟩
  intro a ha
  rcases List.mem_append.1 ha with ha | ha
  · rcases he with he | ⟨_, _, _, _, _, _, _, he, hk⟩
    · subst he; cases ha
    · subst he
      rw [List.mem_singleton] at ha
      subst ha
      rcases hk with hk | hk | hk <;> subst hk <;> rfl
  · rcases hc with hc | ⟨_, _, _, _, hc⟩
    · subst hc; cases ha
    · subst hc
      rw [List.mem_singleton] at ha
      subst ha
      rfl

theorem tgt_wait_append_ext (w : World) :
    trace_ext (logs STATE_TGT_WAIT_APPEND) w (RuntimeDevel.tgt_wait_append w).world := by
  unfold RuntimeDevel.tgt_wait_append trace_ext
  split_ifs <;> simp [step_t.world]

theorem tgt_cleanup_ext (K : Consts) (w : World) :
    trace_ext (logs STATE_TGT_CLEANUP) w (RuntimeDevel.tgt_cleanup K w).world := by
  unfold RuntimeDevel.tgt_cleanup trace_ext
  simp only []
  repeat' split
  all_goals simp_all [step_t.world, World.log, World.set_pt, logs]

theorem put_priority_le_ext (P : Action → Bool) (w : World)
    (hP : ∀ h, P (Action.le_put h) = true) :
    trace_ext P w (RuntimeDevel.put_priority_le w) := by
  unfold RuntimeDevel.put_priority_le trace_ext
  repeat' split
  all_goals simp [World.log, hP]

theorem tgt_overflow_event_ext (w : World) :
    trace_ext (logs STATE_TGT_OVERFLOW_EVENT) w (RuntimeDevel.tgt_overflow_event w).world := by
  unfold RuntimeDevel.tgt_overflow_event trace_ext
  simp only []
  cases hm : w.buf.matching_le with
  | none => simp [step_t.world]
  | some m =>
    simp only []
    cases hpt : w.buf.pt <;> simp only [] <;> split_ifs <;>
      simp [step_t.world, World.log, logs]

theorem tgt_send_ack_eq (K : Consts) (C : Collab) (w : World) :
    RuntimeDevel.tgt_send_ack K C w =
      match ack_choice w.buf.data.ack_req (ack_base K w).1 (ack_base K w).2 with
      | none => step_t.next (RuntimeDevel.store_ack w (ack_base K w).1 (ack_base K w).2)
          STATE_TGT_ERROR
      | some (hdr, len) =>
        send_response K C (RuntimeDevel.put_priority_le (RuntimeDevel.store_ack w
          (if ack_disabled w then { hdr with operation := OP_NO_ACK } else hdr)
          (if ack_disabled w then sizeof_ack_hdr K - sizeof_le64 - sizeof_le64 else len))) :=
  rfl

theorem tgt_send_reply_eq (K : Consts) (C : Collab) (w : World) :
    RuntimeDevel.tgt_send_reply C w =
      match w.buf.send_buf with
      | none => step_t.abort w
      | some sb =>
        send_response K C (RuntimeDevel.put_priority_le
          { w with buf.send_buf := some { sb with data :=
            { sb.data with ni_fail := w.buf.ni_fail, length := w.buf.mlength,
                           offset := w.buf.moffset, operation := OP_REPLY,
                           matching_list := w.buf.matching_list } } }) := by
  unfold RuntimeDevel.tgt_send_reply send_response
  cases hsb : w.buf.send_buf with
  | none => rfl
  | some sb =>
    simp only []
    unfold RuntimeDevel.put_priority_le
    cases hle : w.buf.le with
    | none => rfl
    | some h =>
      simp only []
      by_cases hp : ((w.les h).ptl_list == PTL_PRIORITY_LIST) = true
      · simp only [hp, ↓reduceIte, World.log]
      · simp only [hp, ↓reduceIte, World.log, hle, Bool.false_eq_true]

theorem send_response_step (K : Consts) (C : Collab) (w : World) (nf : ptl_ni_fail_t)
    (h : pending_code nf w) :
    ∃ t, send_step nf w (send_response K C w).world t ∧
      (can_respond K w →
        ((send_response K C w).state = some STATE_TGT_CLEANUP ∨
          (send_response K C w).state = some STATE_TGT_ERROR) ∧
        (responses_of t).length = 1) := by
  unfold send_response send_step send_frame can_respond
  unfold pending_code at h
  cases hsb : w.buf.send_buf with
  | some sb =>
    simp only [hsb] at h
    simp only []
    refine ⟨[Action.set_send_flags 1, Action.send_message
      { sb with has_dest := w.buf.has_dest, has_conn := w.buf.conn } 0], ?_⟩
    split_ifs <;>
      simp [step_t.world, step_t.state, World.log, sends_code, responses_of, h]
  | none =>
    simp only [hsb] at h
    simp only []
    by_cases hm : ((K.WITH_TRANSPORT_SHMEM || K.IS_PPE) && w.buf.has_mem_buf) = true
    · refine ⟨[Action.mem_buf_send w.buf.ack w.buf.length], ?_⟩
      simp only [hm, ↓reduceIte]
      simp [step_t.world, step_t.state, World.log, sends_code, responses_of, h, hsb]
    · refine ⟨[], ?_⟩
      simp only [hm, ↓reduceIte]
      simp only [Bool.and_eq_true, not_and] at hm
      simp [step_t.world, step_t.state, sends_code, responses_of, hsb]
      intro h1
      simpa using hm (by simpa using h1)

theorem store_ack_frame (K : Consts) (w : World) (hdr : ack_hdr_t) (len : Nat) :
    send_step hdr.ni_fail w (RuntimeDevel.store_ack w hdr len) [] ∧
    pending_code hdr.ni_fail (RuntimeDevel.store_ack w hdr len) ∧
    (RuntimeDevel.store_ack w hdr len).buf.le = w.buf.le ∧
    (can_respond K w → can_respond K (RuntimeDevel.store_ack w hdr len)) := by
  unfold RuntimeDevel.store_ack send_step send_frame pending_code can_respond
  cases hsb : w.buf.send_buf <;> simp [responses_of, hsb]

theorem put_priority_le_step (K : Consts) (w : World) (nf : ptl_ni_fail_t)
    (h : pending_code nf w) :
    ∃ t, send_step nf w (RuntimeDevel.put_priority_le w) t ∧ responses_of t = [] ∧
      pending_code nf (RuntimeDevel.put_priority_le w) ∧
      (can_respond K w → can_respond K (RuntimeDevel.put_priority_le w)) := by
  unfold RuntimeDevel.put_priority_le
  cases hle : w.buf.le with
  | none =>
    exact ⟨[], ⟨by simp, by simp, by simp [responses_of], by simp [send_frame, hle]⟩,
      rfl, h, id⟩
  | some m =>
    simp only []
    by_cases hp : ((w.les m).ptl_list == PTL_PRIORITY_LIST) = true
    · simp only [hp, ↓reduceIte]
      refine ⟨[Action.le_put m], ⟨rfl, by simp [sends_code], by simp [responses_of],
        by simp [send_frame, World.log, hle]⟩, by simp [responses_of], ?_, ?_⟩
      · unfold pending_code at h ⊢
        exact h
      · exact id
    · simp only [hp, ↓reduceIte, Bool.false_eq_true]
      exact ⟨[], ⟨by simp, by simp, by simp [responses_of], by simp [send_frame, hle]⟩,
        rfl, h, id⟩

theorem send_step_trans (nf : ptl_ni_fail_t) (w1 w2 w3 : World) (t1 t2 : List Action)
    (h1 : send_step nf w1 w2 t1) (h2 : send_step nf w2 w3 t2) (hr : responses_of t1 = []) :
    send_step nf w1 w3 (t1 ++ t2) ∧ responses_of (t1 ++ t2) = responses_of t2 := by
  obtain ⟨a1, b1, c1, d1⟩ := h1
  obtain ⟨a2, b2, c2, d2⟩ := h2
  have hr2 : responses_of (t1 ++ t2) = responses_of t2 := by
    unfold responses_of at hr ⊢
    rw [List.filterMap_append, hr, List.nil_append]
  refine ⟨⟨by rw [a2, a1, List.append_assoc], ?_, by rw [hr2]; exact c2, ?_⟩, hr2⟩
  · intro a ha
    rcases List.mem_append.1 ha with ha | ha
    · exact b1 a ha
    · exact b2 a ha
  · unfold send_frame at d1 d2 ⊢
    obtain ⟨e1, e2, e3, e4, e5, e6, e7, e8, e9, e10⟩ := d1
    obtain ⟨f1, f2, f3, f4, f5, f6, f7, f8, f9, f10⟩ := d2
    exact ⟨f1.trans e1, f2.trans e2, f3.trans e3, f4.trans e4, f5.trans e5, f6.trans e6,
      f7.trans e7, f8.trans e8, f9.trans e9, fun h => f10 (e10 h)⟩

theorem ack_choice_code (ack_req : Nat) (hdr hdr1 : ack_hdr_t) (len len1 : Nat)
    (h : ack_choice ack_req hdr len = some (hdr1, len1)) : hdr1.ni_fail = hdr.ni_fail := by
  unfold ack_choice at h
  split_ifs at h <;> cases h <;> rfl

theorem ack_choice_valid (ack_req : Nat) (hdr : ack_hdr_t) (len : Nat)
    (h : ack_req = PTL_ACK_REQ ∨ ack_req = PTL_CT_ACK_REQ ∨ ack_req = PTL_OC_ACK_REQ) :
    (ack_choice ack_req hdr len).isSome = true := by
  unfold ack_choice
  rcases h with h | h | h <;> subst h <;> rfl

theorem tgt_send_ack_step (K : Consts) (C : Collab) (w : World) :
    ∃ t, send_step w.buf.ni_fail w (RuntimeDevel.tgt_send_ack K C w).world t ∧
      ((w.buf.data.ack_req = PTL_ACK_REQ ∨ w.buf.data.ack_req = PTL_CT_ACK_REQ ∨
          w.buf.data.ack_req = PTL_OC_ACK_REQ) → can_respond K w →
        ((RuntimeDevel.tgt_send_ack K C w).state = some STATE_TGT_CLEANUP ∨
          (RuntimeDevel.tgt_send_ack K C w).state = some STATE_TGT_ERROR) ∧
        (responses_of t).length = 1) := by
  rw [tgt_send_ack_eq]
  have hb : (ack_base K w).1.ni_fail = w.buf.ni_fail := rfl
  cases hq : ack_choice w.buf.data.ack_req (ack_base K w).1 (ack_base K w).2 with
  | none =>
    simp only []
    have h1 := (store_ack_frame K w (ack_base K w).1 (ack_base K w).2).1
    rw [hb] at h1
    refine ⟨[], h1, ?_⟩
    intro hv
    have := ack_choice_valid _ (ack_base K w).1 (ack_base K w).2 hv
    rw [hq] at this
    cases this
  | some p =>
    obtain ⟨hdr, len⟩ := p
    simp only []
    have hc : hdr.ni_fail = w.buf.ni_fail := (ack_choice_code _ _ _ _ _ hq).trans hb
    have hc1 : (if ack_disabled w then { hdr with operation := OP_NO_ACK } else hdr).ni_fail =
        w.buf.ni_fail := by
      split_ifs
      · exact hc
      · exact hc
    generalize (if ack_disabled w then { hdr with operation := OP_NO_ACK } else hdr) = hdr1
      at hc1 ⊢
    generalize (if ack_disabled w then sizeof_ack_hdr K - sizeof_le64 - sizeof_le64 else len) =
      len1
    obtain ⟨s1, s2, _, s4⟩ := store_ack_frame K w hdr1 len1
    rw [hc1] at s1 s2
    obtain ⟨t1, p1, p2, p3, p4⟩ := put_priority_le_step K _ _ s2
    obtain ⟨t2, r1, r2⟩ := send_response_step K C _ _ p3
    obtain ⟨q1, q2⟩ := send_step_trans _ _ _ _ _ _ s1 p1 rfl
    obtain ⟨u1, u2⟩ := send_step_trans _ _ _ _ _ _ q1 r1 (by rw [q2]; exact p2)
    refine ⟨([] ++ t1) ++ t2, u1, ?_⟩
    intro _ hcan
    rw [u2]
    exact r2 (p4 (s4 hcan))

theorem tgt_send_reply_step (K : Consts) (C : Collab) (w : World) :
    ∃ t, send_step w.buf.ni_fail w (RuntimeDevel.tgt_send_reply C w).world t ∧
      (w.buf.send_buf.isSome = true →
        ((RuntimeDevel.tgt_send_reply C w).state = some STATE_TGT_CLEANUP ∨
          (RuntimeDevel.tgt_send_reply C w).state = some STATE_TGT_ERROR) ∧
        (responses_of t).length = 1) := by
  rw [tgt_send_reply_eq K]
  cases hsb : w.buf.send_buf with
  | none =>
    refine ⟨[], ⟨by simp [step_t.world], by simp, by simp [responses_of],
      by simp [send_frame, step_t.world]⟩, ?_⟩
    intro h
    cases h
  | some sb =>
    simp only []
    have s1 : send_step w.buf.ni_fail w
        { w with buf.send_buf := some { sb with data :=
            { sb.data with ni_fail := w.buf.ni_fail, length := w.buf.mlength,
                           offset := w.buf.moffset, operation := OP_REPLY,
                           matching_list := w.buf.matching_list } } } [] :=
      ⟨by simp, by simp, by simp [responses_of], by simp [send_frame]⟩
    have s2 : pending_code w.buf.ni_fail
        { w with buf.send_buf := some { sb with data :=
            { sb.data with ni_fail := w.buf.ni_fail, length := w.buf.mlength,
                           offset := w.buf.moffset, operation := OP_REPLY,
                           matching_list := w.buf.matching_list } } } := rfl
    have s4 : can_respond K
        { w with buf.send_buf := some { sb with data :=
            { sb.data with ni_fail := w.buf.ni_fail, length := w.buf.mlength,
                           offset := w.buf.moffset, operation := OP_REPLY,
                           matching_list := w.buf.matching_list } } } := Or.inl rfl
    obtain ⟨t1, p1, p2, p3, p4⟩ := put_priority_le_step K _ _ s2
    obtain ⟨t2, r1, r2⟩ := send_response_step K C _ _ p3
    obtain ⟨q1, q2⟩ := send_step_trans _ _ _ _ _ _ s1 p1 rfl
    obtain ⟨u1, u2⟩ := send_step_trans _ _ _ _ _ _ q1 r1 (by rw [q2]; exact p2)
    refine ⟨([] ++ t1) ++ t2, u1, ?_⟩
    intro _
    rw [u2]
    exact r2 (p4 s4)

theorem goes_iff (r : step_t) (P : tgt_state → Bool) :
    r.goes P ↔ ∀ s1, r.state = some s1 → P s1 = true := by
  unfold step_t.goes
  cases r.state <;> simp

theorem rdma_setup_goes (K : Consts) (d : data_t) (buf buf1 : buf_t) (s1 : tgt_state)
    (h : RuntimeDevel.rdma_setup K d buf = some (buf1, s1)) :
    s1 = STATE_TGT_RDMA ∨ s1 = STATE_TGT_WAIT_RDMA_DESC ∨ s1 = STATE_TGT_SHMEM_DESC := by
  unfold RuntimeDevel.rdma_setup at h
  split at h <;> (try split_ifs at h) <;> cases h <;> simp

theorem next_data_in_goes (K : Consts) (op a : Nat) :
    RuntimeDevel.next_data_in K op a = STATE_TGT_ATOMIC_DATA_IN ∨
    RuntimeDevel.next_data_in K op a = STATE_TGT_DATA_IN ∨
    RuntimeDevel.next_data_in K op a = STATE_TGT_SWAP_DATA_IN := by
  unfold RuntimeDevel.next_data_in
  split_ifs <;> simp

theorem tgt_get_length_goes (K : Consts) (l : ni_limits_t) (c : Nat) (buf : buf_t) (me : me_t) :
    (RuntimeDevel.tgt_get_length K l c buf me).next = STATE_TGT_ERROR ∨
    (RuntimeDevel.tgt_get_length K l c buf me).next = STATE_TGT_DATA ∨
    (RuntimeDevel.tgt_get_length K l c buf me).next = STATE_TGT_WAIT_CONN := by
  unfold RuntimeDevel.tgt_get_length
  simp only []
  split_ifs <;> simp

theorem tgt_start_goes (K : Consts) (C : Collab) (w : World) :
    (RuntimeDevel.tgt_start K C w).goes (follows STATE_TGT_START) := by
  rw [goes_iff]
  intro s1 h
  cases hop : valid_operation w.buf.data.operation
  · rw [tgt_start_invalid K C w hop] at h
    cases h
    rfl
  · obtain ⟨sb, t, _, ho⟩ := tgt_start_outcome K C w hop
    rcases ho with ho | ho | ho
    · rw [ho] at h; cases h; rfl
    · rw [ho] at h; cases h; rfl
    · rw [ho] at h
      unfold tgt_start_check at h
      simp only [] at h
      split_ifs at h <;> cases h <;> rfl

theorem tgt_get_match_goes (K : Consts) (w : World) :
    (RuntimeDevel.tgt_get_match K w).goes (follows STATE_TGT_GET_MATCH) := by
  unfold RuntimeDevel.tgt_get_match step_t.goes
  simp only []
  repeat' split
  all_goals simp [step_t.state, follows]

theorem state_get_length_goes (K : Consts) (w : World) :
    (RuntimeDevel.state_get_length K w).goes (follows STATE_TGT_GET_LENGTH) := by
  unfold RuntimeDevel.state_get_length step_t.goes
  split
  · simp [step_t.state]
  · simp only [step_t.state, Option.all_some]
    rcases tgt_get_length_goes K w.ni.limits w.conn.state w.buf (w.les _) with h | h | h <;>
      rw [h] <;> rfl

theorem tgt_wait_conn_goes (K : Consts) (C : Collab) (w : World) :
    (RuntimeDevel.tgt_wait_conn K C w).goes (follows STATE_TGT_WAIT_CONN) := by
  unfold RuntimeDevel.tgt_wait_conn step_t.goes
  simp only []
  split_ifs <;> simp [step_t.state, follows]

theorem tgt_data_goes (K : Consts) (w : World) :
    (RuntimeDevel.tgt_data K w).goes (follows STATE_TGT_DATA) := by
  unfold RuntimeDevel.tgt_data step_t.goes
  simp only []
  split_ifs <;> simp [step_t.state, follows]

theorem request_drop_goes (w : World) :
    (RuntimeDevel.request_drop w).goes (follows STATE_TGT_DROP) := by
  unfold RuntimeDevel.request_drop step_t.goes
  simp only []
  split_ifs <;> simp [step_t.state, follows]

theorem tgt_wait_append_goes (w : World) :
    (RuntimeDevel.tgt_wait_append w).goes (follows STATE_TGT_WAIT_APPEND) := by
  unfold RuntimeDevel.tgt_wait_append step_t.goes
  split_ifs <;> simp [step_t.state, follows]

theorem tgt_overflow_event_goes (w : World) :
    (RuntimeDevel.tgt_overflow_event w).goes (follows STATE_TGT_OVERFLOW_EVENT) := by
  unfold RuntimeDevel.tgt_overflow_event step_t.goes
  simp only []
  repeat' split
  all_goals simp [step_t.state, follows]

theorem tgt_cleanup_goes (K : Consts) (w : World) :
    (RuntimeDevel.tgt_cleanup K w).goes (follows STATE_TGT_CLEANUP) := by
  unfold RuntimeDevel.tgt_cleanup step_t.goes
  simp only []
  split
  · simp [step_t.state]
  · rename_i st hst
    have hst1 : st = STATE_TGT_OVERFLOW_EVENT ∨ st = STATE_TGT_WAIT_APPEND ∨
        st = STATE_TGT_CLEANUP_2 := by
      split at hst <;> (try split_ifs at hst) <;> cases hst <;> simp
    repeat' split
    all_goals rcases hst1 with e | e | e <;> simp [step_t.state, follows, e]

theorem tgt_data_in_goes (K : Consts) (C : Collab) (w : World) :
    (RuntimeDevel.tgt_data_in K C w).goes (follows STATE_TGT_DATA_IN) := by
  unfold RuntimeDevel.tgt_data_in RuntimeDevel.data_in_leave step_t.goes
  simp only []
  split
  · split
    · split_ifs <;> simp [step_t.state, follows]
    · split
      · rename_i hr
        rcases rdma_setup_goes K _ _ _ _ hr with e | e | e <;>
          split_ifs <;> simp [step_t.state, follows, e]
      · simp [step_t.state]
  · simp [step_t.state]

theorem tgt_wait_rdma_desc_goes (K : Consts) (C : Collab) (w : World) :
    (RuntimeDevel.tgt_wait_rdma_desc K C w).goes (follows STATE_TGT_WAIT_RDMA_DESC) := by
  unfold RuntimeDevel.tgt_wait_rdma_desc step_t.goes
  simp only []
  repeat' split
  all_goals simp [step_t.state, follows]

theorem tgt_shmem_desc_goes (K : Consts) (C : Collab) (w : World) :
    (RuntimeDevel.tgt_shmem_desc K C w).goes (follows STATE_TGT_SHMEM_DESC) := by
  unfold RuntimeDevel.tgt_shmem_desc step_t.goes
  simp only []
  repeat' split
  all_goals simp [step_t.state, follows]

theorem tgt_rdma_goes (K : Consts) (C : Collab) (w : World) :
    (RuntimeDevel.tgt_rdma K C w).goes (follows STATE_TGT_RDMA) := by
  have hn := next_data_in_goes K w.buf.data.operation w.buf.data.atom_op
  unfold RuntimeDevel.tgt_rdma step_t.goes
  simp only []
  repeat' split
  all_goals first
    | (simp [step_t.state, follows]; done)
    | (simp only [World.log] at hn ⊢
       rcases hn with e | e | e <;> simp [step_t.state, follows, e])

theorem tgt_atomic_data_in_goes (K : Consts) (C : Collab) (w : World) :
    (RuntimeDevel.tgt_atomic_data_in K C w).goes (follows STATE_TGT_ATOMIC_DATA_IN) := by
  unfold RuntimeDevel.tgt_atomic_data_in step_t.goes
  repeat' split
  all_goals simp [step_t.state, follows]

theorem tgt_swap_data_in_goes (C : Collab) (w : World) :
    (RuntimeDevel.tgt_swap_data_in C w).goes (follows STATE_TGT_SWAP_DATA_IN) := by
  unfold RuntimeDevel.tgt_swap_data_in step_t.goes
  simp only []
  repeat' split
  all_goals simp [step_t.state, follows]

theorem tgt_data_out_goes (K : Consts) (C : Collab) (w : World) :
    (RuntimeDevel.tgt_data_out K C w).goes (follows STATE_TGT_DATA_OUT) := by
  have hn := next_data_in_goes K w.buf.operation w.buf.data.atom_op
  unfold RuntimeDevel.tgt_data_out step_t.goes
  simp only []
  split
  · simp [step_t.state, follows]
  · split_ifs
    · split
      · split_ifs
        · simp [step_t.state, follows]
        · simp only [World.log] at hn ⊢
          rcases hn with e | e | e <;> simp [step_t.state, follows, e]
        · simp [step_t.state, follows]
      · simp [step_t.state]
    · simp [step_t.state]
    · split
      · rename_i hr
        rcases rdma_setup_goes K _ _ _ _ hr with e | e | e <;>
          simp [step_t.state, follows, e]
      · simp [step_t.state]

theorem tgt_comm_event_goes (w : World) :
    (RuntimeDevel.tgt_comm_event w).goes (follows STATE_TGT_COMM_EVENT) := by
  rw [goes_iff]
  intro s1 h
  obtain ⟨_, _, _, _, _, hs⟩ := tgt_comm_event_shape w
  have h3 := (hs (by rw [h]; rfl)).2.2
  rw [h] at h3
  cases h3
  split_ifs <;> rfl

theorem send_response_goes (K : Consts) (C : Collab) (w : World) :
    (send_response K C w).goes (follows STATE_TGT_SEND_ACK) := by
  unfold send_response step_t.goes
  simp only []
  repeat' split
  all_goals simp [step_t.state, follows]

theorem tgt_send_ack_goes (K : Consts) (C : Collab) (w : World) :
    (RuntimeDevel.tgt_send_ack K C w).goes (follows STATE_TGT_SEND_ACK) := by
  rw [tgt_send_ack_eq]
  split
  · simp [step_t.goes, step_t.state, follows]
  · exact send_response_goes K C _

theorem tgt_send_reply_goes (K : Consts) (C : Collab) (w : World) :
    (RuntimeDevel.tgt_send_reply C w).goes (follows STATE_TGT_SEND_REPLY) := by
  rw [tgt_send_reply_eq K]
  split
  · simp [step_t.goes, step_t.state]
  · exact send_response_goes K C _

theorem handler_goes (K : Consts) (C : Collab) (s : tgt_state) (w : World)
    (h1 : s ≠ STATE_TGT_ERROR) (h2 : s ≠ STATE_TGT_CLEANUP_2) (h3 : s ≠ STATE_TGT_DONE) :
    (RuntimeDevel.tgt_handler K C s w).goes (follows s) := by
  cases s
  case STATE_TGT_ERROR => exact absurd rfl h1
  case STATE_TGT_CLEANUP_2 => exact absurd rfl h2
  case STATE_TGT_DONE => exact absurd rfl h3
  case STATE_TGT_START => exact tgt_start_goes K C w
  case STATE_TGT_GET_MATCH => exact tgt_get_match_goes K w
  case STATE_TGT_GET_LENGTH => exact state_get_length_goes K w
  case STATE_TGT_WAIT_CONN => exact tgt_wait_conn_goes K C w
  case STATE_TGT_DATA => exact tgt_data_goes K w
  case STATE_TGT_DATA_IN => exact tgt_data_in_goes K C w
  case STATE_TGT_WAIT_RDMA_DESC => exact tgt_wait_rdma_desc_goes K C w
  case STATE_TGT_SHMEM_DESC => exact tgt_shmem_desc_goes K C w
  case STATE_TGT_RDMA => exact tgt_rdma_goes K C w
  case STATE_TGT_ATOMIC_DATA_IN => exact tgt_atomic_data_in_goes K C w
  case STATE_TGT_SWAP_DATA_IN => exact tgt_swap_data_in_goes C w
  case STATE_TGT_DATA_OUT => exact tgt_data_out_goes K C w
  case STATE_TGT_COMM_EVENT => exact tgt_comm_event_goes w
  case STATE_TGT_SEND_ACK => exact tgt_send_ack_goes K C w
  case STATE_TGT_SEND_REPLY => exact tgt_send_reply_goes K C w
  case STATE_TGT_DROP => exact request_drop_goes w
  case STATE_TGT_WAIT_APPEND => exact tgt_wait_append_goes w
  case STATE_TGT_OVERFLOW_EVENT => exact tgt_overflow_event_goes w
  case STATE_TGT_CLEANUP => exact tgt_cleanup_goes K w

theorem follows_phase (s s1 : tgt_state) (h : follows s s1 = true) :
    phase s ≤ phase s1 ∧ (phase s = 1 → 2 ≤ phase s1) ∧ (phase s = 2 → phase s1 = 3) ∧
    (phase s = 0 → phase s1 ≠ 2) ∧ (s ≠ STATE_TGT_CLEANUP_2 → s1 ≠ STATE_TGT_DONE) := by
  cases s <;> cases s1 <;> first
    | exact absurd h (by decide)
    | decide

theorem phase_le (s : tgt_state) : phase s ≤ 3 := by
  cases s <;> decide

theorem tags_sub_nil (p : Nat) : tags_sub p [] := by
  unfold tags_sub
  split_ifs <;> simp

theorem tags_final (p : Nat) (L l : List Nat) (h1 : tags_sub p L) (h2 : step_tags p l)
    (hp : p ≤ 3) : (L ++ l).Sublist [0, 1, 2] := by
  unfold tags_sub at h1
  unfold step_tags at h2
  have e01 : [0, 1].Sublist [0, 1, 2] := by decide
  interval_cases p
  · simp at h1 h2; subst h1; subst h2; simp
  · simp at h1 h2; subst h1; simpa using h2.trans e01
  · simp only [show ¬ (2 ≤ 1) by omega, ↓reduceIte] at h1 h2
    simp only [show ¬ (2 = 1) by omega, ↓reduceIte] at h2
    exact List.Sublist.append h1 h2
  · simp only [show ¬ (3 ≤ 1) by omega, show ¬ (3 = 2) by omega, show ¬ (3 = 1) by omega,
      ↓reduceIte] at h1 h2
    subst h2
    simpa using h1

theorem tags_combine (p p1 : Nat) (L l : List Nat) (h1 : tags_sub p L) (h2 : step_tags p l)
    (hp : p ≤ 3) (hle : p ≤ p1) (h12 : p = 1 → 2 ≤ p1) (h23 : p = 2 → p1 = 3)
    (h02 : p = 0 → p1 ≠ 2) : tags_sub p1 (L ++ l) := by
  have hf := tags_final p L l h1 h2 hp
  unfold tags_sub at h1 ⊢
  unfold step_tags at h2
  interval_cases p
  · simp at h1 h2; subst h1; subst h2
    split_ifs <;> simp
  · simp at h1 h2; subst h1
    have := h12 rfl
    simp only [show ¬ (p1 ≤ 1) by omega, ↓reduceIte, List.nil_append]
    split_ifs
    · exact h2
    · simpa using hf
  · have := h23 rfl
    subst this
    simp only [show ¬ (3 ≤ 1) by omega, show ¬ (3 = 2) by omega, ↓reduceIte]
    exact hf
  · simp only [show ¬ (p1 ≤ 1) by omega, show ¬ (p1 = 2) by omega, ↓reduceIte]
    exact hf

theorem comm_tags_append_info (T t : List Action) (s : tgt_state) :
    ∀ cur, comm_tags cur (T ++ Action.ptl_info s :: t) =
      comm_tags cur T ++ comm_tags (some s) t := by
  induction T with
  | nil =>
    intro cur
    simp [comm_tags, tag_of, next_state]
  | cons a T ih =>
    intro cur
    rw [List.cons_append, comm_tags, comm_tags, ih, List.append_assoc]

theorem comm_tags_quiet (cur : Option tgt_state) (t : List Action)
    (h : ∀ a ∈ t, tag_of cur a = none ∧ next_state cur a = cur) : comm_tags cur t = [] := by
  induction t with
  | nil => rfl
  | cons a t ih =>
    obtain ⟨h1, h2⟩ := h a (List.mem_cons_self _ _)
    simp only [comm_tags, h1, h2, Option.toList, List.nil_append]
    exact ih (fun b hb => h b (List.mem_cons_of_mem _ hb))

theorem logs_quiet (s : tgt_state) (a : Action) (h1 : phase s ≠ 1) (h : logs s a = true) :
    tag_of (some s) a = none ∧ next_state (some s) a = some s := by
  cases s <;> cases a <;> first
    | exact absurd rfl h1
    | (simp [logs] at h; done)
    | (simp [tag_of, next_state]; done)
    | (simp [logs] at h
       rcases h with ((h | h) | h) | h <;> subst h <;> simp [tag_of, next_state])
    | (simp [logs] at h
       subst h
       simp [tag_of, next_state])

theorem handler_ext (K : Consts) (C : Collab) (s : tgt_state) (w : World)
    (h2 : phase s ≠ 2) :
    trace_ext (logs s) w (RuntimeDevel.tgt_handler K C s w).world := by
  cases s
  case STATE_TGT_SEND_ACK => exact absurd rfl h2
  case STATE_TGT_SEND_REPLY => exact absurd rfl h2
  case STATE_TGT_ERROR => simp [RuntimeDevel.tgt_handler, trace_ext, step_t.world]
  case STATE_TGT_CLEANUP_2 => simp [RuntimeDevel.tgt_handler, trace_ext, step_t.world]
  case STATE_TGT_DONE => simp [RuntimeDevel.tgt_handler, trace_ext, step_t.world]
  case STATE_TGT_START => exact tgt_start_ext K C w
  case STATE_TGT_GET_MATCH => exact tgt_get_match_ext K w
  case STATE_TGT_GET_LENGTH => exact state_get_length_ext K w
  case STATE_TGT_WAIT_CONN => exact tgt_wait_conn_ext K C w
  case STATE_TGT_DATA => exact tgt_data_ext K w
  case STATE_TGT_DATA_IN => exact tgt_data_in_ext K C w
  case STATE_TGT_WAIT_RDMA_DESC => exact tgt_wait_rdma_desc_ext K C w
  case STATE_TGT_SHMEM_DESC => exact tgt_shmem_desc_ext K C w
  case STATE_TGT_RDMA => exact tgt_rdma_ext K C w
  case STATE_TGT_ATOMIC_DATA_IN => exact tgt_atomic_data_in_ext K C w
  case STATE_TGT_SWAP_DATA_IN => exact tgt_swap_data_in_ext C w
  case STATE_TGT_DATA_OUT => exact tgt_data_out_ext K C w
  case STATE_TGT_COMM_EVENT => exact tgt_comm_event_ext w
  case STATE_TGT_DROP => exact request_drop_ext w
  case STATE_TGT_WAIT_APPEND => exact tgt_wait_append_ext w
  case STATE_TGT_OVERFLOW_EVENT => exact tgt_overflow_event_ext w
  case STATE_TGT_CLEANUP => exact tgt_cleanup_ext K w

theorem comm_tags_sends (nf : ptl_ni_fail_t) (cur : Option tgt_state) (t : List Action)
    (h : ∀ a ∈ t, sends_code nf a = true) :
    comm_tags cur t = List.replicate (responses_of t).length 2 := by
  induction t with
  | nil => rfl
  | cons a t ih =>
    have ha := h a (List.mem_cons_self _ _)
    have iht := ih (fun b hb => h b (List.mem_cons_of_mem _ hb))
    cases a <;> first
      | (simp [sends_code] at ha; done)
      | (simp only [comm_tags, tag_of, next_state, responses_of, List.filterMap_cons,
           Option.toList, List.nil_append]
         exact iht)
      | (simp only [comm_tags, tag_of, next_state, responses_of, List.filterMap_cons,
           Option.toList, List.length_cons, List.replicate_succ, List.singleton_append,
           List.cons.injEq, true_and]
         exact iht)

theorem comm_event_tags (e c : List Action) (he : comm_event_calls e) (hc : ct_event_calls c) :
    (comm_tags (some STATE_TGT_COMM_EVENT) (e ++ c)).Sublist [0, 1] := by
  rcases he with he | ⟨_, _, _, _, _, _, _, he, hk⟩ <;>
    rcases hc with hc | ⟨_, _, _, _, hc⟩ <;> subst he <;> subst hc
  · simp [comm_tags]
  · simp [comm_tags, tag_of, next_state]
  · rcases hk with hk | hk | hk <;> subst hk <;> simp [comm_tags, tag_of, next_state]
  · rcases hk with hk | hk | hk <;> subst hk <;> simp [comm_tags, tag_of, next_state]

theorem handler_tags (K : Consts) (C : Collab) (s : tgt_state) (w : World) :
    ∃ t, (RuntimeDevel.tgt_handler K C s w).world.trace = w.trace ++ t ∧
      step_tags (phase s) (comm_tags (some s) t) := by
  by_cases h1 : phase s = 1
  · have hs : s = STATE_TGT_COMM_EVENT := by
      cases s <;> first | rfl | exact absurd h1 (by decide)
    subst hs
    obtain ⟨e, c, ht, he, hc, _⟩ := tgt_comm_event_shape w
    refine ⟨e ++ c, ht, ?_⟩
    simp only [step_tags, h1, ↓reduceIte]
    exact comm_event_tags e c he hc
  by_cases h2 : phase s = 2
  · have hs : s = STATE_TGT_SEND_ACK ∨ s = STATE_TGT_SEND_REPLY := by
      cases s <;> first | exact Or.inl rfl | exact Or.inr rfl | exact absurd h2 (by decide)
    have hl : ∀ n : Nat, n ≤ 1 → (List.replicate n 2).Sublist [2] := by
      intro n hn
      interval_cases n <;> simp
    rcases hs with hs | hs <;> subst hs
    · obtain ⟨t, ⟨ht, ha, hr, _⟩, _⟩ := tgt_send_ack_step K C w
      refine ⟨t, ht, ?_⟩
      simp only [step_tags, phase, show ¬ (2 = 1) by omega, ↓reduceIte]
      rw [comm_tags_sends _ _ _ ha]
      exact hl _ hr
    · obtain ⟨t, ⟨ht, ha, hr, _⟩, _⟩ := tgt_send_reply_step K C w
      refine ⟨t, ht, ?_⟩
      simp only [step_tags, phase, show ¬ (2 = 1) by omega, ↓reduceIte]
      rw [comm_tags_sends _ _ _ ha]
      exact hl _ hr
  · obtain ⟨t, ht, ha⟩ := (trace_ext_iff _ _ _).1 (handler_ext K C s w h2)
    refine ⟨t, ht, ?_⟩
    simp only [step_tags, h1, h2, ↓reduceIte]
    exact comm_tags_quiet _ _ (fun a h => logs_quiet s a h1 (ha a h))

theorem tgt_cleanup_2_ext (w : World) :
    ∃ t, (RuntimeDevel.tgt_cleanup_2 w).trace = w.trace ++ t ∧
      (∀ a ∈ t, (∃ h, a = Action.le_put h) ∨ a = Action.conn_put) ∧
      (RuntimeDevel.tgt_cleanup_2 w).mem = w.mem ∧ (RuntimeDevel.tgt_cleanup_2 w).les = w.les ∧
      (RuntimeDevel.tgt_cleanup_2 w).ni = w.ni ∧ (RuntimeDevel.tgt_cleanup_2 w).buf.le = none := by
  unfold RuntimeDevel.tgt_cleanup_2
  cases hle : w.buf.le with
  | none =>
    simp only []
    cases hc : w.buf.conn
    · exact ⟨[], by simp, by simp, rfl, rfl, rfl, hle⟩
    · exact ⟨[Action.conn_put], by simp [World.log], by simp, rfl, rfl, rfl, by simp [World.log, hle]⟩
  | some h =>
    simp only []
    cases hc : w.buf.conn
    · exact ⟨[Action.le_put h], by simp [World.log, hc], by simp, by simp [World.log, hc],
        by simp [World.log, hc], by simp [World.log, hc], by simp [World.log, hc]⟩
    · exact ⟨[Action.le_put h, Action.conn_put], by simp [World.log, hc], by simp,
        by simp [World.log, hc], by simp [World.log, hc], by simp [World.log, hc],
        by simp [World.log, hc]⟩

theorem step_tags_nil (p : Nat) : step_tags p [] := by
  unfold step_tags
  split_ifs <;> simp

theorem order_inv_step (w0 w W : World) (s s1 : tgt_state) (t : List Action)
    (hI : order_inv w0 s w) (hW : W.trace = w.trace ++ Action.ptl_info s :: t)
    (ht : step_tags (phase s) (comm_tags (some s) t))
    (hf : phase s ≤ phase s1 ∧ (phase s = 1 → 2 ≤ phase s1) ∧ (phase s = 2 → phase s1 = 3) ∧
      (phase s = 0 → phase s1 ≠ 2))
    (hd : s1 = STATE_TGT_DONE → W.buf.tgt_state = STATE_TGT_DONE) :
    order_inv w0 s1 W := by
  obtain ⟨⟨T, hT, hL⟩, _⟩ := hI
  refine ⟨⟨T ++ Action.ptl_info s :: t, by rw [hW, hT, List.append_assoc], ?_⟩, hd⟩
  rw [comm_tags_append_info]
  exact tags_combine _ _ _ _ hL ht (phase_le s) hf.1 hf.2.1 hf.2.2.1 hf.2.2.2

theorem ordered_step (w0 w W : World) (s : tgt_state) (t : List Action)
    (hI : order_inv w0 s w) (hW : W.trace = w.trace ++ Action.ptl_info s :: t)
    (ht : step_tags (phase s) (comm_tags (some s) t)) : ordered w0 W := by
  obtain ⟨⟨T, hT, hL⟩, _⟩ := hI
  refine ⟨T ++ Action.ptl_info s :: t, by rw [hW, hT, List.append_assoc], ?_⟩
  rw [comm_tags_append_info]
  exact tags_final _ _ _ hL ht (phase_le s)

theorem order_inv_ordered (w0 w : World) (s : tgt_state) (hI : order_inv w0 s w) :
    ordered w0 w := by
  obtain ⟨⟨T, hT, hL⟩, _⟩ := hI
  refine ⟨T, hT, ?_⟩
  simpa using tags_final _ _ [] hL (step_tags_nil _) (phase_le s)

theorem order_inv_loop (K : Consts) (C : Collab) (w0 : World) (n : Nat) (s : tgt_state)
    (err : Bool) (w : World) (hI : order_inv w0 s w) :
    (RuntimeDevel.process_tgt_loop K C n s err w).holds
      (fun W => order_inv w0 W.buf.tgt_state W) (ordered w0) := by
  refine loop_invariant K C (order_inv w0) _ _ ?_ ?_ ?_ ?_ ?_ ?_ n s err w hI
  · intro s w h
    exact order_inv_ordered w0 w s h
  · intro w h
    have hq : ∀ a ∈ [Action.atomic_mutex_unlock],
        tag_of (some STATE_TGT_ERROR) a = none ∧
        next_state (some STATE_TGT_ERROR) a = some STATE_TGT_ERROR := by
      intro a ha
      rw [List.mem_singleton] at ha
      subst ha
      exact ⟨rfl, rfl⟩
    split_ifs
    · refine order_inv_step w0 w _ STATE_TGT_ERROR STATE_TGT_CLEANUP
        [Action.atomic_mutex_unlock] h ?_ ?_ (by decide) (by intro hh; cases hh)
      · simp [RuntimeDevel.atomic_unlock, World.log]
      · rw [comm_tags_quiet _ _ hq]
        exact step_tags_nil _
    · exact order_inv_step w0 w _ STATE_TGT_ERROR STATE_TGT_CLEANUP [] h
        (by simp [World.log]) (step_tags_nil _) (by decide) (by intro hh; cases hh)
  · intro w h
    obtain ⟨t, ht, ha, _⟩ := tgt_cleanup_2_ext (w.log (Action.ptl_info STATE_TGT_CLEANUP_2))
    have hq : ∀ a ∈ t ++ [Action.buf_put],
        tag_of (some STATE_TGT_CLEANUP_2) a = none ∧
        next_state (some STATE_TGT_CLEANUP_2) a = some STATE_TGT_CLEANUP_2 := by
      intro a hm
      rcases List.mem_append.1 hm with hm | hm
      · rcases ha a hm with ⟨_, e⟩ | e <;> subst e <;> exact ⟨rfl, rfl⟩
      · rw [List.mem_singleton] at hm
        subst hm
        exact ⟨rfl, rfl⟩
    refine order_inv_step w0 w _ STATE_TGT_CLEANUP_2 STATE_TGT_DONE (t ++ [Action.buf_put]) h
      ?_ ?_ (by decide) (fun _ => rfl)
    · simp only [World.log] at ht ⊢
      rw [ht]
      simp
    · rw [comm_tags_quiet _ _ hq]
      exact step_tags_nil _
  · intro w h
    have hd : (w.log (Action.ptl_info STATE_TGT_DONE)).buf.tgt_state = STATE_TGT_DONE :=
      h.2 rfl
    have hs := order_inv_step w0 w (w.log (Action.ptl_info STATE_TGT_DONE)) STATE_TGT_DONE
      STATE_TGT_DONE [] h (by simp [World.log]) (step_tags_nil _) (by decide) (fun _ => hd)
    show order_inv w0 (w.log (Action.ptl_info STATE_TGT_DONE)).buf.tgt_state _
    rw [hd]
    exact hs
  · intro s w w1 h hh
    obtain ⟨t, ht, hs⟩ := handler_tags K C s (w.log (Action.ptl_info s))
    rw [hh] at ht
    exact ordered_step w0 w w1 s t h (by simpa [step_t.world, World.log] using ht) hs
  · intro s w w1 s1 h h1 h2 h3 hh
    obtain ⟨t, ht, hs⟩ := handler_tags K C s (w.log (Action.ptl_info s))
    rw [hh] at ht
    have hg := (goes_iff _ _).1 (handler_goes K C s (w.log (Action.ptl_info s)) h1 h2 h3) s1
      (by rw [hh]; rfl)
    obtain ⟨f1, f2, f3, f4, f5⟩ := follows_phase s s1 hg
    have hW : w1.trace = w.trace ++ Action.ptl_info s :: t := by
      simpa [step_t.world, World.log] using ht
    refine ⟨order_inv_step w0 w w1 s s1 t h hW hs ⟨f1, f2, f3, f4⟩
      (fun e => absurd e (f5 h2)), ?_⟩
    intro _
    exact order_inv_step w0 w _ s s1 t h hW hs ⟨f1, f2, f3, f4⟩ (fun e => e)

theorem order_inv_reach (K : Consts) (C : Collab) (w0 w : World)
    (h : reach K C same_request w0 w) : order_inv w0 w.buf.tgt_state w := by
  induction h with
  | start => exact ⟨⟨[], by simp, tags_sub_nil _⟩, fun h => h⟩
  | call w W fuel err _ hc ih =>
    have := order_inv_loop K C w0 fuel w.buf.tgt_state false w ih
    unfold RuntimeDevel.process_tgt at hc
    rw [hc] at this
    exact this
  | env w W _ he ih =>
    obtain ⟨e1, e2⟩ := he
    obtain ⟨⟨T, hT, hL⟩, hd⟩ := ih
    rw [e2]
    exact ⟨⟨T, by rw [e1, hT], hL⟩, fun h => by rw [e2]; exact hd h⟩

/-- C19: for every run of `process_tgt` on one buffer, re-entries included:
among the calls made since the buffer was first seen, a full communication event
(PUT, GET or ATOMIC), a counting event made in `STATE_TGT_COMM_EVENT` and a response
handed to the transport each occur at most once and in this order. When
`tgt_comm_event` returns, the COMM and CT_COMM bits are clear and the next state is
`STATE_TGT_SEND_REPLY` if the REPLY bit is set, else `STATE_TGT_SEND_ACK` if the ACK
bit is set, else `STATE_TGT_CLEANUP`. -/
theorem target_event_order (K : Consts) (C : Collab) (w0 : World) :
    (∀ w, reach K C same_request w0 w → ∀ fuel,
      ∃ T, (RuntimeDevel.process_tgt K C fuel w).world.trace = w0.trace ++ T ∧
        (comm_tags none T).Sublist [0, 1, 2]) ∧
    (∀ w W s1, RuntimeDevel.tgt_comm_event w = step_t.next W s1 →
      W.buf.event_mask.XT_COMM_EVENT = false ∧ W.buf.event_mask.XT_CT_COMM_EVENT = false ∧
      s1 = (if w.buf.event_mask.XT_REPLY_EVENT then STATE_TGT_SEND_REPLY
            else if w.buf.event_mask.XT_ACK_EVENT then STATE_TGT_SEND_ACK
            else STATE_TGT_CLEANUP)) := by
  constructor
  · intro w hr fuel
    have hI := order_inv_reach K C w0 w hr
    have := order_inv_loop K C w0 fuel w.buf.tgt_state false w hI
    unfold RuntimeDevel.process_tgt
    cases hres : RuntimeDevel.process_tgt_loop K C fuel w.buf.tgt_state false w with
    | returned W e =>
      rw [hres] at this
      exact order_inv_ordered w0 W _ this
    | aborted W =>
      rw [hres] at this
      exact this
    | out_of_fuel W s =>
      rw [hres] at this
      exact this
  · intro w W s1 h
    obtain ⟨_, _, _, _, _, hs⟩ := tgt_comm_event_shape w
    rw [h] at hs
    obtain ⟨a, b, c⟩ := hs rfl
    exact ⟨b, a, by simpa [step_t.state] using c⟩

/-- C19 (witness): the sample PUT on an element that counts communication events.
One call posts the full event, then the counting event, then sends the ack; a second
call on the finished buffer adds nothing. -/
theorem target_event_order_witness :
    (∃ T, (RuntimeDevel.process_tgt sample_consts sample_collab 9
        (RuntimeDevel.process_tgt sample_consts sample_collab 9 counting_world).world).world.trace
          = counting_world.trace ++ T ∧
        (comm_tags none T).Sublist [0, 1, 2]) ∧
    comm_tags none
      (RuntimeDevel.process_tgt sample_consts sample_collab 9 counting_world).world.trace
      = [0, 1, 2] ∧
    comm_tags none (RuntimeDevel.process_tgt sample_consts sample_collab 9
      (RuntimeDevel.process_tgt sample_consts sample_collab 9 counting_world).world).world.trace
      = [0, 1, 2] :=
  ⟨(target_event_order sample_consts sample_collab counting_world).1 _
      (reach.call counting_world _ 9 false reach.start rfl) 9,
    by decide, by decide⟩

theorem tgt_cleanup_pt (K : Consts) (w : World) (pi : Nat) (hpt : w.buf.pt = some pi) :
    ((RuntimeDevel.tgt_cleanup K w).state = none → (RuntimeDevel.tgt_cleanup K w).world = w) ∧
    ((RuntimeDevel.tgt_cleanup K w).state.isSome = true →
      ((RuntimeDevel.tgt_cleanup K w).world.pt pi).num_tgt_active =
        (w.pt pi).num_tgt_active - 1 ∧
      ((RuntimeDevel.tgt_cleanup K w).world.pt pi).in_use = (w.pt pi).in_use ∧
      (RuntimeDevel.tgt_cleanup K w).world.ni.limits = w.ni.limits ∧
      (((w.pt pi).state &&& K.PT_AUTO_DISABLED ≠ 0 ∧ (w.pt pi).num_tgt_active - 1 = 0) →
        ((RuntimeDevel.tgt_cleanup K w).world.pt pi).state = K.PT_DISABLED ∧
        pt_disabled_count (RuntimeDevel.tgt_cleanup K w).world.trace =
          pt_disabled_count w.trace + 1) ∧
      (¬ ((w.pt pi).state &&& K.PT_AUTO_DISABLED ≠ 0 ∧ (w.pt pi).num_tgt_active - 1 = 0) →
        ((RuntimeDevel.tgt_cleanup K w).world.pt pi).state = (w.pt pi).state ∧
        pt_disabled_count (RuntimeDevel.tgt_cleanup K w).world.trace =
          pt_disabled_count w.trace)) := by
  unfold RuntimeDevel.tgt_cleanup
  simp only []
  split
  · simp [step_t.state, step_t.world]
  · split_ifs <;>
      simp [step_t.state, step_t.world, World.log, World.set_pt, World.pt, hpt,
        pt_disabled_count, is_pt_disabled] <;>
      split_ifs <;>
      simp_all [step_t.state, step_t.world, World.log, World.set_pt, World.pt,
        pt_disabled_count, is_pt_disabled]

theorem tgt_start_disabled (K : Consts) (C : Collab) (W : World) (b : buf_t) (pi : Nat)
    (hidx : pi < W.ni.limits.max_pt_index) (huse : (W.pt pi).in_use = true)
    (hst : (W.pt pi).state ≠ K.PT_ENABLED) (hb : b.data.pt_index = pi) :
    ((RuntimeDevel.tgt_start K C { W with buf := b }).state = some STATE_TGT_ERROR ∨
      ((RuntimeDevel.tgt_start K C { W with buf := b }).state = some STATE_TGT_DROP ∧
        (RuntimeDevel.tgt_start K C { W with buf := b }).world.buf.ni_fail =
          PTL_NI_PT_DISABLED ∧
        (RuntimeDevel.tgt_start K C { W with buf := b }).world.buf.pt = some pi)) ∧
    (RuntimeDevel.tgt_start K C { W with buf := b }).world.ni = W.ni ∧
    pt_disabled_count (RuntimeDevel.tgt_start K C { W with buf := b }).world.trace =
      pt_disabled_count W.trace := by
  cases hop : valid_operation ({ W with buf := b } : World).buf.data.operation
  · rw [tgt_start_invalid K C _ hop]
    exact ⟨Or.inl rfl, rfl, rfl⟩
  · obtain ⟨sb, t, ht, ho⟩ := tgt_start_outcome K C { W with buf := b } hop
    have hc : pt_disabled_count (W.trace ++ t) = pt_disabled_count W.trace := by
      rcases ht with ht | ht <;> subst ht <;> simp [pt_disabled_count, is_pt_disabled]
    rcases ho with ho | ho | ho
    · rw [ho]
      exact ⟨Or.inl rfl, rfl, rfl⟩
    · rw [ho]
      exact ⟨Or.inl rfl, rfl, hc⟩
    · rw [ho]
      unfold tgt_start_check
      have h1 : ¬ (pi ≥ W.ni.limits.max_pt_index) := by omega
      have h2 : (W.ni.pt pi).in_use = true := huse
      have h3 : ((W.ni.pt pi).state != K.PT_ENABLED) = true := by
        simpa [World.pt] using hst
      simp only [hb, tgt_start_seeded, World.pt, h1, h2, h3, ↓reduceIte, Bool.not_true,
        Bool.false_eq_true, step_t.state, step_t.world]
      refine ⟨Or.inr ?_, ?_, hc⟩ <;> simp

theorem pt_step_arrive (K : Consts) (C : Collab) (W : World) (b : buf_t)
    (h : (RuntimeDevel.tgt_start K C { W with buf := b }).state ≠ some STATE_TGT_GET_MATCH) :
    pt_step K C W (pt_op.arrive b) = (RuntimeDevel.tgt_start K C { W with buf := b }).world := by
  cases hr : RuntimeDevel.tgt_start K C { W with buf := b } with
  | abort w1 => simp only [pt_step, hr]
  | next w1 s =>
    rw [hr] at h
    cases s <;> first
      | (simp only [pt_step, hr]; done)
      | exact absurd rfl h

theorem flowctrl_inv_step (K : Consts) (C : Collab) (pi n0 : Nat) (W : World) (op : pt_op)
    (hEA : K.PT_ENABLED &&& K.PT_AUTO_DISABLED = 0)
    (hDA : K.PT_DISABLED &&& K.PT_AUTO_DISABLED = 0)
    (hDE : K.PT_DISABLED ≠ K.PT_ENABLED)
    (hinv : flowctrl_inv K pi n0 W) (hop : op.on pi) :
    flowctrl_inv K pi n0 (pt_step K C W op) := by
  obtain ⟨hidx, huse, hph⟩ := hinv
  have hst : (W.pt pi).state ≠ K.PT_ENABLED := by
    rcases hph with ⟨h, _⟩ | ⟨h, _⟩
    · intro e
      rw [e] at h
      exact h hEA
    · rw [h]
      exact hDE
  cases op with
  | arrive b =>
    obtain ⟨h1, h2, h3⟩ := tgt_start_disabled K C W b pi hidx huse hst hop
    have hne : (RuntimeDevel.tgt_start K C { W with buf := b }).state ≠
        some STATE_TGT_GET_MATCH := by
      rcases h1 with h1 | ⟨h1, _⟩ <;> rw [h1] <;> decide
    rw [pt_step_arrive K C W b hne]
    unfold flowctrl_inv World.pt
    rw [h2, h3]
    exact ⟨hidx, huse, hph⟩
  | complete b =>
    have hc := tgt_cleanup_pt K { W with buf := b } pi hop
    show flowctrl_inv K pi n0 (RuntimeDevel.tgt_cleanup K { W with buf := b }).world
    cases hs : (RuntimeDevel.tgt_cleanup K { W with buf := b }).state with
    | none =>
      rw [hc.1 hs]
      exact ⟨hidx, huse, hph⟩
    | some s1 =>
      obtain ⟨_, c2, c3, c4, c5⟩ := hc.2 (by rw [hs]; rfl)
      refine ⟨by rw [c3]; exact hidx, by rw [c2]; exact huse, ?_⟩
      by_cases hcond : (W.pt pi).state &&& K.PT_AUTO_DISABLED ≠ 0 ∧
          (W.pt pi).num_tgt_active - 1 = 0
      · obtain ⟨d1, d2⟩ := c4 hcond
        rcases hph with ⟨_, p2⟩ | ⟨p1, _⟩
        · exact Or.inr ⟨d1, by rw [d2]; exact congrArg (· + 1) p2⟩
        · exact absurd (by rw [p1]; exact hDA) hcond.1
      · obtain ⟨d1, d2⟩ := c5 hcond
        rcases hph with ⟨p1, p2⟩ | ⟨p1, p2⟩
        · exact Or.inl ⟨by rw [d1]; exact p1, by rw [d2]; exact p2⟩
        · exact Or.inr ⟨by rw [d1]; exact p1, by rw [d2]; exact p2⟩

theorem flowctrl_inv_run (K : Consts) (C : Collab) (pi n0 : Nat)
    (hEA : K.PT_ENABLED &&& K.PT_AUTO_DISABLED = 0)
    (hDA : K.PT_DISABLED &&& K.PT_AUTO_DISABLED = 0)
    (hDE : K.PT_DISABLED ≠ K.PT_ENABLED) (ops : List pt_op) :
    ∀ W, flowctrl_inv K pi n0 W → (∀ op ∈ ops, op.on pi) →
      flowctrl_inv K pi n0 (ops.foldl (pt_step K C) W) := by
  induction ops with
  | nil => intro W h _; exact h
  | cons op ops ih =>
    intro W h hops
    rw [List.foldl_cons]
    exact ih _ (flowctrl_inv_step K C pi n0 W op hEA hDA hDE h
        (hops op (List.mem_cons_self _ _)))
      (fun o ho => hops o (List.mem_cons_of_mem _ ho))

theorem lor_land_self (a b : Nat) : (a ||| b) &&& b = b := by
  apply Nat.eq_of_testBit_eq
  intro i
  simp only [Nat.testBit_land, Nat.testBit_lor]
  cases a.testBit i <;> cases b.testBit i <;> rfl

theorem tgt_get_match_auto_disable (K : Consts) (w : World) (pi : Nat)
    (hpt : w.buf.pt = some pi) (hfc : (w.pt pi).options.PTL_PT_FLOWCTRL = true)
    (hnm : RuntimeDevel.find_match K w (w.pt pi) = none) :
    (RuntimeDevel.tgt_get_match K w).world.ni.limits = w.ni.limits ∧
    ((RuntimeDevel.tgt_get_match K w).world.pt pi).in_use = (w.pt pi).in_use ∧
    ((RuntimeDevel.tgt_get_match K w).world.pt pi).state =
      (w.pt pi).state ||| K.PT_AUTO_DISABLED ∧
    (RuntimeDevel.tgt_get_match K w).world.trace = w.trace := by
  unfold RuntimeDevel.tgt_get_match
  simp only [hpt, hnm, hfc, ↓reduceIte]
  simp [step_t.world, World.set_pt, World.pt]

/-- For the steps of one table entry `pi` with `PTL_PT_FLOWCTRL`. The
constants are bit flags: `PT_AUTO_DISABLED` is a nonzero mask that neither
`PT_ENABLED` nor `PT_DISABLED` has, and the two differ. A request that matches no
element leaves the entry auto-disabled. After any sequence of arrivals and
completions for the entry that follows: the number of `PTL_EVENT_PT_DISABLED` events
posted since is one if the entry is now `PT_DISABLED` and zero otherwise (so never
two), and the entry is auto-disabled or disabled; a request arriving now is not
accepted, it is dropped by `tgt_start` with `PTL_NI_PT_DISABLED` (unless `tgt_start`
fails before the table is looked at) and the count of active requests is unchanged; a
completion now posts the event exactly when the entry is auto-disabled and this
completion brings `num_tgt_active` from one to zero, the state is then
`PT_DISABLED`, and every completion decrements `num_tgt_active`. -/
theorem flowctrl_at_most_once (K : Consts) (C : Collab) (w : World) (pi : Nat) (ops : List pt_op)
    (hA0 : K.PT_AUTO_DISABLED ≠ 0)
    (hEA : K.PT_ENABLED &&& K.PT_AUTO_DISABLED = 0)
    (hDA : K.PT_DISABLED &&& K.PT_AUTO_DISABLED = 0)
    (hDE : K.PT_DISABLED ≠ K.PT_ENABLED)
    (hpt : w.buf.pt = some pi) (hidx : pi < w.ni.limits.max_pt_index)
    (huse : (w.pt pi).in_use = true) (hfc : (w.pt pi).options.PTL_PT_FLOWCTRL = true)
    (hnm : RuntimeDevel.find_match K w (w.pt pi) = none)
    (hops : ∀ op ∈ ops, op.on pi) :
    ((RuntimeDevel.tgt_get_match K w).world.pt pi).state &&& K.PT_AUTO_DISABLED ≠ 0 ∧
    pt_disabled_count (pt_run K C (RuntimeDevel.tgt_get_match K w).world ops).trace =
      pt_disabled_count w.trace +
        (if ((pt_run K C (RuntimeDevel.tgt_get_match K w).world ops).pt pi).state =
          K.PT_DISABLED then 1 else 0) ∧
    (((pt_run K C (RuntimeDevel.tgt_get_match K w).world ops).pt pi).state = K.PT_DISABLED ∨
      ((pt_run K C (RuntimeDevel.tgt_get_match K w).world ops).pt pi).state &&&
        K.PT_AUTO_DISABLED ≠ 0) ∧
    (∀ b : buf_t, b.data.pt_index = pi →
      ((RuntimeDevel.tgt_start K C
          { (pt_run K C (RuntimeDevel.tgt_get_match K w).world ops) with buf := b }).state =
            some STATE_TGT_ERROR ∨
        ((RuntimeDevel.tgt_start K C
            { (pt_run K C (RuntimeDevel.tgt_get_match K w).world ops) with buf := b }).state =
              some STATE_TGT_DROP ∧
          (RuntimeDevel.tgt_start K C
            { (pt_run K C (RuntimeDevel.tgt_get_match K w).world ops) with
              buf := b }).world.buf.ni_fail = PTL_NI_PT_DISABLED)) ∧
      ((RuntimeDevel.tgt_start K C
          { (pt_run K C (RuntimeDevel.tgt_get_match K w).world ops) with
            buf := b }).world.pt pi).num_tgt_active =
        ((pt_run K C (RuntimeDevel.tgt_get_match K w).world ops).pt pi).num_tgt_active) ∧
    (∀ b : buf_t, b.pt = some pi →
      (pt_disabled_count (RuntimeDevel.tgt_cleanup K
          { (pt_run K C (RuntimeDevel.tgt_get_match K w).world ops) with
            buf := b }).world.trace =
          pt_disabled_count (pt_run K C (RuntimeDevel.tgt_get_match K w).world ops).trace + 1 ↔
        ((RuntimeDevel.tgt_cleanup K
            { (pt_run K C (RuntimeDevel.tgt_get_match K w).world ops) with
              buf := b }).state.isSome = true ∧
          ((pt_run K C (RuntimeDevel.tgt_get_match K w).world ops).pt pi).state &&&
            K.PT_AUTO_DISABLED ≠ 0 ∧
          ((pt_run K C (RuntimeDevel.tgt_get_match K w).world ops).pt pi).num_tgt_active = 1)) ∧
      (pt_disabled_count (RuntimeDevel.tgt_cleanup K
          { (pt_run K C (RuntimeDevel.tgt_get_match K w).world ops) with
            buf := b }).world.trace =
          pt_disabled_count (pt_run K C (RuntimeDevel.tgt_get_match K w).world ops).trace + 1 →
        ((RuntimeDevel.tgt_cleanup K
            { (pt_run K C (RuntimeDevel.tgt_get_match K w).world ops) with
              buf := b }).world.pt pi).state = K.PT_DISABLED) ∧
      ((RuntimeDevel.tgt_cleanup K
          { (pt_run K C (RuntimeDevel.tgt_get_match K w).world ops) with
            buf := b }).state.isSome = true →
        ((RuntimeDevel.tgt_cleanup K
            { (pt_run K C (RuntimeDevel.tgt_get_match K w).world ops) with
              buf := b }).world.pt pi).num_tgt_active =
          ((pt_run K C (RuntimeDevel.tgt_get_match K w).world ops).pt pi).num_tgt_active - 1)) := by
  obtain ⟨g1, g2, g3, g4⟩ := tgt_get_match_auto_disable K w pi hpt hfc hnm
  have hauto : ((RuntimeDevel.tgt_get_match K w).world.pt pi).state &&& K.PT_AUTO_DISABLED ≠ 0 := by
    rw [g3, lor_land_self]
    exact hA0
  have hinv0 : flowctrl_inv K pi (pt_disabled_count w.trace)
      (RuntimeDevel.tgt_get_match K w).world :=
    ⟨by rw [g1]; exact hidx, by rw [g2]; exact huse, Or.inl ⟨hauto, by rw [g4]⟩⟩
  have hinv : flowctrl_inv K pi (pt_disabled_count w.trace)
      (pt_run K C (RuntimeDevel.tgt_get_match K w).world ops) :=
    flowctrl_inv_run K C pi (pt_disabled_count w.trace) hEA hDA hDE ops _ hinv0 hops
  generalize pt_run K C (RuntimeDevel.tgt_get_match K w).world ops = W at hinv ⊢
  obtain ⟨hidxW, huseW, hph⟩ := hinv
  have hst : (W.pt pi).state ≠ K.PT_ENABLED := by
    rcases hph with ⟨h, _⟩ | ⟨h, _⟩
    · intro e
      rw [e] at h
      exact h hEA
    · rw [h]
      exact hDE
  refine ⟨hauto, ?_, ?_, ?_, ?_⟩
  · rcases hph with ⟨p1, p2⟩ | ⟨p1, p2⟩
    · have : (W.pt pi).state ≠ K.PT_DISABLED := by
        intro e
        rw [e] at p1
        exact p1 hDA
      simp only [this, ↓reduceIte, Nat.add_zero]
      exact p2
    · simp only [p1, ↓reduceIte]
      exact p2
  · rcases hph with ⟨p1, _⟩ | ⟨p1, _⟩
    · exact Or.inr p1
    · exact Or.inl p1
  · intro b hb
    obtain ⟨h1, h2, _⟩ := tgt_start_disabled K C W b pi hidxW huseW hst hb
    refine ⟨?_, ?_⟩
    · rcases h1 with h1 | ⟨h1, h1b, _⟩
      · exact Or.inl h1
      · exact Or.inr ⟨h1, h1b⟩
    · unfold World.pt
      rw [h2]
  · intro b hb
    have hc := tgt_cleanup_pt K { W with buf := b } pi hb
    cases hs : (RuntimeDevel.tgt_cleanup K { W with buf := b }).state with
    | none =>
      have hw := hc.1 hs
      refine ⟨?_, ?_, ?_⟩
      · rw [hw]
        constructor
        · intro h
          exact absurd h (by simp)
        · intro h
          exact absurd h.1 (by simp)
      · rw [hw]
        intro h
        exact absurd h (by simp)
      · intro h
        exact absurd h (by simp)
    | some s1 =>
      obtain ⟨c1, _, _, c4, c5⟩ := hc.2 (by rw [hs]; rfl)
      have e1 : ({ W with buf := b } : World).pt pi = W.pt pi := rfl
      have e2 : ({ W with buf := b } : World).trace = W.trace := rfl
      rw [e1] at c1 c4 c5
      rw [e2] at c4 c5
      by_cases hcond : (W.pt pi).state &&& K.PT_AUTO_DISABLED ≠ 0 ∧
          (W.pt pi).num_tgt_active - 1 = 0
      · obtain ⟨d1, d2⟩ := c4 hcond
        refine ⟨⟨fun _ => ⟨rfl, hcond.1, by omega⟩, fun _ => d2⟩, fun _ => d1, fun _ => c1⟩
      · obtain ⟨_, d2⟩ := c5 hcond
        refine ⟨⟨fun h => ?_, fun h => ?_⟩, fun h => ?_, fun _ => c1⟩
        · rw [d2] at h
          exact absurd h (by simp)
        · exact absurd ⟨h.2.1, by rw [h.2.2]; rfl⟩ hcond
        · rw [d2] at h
          exact absurd h (by simp)

theorem tgt_start_check_not_error (K : Consts) (i : Nat) (w : World) :
    (tgt_start_check K i w).state ≠ some STATE_TGT_ERROR := by
  unfold tgt_start_check
  dsimp only
  split_ifs <;> simp [step_t.state]

theorem tgt_start_error_iff (K : Consts) (C : Collab) (w : World) :
    (RuntimeDevel.tgt_start K C w).state = some STATE_TGT_ERROR ↔
      tgt_start_fails K C w = true := by
  cases hop : valid_operation w.buf.data.operation
  · rw [tgt_start_invalid K C w hop]
    simp [tgt_start_fails, hop, step_t.state]
  · rw [tgt_start_valid K C w hop]
    unfold tgt_start_fails
    rw [hop]
    cases hc : C.get_conn (tgt_start_seeded w)
    · simp [step_t.state]
    · cases hm : ((tgt_start_seeded w).buf.event_mask.XT_ACK_EVENT ||
          (tgt_start_seeded w).buf.event_mask.XT_REPLY_EVENT)
      · simp only [Bool.not_true, Bool.false_eq_true, ↓reduceIte, Bool.or_self, Bool.false_and,
          iff_false]
        exact tgt_start_check_not_error K _ _
      · cases hp : (RuntimeDevel.prepare_send_buf K C
            { (tgt_start_seeded w) with buf.conn := true }).1
        · simp only [Bool.not_true, Bool.false_eq_true, ↓reduceIte, hp, Bool.or_self,
            Bool.and_false, iff_false]
          exact tgt_start_check_not_error K _ _
        · simp [hp, step_t.state]

theorem tgt_get_match_auto_count (K : Consts) (w : World) (pi : Nat)
    (hpt : w.buf.pt = some pi) (hfc : (w.pt pi).options.PTL_PT_FLOWCTRL = true)
    (hnm : RuntimeDevel.find_match K w (w.pt pi) = none) :
    ((RuntimeDevel.tgt_get_match K w).world.pt pi).num_tgt_active =
      (w.pt pi).num_tgt_active := by
  unfold RuntimeDevel.tgt_get_match
  simp only [hpt, hnm, hfc, ↓reduceIte]
  simp [step_t.world, World.set_pt, World.pt]

theorem flowctrl_count_step (K : Consts) (C : Collab) (pi n0 : Nat) (n : Int) (c : Nat)
    (W : World) (op : pt_op)
    (hEA : K.PT_ENABLED &&& K.PT_AUTO_DISABLED = 0)
    (hDA : K.PT_DISABLED &&& K.PT_AUTO_DISABLED = 0)
    (hDE : K.PT_DISABLED ≠ K.PT_ENABLED)
    (hinv : flowctrl_inv K pi n0 W) (hcnt : flowctrl_count_inv K pi n c W) (hop : op.on pi) :
    flowctrl_count_inv K pi n (c + (if op.completes K W = true then 1 else 0))
      (pt_step K C W op) := by
  obtain ⟨hidx, huse, hph⟩ := hinv
  obtain ⟨hn, hd⟩ := hcnt
  have hst : (W.pt pi).state ≠ K.PT_ENABLED := by
    rcases hph with ⟨h, _⟩ | ⟨h, _⟩
    · intro e
      rw [e] at h
      exact h hEA
    · rw [h]
      exact hDE
  cases op with
  | arrive b =>
    obtain ⟨h1, h2, _⟩ := tgt_start_disabled K C W b pi hidx huse hst hop
    have hne : (RuntimeDevel.tgt_start K C { W with buf := b }).state ≠
        some STATE_TGT_GET_MATCH := by
      rcases h1 with h1 | ⟨h1, _⟩ <;> rw [h1] <;> decide
    rw [pt_step_arrive K C W b hne]
    simp only [pt_op.completes, Bool.false_eq_true, ↓reduceIte, Nat.add_zero]
    unfold flowctrl_count_inv World.pt
    rw [h2]
    exact ⟨hn, hd⟩
  | complete b =>
    have hc := tgt_cleanup_pt K { W with buf := b } pi hop
    show flowctrl_count_inv K pi n _ (RuntimeDevel.tgt_cleanup K { W with buf := b }).world
    simp only [pt_op.completes]
    by_cases hs : (RuntimeDevel.tgt_cleanup K { W with buf := b }).state.isSome = true
    case neg =>
      have hs0 : (RuntimeDevel.tgt_cleanup K { W with buf := b }).state = none := by
        cases h : (RuntimeDevel.tgt_cleanup K { W with buf := b }).state with
        | none => rfl
        | some s1 => exact absurd (by rw [h]; rfl) hs
      rw [if_neg hs, hc.1 hs0]
      exact ⟨hn, hd⟩
    case pos =>
      rw [if_pos hs]
      obtain ⟨c1, _, _, c4, c5⟩ := hc.2 hs
      have e1 : ({ W with buf := b } : World).pt pi = W.pt pi := rfl
      rw [e1] at c1 c4 c5
      unfold flowctrl_count_inv
      refine ⟨by rw [c1, hn]; push_cast; ring, ?_⟩
      by_cases hcond : (W.pt pi).state &&& K.PT_AUTO_DISABLED ≠ 0 ∧
          (W.pt pi).num_tgt_active - 1 = 0
      · obtain ⟨d1, _⟩ := c4 hcond
        rw [d1]
        have := hcond.2
        constructor
        · intro _
          push_cast
          omega
        · intro _
          rfl
      · obtain ⟨d1, _⟩ := c5 hcond
        rw [d1]
        rcases hph with ⟨p1, _⟩ | ⟨p1, _⟩
        · have hnd : (W.pt pi).state ≠ K.PT_DISABLED := by
            intro e
            rw [e] at p1
            exact p1 hDA
          have hlt : ¬ n ≤ (c : Int) := fun h => hnd (hd.2 h)
          have hne1 : (W.pt pi).num_tgt_active - 1 ≠ 0 := fun h => hcond ⟨p1, h⟩
          constructor
          · intro h
            exact absurd h hnd
          · intro h
            push_cast at h
            omega
        · constructor
          · intro _
            have := hd.1 p1
            push_cast
            omega
          · intro _
            exact p1

theorem flowctrl_count_run (K : Consts) (C : Collab) (pi n0 : Nat) (n : Int)
    (hEA : K.PT_ENABLED &&& K.PT_AUTO_DISABLED = 0)
    (hDA : K.PT_DISABLED &&& K.PT_AUTO_DISABLED = 0)
    (hDE : K.PT_DISABLED ≠ K.PT_ENABLED) (ops : List pt_op) :
    ∀ (W : World) (c : Nat), flowctrl_inv K pi n0 W → flowctrl_count_inv K pi n c W →
      (∀ op ∈ ops, op.on pi) →
      flowctrl_count_inv K pi n (c + completions K C W ops) (ops.foldl (pt_step K C) W) := by
  induction ops with
  | nil => intro W c _ h _; exact h
  | cons op ops ih =>
    intro W c h hc hops
    rw [List.foldl_cons]
    have hop := hops op (List.mem_cons_self _ _)
    have h1 := flowctrl_inv_step K C pi n0 W op hEA hDA hDE h hop
    have h2 := flowctrl_count_step K C pi n0 n c W op hEA hDA hDE h hc hop
    have := ih _ _ h1 h2 (fun o ho => hops o (List.mem_cons_of_mem _ ho))
    simp only [completions]
    rw [← Nat.add_assoc]
    exact this

/-- C16 (as stated, refuted): entry 0 has `PTL_PT_FLOWCTRL` and two requests in flight;
the sample PUT matches none of its elements and leaves it auto-disabled. A further
sample PUT arrives, for which `get_conn` finds no connection: `tgt_start` returns
`STATE_TGT_ERROR`, not `STATE_TGT_DROP`, and `ni_fail` is not
`PTL_NI_PT_DISABLED`. -/
theorem flowctrl_start_error :
    RuntimeDevel.find_match sample_consts (listed_world true 2 [0] [3])
      ((listed_world true 2 [0] [3]).pt 0) = none ∧
    ((RuntimeDevel.tgt_get_match sample_consts (listed_world true 2 [0] [3])).world.pt 0).state
      = sample_consts.PT_ENABLED ||| sample_consts.PT_AUTO_DISABLED ∧
    (RuntimeDevel.tgt_start sample_consts no_conn_collab
      { (after_auto_disable sample_consts no_conn_collab (listed_world true 2 [0] [3]) []) with
        buf := sample_put }).state = some STATE_TGT_ERROR ∧
    (RuntimeDevel.tgt_start sample_consts no_conn_collab
      { (after_auto_disable sample_consts no_conn_collab (listed_world true 2 [0] [3]) []) with
        buf := sample_put }).world.buf.ni_fail ≠ PTL_NI_PT_DISABLED := by
  decide

/-- C16 (amended): for the steps of one table entry `pi` with `PTL_PT_FLOWCTRL`. The
constants are bit flags: `PT_AUTO_DISABLED` is a nonzero mask that neither
`PT_ENABLED` nor `PT_DISABLED` has, and the two differ. The request in the buffer
has passed `tgt_start`, so that `num_tgt_active` is `n ≥ 1`, and matches no element:
`tgt_get_match` leaves the entry auto-disabled. After any sequence of arrivals and
completions for the entry that follows, of which `c` completions are carried out:
the number of `PTL_EVENT_PT_DISABLED` events posted since is one if `n ≤ c` and zero
otherwise; the entry is `PT_DISABLED` exactly if `n ≤ c` and is auto-disabled
otherwise; `num_tgt_active` is `n - c`. A request arriving now ends `tgt_start` in
`STATE_TGT_ERROR` exactly if `tgt_start` fails before the table is looked at, and
otherwise it is dropped with `PTL_NI_PT_DISABLED`; in both cases the count of active
requests is unchanged and no event is posted. A completion now posts the event
exactly when the entry is auto-disabled and this completion brings `num_tgt_active`
from one to zero, the state is then `PT_DISABLED`, and every completion decrements
`num_tgt_active`. -/
theorem flowctrl_disable (K : Consts) (C : Collab) (w : World) (pi : Nat) (ops : List pt_op)
    (hA0 : K.PT_AUTO_DISABLED ≠ 0)
    (hEA : K.PT_ENABLED &&& K.PT_AUTO_DISABLED = 0)
    (hDA : K.PT_DISABLED &&& K.PT_AUTO_DISABLED = 0)
    (hDE : K.PT_DISABLED ≠ K.PT_ENABLED)
    (hpt : w.buf.pt = some pi) (hidx : pi < w.ni.limits.max_pt_index)
    (huse : (w.pt pi).in_use = true) (hfc : (w.pt pi).options.PTL_PT_FLOWCTRL = true)
    (hn : 1 ≤ (w.pt pi).num_tgt_active)
    (hnm : RuntimeDevel.find_match K w (w.pt pi) = none)
    (hops : ∀ op ∈ ops, op.on pi) :
    ((RuntimeDevel.tgt_get_match K w).world.pt pi).state &&& K.PT_AUTO_DISABLED ≠ 0 ∧
    pt_disabled_count (after_auto_disable K C w ops).trace =
      pt_disabled_count w.trace +
        (if (w.pt pi).num_tgt_active ≤
            (completions K C (RuntimeDevel.tgt_get_match K w).world ops : Int) then 1 else 0) ∧
    (((after_auto_disable K C w ops).pt pi).state = K.PT_DISABLED ↔
      (w.pt pi).num_tgt_active ≤
        (completions K C (RuntimeDevel.tgt_get_match K w).world ops : Int)) ∧
    (¬ (w.pt pi).num_tgt_active ≤
        (completions K C (RuntimeDevel.tgt_get_match K w).world ops : Int) →
      ((after_auto_disable K C w ops).pt pi).state &&& K.PT_AUTO_DISABLED ≠ 0) ∧
    ((after_auto_disable K C w ops).pt pi).num_tgt_active =
      (w.pt pi).num_tgt_active -
        (completions K C (RuntimeDevel.tgt_get_match K w).world ops : Int) ∧
    (∀ b : buf_t, b.data.pt_index = pi →
      ((RuntimeDevel.tgt_start K C { (after_auto_disable K C w ops) with buf := b }).state =
          some STATE_TGT_ERROR ↔
        tgt_start_fails K C { (after_auto_disable K C w ops) with buf := b } = true) ∧
      (tgt_start_fails K C { (after_auto_disable K C w ops) with buf := b } = false →
        (RuntimeDevel.tgt_start K C { (after_auto_disable K C w ops) with buf := b }).state =
          some STATE_TGT_DROP ∧
        (RuntimeDevel.tgt_start K C
          { (after_auto_disable K C w ops) with buf := b }).world.buf.ni_fail =
            PTL_NI_PT_DISABLED) ∧
      ((RuntimeDevel.tgt_start K C
          { (after_auto_disable K C w ops) with buf := b }).world.pt pi).num_tgt_active =
        ((after_auto_disable K C w ops).pt pi).num_tgt_active ∧
      pt_disabled_count (RuntimeDevel.tgt_start K C
          { (after_auto_disable K C w ops) with buf := b }).world.trace =
        pt_disabled_count (after_auto_disable K C w ops).trace) ∧
    (∀ b : buf_t, b.pt = some pi →
      (pt_disabled_count (RuntimeDevel.tgt_cleanup K
          { (after_auto_disable K C w ops) with buf := b }).world.trace =
          pt_disabled_count (after_auto_disable K C w ops).trace + 1 ↔
        ((RuntimeDevel.tgt_cleanup K
            { (after_auto_disable K C w ops) with buf := b }).state.isSome = true ∧
          ((after_auto_disable K C w ops).pt pi).state &&& K.PT_AUTO_DISABLED ≠ 0 ∧
          ((after_auto_disable K C w ops).pt pi).num_tgt_active = 1)) ∧
      (pt_disabled_count (RuntimeDevel.tgt_cleanup K
          { (after_auto_disable K C w ops) with buf := b }).world.trace =
          pt_disabled_count (after_auto_disable K C w ops).trace + 1 →
        ((RuntimeDevel.tgt_cleanup K
            { (after_auto_disable K C w ops) with buf := b }).world.pt pi).state =
          K.PT_DISABLED) ∧
      ((RuntimeDevel.tgt_cleanup K
          { (after_auto_disable K C w ops) with buf := b }).state.isSome = true →
        ((RuntimeDevel.tgt_cleanup K
            { (after_auto_disable K C w ops) with buf := b }).world.pt pi).num_tgt_active =
          ((after_auto_disable K C w ops).pt pi).num_tgt_active - 1)) := by
  obtain ⟨o1, o2, o3, _, o5⟩ :=
    flowctrl_at_most_once K C w pi ops hA0 hEA hDA hDE hpt hidx huse hfc hnm hops
  obtain ⟨g1, g2, g3, g4⟩ := tgt_get_match_auto_disable K w pi hpt hfc hnm
  have g5 := tgt_get_match_auto_count K w pi hpt hfc hnm
  have hinv0 : flowctrl_inv K pi (pt_disabled_count w.trace)
      (RuntimeDevel.tgt_get_match K w).world :=
    ⟨by rw [g1]; exact hidx, by rw [g2]; exact huse, Or.inl ⟨o1, by rw [g4]⟩⟩
  have hcnt0 : flowctrl_count_inv K pi (w.pt pi).num_tgt_active 0
      (RuntimeDevel.tgt_get_match K w).world := by
    refine ⟨by rw [g5]; simp, ?_⟩
    constructor
    · intro e
      rw [e] at o1
      exact absurd hDA o1
    · intro h
      simp only [Nat.cast_zero] at h
      omega
  have hinv : flowctrl_inv K pi (pt_disabled_count w.trace) (after_auto_disable K C w ops) :=
    flowctrl_inv_run K C pi (pt_disabled_count w.trace) hEA hDA hDE ops _ hinv0 hops
  have hcnt := flowctrl_count_run K C pi (pt_disabled_count w.trace) (w.pt pi).num_tgt_active
    hEA hDA hDE ops _ 0 hinv0 hcnt0 hops
  rw [Nat.zero_add] at hcnt
  change flowctrl_count_inv K pi (w.pt pi).num_tgt_active _ (after_auto_disable K C w ops) at hcnt
  have hE : pt_run K C (RuntimeDevel.tgt_get_match K w).world ops =
      after_auto_disable K C w ops := rfl
  rw [hE] at o2 o3
  obtain ⟨k1, k2⟩ := hcnt
  obtain ⟨hidxW, huseW, hph⟩ := hinv
  have hst : ((after_auto_disable K C w ops).pt pi).state ≠ K.PT_ENABLED := by
    rcases hph with ⟨h, _⟩ | ⟨h, _⟩
    · intro e
      rw [e] at h
      exact h hEA
    · rw [h]
      exact hDE
  refine ⟨o1, ?_, k2, ?_, k1, ?_, o5⟩
  · rw [o2]
    by_cases hd : ((after_auto_disable K C w ops).pt pi).state = K.PT_DISABLED
    · rw [if_pos hd, if_pos (k2.1 hd)]
    · rw [if_neg hd, if_neg (fun h => hd (k2.2 h))]
  · intro hlt
    rcases o3 with h | h
    · exact absurd (k2.1 h) hlt
    · exact h
  · intro b hb
    obtain ⟨h1, h2, h3⟩ :=
      tgt_start_disabled K C (after_auto_disable K C w ops) b pi hidxW huseW hst hb
    have he := tgt_start_error_iff K C { (after_auto_disable K C w ops) with buf := b }
    refine ⟨he, ?_, ?_, h3⟩
    · intro hf
      rcases h1 with h1 | ⟨h1, h1b, _⟩
      · rw [he.1 h1] at hf
        cases hf
      · exact ⟨h1, h1b⟩
    · unfold World.pt
      rw [h2]

/-- An entry whose count of active requests is not positive when it is auto-disabled
(here 0, as after the decrement without increment of a request dropped by
`tgt_start`) never reaches zero by decrements: the request completes, the count is
-1, no `PTL_EVENT_PT_DISABLED` event is posted and the entry stays auto-disabled. -/
theorem flowctrl_count_not_positive :
    ((after_auto_disable sample_consts sample_collab (listed_world true 0 [0] [3])
      [pt_op.complete { sample_put with pt := some 0 }]).pt 0).num_tgt_active = -1 ∧
    pt_disabled_count (after_auto_disable sample_consts sample_collab
      (listed_world true 0 [0] [3]) [pt_op.complete { sample_put with pt := some 0 }]).trace
      = 0 ∧
    ((after_auto_disable sample_consts sample_collab (listed_world true 0 [0] [3])
      [pt_op.complete { sample_put with pt := some 0 }]).pt 0).state =
        sample_consts.PT_ENABLED ||| sample_consts.PT_AUTO_DISABLED := by
  decide

theorem flowctrl_ops_on : ∀ op ∈ flowctrl_ops, op.on 0 := by
  intro op h
  simp only [flowctrl_ops, List.mem_cons, List.mem_singleton, List.not_mem_nil,
    or_false] at h
  rcases h with h | h | h | h | h <;> subst h <;> rfl

theorem flowctrl_ops_take_on : ∀ op ∈ flowctrl_ops.take 2, op.on 0 :=
  fun op h => flowctrl_ops_on op (List.mem_of_mem_take h)

/-- C16 (witness): entry 0 holds two elements that do not match the sample PUT and
counts two requests in flight when the PUT auto-disables it. On the sample sequence
a request arrives and is dropped, the two complete, a request arrives and
completes: three completions. After the first two steps one completion has been
carried out, no event is posted and the entry is still auto-disabled; after the
whole sequence exactly one `PTL_EVENT_PT_DISABLED` event is posted, the entry is
`PT_DISABLED`, and a request that arrives is dropped by `tgt_start` with
`PTL_NI_PT_DISABLED`. -/
theorem flowctrl_disable_witness :
    RuntimeDevel.find_match sample_consts (listed_world true 2 [0] [3])
      ((listed_world true 2 [0] [3]).pt 0) = none ∧
    completions sample_consts sample_collab
      (RuntimeDevel.tgt_get_match sample_consts (listed_world true 2 [0] [3])).world
      (flowctrl_ops.take 2) = 1 ∧
    pt_disabled_count (after_auto_disable sample_consts sample_collab
      (listed_world true 2 [0] [3]) (flowctrl_ops.take 2)).trace = 0 ∧
    ((after_auto_disable sample_consts sample_collab (listed_world true 2 [0] [3])
      (flowctrl_ops.take 2)).pt 0).state &&& sample_consts.PT_AUTO_DISABLED ≠ 0 ∧
    completions sample_consts sample_collab
      (RuntimeDevel.tgt_get_match sample_consts (listed_world true 2 [0] [3])).world
      flowctrl_ops = 3 ∧
    pt_disabled_count (after_auto_disable sample_consts sample_collab
      (listed_world true 2 [0] [3]) flowctrl_ops).trace = 1 ∧
    ((after_auto_disable sample_consts sample_collab (listed_world true 2 [0] [3])
      flowctrl_ops).pt 0).state = sample_consts.PT_DISABLED ∧
    (RuntimeDevel.tgt_start sample_consts sample_collab
      { (after_auto_disable sample_consts sample_collab (listed_world true 2 [0] [3])
          flowctrl_ops) with buf := sample_put }).state = some STATE_TGT_DROP ∧
    (RuntimeDevel.tgt_start sample_consts sample_collab
      { (after_auto_disable sample_consts sample_collab (listed_world true 2 [0] [3])
          flowctrl_ops) with buf := sample_put }).world.buf.ni_fail = PTL_NI_PT_DISABLED := by
  have h := flowctrl_disable sample_consts sample_collab (listed_world true 2 [0] [3]) 0
    flowctrl_ops (by decide) (by decide) (by decide) (by decide) rfl (by decide) (by decide)
    (by decide) (by decide) (by decide) flowctrl_ops_on
  have g := flowctrl_disable sample_consts sample_collab (listed_world true 2 [0] [3]) 0
    (flowctrl_ops.take 2) (by decide) (by decide) (by decide) (by decide) rfl (by decide)
    (by decide) (by decide) (by decide) (by decide) flowctrl_ops_take_on
  have hc : completions sample_consts sample_collab
      (RuntimeDevel.tgt_get_match sample_consts (listed_world true 2 [0] [3])).world
      flowctrl_ops = 3 := by decide
  have gc : completions sample_consts sample_collab
      (RuntimeDevel.tgt_get_match sample_consts (listed_world true 2 [0] [3])).world
      (flowctrl_ops.take 2) = 1 := by decide
  have hd := (h.2.2.2.2.2.1 sample_put rfl).2.1 (by decide)
  refine ⟨by decide, gc, ?_, g.2.2.2.1 (by rw [gc]; decide), hc, ?_,
    h.2.2.1.2 (by rw [hc]; decide), hd.1, hd.2⟩
  · rw [g.2.1, gc]
    decide
  · rw [h.2.1, hc]
    decide

theorem find_match_log (K : Consts) (w : World) (a : Action) (pt : pt_t) :
    RuntimeDevel.find_match K (w.log a) pt = RuntimeDevel.find_match K w pt := rfl

theorem check_perm_le (K : Consts) (b : buf_t) (x : Option Nat) (me : me_t) :
    RuntimeDevel.check_perm K { b with le := x } me = RuntimeDevel.check_perm K b me := rfl

theorem check_perm_eq (K : Consts) (b1 b2 : buf_t) (me : me_t) (hd : b1.data = b2.data)
    (ho : b1.operation = b2.operation) :
    RuntimeDevel.check_perm K b1 me = RuntimeDevel.check_perm K b2 me := by
  unfold RuntimeDevel.check_perm
  rw [hd, ho]

theorem tgt_get_match_perm (K : Consts) (w : World) (pi h : Nat) (l : ptl_list_t)
    (hpt : w.buf.pt = some pi)
    (hm : RuntimeDevel.find_match K w (w.pt pi) = some (l, h))
    (hperm : RuntimeDevel.check_perm K w.buf (w.les h) ≠ PTL_NI_OK) :
    RuntimeDevel.tgt_get_match K w =
      step_t.next
        { w with
          buf := { w.buf with le := none, ni_fail := RuntimeDevel.check_perm K w.buf (w.les h) },
          trace := w.trace ++ [Action.le_get h, Action.le_put h] }
        STATE_TGT_DROP := by
  unfold RuntimeDevel.tgt_get_match
  simp only [hpt, hm]
  have hp : (RuntimeDevel.check_perm K
      ({ (w.log (Action.le_get h)) with buf.le := some h } : World).buf
      (({ (w.log (Action.le_get h)) with buf.le := some h } : World).les h) != PTL_NI_OK) = true := by
    simpa [World.log, check_perm_le] using hperm
  simp only [hp, ↓reduceIte]
  simp [World.log, check_perm_le, hpt]
  exact check_perm_eq K _ _ _ rfl rfl

theorem request_drop_frame (W : World) (hle : W.buf.le = none) :
    ∃ W1 s1, RuntimeDevel.request_drop W = step_t.next W1 s1 ∧
      s1 = (if W.buf.event_mask.XT_ACK_EVENT || W.buf.event_mask.XT_REPLY_EVENT then
        STATE_TGT_WAIT_CONN else STATE_TGT_CLEANUP) ∧
      drop_frame W W1 [] ∧ W1.conn = W.conn ∧
      W1.buf.ni_fail = W.buf.ni_fail ∧ W1.buf.event_mask = W.buf.event_mask ∧
      W1.buf.put_resid = 0 ∧ W1.buf.get_resid = 0 ∧
      W1.buf.send_buf = W.buf.send_buf ∧ W1.buf.has_mem_buf = W.buf.has_mem_buf ∧
      W1.buf.data.ack_req = W.buf.data.ack_req ∧ W1.buf.matching_le = W.buf.matching_le ∧
      W1.buf.indir_sge = W.buf.indir_sge ∧ W1.buf.tgt_state = W.buf.tgt_state := by
  unfold RuntimeDevel.request_drop
  simp only []
  split_ifs with h1
  · refine ⟨_, _, rfl, ?_⟩
    simp only [h1, ↓reduceIte]
    simp [drop_frame, hle]
  · refine ⟨_, _, rfl, ?_⟩
    simp only [h1, ↓reduceIte]
    simp [drop_frame, hle]

theorem tgt_wait_conn_frame (K : Consts) (C : Collab) (W : World) (hle : W.buf.le = none) :
    ∃ W1 s1 t, RuntimeDevel.tgt_wait_conn K C W = step_t.next W1 s1 ∧
      (s1 = STATE_TGT_DATA ∨ s1 = STATE_TGT_WAIT_CONN ∨ s1 = STATE_TGT_ERROR) ∧
      (W.conn.state ≥ K.CONN_STATE_CONNECTED → s1 = STATE_TGT_DATA ∧ W1.conn = W.conn) ∧
      drop_frame W W1 t ∧ responses_of t = [] ∧ W1.buf = W.buf := by
  unfold RuntimeDevel.tgt_wait_conn
  simp only []
  split_ifs with h1 h2 h3 h4
  · exact ⟨_, _, [], rfl, Or.inl rfl, fun _ => ⟨rfl, rfl⟩, ⟨rfl, rfl, hle, by simp, by simp⟩,
      rfl, rfl⟩
  · exact ⟨_, _, [Action.init_connect], rfl, Or.inr (Or.inr rfl), fun h => absurd h h1,
      ⟨rfl, rfl, hle, by simp [World.log], by simp [drop_call]⟩, rfl, rfl⟩
  · exact ⟨_, _, [Action.init_connect], rfl, Or.inr (Or.inl rfl), fun h => absurd h h1,
      ⟨rfl, rfl, hle, by simp [World.log], by simp [drop_call]⟩, rfl, rfl⟩
  · exact ⟨_, _, [], rfl, Or.inr (Or.inl rfl), fun h => absurd h h1,
      ⟨rfl, rfl, hle, by simp, by simp⟩, rfl, rfl⟩
  · exact ⟨_, _, [], rfl, Or.inl rfl, fun h => absurd h h1, ⟨rfl, rfl, hle, by simp, by simp⟩,
      rfl, rfl⟩

theorem tgt_data_frame (K : Consts) (W : World) (hle : W.buf.le = none)
    (hp : W.buf.put_resid = 0) (hg : W.buf.get_resid = 0) :
    ∃ W1 t, RuntimeDevel.tgt_data K W = step_t.next W1 STATE_TGT_COMM_EVENT ∧
      drop_frame W W1 t ∧ responses_of t = [] ∧ drop_buf W W1 ∧ W1.conn = W.conn := by
  by_cases h1 : W.conn.state ≥ K.CONN_STATE_CONNECTED <;>
    by_cases h2 : (W.buf.operation == OP_ATOMIC || W.buf.operation == OP_SWAP ||
      W.buf.operation == OP_FETCH) = true
  · have e : RuntimeDevel.tgt_data K W = step_t.next
        { W with
          ni := { W.ni with atomic_mutex := W.ni.atomic_mutex + 1 },
          buf := { W.buf with has_dest := true, in_atomic := 1 },
          trace := W.trace ++ [Action.set_buf_dest, Action.atomic_mutex_lock] }
        STATE_TGT_COMM_EVENT := by
      unfold RuntimeDevel.tgt_data
      simp only [h1, h2, World.log, hp, hg, ↓reduceIte, bne_self_eq_false, Bool.false_eq_true,
        List.append_assoc, List.singleton_append]
    rw [e]
    exact ⟨_, _, rfl, ⟨rfl, rfl, hle, rfl, by simp [drop_call]⟩, rfl,
      ⟨rfl, rfl, rfl, rfl, rfl, rfl, rfl, rfl, rfl, rfl⟩, rfl⟩
  · have e : RuntimeDevel.tgt_data K W = step_t.next
        { W with
          buf := { W.buf with has_dest := true },
          trace := W.trace ++ [Action.set_buf_dest] }
        STATE_TGT_COMM_EVENT := by
      unfold RuntimeDevel.tgt_data
      simp only [h1, h2, World.log, hp, hg, ↓reduceIte, bne_self_eq_false, Bool.false_eq_true]
    rw [e]
    exact ⟨_, _, rfl, ⟨rfl, rfl, hle, rfl, by simp [drop_call]⟩, rfl,
      ⟨rfl, rfl, rfl, rfl, rfl, rfl, rfl, rfl, rfl, rfl⟩, rfl⟩
  · have e : RuntimeDevel.tgt_data K W = step_t.next
        { W with
          ni := { W.ni with atomic_mutex := W.ni.atomic_mutex + 1 },
          buf := { W.buf with in_atomic := 1 },
          trace := W.trace ++ [Action.atomic_mutex_lock] }
        STATE_TGT_COMM_EVENT := by
      unfold RuntimeDevel.tgt_data
      simp only [h1, h2, World.log, hp, hg, ↓reduceIte, bne_self_eq_false, Bool.false_eq_true]
    rw [e]
    exact ⟨_, _, rfl, ⟨rfl, rfl, hle, rfl, by simp [drop_call]⟩, rfl,
      ⟨rfl, rfl, rfl, rfl, rfl, rfl, rfl, rfl, rfl, rfl⟩, rfl⟩
  · have e : RuntimeDevel.tgt_data K W = step_t.next W STATE_TGT_COMM_EVENT := by
      unfold RuntimeDevel.tgt_data
      simp only [h1, h2, World.log, hp, hg, ↓reduceIte, bne_self_eq_false, Bool.false_eq_true]
    rw [e]
    exact ⟨_, [], rfl, ⟨rfl, rfl, hle, by simp, by simp⟩, rfl,
      ⟨rfl, rfl, rfl, rfl, rfl, rfl, rfl, rfl, rfl, rfl⟩, rfl⟩

theorem tgt_comm_event_quiet (W : World)
    (hc : W.buf.event_mask.XT_COMM_EVENT = false)
    (hct : W.buf.event_mask.XT_CT_COMM_EVENT = false) :
    RuntimeDevel.tgt_comm_event W =
      step_t.next W
        (if W.buf.event_mask.XT_REPLY_EVENT then STATE_TGT_SEND_REPLY
         else if W.buf.event_mask.XT_ACK_EVENT then STATE_TGT_SEND_ACK
         else STATE_TGT_CLEANUP) := by
  unfold RuntimeDevel.tgt_comm_event
  simp only [hc, hct, Bool.false_eq_true, ↓reduceIte]
  split_ifs <;> rfl

theorem put_priority_le_none (W : World) (hle : W.buf.le = none) :
    RuntimeDevel.put_priority_le W = W := by
  unfold RuntimeDevel.put_priority_le
  simp only [hle]

theorem send_response_ext (K : Consts) (C : Collab) (W : World) :
    trace_ext is_send_call W (send_response K C W).world := by
  unfold send_response trace_ext
  simp only []
  repeat' split
  all_goals simp [step_t.world, World.log, is_send_call]

theorem store_ack_le (W : World) (hdr : ack_hdr_t) (len : Nat) :
    (RuntimeDevel.store_ack W hdr len).buf.le = W.buf.le ∧
    (RuntimeDevel.store_ack W hdr len).trace = W.trace := by
  unfold RuntimeDevel.store_ack
  split <;> exact ⟨rfl, rfl⟩

theorem tgt_send_ack_ext (K : Consts) (C : Collab) (W : World) (hle : W.buf.le = none) :
    trace_ext is_send_call W (RuntimeDevel.tgt_send_ack K C W).world := by
  rw [tgt_send_ack_eq]
  split
  · simp [trace_ext, step_t.world, (store_ack_le W _ _).2]
  · rename_i hdr len _
    have h1 := store_ack_le W
      (if ack_disabled W then { hdr with operation := OP_NO_ACK } else hdr)
      (if ack_disabled W then sizeof_ack_hdr K - sizeof_le64 - sizeof_le64 else len)
    rw [put_priority_le_none _ (h1.1.trans hle)]
    have h2 := send_response_ext K C (RuntimeDevel.store_ack W
      (if ack_disabled W then { hdr with operation := OP_NO_ACK } else hdr)
      (if ack_disabled W then sizeof_ack_hdr K - sizeof_le64 - sizeof_le64 else len))
    unfold trace_ext at h2 ⊢
    rw [h1.2] at h2
    exact h2

theorem tgt_send_reply_ext (K : Consts) (C : Collab) (W : World) (hle : W.buf.le = none) :
    trace_ext is_send_call W (RuntimeDevel.tgt_send_reply C W).world := by
  rw [tgt_send_reply_eq K]
  split
  · simp [trace_ext, step_t.world]
  · rename_i sb _
    have h1 := put_priority_le_none
      { W with buf.send_buf := some { sb with data :=
        { sb.data with ni_fail := W.buf.ni_fail, length := W.buf.mlength,
                       offset := W.buf.moffset, operation := OP_REPLY,
                       matching_list := W.buf.matching_list } } } hle
    rw [h1]
    have h2 := send_response_ext K C
      { W with buf.send_buf := some { sb with data :=
        { sb.data with ni_fail := W.buf.ni_fail, length := W.buf.mlength,
                       offset := W.buf.moffset, operation := OP_REPLY,
                       matching_list := W.buf.matching_list } } }
    exact h2

theorem send_drop_frame (W W1 : World) (t : List Action) (hle : W.buf.le = none)
    (hs : send_step W.buf.ni_fail W W1 t) (he : trace_ext is_send_call W W1) :
    drop_frame W W1 t ∧ (responses_of t).length ≤ 1 ∧
    (∀ r ∈ responses_of t, r.ni_fail = W.buf.ni_fail) ∧
    W1.buf.matching_le = W.buf.matching_le ∧ W1.buf.indir_sge = W.buf.indir_sge ∧
    W1.buf.tgt_state = W.buf.tgt_state ∧ W1.conn = W.conn := by
  obtain ⟨h1, h2, h3, f1, f2, _, f4, f5, f6, _, f8, _, f10⟩ := hs
  obtain ⟨t1, ht1, hp⟩ := (trace_ext_iff _ _ _).1 he
  have ht : t1 = t := List.append_cancel_left (ht1.symm.trans h1)
  subst ht
  refine ⟨⟨f1, f2, f10 hle, h1, ?_⟩, h3, ?_, f5, f6, f8, f4⟩
  · intro a ha
    have := hp a ha
    cases a <;> first | rfl | (simp [is_send_call] at this)
  · intro r hr
    unfold responses_of at hr
    obtain ⟨a, ha, e⟩ := List.mem_filterMap.1 hr
    have hc := h2 a ha
    cases a <;> first
      | (simp at e; done)
      | (simp only [Option.some.injEq] at e
         subst e
         simpa [sends_code] using hc)

theorem tgt_cleanup_drop (K : Consts) (W : World) (hle : W.buf.le = none) :
    ∃ t, drop_frame W (RuntimeDevel.tgt_cleanup K W).world t ∧ responses_of t = [] ∧
      (RuntimeDevel.tgt_cleanup K W).world.buf.tgt_state = W.buf.tgt_state ∧
      (∀ s1, (RuntimeDevel.tgt_cleanup K W).state = some s1 → s1 = STATE_TGT_CLEANUP_2) ∧
      (W.buf.matching_le = none → W.buf.indir_sge = false →
        (RuntimeDevel.tgt_cleanup K W).state = some STATE_TGT_CLEANUP_2) := by
  obtain ⟨t, ht, hp⟩ := (trace_ext_iff _ _ _).1 (tgt_cleanup_ext K W)
  have hframe : (RuntimeDevel.tgt_cleanup K W).world.mem = W.mem ∧
      (RuntimeDevel.tgt_cleanup K W).world.les = W.les ∧
      (RuntimeDevel.tgt_cleanup K W).world.buf.le = none ∧
      (RuntimeDevel.tgt_cleanup K W).world.buf.tgt_state = W.buf.tgt_state ∧
      (∀ s1, (RuntimeDevel.tgt_cleanup K W).state = some s1 → s1 = STATE_TGT_CLEANUP_2) ∧
      (W.buf.matching_le = none → W.buf.indir_sge = false →
        (RuntimeDevel.tgt_cleanup K W).state = some STATE_TGT_CLEANUP_2) := by
    unfold RuntimeDevel.tgt_cleanup
    simp only [hle]
    cases hm : W.buf.matching_le <;> cases hi : W.buf.indir_sge <;>
      cases hsb : W.buf.send_buf <;> cases hpt : W.buf.pt <;>
      simp [step_t.world, step_t.state, World.log, World.set_pt, hle, hpt] <;>
      split_ifs <;> simp [step_t.world, step_t.state, World.log, World.set_pt, hle]
  obtain ⟨f1, f2, f3, f4, f5, f6⟩ := hframe
  refine ⟨t, ⟨f1, f2, f3, ht, ?_⟩, ?_, f4, f5, f6⟩
  · intro a ha
    have := hp a ha
    cases a <;> first
      | (simp [logs] at this; done)
      | rfl
      | simpa [logs, drop_call] using this
  · unfold responses_of
    rw [List.filterMap_eq_nil_iff]
    intro a ha
    have := hp a ha
    cases a <;> first
      | (simp [logs] at this; done)
      | rfl

theorem tgt_cleanup_2_drop (W : World) (hle : W.buf.le = none) :
    ∃ t, drop_frame W (RuntimeDevel.tgt_cleanup_2 W) t ∧ responses_of t = [] ∧
      (RuntimeDevel.tgt_cleanup_2 W).buf.tgt_state = W.buf.tgt_state := by
  unfold RuntimeDevel.tgt_cleanup_2
  simp only [hle]
  cases hc : W.buf.conn
  · exact ⟨[], ⟨rfl, rfl, hle, by simp, by simp⟩, rfl, rfl⟩
  · exact ⟨[Action.conn_put], ⟨rfl, rfl, hle, by simp [World.log], by simp [drop_call]⟩, rfl, rfl⟩

theorem tgt_handler_DROP (K : Consts) (C : Collab) (w : World) :
    RuntimeDevel.tgt_handler K C STATE_TGT_DROP w = RuntimeDevel.request_drop w := rfl

theorem tgt_handler_WAIT_CONN (K : Consts) (C : Collab) (w : World) :
    RuntimeDevel.tgt_handler K C STATE_TGT_WAIT_CONN w = RuntimeDevel.tgt_wait_conn K C w := rfl

theorem tgt_handler_SEND_REPLY (K : Consts) (C : Collab) (w : World) :
    RuntimeDevel.tgt_handler K C STATE_TGT_SEND_REPLY w = RuntimeDevel.tgt_send_reply C w := rfl

theorem drop_call_info (s : tgt_state) (h : on_drop_path s = true) :
    drop_call (Action.ptl_info s) = true := by
  cases s <;> first | rfl | exact absurd h (by decide)

theorem drop_frame_step (wD W W1 : World) (s : tgt_state) (t t1 : List Action)
    (hs : on_drop_path s = true) (h : drop_frame wD W t)
    (h1 : drop_frame (W.log (Action.ptl_info s)) W1 t1) :
    drop_frame wD W1 (t ++ Action.ptl_info s :: t1) ∧
    responses_of (t ++ Action.ptl_info s :: t1) = responses_of t ++ responses_of t1 := by
  obtain ⟨a1, a2, _, a4, a5⟩ := h
  obtain ⟨b1, b2, b3, b4, b5⟩ := h1
  refine ⟨⟨b1.trans a1, b2.trans a2, b3, ?_, ?_⟩, ?_⟩
  · rw [b4]
    simp [World.log, a4]
  · intro a ha
    rcases List.mem_append.1 ha with ha | ha
    · exact a5 a ha
    · rcases List.mem_cons.1 ha with ha | ha
      · subst ha
        exact drop_call_info s hs
      · exact b5 a ha
  · simp [responses_of, List.filterMap_append]

theorem drop_inv_outcome (wD W : World) (s : tgt_state) (h : drop_inv wD s W) :
    drop_outcome wD W := by
  obtain ⟨_, ⟨t, hf, hr⟩, _⟩ := h
  refine ⟨t, hf, ?_⟩
  split_ifs at hr with hp
  · rw [hr]
    exact ⟨by simp, by simp⟩
  · exact hr

theorem drop_turn (K : Consts) (C : Collab) (wD W : World) (s : tgt_state)
    (hc : wD.buf.event_mask.XT_COMM_EVENT = false)
    (hct : wD.buf.event_mask.XT_CT_COMM_EVENT = false)
    (hI : drop_inv wD s W)
    (h1 : s ≠ STATE_TGT_ERROR) (h2 : s ≠ STATE_TGT_CLEANUP_2) (h3 : s ≠ STATE_TGT_DONE) :
    drop_outcome wD (RuntimeDevel.tgt_handler K C s (W.log (Action.ptl_info s))).world ∧
    ∀ W1 s1, RuntimeDevel.tgt_handler K C s (W.log (Action.ptl_info s)) = step_t.next W1 s1 →
      drop_inv wD s1 W1 ∧ drop_inv wD s1 { W1 with buf.tgt_state := s1 } := by
  obtain ⟨hs, ⟨t, hf, hr⟩, hpre, hres, _⟩ := hI
  have hle : (W.log (Action.ptl_info s)).buf.le = none := hf.2.2.1
  have key : ∀ (W1 : World) (s1 : tgt_state) (t1 : List Action),
      drop_frame (W.log (Action.ptl_info s)) W1 t1 → on_drop_path s1 = true →
      s1 ≠ STATE_TGT_DONE →
      (if phase s1 ≤ 2 then responses_of (t ++ Action.ptl_info s :: t1) = []
        else (responses_of (t ++ Action.ptl_info s :: t1)).length ≤ 1 ∧
          ∀ r ∈ responses_of (t ++ Action.ptl_info s :: t1), r.ni_fail = wD.buf.ni_fail) →
      (phase s1 ≤ 2 → W1.buf.ni_fail = wD.buf.ni_fail ∧
        W1.buf.event_mask = wD.buf.event_mask) →
      (phase s1 ≤ 2 → s1 ≠ STATE_TGT_DROP → W1.buf.put_resid = 0 ∧ W1.buf.get_resid = 0) →
      drop_inv wD s1 W1 ∧ drop_inv wD s1 { W1 with buf.tgt_state := s1 } := by
    intro W1 s1 t1 hf1 hp1 hd1 hr1 hpre1 hres1
    have hfs := (drop_frame_step wD W W1 s t t1 hs hf hf1).1
    refine ⟨⟨hp1, ⟨_, hfs, hr1⟩, hpre1, hres1, fun e => absurd e hd1⟩,
      ⟨hp1, ⟨_, ?_, hr1⟩, hpre1, hres1, fun e => absurd e hd1⟩⟩
    obtain ⟨g1, g2, g3, g4, g5⟩ := hfs
    exact ⟨g1, g2, g3, g4, g5⟩
  cases s
  case STATE_TGT_ERROR => exact absurd rfl h1
  case STATE_TGT_CLEANUP_2 => exact absurd rfl h2
  case STATE_TGT_DONE => exact absurd rfl h3
  case STATE_TGT_DROP =>
    have hr0 : responses_of t = [] := by simpa [phase] using hr
    obtain ⟨hn, hm⟩ := hpre (by decide)
    obtain ⟨W1, s1, e, es, f, _, g1, g2, g3, g4, _⟩ :=
      request_drop_frame (W.log (Action.ptl_info STATE_TGT_DROP)) hle
    rw [tgt_handler_DROP, e]
    have hrs := (drop_frame_step wD W W1 _ t [] hs hf f).2
    refine ⟨⟨_, (drop_frame_step wD W W1 _ t [] hs hf f).1, by rw [hrs, hr0]; simp [responses_of],
      by rw [hrs, hr0]; simp [responses_of]⟩, ?_⟩
    intro W2 s2 e2
    cases e2
    have hrn : responses_of (t ++ Action.ptl_info STATE_TGT_DROP :: []) = [] := by
      rw [hrs, hr0]
      rfl
    refine key W1 s1 [] f ?_ ?_ ?_ (fun _ => ⟨g1.trans hn, g2.trans hm⟩) (fun _ _ => ⟨g3, g4⟩)
    · rw [es]; split_ifs <;> rfl
    · rw [es]; split_ifs <;> decide
    · rw [hrn]
      split_ifs <;> simp
  case STATE_TGT_WAIT_CONN =>
    have hr0 : responses_of t = [] := by simpa [phase] using hr
    obtain ⟨hn, hm⟩ := hpre (by decide)
    obtain ⟨hp, hg⟩ := hres (by decide) (by decide)
    obtain ⟨W1, s1, t1, e, es, _, f, fr, fb⟩ :=
      tgt_wait_conn_frame K C (W.log (Action.ptl_info STATE_TGT_WAIT_CONN)) hle
    rw [tgt_handler_WAIT_CONN, e]
    have hrs := (drop_frame_step wD W W1 _ t t1 hs hf f).2
    have hrn : responses_of (t ++ Action.ptl_info STATE_TGT_WAIT_CONN :: t1) = [] := by
      rw [hrs, hr0, fr]
      rfl
    refine ⟨⟨_, (drop_frame_step wD W W1 _ t t1 hs hf f).1, by rw [hrn]; simp,
      by rw [hrn]; simp⟩, ?_⟩
    intro W2 s2 e2
    cases e2
    refine key W1 s1 t1 f ?_ ?_ ?_
      (fun _ => ⟨(congrArg buf_t.ni_fail fb).trans hn, (congrArg buf_t.event_mask fb).trans hm⟩)
      (fun _ _ => ⟨(congrArg buf_t.put_resid fb).trans hp,
        (congrArg buf_t.get_resid fb).trans hg⟩)
    · rcases es with es | es | es <;> rw [es] <;> rfl
    · rcases es with es | es | es <;> rw [es] <;> decide
    · rw [hrn]
      split_ifs <;> simp
  case STATE_TGT_DATA =>
    have hr0 : responses_of t = [] := by simpa [phase] using hr
    obtain ⟨hn, hm⟩ := hpre (by decide)
    obtain ⟨hp, hg⟩ := hres (by decide) (by decide)
    obtain ⟨W1, t1, e, f, fr, fb, _⟩ :=
      tgt_data_frame K (W.log (Action.ptl_info STATE_TGT_DATA)) hle hp hg
    rw [tgt_handler_DATA, e]
    have hrs := (drop_frame_step wD W W1 _ t t1 hs hf f).2
    have hrn : responses_of (t ++ Action.ptl_info STATE_TGT_DATA :: t1) = [] := by
      rw [hrs, hr0, fr]
      rfl
    refine ⟨⟨_, (drop_frame_step wD W W1 _ t t1 hs hf f).1, by rw [hrn]; simp,
      by rw [hrn]; simp⟩, ?_⟩
    intro W2 s2 e2
    cases e2
    obtain ⟨b1, b2, b3, b4, _⟩ := fb
    exact key W1 STATE_TGT_COMM_EVENT t1 f rfl (by decide) (by rw [hrn]; rfl)
      (fun _ => ⟨b1.trans hn, b2.trans hm⟩) (fun _ _ => ⟨b3.trans hp, b4.trans hg⟩)
  case STATE_TGT_COMM_EVENT =>
    have hr0 : responses_of t = [] := by simpa [phase] using hr
    obtain ⟨hn, hm⟩ := hpre (by decide)
    obtain ⟨hp, hg⟩ := hres (by decide) (by decide)
    have hm1 : (W.log (Action.ptl_info STATE_TGT_COMM_EVENT)).buf.event_mask =
      wD.buf.event_mask := hm
    have e := tgt_comm_event_quiet (W.log (Action.ptl_info STATE_TGT_COMM_EVENT))
      (by rw [hm1]; exact hc) (by rw [hm1]; exact hct)
    rw [tgt_handler_COMM_EVENT, e]
    have f : drop_frame (W.log (Action.ptl_info STATE_TGT_COMM_EVENT))
        (W.log (Action.ptl_info STATE_TGT_COMM_EVENT)) [] :=
      ⟨rfl, rfl, hle, by simp, by simp⟩
    have hrs := (drop_frame_step wD W _ _ t [] hs hf f).2
    have hrn : responses_of (t ++ Action.ptl_info STATE_TGT_COMM_EVENT :: []) = [] := by
      rw [hrs, hr0]
      rfl
    refine ⟨⟨_, (drop_frame_step wD W _ _ t [] hs hf f).1, by rw [hrn]; simp,
      by rw [hrn]; simp⟩, ?_⟩
    intro W2 s2 e2
    cases e2
    refine key _ _ [] f ?_ ?_ ?_ (fun _ => ⟨hn, hm⟩) (fun _ _ => ⟨hp, hg⟩)
    · split_ifs <;> rfl
    · split_ifs <;> decide
    · rw [hrn]
      split_ifs <;> simp
  case STATE_TGT_SEND_ACK =>
    have hr0 : responses_of t = [] := by simpa [phase] using hr
    obtain ⟨hn, _⟩ := hpre (by decide)
    obtain ⟨t1, st, _⟩ := tgt_send_ack_step K C (W.log (Action.ptl_info STATE_TGT_SEND_ACK))
    obtain ⟨f, fl, fn, _⟩ := send_drop_frame _ _ t1 hle st
      (tgt_send_ack_ext K C (W.log (Action.ptl_info STATE_TGT_SEND_ACK)) hle)
    have hn1 : (W.log (Action.ptl_info STATE_TGT_SEND_ACK)).buf.ni_fail = wD.buf.ni_fail := hn
    rw [hn1] at fn
    rw [tgt_handler_SEND_ACK]
    have hrs := (drop_frame_step wD W _ _ t t1 hs hf f).2
    have hrn : responses_of (t ++ Action.ptl_info STATE_TGT_SEND_ACK :: t1) =
        responses_of t1 := by
      rw [hrs, hr0]
      rfl
    refine ⟨⟨_, (drop_frame_step wD W _ _ t t1 hs hf f).1, by rw [hrn]; exact fl,
      by rw [hrn]; exact fn⟩, ?_⟩
    intro W2 s2 e2
    have hg := (goes_iff _ _).1
      (tgt_send_ack_goes K C (W.log (Action.ptl_info STATE_TGT_SEND_ACK))) s2 (by rw [e2]; rfl)
    rw [e2] at f
    have hs2 : s2 = STATE_TGT_ERROR ∨ s2 = STATE_TGT_CLEANUP := by
      simpa [follows] using hg
    refine key W2 s2 t1 f ?_ ?_ ?_ ?_ ?_
    · rcases hs2 with e | e <;> rw [e] <;> rfl
    · rcases hs2 with e | e <;> rw [e] <;> decide
    · rw [hrn]
      rcases hs2 with e | e <;> rw [e] <;> exact ⟨fl, fn⟩
    · rcases hs2 with e | e <;> rw [e] <;> intro hh <;> exact absurd hh (by decide)
    · rcases hs2 with e | e <;> rw [e] <;> intro hh <;> exact absurd hh (by decide)
  case STATE_TGT_SEND_REPLY =>
    have hr0 : responses_of t = [] := by simpa [phase] using hr
    obtain ⟨hn, _⟩ := hpre (by decide)
    obtain ⟨t1, st, _⟩ := tgt_send_reply_step K C (W.log (Action.ptl_info STATE_TGT_SEND_REPLY))
    obtain ⟨f, fl, fn, _⟩ := send_drop_frame _ _ t1 hle st
      (tgt_send_reply_ext K C (W.log (Action.ptl_info STATE_TGT_SEND_REPLY)) hle)
    have hn1 : (W.log (Action.ptl_info STATE_TGT_SEND_REPLY)).buf.ni_fail = wD.buf.ni_fail := hn
    rw [hn1] at fn
    rw [tgt_handler_SEND_REPLY]
    have hrs := (drop_frame_step wD W _ _ t t1 hs hf f).2
    have hrn : responses_of (t ++ Action.ptl_info STATE_TGT_SEND_REPLY :: t1) =
        responses_of t1 := by
      rw [hrs, hr0]
      rfl
    refine ⟨⟨_, (drop_frame_step wD W _ _ t t1 hs hf f).1, by rw [hrn]; exact fl,
      by rw [hrn]; exact fn⟩, ?_⟩
    intro W2 s2 e2
    have hg := (goes_iff _ _).1
      (tgt_send_reply_goes K C (W.log (Action.ptl_info STATE_TGT_SEND_REPLY))) s2
      (by rw [e2]; rfl)
    rw [e2] at f
    have hs2 : s2 = STATE_TGT_ERROR ∨ s2 = STATE_TGT_CLEANUP := by
      simpa [follows] using hg
    refine key W2 s2 t1 f ?_ ?_ ?_ ?_ ?_
    · rcases hs2 with e | e <;> rw [e] <;> rfl
    · rcases hs2 with e | e <;> rw [e] <;> decide
    · rw [hrn]
      rcases hs2 with e | e <;> rw [e] <;> exact ⟨fl, fn⟩
    · rcases hs2 with e | e <;> rw [e] <;> intro hh <;> exact absurd hh (by decide)
    · rcases hs2 with e | e <;> rw [e] <;> intro hh <;> exact absurd hh (by decide)
  case STATE_TGT_CLEANUP =>
    have hr3 : (responses_of t).length ≤ 1 ∧ ∀ r ∈ responses_of t, r.ni_fail = wD.buf.ni_fail := by
      simpa [phase] using hr
    obtain ⟨t1, f, fr, _, fs, _⟩ :=
      tgt_cleanup_drop K (W.log (Action.ptl_info STATE_TGT_CLEANUP)) hle
    rw [tgt_handler_CLEANUP]
    have hrs := (drop_frame_step wD W _ _ t t1 hs hf f).2
    have hrn : responses_of (t ++ Action.ptl_info STATE_TGT_CLEANUP :: t1) = responses_of t := by
      rw [hrs, fr, List.append_nil]
    refine ⟨⟨_, (drop_frame_step wD W _ _ t t1 hs hf f).1, by rw [hrn]; exact hr3.1,
      by rw [hrn]; exact hr3.2⟩, ?_⟩
    intro W2 s2 e2
    have hs2 := fs s2 (by rw [e2]; rfl)
    subst hs2
    rw [e2] at f
    exact key W2 STATE_TGT_CLEANUP_2 t1 f rfl (by decide) (by rw [hrn]; exact hr3)
      (fun hh => absurd hh (by decide)) (fun hh => absurd hh (by decide))
  all_goals exact absurd hs (by decide)

theorem drop_inv_post (wD W W1 : World) (s s1 : tgt_state) (t1 : List Action)
    (hI : drop_inv wD s W) (hp : phase s = 3) (hp1 : phase s1 = 3)
    (hs1 : on_drop_path s1 = true)
    (hf : drop_frame (W.log (Action.ptl_info s)) W1 t1) (hr : responses_of t1 = [])
    (hd : s1 = STATE_TGT_DONE → W1.buf.tgt_state = STATE_TGT_DONE) :
    drop_inv wD s1 W1 := by
  obtain ⟨hs, ⟨t, hft, hrt⟩, _, _, _⟩ := hI
  obtain ⟨f1, f2⟩ := drop_frame_step wD W W1 s t t1 hs hft hf
  have hrt3 : (responses_of t).length ≤ 1 ∧ ∀ r ∈ responses_of t, r.ni_fail = wD.buf.ni_fail := by
    simpa [hp] using hrt
  refine ⟨hs1, ⟨_, f1, ?_⟩, ?_, ?_, hd⟩
  · rw [f2, hr, List.append_nil]
    simpa [hp1] using hrt3
  · intro h
    omega
  · intro h
    omega

theorem drop_inv_err (wD W : World) (h : drop_inv wD STATE_TGT_ERROR W) :
    drop_inv wD STATE_TGT_CLEANUP
      (if (W.log (Action.ptl_info STATE_TGT_ERROR)).buf.in_atomic != 0 then
        RuntimeDevel.atomic_unlock (W.log (Action.ptl_info STATE_TGT_ERROR))
       else W.log (Action.ptl_info STATE_TGT_ERROR)) := by
  have hle : (W.log (Action.ptl_info STATE_TGT_ERROR)).buf.le = none := h.2.1.choose_spec.1.2.2.1
  split_ifs
  · exact drop_inv_post wD W _ STATE_TGT_ERROR STATE_TGT_CLEANUP [Action.atomic_mutex_unlock]
      h rfl rfl rfl
      ⟨rfl, rfl, hle, by simp [RuntimeDevel.atomic_unlock, World.log], by simp [drop_call]⟩
      rfl (fun e => by cases e)
  · exact drop_inv_post wD W _ STATE_TGT_ERROR STATE_TGT_CLEANUP [] h rfl rfl rfl
      ⟨rfl, rfl, hle, by simp, by simp⟩ rfl (fun e => by cases e)

theorem drop_inv_c2 (wD W : World) (h : drop_inv wD STATE_TGT_CLEANUP_2 W) :
    drop_inv wD STATE_TGT_DONE
      ({ (RuntimeDevel.tgt_cleanup_2 (W.log (Action.ptl_info STATE_TGT_CLEANUP_2))) with
          buf.tgt_state := STATE_TGT_DONE }.log Action.buf_put) ∧
    (responses_of ({ (RuntimeDevel.tgt_cleanup_2 (W.log (Action.ptl_info STATE_TGT_CLEANUP_2))) with
          buf.tgt_state := STATE_TGT_DONE }.log Action.buf_put).trace).length =
      (responses_of W.trace).length := by
  have hle : (W.log (Action.ptl_info STATE_TGT_CLEANUP_2)).buf.le = none :=
    h.2.1.choose_spec.1.2.2.1
  obtain ⟨t1, ⟨f1, f2, f3, f4, f5⟩, fr, _⟩ :=
    tgt_cleanup_2_drop (W.log (Action.ptl_info STATE_TGT_CLEANUP_2)) hle
  constructor
  · refine drop_inv_post wD W _ STATE_TGT_CLEANUP_2 STATE_TGT_DONE (t1 ++ [Action.buf_put])
      h rfl rfl rfl ⟨f1, f2, f3, ?_, ?_⟩ ?_ (fun _ => rfl)
    · simp only [World.log] at f4 ⊢
      rw [f4]
      simp
    · intro a ha
      rcases List.mem_append.1 ha with ha | ha
      · exact f5 a ha
      · rw [List.mem_singleton] at ha
        subst ha
        rfl
    · unfold responses_of at fr ⊢
      rw [List.filterMap_append, fr]
      rfl
  · simp only [World.log] at f4 ⊢
    rw [f4]
    unfold responses_of at fr ⊢
    simp [List.filterMap_append, fr]

theorem drop_inv_loop (K : Consts) (C : Collab) (wD : World)
    (hc : wD.buf.event_mask.XT_COMM_EVENT = false)
    (hct : wD.buf.event_mask.XT_CT_COMM_EVENT = false)
    (n : Nat) (s : tgt_state) (err : Bool) (W : World) (hI : drop_inv wD s W) :
    (RuntimeDevel.process_tgt_loop K C n s err W).holds
      (fun W1 => drop_inv wD W1.buf.tgt_state W1) (drop_outcome wD) := by
  refine loop_invariant K C (drop_inv wD) _ _ ?_ ?_ ?_ ?_ ?_ ?_ n s err W hI
  · intro s W h
    exact drop_inv_outcome wD W s h
  · intro W h
    exact drop_inv_err wD W h
  · intro W h
    exact (drop_inv_c2 wD W h).1
  · intro W h
    have hd : (W.log (Action.ptl_info STATE_TGT_DONE)).buf.tgt_state = STATE_TGT_DONE :=
      h.2.2.2.2 rfl
    have hle : (W.log (Action.ptl_info STATE_TGT_DONE)).buf.le = none :=
      h.2.1.choose_spec.1.2.2.1
    have := drop_inv_post wD W (W.log (Action.ptl_info STATE_TGT_DONE)) STATE_TGT_DONE
      STATE_TGT_DONE [] h rfl rfl rfl ⟨rfl, rfl, hle, by simp, by simp⟩ rfl (fun _ => hd)
    show drop_inv wD (W.log (Action.ptl_info STATE_TGT_DONE)).buf.tgt_state _
    rw [hd]
    exact this
  · intro s W W1 h hh
    by_cases h1 : s = STATE_TGT_ERROR
    · subst h1
      cases hh
    by_cases h2 : s = STATE_TGT_CLEANUP_2
    · subst h2
      cases hh
    by_cases h3 : s = STATE_TGT_DONE
    · subst h3
      cases hh
    have := (drop_turn K C wD W s hc hct h h1 h2 h3).1
    rw [hh] at this
    exact this
  · intro s W W1 s1 h h1 h2 h3 hh
    obtain ⟨i1, i2⟩ := (drop_turn K C wD W s hc hct h h1 h2 h3).2 W1 s1 hh
    exact ⟨i1, fun _ => i2⟩

theorem drop_inv_reach (K : Consts) (C : Collab) (wD W1 W : World)
    (hc : wD.buf.event_mask.XT_COMM_EVENT = false)
    (hct : wD.buf.event_mask.XT_CT_COMM_EVENT = false)
    (h1 : drop_inv wD W1.buf.tgt_state W1) (h : reach K C conn_change W1 W) :
    drop_inv wD W.buf.tgt_state W := by
  induction h with
  | start => exact h1
  | call w W fuel err _ hcall ih =>
    have := drop_inv_loop K C wD hc hct fuel w.buf.tgt_state false w ih
    unfold RuntimeDevel.process_tgt at hcall
    rw [hcall] at this
    exact this
  | env w W _ he ih =>
    obtain ⟨e1, e2, e3, e4⟩ := he
    obtain ⟨a1, ⟨t, ⟨b1, b2, b3, b4, b5⟩, b6⟩, a3, a4, a5⟩ := ih
    rw [e3]
    exact ⟨a1, ⟨t, ⟨e1.trans b1, e2.trans b2, by rw [e3]; exact b3, e4.trans b4, b5⟩, b6⟩,
      by rw [e3]; exact a3, by rw [e3]; exact a4, by rw [e3]; exact a5⟩

theorem loop_refused (K : Consts) (C : Collab) (w : World) (pi h : Nat) (l : ptl_list_t)
    (n : Nat) (err : Bool)
    (hpt : w.buf.pt = some pi)
    (hm : RuntimeDevel.find_match K w (w.pt pi) = some (l, h))
    (hperm : RuntimeDevel.check_perm K w.buf (w.les h) ≠ PTL_NI_OK) :
    RuntimeDevel.process_tgt_loop K C (n + 1) STATE_TGT_GET_MATCH err w =
      RuntimeDevel.process_tgt_loop K C n STATE_TGT_DROP err (refused K w h) := by
  apply loop_next K C n STATE_TGT_GET_MATCH err w _ _ (by decide) _ (by decide)
  rw [tgt_handler_GET_MATCH,
    tgt_get_match_perm K (w.log (Action.ptl_info STATE_TGT_GET_MATCH)) pi h l hpt hm hperm]
  simp [refused, World.log]

theorem refused_inv (K : Consts) (w : World) (h : Nat) :
    drop_inv (refused K w h) STATE_TGT_DROP (refused K w h) :=
  ⟨rfl, ⟨[], ⟨rfl, rfl, rfl, by simp, by simp⟩, by simp [phase, responses_of]⟩,
    fun _ => ⟨rfl, rfl⟩, fun _ e => absurd rfl e, fun e => by cases e⟩

theorem step_next_of_state (r : step_t) (s1 : tgt_state) (h : r.state = some s1) :
    r = step_t.next r.world s1 := by
  cases r with
  | next w s => cases h; rfl
  | abort w => cases h

theorem responses_of_turn (T : List Action) (s : tgt_state) (t : List Action) :
    (responses_of (T ++ Action.ptl_info s :: t)).length =
      (responses_of T).length + (responses_of t).length := by
  simp [responses_of, List.filterMap_append]

theorem answer_turn (K : Consts) (C : Collab) (wD W : World) (n : Nat) (s : tgt_state)
    (hc : wD.buf.event_mask.XT_COMM_EVENT = false)
    (hct : wD.buf.event_mask.XT_CT_COMM_EVENT = false)
    (hans : can_answer K wD)
    (hI : answer_inv K wD (n + 1) s W)
    (h1 : s ≠ STATE_TGT_ERROR) (h2 : s ≠ STATE_TGT_CLEANUP_2) :
    ∃ W1 s1, RuntimeDevel.tgt_handler K C s (W.log (Action.ptl_info s)) = step_t.next W1 s1 ∧
      answer_inv K wD n s1 W1 ∧ (RuntimeDevel.tgt_suspends s && s1 == s) = false := by
  obtain ⟨hd, hrk, h3, hml, hpre, hsa, hsr, hcnt⟩ := hI
  have hturn := (drop_turn K C wD W s hc hct hd h1 h2 h3).2
  obtain ⟨hs, ⟨t, hf, _⟩, hbuf, hres, _⟩ := hd
  have hle : (W.log (Action.ptl_info s)).buf.le = none := hf.2.2.1
  have howed : (wD.buf.event_mask.XT_ACK_EVENT || wD.buf.event_mask.XT_REPLY_EVENT) = true := by
    cases hr : wD.buf.event_mask.XT_REPLY_EVENT
    · rw [(hans.2 hr).1]
      rfl
    · simp
  cases s
  case STATE_TGT_ERROR => exact absurd rfl h1
  case STATE_TGT_CLEANUP_2 => exact absurd rfl h2
  case STATE_TGT_DONE => exact absurd rfl h3
  case STATE_TGT_DROP =>
    obtain ⟨_, hm⟩ := hbuf (by decide)
    obtain ⟨p1, p2, p3, p4⟩ := hpre (by decide)
    obtain ⟨q1, q2⟩ := hml (by decide)
    obtain ⟨W1, s1, e, es, f, g0, _, _, _, _, g5, g6, g7, g8, g9, _⟩ :=
      request_drop_frame (W.log (Action.ptl_info STATE_TGT_DROP)) hle
    have hm1 : (W.log (Action.ptl_info STATE_TGT_DROP)).buf.event_mask = wD.buf.event_mask := hm
    rw [hm1, howed] at es
    simp only [↓reduceIte] at es
    subst es
    rw [tgt_handler_DROP, e]
    refine ⟨_, _, rfl, ⟨(hturn _ _ (by rw [tgt_handler_DROP, e])).1, by simp only [drop_rank] at hrk ⊢; omega,
      by decide, fun _ => ⟨g8.trans q1, g9.trans q2⟩,
      fun _ => ⟨by rw [g0]; exact p1, g5.trans p2, g6.trans p3, g7.trans p4⟩,
      (fun e => by cases e), (fun e => by cases e), ?_⟩, rfl⟩
    rw [f.2.2.2.1]
    simp only [World.log, phase] at hcnt ⊢
    simpa [responses_of, List.filterMap_append] using hcnt
  case STATE_TGT_WAIT_CONN =>
    obtain ⟨p1, p2, p3, p4⟩ := hpre (by decide)
    obtain ⟨q1, q2⟩ := hml (by decide)
    obtain ⟨W1, s1, t1, e, _, ec, f, fr, fb⟩ :=
      tgt_wait_conn_frame K C (W.log (Action.ptl_info STATE_TGT_WAIT_CONN)) hle
    obtain ⟨es, econn⟩ := ec p1
    subst es
    rw [tgt_handler_WAIT_CONN, e]
    refine ⟨_, _, rfl, ⟨(hturn _ _ (by rw [tgt_handler_WAIT_CONN, e])).1,
      by simp only [drop_rank] at hrk ⊢; omega,
      by decide, fun _ => ⟨(congrArg buf_t.matching_le fb).trans q1,
        (congrArg buf_t.indir_sge fb).trans q2⟩,
      fun _ => ⟨by rw [econn]; exact p1, (congrArg buf_t.send_buf fb).trans p2,
        (congrArg buf_t.has_mem_buf fb).trans p3,
        (congrArg (fun b => b.data.ack_req) fb).trans p4⟩,
      (fun e => by cases e), (fun e => by cases e), ?_⟩, rfl⟩
    rw [f.2.2.2.1]
    simp only [World.log, phase] at hcnt ⊢
    rw [List.append_assoc, List.singleton_append, responses_of_turn, fr]
    simpa using hcnt
  case STATE_TGT_DATA =>
    obtain ⟨hp, hg⟩ := hres (by decide) (by decide)
    obtain ⟨p1, p2, p3, p4⟩ := hpre (by decide)
    obtain ⟨q1, q2⟩ := hml (by decide)
    obtain ⟨W1, t1, e, f, fr, ⟨_, _, _, _, b5, b6, b7, b8, b9, _⟩, econn⟩ :=
      tgt_data_frame K (W.log (Action.ptl_info STATE_TGT_DATA)) hle hp hg
    rw [tgt_handler_DATA, e]
    refine ⟨_, _, rfl, ⟨(hturn _ _ (by rw [tgt_handler_DATA, e])).1,
      by simp only [drop_rank] at hrk ⊢; omega,
      by decide, fun _ => ⟨b8.trans q1, b9.trans q2⟩,
      fun _ => ⟨by rw [econn]; exact p1, b5.trans p2, b6.trans p3, b7.trans p4⟩,
      (fun e => by cases e), (fun e => by cases e), ?_⟩, rfl⟩
    rw [f.2.2.2.1]
    simp only [World.log, phase] at hcnt ⊢
    rw [List.append_assoc, List.singleton_append, responses_of_turn, fr]
    simpa using hcnt
  case STATE_TGT_COMM_EVENT =>
    obtain ⟨_, hm⟩ := hbuf (by decide)
    obtain ⟨p1, p2, p3, p4⟩ := hpre (by decide)
    obtain ⟨q1, q2⟩ := hml (by decide)
    have hm1 : (W.log (Action.ptl_info STATE_TGT_COMM_EVENT)).buf.event_mask =
      wD.buf.event_mask := hm
    have e := tgt_comm_event_quiet (W.log (Action.ptl_info STATE_TGT_COMM_EVENT))
      (by rw [hm1]; exact hc) (by rw [hm1]; exact hct)
    rw [hm1] at e
    rw [tgt_handler_COMM_EVENT, e]
    have hcn : (responses_of (W.log (Action.ptl_info STATE_TGT_COMM_EVENT)).trace).length =
        (responses_of wD.trace).length := by
      simp only [World.log, phase] at hcnt ⊢
      simpa [responses_of, List.filterMap_append] using hcnt
    cases hr : wD.buf.event_mask.XT_REPLY_EVENT
    · have ha := (hans.2 hr).1
      simp only [ha, Bool.false_eq_true, ↓reduceIte]
      have i1 := (hturn _ _ (by rw [tgt_handler_COMM_EVENT, e])).1
      simp only [hr, ha, Bool.false_eq_true, ↓reduceIte] at i1
      exact ⟨_, _, rfl, ⟨i1, by simp only [drop_rank] at hrk ⊢; omega, by decide,
        fun _ => ⟨q1, q2⟩, fun _ => ⟨p1, p2, p3, p4⟩, fun _ => hr, (fun e => by cases e),
        by simpa [phase] using hcn⟩, rfl⟩
    · simp only [↓reduceIte]
      have i1 := (hturn _ _ (by rw [tgt_handler_COMM_EVENT, e])).1
      simp only [hr, ↓reduceIte] at i1
      exact ⟨_, _, rfl, ⟨i1, by simp only [drop_rank] at hrk ⊢; omega, by decide,
        fun _ => ⟨q1, q2⟩, fun _ => ⟨p1, p2, p3, p4⟩, (fun e => by cases e), fun _ => hr,
        by simpa [phase] using hcn⟩, rfl⟩
  case STATE_TGT_SEND_ACK =>
    obtain ⟨_, p2, p3, p4⟩ := hpre (by decide)
    obtain ⟨q1, q2⟩ := hml (by decide)
    obtain ⟨_, hv, hcr⟩ := hans.2 (hsa rfl)
    obtain ⟨t1, st, hpos⟩ := tgt_send_ack_step K C (W.log (Action.ptl_info STATE_TGT_SEND_ACK))
    obtain ⟨f, _, _, m1, m2, _⟩ := send_drop_frame _ _ t1 hle st
      (tgt_send_ack_ext K C (W.log (Action.ptl_info STATE_TGT_SEND_ACK)) hle)
    have hcan : can_respond K (W.log (Action.ptl_info STATE_TGT_SEND_ACK)) := by
      unfold can_respond at hcr ⊢
      rw [show (W.log (Action.ptl_info STATE_TGT_SEND_ACK)).buf.send_buf = wD.buf.send_buf from p2,
        show (W.log (Action.ptl_info STATE_TGT_SEND_ACK)).buf.has_mem_buf =
          wD.buf.has_mem_buf from p3]
      exact hcr
    obtain ⟨hst, hone⟩ := hpos (by
      rw [show (W.log (Action.ptl_info STATE_TGT_SEND_ACK)).buf.data.ack_req =
        wD.buf.data.ack_req from p4]
      exact hv) hcan
    have hcn : (responses_of (RuntimeDevel.tgt_send_ack K C
        (W.log (Action.ptl_info STATE_TGT_SEND_ACK))).world.trace).length =
        (responses_of wD.trace).length + 1 := by
      rw [f.2.2.2.1]
      simp only [World.log, phase] at hcnt ⊢
      rw [List.append_assoc, List.singleton_append, responses_of_turn, hone]
      simpa using hcnt
    rw [tgt_handler_SEND_ACK]
    rcases hst with hst | hst
    · have e := step_next_of_state _ _ hst
      refine ⟨_, _, e, ⟨(hturn _ _ (by rw [tgt_handler_SEND_ACK]; exact e)).1,
        by simp only [drop_rank] at hrk ⊢; omega, by decide,
        fun _ => ⟨m1.trans q1, m2.trans q2⟩, fun hh => absurd hh (by decide),
        (fun e => by cases e), (fun e => by cases e), by simpa [phase] using hcn⟩, rfl⟩
    · have e := step_next_of_state _ _ hst
      refine ⟨_, _, e, ⟨(hturn _ _ (by rw [tgt_handler_SEND_ACK]; exact e)).1,
        by simp only [drop_rank] at hrk ⊢; omega, by decide,
        fun _ => ⟨m1.trans q1, m2.trans q2⟩, fun hh => absurd hh (by decide),
        (fun e => by cases e), (fun e => by cases e), by simpa [phase] using hcn⟩, rfl⟩
  case STATE_TGT_SEND_REPLY =>
    obtain ⟨_, p2, _, _⟩ := hpre (by decide)
    obtain ⟨q1, q2⟩ := hml (by decide)
    have hsb := hans.1 (hsr rfl)
    obtain ⟨t1, st, hpos⟩ := tgt_send_reply_step K C (W.log (Action.ptl_info STATE_TGT_SEND_REPLY))
    obtain ⟨f, _, _, m1, m2, _⟩ := send_drop_frame _ _ t1 hle st
      (tgt_send_reply_ext K C (W.log (Action.ptl_info STATE_TGT_SEND_REPLY)) hle)
    obtain ⟨hst, hone⟩ := hpos (by
      rw [show (W.log (Action.ptl_info STATE_TGT_SEND_REPLY)).buf.send_buf =
        wD.buf.send_buf from p2]
      exact hsb)
    have hcn : (responses_of (RuntimeDevel.tgt_send_reply C
        (W.log (Action.ptl_info STATE_TGT_SEND_REPLY))).world.trace).length =
        (responses_of wD.trace).length + 1 := by
      rw [f.2.2.2.1]
      simp only [World.log, phase] at hcnt ⊢
      rw [List.append_assoc, List.singleton_append, responses_of_turn, hone]
      simpa using hcnt
    rw [tgt_handler_SEND_REPLY]
    rcases hst with hst | hst
    · have e := step_next_of_state _ _ hst
      refine ⟨_, _, e, ⟨(hturn _ _ (by rw [tgt_handler_SEND_REPLY]; exact e)).1,
        by simp only [drop_rank] at hrk ⊢; omega, by decide,
        fun _ => ⟨m1.trans q1, m2.trans q2⟩, fun hh => absurd hh (by decide),
        (fun e => by cases e), (fun e => by cases e), by simpa [phase] using hcn⟩, rfl⟩
    · have e := step_next_of_state _ _ hst
      refine ⟨_, _, e, ⟨(hturn _ _ (by rw [tgt_handler_SEND_REPLY]; exact e)).1,
        by simp only [drop_rank] at hrk ⊢; omega, by decide,
        fun _ => ⟨m1.trans q1, m2.trans q2⟩, fun hh => absurd hh (by decide),
        (fun e => by cases e), (fun e => by cases e), by simpa [phase] using hcn⟩, rfl⟩
  case STATE_TGT_CLEANUP =>
    obtain ⟨q1, q2⟩ := hml (by decide)
    obtain ⟨t1, f, fr, _, _, fs⟩ :=
      tgt_cleanup_drop K (W.log (Action.ptl_info STATE_TGT_CLEANUP)) hle
    have e := step_next_of_state _ _ (fs q1 q2)
    rw [tgt_handler_CLEANUP]
    refine ⟨_, _, e, ⟨(hturn _ _ (by rw [tgt_handler_CLEANUP]; exact e)).1,
      by simp only [drop_rank] at hrk ⊢; omega, by decide,
      fun hh => absurd rfl hh, fun hh => absurd hh (by decide),
      (fun e => by cases e), (fun e => by cases e), ?_⟩, rfl⟩
    rw [f.2.2.2.1]
    simp only [World.log, phase] at hcnt ⊢
    rw [List.append_assoc, List.singleton_append, responses_of_turn, fr]
    simpa using hcnt
  all_goals exact absurd hs (by decide)

theorem answer_loop (K : Consts) (C : Collab) (wD : World)
    (hc : wD.buf.event_mask.XT_COMM_EVENT = false)
    (hct : wD.buf.event_mask.XT_CT_COMM_EVENT = false)
    (hans : can_answer K wD)
    (n : Nat) (s : tgt_state) (err : Bool) (W : World) (hI : answer_inv K wD n s W) :
    (RuntimeDevel.process_tgt_loop K C n s err W).holds
      (fun W1 => W1.buf.tgt_state = STATE_TGT_DONE ∧ drop_outcome wD W1 ∧
        (responses_of W1.trace).length = (responses_of wD.trace).length + 1)
      (fun _ => False) := by
  refine loop_invariant_fuel K C (answer_inv K wD) _ _ ?_ ?_ ?_ ?_ ?_ ?_ n s err W hI
  · intro s W h
    obtain ⟨⟨hs, _⟩, hrk, h3, _⟩ := h
    cases s <;> first
      | exact absurd hs (by decide)
      | exact absurd rfl h3
      | (simp only [drop_rank] at hrk; omega)
  · intro n W h
    obtain ⟨hd, hrk, _, hml, _, _, _, hcnt⟩ := h
    obtain ⟨q1, q2⟩ := hml (by decide)
    refine ⟨drop_inv_err wD W hd, by simp only [drop_rank] at hrk ⊢; omega, by decide, ?_,
      fun hh => absurd hh (by decide), (fun e => by cases e), (fun e => by cases e), ?_⟩
    · intro _
      split_ifs
      · exact ⟨q1, q2⟩
      · exact ⟨q1, q2⟩
    · simp only [phase, ↓reduceIte] at hcnt ⊢
      split_ifs <;>
        simpa [RuntimeDevel.atomic_unlock, World.log, responses_of, List.filterMap_append]
          using hcnt
  · intro n W h
    obtain ⟨hd, _, _, _, _, _, _, hcnt⟩ := h
    obtain ⟨i1, i2⟩ := drop_inv_c2 wD W hd
    refine ⟨rfl, drop_inv_outcome wD _ _ i1, ?_⟩
    rw [i2]
    simpa [phase] using hcnt
  · intro n W h
    exact absurd rfl h.2.2.1
  · intro n s W W1 h hh
    by_cases h1 : s = STATE_TGT_ERROR
    · subst h1
      cases hh
    by_cases h2 : s = STATE_TGT_CLEANUP_2
    · subst h2
      cases hh
    obtain ⟨W2, s2, e, _⟩ := answer_turn K C wD W n s hc hct hans h h1 h2
    rw [e] at hh
    cases hh
  · intro n s W W1 s1 h h1 h2 _ hh
    obtain ⟨W2, s2, e, i, hsus⟩ := answer_turn K C wD W n s hc hct hans h h1 h2
    rw [e] at hh
    cases hh
    refine ⟨i, fun hh => ?_⟩
    rw [hsus] at hh
    cases hh

/-- C17 (as stated, refuted) where the response cannot leave: the PUT of uid 8
asks for an ack and its first matching element refuses it with
`PTL_NI_PERM_VIOLATION`, but the peer is not connected and `init_connect` fails, so
the run goes from `STATE_TGT_WAIT_CONN` to `STATE_TGT_ERROR` and sends no
response. -/
theorem perm_failure_path_counterexample :
    (RuntimeDevel.tgt_start sample_consts unreachable_collab
      stranger_world_disconnected).world.buf.event_mask.XT_ACK_EVENT = true ∧
    RuntimeDevel.find_match sample_consts
      (RuntimeDevel.tgt_start sample_consts unreachable_collab stranger_world_disconnected).world
      (stranger_world_disconnected.pt 0) = some (PTL_PRIORITY_LIST, 0) ∧
    RuntimeDevel.check_perm sample_consts
      (RuntimeDevel.tgt_start sample_consts unreachable_collab
        stranger_world_disconnected).world.buf sample_me = PTL_NI_PERM_VIOLATION ∧
    (RuntimeDevel.process_tgt sample_consts unreachable_collab 9
      stranger_world_disconnected).status = some true ∧
    states_of (RuntimeDevel.process_tgt sample_consts unreachable_collab 9
      stranger_world_disconnected).world.trace =
      [STATE_TGT_START, STATE_TGT_GET_MATCH, STATE_TGT_DROP, STATE_TGT_WAIT_CONN,
       STATE_TGT_ERROR, STATE_TGT_CLEANUP, STATE_TGT_CLEANUP_2] ∧
    responses_of (RuntimeDevel.process_tgt sample_consts unreachable_collab 9
      stranger_world_disconnected).world.trace = [] := by
  decide

/-- C17 (amended): the loop of `process_tgt` is in `STATE_TGT_GET_MATCH` in a
world `w` whose first matching element `h` fails `check_perm`, with the COMM and
CT_COMM bits of the buffer clear (as `tgt_start` leaves them). Then, for every call
and every re-entry after a wait for the connection: the reference taken on the
element is released at once and none is taken again, no byte of memory and no
element changes (so `me.offset` is unchanged and nothing is unlinked), none of the
data states is entered, no full communication event and no counting event is
posted, and at most one response is sent, which carries the violation code
(`drop_outcome`). If no response is owed the loop goes from `STATE_TGT_DROP`
straight to `STATE_TGT_CLEANUP`. If a response is owed and can be sent
(`can_answer`), the initiator is connected and the buffer is in the state
`tgt_start` leaves it in, `process_tgt` returns within nine turns with the buffer in
`STATE_TGT_DONE` and exactly one response sent, which carries the violation code. -/
theorem perm_failure_path (K : Consts) (C : Collab) (w : World) (pi h : Nat) (l : ptl_list_t)
    (hpt : w.buf.pt = some pi)
    (hm : RuntimeDevel.find_match K w (w.pt pi) = some (l, h))
    (hperm : RuntimeDevel.check_perm K w.buf (w.les h) ≠ PTL_NI_OK)
    (hc : w.buf.event_mask.XT_COMM_EVENT = false)
    (hct : w.buf.event_mask.XT_CT_COMM_EVENT = false) :
    (∀ n err, drop_outcome (refused K w h)
      (RuntimeDevel.process_tgt_loop K C (n + 1) STATE_TGT_GET_MATCH err w).world) ∧
    (∀ n err W1 e,
      RuntimeDevel.process_tgt_loop K C (n + 1) STATE_TGT_GET_MATCH err w =
        RuntimeDevel.run_result.returned W1 e →
      ∀ W, reach K C conn_change W1 W → ∀ fuel,
        drop_outcome (refused K w h) (RuntimeDevel.process_tgt K C fuel W).world) ∧
    (w.buf.event_mask.XT_ACK_EVENT = false → w.buf.event_mask.XT_REPLY_EVENT = false →
      ∀ n err,
        RuntimeDevel.process_tgt_loop K C (n + 2) STATE_TGT_GET_MATCH err w =
          RuntimeDevel.process_tgt_loop K C n STATE_TGT_CLEANUP err
            { (refused K w h) with
              buf := { (refused K w h).buf with start := none, put_resid := 0, get_resid := 0 },
              trace := (refused K w h).trace ++ [Action.ptl_info STATE_TGT_DROP] }) ∧
    (can_answer K w → w.conn.state ≥ K.CONN_STATE_CONNECTED →
      w.buf.matching_le = none → w.buf.indir_sge = false →
      ∀ n err, ∃ W e t,
        RuntimeDevel.process_tgt_loop K C (n + 9) STATE_TGT_GET_MATCH err w =
          RuntimeDevel.run_result.returned W e ∧
        W.buf.tgt_state = STATE_TGT_DONE ∧
        drop_frame (refused K w h) W t ∧ (responses_of t).length = 1 ∧
        ∀ r ∈ responses_of t, r.ni_fail = RuntimeDevel.check_perm K w.buf (w.les h)) := by
  have hcD : (refused K w h).buf.event_mask.XT_COMM_EVENT = false := hc
  have hctD : (refused K w h).buf.event_mask.XT_CT_COMM_EVENT = false := hct
  have hholds : ∀ n err, (RuntimeDevel.process_tgt_loop K C (n + 1) STATE_TGT_GET_MATCH err w).holds
      (fun W1 => drop_inv (refused K w h) W1.buf.tgt_state W1)
      (drop_outcome (refused K w h)) := by
    intro n err
    rw [loop_refused K C w pi h l n err hpt hm hperm]
    exact drop_inv_loop K C _ hcD hctD n STATE_TGT_DROP err _ (refused_inv K w h)
  refine ⟨?_, ?_, ?_, ?_⟩
  · intro n err
    have := hholds n err
    cases hres : RuntimeDevel.process_tgt_loop K C (n + 1) STATE_TGT_GET_MATCH err w with
    | returned W e =>
      rw [hres] at this
      exact drop_inv_outcome _ W _ this
    | aborted W =>
      rw [hres] at this
      exact this
    | out_of_fuel W s =>
      rw [hres] at this
      exact this
  · intro n err W1 e hret W hreach fuel
    have h1 := hholds n err
    rw [hret] at h1
    have hI := drop_inv_reach K C _ W1 W hcD hctD h1 hreach
    have := drop_inv_loop K C _ hcD hctD fuel W.buf.tgt_state false W hI
    unfold RuntimeDevel.process_tgt
    cases hres : RuntimeDevel.process_tgt_loop K C fuel W.buf.tgt_state false W with
    | returned W2 e2 =>
      rw [hres] at this
      exact drop_inv_outcome _ W2 _ this
    | aborted W2 =>
      rw [hres] at this
      exact this
    | out_of_fuel W2 s2 =>
      rw [hres] at this
      exact this
  · intro ha hr n err
    rw [loop_refused K C w pi h l (n + 1) err hpt hm hperm]
    apply loop_next K C n STATE_TGT_DROP err _ _ _ (by decide) _ (by decide)
    rw [tgt_handler_DROP]
    unfold RuntimeDevel.request_drop
    have ha1 : (refused K w h).buf.event_mask.XT_ACK_EVENT = false := ha
    have hr1 : (refused K w h).buf.event_mask.XT_REPLY_EVENT = false := hr
    simp [World.log, ha1, hr1]
  · intro hans hconn hml hind n err
    have hI : answer_inv K (refused K w h) (n + 8) STATE_TGT_DROP (refused K w h) :=
      ⟨refused_inv K w h, by simp only [drop_rank]; omega, by decide, fun _ => ⟨hml, hind⟩,
        fun _ => ⟨hconn, rfl, rfl, rfl⟩, (fun e => by cases e), (fun e => by cases e),
        by simp [phase]⟩
    have hl := answer_loop K C (refused K w h) hcD hctD hans (n + 8) STATE_TGT_DROP err _ hI
    rw [← loop_refused K C w pi h l (n + 8) err hpt hm hperm] at hl
    cases hres : RuntimeDevel.process_tgt_loop K C (n + 8 + 1) STATE_TGT_GET_MATCH err w with
    | returned W e =>
      rw [hres] at hl
      obtain ⟨d1, ⟨t, d2, _, d4⟩, d5⟩ := hl
      refine ⟨W, e, t, rfl, d1, d2, ?_, d4⟩
      rw [d2.2.2.2.1] at d5
      unfold responses_of at d5 ⊢
      rw [List.filterMap_append, List.length_append] at d5
      omega
    | aborted W =>
      rw [hres] at hl
      exact absurd hl id
    | out_of_fuel W s =>
      rw [hres] at hl
      exact absurd hl id

/-- C17 (witness): the PUT of uid 8, refused by the sample element, is
answered by one ack that carries `PTL_NI_PERM_VIOLATION`; the element memory stays
zero and the run never enters a data state. -/
theorem perm_failure_path_witness :
    (∃ W e t,
      RuntimeDevel.process_tgt_loop sample_consts sample_collab (0 + 9) STATE_TGT_GET_MATCH false
          stranger_world = RuntimeDevel.run_result.returned W e ∧
        W.buf.tgt_state = STATE_TGT_DONE ∧
        drop_frame (refused sample_consts stranger_world 0) W t ∧ (responses_of t).length = 1 ∧
        ∀ r ∈ responses_of t,
          r.ni_fail = RuntimeDevel.check_perm sample_consts stranger_world.buf
            (stranger_world.les 0)) ∧
    states_of (RuntimeDevel.process_tgt_loop sample_consts sample_collab 9 STATE_TGT_GET_MATCH
      false stranger_world).world.trace =
      [STATE_TGT_GET_MATCH, STATE_TGT_DROP, STATE_TGT_WAIT_CONN, STATE_TGT_DATA,
       STATE_TGT_COMM_EVENT, STATE_TGT_SEND_ACK, STATE_TGT_CLEANUP, STATE_TGT_CLEANUP_2] ∧
    (responses_of (RuntimeDevel.process_tgt_loop sample_consts sample_collab 9
      STATE_TGT_GET_MATCH false stranger_world).world.trace).map (fun r => r.ni_fail) =
      [PTL_NI_PERM_VIOLATION] :=
  ⟨(perm_failure_path sample_consts sample_collab stranger_world 0 0 PTL_PRIORITY_LIST
      rfl (by decide) (by decide) (by decide) (by decide)).2.2.2
      ⟨fun h => absurd h (by decide), fun _ => ⟨by decide, Or.inl (by decide), Or.inl (by decide)⟩⟩
      (by decide) (by decide) (by decide) 0 false,
    by decide, by decide⟩

/-- C21 (evaluated on the code): an ATOMIC request of zero bytes is matched by the
sample element, and an ATOMIC request of 8 bytes from uid 8 is refused with
`PTL_NI_PERM_VIOLATION` and owes an ack. In both runs `tgt_data` takes the atomic
mutex and sets `in_atomic`, both residuals are zero, so the run goes from
`STATE_TGT_DATA` to `STATE_TGT_COMM_EVENT` and on to `STATE_TGT_CLEANUP` without
passing a data-in state or `STATE_TGT_ERROR`: `process_tgt` returns with
`in_atomic = 1` and the mutex still held. -/
theorem atomic_mutex_left_held :
    (RuntimeDevel.process_tgt sample_consts sample_collab 9 zero_atomic_world).status =
      some false ∧
    states_of (RuntimeDevel.process_tgt sample_consts sample_collab 9 zero_atomic_world).world.trace =
      [STATE_TGT_START, STATE_TGT_GET_MATCH, STATE_TGT_GET_LENGTH, STATE_TGT_DATA,
       STATE_TGT_COMM_EVENT, STATE_TGT_SEND_ACK, STATE_TGT_CLEANUP, STATE_TGT_CLEANUP_2] ∧
    mutex_calls (RuntimeDevel.process_tgt sample_consts sample_collab 9 zero_atomic_world).world.trace =
      [true] ∧
    (RuntimeDevel.process_tgt sample_consts sample_collab 9 zero_atomic_world).world.buf.in_atomic
      = 1 ∧
    (RuntimeDevel.process_tgt sample_consts sample_collab 9
      zero_atomic_world).world.ni.atomic_mutex = 1 ∧
    (RuntimeDevel.process_tgt sample_consts sample_collab 9 refused_atomic_world).status =
      some false ∧
    states_of (RuntimeDevel.process_tgt sample_consts sample_collab 9
      refused_atomic_world).world.trace =
      [STATE_TGT_START, STATE_TGT_GET_MATCH, STATE_TGT_DROP, STATE_TGT_WAIT_CONN,
       STATE_TGT_DATA, STATE_TGT_COMM_EVENT, STATE_TGT_SEND_ACK, STATE_TGT_CLEANUP,
       STATE_TGT_CLEANUP_2] ∧
    mutex_calls (RuntimeDevel.process_tgt sample_consts sample_collab 9
      refused_atomic_world).world.trace = [true] ∧
    (RuntimeDevel.process_tgt sample_consts sample_collab 9
      refused_atomic_world).world.buf.in_atomic = 1 ∧
    (RuntimeDevel.process_tgt sample_consts sample_collab 9
      refused_atomic_world).world.ni.atomic_mutex = 1 := by
  decide

theorem tgt_overflow_event_eq (w : World) (m pi : Nat)
    (hm : w.buf.matching_le = some m) (hpt : w.buf.pt = some pi) :
    RuntimeDevel.tgt_overflow_event w =
      step_t.next
        { w with buf.matching_le := none, trace := w.trace ++ overflow_event_calls w m pi }
        STATE_TGT_CLEANUP_2 := by
  unfold RuntimeDevel.tgt_overflow_event overflow_event_calls overflow_event_kind
  simp only [hm, hpt]
  cases hod : (w.les m).options.PTL_LE_EVENT_OVER_DISABLE <;>
  cases hct : ((w.les m).options.PTL_LE_EVENT_CT_OVERFLOW && (w.les m).ct) <;>
  simp only [Bool.not_false, Bool.not_true, if_true, if_false, Bool.false_eq_true] <;>
  first
    | (split_ifs <;> simp [World.log, World.pt, hm, hpt])
    | simp [World.log, World.pt, hm, hpt]

/-- C24 (evaluated on the code): the late element has a counting event attached and
`PTL_LE_EVENT_CT_OVERFLOW`. Without `PTL_LE_EVENT_OVER_DISABLE`,
`tgt_overflow_event` posts `PTL_EVENT_PUT_OVERFLOW` and updates the counting event
once. With `PTL_LE_EVENT_OVER_DISABLE` also set, the update of the counting event
is skipped together with the full event: the only call is the release of the
element. -/
theorem overflow_count_skipped :
    (late_counting_le true).ct = true ∧
    (late_counting_le true).options.PTL_LE_EVENT_CT_OVERFLOW = true ∧
    (RuntimeDevel.tgt_overflow_event (late_counting_world false)).world.trace =
      [Action.make_target_event true PTL_EVENT_PUT_OVERFLOW (some 77) (some 1000) PTL_NI_OK 16 0,
       Action.make_ct_event 1 CT_MBYTES PTL_NI_OK 16, Action.le_put 1] ∧
    (RuntimeDevel.tgt_overflow_event (late_counting_world true)).state =
      some STATE_TGT_CLEANUP_2 ∧
    (RuntimeDevel.tgt_overflow_event (late_counting_world true)).world.trace =
      [Action.le_put 1] := by
  decide

theorem load_lt (x : Nat → Nat) (a n : Nat) : IbSrc.load x a n < 256 ^ n := by
  induction n with
  | zero => simp [IbSrc.load]
  | succ n ih =>
    have h : x (a + n) % 256 < 256 := Nat.mod_lt _ (by norm_num)
    have h2 : 256 ^ n * (x (a + n) % 256) ≤ 256 ^ n * 255 := Nat.mul_le_mul_left _ (by omega)
    simp only [IbSrc.load, pow_succ]
    omega

theorem load_congr (x y : Nat → Nat) (a b n : Nat) (h : ∀ i, i < n → x (a + i) = y (b + i)) :
    IbSrc.load x a n = IbSrc.load y b n := by
  induction n with
  | zero => rfl
  | succ n ih =>
    simp only [IbSrc.load]
    rw [ih (fun i hi => h i (by omega)), h n (by omega)]

theorem load_store (x : Nat → Nat) (a m v n : Nat) (hn : n ≤ m) :
    IbSrc.load (IbSrc.store x a m v) a n = v % 256 ^ n := by
  induction n with
  | zero => simp [IbSrc.load, Nat.mod_one]
  | succ n ih =>
    simp only [IbSrc.load]
    rw [ih (by omega), Nat.mod_pow_succ]
    have : IbSrc.store x a m v (a + n) = v / 256 ^ n % 256 := by
      unfold IbSrc.store
      rw [if_pos ⟨by omega, by omega⟩]
      simp
    rw [this, Nat.mod_mod]

theorem load_memcpy (mem : Nat → Nat) (a : Nat) (src : Nat → Nat) (n : Nat) :
    IbSrc.load (RuntimeDevel.memcpy mem a src n) a n = IbSrc.load src 0 n := by
  apply load_congr
  intro i hi
  unfold RuntimeDevel.memcpy
  rw [if_pos ⟨by omega, by omega⟩]
  simp

theorem memcpy_outside (mem : Nat → Nat) (a : Nat) (src : Nat → Nat) (n b : Nat)
    (h : b < a ∨ a + n ≤ b) : RuntimeDevel.memcpy mem a src n b = mem b := by
  unfold RuntimeDevel.memcpy
  rw [if_neg]
  omega

theorem of_to_signed (n v : Nat) (h : v < 256 ^ n) :
    IbSrc.of_signed n (IbSrc.to_signed n v) = v := by
  unfold IbSrc.of_signed IbSrc.to_signed
  have hp : (0 : Int) < 256 ^ n := by positivity
  have hv : (v : Int) < 256 ^ n := by exact_mod_cast h
  split_ifs
  · rw [Int.emod_eq_of_lt (by omega) hv]
    simp
  · rw [Int.sub_emod, Int.emod_self, sub_zero, Int.emod_emod_of_dvd _ (dvd_refl _),
      Int.emod_eq_of_lt (by omega) hv]
    simp

theorem types_distinct (A : IbSrc.Codes) (hA : A.wf) :
    A.types.reverse.Nodup := List.nodup_reverse.mpr hA.2.2.1

theorem set_s_select (n : Nat) (dst x y : IbSrc.datatype_t) (c : Prop) [Decidable c] :
    IbSrc.set_s n dst (if c then IbSrc.get_s n x else IbSrc.get_s n y) =
      IbSrc.set_u n dst (if c then IbSrc.get_u n x else IbSrc.get_u n y) := by
  unfold IbSrc.set_s IbSrc.get_s IbSrc.get_u IbSrc.get_at
  split_ifs <;> rw [of_to_signed _ _ (load_lt _ _ _)]

theorem cswap_rows_int (A : IbSrc.Codes) (hA : A.wf) (F : IbSrc.FloatOps) (R : IbSrc.cswap_op)
    (T : IbSrc.int_type) (opr src d dst : IbSrc.datatype_t) :
    R.rows A F (T.code A) opr src d dst =
      some (IbSrc.set_u T.size dst
        (if R.rel (T.interp (IbSrc.get_u T.size opr)) (T.interp (IbSrc.get_u T.size src)) then
          IbSrc.get_u T.size d
        else IbSrc.get_u T.size src)) := by
  have h := types_distinct A hA
  simp only [IbSrc.Codes.types, List.reverse_cons, List.reverse_nil, List.nil_append,
    List.cons_append, List.nodup_cons, List.mem_cons, List.mem_singleton, List.not_mem_nil,
    not_or, or_false, List.nodup_nil, and_true, not_false_eq_true] at h
  cases R <;> cases T <;>
    simp only [IbSrc.cswap_op.rows, IbSrc.cswap, IbSrc.cswap_ne, IbSrc.cswap_le, IbSrc.cswap_lt,
      IbSrc.cswap_ge, IbSrc.cswap_gt, IbSrc.int_type.code, h, beq_iff_eq, if_false, if_true,
      IbSrc.int_type.size, IbSrc.int_type.interp, IbSrc.int_type.signed, IbSrc.cswap_op.rel,
      set_s_select, Bool.false_eq_true] <;>
    simp [IbSrc.get_s]

theorem ops_distinct (A : IbSrc.Codes) (hA : A.wf) :
    A.ops.reverse.Nodup := List.nodup_reverse.mpr hA.1

theorem swap_dispatch (A : IbSrc.Codes) (hA : A.wf) (F : IbSrc.FloatOps) (R : IbSrc.cswap_op)
    (t : Nat) (opr src d dst : IbSrc.datatype_t) :
    (if R.code A == A.PTL_CSWAP then IbSrc.cswap A F t opr src d dst
      else if R.code A == A.PTL_CSWAP_NE then IbSrc.cswap_ne A F t opr src d dst
      else if R.code A == A.PTL_CSWAP_LE then IbSrc.cswap_le A F t opr src d dst
      else if R.code A == A.PTL_CSWAP_LT then IbSrc.cswap_lt A F t opr src d dst
      else if R.code A == A.PTL_CSWAP_GE then IbSrc.cswap_ge A F t opr src d dst
      else if R.code A == A.PTL_CSWAP_GT then IbSrc.cswap_gt A F t opr src d dst
      else if R.code A == A.PTL_MSWAP then IbSrc.mswap A t opr src d dst
      else none) = R.rows A F t opr src d dst := by
  have h := ops_distinct A hA
  simp only [IbSrc.Codes.ops, List.reverse_cons, List.reverse_nil, List.nil_append,
    List.cons_append, List.nodup_cons, List.mem_cons, List.mem_singleton, List.not_mem_nil,
    not_or, or_false, List.nodup_nil, and_true, not_false_eq_true] at h
  cases R <;>
    simp only [IbSrc.cswap_op.rows, IbSrc.cswap_op.code, h, beq_iff_eq, if_false, if_true]

theorem swap_guard (A : IbSrc.Codes) (hA : A.wf) (R : IbSrc.cswap_op) (T : IbSrc.int_type) :
    (decide (R.code A < A.PTL_CSWAP) || decide (R.code A ≥ A.PTL_OP_LAST) ||
      decide (T.code A ≥ A.PTL_DATATYPE_LAST)) = false := by
  have h1 : R.code A ∈ A.ops := by cases R <;> simp [IbSrc.Codes.ops, IbSrc.cswap_op.code]
  have h2 : T.code A ∈ A.types := by cases T <;> simp [IbSrc.Codes.types, IbSrc.int_type.code]
  have h3 := hA.2.1 _ h1
  have h4 := hA.2.2.2 _ h2
  simp only [Bool.or_eq_false_iff, decide_eq_false_iff_not]
  omega

theorem int_type_size_le (T : IbSrc.int_type) : T.size ≤ 8 := by
  cases T <;> decide

theorem get_u_operand (n : Nat) (hn : n ≤ 8) (opr0 : IbSrc.datatype_t) (v : Nat) :
    IbSrc.get_u n (IbSrc.set_u 8 opr0 v) = v % 256 ^ n :=
  load_store opr0 0 8 v n hn

theorem get_u_copy_out (n a : Nat) (src0 : IbSrc.datatype_t) (mem : Nat → Nat) :
    IbSrc.get_u n (RuntimeDevel.memcpy src0 0 (fun i => mem (a + i)) n) = IbSrc.load mem a n := by
  unfold IbSrc.get_u IbSrc.get_at
  rw [load_memcpy]
  exact load_congr _ _ _ _ _ (fun i _ => by simp)

theorem load_copy_in (n a v : Nat) (mem : Nat → Nat) (dst : IbSrc.datatype_t) :
    IbSrc.load (RuntimeDevel.memcpy mem a (IbSrc.set_u n dst v) n) a n = v % 256 ^ n := by
  rw [load_memcpy]
  exact load_store dst 0 n v n (le_refl _)

/-- The result of `tgt_swap_data_in` for a compare-and-swap on an integer datatype
held in a contiguous element. -/
theorem tgt_swap_data_in_cswap (A : IbSrc.Codes) (hA : A.wf) (F : IbSrc.FloatOps)
    (I : IbSrc.IovOps) (opr0 src0 dst0 : IbSrc.datatype_t) (xt : IbSrc.xt_t) (me : me_t)
    (data : data_t) (mem : Nat → Nat) (T : IbSrc.int_type) (R : IbSrc.cswap_op)
    (hfmt : data.data_fmt = DATA_FMT_IMMEDIATE) (hiov : me.num_iov = 0)
    (hop : xt.atom_op = R.code A) (hty : xt.atom_type = T.code A) (hlen : xt.mlength = T.size) :
    IbSrc.tgt_swap_data_in A F I opr0 src0 dst0 xt me data mem =
      (STATE_TGT_COMM_EVENT, { xt with start := some (me.start + xt.moffset) },
        RuntimeDevel.memcpy mem (me.start + xt.moffset)
          (IbSrc.set_u T.size (IbSrc.set_u 8 dst0 0)
            (if R.rel (T.value xt.operand)
                (T.value (IbSrc.load mem (me.start + xt.moffset) T.size)) then
              IbSrc.load data.immediate_data 0 T.size
            else IbSrc.load mem (me.start + xt.moffset) T.size))
          T.size) := by
  have hg := swap_guard A hA R T
  have hd := swap_dispatch A hA F R
  unfold IbSrc.tgt_swap_data_in IbSrc.copy_out IbSrc.copy_in
  simp only [hfmt, hiov, hop, hty, hlen, hg, hd, cswap_rows_int A hA, bne_self_eq_false,
    Bool.false_eq_true, if_false, get_u_operand _ (int_type_size_le T), get_u_copy_out,
    IbSrc.int_type.value, Nat.mod_eq_of_lt (load_lt _ _ _)]
  rfl

theorem sample_codes_wf : sample_codes.wf := by
  refine ⟨by decide, by decide, by decide, by decide⟩

/-- C27: `tgt_swap_data_in` of the older variant, for a contiguous element, a
payload with immediate data, one of the eight integer datatypes `T` and one of the
six compare-and-swap operators `R`, with `mlength` the size of the datatype. The
next state is `STATE_TGT_COMM_EVENT`, and the datum of the element (the integer
stored at `me->start + moffset`) is the payload value when the operand, truncated
to the width of the type and read with its signedness, stands in the relation of
`R` to the prior value of the datum, and is the prior value otherwise. The codes
of the operators and datatypes are those of C enumerations (`A.wf`). -/
theorem cswap_integer (A : IbSrc.Codes) (hA : A.wf) (F : IbSrc.FloatOps)
    (I : IbSrc.IovOps) (opr0 src0 dst0 : IbSrc.datatype_t) (xt : IbSrc.xt_t) (me : me_t)
    (data : data_t) (mem : Nat → Nat) (T : IbSrc.int_type) (R : IbSrc.cswap_op)
    (hfmt : data.data_fmt = DATA_FMT_IMMEDIATE) (hiov : me.num_iov = 0)
    (hop : xt.atom_op = R.code A) (hty : xt.atom_type = T.code A) (hlen : xt.mlength = T.size) :
    (IbSrc.tgt_swap_data_in A F I opr0 src0 dst0 xt me data mem).1 = STATE_TGT_COMM_EVENT ∧
    IbSrc.load (IbSrc.tgt_swap_data_in A F I opr0 src0 dst0 xt me data mem).2.2
        (me.start + xt.moffset) T.size =
      (if R.rel (T.value xt.operand)
          (T.value (IbSrc.load mem (me.start + xt.moffset) T.size)) then
        IbSrc.load data.immediate_data 0 T.size
      else IbSrc.load mem (me.start + xt.moffset) T.size) ∧
    (∀ a, a < me.start + xt.moffset ∨ me.start + xt.moffset + T.size ≤ a →
      (IbSrc.tgt_swap_data_in A F I opr0 src0 dst0 xt me data mem).2.2 a = mem a) := by
  rw [tgt_swap_data_in_cswap A hA F I opr0 src0 dst0 xt me data mem T R hfmt hiov hop hty hlen]
  refine ⟨rfl, ?_, fun a ha => memcpy_outside _ _ _ _ _ ha⟩
  show IbSrc.load (RuntimeDevel.memcpy _ _ _ _) _ _ = _
  rw [load_copy_in]
  split_ifs <;> exact Nat.mod_eq_of_lt (load_lt _ _ _)

/-- C27 (witness): scenario 4. `PTL_CSWAP` on `PTL_UINT64_T` with operand 5 and
payload 99 on an element whose datum is 5 leaves 99 in the element. -/
theorem cswap_integer_witness :
    sample_codes.wf ∧ payload_99.data_fmt = DATA_FMT_IMMEDIATE ∧ sample_swap_me.num_iov = 0 ∧
    cswap_xt.atom_op = IbSrc.cswap_op.CSWAP.code sample_codes ∧
    cswap_xt.atom_type = IbSrc.int_type.UINT64.code sample_codes ∧
    cswap_xt.mlength = IbSrc.int_type.UINT64.size ∧
    IbSrc.load mem_5 1000 8 = 5 ∧
    (IbSrc.tgt_swap_data_in sample_codes sample_float_ops sample_iov_ops (fun _ => 0)
      (fun _ => 0) (fun _ => 0) cswap_xt sample_swap_me payload_99 mem_5).1 =
      STATE_TGT_COMM_EVENT ∧
    IbSrc.load (IbSrc.tgt_swap_data_in sample_codes sample_float_ops sample_iov_ops (fun _ => 0)
      (fun _ => 0) (fun _ => 0) cswap_xt sample_swap_me payload_99 mem_5).2.2 1000 8 = 99 :=
  ⟨sample_codes_wf, rfl, rfl, rfl, rfl, rfl, by decide,
   (cswap_integer sample_codes sample_codes_wf sample_float_ops sample_iov_ops (fun _ => 0)
      (fun _ => 0) (fun _ => 0) cswap_xt sample_swap_me payload_99 mem_5
      IbSrc.int_type.UINT64 IbSrc.cswap_op.CSWAP rfl rfl rfl rfl rfl).1,
   ((cswap_integer sample_codes sample_codes_wf sample_float_ops sample_iov_ops (fun _ => 0)
      (fun _ => 0) (fun _ => 0) cswap_xt sample_swap_me payload_99 mem_5
      IbSrc.int_type.UINT64 IbSrc.cswap_op.CSWAP rfl rfl rfl rfl rfl).2.1).trans (by decide)⟩

theorem pow_256 (n : Nat) : 256 ^ n = 2 ^ (8 * n) := by
  rw [pow_mul]
  norm_num

theorem testBit_bnot (b m i : Nat) (hm : m < 2 ^ b) :
    (2 ^ b - 1 - m).testBit i = (decide (i < b) && !m.testBit i) := by
  have : 2 ^ b - 1 - m = 2 ^ b - (m + 1) := by omega
  rw [this]
  exact Nat.testBit_two_pow_sub_succ hm i

theorem testBit_mask_swap (n m v pre i : Nat) (hm : m < 256 ^ n) (hp : pre < 256 ^ n) :
    (mask_swap n m v pre).testBit i = if m.testBit i then v.testBit i else pre.testBit i := by
  unfold mask_swap
  rw [pow_256] at hm hp ⊢
  rw [Nat.testBit_or, Nat.testBit_and, Nat.testBit_and, testBit_bnot _ _ _ hm]
  by_cases hi : i < 8 * n
  · cases m.testBit i <;> simp [hi]
  · have h1 : m.testBit i = false :=
      Nat.testBit_eq_false_of_lt (lt_of_lt_of_le hm (Nat.pow_le_pow_right (by norm_num) (by omega)))
    simp [hi, h1, Nat.testBit_eq_false_of_lt
      (lt_of_lt_of_le hp (Nat.pow_le_pow_right (by norm_num) (by omega : 8 * n ≤ i)))]

theorem mask_swap_lt (n m v pre : Nat) (hm : m < 256 ^ n) (hp : pre < 256 ^ n) :
    mask_swap n m v pre < 256 ^ n := by
  rw [pow_256] at hm hp ⊢
  unfold mask_swap
  apply Nat.or_lt_two_pow
  · exact Nat.and_lt_two_pow _ hm |> fun h => by rwa [Nat.and_comm] at h
  · exact Nat.and_lt_two_pow _ hp

theorem mask_swap_wide (b n m v pre : Nat) (hb : 8 * n ≤ b) (hm : m < 256 ^ n)
    (hp : pre < 256 ^ n) :
    (m &&& v) ||| (IbSrc.bnot b m &&& pre) = mask_swap n m v pre := by
  apply Nat.eq_of_testBit_eq
  intro i
  rw [testBit_mask_swap n m v pre i hm hp]
  unfold IbSrc.bnot
  rw [pow_256] at hm hp
  have hmb : m < 2 ^ b := lt_of_lt_of_le hm (Nat.pow_le_pow_right (by norm_num) hb)
  rw [Nat.testBit_or, Nat.testBit_and, Nat.testBit_and, testBit_bnot _ _ _ hmb]
  by_cases hi : i < 8 * n
  · have : i < b := by omega
    cases m.testBit i <;> simp [this]
  · have h1 : m.testBit i = false :=
      Nat.testBit_eq_false_of_lt (lt_of_lt_of_le hm (Nat.pow_le_pow_right (by norm_num) (by omega)))
    simp [h1, Nat.testBit_eq_false_of_lt
      (lt_of_lt_of_le hp (Nat.pow_le_pow_right (by norm_num) (by omega : 8 * n ≤ i)))]

theorem mask_swap_idem (n m v pre : Nat) (hm : m < 256 ^ n) (hp : pre < 256 ^ n) :
    mask_swap n m v (mask_swap n m v pre) = mask_swap n m v pre := by
  apply Nat.eq_of_testBit_eq
  intro i
  rw [testBit_mask_swap n m v _ i hm (mask_swap_lt n m v pre hm hp),
    testBit_mask_swap n m v pre i hm hp]
  split_ifs <;> rfl

theorem mswap_rows (A : IbSrc.Codes) (hA : A.wf) (T : IbSrc.bits_type)
    (opr src d dst : IbSrc.datatype_t) :
    IbSrc.mswap A (T.code A) opr src d dst =
      some (IbSrc.set_u T.size dst
        ((IbSrc.get_u T.size opr &&& IbSrc.get_u T.size d) |||
          (IbSrc.bnot T.promoted (IbSrc.get_u T.size opr) &&& IbSrc.get_u T.size src))) := by
  have h := types_distinct A hA
  simp only [IbSrc.Codes.types, List.reverse_cons, List.reverse_nil, List.nil_append,
    List.cons_append, List.nodup_cons, List.mem_cons, List.mem_singleton, List.not_mem_nil,
    not_or, or_false, List.nodup_nil, and_true, not_false_eq_true] at h
  have g := hA.2.2.1
  simp only [IbSrc.Codes.types, List.nodup_cons, List.mem_cons, List.mem_singleton,
    List.not_mem_nil, not_or, or_false, List.nodup_nil, and_true, not_false_eq_true] at g
  cases T <;>
    simp only [IbSrc.mswap, IbSrc.bits_type.code, h, g, beq_iff_eq, if_false, if_true,
      IbSrc.bits_type.size, IbSrc.bits_type.promoted, Bool.or_false, Bool.or_true,
      Bool.false_or, Bool.true_or, decide_True, decide_False, Bool.false_eq_true,
      Bool.or_eq_true, or_false, or_true, false_or, true_or,
      Nat.reduceEqDiff, ↓reduceIte]

theorem mswap_dispatch (A : IbSrc.Codes) (hA : A.wf) (α : Type)
    (a b c d e f g h : α) :
    (if A.PTL_MSWAP == A.PTL_CSWAP then a
      else if A.PTL_MSWAP == A.PTL_CSWAP_NE then b
      else if A.PTL_MSWAP == A.PTL_CSWAP_LE then c
      else if A.PTL_MSWAP == A.PTL_CSWAP_LT then d
      else if A.PTL_MSWAP == A.PTL_CSWAP_GE then e
      else if A.PTL_MSWAP == A.PTL_CSWAP_GT then f
      else if A.PTL_MSWAP == A.PTL_MSWAP then g
      else h) = g := by
  have h := ops_distinct A hA
  simp only [IbSrc.Codes.ops, List.reverse_cons, List.reverse_nil, List.nil_append,
    List.cons_append, List.nodup_cons, List.mem_cons, List.mem_singleton, List.not_mem_nil,
    not_or, or_false, List.nodup_nil, and_true, not_false_eq_true] at h
  simp only [h, beq_iff_eq, if_false, if_true]

theorem mswap_guard (A : IbSrc.Codes) (hA : A.wf) (T : IbSrc.bits_type) :
    (decide (A.PTL_MSWAP < A.PTL_CSWAP) || decide (A.PTL_MSWAP ≥ A.PTL_OP_LAST) ||
      decide (T.code A ≥ A.PTL_DATATYPE_LAST)) = false := by
  have h1 : A.PTL_MSWAP ∈ A.ops := by simp [IbSrc.Codes.ops]
  have h2 : T.code A ∈ A.types := by cases T <;> simp [IbSrc.Codes.types, IbSrc.bits_type.code]
  have h3 := hA.2.1 _ h1
  have h4 := hA.2.2.2 _ h2
  simp only [Bool.or_eq_false_iff, decide_eq_false_iff_not]
  omega

theorem bits_type_size_le (T : IbSrc.bits_type) : T.size ≤ 8 := by
  cases T <;> decide

theorem bits_type_promoted (T : IbSrc.bits_type) : 8 * T.size ≤ T.promoted := by
  cases T <;> decide

/-- The result of `tgt_swap_data_in` for a masked swap on a contiguous element. -/
theorem tgt_swap_data_in_mswap (A : IbSrc.Codes) (hA : A.wf) (F : IbSrc.FloatOps)
    (I : IbSrc.IovOps) (opr0 src0 dst0 : IbSrc.datatype_t) (xt : IbSrc.xt_t) (me : me_t)
    (data : data_t) (mem : Nat → Nat) (T : IbSrc.bits_type)
    (hfmt : data.data_fmt = DATA_FMT_IMMEDIATE) (hiov : me.num_iov = 0)
    (hop : xt.atom_op = A.PTL_MSWAP) (hty : xt.atom_type = T.code A)
    (hlen : xt.mlength = T.size) :
    IbSrc.tgt_swap_data_in A F I opr0 src0 dst0 xt me data mem =
      (STATE_TGT_COMM_EVENT, { xt with start := some (me.start + xt.moffset) },
        RuntimeDevel.memcpy mem (me.start + xt.moffset)
          (IbSrc.set_u T.size (IbSrc.set_u 8 dst0 0)
            (mask_swap T.size (xt.operand % 256 ^ T.size)
              (IbSrc.load data.immediate_data 0 T.size)
              (IbSrc.load mem (me.start + xt.moffset) T.size)))
          T.size) := by
  have hg := mswap_guard A hA T
  have hd := mswap_dispatch A hA (Option IbSrc.datatype_t)
  have hw : (xt.operand % 256 ^ T.size &&& IbSrc.get_u T.size data.immediate_data) |||
      (IbSrc.bnot T.promoted (xt.operand % 256 ^ T.size) &&&
        IbSrc.load mem (me.start + xt.moffset) T.size) = _ :=
    mask_swap_wide T.promoted T.size (xt.operand % 256 ^ T.size)
      (IbSrc.load data.immediate_data 0 T.size) (IbSrc.load mem (me.start + xt.moffset) T.size)
      (bits_type_promoted T) (Nat.mod_lt _ (by positivity)) (load_lt _ _ _)
  unfold IbSrc.tgt_swap_data_in IbSrc.copy_out IbSrc.copy_in
  simp only [hfmt, hiov, hop, hty, hlen, hg, hd, mswap_rows A hA, bne_self_eq_false,
    Bool.false_eq_true, if_false, get_u_operand _ (bits_type_size_le T), get_u_copy_out, hw]

theorem memcpy_set_u (mem : Nat → Nat) (a n v : Nat) (dst dst1 : IbSrc.datatype_t) :
    RuntimeDevel.memcpy mem a (IbSrc.set_u n dst v) n =
      RuntimeDevel.memcpy mem a (IbSrc.set_u n dst1 v) n := by
  funext b
  unfold RuntimeDevel.memcpy IbSrc.set_u IbSrc.set_at IbSrc.store
  by_cases h : a ≤ b ∧ b < a + n
  · rw [if_pos h, if_pos h, if_pos ⟨by omega, by omega⟩, if_pos ⟨by omega, by omega⟩]
  · rw [if_neg h, if_neg h]

theorem memcpy_memcpy (mem : Nat → Nat) (a n : Nat) (x y : Nat → Nat) :
    RuntimeDevel.memcpy (RuntimeDevel.memcpy mem a x n) a y n = RuntimeDevel.memcpy mem a y n := by
  funext b
  unfold RuntimeDevel.memcpy
  by_cases h : a ≤ b ∧ b < a + n
  · rw [if_pos h, if_pos h]
  · rw [if_neg h, if_neg h, if_neg h]

/-- C28: `PTL_MSWAP` in `tgt_swap_data_in` of the older variant, for a contiguous
element, a payload with immediate data and a datatype `T` of 8, 16, 32 or 64 bits,
with `mlength` the size of the datatype. With `m` the operand truncated to the
width of the type, `v` the payload value and `pre` the prior datum of the element,
the next state is `STATE_TGT_COMM_EVENT` and the datum becomes
`(m & v) | (~m & pre)`: bit `i` is the bit of `v` where `m` has a 1 and the bit of
`pre` where it has a 0. Every datatype of the same size leaves the same memory,
and a second run of the same masked swap leaves the memory of the first. -/
theorem mswap_bits (A : IbSrc.Codes) (hA : A.wf) (F : IbSrc.FloatOps)
    (I : IbSrc.IovOps) (opr0 src0 dst0 : IbSrc.datatype_t) (xt : IbSrc.xt_t) (me : me_t)
    (data : data_t) (mem : Nat → Nat) (T : IbSrc.bits_type)
    (hfmt : data.data_fmt = DATA_FMT_IMMEDIATE) (hiov : me.num_iov = 0)
    (hop : xt.atom_op = A.PTL_MSWAP) (hty : xt.atom_type = T.code A)
    (hlen : xt.mlength = T.size) :
    (IbSrc.tgt_swap_data_in A F I opr0 src0 dst0 xt me data mem).1 = STATE_TGT_COMM_EVENT ∧
    IbSrc.load (IbSrc.swap_mem A F I opr0 src0 dst0 xt me data mem) (me.start + xt.moffset)
        T.size =
      mask_swap T.size (xt.operand % 256 ^ T.size) (IbSrc.load data.immediate_data 0 T.size)
        (IbSrc.load mem (me.start + xt.moffset) T.size) ∧
    (∀ i, (IbSrc.load (IbSrc.swap_mem A F I opr0 src0 dst0 xt me data mem)
        (me.start + xt.moffset) T.size).testBit i =
      if (xt.operand % 256 ^ T.size).testBit i then
        (IbSrc.load data.immediate_data 0 T.size).testBit i
      else (IbSrc.load mem (me.start + xt.moffset) T.size).testBit i) ∧
    (∀ (T1 : IbSrc.bits_type) (opr1 src1 dst1 : IbSrc.datatype_t), T1.size = T.size →
      IbSrc.swap_mem A F I opr1 src1 dst1 { xt with atom_type := T1.code A } me data mem =
        IbSrc.swap_mem A F I opr0 src0 dst0 xt me data mem) ∧
    (∀ (opr1 src1 dst1 : IbSrc.datatype_t),
      IbSrc.swap_mem A F I opr1 src1 dst1 xt me data
          (IbSrc.swap_mem A F I opr0 src0 dst0 xt me data mem) =
        IbSrc.swap_mem A F I opr0 src0 dst0 xt me data mem) := by
  have hm : xt.operand % 256 ^ T.size < 256 ^ T.size := Nat.mod_lt _ (by positivity)
  have hp := load_lt mem (me.start + xt.moffset) T.size
  have e := tgt_swap_data_in_mswap A hA F I opr0 src0 dst0 xt me data mem T hfmt hiov hop hty hlen
  have hl : IbSrc.load (IbSrc.swap_mem A F I opr0 src0 dst0 xt me data mem)
      (me.start + xt.moffset) T.size =
      mask_swap T.size (xt.operand % 256 ^ T.size) (IbSrc.load data.immediate_data 0 T.size)
        (IbSrc.load mem (me.start + xt.moffset) T.size) := by
    unfold IbSrc.swap_mem
    rw [e]
    show IbSrc.load (RuntimeDevel.memcpy _ _ _ _) _ _ = _
    rw [load_copy_in]
    exact Nat.mod_eq_of_lt (mask_swap_lt _ _ _ _ hm hp)
  refine ⟨by rw [e], hl, ?_, ?_, ?_⟩
  · intro i
    rw [hl]
    exact testBit_mask_swap _ _ _ _ i hm hp
  · intro T1 opr1 src1 dst1 hs
    unfold IbSrc.swap_mem
    rw [e, tgt_swap_data_in_mswap A hA F I opr1 src1 dst1 { xt with atom_type := T1.code A } me
      data mem T1 hfmt hiov hop rfl (hlen.trans hs.symm)]
    show RuntimeDevel.memcpy _ _ _ _ = RuntimeDevel.memcpy _ _ _ _
    rw [hs]
    exact memcpy_set_u _ _ _ _ _ _
  · intro opr1 src1 dst1
    have e1 := tgt_swap_data_in_mswap A hA F I opr1 src1 dst1 xt me data
      (IbSrc.swap_mem A F I opr0 src0 dst0 xt me data mem) T hfmt hiov hop hty hlen
    rw [hl, mask_swap_idem _ _ _ _ hm hp] at e1
    unfold IbSrc.swap_mem at e1 ⊢
    rw [e1]
    rw [e]
    show RuntimeDevel.memcpy (RuntimeDevel.memcpy _ _ _ _) _ _ _ = RuntimeDevel.memcpy _ _ _ _
    rw [memcpy_memcpy]
    exact memcpy_set_u _ _ _ _ _ _

/-- C28 (witness): a masked swap on `PTL_UINT8_T` with mask `0x0f`, payload `0xAB` and
prior datum `0xCD` leaves `0xCB`. -/
theorem mswap_bits_witness :
    sample_codes.wf ∧ payload_ab.data_fmt = DATA_FMT_IMMEDIATE ∧ sample_swap_me.num_iov = 0 ∧
    mswap_xt.atom_op = sample_codes.PTL_MSWAP ∧
    mswap_xt.atom_type = IbSrc.bits_type.UINT8.code sample_codes ∧
    mswap_xt.mlength = IbSrc.bits_type.UINT8.size ∧
    IbSrc.load (IbSrc.swap_mem sample_codes sample_float_ops sample_iov_ops (fun _ => 0)
      (fun _ => 0) (fun _ => 0) mswap_xt sample_swap_me payload_ab mem_cd) 1000 1 = 0xCB :=
  ⟨sample_codes_wf, rfl, rfl, rfl, rfl, rfl,
   ((mswap_bits sample_codes sample_codes_wf sample_float_ops sample_iov_ops (fun _ => 0)
      (fun _ => 0) (fun _ => 0) mswap_xt sample_swap_me payload_ab mem_cd
      IbSrc.bits_type.UINT8 rfl rfl rfl rfl rfl).2.1).trans (by decide)⟩

theorem check_perm_valid (A : IbSrc.Codes) (K : Consts) (xt : IbSrc.xt_t) (le : me_t)
    (h : valid_operation xt.operation = true) :
    ∃ b, IbSrc.check_perm A K xt le = some b := by
  unfold valid_operation at h
  unfold IbSrc.check_perm
  split_ifs <;> first | exact ⟨_, rfl⟩ | simp_all

theorem match_le_unexpected_all (A : IbSrc.Codes) (K : Consts) (o : ni_options_t) (le : me_t)
    (U : List IbSrc.xt_t) (hv : ∀ xt ∈ U, valid_operation xt.operation = true)
    (hu : le.options.PTL_ME_USE_ONCE = false) :
    IbSrc.match_le_unexpected A K o le U =
      some (U.filter (late_match A K o le), U.filter (fun xt => !late_match A K o le xt)) := by
  induction U with
  | nil => rfl
  | cons xt rest ih =>
    have ih1 := ih (fun x hx => hv x (List.mem_cons_of_mem _ hx))
    obtain ⟨b, hb⟩ := check_perm_valid A K xt le (hv xt (List.mem_cons_self _ _))
    unfold IbSrc.match_le_unexpected
    rw [ih1]
    have hp : late_match A K o le xt =
        ((o.PTL_NI_NO_MATCHING || IbSrc.check_match K o xt le) && !b) := by
      cases b <;> simp [late_match, hb]
    cases hc : (o.PTL_NI_NO_MATCHING || IbSrc.check_match K o xt le) <;>
      cases b <;> simp [hc, hb, hu, hp, List.filter_cons]

theorem match_le_unexpected_once (A : IbSrc.Codes) (K : Consts) (o : ni_options_t) (le : me_t)
    (U : List IbSrc.xt_t) (hv : ∀ xt ∈ U, valid_operation xt.operation = true)
    (hu : le.options.PTL_ME_USE_ONCE = true) :
    IbSrc.match_le_unexpected A K o le U =
      some (((U.filter (late_match A K o le)).head?).toList,
        U.eraseP (late_match A K o le)) := by
  induction U with
  | nil => rfl
  | cons xt rest ih =>
    have ih1 := ih (fun x hx => hv x (List.mem_cons_of_mem _ hx))
    obtain ⟨b, hb⟩ := check_perm_valid A K xt le (hv xt (List.mem_cons_self _ _))
    unfold IbSrc.match_le_unexpected
    rw [ih1]
    have hp : late_match A K o le xt =
        ((o.PTL_NI_NO_MATCHING || IbSrc.check_match K o xt le) && !b) := by
      cases b <;> simp [late_match, hb]
    cases hc : (o.PTL_NI_NO_MATCHING || IbSrc.check_match K o xt le) <;>
      cases b <;> simp [hc, hb, hu, hp, List.eraseP_cons, List.filter_cons]

theorem check_overflow_loop_some (h : Nat) (L : List IbSrc.xt_t)
    (hm : ∀ xt ∈ L, xt.matching_le = none) :
    ∃ r, IbSrc.check_overflow_loop h L = some r ∧
      r.1 = L.map (fun xt => { xt with matching_le := some h }) := by
  induction L with
  | nil => exact ⟨_, rfl, rfl⟩
  | cons xt rest ih =>
    obtain ⟨r, hr, hr1⟩ := ih (fun x hx => hm x (List.mem_cons_of_mem _ hx))
    unfold IbSrc.check_overflow_loop
    simp [hm xt (List.mem_cons_self _ _), hr, hr1]

theorem filter_sub (p : IbSrc.xt_t → Bool) (U : List IbSrc.xt_t) :
    ∀ x ∈ ((U.filter p).head?).toList, x ∈ U := by
  intro x hx
  cases hf : (U.filter p).head? with
  | none => simp [hf] at hx
  | some y =>
    simp only [hf, Option.toList, List.mem_singleton] at hx
    subst hx
    exact (List.mem_filter.1 (List.mem_of_mem_head? hf)).1

theorem head_toList_length (l : List IbSrc.xt_t) : (l.head?).toList.length ≤ 1 := by
  cases l <;> simp

theorem check_overflow_ret (A : IbSrc.Codes) (K : Consts) (o : ni_options_t) (h : Nat)
    (le : me_t) (U out rest : List IbSrc.xt_t)
    (e : IbSrc.match_le_unexpected A K o le U = some (out, rest))
    (hm : ∀ xt ∈ out, xt.matching_le = none) :
    ∃ r, IbSrc.check_overflow A K o h le U = some r ∧ r.1 = !out.isEmpty ∧ r.2.1 = rest := by
  unfold IbSrc.check_overflow
  simp only [e]
  obtain ⟨r, hr, _⟩ := check_overflow_loop_some h out hm
  cases hout : out.isEmpty
  · simp [hr]
  · simp

/-- C25: the walk `match_le_unexpected` of the older variant, for an unexpected
list `U` whose descriptors carry one of the five request operations and have no
late element yet. `late_match` is the test "the interface is non-matching or
`check_match` holds, and `check_perm` passes". Without `PTL_LE_USE_ONCE` the output
list is the sub-list of the descriptors of `U` that pass the test, in order, and
the unexpected list keeps the others, in order. With `PTL_LE_USE_ONCE` the output
list holds only the first descriptor that passes the test, and the unexpected list
is `U` without that one descriptor. `check_overflow` returns true exactly when the
output list is not empty, and it leaves the same unexpected list. -/
theorem late_matching_walk (A : IbSrc.Codes) (K : Consts) (o : ni_options_t) (h : Nat)
    (le : me_t) (U : List IbSrc.xt_t)
    (hv : ∀ xt ∈ U, valid_operation xt.operation = true)
    (hm : ∀ xt ∈ U, xt.matching_le = none) :
    ∃ out rest, IbSrc.match_le_unexpected A K o le U = some (out, rest) ∧
      (le.options.PTL_ME_USE_ONCE = false →
        out = U.filter (late_match A K o le) ∧
        rest = U.filter (fun xt => !late_match A K o le xt)) ∧
      (le.options.PTL_ME_USE_ONCE = true →
        out = ((U.filter (late_match A K o le)).head?).toList ∧ out.length ≤ 1 ∧
        rest = U.eraseP (late_match A K o le)) ∧
      ∃ r, IbSrc.check_overflow A K o h le U = some r ∧ r.1 = !out.isEmpty ∧ r.2.1 = rest := by
  cases hu : le.options.PTL_ME_USE_ONCE with
  | false =>
    have e := match_le_unexpected_all A K o le U hv hu
    refine ⟨_, _, e, fun _ => ⟨rfl, rfl⟩, (fun hh => by cases hh), ?_⟩
    exact check_overflow_ret A K o h le U _ _ e
      (fun x hx => hm x (List.mem_filter.1 hx).1)
  | true =>
    have e := match_le_unexpected_once A K o le U hv hu
    refine ⟨_, _, e, (fun hh => by cases hh), fun _ => ⟨rfl, head_toList_length _, rfl⟩, ?_⟩
    exact check_overflow_ret A K o h le U _ _ e
      (fun x hx => hm x (filter_sub _ U x hx))

/-- C25 (witness): the sample element (handle 5) is matched against the sample
unexpected list. -/
theorem late_matching_walk_witness :
    (∀ xt ∈ sample_unexpected, valid_operation xt.operation = true) ∧
    (∀ xt ∈ sample_unexpected, xt.matching_le = none) ∧
    sample_unexpected.filter (late_match sample_codes sample_consts {} sample_me) =
      [late_xt 0x5a OP_PUT, late_xt 0x51 OP_PUT] ∧
    ∃ out rest, IbSrc.match_le_unexpected sample_codes sample_consts {} sample_me
        sample_unexpected = some (out, rest) ∧
      (sample_me.options.PTL_ME_USE_ONCE = false →
        out = sample_unexpected.filter (late_match sample_codes sample_consts {} sample_me) ∧
        rest = sample_unexpected.filter
          (fun xt => !late_match sample_codes sample_consts {} sample_me xt)) ∧
      (sample_me.options.PTL_ME_USE_ONCE = true →
        out = ((sample_unexpected.filter
          (late_match sample_codes sample_consts {} sample_me)).head?).toList ∧
        out.length ≤ 1 ∧
        rest = sample_unexpected.eraseP (late_match sample_codes sample_consts {} sample_me)) ∧
      ∃ r, IbSrc.check_overflow sample_codes sample_consts {} 5 sample_me sample_unexpected =
          some r ∧ r.1 = !out.isEmpty ∧ r.2.1 = rest :=
  ⟨by decide, by decide, by decide,
   late_matching_walk sample_codes sample_consts {} 5 sample_me sample_unexpected
     (by decide) (by decide)⟩

theorem search_only_loop_eq (A : IbSrc.Codes) (K : Consts) (o : ni_options_t) (le : me_t)
    (U : List IbSrc.xt_t) (hv : ∀ xt ∈ U, valid_operation xt.operation = true) :
    IbSrc.search_only_loop A K o le U = some (U.find? (late_match A K o le)) := by
  induction U with
  | nil => rfl
  | cons xt rest ih =>
    have ih1 := ih (fun x hx => hv x (List.mem_cons_of_mem _ hx))
    obtain ⟨b, hb⟩ := check_perm_valid A K xt le (hv xt (List.mem_cons_self _ _))
    unfold IbSrc.search_only_loop
    rw [ih1]
    have hp : late_match A K o le xt =
        ((o.PTL_NI_NO_MATCHING || IbSrc.check_match K o xt le) && !b) := by
      cases b <;> simp [late_match, hb]
    cases hc : (o.PTL_NI_NO_MATCHING || IbSrc.check_match K o xt le) <;>
      cases b <;> simp [hc, hb, hp, List.find?_cons]

/-- C26: `check_overflow_search_only` of the older variant, for an unexpected list
`U` whose descriptors carry one of the five request operations. The function
returns `PTL_OK` and leaves the list and every descriptor on it as they were. When
the searching element has an event queue it posts exactly one `PTL_EVENT_SEARCH`:
from a copy of the first descriptor that passes the test `late_match`, with
`ni_fail = PTL_NI_OK`, if there is one, and otherwise for the element with
`PTL_NI_UNDELIVERABLE`. Without an event queue it posts nothing. It makes no other
call, so no reference is taken or released. -/
theorem search_only_event (A : IbSrc.Codes) (K : Consts) (o : ni_options_t) (h : Nat)
    (le : me_t) (le_eq : Bool) (U : List IbSrc.xt_t)
    (hv : ∀ xt ∈ U, valid_operation xt.operation = true) :
    ∃ calls, IbSrc.check_overflow_search_only A K o h le le_eq U = some (false, U, calls) ∧
      (le_eq = true →
        (∀ xt, U.find? (late_match A K o le) = some xt →
          calls = [IbSrc.call.make_target_event { xt with ni_fail := PTL_NI_OK }
            PTL_EVENT_SEARCH le.user_ptr none]) ∧
        (U.find? (late_match A K o le) = none →
          calls = [IbSrc.call.make_le_event h PTL_EVENT_SEARCH PTL_NI_UNDELIVERABLE]) ∧
        ∃ f, search_events calls = [(PTL_EVENT_SEARCH, f)] ∧
          (f = PTL_NI_OK ↔ ∃ xt ∈ U, late_match A K o le xt = true)) ∧
      (le_eq = false → calls = []) ∧
      (∀ c ∈ calls, c.is_event = true) := by
  unfold IbSrc.check_overflow_search_only
  rw [search_only_loop_eq A K o le U hv]
  cases le_eq with
  | false => exact ⟨[], rfl, (fun hh => by cases hh), fun _ => rfl, by simp⟩
  | true =>
    cases hf : U.find? (late_match A K o le) with
    | none =>
      refine ⟨_, rfl, fun _ => ⟨(fun xt hx => by cases hx), fun _ => rfl,
        PTL_NI_UNDELIVERABLE, rfl, ?_⟩, (fun hh => by cases hh), by simp [IbSrc.call.is_event]⟩
      constructor
      · intro hh
        cases hh
      · rintro ⟨xt, hx, hp⟩
        have := List.find?_eq_none.1 hf xt hx
        simp [hp] at this
    | some xt =>
      refine ⟨_, rfl, fun _ => ⟨(fun y hy => by cases hy; rfl), (fun hh => by cases hh),
        PTL_NI_OK, rfl, ?_⟩, (fun hh => by cases hh), by simp [IbSrc.call.is_event]⟩
      constructor
      · intro _
        exact ⟨xt, List.mem_of_find?_eq_some hf, List.find?_some hf⟩
      · intro _
        rfl

/-- C26 (witness): the sample element (handle 5) with an event queue searches the
sample unexpected list; the event is built from the first descriptor. -/
theorem search_only_event_witness :
    (∀ xt ∈ sample_unexpected, valid_operation xt.operation = true) ∧
    sample_unexpected.find? (late_match sample_codes sample_consts {} sample_me) =
      some (late_xt 0x5a OP_PUT) ∧
    ∃ calls, IbSrc.check_overflow_search_only sample_codes sample_consts {} 5 sample_me true
        sample_unexpected = some (false, sample_unexpected, calls) ∧
      (true = true →
        (∀ xt, sample_unexpected.find? (late_match sample_codes sample_consts {} sample_me) =
            some xt →
          calls = [IbSrc.call.make_target_event { xt with ni_fail := PTL_NI_OK }
            PTL_EVENT_SEARCH sample_me.user_ptr none]) ∧
        (sample_unexpected.find? (late_match sample_codes sample_consts {} sample_me) = none →
          calls = [IbSrc.call.make_le_event 5 PTL_EVENT_SEARCH PTL_NI_UNDELIVERABLE]) ∧
        ∃ f, search_events calls = [(PTL_EVENT_SEARCH, f)] ∧
          (f = PTL_NI_OK ↔
            ∃ xt ∈ sample_unexpected,
              late_match sample_codes sample_consts {} sample_me xt = true)) ∧
      (true = false → calls = []) ∧
      (∀ c ∈ calls, c.is_event = true) :=
  ⟨by decide, by decide,
   search_only_event sample_codes sample_consts {} 5 sample_me true sample_unexpected
     (by decide)⟩

theorem send_events_eq (w : init_world) (early : Bool) :
    PtlInit.send_events w early =
      { w with
        buf.event_mask.XI_SEND_EVENT := false,
        buf.event_mask.XI_CT_SEND_EVENT := false,
        buf.mlength :=
          if w.buf.event_mask.XI_CT_SEND_EVENT && early then w.buf.data.length
          else w.buf.mlength,
        trace := w.trace ++ send_calls w early } := by
  unfold PtlInit.send_events send_calls PtlInit.make_send_event PtlInit.make_ct_send_event
  cases h1 : w.buf.event_mask.XI_SEND_EVENT <;>
  cases h2 : w.buf.event_mask.XI_CT_SEND_EVENT <;>
  cases h3 : (w.buf.ni_fail != PTL_NI_OK || !w.buf.event_mask.XI_PUT_SUCCESS_DISABLE_EVENT) <;>
  cases early <;>
  simp [init_world.log, h1, h2, h3] <;>
  (cases w with | mk ni conn mem buf trace =>
    cases buf with | mk a b c d e mask =>
      cases mask; simp_all)

theorem early_step (w W : init_world) (s1 : init_state)
    (h : PtlInit.early_send_event w = init_step.next W s1) :
    W.trace = w.trace ++ init_call.md_put true :: send_calls w true ∧
    W.buf.event_mask =
      { w.buf.event_mask with XI_SEND_EVENT := false, XI_CT_SEND_EVENT := false } ∧
    W.buf.put_md = none ∧ W.buf.get_md = w.buf.get_md ∧
    (s1 = STATE_INIT_WAIT_RECV ∨ s1 = STATE_INIT_CLEANUP) := by
  unfold PtlInit.early_send_event at h
  cases hp : w.buf.put_md with
  | none => simp [hp] at h
  | some md =>
    simp only [hp, send_events_eq] at h
    split_ifs at h <;> cases h <;>
      exact ⟨by simp [init_world.log, send_calls], rfl, rfl, rfl, by simp⟩

theorem late_step (w W : init_world) (s1 : init_state)
    (h : PtlInit.late_send_event w = init_step.next W s1) :
    W.trace = w.trace ++ init_call.md_put true :: send_calls w false ∧
    W.buf.event_mask =
      { w.buf.event_mask with XI_SEND_EVENT := false, XI_CT_SEND_EVENT := false } ∧
    W.buf.put_md = none ∧ W.buf.get_md = w.buf.get_md ∧
    (s1 = STATE_INIT_CLEANUP ∨ s1 = STATE_INIT_ACK_EVENT ∨ s1 = STATE_INIT_REPLY_EVENT) := by
  unfold PtlInit.late_send_event at h
  cases hp : w.buf.put_md with
  | none => simp [hp] at h
  | some md =>
    simp only [hp, send_events_eq] at h
    split_ifs at h <;> cases h <;>
      exact ⟨by simp [init_world.log, send_calls], rfl, rfl, rfl, by simp⟩

theorem ack_step (w : init_world) :
    ∃ W, PtlInit.ack_event w = init_step.next W STATE_INIT_CLEANUP ∧
      W.trace = w.trace ++
        ((if w.buf.put_md.isSome then [init_call.md_put true] else []) ++ ack_calls w) ∧
      W.buf.event_mask.XI_ACK_EVENT = false ∧ W.buf.event_mask.XI_CT_ACK_EVENT = false ∧
      W.buf.put_md = none ∧ W.buf.get_md = w.buf.get_md := by
  unfold PtlInit.ack_event ack_calls PtlInit.make_ack_event PtlInit.make_ct_ack_event
  cases hp : w.buf.put_md <;>
  cases h1 : w.buf.event_mask.XI_ACK_EVENT <;>
  cases h2 : w.buf.event_mask.XI_CT_ACK_EVENT <;>
  cases h3 : (w.buf.ni_fail != PTL_NI_OK || !w.buf.event_mask.XI_PUT_SUCCESS_DISABLE_EVENT) <;>
  simp [init_world.log, hp, h1, h2, h3]

theorem reply_step (w W : init_world) (s1 : init_state)
    (h : PtlInit.reply_event w = init_step.next W s1) :
    W.trace = w.trace ++ init_call.md_put false :: reply_calls w ∧
    W.buf.event_mask.XI_ACK_EVENT = w.buf.event_mask.XI_ACK_EVENT ∧
    W.buf.event_mask.XI_CT_ACK_EVENT = w.buf.event_mask.XI_CT_ACK_EVENT ∧
    W.buf.put_md = w.buf.put_md ∧ s1 = STATE_INIT_CLEANUP := by
  unfold PtlInit.reply_event at h
  cases hp : w.buf.get_md with
  | none => simp [hp] at h
  | some md =>
    simp only [hp] at h
    cases h
    unfold reply_calls PtlInit.make_reply_event PtlInit.make_ct_reply_event
    cases h1 : w.buf.event_mask.XI_REPLY_EVENT <;>
    cases h2 : w.buf.event_mask.XI_CT_REPLY_EVENT <;>
    cases h3 : (w.buf.ni_fail != PTL_NI_OK ||
      !w.buf.event_mask.XI_GET_SUCCESS_DISABLE_EVENT) <;>
    simp [init_world.log, h1, h2, h3]

theorem send_calls_events (w : init_world) (early : Bool) :
    (init_event_kinds (send_calls w early)).Sublist send_order ∧
    (w.buf.event_mask.XI_SEND_EVENT = false → w.buf.event_mask.XI_CT_SEND_EVENT = false →
      send_calls w early = []) ∧
    (∀ g, released_scan true g (send_calls w early) = true) ∧
    (∀ a ∈ send_calls w early, is_quiet a = false ∧ a ≠ init_call.md_put true ∧
      a ≠ init_call.md_put false) := by
  unfold send_calls send_order
  cases w.buf.event_mask.XI_SEND_EVENT <;> cases w.buf.event_mask.XI_CT_SEND_EVENT <;>
  cases (w.buf.ni_fail != PTL_NI_OK || !w.buf.event_mask.XI_PUT_SUCCESS_DISABLE_EVENT) <;>
  simp [init_event_kinds, released_scan, is_quiet]

theorem ack_calls_events (w : init_world) :
    (init_event_kinds (ack_calls w)).Sublist
      [(init_event_t.PTL_EVENT_ACK, false), (init_event_t.PTL_EVENT_ACK, true)] ∧
    (w.buf.event_mask.XI_ACK_EVENT = false → w.buf.event_mask.XI_CT_ACK_EVENT = false →
      ack_calls w = []) ∧
    (∀ g, released_scan true g (ack_calls w) = true) := by
  unfold ack_calls
  cases w.buf.event_mask.XI_ACK_EVENT <;> cases w.buf.event_mask.XI_CT_ACK_EVENT <;>
  cases (w.buf.ni_fail != PTL_NI_OK || !w.buf.event_mask.XI_PUT_SUCCESS_DISABLE_EVENT) <;>
  simp [init_event_kinds, released_scan]

theorem reply_calls_events (w : init_world) :
    (init_event_kinds (reply_calls w)).Sublist
      [(init_event_t.PTL_EVENT_REPLY, false), (init_event_t.PTL_EVENT_REPLY, true)] ∧
    (∀ p, released_scan p true (reply_calls w) = true) := by
  unfold reply_calls
  cases w.buf.event_mask.XI_REPLY_EVENT <;> cases w.buf.event_mask.XI_CT_REPLY_EVENT <;>
  cases (w.buf.ni_fail != PTL_NI_OK || !w.buf.event_mask.XI_GET_SUCCESS_DISABLE_EVENT) <;>
  simp [init_event_kinds, released_scan]

theorem init_events_append (t u : List init_call) :
    init_event_kinds (t ++ u) = init_event_kinds t ++ init_event_kinds u := by
  simp [init_event_kinds, List.filterMap_append]

theorem released_scan_append (p g : Bool) (t u : List init_call) :
    released_scan p g (t ++ u) =
      (released_scan p g t &&
        released_scan (p || decide (init_call.md_put true ∈ t))
          (g || decide (init_call.md_put false ∈ t)) u) := by
  induction t generalizing p g with
  | nil => simp [released_scan]
  | cons a t ih =>
    cases a with
    | md_put b =>
      cases b <;> simp [released_scan, ih]
    | make_init_event e ty f =>
      simp [released_scan, ih, Bool.and_assoc]
    | make_ct_event k c m f l =>
      simp [released_scan, ih, Bool.and_assoc]
    | _ => simp [released_scan, ih]

theorem released_scan_quiet (p g : Bool) (u : List init_call)
    (h : ∀ a ∈ u, is_quiet a = true) : released_scan p g u = true := by
  induction u with
  | nil => rfl
  | cons a t ih =>
    have ha := h a (List.mem_cons_self _ _)
    have ih1 := ih (fun x hx => h x (List.mem_cons_of_mem _ hx))
    cases a <;> simp_all [released_scan, is_quiet]

theorem init_events_quiet (u : List init_call) (h : ∀ a ∈ u, is_quiet a = true) :
    init_event_kinds u = [] := by
  induction u with
  | nil => rfl
  | cons a t ih =>
    have ha := h a (List.mem_cons_self _ _)
    have ih1 := ih (fun x hx => h x (List.mem_cons_of_mem _ hx))
    cases a <;> simp_all [init_event_kinds, is_quiet]

theorem released_scan_mono (p g : Bool) (u : List init_call)
    (h : released_scan p g u = true) (p1 g1 : Bool) (hp : p = true → p1 = true)
    (hg : g = true → g1 = true) : released_scan p1 g1 u = true := by
  induction u generalizing p g p1 g1 with
  | nil => rfl
  | cons a t ih =>
    cases a with
    | md_put b =>
      cases b
      · simp only [released_scan] at h ⊢
        exact ih _ _ h _ _ hp (fun _ => rfl)
      · simp only [released_scan] at h ⊢
        exact ih _ _ h _ _ (fun _ => rfl) hg
    | make_init_event e ty f =>
      simp only [released_scan, Bool.and_eq_true] at h ⊢
      refine ⟨?_, ih _ _ h.2 _ _ hp hg⟩
      have h1 := h.1
      split_ifs at h1 ⊢
      · exact hg h1
      · exact hp h1
    | make_ct_event k c m f l =>
      simp only [released_scan, Bool.and_eq_true] at h ⊢
      refine ⟨?_, ih _ _ h.2 _ _ hp hg⟩
      have h1 := h.1
      split_ifs at h1 ⊢
      · exact hg h1
      · exact hp h1
    | _ =>
      simp only [released_scan] at h ⊢
      exact ih _ _ h _ _ hp hg

theorem init_ext_iff (P : init_call → Bool) (w W : init_world) :
    init_ext P w W ↔ ∃ t, W.trace = w.trace ++ t ∧ ∀ a ∈ t, P a = true := by
  constructor
  · rintro ⟨⟨t, ht⟩, h⟩
    refine ⟨t, ht.symm, ?_⟩
    rw [← ht, List.drop_left, List.all_eq_true] at h
    exact h
  · rintro ⟨t, ht, h⟩
    refine ⟨⟨t, ht.symm⟩, ?_⟩
    rw [ht, List.drop_left, List.all_eq_true]
    exact h

theorem start_options_ack (buf : init_buf_t) :
    (PtlInit.start_options buf).XI_ACK_EVENT = false ∧
    (PtlInit.start_options buf).XI_CT_ACK_EVENT = false := by
  unfold PtlInit.start_options
  cases buf.put_md <;> cases buf.get_md <;> exact ⟨rfl, rfl⟩

theorem start_get_ack (md : md_t) (m : xi_event_mask_t) :
    (PtlInit.start_get md m).XI_ACK_EVENT = m.XI_ACK_EVENT ∧
    (PtlInit.start_get md m).XI_CT_ACK_EVENT = m.XI_CT_ACK_EVENT := by
  unfold PtlInit.start_get
  simp only []
  split_ifs <;> exact ⟨rfl, rfl⟩

theorem start_swap_ack (p g : md_t) (m : xi_event_mask_t) :
    (PtlInit.start_swap p g m).XI_ACK_EVENT = m.XI_ACK_EVENT ∧
    (PtlInit.start_swap p g m).XI_CT_ACK_EVENT = m.XI_CT_ACK_EVENT := by
  unfold PtlInit.start_swap
  simp only []
  split_ifs <;> exact ⟨rfl, rfl⟩

theorem start_quiet (w : init_world) :
    quiet_frame STATE_INIT_START w (PtlInit.start w) ∧
    (∀ W s1, PtlInit.start w = init_step.next W s1 →
      (W.buf.event_mask.XI_ACK_EVENT = true ∨ W.buf.event_mask.XI_CT_ACK_EVENT = true) →
      W.buf.put_md.isSome = true) := by
  unfold PtlInit.start quiet_frame init_ext
  simp only []
  constructor
  · repeat' split
    all_goals simp [init_step.world, init_step.state, init_phase]
  · intro W s1 h hb
    have ho := start_options_ack w.buf
    repeat' split at h
    all_goals cases h
    · rename_i hp
      simp [hp]
    · rename_i md hg
      have t := start_get_ack md
        { PtlInit.start_options w.buf with XI_RECEIVE_EXPECTED := true }
      have t1 := t.1.trans ho.1
      have t2 := t.2.trans ho.2
      rcases hb with hb | hb
      · exact absurd (t1.symm.trans hb) (by decide)
      · exact absurd (t2.symm.trans hb) (by decide)
    · rename_i p g hp hg
      have t := start_swap_ack p g
        { PtlInit.start_options w.buf with XI_RECEIVE_EXPECTED := true }
      have t1 := t.1.trans ho.1
      have t2 := t.2.trans ho.2
      rcases hb with hb | hb
      · exact absurd (t1.symm.trans hb) (by decide)
      · exact absurd (t2.symm.trans hb) (by decide)

theorem prepare_req_end_quiet (K : Consts) (w : init_world) (p : Option data_fmt_t) :
    quiet_frame STATE_INIT_PREP_REQ w (PtlInit.prepare_req_end K w p) ∧
    event_bits (PtlInit.prepare_req_end K w p).world.buf.event_mask =
      event_bits w.buf.event_mask := by
  unfold PtlInit.prepare_req_end quiet_frame init_ext
  simp only []
  split_ifs <;> simp [init_step.world, init_step.state, init_phase, event_bits]

theorem append_data_quiet (C : init_collab) (w : init_world) (put : Bool) :
    init_ext is_quiet w (PtlInit.append_data C w put).2.2 ∧
    (PtlInit.append_data C w put).2.2.buf.put_md = w.buf.put_md ∧
    (PtlInit.append_data C w put).2.2.buf.get_md = w.buf.get_md ∧
    (PtlInit.append_data C w put).2.2.buf.event_mask = w.buf.event_mask := by
  unfold PtlInit.append_data init_ext
  simp [init_world.log, is_quiet]

theorem init_ext_trans (P : init_call → Bool) (w1 w2 w3 : init_world)
    (h1 : init_ext P w1 w2) (h2 : init_ext P w2 w3) : init_ext P w1 w3 := by
  rw [init_ext_iff] at h1 h2 ⊢
  obtain ⟨t1, e1, p1⟩ := h1
  obtain ⟨t2, e2, p2⟩ := h2
  refine ⟨t1 ++ t2, by rw [e2, e1, List.append_assoc], ?_⟩
  intro a ha
  rcases List.mem_append.1 ha with h | h
  · exact p1 a h
  · exact p2 a h

theorem quiet_frame_trans (s : init_state) (w1 w2 : init_world) (r : init_step)
    (h1 : init_ext is_quiet w1 w2) (hp : w2.buf.put_md = w1.buf.put_md)
    (hg : w2.buf.get_md = w1.buf.get_md) (h2 : quiet_frame s w2 r) : quiet_frame s w1 r :=
  ⟨init_ext_trans _ _ _ _ h1 h2.1, h2.2.1.trans hp, h2.2.2.1.trans hg, h2.2.2.2⟩

theorem prepare_req_quiet (K : Consts) (C : init_collab) (w : init_world) :
    quiet_frame STATE_INIT_PREP_REQ w (PtlInit.prepare_req K C w) ∧
    event_bits (PtlInit.prepare_req K C w).world.buf.event_mask =
      event_bits w.buf.event_mask := by
  unfold PtlInit.prepare_req
  simp only []
  have q0 : ∀ (w1 : init_world), init_ext is_quiet w w1 → w1.buf.put_md = w.buf.put_md →
      w1.buf.get_md = w.buf.get_md → w1.buf.event_mask = w.buf.event_mask →
      ∀ s1, s1 = STATE_INIT_ERROR →
      quiet_frame STATE_INIT_PREP_REQ w (init_step.next w1 s1) ∧
      event_bits (init_step.next w1 s1).world.buf.event_mask = event_bits w.buf.event_mask := by
    intro w1 h1 h2 h3 h4 s1 hs
    subst hs
    exact ⟨⟨h1, h2, h3, by simp [init_step.state, init_phase]⟩, by
      simp [init_step.world, h4]⟩
  have q1 : ∀ (w1 : init_world) p, init_ext is_quiet w w1 → w1.buf.put_md = w.buf.put_md →
      w1.buf.get_md = w.buf.get_md → w1.buf.event_mask = w.buf.event_mask →
      quiet_frame STATE_INIT_PREP_REQ w (PtlInit.prepare_req_end K w1 p) ∧
      event_bits (PtlInit.prepare_req_end K w1 p).world.buf.event_mask =
        event_bits w.buf.event_mask := by
    intro w1 p h1 h2 h3 h4
    have e := prepare_req_end_quiet K w1 p
    exact ⟨quiet_frame_trans _ _ _ _ h1 h2 h3 e.1, by rw [e.2, h4]⟩
  have r0 : init_ext is_quiet w w := by simp [init_ext]
  split_ifs
  · exact q0 _ (append_data_quiet C _ true).1 (append_data_quiet C _ true).2.1
      (append_data_quiet C _ true).2.2.1 (append_data_quiet C _ true).2.2.2 _ rfl
  · exact q1 _ _ (append_data_quiet C _ true).1 (append_data_quiet C _ true).2.1
      (append_data_quiet C _ true).2.2.1 (append_data_quiet C _ true).2.2.2
  · exact q0 _ (append_data_quiet C _ false).1 (append_data_quiet C _ false).2.1
      (append_data_quiet C _ false).2.2.1 (append_data_quiet C _ false).2.2.2 _ rfl
  · exact q1 _ _ (append_data_quiet C _ false).1 (append_data_quiet C _ false).2.1
      (append_data_quiet C _ false).2.2.1 (append_data_quiet C _ false).2.2.2
  · exact q0 _ (append_data_quiet C _ false).1 (append_data_quiet C _ false).2.1
      (append_data_quiet C _ false).2.2.1 (append_data_quiet C _ false).2.2.2 _ rfl
  · have a := append_data_quiet C
      { w with
        buf.data := { w.buf.data with
          version := PTL_HDR_VER_1, ni_type := w.ni.ni_type, pkt_fmt := PKT_FMT_REQ,
          dst_nid := w.buf.target.nid, dst_pid := w.buf.target.pid,
          src_nid := w.ni.id.nid, src_pid := w.ni.id.pid,
          hdr_size := C.sizeof_req_hdr, handle := w.buf.handle, data_in := 1, data_out := 1 },
        buf.length := C.sizeof_req_hdr } false
    have b := append_data_quiet C
      (PtlInit.append_data C
      { w with
        buf.data := { w.buf.data with
          version := PTL_HDR_VER_1, ni_type := w.ni.ni_type, pkt_fmt := PKT_FMT_REQ,
          dst_nid := w.buf.target.nid, dst_pid := w.buf.target.pid,
          src_nid := w.ni.id.nid, src_pid := w.ni.id.pid,
          hdr_size := C.sizeof_req_hdr, handle := w.buf.handle, data_in := 1, data_out := 1 },
        buf.length := C.sizeof_req_hdr } false).2.2 true
    exact q0 _ (init_ext_trans _ _ _ _ a.1 b.1) (b.2.1.trans a.2.1) (b.2.2.1.trans a.2.2.1)
      (b.2.2.2.trans a.2.2.2) _ rfl
  · have a := append_data_quiet C
      { w with
        buf.data := { w.buf.data with
          version := PTL_HDR_VER_1, ni_type := w.ni.ni_type, pkt_fmt := PKT_FMT_REQ,
          dst_nid := w.buf.target.nid, dst_pid := w.buf.target.pid,
          src_nid := w.ni.id.nid, src_pid := w.ni.id.pid,
          hdr_size := C.sizeof_req_hdr, handle := w.buf.handle, data_in := 1, data_out := 1 },
        buf.length := C.sizeof_req_hdr } false
    have b := append_data_quiet C
      (PtlInit.append_data C
      { w with
        buf.data := { w.buf.data with
          version := PTL_HDR_VER_1, ni_type := w.ni.ni_type, pkt_fmt := PKT_FMT_REQ,
          dst_nid := w.buf.target.nid, dst_pid := w.buf.target.pid,
          src_nid := w.ni.id.nid, src_pid := w.ni.id.pid,
          hdr_size := C.sizeof_req_hdr, handle := w.buf.handle, data_in := 1, data_out := 1 },
        buf.length := C.sizeof_req_hdr } false).2.2 true
    exact q1 _ _ (init_ext_trans _ _ _ _ a.1 b.1) (b.2.1.trans a.2.1) (b.2.2.1.trans a.2.2.1)
      (b.2.2.2.trans a.2.2.2)
  · exact ⟨⟨r0, rfl, rfl, rfl⟩, rfl⟩

theorem wait_conn_quiet (K : Consts) (C : init_collab) (w : init_world) :
    quiet_frame STATE_INIT_WAIT_CONN w (PtlInit.wait_conn K C w) ∧
    event_bits (PtlInit.wait_conn K C w).world.buf.event_mask =
      event_bits w.buf.event_mask := by
  unfold PtlInit.wait_conn quiet_frame init_ext
  simp only []
  split_ifs <;>
    simp [init_step.world, init_step.state, init_phase, init_world.log, is_quiet]

theorem send_req_quiet (K : Consts) (C : init_collab) (w : init_world) :
    quiet_frame STATE_INIT_SEND_REQ w (PtlInit.send_req K C w) ∧
    event_bits (PtlInit.send_req K C w).world.buf.event_mask =
      event_bits w.buf.event_mask := by
  unfold PtlInit.send_req quiet_frame init_ext
  simp only []
  split_ifs <;>
    simp [init_step.world, init_step.state, init_phase, init_world.log, is_quiet]

theorem send_error_quiet (w : init_world) :
    quiet_frame STATE_INIT_SEND_ERROR w (PtlInit.send_error w) ∧
    event_bits (PtlInit.send_error w).world.buf.event_mask =
      event_bits w.buf.event_mask := by
  unfold PtlInit.send_error quiet_frame init_ext
  simp only []
  split_ifs <;>
    simp [init_step.world, init_step.state, init_phase, init_world.log, is_quiet]

theorem wait_comp_quiet (w : init_world) :
    quiet_frame STATE_INIT_WAIT_COMP w (PtlInit.wait_comp w) ∧
    event_bits (PtlInit.wait_comp w).world.buf.event_mask =
      event_bits w.buf.event_mask := by
  unfold PtlInit.wait_comp quiet_frame init_ext
  split_ifs <;>
    simp [init_step.world, init_step.state, init_phase, init_world.log, is_quiet]

theorem wait_recv_quiet (w : init_world) :
    quiet_frame STATE_INIT_WAIT_RECV w (PtlInit.wait_recv w) ∧
    event_bits (PtlInit.wait_recv w).world.buf.event_mask =
      event_bits w.buf.event_mask := by
  unfold PtlInit.wait_recv quiet_frame init_ext
  simp only []
  split
  · simp [init_step.world, init_step.state, init_phase]
  · split_ifs <;>
      simp [init_step.world, init_step.state, init_phase, init_world.log, is_quiet]

theorem data_in_quiet (C : init_collab) (w : init_world) :
    quiet_frame STATE_INIT_DATA_IN w (PtlInit.data_in C w) ∧
    event_bits (PtlInit.data_in C w).world.buf.event_mask =
      event_bits w.buf.event_mask := by
  unfold PtlInit.data_in quiet_frame init_ext
  simp only []
  split
  · split_ifs <;>
      simp [init_step.world, init_step.state, init_phase, init_world.log, is_quiet]
  · simp [init_step.world, init_step.state]

theorem send_sub_order : send_order.Sublist event_order := by
  unfold send_order event_order
  decide

theorem ev_ok_mono (p p1 : Nat) (m m1 : xi_event_mask_t) (l : List (init_event_t × Bool))
    (hp : p ≤ p1) (hb : event_bits m1 = event_bits m) (h : ev_ok p m l) : ev_ok p1 m1 l := by
  simp only [event_bits, List.cons.injEq, and_true] at hb
  unfold ev_ok at h ⊢
  split_ifs at h ⊢
  all_goals first
    | omega
    | (subst h; first | rfl | exact List.nil_sublist _ | exact ⟨List.nil_sublist _, fun hh => absurd rfl hh⟩)
    | exact h.1
    | exact h.1.trans send_sub_order
    | exact h.trans send_sub_order
    | exact h
    | exact ⟨h.1, fun hh => by rw [hb.1, hb.2.1]; exact h.2 hh⟩

theorem ev_ok_nil (p : Nat) (m : xi_event_mask_t) : ev_ok p m [] := by
  unfold ev_ok
  split_ifs
  · rfl
  · exact ⟨List.nil_sublist _, fun hh => absurd rfl hh⟩
  · exact List.nil_sublist _
  · exact List.nil_sublist _

theorem inv_quiet (w0 : init_world) (s : init_state) (w : init_world) (r : init_step)
    (hs : s ≠ STATE_INIT_START) (hf : quiet_frame s w r)
    (hb : event_bits r.world.buf.event_mask = event_bits w.buf.event_mask)
    (h : init_inv w0 s w) (W : init_world) (s1 : init_state) (hr : r = init_step.next W s1) :
    init_inv w0 s1 W := by
  subst hr
  obtain ⟨T, hT, hscan, hev, hj⟩ := h
  obtain ⟨hext, hput, hget, hph⟩ := hf
  obtain ⟨u, hu, hq⟩ := (init_ext_iff _ _ _).1 hext
  simp only [init_step.world, init_step.state, Option.all_some, decide_eq_true_eq] at *
  refine ⟨T ++ u, by rw [hu, hT, List.append_assoc], ?_, ?_, ?_⟩
  · rw [released_scan_append, hscan, released_scan_quiet _ _ u hq]
    rfl
  · rw [init_events_append, init_events_quiet u hq, List.append_nil]
    exact ev_ok_mono _ _ _ _ _ hph hb hev
  · intro _ hbits
    simp only [event_bits, List.cons.injEq, and_true] at hb
    rw [hb.2.2.1, hb.2.2.2.1] at hbits
    rcases hj hs hbits with h1 | h1
    · exact Or.inl (by rw [hput]; exact h1)
    · exact Or.inr (List.mem_append_left _ h1)

theorem inv_log (w0 : init_world) (s : init_state) (w : init_world) (a : init_call)
    (ha : is_quiet a = true) (h : init_inv w0 s w) : init_inv w0 s (w.log a) := by
  obtain ⟨T, hT, hscan, hev, hj⟩ := h
  refine ⟨T ++ [a], by simp [init_world.log, hT], ?_, ?_, ?_⟩
  · rw [released_scan_append, hscan, released_scan_quiet _ _ [a] (by simpa using ha)]
    rfl
  · rw [init_events_append, init_events_quiet [a] (by simpa using ha), List.append_nil]
    exact hev
  · intro hs hbits
    rcases hj hs hbits with h1 | h1
    · exact Or.inl h1
    · exact Or.inr (List.mem_append_left _ h1)

theorem inv_start (w0 : init_world) (w W : init_world) (s1 : init_state)
    (h : init_inv w0 STATE_INIT_START w)
    (hr : PtlInit.start w = init_step.next W s1) : init_inv w0 s1 W := by
  obtain ⟨T, hT, hscan, hev, _⟩ := h
  obtain ⟨⟨hext, hput, hget, hph⟩, hj⟩ := start_quiet w
  obtain ⟨u, hu, hq⟩ := (init_ext_iff _ _ _).1 hext
  have hj1 := hj W s1 hr
  rw [hr] at hu hph
  simp only [init_step.world, init_step.state, Option.all_some, decide_eq_true_eq] at *
  have hl : init_event_kinds T = [] := by
    unfold ev_ok at hev
    simpa [init_phase] using hev
  refine ⟨T ++ u, by rw [hu, hT, List.append_assoc], ?_, ?_, ?_⟩
  · rw [released_scan_append, hscan, released_scan_quiet _ _ u hq]
    rfl
  · rw [init_events_append, init_events_quiet u hq, List.append_nil, hl]
    exact ev_ok_nil _ _
  · intro _ hbits
    exact Or.inl (hj1 hbits)

theorem ev_ok_zero (m : xi_event_mask_t) (l : List (init_event_t × Bool)) (h : ev_ok 0 m l) :
    l = [] := by
  unfold ev_ok at h
  simpa using h

theorem inv_sends (w0 : init_world) (s s1 : init_state) (w W : init_world) (early : Bool)
    (hs : init_phase s ≤ 1) (hs1 : 1 ≤ init_phase s1)
    (h : init_inv w0 s w)
    (ht : W.trace = w.trace ++ init_call.md_put true :: send_calls w early)
    (hm : W.buf.event_mask =
      { w.buf.event_mask with XI_SEND_EVENT := false, XI_CT_SEND_EVENT := false }) :
    init_inv w0 s1 W := by
  obtain ⟨T, hT, hscan, hev, hj⟩ := h
  obtain ⟨c1, c2, c3, c4⟩ := send_calls_events w early
  have hl : (init_event_kinds T ++ init_event_kinds (send_calls w early)).Sublist send_order := by
    unfold ev_ok at hev
    split_ifs at hev with h0 h1
    · rw [hev, List.nil_append]
      exact c1
    · by_cases hn : init_event_kinds T = []
      · rw [hn, List.nil_append]
        exact c1
      · obtain ⟨b1, b2⟩ := hev.2 hn
        rw [c2 b1 b2]
        simpa [init_event_kinds] using hev.1
    · omega
    · omega
  refine ⟨T ++ init_call.md_put true :: send_calls w early,
    by rw [ht, hT, List.append_assoc], ?_, ?_, ?_⟩
  · rw [released_scan_append, hscan]
    simp only [released_scan, Bool.true_and]
    exact c3 _
  · rw [init_events_append]
    have : init_event_kinds (init_call.md_put true :: send_calls w early) =
        init_event_kinds (send_calls w early) := by
      simp [init_event_kinds]
    rw [this]
    unfold ev_ok
    split_ifs
    · omega
    · exact ⟨hl, fun _ => by rw [hm]; exact ⟨rfl, rfl⟩⟩
    · exact hl
    · exact hl.trans send_sub_order
  · intro _ _
    exact Or.inr (List.mem_append_right _ (List.mem_cons_self _ _))

theorem inv_ack (w0 : init_world) (w : init_world)
    (h : init_inv w0 STATE_INIT_ACK_EVENT w) :
    ∃ W, PtlInit.ack_event w = init_step.next W STATE_INIT_CLEANUP ∧
      init_inv w0 STATE_INIT_CLEANUP W := by
  obtain ⟨W, hW, ht, hb1, hb2, hp, hg⟩ := ack_step w
  refine ⟨W, hW, ?_⟩
  obtain ⟨T, hT, hscan, hev, hj⟩ := h
  obtain ⟨c1, c2, c3⟩ := ack_calls_events w
  have hev1 : (init_event_kinds T).Sublist send_order := by
    unfold ev_ok at hev
    simpa [init_phase] using hev
  refine ⟨T ++ ((if w.buf.put_md.isSome then [init_call.md_put true] else []) ++ ack_calls w),
    by rw [ht, hT, List.append_assoc], ?_, ?_, ?_⟩
  · rw [released_scan_append, hscan, Bool.true_and, released_scan_append]
    cases hp1 : w.buf.put_md.isSome
    · simp only [Bool.false_eq_true, if_false, released_scan, Bool.true_and, List.not_mem_nil,
        decide_False, Bool.or_false]
      by_cases hbits : w.buf.event_mask.XI_ACK_EVENT = true ∨
          w.buf.event_mask.XI_CT_ACK_EVENT = true
      · rcases hj (by decide) hbits with h1 | h1
        · rw [hp1] at h1
          cases h1
        · simp only [h1, decide_True, Bool.or_true, Bool.false_or]
          exact released_scan_mono _ _ _ (c3 false) _ _ (fun _ => rfl) (fun hh => by cases hh)
      · have e := c2 (by simpa using fun hh => hbits (Or.inl hh))
          (by simpa using fun hh => hbits (Or.inr hh))
        rw [e]
        rfl
    · simp only [if_true, released_scan, Bool.true_and, List.mem_singleton, decide_True,
        Bool.or_true]
      exact released_scan_mono _ _ _ (c3 false) _ _ (fun _ => rfl) (fun hh => by cases hh)
  · rw [init_events_append, init_events_append]
    have : init_event_kinds (if w.buf.put_md.isSome then [init_call.md_put true] else []) = [] := by
      split_ifs <;> rfl
    rw [this, List.nil_append]
    unfold ev_ok
    simp only [init_phase]
    have := hev1.append c1
    exact this.trans (by unfold send_order event_order; decide)
  · intro _ hbits
    rw [hb1, hb2] at hbits
    rcases hbits with hh | hh <;> cases hh

theorem inv_reply (w0 : init_world) (w W : init_world) (s1 : init_state)
    (h : init_inv w0 STATE_INIT_REPLY_EVENT w)
    (hr : PtlInit.reply_event w = init_step.next W s1) : init_inv w0 s1 W := by
  obtain ⟨ht, hb1, hb2, hp, hs1⟩ := reply_step w W s1 hr
  subst hs1
  obtain ⟨T, hT, hscan, hev, hj⟩ := h
  obtain ⟨c1, c3⟩ := reply_calls_events w
  have hev1 : (init_event_kinds T).Sublist send_order := by
    unfold ev_ok at hev
    simpa [init_phase] using hev
  refine ⟨T ++ init_call.md_put false :: reply_calls w, by rw [ht, hT, List.append_assoc],
    ?_, ?_, ?_⟩
  · rw [released_scan_append, hscan, Bool.true_and]
    simp only [released_scan]
    exact c3 _
  · rw [init_events_append]
    have : init_event_kinds (init_call.md_put false :: reply_calls w) =
        init_event_kinds (reply_calls w) := by
      simp [init_event_kinds]
    rw [this]
    unfold ev_ok
    simp only [init_phase]
    exact (hev1.append c1).trans (by unfold send_order event_order; decide)
  · intro _ hbits
    rw [hb1, hb2] at hbits
    rcases hj (by decide) hbits with h1 | h1
    · exact Or.inl (by rw [hp]; exact h1)
    · exact Or.inr (List.mem_append_left _ h1)

theorem inv_step (K : Consts) (C : init_collab) (w0 : init_world) (s : init_state)
    (w W : init_world) (s1 : init_state) (h : init_inv w0 s w)
    (hr : PtlInit.handler K C s (w.log (init_call.state s)) = init_step.next W s1) :
    (s = STATE_INIT_ERROR ∨ s = STATE_INIT_CLEANUP ∨ s = STATE_INIT_DONE) ∨
      init_inv w0 s1 W := by
  have hl := inv_log w0 s w (init_call.state s) rfl h
  cases s with
  | STATE_INIT_START => exact Or.inr (inv_start w0 _ W s1 hl hr)
  | STATE_INIT_PREP_REQ =>
    exact Or.inr (inv_quiet w0 _ _ _ (by decide) (prepare_req_quiet K C _).1
      (prepare_req_quiet K C _).2 hl W s1 hr)
  | STATE_INIT_WAIT_CONN =>
    exact Or.inr (inv_quiet w0 _ _ _ (by decide) (wait_conn_quiet K C _).1
      (wait_conn_quiet K C _).2 hl W s1 hr)
  | STATE_INIT_SEND_REQ =>
    exact Or.inr (inv_quiet w0 _ _ _ (by decide) (send_req_quiet K C _).1
      (send_req_quiet K C _).2 hl W s1 hr)
  | STATE_INIT_WAIT_COMP =>
    exact Or.inr (inv_quiet w0 _ _ _ (by decide) (wait_comp_quiet _).1
      (wait_comp_quiet _).2 hl W s1 hr)
  | STATE_INIT_SEND_ERROR =>
    exact Or.inr (inv_quiet w0 _ _ _ (by decide) (send_error_quiet _).1
      (send_error_quiet _).2 hl W s1 hr)
  | STATE_INIT_WAIT_RECV =>
    exact Or.inr (inv_quiet w0 _ _ _ (by decide) (wait_recv_quiet _).1
      (wait_recv_quiet _).2 hl W s1 hr)
  | STATE_INIT_DATA_IN =>
    exact Or.inr (inv_quiet w0 _ _ _ (by decide) (data_in_quiet C _).1
      (data_in_quiet C _).2 hl W s1 hr)
  | STATE_INIT_EARLY_SEND_EVENT =>
    obtain ⟨a, b, _, _, e⟩ := early_step _ W s1 hr
    refine Or.inr (inv_sends w0 _ s1 _ W true (by decide) ?_ hl a b)
    rcases e with e | e <;> subst e <;> decide
  | STATE_INIT_LATE_SEND_EVENT =>
    obtain ⟨a, b, _, _, e⟩ := late_step _ W s1 hr
    refine Or.inr (inv_sends w0 _ s1 _ W false (by decide) ?_ hl a b)
    rcases e with e | e | e <;> subst e <;> decide
  | STATE_INIT_ACK_EVENT =>
    obtain ⟨W1, e1, i1⟩ := inv_ack w0 _ hl
    have e2 : PtlInit.handler K C STATE_INIT_ACK_EVENT
        (w.log (init_call.state STATE_INIT_ACK_EVENT)) = init_step.next W1 STATE_INIT_CLEANUP :=
      e1
    rw [hr] at e2
    cases e2
    exact Or.inr i1
  | STATE_INIT_REPLY_EVENT => exact Or.inr (inv_reply w0 _ W s1 hl hr)
  | STATE_INIT_ERROR => exact Or.inl (Or.inl rfl)
  | STATE_INIT_CLEANUP => exact Or.inl (Or.inr (Or.inl rfl))
  | STATE_INIT_DONE => exact Or.inl (Or.inr (Or.inr rfl))

theorem cleanup_facts (w : init_world) :
    (PtlInit.cleanup w).trace = w.trace ++
      ((if w.buf.get_md.isSome then [init_call.md_put false] else []) ++
       (if w.buf.put_md.isSome then [init_call.md_put true] else []) ++
       (if w.buf.recv_buf.isSome then [init_call.buf_put_recv_buf] else [])) ∧
    (PtlInit.cleanup w).buf.event_mask = w.buf.event_mask := by
  unfold PtlInit.cleanup
  cases hg : w.buf.get_md <;> cases hp : w.buf.put_md <;> cases hr : w.buf.recv_buf <;>
    simp [init_world.log, hg, hp, hr]

theorem inv_cleanup (w0 : init_world) (w : init_world)
    (h : init_inv w0 STATE_INIT_CLEANUP w) :
    init_inv w0 STATE_INIT_DONE
      ({ PtlInit.cleanup (w.log (init_call.state STATE_INIT_CLEANUP)) with
          buf.init_state := STATE_INIT_DONE }.log init_call.buf_put) := by
  obtain ⟨T, hT, hscan, hev, hj⟩ := h
  obtain ⟨f1, f2⟩ := cleanup_facts (w.log (init_call.state STATE_INIT_CLEANUP))
  have hev1 : (init_event_kinds T).Sublist event_order := by
    unfold ev_ok at hev
    simpa [init_phase] using hev
  refine ⟨T ++ (init_call.state STATE_INIT_CLEANUP ::
    ((if w.buf.get_md.isSome then [init_call.md_put false] else []) ++
     (if w.buf.put_md.isSome then [init_call.md_put true] else []) ++
     (if w.buf.recv_buf.isSome then [init_call.buf_put_recv_buf] else []) ++
     [init_call.buf_put])), ?_, ?_, ?_, ?_⟩
  · show (PtlInit.cleanup (w.log (init_call.state STATE_INIT_CLEANUP))).trace ++
      [init_call.buf_put] = _
    rw [f1]
    simp [init_world.log, hT]
  · rw [released_scan_append, hscan, Bool.true_and]
    cases w.buf.get_md.isSome <;> cases w.buf.put_md.isSome <;>
      cases w.buf.recv_buf.isSome <;> simp [released_scan]
  · rw [init_events_append]
    have : init_event_kinds (init_call.state STATE_INIT_CLEANUP ::
        ((if w.buf.get_md.isSome then [init_call.md_put false] else []) ++
         (if w.buf.put_md.isSome then [init_call.md_put true] else []) ++
         (if w.buf.recv_buf.isSome then [init_call.buf_put_recv_buf] else []) ++
         [init_call.buf_put])) = [] := by
      cases w.buf.get_md.isSome <;> cases w.buf.put_md.isSome <;>
        cases w.buf.recv_buf.isSome <;> simp [init_event_kinds]
    rw [this, List.append_nil]
    unfold ev_ok
    simpa [init_phase] using hev1
  · intro _ hbits
    have e : ({ PtlInit.cleanup (w.log (init_call.state STATE_INIT_CLEANUP)) with
        buf.init_state := STATE_INIT_DONE }.log init_call.buf_put).buf.event_mask =
        w.buf.event_mask := f2
    rw [e] at hbits
    rcases hj (by decide) hbits with h1 | h1
    · refine Or.inr ?_
      rw [h1]
      simp
    · exact Or.inr (List.mem_append_left _ h1)

theorem init_loop_inv (K : Consts) (C : init_collab) (w0 : init_world) (n : Nat) :
    ∀ (s : init_state) (err : Bool) (w : init_world), init_inv w0 s w →
      ∀ W e, PtlInit.process_init_loop K C n s err w = init_result.returned W e →
        init_inv w0 W.buf.init_state W := by
  induction n with
  | zero =>
    intro s err w _ W e h
    cases h
  | succ n ih =>
    intro s err w hinv W e h
    have step : ∀ (hs : s ≠ STATE_INIT_ERROR ∧ s ≠ STATE_INIT_CLEANUP ∧ s ≠ STATE_INIT_DONE),
        (match PtlInit.handler K C s (w.log (init_call.state s)) with
          | init_step.abort w1 => init_result.aborted w1
          | init_step.next w1 s1 =>
            if PtlInit.suspends s && s1 == s then
              init_result.returned { w1 with buf.init_state := s1 } false
            else PtlInit.process_init_loop K C n s1 err w1) = init_result.returned W e →
        init_inv w0 W.buf.init_state W := by
      intro hs h1
      cases hh : PtlInit.handler K C s (w.log (init_call.state s)) with
      | abort w1 =>
        rw [hh] at h1
        cases h1
      | next w1 s1 =>
        rw [hh] at h1
        have i1 : init_inv w0 s1 w1 := by
          rcases inv_step K C w0 s w w1 s1 hinv hh with hb | hb
          · rcases hb with hb | hb | hb
            · exact absurd hb hs.1
            · exact absurd hb hs.2.1
            · exact absurd hb hs.2.2
          · exact hb
        simp only [] at h1
        split_ifs at h1
        · cases h1
          exact i1
        · exact ih s1 err w1 i1 W e h1
    cases s
    case STATE_INIT_ERROR =>
      unfold PtlInit.process_init_loop at h
      simp only [] at h
      refine ih STATE_INIT_CLEANUP true _ ?_ W e h
      obtain ⟨T, hT, hscan, hev, hj⟩ := inv_log w0 _ w (init_call.state STATE_INIT_ERROR) rfl hinv
      exact ⟨T, hT, hscan, hev, fun _ hb => hj (by decide) hb⟩
    case STATE_INIT_CLEANUP =>
      unfold PtlInit.process_init_loop at h
      simp only [] at h
      cases h
      exact inv_cleanup w0 w hinv
    case STATE_INIT_DONE =>
      unfold PtlInit.process_init_loop at h
      simp only [] at h
      cases h
      exact inv_log w0 _ w (init_call.state STATE_INIT_DONE) rfl hinv
    all_goals
      unfold PtlInit.process_init_loop at h
      exact step (by decide) h

/-- The invariant holds in every world `process_init` may be called in. -/
theorem init_inv_reach (K : Consts) (C : init_collab) (w0 W : init_world)
    (h0 : w0.buf.init_state = STATE_INIT_START) (hr : init_reach K C w0 W) :
    init_inv w0 W.buf.init_state W := by
  induction hr with
  | start =>
    rw [h0]
    exact ⟨[], by simp, rfl, ev_ok_nil _ _, fun hh => absurd rfl hh⟩
  | call w W fuel err _ hcall ih =>
    exact init_loop_inv K C w0 fuel _ false w ih W err hcall
  | env w W _ he ih =>
    obtain ⟨e1, e2, e3, e4, _⟩ := he
    obtain ⟨T, hT, hscan, hev, hj⟩ := ih
    rw [e2]
    exact ⟨T, by rw [e1, hT], hscan, by rw [e3]; exact hev, by rw [e3, e4]; exact hj⟩

theorem released_scan_sound (T : List init_call) :
    ∀ (p g : Bool), released_scan p g T = true →
      ∀ T1 a T2 k c, T = T1 ++ a :: T2 → init_event_kinds [a] = [(k, c)] →
        (k = init_event_t.PTL_EVENT_REPLY → g = true ∨ init_call.md_put false ∈ T1) ∧
        (k ≠ init_event_t.PTL_EVENT_REPLY → p = true ∨ init_call.md_put true ∈ T1) := by
  induction T with
  | nil =>
    intro p g _ T1 a T2 k c h
    simp at h
  | cons x t ih =>
    intro p g hs T1 a T2 k c h hk
    cases T1 with
    | nil =>
      simp only [List.nil_append, List.cons.injEq] at h
      obtain ⟨rfl, rfl⟩ := h
      cases x <;> simp [init_event_kinds] at hk
      · obtain ⟨rfl, rfl⟩ := hk
        simp only [released_scan, Bool.and_eq_true] at hs
        have h1 := hs.1
        constructor
        · intro hk
          subst hk
          simpa using h1
        · intro hk
          left
          simpa [hk] using h1
      · obtain ⟨rfl, rfl⟩ := hk
        simp only [released_scan, Bool.and_eq_true] at hs
        have h1 := hs.1
        constructor
        · intro hk
          subst hk
          simpa using h1
        · intro hk
          left
          simpa [hk] using h1
    | cons y T1 =>
      simp only [List.cons_append, List.cons.injEq] at h
      obtain ⟨rfl, h⟩ := h
      have key : ∀ p1 g1, released_scan p1 g1 t = true →
          (p1 = true → p = true ∨ x = init_call.md_put true) →
          (g1 = true → g = true ∨ x = init_call.md_put false) →
          (k = init_event_t.PTL_EVENT_REPLY → g = true ∨ init_call.md_put false ∈ x :: T1) ∧
          (k ≠ init_event_t.PTL_EVENT_REPLY → p = true ∨ init_call.md_put true ∈ x :: T1) := by
        intro p1 g1 h1 hp hg
        obtain ⟨r1, r2⟩ := ih p1 g1 h1 T1 a T2 k c h hk
        constructor
        · intro hk1
          rcases r1 hk1 with r | r
          · rcases hg r with r | r
            · exact Or.inl r
            · exact Or.inr (by rw [r]; exact List.mem_cons_self _ _)
          · exact Or.inr (List.mem_cons_of_mem _ r)
        · intro hk1
          rcases r2 hk1 with r | r
          · rcases hp r with r | r
            · exact Or.inl r
            · exact Or.inr (by rw [r]; exact List.mem_cons_self _ _)
          · exact Or.inr (List.mem_cons_of_mem _ r)
      cases x with
      | md_put b =>
        cases b
        · simp only [released_scan] at hs
          exact key _ _ hs (fun hh => Or.inl hh) (fun _ => Or.inr rfl)
        · simp only [released_scan] at hs
          exact key _ _ hs (fun _ => Or.inr rfl) (fun hh => Or.inl hh)
      | make_init_event e ty f =>
        simp only [released_scan, Bool.and_eq_true] at hs
        exact key _ _ hs.2 (fun hh => Or.inl hh) (fun hh => Or.inl hh)
      | make_ct_event k1 c1 m f l =>
        simp only [released_scan, Bool.and_eq_true] at hs
        exact key _ _ hs.2 (fun hh => Or.inl hh) (fun hh => Or.inl hh)
      | _ =>
        simp only [released_scan] at hs
        exact key _ _ hs (fun hh => Or.inl hh) (fun hh => Or.inl hh)

/-- C29: a buffer enters `process_init` in `STATE_INIT_START` in the world `w0`, and
`W` is any world reached from there by calls of `process_init` and by changes the
rest of the runtime makes between calls (to anything but the record of calls, the
saved state, the event mask and the two descriptor pointers). The deliveries made
since `w0` form a sub-list of SEND, CT_SEND, ACK, CT_ACK, REPLY, CT_REPLY in this
order: the send deliveries come before every ack and reply delivery, and each kind
is delivered at most once. Every SEND or ACK delivery (full or counting) comes
after a call `md_put` for the put descriptor, and every REPLY delivery after a call
`md_put` for the get descriptor. -/
theorem initiator_event_order (K : Consts) (C : init_collab) (w0 W : init_world)
    (h0 : w0.buf.init_state = STATE_INIT_START) (hr : init_reach K C w0 W) :
    ∃ T, W.trace = w0.trace ++ T ∧ (init_event_kinds T).Sublist event_order ∧
      ∀ T1 a T2 k c, T = T1 ++ a :: T2 → init_event_kinds [a] = [(k, c)] →
        (k = init_event_t.PTL_EVENT_REPLY → init_call.md_put false ∈ T1) ∧
        (k ≠ init_event_t.PTL_EVENT_REPLY → init_call.md_put true ∈ T1) := by
  obtain ⟨T, hT, hscan, hev, _⟩ := init_inv_reach K C w0 W h0 hr
  refine ⟨T, hT, ?_, ?_⟩
  · unfold ev_ok at hev
    split_ifs at hev
    · rw [hev]
      exact List.nil_sublist _
    · exact hev.1.trans send_sub_order
    · exact hev.trans send_sub_order
    · exact hev
  · intro T1 a T2 k c hsplit hk
    obtain ⟨r1, r2⟩ := released_scan_sound T false false hscan T1 a T2 k c hsplit hk
    constructor
    · intro hk1
      rcases r1 hk1 with r | r
      · cases r
      · exact r
    · intro hk1
      rcases r2 hk1 with r | r
      · cases r
      · exact r

theorem sample_init_reach :
    init_reach sample_consts sample_init_collab sample_init_world sample_init_done :=
  init_reach.call sample_init_acked sample_init_done 9 false
    (init_reach.env sample_init_waiting sample_init_acked
      (init_reach.call sample_init_world sample_init_waiting 9 false init_reach.start rfl)
      ⟨rfl, rfl, rfl, rfl, rfl⟩)
    rfl

/-- C29 (witness): the sample PUT is sent, its send events are delivered early, the
buffer waits for the response, and after the ack has arrived a second call delivers
the ack events. -/
theorem initiator_event_order_witness :
    sample_init_world.buf.init_state = STATE_INIT_START ∧
    init_states_of sample_init_done.trace =
      [STATE_INIT_START, STATE_INIT_PREP_REQ, STATE_INIT_SEND_REQ, STATE_INIT_EARLY_SEND_EVENT,
       STATE_INIT_WAIT_RECV, STATE_INIT_WAIT_RECV, STATE_INIT_ACK_EVENT, STATE_INIT_CLEANUP] ∧
    init_event_kinds sample_init_done.trace =
      [(init_event_t.PTL_EVENT_SEND, false), (init_event_t.PTL_EVENT_SEND, true),
       (init_event_t.PTL_EVENT_ACK, false), (init_event_t.PTL_EVENT_ACK, true)] ∧
    ∃ T, sample_init_done.trace = sample_init_world.trace ++ T ∧
      (init_event_kinds T).Sublist event_order ∧
      ∀ T1 a T2 k c, T = T1 ++ a :: T2 → init_event_kinds [a] = [(k, c)] →
        (k = init_event_t.PTL_EVENT_REPLY → init_call.md_put false ∈ T1) ∧
        (k ≠ init_event_t.PTL_EVENT_REPLY → init_call.md_put true ∈ T1) :=
  ⟨rfl, by decide, by decide,
   initiator_event_order sample_consts sample_init_collab sample_init_world sample_init_done
     rfl sample_init_reach⟩

/-- C30 (as stated, refuted): the sample PUT asks for a full ack from a descriptor
with an event queue and a counter of sends and acks, so `start` sets the four bits
SEND, CT_SEND, ACK and CT_ACK. The transport refuses the message: `send_error` sets
`PTL_NI_UNDELIVERABLE` and goes to `STATE_INIT_LATE_SEND_EVENT`, which delivers SEND
and CT_SEND with that code and, because of the code, goes to `STATE_INIT_CLEANUP`:
neither ACK nor CT_ACK is delivered. -/
theorem send_failure_counterexample :
    event_bits (PtlInit.start sample_init_world).world.buf.event_mask =
      [true, true, true, true, false, false] ∧
    init_states_of
      (PtlInit.process_init sample_consts failing_init_collab 9 sample_init_world).world.trace =
      [STATE_INIT_START, STATE_INIT_PREP_REQ, STATE_INIT_SEND_REQ, STATE_INIT_SEND_ERROR,
       STATE_INIT_LATE_SEND_EVENT, STATE_INIT_CLEANUP] ∧
    (PtlInit.process_init sample_consts failing_init_collab 9
      sample_init_world).world.buf.ni_fail = PTL_NI_UNDELIVERABLE ∧
    init_deliveries
      (PtlInit.process_init sample_consts failing_init_collab 9 sample_init_world).world.trace =
      [(init_event_t.PTL_EVENT_SEND, false, PTL_NI_UNDELIVERABLE),
       (init_event_t.PTL_EVENT_SEND, true, PTL_NI_UNDELIVERABLE)] := by
  decide

theorem init_deliveries_append (t u : List init_call) :
    init_deliveries (t ++ u) = init_deliveries t ++ init_deliveries u := by
  unfold init_deliveries
  rw [List.filterMap_append]

theorem init_deliveries_quiet (u : List init_call) (h : ∀ a ∈ u, is_quiet a = true) :
    init_deliveries u = [] := by
  induction u with
  | nil => rfl
  | cons a t ih =>
    have ha := h a (List.mem_cons_self _ _)
    have ih1 := ih (fun x hx => h x (List.mem_cons_of_mem _ hx))
    cases a <;> simp_all [init_deliveries, is_quiet]

theorem init_step_eq (r : init_step) (s : init_state) (h : r.state = some s) :
    r = init_step.next r.world s := by
  cases r with
  | next w s1 =>
    simp only [init_step.state, Option.some.injEq] at h
    rw [h]
    rfl
  | abort w => cases h

theorem init_loop_step (K : Consts) (C : init_collab) (n : Nat) (s : init_state) (err : Bool)
    (w w1 : init_world) (s1 : init_state)
    (hs : s ≠ STATE_INIT_ERROR ∧ s ≠ STATE_INIT_CLEANUP ∧ s ≠ STATE_INIT_DONE)
    (h : PtlInit.handler K C s (w.log (init_call.state s)) = init_step.next w1 s1)
    (hn : (PtlInit.suspends s && s1 == s) = false) :
    PtlInit.process_init_loop K C (n + 1) s err w =
      PtlInit.process_init_loop K C n s1 err w1 := by
  conv_lhs => unfold PtlInit.process_init_loop
  cases s <;> simp only [] <;>
    first
    | exact absurd rfl hs.1
    | exact absurd rfl hs.2.1
    | exact absurd rfl hs.2.2
    | (rw [h]; simp only [hn, Bool.false_eq_true, if_false])

theorem send_error_eq (w : init_world) :
    PtlInit.send_error w =
      init_step.next { w with buf.ni_fail := PTL_NI_UNDELIVERABLE }
        (failure_state w.buf.event_mask) := by
  unfold PtlInit.send_error failure_state
  simp only []
  split_ifs <;> rfl

theorem send_req_fail (K : Consts) (C : init_collab) (w : init_world)
    (hfail : ∀ x, C.send_message x = true) :
    (PtlInit.send_req K C w).state = some STATE_INIT_SEND_ERROR := by
  unfold PtlInit.send_req
  simp only [hfail, if_true]
  rfl

theorem prepare_req_connected (K : Consts) (C : init_collab) (w : init_world)
    (happ : ∀ x, (C.append_init_data x).1 = false)
    (hconn : w.conn.state ≥ K.CONN_STATE_CONNECTED)
    (hop : (w.buf.data.operation == OP_PUT || w.buf.data.operation == OP_ATOMIC ||
      w.buf.data.operation == OP_GET || w.buf.data.operation == OP_FETCH ||
      w.buf.data.operation == OP_SWAP) = true) :
    (PtlInit.prepare_req K C w).state = some STATE_INIT_SEND_REQ := by
  have e : ∀ (x : init_world) (d : Option data_fmt_t), x.conn = w.conn →
      (PtlInit.prepare_req_end K x d).state = some STATE_INIT_SEND_REQ := by
    intro x d hx
    unfold PtlInit.prepare_req_end
    simp only []
    split_ifs with h1 h2 h2
    · rfl
    · exact absurd (hx ▸ hconn) h2
    · rfl
    · exact absurd (hx ▸ hconn) h2
  have ha : ∀ (x : init_world) (b : Bool), (PtlInit.append_data C x b).1 = false :=
    fun x b => happ x
  have hc : ∀ (x : init_world) (b : Bool), (PtlInit.append_data C x b).2.2.conn = x.conn :=
    fun x b => rfl
  unfold PtlInit.prepare_req
  simp only [ha, Bool.false_eq_true, if_false]
  split_ifs with h1 h2 h3
  · exact e _ _ (hc _ _)
  · exact e _ _ (hc _ _)
  · exact e _ _ ((hc _ _).trans (hc _ _))
  · simp only [Bool.or_eq_true] at hop h1 h2 h3
    rcases hop with (((hp | hp) | hp) | hp) | hp
    · exact absurd (Or.inl hp) h1
    · exact absurd (Or.inr hp) h1
    · exact absurd hp h2
    · exact absurd (Or.inl hp) h3
    · exact absurd (Or.inr hp) h3

theorem start_options_bits (buf : init_buf_t) :
    event_bits (PtlInit.start_options buf) = [false, false, false, false, false, false] := by
  unfold PtlInit.start_options
  cases buf.put_md <;> cases buf.get_md <;> rfl

theorem start_get_send (md : md_t) (m : xi_event_mask_t) :
    (PtlInit.start_get md m).XI_SEND_EVENT = m.XI_SEND_EVENT ∧
    (PtlInit.start_get md m).XI_CT_SEND_EVENT = m.XI_CT_SEND_EVENT := by
  unfold PtlInit.start_get
  simp only []
  split_ifs <;> exact ⟨rfl, rfl⟩

theorem start_put_reply (hdr : init_hdr_t) (md : md_t) (m : xi_event_mask_t) :
    (PtlInit.start_put hdr md m).XI_REPLY_EVENT = m.XI_REPLY_EVENT ∧
    (PtlInit.start_put hdr md m).XI_CT_REPLY_EVENT = m.XI_CT_REPLY_EVENT := by
  unfold PtlInit.start_put
  simp only []
  split_ifs <;> exact ⟨rfl, rfl⟩

theorem start_run (w : init_world) (a : init_call)
    (hs : (PtlInit.start w).state = some STATE_INIT_PREP_REQ) :
    ∃ W1, PtlInit.start (w.log a) = init_step.next W1 STATE_INIT_PREP_REQ ∧
      W1.trace = w.trace ++ [a] ∧
      W1.buf.event_mask = (PtlInit.start w).world.buf.event_mask ∧
      W1.buf.put_md = w.buf.put_md ∧ W1.buf.get_md = w.buf.get_md ∧ W1.conn = w.conn ∧
      (W1.buf.data.operation == OP_PUT || W1.buf.data.operation == OP_ATOMIC ||
        W1.buf.data.operation == OP_GET || W1.buf.data.operation == OP_FETCH ||
        W1.buf.data.operation == OP_SWAP) = true ∧
      ((W1.buf.event_mask.XI_SEND_EVENT = true ∨ W1.buf.event_mask.XI_CT_SEND_EVENT = true) →
        w.buf.put_md.isSome = true) ∧
      ((W1.buf.event_mask.XI_REPLY_EVENT = true ∨ W1.buf.event_mask.XI_CT_REPLY_EVENT = true) →
        w.buf.get_md.isSome = true) := by
  have ho := start_options_bits w.buf
  simp only [event_bits, List.cons.injEq, and_true] at ho
  obtain ⟨o1, o2, o3, o4, o5, o6⟩ := ho
  unfold PtlInit.start at hs ⊢
  simp only [init_world.log] at hs ⊢
  split_ifs at hs ⊢ with h1 h2 h3
  · cases hp : w.buf.put_md with
    | none => simp [hp, init_step.state] at hs
    | some md =>
      simp only [hp]
      refine ⟨_, rfl, rfl, rfl, rfl, rfl, rfl, ?_, fun _ => rfl, ?_⟩
      · simp only [Bool.or_eq_true] at h1 ⊢
        rcases h1 with h1 | h1
        · exact Or.inl (Or.inl (Or.inl (Or.inl h1)))
        · exact Or.inl (Or.inl (Or.inl (Or.inr h1)))
      · intro hb
        have t := start_put_reply w.buf.data md (PtlInit.start_options w.buf)
        rcases hb with hb | hb
        · exact absurd ((t.1.symm.trans hb).symm.trans o5) (by decide)
        · exact absurd ((t.2.symm.trans hb).symm.trans o6) (by decide)
  · cases hg : w.buf.get_md with
    | none => simp [hg, init_step.state] at hs
    | some md =>
      simp only [hg]
      refine ⟨_, rfl, rfl, rfl, rfl, rfl, rfl, ?_, ?_, fun _ => rfl⟩
      · simp only [Bool.or_eq_true]
        exact Or.inl (Or.inl (Or.inr h2))
      · intro hb
        have t := start_get_send md
          { PtlInit.start_options w.buf with XI_RECEIVE_EXPECTED := true }
        rcases hb with hb | hb
        · exact absurd ((t.1.symm.trans hb).symm.trans o1) (by decide)
        · exact absurd ((t.2.symm.trans hb).symm.trans o2) (by decide)
  · cases hp : w.buf.put_md with
    | none => simp [hp, init_step.state] at hs
    | some pmd =>
      cases hg : w.buf.get_md with
      | none => simp [hp, hg, init_step.state] at hs
      | some gmd =>
        simp only [hp, hg]
        refine ⟨_, rfl, rfl, rfl, rfl, rfl, rfl, ?_, fun _ => rfl, fun _ => rfl⟩
        simp only [Bool.or_eq_true] at h3 ⊢
        rcases h3 with h3 | h3
        · exact Or.inl (Or.inr h3)
        · exact Or.inr h3
  · simp [init_step.state] at hs

theorem init_ext_log (w : init_world) (s : init_state) :
    init_ext is_quiet w (w.log (init_call.state s)) := by
  rw [init_ext_iff]
  exact ⟨[init_call.state s], rfl, by simp [is_quiet]⟩

theorem late_fail (w : init_world) (hn : w.buf.ni_fail = PTL_NI_UNDELIVERABLE)
    (hp : w.buf.put_md.isSome = true) :
    ∃ W, PtlInit.late_send_event w = init_step.next W STATE_INIT_CLEANUP ∧
      W.trace = w.trace ++ init_call.md_put true :: send_calls w false ∧
      W.buf.ni_fail = PTL_NI_UNDELIVERABLE := by
  unfold PtlInit.late_send_event
  cases hq : w.buf.put_md with
  | none => simp [hq] at hp
  | some md =>
    simp only [send_events_eq]
    simp [init_world.log, send_calls, hn]

theorem ack_fail (w : init_world) (hn : w.buf.ni_fail = PTL_NI_UNDELIVERABLE) :
    ∃ W, PtlInit.ack_event w = init_step.next W STATE_INIT_CLEANUP ∧
      W.trace = w.trace ++
        ((if w.buf.put_md.isSome then [init_call.md_put true] else []) ++ ack_calls w) ∧
      W.buf.ni_fail = PTL_NI_UNDELIVERABLE := by
  unfold PtlInit.ack_event ack_calls PtlInit.make_ack_event PtlInit.make_ct_ack_event
  cases hp : w.buf.put_md <;>
  cases h1 : w.buf.event_mask.XI_ACK_EVENT <;>
  cases h2 : w.buf.event_mask.XI_CT_ACK_EVENT <;>
  simp [init_world.log, hp, h1, h2, hn]

theorem reply_fail (w : init_world) (hn : w.buf.ni_fail = PTL_NI_UNDELIVERABLE)
    (hg : w.buf.get_md.isSome = true) :
    ∃ W, PtlInit.reply_event w = init_step.next W STATE_INIT_CLEANUP ∧
      W.trace = w.trace ++ init_call.md_put false :: reply_calls w ∧
      W.buf.ni_fail = PTL_NI_UNDELIVERABLE := by
  unfold PtlInit.reply_event reply_calls PtlInit.make_reply_event PtlInit.make_ct_reply_event
  cases hq : w.buf.get_md with
  | none => simp [hq] at hg
  | some md =>
    cases h1 : w.buf.event_mask.XI_REPLY_EVENT <;>
    cases h2 : w.buf.event_mask.XI_CT_REPLY_EVENT <;>
    simp [init_world.log, h1, h2, hn]

theorem fail_calls (w : init_world) (hn : w.buf.ni_fail = PTL_NI_UNDELIVERABLE) :
    init_deliveries (send_calls w false) =
      class_deliveries init_event_t.PTL_EVENT_SEND w.buf.event_mask.XI_SEND_EVENT
        w.buf.event_mask.XI_CT_SEND_EVENT ∧
    init_deliveries (ack_calls w) =
      class_deliveries init_event_t.PTL_EVENT_ACK w.buf.event_mask.XI_ACK_EVENT
        w.buf.event_mask.XI_CT_ACK_EVENT ∧
    init_deliveries (reply_calls w) =
      class_deliveries init_event_t.PTL_EVENT_REPLY w.buf.event_mask.XI_REPLY_EVENT
        w.buf.event_mask.XI_CT_REPLY_EVENT := by
  unfold send_calls ack_calls reply_calls class_deliveries
  refine ⟨?_, ?_, ?_⟩
  · cases w.buf.event_mask.XI_SEND_EVENT <;> cases w.buf.event_mask.XI_CT_SEND_EVENT <;>
      simp [init_deliveries, hn]
  · cases w.buf.event_mask.XI_ACK_EVENT <;> cases w.buf.event_mask.XI_CT_ACK_EVENT <;>
      simp [init_deliveries, hn]
  · cases w.buf.event_mask.XI_REPLY_EVENT <;> cases w.buf.event_mask.XI_CT_REPLY_EVENT <;>
      simp [init_deliveries, hn]

theorem fail_tail (K : Consts) (C : init_collab) (n : Nat) (err : Bool) (w : init_world)
    (hn : w.buf.ni_fail = PTL_NI_UNDELIVERABLE) :
    ∃ W T2, PtlInit.process_init_loop K C (n + 1) STATE_INIT_CLEANUP err w =
        init_result.returned W err ∧
      W.buf.ni_fail = PTL_NI_UNDELIVERABLE ∧ W.buf.init_state = STATE_INIT_DONE ∧
      W.trace = w.trace ++ init_call.state STATE_INIT_CLEANUP :: T2 ∧
      init_deliveries T2 = [] := by
  obtain ⟨f1, _⟩ := cleanup_facts (w.log (init_call.state STATE_INIT_CLEANUP))
  have f3 : (PtlInit.cleanup (w.log (init_call.state STATE_INIT_CLEANUP))).buf.ni_fail =
      w.buf.ni_fail := by
    unfold PtlInit.cleanup
    cases hg : w.buf.get_md <;> cases hp : w.buf.put_md <;> cases hr : w.buf.recv_buf <;>
      simp [init_world.log, hg, hp, hr]
  refine ⟨_, ((if w.buf.get_md.isSome then [init_call.md_put false] else []) ++
     (if w.buf.put_md.isSome then [init_call.md_put true] else []) ++
     (if w.buf.recv_buf.isSome then [init_call.buf_put_recv_buf] else []) ++
     [init_call.buf_put]), rfl, f3.trans hn, rfl, ?_, ?_⟩
  · show (PtlInit.cleanup (w.log (init_call.state STATE_INIT_CLEANUP))).trace ++
      [init_call.buf_put] = _
    rw [f1]
    simp [init_world.log]
  · cases w.buf.get_md.isSome <;> cases w.buf.put_md.isSome <;>
      cases w.buf.recv_buf.isSome <;> simp [init_deliveries]

theorem failure_deliveries_congr (m m1 : xi_event_mask_t)
    (h : event_bits m = event_bits m1) : failure_deliveries m = failure_deliveries m1 := by
  simp only [event_bits, List.cons.injEq, and_true] at h
  obtain ⟨h1, h2, h3, h4, h5, h6⟩ := h
  unfold failure_deliveries
  rw [h1, h2, h3, h4, h5, h6]

theorem fail_events (K : Consts) (C : init_collab) (n : Nat) (err : Bool) (w : init_world)
    (hn : w.buf.ni_fail = PTL_NI_UNDELIVERABLE)
    (hput : (w.buf.event_mask.XI_SEND_EVENT = true ∨ w.buf.event_mask.XI_CT_SEND_EVENT = true) →
      w.buf.put_md.isSome = true)
    (hget : (w.buf.event_mask.XI_REPLY_EVENT = true ∨
      w.buf.event_mask.XI_CT_REPLY_EVENT = true) → w.buf.get_md.isSome = true) :
    ∃ W T1 T2, PtlInit.process_init_loop K C (n + 2) (failure_state w.buf.event_mask) err w =
        init_result.returned W err ∧
      W.buf.ni_fail = PTL_NI_UNDELIVERABLE ∧ W.buf.init_state = STATE_INIT_DONE ∧
      W.trace = w.trace ++ (T1 ++ init_call.state STATE_INIT_CLEANUP :: T2) ∧
      init_deliveries T1 = failure_deliveries w.buf.event_mask ∧
      init_deliveries T2 = [] := by
  unfold failure_state failure_deliveries
  split_ifs with h1 h2 h3
  · obtain ⟨W1, e1, t1, n1⟩ := late_fail (w.log (init_call.state STATE_INIT_LATE_SEND_EVENT)) hn
      (hput (by simpa using h1))
    obtain ⟨W, T2, e2, n2, d2, t2, q2⟩ := fail_tail K C n err W1 n1
    refine ⟨W, init_call.state STATE_INIT_LATE_SEND_EVENT :: init_call.md_put true ::
      send_calls (w.log (init_call.state STATE_INIT_LATE_SEND_EVENT)) false, T2, ?_, n2, d2,
      ?_, ?_, q2⟩
    · rw [init_loop_step K C (n + 1) STATE_INIT_LATE_SEND_EVENT err w W1 STATE_INIT_CLEANUP
        (by decide) e1 rfl]
      exact e2
    · rw [t2, t1]
      simp [init_world.log]
    · have f := (fail_calls (w.log (init_call.state STATE_INIT_LATE_SEND_EVENT)) hn).1
      rw [show ∀ (x y : init_call) (t : List init_call),
        init_deliveries (x :: y :: t) = init_deliveries [x, y] ++ init_deliveries t from
        fun x y t => init_deliveries_append [x, y] t, f]
      rfl
  · obtain ⟨W1, e1, t1, n1⟩ := ack_fail (w.log (init_call.state STATE_INIT_ACK_EVENT)) hn
    obtain ⟨W, T2, e2, n2, d2, t2, q2⟩ := fail_tail K C n err W1 n1
    refine ⟨W, init_call.state STATE_INIT_ACK_EVENT ::
      ((if w.buf.put_md.isSome then [init_call.md_put true] else []) ++
        ack_calls (w.log (init_call.state STATE_INIT_ACK_EVENT))), T2, ?_, n2, d2, ?_, ?_, q2⟩
    · rw [init_loop_step K C (n + 1) STATE_INIT_ACK_EVENT err w W1 STATE_INIT_CLEANUP
        (by decide) e1 rfl]
      exact e2
    · rw [t2, t1]
      simp [init_world.log]
    · have f := (fail_calls (w.log (init_call.state STATE_INIT_ACK_EVENT)) hn).2.1
      rw [show ∀ (x : init_call) (t u : List init_call),
        init_deliveries (x :: (t ++ u)) = init_deliveries (x :: t) ++ init_deliveries u from
        fun x t u => init_deliveries_append (x :: t) u, f]
      cases w.buf.put_md.isSome <;> rfl
  · obtain ⟨W1, e1, t1, n1⟩ := reply_fail (w.log (init_call.state STATE_INIT_REPLY_EVENT)) hn
      (hget (by simpa using h3))
    obtain ⟨W, T2, e2, n2, d2, t2, q2⟩ := fail_tail K C n err W1 n1
    refine ⟨W, init_call.state STATE_INIT_REPLY_EVENT :: init_call.md_put false ::
      reply_calls (w.log (init_call.state STATE_INIT_REPLY_EVENT)), T2, ?_, n2, d2,
      ?_, ?_, q2⟩
    · rw [init_loop_step K C (n + 1) STATE_INIT_REPLY_EVENT err w W1 STATE_INIT_CLEANUP
        (by decide) e1 rfl]
      exact e2
    · rw [t2, t1]
      simp [init_world.log]
    · have f := (fail_calls (w.log (init_call.state STATE_INIT_REPLY_EVENT)) hn).2.2
      rw [show ∀ (x y : init_call) (t : List init_call),
        init_deliveries (x :: y :: t) = init_deliveries [x, y] ++ init_deliveries t from
        fun x y t => init_deliveries_append [x, y] t, f]
      rfl
  · obtain ⟨W, T2, e2, n2, d2, t2, q2⟩ := fail_tail K C (n + 1) err w hn
    refine ⟨W, [], T2, e2, n2, d2, by rw [t2]; rfl, ?_, q2⟩
    simp only [Bool.or_eq_true, not_or, Bool.not_eq_true] at h3
    rw [h3.1, h3.2]
    rfl

theorem fail_prefix (K : Consts) (C : init_collab) (n : Nat) (w : init_world)
    (hs : (PtlInit.start w).state = some STATE_INIT_PREP_REQ)
    (hconn : w.conn.state ≥ K.CONN_STATE_CONNECTED)
    (happ : ∀ x, (C.append_init_data x).1 = false)
    (hfail : ∀ x, C.send_message x = true) :
    ∃ w4, PtlInit.process_init_loop K C (n + 4) STATE_INIT_START false w =
        PtlInit.process_init_loop K C n (failure_state w4.buf.event_mask) false w4 ∧
      w4.buf.ni_fail = PTL_NI_UNDELIVERABLE ∧ init_ext is_quiet w w4 ∧
      w4.buf.put_md = w.buf.put_md ∧ w4.buf.get_md = w.buf.get_md ∧
      event_bits w4.buf.event_mask = event_bits (PtlInit.start w).world.buf.event_mask := by
  obtain ⟨W1, e1, t1, m1, p1, g1, c1, d1, _, _⟩ :=
    start_run w (init_call.state STATE_INIT_START) hs
  have l1 := init_loop_step K C (n + 3) STATE_INIT_START false w W1 STATE_INIT_PREP_REQ
    (by decide) e1 rfl
  have x1 : init_ext is_quiet w W1 := by
    rw [init_ext_iff]
    exact ⟨_, t1, by simp [is_quiet]⟩
  have s2 := prepare_req_connected K C (W1.log (init_call.state STATE_INIT_PREP_REQ)) happ
    (by rw [show (W1.log (init_call.state STATE_INIT_PREP_REQ)).conn = W1.conn from rfl, c1]
        exact hconn) d1
  obtain ⟨⟨x2, p2, g2, _⟩, b2⟩ :=
    prepare_req_quiet K C (W1.log (init_call.state STATE_INIT_PREP_REQ))
  have l2 := init_loop_step K C (n + 2) STATE_INIT_PREP_REQ false W1
    (PtlInit.prepare_req K C (W1.log (init_call.state STATE_INIT_PREP_REQ))).world
    STATE_INIT_SEND_REQ (by decide) (init_step_eq _ _ s2) rfl
  generalize (PtlInit.prepare_req K C (W1.log (init_call.state STATE_INIT_PREP_REQ))).world = W2
    at x2 p2 g2 b2 l2
  have s3 := send_req_fail K C (W2.log (init_call.state STATE_INIT_SEND_REQ)) hfail
  obtain ⟨⟨x3, p3, g3, _⟩, b3⟩ :=
    send_req_quiet K C (W2.log (init_call.state STATE_INIT_SEND_REQ))
  have l3 := init_loop_step K C (n + 1) STATE_INIT_SEND_REQ false W2
    (PtlInit.send_req K C (W2.log (init_call.state STATE_INIT_SEND_REQ))).world
    STATE_INIT_SEND_ERROR (by decide) (init_step_eq _ _ s3) rfl
  generalize (PtlInit.send_req K C (W2.log (init_call.state STATE_INIT_SEND_REQ))).world = W3
    at x3 p3 g3 b3 l3
  have l4 := init_loop_step K C n STATE_INIT_SEND_ERROR false W3 _ _
    (by decide) (send_error_eq (W3.log (init_call.state STATE_INIT_SEND_ERROR))) rfl
  refine ⟨{ (W3.log (init_call.state STATE_INIT_SEND_ERROR)) with
      buf.ni_fail := PTL_NI_UNDELIVERABLE },
    l1.trans (l2.trans (l3.trans l4)), rfl, ?_, ?_, ?_, ?_⟩
  · exact init_ext_trans _ _ _ _ x1 (init_ext_trans _ _ _ _ (init_ext_log _ _)
      (init_ext_trans _ _ _ _ x2 (init_ext_trans _ _ _ _ (init_ext_log _ _)
        (init_ext_trans _ _ _ _ x3 (init_ext_log _ _)))))
  · exact p3.trans (p2.trans p1)
  · exact g3.trans (g2.trans g1)
  · exact b3.trans (b2.trans (congrArg event_bits m1))

/-- C30 (amended): a buffer enters `process_init` in `STATE_INIT_START`, `start`
returns, the target is connected, `append_init_data` succeeds and the transport's
`send_message` fails. Then the call returns `PTL_OK` within six turns of the loop
with `ni_fail = PTL_NI_UNDELIVERABLE` and the buffer in `STATE_INIT_DONE`; the
deliveries made before the turn `STATE_INIT_CLEANUP` are those of the first class,
in the order send, ack, reply, that has a bit in the event mask computed by `start`
(the full event of the class if its bit is set, then the counting event if its bit is
set), each with `PTL_NI_UNDELIVERABLE`; no delivery is made after. -/
theorem send_failure_events (K : Consts) (C : init_collab) (n : Nat) (w : init_world)
    (h0 : w.buf.init_state = STATE_INIT_START)
    (hs : (PtlInit.start w).state = some STATE_INIT_PREP_REQ)
    (hconn : w.conn.state ≥ K.CONN_STATE_CONNECTED)
    (happ : ∀ x, (C.append_init_data x).1 = false)
    (hfail : ∀ x, C.send_message x = true) :
    ∃ W T1 T2, PtlInit.process_init K C (n + 6) w = init_result.returned W false ∧
      W.buf.ni_fail = PTL_NI_UNDELIVERABLE ∧ W.buf.init_state = STATE_INIT_DONE ∧
      W.trace = w.trace ++ (T1 ++ init_call.state STATE_INIT_CLEANUP :: T2) ∧
      init_deliveries T1 = failure_deliveries (PtlInit.start w).world.buf.event_mask ∧
      init_deliveries T2 = [] := by
  obtain ⟨w4, l, n4, x4, p4, g4, b4⟩ := fail_prefix K C (n + 2) w hs hconn happ hfail
  obtain ⟨W1, _, _, m1, _, _, _, _, hp, hg⟩ :=
    start_run w (init_call.state STATE_INIT_START) hs
  rw [m1] at hp hg
  simp only [event_bits, List.cons.injEq, and_true] at b4
  obtain ⟨b1, b2, b3, b4, b5, b6⟩ := b4
  rw [init_ext_iff] at x4
  obtain ⟨Tq, tq, hq⟩ := x4
  obtain ⟨W, T1, T2, e, nW, dW, tW, d1, d2⟩ := fail_events K C n false w4 n4
    (fun hb => by
      rw [b1, b2] at hb
      rw [p4]
      exact hp hb)
    (fun hb => by
      rw [b5, b6] at hb
      rw [g4]
      exact hg hb)
  refine ⟨W, Tq ++ T1, T2, ?_, nW, dW, ?_, ?_, d2⟩
  · unfold PtlInit.process_init
    rw [h0]
    exact l.trans e
  · rw [tW, tq]
    simp
  · rw [init_deliveries_append, init_deliveries_quiet Tq hq, d1, List.nil_append]
    exact failure_deliveries_congr _ _ (by simp [event_bits, b1, b2, b3, b4, b5, b6])

/-- C30 (witness): the sample PUT with a transport that refuses the message. -/
theorem send_failure_events_witness :
    sample_init_world.buf.init_state = STATE_INIT_START ∧
    failure_deliveries (PtlInit.start sample_init_world).world.buf.event_mask =
      [(init_event_t.PTL_EVENT_SEND, false, PTL_NI_UNDELIVERABLE),
       (init_event_t.PTL_EVENT_SEND, true, PTL_NI_UNDELIVERABLE)] ∧
    ∃ W T1 T2, PtlInit.process_init sample_consts failing_init_collab (3 + 6)
        sample_init_world = init_result.returned W false ∧
      W.buf.ni_fail = PTL_NI_UNDELIVERABLE ∧ W.buf.init_state = STATE_INIT_DONE ∧
      W.trace = sample_init_world.trace ++ (T1 ++ init_call.state STATE_INIT_CLEANUP :: T2) ∧
      init_deliveries T1 =
        failure_deliveries (PtlInit.start sample_init_world).world.buf.event_mask ∧
      init_deliveries T2 = [] :=
  ⟨rfl, by decide,
   send_failure_events sample_consts failing_init_collab 3 sample_init_world rfl rfl
     (by decide) (fun _ => rfl) (fun _ => rfl)⟩

theorem tgt_get_match_unexpected (K : Consts) (w : World) (pi : Nat)
    (hpt : w.buf.pt = some pi) :
    ((RuntimeDevel.tgt_get_match K w).world.pt pi).unexpected_list =
      (w.pt pi).unexpected_list ++ (if joins_unexpected K w pi then [w.buf.addr] else []) ∧
    (Action.buf_get ∈ (RuntimeDevel.tgt_get_match K w).world.trace.drop w.trace.length ↔
      joins_unexpected K w pi = true) := by
  unfold RuntimeDevel.tgt_get_match joins_unexpected
  simp only [hpt]
  cases hf : RuntimeDevel.find_match K w (w.pt pi) with
  | none =>
    simp only [Bool.false_eq_true, if_false, List.append_nil]
    split_ifs <;> simp [step_t.world, World.set_pt, World.pt]
  | some p =>
    obtain ⟨l, h⟩ := p
    simp only []
    have hc : RuntimeDevel.check_perm K
        ({ (w.log (Action.le_get h)) with buf.le := some h } : World).buf
        (({ (w.log (Action.le_get h)) with buf.le := some h } : World).les h) =
        RuntimeDevel.check_perm K w.buf (w.les h) := rfl
    rw [hc]
    by_cases hp : RuntimeDevel.check_perm K w.buf (w.les h) = PTL_NI_OK
    · have hb : (RuntimeDevel.check_perm K w.buf (w.les h) != PTL_NI_OK) = false := by
        simp [hp]
      by_cases hl : (w.les h).ptl_list = PTL_OVERFLOW_LIST
      · simp [hb, hp, step_t.world, World.set_pt, World.pt, World.log, hl]
      · have hl2 : ((w.les h).ptl_list == PTL_OVERFLOW_LIST) = false := by simpa using hl
        simp [hb, hp, step_t.world, World.set_pt, World.pt, World.log, hl2]
    · have hb : (RuntimeDevel.check_perm K w.buf (w.les h) != PTL_NI_OK) = true := by
        simpa using hp
      have hb2 : (RuntimeDevel.check_perm K w.buf (w.les h) == PTL_NI_OK) = false := by
        simpa using hp
      simp [hb, hb2, step_t.world, World.set_pt, World.pt, World.log]

theorem tgt_get_match_overflow (K : Consts) (w : World) (pi : Nat) (l : ptl_list_t) (h : Nat)
    (hpt : w.buf.pt = some pi)
    (hf : RuntimeDevel.find_match K w (w.pt pi) = some (l, h))
    (hperm : RuntimeDevel.check_perm K w.buf (w.les h) = PTL_NI_OK)
    (hovf : (w.les h).ptl_list = PTL_OVERFLOW_LIST) :
    RuntimeDevel.tgt_get_match K w =
      step_t.next
        { w with
          ni.pt := Function.update w.ni.pt pi
            { (w.pt pi) with unexpected_list := (w.pt pi).unexpected_list ++ [w.buf.addr] },
          buf := RuntimeDevel.init_events
            { w.buf with le := some h, matching_list := PTL_OVERFLOW_LIST,
                         on_unexpected_list := true }
            { (w.pt pi) with unexpected_list := (w.pt pi).unexpected_list ++ [w.buf.addr] }
            (w.les h),
          trace := w.trace ++ [Action.le_get h, Action.buf_get] }
        STATE_TGT_GET_LENGTH := by
  unfold RuntimeDevel.tgt_get_match
  simp only [hpt, hf]
  rw [if_neg]
  · simp [World.log, hovf, World.pt, World.set_pt, hpt]
  · change ¬ (RuntimeDevel.check_perm K w.buf (w.les h) != PTL_NI_OK) = true
    simp [hperm]

theorem tgt_send_ack_send_buf_overflow (K : Consts) (C : Collab) (w : World) (h : Nat)
    (sb : send_buf_t)
    (hsb : w.buf.send_buf = some sb) (hreq : w.buf.data.ack_req = PTL_ACK_REQ)
    (hle : w.buf.le = some h)
    (hnd : (w.les h).options.PTL_LE_ACK_DISABLE = false)
    (hovf : (w.les h).ptl_list = PTL_OVERFLOW_LIST)
    (hsend : ∀ x, C.send_message x = false) :
    RuntimeDevel.tgt_send_ack K C w =
      step_t.next
        { w with
          buf.send_buf := some
            { sb with
              data := { sb.data with ni_fail := w.buf.ni_fail, length := w.buf.mlength,
                                     offset := w.buf.moffset,
                                     matching_list := w.buf.matching_list,
                                     operation := OP_ACK },
              has_dest := w.buf.has_dest, has_conn := w.buf.conn },
          trace := w.trace ++
            [Action.set_send_flags 1,
             Action.send_message
               { sb with
                 data := { sb.data with ni_fail := w.buf.ni_fail, length := w.buf.mlength,
                                        offset := w.buf.moffset,
                                        matching_list := w.buf.matching_list,
                                        operation := OP_ACK },
                 has_dest := w.buf.has_dest, has_conn := w.buf.conn } 0] }
        STATE_TGT_CLEANUP := by
  unfold RuntimeDevel.tgt_send_ack
  simp [hsb, hreq, hle, hnd, hovf, hsend, PTL_ACK_REQ, RuntimeDevel.store_ack,
    RuntimeDevel.put_priority_le, World.log]

theorem tgt_send_ack_reuse_overflow (K : Consts) (C : Collab) (w : World) (h : Nat)
    (hsb : w.buf.send_buf = none) (hreq : w.buf.data.ack_req = PTL_ACK_REQ)
    (hle : w.buf.le = some h)
    (hnd : (w.les h).options.PTL_LE_ACK_DISABLE = false)
    (hovf : (w.les h).ptl_list = PTL_OVERFLOW_LIST)
    (hmem : (K.WITH_TRANSPORT_SHMEM || K.IS_PPE) = true) (hmb : w.buf.has_mem_buf = true) :
    RuntimeDevel.tgt_send_ack K C w =
      step_t.next
        { w with
          buf.ack :=
            { w.buf.ack with version := w.buf.data.version, handle := w.buf.data.handle,
                             data_in := 0, data_out := 0, pkt_fmt := PKT_FMT_REPLY,
                             ni_fail := w.buf.ni_fail, length := w.buf.mlength,
                             offset := w.buf.moffset, matching_list := w.buf.matching_list,
                             operation := OP_ACK },
          buf.length := sizeof_ack_hdr K,
          buf.data.operation := OP_ACK,
          buf.data.data_in := 0,
          buf.data.data_out := 0,
          buf.data.pkt_fmt := PKT_FMT_REPLY,
          buf.mem_buf_send := true,
          trace := w.trace ++
            [Action.mem_buf_send
               { w.buf.ack with version := w.buf.data.version, handle := w.buf.data.handle,
                                data_in := 0, data_out := 0, pkt_fmt := PKT_FMT_REPLY,
                                ni_fail := w.buf.ni_fail, length := w.buf.mlength,
                                offset := w.buf.moffset, matching_list := w.buf.matching_list,
                                operation := OP_ACK }
               (sizeof_ack_hdr K)] }
        STATE_TGT_CLEANUP := by
  unfold RuntimeDevel.tgt_send_ack
  simp [hsb, hreq, hle, hnd, hovf, hmem, hmb, PTL_ACK_REQ, RuntimeDevel.store_ack,
    RuntimeDevel.put_priority_le, World.log]

theorem tgt_cleanup_wait (K : Consts) (w : World) (h pi : Nat)
    (hm : w.buf.matching_le = none) (hle : w.buf.le = some h)
    (hovf : (w.les h).ptl_list = PTL_OVERFLOW_LIST)
    (hind : w.buf.indir_sge = false) (hpt : w.buf.pt = some pi) :
    RuntimeDevel.tgt_cleanup K w =
      step_t.next
        { w with
          buf.send_buf := none,
          ni.pt := Function.update w.ni.pt pi
            { (w.pt pi) with
              num_tgt_active := (w.pt pi).num_tgt_active - 1,
              state :=
                if ((w.pt pi).state &&& K.PT_AUTO_DISABLED != 0) &&
                    ((w.pt pi).num_tgt_active - 1 == 0) then K.PT_DISABLED
                else (w.pt pi).state },
          trace := w.trace ++
            (if w.buf.send_buf.isSome then [Action.buf_put_send_buf] else []) ++
            (if ((w.pt pi).state &&& K.PT_AUTO_DISABLED != 0) &&
                  ((w.pt pi).num_tgt_active - 1 == 0) then
                [Action.make_target_event (w.pt pi).eq PTL_EVENT_PT_DISABLED none none
                  w.buf.ni_fail w.buf.mlength w.buf.moffset]
              else []) }
        STATE_TGT_WAIT_APPEND := by
  unfold RuntimeDevel.tgt_cleanup
  simp only [hm, hle, hovf, hind, Bool.false_eq_true, if_false, World.pt, beq_self_eq_true,
    if_true]
  generalize hcdef : (((w.ni.pt pi).state &&& K.PT_AUTO_DISABLED != 0) &&
    ((w.ni.pt pi).num_tgt_active - 1 == 0)) = c
  cases hsb : w.buf.send_buf with
  | none =>
    cases c <;>
      simp [World.log, World.set_pt, World.pt, hsb, hpt, hcdef, hle, hm, hind] <;>
      (cases hb : w.buf; simp_all)
  | some sb =>
    cases c <;>
      simp [World.log, World.set_pt, World.pt, hsb, hpt, hcdef, hle, hm, hind]

theorem loop_WAIT_APPEND_stay (K : Consts) (C : Collab) (n : Nat) (err : Bool) (w : World)
    (hm : w.buf.matching_le = none) :
    RuntimeDevel.process_tgt_loop K C (n + 1) STATE_TGT_WAIT_APPEND err w =
      RuntimeDevel.run_result.returned
        { w with buf.tgt_state := STATE_TGT_WAIT_APPEND,
                 trace := w.trace ++ [Action.ptl_info STATE_TGT_WAIT_APPEND] } err := by
  rw [RuntimeDevel.process_tgt_loop]
  · simp [RuntimeDevel.tgt_handler, RuntimeDevel.tgt_wait_append, World.log, hm,
      RuntimeDevel.tgt_suspends]
  all_goals (intro hh; cases hh)

theorem tgt_get_length_start (K : Consts) (limits : ni_limits_t) (cs : Nat) (buf : buf_t)
    (me : me_t) (h0 : me.num_iov = 0) :
    (RuntimeDevel.tgt_get_length K limits cs buf me).buf.start =
      some (me.start + RuntimeDevel.get_length_offset buf me) := by
  have hi : ∀ (b : buf_t) (m : me_t), m.num_iov = 0 →
      (RuntimeDevel.init_local_offset b m).2.start = some (m.start + b.moffset) := by
    intro b m hm
    unfold RuntimeDevel.init_local_offset
    simp [hm]
  unfold RuntimeDevel.tgt_get_length
  simp only []
  split_ifs <;> (rw [hi _ _ (by simpa using h0)])

theorem prepare_send_buf_put_calls (K : Consts) (C : Collab) (w : World)
    (hack : w.buf.event_mask.XT_ACK_EVENT = true) (hnone : w.buf.send_buf = none)
    (ht : (K.WITH_TRANSPORT_IB = true ∧ w.conn.transport_type = K.CONN_TYPE_RDMA ∧
        ∃ sb, ∀ x, C.buf_alloc x = some sb) ∨
      ((K.WITH_TRANSPORT_IB && w.conn.transport_type == K.CONN_TYPE_RDMA) = false ∧
        (K.WITH_TRANSPORT_SHMEM || K.IS_PPE) = true ∧ w.buf.has_mem_buf = true)) :
    ∃ osb t, RuntimeDevel.prepare_send_buf K C w =
        (false, { w with buf.send_buf := osb, trace := w.trace ++ t }) ∧
      states_of t = [] ∧ events_of t = [] ∧ releases_of t = [] ∧
      ((∃ sb, osb = some sb) ∨
        (osb = none ∧ (K.WITH_TRANSPORT_SHMEM || K.IS_PPE) = true ∧
          w.buf.has_mem_buf = true)) := by
  rcases ht with ⟨hib, hrdma, sb, halloc⟩ | ⟨hrdma, hmem, hmb⟩
  · exact ⟨_, _, prepare_send_buf_alloc K C w sb hib hrdma (halloc w), rfl, rfl, rfl,
      Or.inl ⟨_, rfl⟩⟩
  · refine ⟨none, [], ?_, rfl, rfl, rfl, Or.inr ⟨rfl, hmem, hmb⟩⟩
    rw [prepare_send_buf_reuse K C w hrdma hack, List.append_nil]
    congr 1
    exact (world_send_buf_none w hnone).symm

theorem loop_get_length_put_start (K : Consts) (C : Collab) (n : Nat) (w : World) (h : Nat)
    (P : World → Prop)
    (hle : w.buf.le = some h) (hop : w.buf.operation = OP_PUT)
    (hconn : w.conn.state ≥ K.CONN_STATE_CONNECTED)
    (hcov : (w.les h).num_iov = 0 ∨
      RuntimeDevel.get_length_offset w.buf (w.les h) ≤
        iov_sum (w.les h).iov 0 (w.les h).num_iov)
    (hrest : ∀ W : World, W.ni = w.ni → W.mem = w.mem → W.conn = w.conn →
      (∃ t, W.trace = w.trace ++ [Action.ptl_info STATE_TGT_GET_LENGTH] ++ t ∧
        states_of t = [] ∧ events_of t = [] ∧ releases_of t = []) →
      W.buf = { w.buf with
        put_resid := W.buf.mlength, get_resid := 0, mlength := W.buf.mlength,
        moffset := RuntimeDevel.get_length_offset w.buf (w.les h),
        cur_loc_iov_index := W.buf.cur_loc_iov_index,
        cur_loc_iov_off := W.buf.cur_loc_iov_off, start := W.buf.start } →
      W.buf.mlength = min (min w.buf.data.length
          ((w.les h).length - RuntimeDevel.get_length_offset w.buf (w.les h)))
        w.ni.limits.max_msg_size →
      ((W.les h).options = (w.les h).options ∧ (W.les h).ptl_list = (w.les h).ptl_list ∧
        (W.les h).num_iov = (w.les h).num_iov ∧ (W.les h).start = (w.les h).start) →
      ((w.les h).num_iov = 0 → W.buf.start =
        some ((w.les h).start + RuntimeDevel.get_length_offset w.buf (w.les h))) →
      ∃ Wf, RuntimeDevel.process_tgt_loop K C n STATE_TGT_DATA false W =
        RuntimeDevel.run_result.returned Wf false ∧ P Wf) :
    ∃ Wf, RuntimeDevel.process_tgt_loop K C (n + 1) STATE_TGT_GET_LENGTH false w =
      RuntimeDevel.run_result.returned Wf false ∧ P Wf := by
  have hstep := state_get_length_some K (w.log (Action.ptl_info STATE_TGT_GET_LENGTH)) h hle
  dsimp only [World.log] at hstep
  have hnext := tgt_get_length_next_data K w.ni.limits w.conn.state w.buf (w.les h) hconn hcov
  have hframe := tgt_get_length_frame K w.ni.limits w.conn.state w.buf (w.les h)
  obtain ⟨hmo, hzero, hmin⟩ := tgt_get_length_lengths K w.ni.limits w.conn.state w.buf (w.les h)
  obtain ⟨hpr, hgr⟩ := tgt_get_length_put K w.ni.limits w.conn.state w.buf (w.les h) hop
  obtain ⟨_, hmo2, _⟩ := tgt_get_length_buf K w.ni.limits w.conn.state w.buf (w.les h)
  obtain ⟨ho, hl, hn, hst, _, _⟩ :=
    tgt_get_length_me_fields K w.ni.limits w.conn.state w.buf (w.les h)
  rw [hnext] at hstep
  refine loop_step_ex K C n STATE_TGT_GET_LENGTH w _ STATE_TGT_DATA P (by decide) hstep rfl ?_
  apply hrest
  · rfl
  · rfl
  · rfl
  · refine ⟨_, rfl, ?_, ?_, ?_⟩ <;> (split <;> rfl)
  · dsimp only
    rw [hframe]
    simp only [hpr, hgr, hmo2]
  · dsimp only
    rw [hmo2] at hzero hmin
    by_cases hoff : RuntimeDevel.get_length_offset w.buf (w.les h) ≤ (w.les h).length
    · exact hmin hoff (Or.inl hop)
    · rw [hzero (by omega)]
      have : (w.les h).length - RuntimeDevel.get_length_offset w.buf (w.les h) = 0 := by omega
      rw [this]
      simp
  · dsimp only
    simp only [Function.update_same]
    exact ⟨ho, hl, hn, hst⟩
  · intro h0
    exact tgt_get_length_start K w.ni.limits w.conn.state w.buf (w.les h) h0

set_option maxHeartbeats 1000000 in
theorem overflow_tail (K : Consts) (C : Collab) (w : World) (d : data_t) (h pi n : Nat)
    (hconn : w.conn.state ≥ K.CONN_STATE_CONNECTED)
    (hop : w.buf.operation = OP_PUT) (hdop : w.buf.data.operation = OP_PUT)
    (hget : w.buf.get_resid = 0) (hput : w.buf.put_resid ≠ 0)
    (hle : w.buf.le = some h) (hd : w.buf.data_in = some d)
    (hfmt : d.data_fmt = DATA_FMT_IMMEDIATE) (hat : w.buf.in_atomic = 0)
    (hcopy : ∀ x, (C.iov_copy_in x).1 = false)
    (hpt : w.buf.pt = some pi)
    (hcomm : w.buf.event_mask.XT_COMM_EVENT = true)
    (hrep : w.buf.event_mask.XT_REPLY_EVENT = false)
    (hack : w.buf.event_mask.XT_ACK_EVENT = true)
    (hsd : (w.les h).options.PTL_LE_EVENT_SUCCESS_DISABLE = false)
    (hreq : w.buf.data.ack_req = PTL_ACK_REQ)
    (hnd : (w.les h).options.PTL_LE_ACK_DISABLE = false)
    (hovf : (w.les h).ptl_list = PTL_OVERFLOW_LIST)
    (hsend : ∀ x, C.send_message x = false)
    (hm : w.buf.matching_le = none) (hind : w.buf.indir_sge = false)
    (hsb : (∃ sb, w.buf.send_buf = some sb) ∨
      (w.buf.send_buf = none ∧ (K.WITH_TRANSPORT_SHMEM || K.IS_PPE) = true ∧
        w.buf.has_mem_buf = true)) :
    ∃ Wf, RuntimeDevel.process_tgt_loop K C (n + 6) STATE_TGT_DATA false w =
        RuntimeDevel.run_result.returned Wf false ∧
      Wf.buf.tgt_state = STATE_TGT_WAIT_APPEND ∧
      ((w.les h).num_iov = 0 → Wf.mem =
        RuntimeDevel.memcpy w.mem ((w.les h).start + w.buf.moffset) d.immediate_data
          w.buf.mlength) ∧
      states_of Wf.trace = states_of w.trace ++
        [STATE_TGT_DATA, STATE_TGT_DATA_IN, STATE_TGT_COMM_EVENT, STATE_TGT_SEND_ACK,
         STATE_TGT_CLEANUP, STATE_TGT_WAIT_APPEND] ∧
      (events_of Wf.trace).count PTL_EVENT_PUT =
        (events_of w.trace).count PTL_EVENT_PUT + 1 ∧
      releases_of Wf.trace = releases_of w.trace ∧
      Wf.buf.le = some h ∧ Wf.buf.matching_le = none ∧ Wf.buf.operation = OP_PUT ∧
      Wf.buf.pt = some pi ∧ Wf.buf.start = w.buf.start ∧
      (Wf.pt pi).unexpected_list = (w.pt pi).unexpected_list := by
  rcases hsb with ⟨sb, hsb⟩ | ⟨hsb, hmem, hmb⟩
  · apply Exists.intro
    refine ⟨?_, ?_, ?_, ?_, ?_, ?_, ?_, ?_, ?_, ?_, ?_, ?_⟩
    -- DATA
    apply loop_trans K C _ STATE_TGT_DATA _ _ _ _ _ (by decide)
    case h =>
      rw [tgt_handler_DATA]
      exact tgt_data_put K _ hconn hop hget hput
    case hns => rfl
    dsimp only [World.log]
    -- DATA_IN
    apply loop_trans K C _ STATE_TGT_DATA_IN _ _ _ _ _ (by decide)
    case h =>
      rw [tgt_handler_DATA_IN]
      exact tgt_data_in_immediate K C _ h d hle hd hfmt hat hcopy
    case hns => rfl
    dsimp only [World.log]
    -- COMM_EVENT
    apply loop_trans K C _ STATE_TGT_COMM_EVENT _ _ _ _ _ (by decide)
    case h =>
      rw [tgt_handler_COMM_EVENT]
      exact tgt_comm_event_put _ h pi hle hpt hdop hcomm hrep hack (Or.inr hsd)
    case hns => rfl
    dsimp only [World.log, World.pt]
    -- SEND_ACK
    apply loop_trans K C _ STATE_TGT_SEND_ACK _ _ _ _ _ (by decide)
    case h =>
      rw [tgt_handler_SEND_ACK]
      exact tgt_send_ack_send_buf_overflow K C _ h sb hsb hreq hle hnd hovf hsend
    case hns => rfl
    dsimp only [World.log, World.pt]
    -- CLEANUP
    apply loop_trans K C _ STATE_TGT_CLEANUP _ _ _ _ _ (by decide)
    case h =>
      rw [tgt_handler_CLEANUP]
      exact tgt_cleanup_wait K _ h pi hm hle hovf hind hpt
    case hns => rfl
    dsimp only [World.log, World.pt]
    -- WAIT_APPEND
    refine (loop_WAIT_APPEND_stay K C _ _ _ ?_).trans ?_
    · exact hm
    · rfl
    · rfl
    · intro h0
      simp [h0]
    · simp only [states_of, List.filterMap_append]
      split_ifs <;> simp
    · simp only [events_of, List.filterMap_append, List.count_append]
      split_ifs <;> simp
    · simp only [releases_of, List.filterMap_append]
      split_ifs <;> simp
    · exact hle
    · exact hm
    · exact hop
    · exact hpt
    · rfl
    · simp [World.pt]
  · apply Exists.intro
    refine ⟨?_, ?_, ?_, ?_, ?_, ?_, ?_, ?_, ?_, ?_, ?_, ?_⟩
    -- DATA
    apply loop_trans K C _ STATE_TGT_DATA _ _ _ _ _ (by decide)
    case h =>
      rw [tgt_handler_DATA]
      exact tgt_data_put K _ hconn hop hget hput
    case hns => rfl
    dsimp only [World.log]
    -- DATA_IN
    apply loop_trans K C _ STATE_TGT_DATA_IN _ _ _ _ _ (by decide)
    case h =>
      rw [tgt_handler_DATA_IN]
      exact tgt_data_in_immediate K C _ h d hle hd hfmt hat hcopy
    case hns => rfl
    dsimp only [World.log]
    -- COMM_EVENT
    apply loop_trans K C _ STATE_TGT_COMM_EVENT _ _ _ _ _ (by decide)
    case h =>
      rw [tgt_handler_COMM_EVENT]
      exact tgt_comm_event_put _ h pi hle hpt hdop hcomm hrep hack (Or.inr hsd)
    case hns => rfl
    dsimp only [World.log, World.pt]
    -- SEND_ACK
    apply loop_trans K C _ STATE_TGT_SEND_ACK _ _ _ _ _ (by decide)
    case h =>
      rw [tgt_handler_SEND_ACK]
      exact tgt_send_ack_reuse_overflow K C _ h hsb hreq hle hnd hovf hmem hmb
    case hns => rfl
    dsimp only [World.log, World.pt]
    -- CLEANUP
    apply loop_trans K C _ STATE_TGT_CLEANUP _ _ _ _ _ (by decide)
    case h =>
      rw [tgt_handler_CLEANUP]
      exact tgt_cleanup_wait K _ h pi hm hle hovf hind hpt
    case hns => rfl
    dsimp only [World.log, World.pt]
    -- WAIT_APPEND
    refine (loop_WAIT_APPEND_stay K C _ _ _ ?_).trans ?_
    · exact hm
    · rfl
    · rfl
    · intro h0
      simp [h0]
    · simp only [states_of, List.filterMap_append]
      split_ifs <;> simp
    · simp only [events_of, List.filterMap_append, List.count_append]
      split_ifs <;> simp
    · simp only [releases_of, List.filterMap_append]
      split_ifs <;> simp
    · exact hle
    · exact hm
    · exact hop
    · exact hpt
    · rfl
    · simp [World.pt]

theorem tgt_handler_WAIT_APPEND (K : Consts) (C : Collab) (w : World) :
    RuntimeDevel.tgt_handler K C STATE_TGT_WAIT_APPEND w = RuntimeDevel.tgt_wait_append w := rfl

theorem tgt_handler_OVERFLOW_EVENT (K : Consts) (C : Collab) (w : World) :
    RuntimeDevel.tgt_handler K C STATE_TGT_OVERFLOW_EVENT w =
      RuntimeDevel.tgt_overflow_event w := rfl

theorem late_append_run (K : Consts) (C : Collab) (k : Nat) (w : World) (m h pi : Nat)
    (hs : w.buf.tgt_state = STATE_TGT_WAIT_APPEND)
    (hm : w.buf.matching_le = some m) (hpt : w.buf.pt = some pi)
    (hle : w.buf.le = some h) :
    RuntimeDevel.process_tgt K C (k + 3) w =
      RuntimeDevel.run_result.returned
        { w with
          buf.matching_le := none, buf.le := none, buf.conn := false,
          buf.tgt_state := STATE_TGT_DONE,
          trace := w.trace ++
            ([Action.ptl_info STATE_TGT_WAIT_APPEND, Action.ptl_info STATE_TGT_OVERFLOW_EVENT] ++
              overflow_event_calls w m pi ++
              [Action.ptl_info STATE_TGT_CLEANUP_2, Action.le_put h] ++
              (if w.buf.conn then [Action.conn_put] else []) ++ [Action.buf_put]) }
        false := by
  unfold RuntimeDevel.process_tgt
  rw [hs]
  apply loop_trans K C _ STATE_TGT_WAIT_APPEND _ _ _ _ _ (by decide)
  case h =>
    rw [tgt_handler_WAIT_APPEND]
    unfold RuntimeDevel.tgt_wait_append
    rw [if_pos (by simp [World.log, hm])]
  case hns => rfl
  apply loop_trans K C _ STATE_TGT_OVERFLOW_EVENT _ _ _ _ _ (by decide)
  case h =>
    rw [tgt_handler_OVERFLOW_EVENT]
    exact tgt_overflow_event_eq _ m pi hm hpt
  case hns => rfl
  rw [loop_CLEANUP_2]
  unfold RuntimeDevel.tgt_cleanup_2
  cases hc : w.buf.conn <;>
    simp [World.log, hle, hc, overflow_event_calls, World.pt]

theorem overflow_event_calls_put (w : World) (m pi : Nat) (hop : w.buf.operation = OP_PUT) :
    releases_of (overflow_event_calls w m pi) = [m] ∧
    states_of (overflow_event_calls w m pi) = [] ∧
    ((w.les m).options.PTL_LE_EVENT_OVER_DISABLE = false →
      events_of (overflow_event_calls w m pi) = [PTL_EVENT_PUT_OVERFLOW] ∧
      Action.make_target_event (w.pt pi).eq PTL_EVENT_PUT_OVERFLOW (some (w.les m).user_ptr)
        w.buf.start w.buf.ni_fail w.buf.mlength w.buf.moffset ∈ overflow_event_calls w m pi) ∧
    ((w.les m).options.PTL_LE_EVENT_OVER_DISABLE = true →
      events_of (overflow_event_calls w m pi) = []) := by
  unfold overflow_event_calls overflow_event_kind
  cases hod : (w.les m).options.PTL_LE_EVENT_OVER_DISABLE <;>
  cases hct : ((w.les m).options.PTL_LE_EVENT_CT_OVERFLOW && (w.les m).ct) <;>
    simp [hop, hod, hct, events_of, releases_of, states_of, OP_PUT]

set_option maxHeartbeats 1000000 in
/-- C23 (amended): `tgt_get_match` appends the buffer at the tail of the unexpected
list of the table entry, and takes one more reference on it (`buf_get`), exactly if
an element was found, `check_perm` passed and the element is on the overflow list.
A PUT that satisfies `OverflowPremises`, whose clamped length is not zero and whose
element does not have `PTL_LE_ACK_DISABLE`, is carried by one call of `process_tgt`
through START, GET_MATCH, GET_LENGTH, DATA, DATA_IN, COMM_EVENT, SEND_ACK and CLEANUP
into `STATE_TGT_WAIT_APPEND`, where the call returns: one `PTL_EVENT_PUT` is posted,
the payload is in the element, the buffer is at the tail of the unexpected list, the
element is still referenced (`buf->le` is set and no `le_put` was made), and `start`
is the address of byte `moffset` of a contiguous element. A call of `process_tgt`
made after that while `matching.le` is unset records the state and returns in
`STATE_TGT_WAIT_APPEND`. A call made after `matching.le` was set to an element `m`
goes through `STATE_TGT_OVERFLOW_EVENT`, releases `m` and then the overflow element,
and ends in `STATE_TGT_DONE`; when `m` does not have `PTL_LE_EVENT_OVER_DISABLE` it
posts one full event, `PTL_EVENT_PUT_OVERFLOW` with the `user_ptr` of `m` and the
saved `start`, and when `m` has that option it posts no full event. -/
theorem overflow_put_late_append (K : Consts) (C : Collab) (w : World) (d : data_t)
    (h n : Nat) (hp : OverflowPremises K C w d h)
    (hlen : 0 < min (min w.buf.data.length
      ((w.les h).length - RuntimeDevel.get_length_offset w.buf (w.les h)))
      w.ni.limits.max_msg_size)
    (hnd : (w.les h).options.PTL_LE_ACK_DISABLE = false) :
    (∀ (x : World) (pi : Nat), x.buf.pt = some pi →
      ((RuntimeDevel.tgt_get_match K x).world.pt pi).unexpected_list =
        (x.pt pi).unexpected_list ++
          (if joins_unexpected K x pi then [x.buf.addr] else []) ∧
      (Action.buf_get ∈ (RuntimeDevel.tgt_get_match K x).world.trace.drop x.trace.length ↔
        joins_unexpected K x pi = true)) ∧
    ∃ W1, RuntimeDevel.process_tgt K C (n + 9) w = RuntimeDevel.run_result.returned W1 false ∧
      (W1.buf.tgt_state = STATE_TGT_WAIT_APPEND ∧
      states_of W1.trace = states_of w.trace ++
        [STATE_TGT_START, STATE_TGT_GET_MATCH, STATE_TGT_GET_LENGTH, STATE_TGT_DATA,
         STATE_TGT_DATA_IN, STATE_TGT_COMM_EVENT, STATE_TGT_SEND_ACK, STATE_TGT_CLEANUP,
         STATE_TGT_WAIT_APPEND] ∧
      (events_of W1.trace).count PTL_EVENT_PUT =
        (events_of w.trace).count PTL_EVENT_PUT + 1 ∧
      ((w.les h).num_iov = 0 → W1.mem =
        RuntimeDevel.memcpy w.mem
          ((w.les h).start + RuntimeDevel.get_length_offset w.buf (w.les h))
          d.immediate_data
          (min (min w.buf.data.length
            ((w.les h).length - RuntimeDevel.get_length_offset w.buf (w.les h)))
            w.ni.limits.max_msg_size)) ∧
      (W1.pt w.buf.data.pt_index).unexpected_list =
        (w.pt w.buf.data.pt_index).unexpected_list ++ [w.buf.addr] ∧
      W1.buf.le = some h ∧
      releases_of W1.trace = releases_of w.trace ∧
      ((w.les h).num_iov = 0 → W1.buf.start =
        some ((w.les h).start + RuntimeDevel.get_length_offset w.buf (w.les h))) ∧
      ∀ (w2 : World) (k : Nat), w2.trace = W1.trace →
        w2.buf = { W1.buf with matching_le := w2.buf.matching_le } →
        (w2.buf.matching_le = none →
          RuntimeDevel.process_tgt K C (k + 1) w2 =
            RuntimeDevel.run_result.returned
              { w2 with buf.tgt_state := STATE_TGT_WAIT_APPEND,
                        trace := w2.trace ++ [Action.ptl_info STATE_TGT_WAIT_APPEND] } false) ∧
        (∀ m, w2.buf.matching_le = some m →
          ∃ W2 t, RuntimeDevel.process_tgt K C (k + 3) w2 =
              RuntimeDevel.run_result.returned W2 false ∧
            W2.buf.tgt_state = STATE_TGT_DONE ∧ W2.trace = w2.trace ++ t ∧
            states_of t =
              [STATE_TGT_WAIT_APPEND, STATE_TGT_OVERFLOW_EVENT, STATE_TGT_CLEANUP_2] ∧
            releases_of t = [m, h] ∧
            ((w2.les m).options.PTL_LE_EVENT_OVER_DISABLE = false →
              events_of t = [PTL_EVENT_PUT_OVERFLOW] ∧
              Action.make_target_event (w2.pt w.buf.data.pt_index).eq PTL_EVENT_PUT_OVERFLOW
                (some (w2.les m).user_ptr) W1.buf.start W1.buf.ni_fail W1.buf.mlength
                W1.buf.moffset ∈ t) ∧
            ((w2.les m).options.PTL_LE_EVENT_OVER_DISABLE = true → events_of t = []))) := by
  refine ⟨fun x pi hx => tgt_get_match_unexpected K x pi hx, ?_⟩
  obtain ⟨hstate, hmask, hfail, hop, hack, hdata, hfmt, hidx, huse, hen, heq, hfind, hovf,
    huid, hput, hcd, hsd, hconn, hiov, hgc, hsend, hcopy, htr⟩ := hp
  obtain ⟨osb, t, hprep, ht1, ht2, ht4, hosb⟩ := prepare_send_buf_put_calls K C
    { (w.log (Action.ptl_info STATE_TGT_START)) with
      buf.operation := OP_PUT, buf.pt := none, buf.in_atomic := 0,
      buf.matching_le := none, buf.le := none, buf.indir_sge := false,
      buf.send_buf := none, buf.event_mask := { XT_ACK_EVENT := true },
      buf.on_unexpected_list := false, buf.conn := true } rfl rfl htr
  unfold RuntimeDevel.process_tgt
  rw [hstate]
  -- START
  apply loop_step_ex K C _ STATE_TGT_START _ _ _ _ (by decide)
  case h =>
    rw [tgt_handler_START]
    refine tgt_start_put K C _ _ hop ?_ hmask hgc hprep hidx rfl rfl huse hen
    show w.buf.data.ack_req ≠ _
    rw [hack]
    decide
  case hns => rfl
  dsimp only [World.log, World.set_pt, World.pt]
  -- GET_MATCH
  apply loop_step_ex K C _ STATE_TGT_GET_MATCH _ _ _ _ (by decide)
  case h =>
    rw [tgt_handler_GET_MATCH]
    refine tgt_get_match_overflow K _ w.buf.data.pt_index PTL_OVERFLOW_LIST h ?_ ?_ ?_ ?_
    · rfl
    · refine (find_match_congr K _ w _ _ rfl rfl rfl ?_ ?_).trans hfind
      · simp [World.pt, World.log, World.set_pt]
      · simp [World.pt, World.log, World.set_pt]
    · exact check_perm_put_ok K _ _ rfl huid hput
    · exact hovf
  case hns => rfl
  dsimp only [World.log, World.set_pt, World.pt]
  rw [init_events_eq _ _ _ (by simp [World.pt, World.log, World.set_pt, heq]) hcd]
  dsimp only [World.log, World.set_pt, World.pt]
  -- GET_LENGTH
  have hoff : RuntimeDevel.get_length_offset w.buf (w.les h) < (w.les h).length := by
    by_contra hcon
    have : (w.les h).length - RuntimeDevel.get_length_offset w.buf (w.les h) = 0 := by omega
    rw [this] at hlen
    simp at hlen
  refine loop_get_length_put_start K C _ _ h _ ?_ ?_ ?_ ?_ ?_
  · rfl
  · rfl
  · exact hconn
  · rcases hiov with h0 | h1
    · exact Or.inl h0
    · right
      show RuntimeDevel.get_length_offset w.buf (w.les h) ≤ _
      exact le_trans (le_of_lt hoff) h1
  intro W hni hmem hcn htrace hbuf hml hles hst0
  simp only [RuntimeDevel.get_length_offset] at hbuf hml hlen hst0 ⊢
  dsimp only at hni hmem hcn htrace hbuf hml hles hst0
  obtain ⟨t3, htr3, hs3, he3, hr3⟩ := htrace
  obtain ⟨ho, hl, hn, hst⟩ := hles
  have hmo := (congrArg buf_t.moffset hbuf).trans rfl
  obtain ⟨Wf, h1, h2, h3, h4, h5, h6, h7, h8, h9, h10, h11, h12⟩ :=
    overflow_tail K C W d h w.buf.data.pt_index n
      (by rw [hcn]; exact hconn)
      ((congrArg buf_t.operation hbuf).trans rfl)
      ((congrArg (fun b => b.data.operation) hbuf).trans hop)
      ((congrArg buf_t.get_resid hbuf).trans rfl)
      (by rw [(congrArg buf_t.put_resid hbuf).trans rfl, hml]; exact Nat.pos_iff_ne_zero.mp hlen)
      ((congrArg buf_t.le hbuf).trans rfl)
      ((congrArg buf_t.data_in hbuf).trans hdata)
      hfmt
      ((congrArg buf_t.in_atomic hbuf).trans rfl)
      hcopy
      ((congrArg buf_t.pt hbuf).trans rfl)
      ((congrArg (fun b => b.event_mask.XT_COMM_EVENT) hbuf).trans rfl)
      ((congrArg (fun b => b.event_mask.XT_REPLY_EVENT) hbuf).trans rfl)
      ((congrArg (fun b => b.event_mask.XT_ACK_EVENT) hbuf).trans rfl)
      (by rw [ho]; exact hsd)
      ((congrArg (fun b => b.data.ack_req) hbuf).trans hack)
      (by rw [ho]; exact hnd)
      (by rw [hl]; exact hovf)
      hsend
      ((congrArg buf_t.matching_le hbuf).trans rfl)
      ((congrArg buf_t.indir_sge hbuf).trans rfl)
      (by
        rcases hosb with ⟨sb, hsb⟩ | ⟨hsb, hmem2, hmb⟩
        · exact Or.inl ⟨sb, (congrArg buf_t.send_buf hbuf).trans hsb⟩
        · exact Or.inr ⟨(congrArg buf_t.send_buf hbuf).trans hsb, hmem2,
            (congrArg buf_t.has_mem_buf hbuf).trans hmb⟩)
  refine ⟨Wf, h1, h2, ?_, ?_, ?_, ?_, h7, ?_, ?_, ?_⟩
  · rw [h4, htr3]
    simp only [states_of, List.filterMap_append] at ht1 hs3 ⊢
    rw [ht1, hs3]
    simp
  · rw [h5, htr3]
    simp only [events_of, List.filterMap_append] at ht2 he3 ⊢
    rw [ht2, he3]
    simp
  · intro h0
    rw [h3 (hn.trans h0), hmem, hst, hmo, hml]
  · refine h12.trans ?_
    show (W.ni.pt w.buf.data.pt_index).unexpected_list = _
    rw [hni]
    simp [World.pt]
  · rw [h6, htr3]
    simp only [releases_of, List.filterMap_append] at ht4 hr3 ⊢
    rw [ht4, hr3]
    simp
  · intro h0
    rw [h11]
    exact hst0 h0
  · intro w2 k _ hb
    have hs2 : w2.buf.tgt_state = STATE_TGT_WAIT_APPEND := (congrArg buf_t.tgt_state hb).trans h2
    have hpt2 : w2.buf.pt = some w.buf.data.pt_index := (congrArg buf_t.pt hb).trans h10
    have hle2 : w2.buf.le = some h := (congrArg buf_t.le hb).trans h7
    have hop2 : w2.buf.operation = OP_PUT := (congrArg buf_t.operation hb).trans h9
    have q1 : w2.buf.start = Wf.buf.start := (congrArg buf_t.start hb).trans rfl
    have q2 : w2.buf.ni_fail = Wf.buf.ni_fail := (congrArg buf_t.ni_fail hb).trans rfl
    have q3 : w2.buf.mlength = Wf.buf.mlength := (congrArg buf_t.mlength hb).trans rfl
    have q4 : w2.buf.moffset = Wf.buf.moffset := (congrArg buf_t.moffset hb).trans rfl
    refine ⟨?_, ?_⟩
    · intro hm2
      rw [hs2]
      exact loop_WAIT_APPEND_stay K C k false w2 hm2
    · intro m hm2
      obtain ⟨e2, e3, e4, e5⟩ := overflow_event_calls_put w2 m w.buf.data.pt_index hop2
      rw [q1, q2, q3, q4] at e4
      simp only [events_of] at e4 e5
      simp only [releases_of] at e2
      simp only [states_of] at e3
      refine ⟨_, _, late_append_run K C k w2 m h w.buf.data.pt_index hs2 hm2 hpt2 hle2, rfl, rfl,
        ?_, ?_, ?_, ?_⟩
      · simp only [states_of, List.filterMap_append, e3]
        split_ifs <;> rfl
      · simp only [releases_of, List.filterMap_append, e2]
        split_ifs <;> rfl
      · intro hod
        constructor
        · simp only [events_of, List.filterMap_append, (e4 hod).1]
          split_ifs <;> rfl
        · simp only [List.mem_append]
          exact Or.inl (Or.inl (Or.inl (Or.inr (e4 hod).2)))
      · intro hod
        simp only [events_of, List.filterMap_append, e5 hod]
        split_ifs <;> rfl

theorem overflow_world_premises (od : Bool) :
    OverflowPremises sample_consts sample_collab (overflow_world od) sample_payload 0 :=
  { fresh_state := rfl, fresh_mask := rfl, fresh_fail := rfl, is_put := rfl, wants_ack := rfl,
    data_in := rfl, immediate := rfl, pt_valid := by cases od <;> decide, pt_in_use := rfl,
    pt_enabled := rfl, pt_eq := rfl, matched := by cases od <;> decide, on_overflow := rfl,
    uid_ok := Or.inr rfl, op_put := rfl, comm_enabled := rfl, success_enabled := rfl,
    connected := by cases od <;> decide, iov_covers := Or.inl rfl, get_conn_ok := fun _ => rfl,
    send_ok := fun _ => rfl, iov_copy_ok := fun _ => rfl,
    transport := Or.inl ⟨rfl, rfl, ⟨{}, fun _ => rfl⟩⟩ }

/-- C23 (as stated, refuted): scenario 5 with a late element that has
`PTL_LE_EVENT_OVER_DISABLE`. The PUT satisfies the premises, is delivered with one
`PTL_EVENT_PUT` and waits in `STATE_TGT_WAIT_APPEND`. After `matching.le` has been
set, the next call goes through `STATE_TGT_OVERFLOW_EVENT` to `STATE_TGT_DONE` and
releases both elements, but posts no `PTL_EVENT_PUT_OVERFLOW`: the only full event of
the two calls is the `PTL_EVENT_PUT`. -/
theorem overflow_put_late_append_counterexample :
    OverflowPremises sample_consts sample_collab (overflow_world true) sample_payload 0 ∧
    (RuntimeDevel.process_tgt sample_consts sample_collab 9 (overflow_world true)).status =
      some false ∧
    (overflow_waiting true).buf.tgt_state = STATE_TGT_WAIT_APPEND ∧
    events_of (overflow_waiting true).trace = [PTL_EVENT_PUT] ∧
    (overflow_appended true).buf.matching_le = some 1 ∧
    ((overflow_appended true).les 1).options.PTL_LE_EVENT_OVER_DISABLE = true ∧
    (RuntimeDevel.process_tgt sample_consts sample_collab 3 (overflow_appended true)).status =
      some false ∧
    (RuntimeDevel.process_tgt sample_consts sample_collab 3
      (overflow_appended true)).world.buf.tgt_state = STATE_TGT_DONE ∧
    states_of ((RuntimeDevel.process_tgt sample_consts sample_collab 3
      (overflow_appended true)).world.trace.drop (overflow_appended true).trace.length) =
      [STATE_TGT_WAIT_APPEND, STATE_TGT_OVERFLOW_EVENT, STATE_TGT_CLEANUP_2] ∧
    releases_of (RuntimeDevel.process_tgt sample_consts sample_collab 3
      (overflow_appended true)).world.trace = [1, 0] ∧
    events_of (RuntimeDevel.process_tgt sample_consts sample_collab 3
      (overflow_appended true)).world.trace = [PTL_EVENT_PUT] :=
  ⟨overflow_world_premises true, by decide, by decide, by decide, by decide, by decide,
    by decide, by decide, by decide, by decide, by decide⟩

/-- C23 (witness): scenario 5. The PUT of 16 bytes lands in the overflow element at
address 1000 and waits; after the late element (user pointer 77) has been assigned,
the next call posts `PTL_EVENT_PUT_OVERFLOW` with user pointer 77 and start address
1000, releases element 1 and then element 0, and ends in `STATE_TGT_DONE`. -/
theorem overflow_put_late_append_witness :
    OverflowPremises sample_consts sample_collab (overflow_world false) sample_payload 0 ∧
    (overflow_waiting false).buf.tgt_state = STATE_TGT_WAIT_APPEND ∧
    ((overflow_waiting false).pt 0).unexpected_list = [0] ∧
    ∃ W2 t, RuntimeDevel.process_tgt sample_consts sample_collab 3 (overflow_appended false) =
        RuntimeDevel.run_result.returned W2 false ∧
      W2.buf.tgt_state = STATE_TGT_DONE ∧
      W2.trace = (overflow_appended false).trace ++ t ∧
      states_of t =
        [STATE_TGT_WAIT_APPEND, STATE_TGT_OVERFLOW_EVENT, STATE_TGT_CLEANUP_2] ∧
      events_of t = [PTL_EVENT_PUT_OVERFLOW] ∧
      Action.make_target_event true PTL_EVENT_PUT_OVERFLOW (some 77) (some 1000) PTL_NI_OK
        16 0 ∈ t ∧
      releases_of t = [1, 0] := by
  obtain ⟨_, W1, h1, _, _, _, _, _, _, _, _, hre⟩ :=
    overflow_put_late_append sample_consts sample_collab (overflow_world false) sample_payload
      0 0 (overflow_world_premises false) (by decide) rfl
  have hW : W1 = overflow_waiting false :=
    (congrArg RuntimeDevel.run_result.world h1).symm
  subst hW
  obtain ⟨W2, t, e1, e2, e3, e4, e5, e6, _⟩ :=
    (hre (overflow_appended false) 0 rfl rfl).2 1 rfl
  exact ⟨overflow_world_premises false, by decide, by decide, W2, t, e1, e2, e3, e4,
    (e6 rfl).1, (e6 rfl).2, e5⟩

/-- C39 (evaluated on the code): a PUT with `ack_req = PTL_NO_ACK_REQ` from a
descriptor whose counting event counts acks. `start` sets `XI_CT_ACK_EVENT` and
leaves `XI_RECEIVE_EXPECTED` clear, so `send_req` goes to `STATE_INIT_CLEANUP`
without waiting and the counting event is never updated. For the full event the
test of the event queue stands inside the test of `ack_req`: the same request from a
descriptor with an event queue gets no `XI_ACK_EVENT`. -/
theorem ct_ack_without_response :
    (PtlInit.start ct_ack_world).state = some STATE_INIT_PREP_REQ ∧
    (PtlInit.start ct_ack_world).world.buf.event_mask.XI_CT_ACK_EVENT = true ∧
    (PtlInit.start ct_ack_world).world.buf.event_mask.XI_RECEIVE_EXPECTED = false ∧
    init_states_of
      (PtlInit.process_init sample_consts sample_init_collab 9 ct_ack_world).world.trace =
      [STATE_INIT_START, STATE_INIT_PREP_REQ, STATE_INIT_SEND_REQ, STATE_INIT_CLEANUP] ∧
    (PtlInit.process_init sample_consts sample_init_collab 9
      ct_ack_world).world.buf.init_state = STATE_INIT_DONE ∧
    (PtlInit.process_init sample_consts sample_init_collab 9
      ct_ack_world).world.buf.event_mask.XI_CT_ACK_EVENT = true ∧
    init_deliveries
      (PtlInit.process_init sample_consts sample_init_collab 9 ct_ack_world).world.trace = [] ∧
    (PtlInit.start eq_ack_world).world.buf.event_mask.XI_ACK_EVENT = false := by
  decide

/-- C31 (as stated, refuted): a PUT of 4096 bytes whose data `append_init_data`
describes by a DMA descriptor without attaching a memory region to the buffer, from
a descriptor that expects no send event. After `prepare_req` the header still asks
for no acknowledgement and `XI_RECEIVE_EXPECTED` is clear; `send_req` goes to
`STATE_INIT_CLEANUP`, where the descriptor is released. -/
theorem forced_ack_counterexample :
    PtlInit.put_data_fmt dma_init_collab (PtlInit.start quiet_put_world).world =
      some DATA_FMT_RDMA_DMA ∧
    (PtlInit.prepare_req sample_consts dma_init_collab
      (PtlInit.start quiet_put_world).world).state = some STATE_INIT_SEND_REQ ∧
    (PtlInit.prepare_req sample_consts dma_init_collab
      (PtlInit.start quiet_put_world).world).world.buf.data.ack_req = PTL_NO_ACK_REQ ∧
    (PtlInit.prepare_req sample_consts dma_init_collab
      (PtlInit.start quiet_put_world).world).world.buf.event_mask.XI_RECEIVE_EXPECTED = false ∧
    init_states_of
      (PtlInit.process_init sample_consts dma_init_collab 9 quiet_put_world).world.trace =
      [STATE_INIT_START, STATE_INIT_PREP_REQ, STATE_INIT_SEND_REQ, STATE_INIT_CLEANUP] := by
  decide

theorem prepare_req_end_facts (K : Consts) (x : init_world) (pd : Option data_fmt_t) :
    (PtlInit.prepare_req_end K x pd).state.isSome = true ∧
    (PtlInit.prepare_req_end K x pd).state ≠ some STATE_INIT_ERROR ∧
    (PtlInit.prepare_req_end K x pd).world.buf.data.ack_req =
      (if ack_forced pd x.buf.event_mask x.buf.num_mr then PTL_ACK_REQ
       else x.buf.data.ack_req) ∧
    (PtlInit.prepare_req_end K x pd).world.buf.event_mask.XI_RECEIVE_EXPECTED =
      (ack_forced pd x.buf.event_mask x.buf.num_mr ||
        x.buf.event_mask.XI_RECEIVE_EXPECTED) ∧
    (PtlInit.prepare_req_end K x pd).world.buf.signaled =
      (match pd with
       | some fmt => fmt == DATA_FMT_IMMEDIATE && send_pending x.buf.event_mask
       | none => false) ∧
    (PtlInit.prepare_req_end K x pd).world.buf.num_mr = x.buf.num_mr := by
  unfold PtlInit.prepare_req_end ack_forced send_pending
  simp only []
  cases pd <;> split_ifs <;> simp_all [init_step.world, init_step.state]

theorem prepare_req_cases (K : Consts) (C : init_collab) (w : init_world) :
    (∃ x, PtlInit.prepare_req K C w = PtlInit.prepare_req_end K x (PtlInit.put_data_fmt C w) ∧
      x.buf.event_mask = w.buf.event_mask ∧ x.buf.data.ack_req = w.buf.data.ack_req) ∨
    (PtlInit.prepare_req K C w).state = some STATE_INIT_ERROR ∨
    (PtlInit.prepare_req K C w).state = none := by
  unfold PtlInit.prepare_req PtlInit.put_data_fmt
  simp only []
  split_ifs <;>
    first
    | exact Or.inl ⟨_, rfl, rfl, rfl⟩
    | exact Or.inr (Or.inl rfl)
    | exact Or.inr (Or.inr rfl)

/-- C31 (amended): `prepare_req` returns in the world `W` without error, and
`put_data_fmt` is the format of the data segment of the put descriptor (PUT, ATOMIC,
FETCH and SWAP have one). If that format is not IMMEDIATE and a SEND or CT_SEND
event is pending or the buffer holds a memory region (`num_mr != 0`), the header
has `ack_req = PTL_ACK_REQ` and the event mask has `XI_RECEIVE_EXPECTED`. If the
format is not IMMEDIATE, no send event is pending and the buffer holds no memory
region, `ack_req` and `XI_RECEIVE_EXPECTED` are left as they were. The send is
marked signaled exactly when the put data is IMMEDIATE and a SEND or CT_SEND event
is pending. -/
theorem forced_ack (K : Consts) (C : init_collab) (w W : init_world) (s : init_state)
    (h : PtlInit.prepare_req K C w = init_step.next W s) (hs : s ≠ STATE_INIT_ERROR) :
    (∀ fmt, PtlInit.put_data_fmt C w = some fmt → fmt ≠ DATA_FMT_IMMEDIATE →
      (send_pending w.buf.event_mask = true ∨ W.buf.num_mr ≠ 0 →
        W.buf.data.ack_req = PTL_ACK_REQ ∧ W.buf.event_mask.XI_RECEIVE_EXPECTED = true) ∧
      (send_pending w.buf.event_mask = false → W.buf.num_mr = 0 →
        W.buf.data.ack_req = w.buf.data.ack_req ∧
        W.buf.event_mask.XI_RECEIVE_EXPECTED = w.buf.event_mask.XI_RECEIVE_EXPECTED)) ∧
    (W.buf.signaled = true ↔
      PtlInit.put_data_fmt C w = some DATA_FMT_IMMEDIATE ∧
        send_pending w.buf.event_mask = true) := by
  rcases prepare_req_cases K C w with ⟨x, e, hm, ha⟩ | e | e
  · obtain ⟨_, _, f1, f2, f3, f4⟩ := prepare_req_end_facts K x (PtlInit.put_data_fmt C w)
    rw [← e, h] at f1 f2 f3 f4
    simp only [init_step.world] at f1 f2 f3 f4
    rw [hm] at f1 f2 f3
    rw [ha] at f1
    rw [← f4] at f1 f2
    constructor
    · intro fmt hf hne
      have hb : (fmt != DATA_FMT_IMMEDIATE) = true := by simpa using hne
      rw [hf] at f1 f2
      constructor
      · intro hc
        have hforce : ack_forced (some fmt) w.buf.event_mask W.buf.num_mr = true := by
          unfold ack_forced
          rcases hc with hc | hc
          · simp [hb, hc]
          · simp [hc]
        rw [hforce] at f1 f2
        exact ⟨by simpa using f1, by simpa using f2⟩
      · intro hc hn
        have hforce : ack_forced (some fmt) w.buf.event_mask W.buf.num_mr = false := by
          unfold ack_forced
          simp [hc, hn]
        rw [hforce] at f1 f2
        exact ⟨by simpa using f1, by simpa using f2⟩
    · rw [f3]
      cases hp : PtlInit.put_data_fmt C w with
      | none => simp
      | some fmt => cases fmt <;> simp
  · rw [h] at e
    simp only [init_step.state, Option.some.injEq] at e
    exact absurd e hs
  · rw [h] at e
    cases e

/-- C31 (witness): a PUT of 4096 bytes that asks for no acknowledgement, from a
descriptor with an event queue, whose data is described by a DMA descriptor: the
send event is pending, so `prepare_req` sets `ack_req = PTL_ACK_REQ` and
`XI_RECEIVE_EXPECTED`, and the send is not signaled. -/
theorem forced_ack_witness :
    PtlInit.prepare_req sample_consts dma_init_collab (PtlInit.start dma_put_world).world =
      init_step.next (PtlInit.prepare_req sample_consts dma_init_collab
        (PtlInit.start dma_put_world).world).world STATE_INIT_SEND_REQ ∧
    (PtlInit.start dma_put_world).world.buf.data.ack_req = PTL_NO_ACK_REQ ∧
    PtlInit.put_data_fmt dma_init_collab (PtlInit.start dma_put_world).world =
      some DATA_FMT_RDMA_DMA ∧
    send_pending (PtlInit.start dma_put_world).world.buf.event_mask = true ∧
    (PtlInit.prepare_req sample_consts dma_init_collab
      (PtlInit.start dma_put_world).world).world.buf.data.ack_req = PTL_ACK_REQ ∧
    (PtlInit.prepare_req sample_consts dma_init_collab
      (PtlInit.start dma_put_world).world).world.buf.event_mask.XI_RECEIVE_EXPECTED = true :=
  ⟨rfl, rfl, rfl, rfl,
   ((forced_ack sample_consts dma_init_collab (PtlInit.start dma_put_world).world _
     STATE_INIT_SEND_REQ rfl (by decide)).1 DATA_FMT_RDMA_DMA rfl (by decide)).1 (Or.inl rfl)⟩

/-- C37 (evaluated on the code): `max_atomic_size = PTL_MAX_INLINE_DATA = 512`, as
the documented assumption allows. A FETCH of 512 bytes is clamped to 512 bytes;
`tgt_data` enters the atomic critical section; in `tgt_data_out` the test
`mlength < PTL_MAX_INLINE_DATA` fails, and the process is stopped at
`assert(buf->in_atomic == 0)`. A FETCH of 511 bytes takes the inline path. -/
theorem fetch_at_inline_limit :
    inline_atomic_limits.max_atomic_size ≤ sample_consts.PTL_MAX_INLINE_DATA ∧
    (RuntimeDevel.process_tgt sample_consts sample_collab 20 (fetch_world 512)).is_aborted =
      true ∧
    states_of (RuntimeDevel.process_tgt sample_consts sample_collab 20
      (fetch_world 512)).world.trace =
      [STATE_TGT_START, STATE_TGT_GET_MATCH, STATE_TGT_GET_LENGTH, STATE_TGT_DATA,
       STATE_TGT_DATA_OUT] ∧
    (RuntimeDevel.process_tgt sample_consts sample_collab 20
      (fetch_world 512)).world.buf.mlength = 512 ∧
    (RuntimeDevel.process_tgt sample_consts sample_collab 20
      (fetch_world 512)).world.buf.in_atomic = 1 ∧
    (RuntimeDevel.process_tgt sample_consts sample_collab 20 (fetch_world 511)).status =
      some false ∧
    states_of (RuntimeDevel.process_tgt sample_consts sample_collab 20
      (fetch_world 511)).world.trace =
      [STATE_TGT_START, STATE_TGT_GET_MATCH, STATE_TGT_GET_LENGTH, STATE_TGT_DATA,
       STATE_TGT_DATA_OUT, STATE_TGT_ATOMIC_DATA_IN, STATE_TGT_COMM_EVENT,
       STATE_TGT_SEND_REPLY, STATE_TGT_CLEANUP, STATE_TGT_CLEANUP_2] := by
  decide

theorem tgt_wait_conn_cases (K : Consts) (C : Collab) (w : World) :
    (w.conn.state ≥ K.CONN_STATE_CONNECTED →
      RuntimeDevel.tgt_wait_conn K C w = step_t.next w STATE_TGT_DATA) ∧
    (w.conn.state < K.CONN_STATE_CONNECTED → w.conn.state ≠ K.CONN_STATE_DISCONNECTED →
      RuntimeDevel.tgt_wait_conn K C w = step_t.next (wait_conn_queued w) STATE_TGT_WAIT_CONN) ∧
    (w.conn.state < K.CONN_STATE_CONNECTED → w.conn.state = K.CONN_STATE_DISCONNECTED →
      C.init_connect (wait_conn_queued w) = false →
      RuntimeDevel.tgt_wait_conn K C w =
        step_t.next ((wait_conn_queued w).log Action.init_connect) STATE_TGT_WAIT_CONN) ∧
    (w.conn.state < K.CONN_STATE_CONNECTED → w.conn.state = K.CONN_STATE_DISCONNECTED →
      C.init_connect (wait_conn_queued w) = true →
      RuntimeDevel.tgt_wait_conn K C w =
        step_t.next
          { ((wait_conn_queued w).log Action.init_connect) with
            conn.buf_list := (w.conn.buf_list ++ [w.buf.addr]).erase w.buf.addr }
          STATE_TGT_ERROR) := by
  refine ⟨?_, ?_, ?_, ?_⟩
  · intro h
    unfold RuntimeDevel.tgt_wait_conn
    rw [if_pos h]
  · intro h hd
    have h1 : ¬ w.conn.state ≥ K.CONN_STATE_CONNECTED := by omega
    unfold RuntimeDevel.tgt_wait_conn
    rw [if_neg h1, if_pos h]
    simp only [beq_iff_eq, hd, if_false]
    rfl
  · intro h hd he
    have h1 : ¬ w.conn.state ≥ K.CONN_STATE_CONNECTED := by omega
    have hb : ((wait_conn_queued w).conn.state == K.CONN_STATE_DISCONNECTED) = true := by
      simpa [wait_conn_queued] using hd
    unfold RuntimeDevel.tgt_wait_conn
    rw [if_neg h1, if_pos h]
    show (if ((wait_conn_queued w).conn.state == K.CONN_STATE_DISCONNECTED) = true then
      (if C.init_connect (wait_conn_queued w) = true then _ else _) else _) = _
    rw [if_pos hb, he]
    rfl
  · intro h hd he
    have h1 : ¬ w.conn.state ≥ K.CONN_STATE_CONNECTED := by omega
    have hb : ((wait_conn_queued w).conn.state == K.CONN_STATE_DISCONNECTED) = true := by
      simpa [wait_conn_queued] using hd
    unfold RuntimeDevel.tgt_wait_conn
    rw [if_neg h1, if_pos h]
    show (if ((wait_conn_queued w).conn.state == K.CONN_STATE_DISCONNECTED) = true then
      (if C.init_connect (wait_conn_queued w) = true then _ else _) else _) = _
    rw [if_pos hb, he]
    rfl

theorem loop_suspend (K : Consts) (C : Collab) (n : Nat) (s : tgt_state) (err : Bool)
    (w w1 : World) (hs : RuntimeDevel.tgt_suspends s = true)
    (h : RuntimeDevel.tgt_handler K C s (w.log (Action.ptl_info s)) = step_t.next w1 s) :
    RuntimeDevel.process_tgt_loop K C (n + 1) s err w =
      RuntimeDevel.run_result.returned { w1 with buf.tgt_state := s } err := by
  cases s <;>
    first
    | exact absurd hs (by decide)
    | (rw [RuntimeDevel.process_tgt_loop] <;>
        first
        | (intro hh; cases hh)
        | (simp only [h]; rfl))

/-- C36: `tgt_wait_conn` of the runtime-devel variant, for a buffer that is not
already on the wait list of its connection. With the connection state at least
`CONN_STATE_CONNECTED` the function returns `STATE_TGT_DATA` and changes nothing.
Otherwise it returns one of two states. `STATE_TGT_WAIT_CONN`: the wait list is the
old one with the buffer added at the tail (the buffer occurs on it once), and
`init_connect` was called exactly when the state is `CONN_STATE_DISCONNECTED`.
`STATE_TGT_ERROR`: the state is `CONN_STATE_DISCONNECTED`, `init_connect` was
called and failed, and the wait list is the one before the call. When the
function returns `STATE_TGT_WAIT_CONN`, `process_tgt` leaves its loop with that
state saved in the buffer and the buffer on the wait list. -/
theorem wait_conn_list (K : Consts) (C : Collab) (w : World)
    (hnew : w.buf.addr ∉ w.conn.buf_list) :
    (w.conn.state ≥ K.CONN_STATE_CONNECTED →
      RuntimeDevel.tgt_wait_conn K C w = step_t.next w STATE_TGT_DATA) ∧
    (w.conn.state < K.CONN_STATE_CONNECTED →
      ∃ W s, RuntimeDevel.tgt_wait_conn K C w = step_t.next W s ∧
        ((s = STATE_TGT_WAIT_CONN ∧
            W.conn.buf_list = w.conn.buf_list ++ [w.buf.addr] ∧
            W.conn.buf_list.count w.buf.addr = 1 ∧
            (w.conn.state = K.CONN_STATE_DISCONNECTED →
              W.trace = w.trace ++ [Action.init_connect] ∧
              C.init_connect (wait_conn_queued w) = false) ∧
            (w.conn.state ≠ K.CONN_STATE_DISCONNECTED → W.trace = w.trace)) ∨
         (s = STATE_TGT_ERROR ∧
            w.conn.state = K.CONN_STATE_DISCONNECTED ∧
            C.init_connect (wait_conn_queued w) = true ∧
            W.trace = w.trace ++ [Action.init_connect] ∧
            W.conn.buf_list = w.conn.buf_list))) ∧
    (w.conn.state < K.CONN_STATE_CONNECTED →
      (w.conn.state = K.CONN_STATE_DISCONNECTED →
        C.init_connect (wait_conn_queued (w.log (Action.ptl_info STATE_TGT_WAIT_CONN))) =
          false) →
      ∀ n err,
        (RuntimeDevel.process_tgt_loop K C (n + 1) STATE_TGT_WAIT_CONN err w).status =
          some err ∧
        (RuntimeDevel.process_tgt_loop K C (n + 1) STATE_TGT_WAIT_CONN err w).world.buf.tgt_state
          = STATE_TGT_WAIT_CONN ∧
        (RuntimeDevel.process_tgt_loop K C (n + 1) STATE_TGT_WAIT_CONN err
          w).world.conn.buf_list = w.conn.buf_list ++ [w.buf.addr]) := by
  have hc := tgt_wait_conn_cases K C w
  have hcount : (w.conn.buf_list ++ [w.buf.addr]).count w.buf.addr = 1 := by
    rw [List.count_append, List.count_eq_zero_of_not_mem hnew]
    simp
  refine ⟨hc.1, ?_, ?_⟩
  · intro hlt
    by_cases hd : w.conn.state = K.CONN_STATE_DISCONNECTED
    · cases he : C.init_connect (wait_conn_queued w)
      · exact ⟨_, _, hc.2.2.1 hlt hd he, Or.inl ⟨rfl, rfl, hcount, fun _ => ⟨rfl, rfl⟩,
          fun h => absurd hd h⟩⟩
      · refine ⟨_, _, hc.2.2.2 hlt hd he, Or.inr ⟨rfl, hd, rfl, rfl, ?_⟩⟩
        show (w.conn.buf_list ++ [w.buf.addr]).erase w.buf.addr = w.conn.buf_list
        rw [List.erase_append_right _ hnew]
        simp
    · exact ⟨_, _, hc.2.1 hlt hd, Or.inl ⟨rfl, rfl, hcount, fun h => absurd h hd,
        fun _ => rfl⟩⟩
  · intro hlt hok n err
    have hc2 := tgt_wait_conn_cases K C (w.log (Action.ptl_info STATE_TGT_WAIT_CONN))
    have hstep : ∃ W, RuntimeDevel.tgt_wait_conn K C
        (w.log (Action.ptl_info STATE_TGT_WAIT_CONN)) = step_t.next W STATE_TGT_WAIT_CONN ∧
        W.conn.buf_list = w.conn.buf_list ++ [w.buf.addr] := by
      by_cases hd : w.conn.state = K.CONN_STATE_DISCONNECTED
      · exact ⟨_, hc2.2.2.1 hlt hd (hok hd), rfl⟩
      · exact ⟨_, hc2.2.1 hlt hd, rfl⟩
    obtain ⟨W, hW, hl⟩ := hstep
    have hrun : RuntimeDevel.process_tgt_loop K C (n + 1) STATE_TGT_WAIT_CONN err w =
        RuntimeDevel.run_result.returned { W with buf.tgt_state := STATE_TGT_WAIT_CONN } err := by
      exact loop_suspend K C n STATE_TGT_WAIT_CONN err w W (by decide) hW
    rw [hrun]
    exact ⟨rfl, rfl, hl⟩

/-- The theorem `wait_conn_list` on the sample world with the connection
disconnected and `init_connect` failing: the function returns `STATE_TGT_ERROR`
and the wait list is `[11, 12]` as before. -/
theorem wait_conn_list_witness :
    disconnected_world.buf.addr ∉ disconnected_world.conn.buf_list ∧
    (∃ W s, RuntimeDevel.tgt_wait_conn sample_consts unreachable_collab disconnected_world =
        step_t.next W s ∧
      ((s = STATE_TGT_WAIT_CONN ∧
          W.conn.buf_list = [11, 12] ++ [13] ∧
          W.conn.buf_list.count 13 = 1 ∧
          (disconnected_world.conn.state = sample_consts.CONN_STATE_DISCONNECTED →
            W.trace = disconnected_world.trace ++ [Action.init_connect] ∧
            unreachable_collab.init_connect (wait_conn_queued disconnected_world) = false) ∧
          (disconnected_world.conn.state ≠ sample_consts.CONN_STATE_DISCONNECTED →
            W.trace = disconnected_world.trace)) ∨
       (s = STATE_TGT_ERROR ∧
          disconnected_world.conn.state = sample_consts.CONN_STATE_DISCONNECTED ∧
          unreachable_collab.init_connect (wait_conn_queued disconnected_world) = true ∧
          W.trace = disconnected_world.trace ++ [Action.init_connect] ∧
          W.conn.buf_list = [11, 12]))) :=
  ⟨by decide,
   (wait_conn_list sample_consts unreachable_collab disconnected_world (by decide)).2.1
     (by decide)⟩

/-- C38: the transfer `tgt_get_length` of the runtime-devel variant sets up stays
inside the element, for every request, operation and element whose length fits
64 bits. The matched length is at most the requested length. When the effective
offset (`me.offset` with `PTL_ME_MANAGE_LOCAL`, else the request offset) is at most
`me.length`, the sum `moffset + mlength` is at most `me.length` and below
`2 ^ 64`, so it does not wrap. Every byte index of the range
`[moffset, moffset + mlength)` that `tgt_copy_in`, `copy_out` and `atomic_in` are
called with is below `me.length`; and for a contiguous element `tgt_copy_in`
changes only addresses in `[me.start, me.start + me.length)`. -/
theorem transfer_inside (K : Consts) (limits : ni_limits_t) (cs : Nat) (buf : buf_t)
    (me : me_t) (hlen : me.length < 2 ^ 64) :
    (RuntimeDevel.tgt_get_length K limits cs buf me).buf.mlength ≤ buf.data.length ∧
    (RuntimeDevel.get_length_offset buf me ≤ me.length →
      (RuntimeDevel.tgt_get_length K limits cs buf me).buf.moffset +
          (RuntimeDevel.tgt_get_length K limits cs buf me).buf.mlength ≤ me.length ∧
      wrap64 ((RuntimeDevel.tgt_get_length K limits cs buf me).buf.moffset +
          (RuntimeDevel.tgt_get_length K limits cs buf me).buf.mlength) =
        (RuntimeDevel.tgt_get_length K limits cs buf me).buf.moffset +
          (RuntimeDevel.tgt_get_length K limits cs buf me).buf.mlength) ∧
    (∀ i, (RuntimeDevel.tgt_get_length K limits cs buf me).buf.moffset ≤ i →
      i < (RuntimeDevel.tgt_get_length K limits cs buf me).buf.moffset +
          (RuntimeDevel.tgt_get_length K limits cs buf me).buf.mlength →
      i < me.length) ∧
    (∀ (C : Collab) (w : World) (data : Nat → Nat),
      w.buf = (RuntimeDevel.tgt_get_length K limits cs buf me).buf → me.num_iov = 0 →
      ∀ a, (RuntimeDevel.tgt_copy_in C w (RuntimeDevel.tgt_get_length K limits cs buf me).me
              data).2.mem a ≠ w.mem a →
        me.start ≤ a ∧ a < me.start + me.length) := by
  have hb := tgt_get_length_buf K limits cs buf me
  have hsw := get_length_switch_le K limits buf (RuntimeDevel.get_length_room buf me)
  have hroom := get_length_room_le buf me
  have hin : ∀ i, (RuntimeDevel.tgt_get_length K limits cs buf me).buf.moffset ≤ i →
      i < (RuntimeDevel.tgt_get_length K limits cs buf me).buf.moffset +
          (RuntimeDevel.tgt_get_length K limits cs buf me).buf.mlength →
      i < me.length := by
    intro i h1 h2
    rw [hb.1, hb.2.1] at h2
    rw [hb.2.1] at h1
    by_cases hoff : RuntimeDevel.get_length_offset buf me ≤ me.length
    · have := hroom.2 hoff
      omega
    · have h0 : RuntimeDevel.get_length_room buf me = 0 := by
        unfold RuntimeDevel.get_length_room
        simp only []
        rw [if_pos (by omega)]
      omega
  refine ⟨?_, ?_, hin, ?_⟩
  · rw [hb.1]
    exact le_trans hsw hroom.1
  · intro hoff
    have := hroom.2 hoff
    rw [hb.1, hb.2.1]
    have hle : RuntimeDevel.get_length_offset buf me +
        (RuntimeDevel.get_length_switch K limits buf (RuntimeDevel.get_length_room buf me)).1 ≤
        me.length := by omega
    refine ⟨hle, ?_⟩
    unfold wrap64 U64
    exact Nat.mod_eq_of_lt (by omega)
  · intro C w data hw h0 a ha
    have hm := tgt_get_length_me_fields K limits cs buf me
    have hcopy : (RuntimeDevel.tgt_copy_in C w
        (RuntimeDevel.tgt_get_length K limits cs buf me).me data).2.mem =
        RuntimeDevel.memcpy w.mem (me.start + w.buf.moffset) data w.buf.mlength := by
      unfold RuntimeDevel.tgt_copy_in
      simp [hm.2.2.1, h0, hm.2.2.2.1]
    rw [hcopy] at ha
    unfold RuntimeDevel.memcpy at ha
    by_cases hr : me.start + w.buf.moffset ≤ a ∧ a < me.start + w.buf.moffset + w.buf.mlength
    · rw [hw] at hr
      have := hin (a - me.start) (by omega) (by omega)
      omega
    · simp only [hr, if_false] at ha
      exact absurd rfl ha

/-- The theorem `transfer_inside` on a PUT of 40 bytes aimed at a locally managed
element of 64 bytes whose offset stands at 40: 24 bytes are taken, and
`40 + 24 ≤ 64`. -/
theorem transfer_inside_witness :
    managed_me_40.length < 2 ^ 64 ∧
    (RuntimeDevel.tgt_get_length sample_consts sample_limits 3 sample_put_40
        managed_me_40).buf.mlength = 24 ∧
    (RuntimeDevel.tgt_get_length sample_consts sample_limits 3 sample_put_40
        managed_me_40).buf.moffset +
      (RuntimeDevel.tgt_get_length sample_consts sample_limits 3 sample_put_40
        managed_me_40).buf.mlength ≤ managed_me_40.length :=
  ⟨by decide, by decide,
   ((transfer_inside sample_consts sample_limits 3 sample_put_40 managed_me_40
      (by decide)).2.1 (by decide)).1⟩

/-- C32 (evaluated on the code): `init_local_offset` of the runtime-devel variant on
an element of two iovec entries of 10 bytes each. For `moffset = 5` it succeeds
with `cur_loc_iov_index = 1` and `cur_loc_iov_off = 5`: the bytes before the
cursor number `10 + 5 = 15`, not 5, and the saved address is that of byte 5 of
the second entry. For `moffset = 10` it leaves index 1 and offset 10, and for
`moffset = 20` index 2, one past the array. Only `moffset = 0` gives the cursor
of byte `moffset`. `tgt_rdma_init_loc_off` of the older variant leaves the same
index and offset. -/
theorem iovec_cursor_one_past :
    (IbSrc.tgt_rdma_init_loc_off { sample_xt with moffset := 5 } iovec_me).1 = false ∧
    (IbSrc.tgt_rdma_init_loc_off { sample_xt with moffset := 5 }
      iovec_me).2.cur_loc_iov_index = 1 ∧
    (IbSrc.tgt_rdma_init_loc_off { sample_xt with moffset := 5 }
      iovec_me).2.cur_loc_iov_off = 5 ∧
    (IbSrc.tgt_rdma_init_loc_off { sample_xt with moffset := 10 }
      iovec_me).2.cur_loc_iov_index = 1 ∧
    (IbSrc.tgt_rdma_init_loc_off { sample_xt with moffset := 10 }
      iovec_me).2.cur_loc_iov_off = 10 ∧
    (RuntimeDevel.init_local_offset { sample_put with moffset := 5 } iovec_me).1 = false ∧
    (RuntimeDevel.init_local_offset { sample_put with moffset := 5 }
      iovec_me).2.cur_loc_iov_index = 1 ∧
    (RuntimeDevel.init_local_offset { sample_put with moffset := 5 }
      iovec_me).2.cur_loc_iov_off = 5 ∧
    iov_sum iovec_me.iov 0 1 + 5 ≠ 5 ∧
    (RuntimeDevel.init_local_offset { sample_put with moffset := 5 } iovec_me).2.start =
      some 2005 ∧
    (RuntimeDevel.init_local_offset { sample_put with moffset := 10 }
      iovec_me).2.cur_loc_iov_index = 1 ∧
    (RuntimeDevel.init_local_offset { sample_put with moffset := 10 }
      iovec_me).2.cur_loc_iov_off = 10 ∧
    (RuntimeDevel.init_local_offset { sample_put with moffset := 20 }
      iovec_me).2.cur_loc_iov_index = 2 ∧
    (RuntimeDevel.init_local_offset { sample_put with moffset := 0 }
      iovec_me).2.cur_loc_iov_index = 0 ∧
    (RuntimeDevel.init_local_offset { sample_put with moffset := 0 }
      iovec_me).2.cur_loc_iov_off = 0 := by
  decide

/-- C33 (evaluated on the code): `tgt_get_length` of the older variant on the sample
PUT of 16 bytes aimed at offset 40 of the sample element of 32 bytes. The offset
is greater than `me.length`; `room` wraps to `2 ^ 64 - 8`, and the function leaves
`mlength = 16` and `put_resid = 16`, where the runtime-devel variant leaves 0. -/
theorem offset_beyond_element :
    sample_me.options.PTL_ME_MANAGE_LOCAL = false ∧
    beyond_xt.roffset > sample_me.length ∧
    RuntimeDevel.sub64 sample_me.length beyond_xt.roffset = 2 ^ 64 - 8 ∧
    (IbSrc.tgt_get_length sample_consts sample_limits true beyond_xt sample_me).xt.moffset =
      40 ∧
    (IbSrc.tgt_get_length sample_consts sample_limits true beyond_xt sample_me).xt.mlength =
      16 ∧
    (IbSrc.tgt_get_length sample_consts sample_limits true beyond_xt sample_me).xt.put_resid =
      16 ∧
    (RuntimeDevel.tgt_get_length sample_consts sample_limits 3
      { sample_put with data.offset := 40 } sample_me).buf.mlength = 0 := by
  decide

/-- C34 (evaluated on the code): `tgt_get_match` of the older variant on a table
entry with `PTL_PT_FLOWCTRL` whose priority list holds one element that does not
match the request. The request is dropped with `PTL_NI_DROPPED` and the word
`pt->disable` is unchanged. With both lists empty the entry gets the bit
`PT_AUTO_DISABLE` and the request `PTL_NI_FLOW_CTRL`. -/
theorem flowctrl_nonmatching_list :
    IbSrc.check_match sample_consts {} beyond_xt other_me = false ∧
    (IbSrc.tgt_get_match sample_codes sample_consts 2 {} (fun _ => other_me) beyond_xt
      flowctrl_pt).map (fun r => (r.next, r.xt.ni_fail, r.pt.disable, r.xt.le)) =
      some (STATE_TGT_DROP, PTL_NI_DROPPED, 0, none) ∧
    (IbSrc.tgt_get_match sample_codes sample_consts 2 {} (fun _ => other_me) beyond_xt
      { flowctrl_pt with priority_list := [] }).map
        (fun r => (r.next, r.xt.ni_fail, r.pt.disable, r.xt.le)) =
      some (STATE_TGT_DROP, PTL_NI_FLOW_CTRL, 2, none) := by
  decide

theorem loop_settles (K : Consts) (C : Collab) (I : Nat → tgt_state → World → Prop)
    (R A : World → Prop)
    (h0 : ∀ s w, ¬ I 0 s w)
    (h_err : ∀ n w, I (n + 1) STATE_TGT_ERROR w →
      I n STATE_TGT_CLEANUP
        (if (w.log (Action.ptl_info STATE_TGT_ERROR)).buf.in_atomic != 0 then
          RuntimeDevel.atomic_unlock (w.log (Action.ptl_info STATE_TGT_ERROR))
         else w.log (Action.ptl_info STATE_TGT_ERROR)))
    (h_c2 : ∀ n w, I (n + 1) STATE_TGT_CLEANUP_2 w →
      R ({ (RuntimeDevel.tgt_cleanup_2 (w.log (Action.ptl_info STATE_TGT_CLEANUP_2))) with
            buf.tgt_state := STATE_TGT_DONE }.log Action.buf_put))
    (h_done : ∀ n w, I (n + 1) STATE_TGT_DONE w → R (w.log (Action.ptl_info STATE_TGT_DONE)))
    (h_abort : ∀ n s w w1, I (n + 1) s w →
      RuntimeDevel.tgt_handler K C s (w.log (Action.ptl_info s)) = step_t.abort w1 → A w1)
    (h_next : ∀ n s w w1 s1, I (n + 1) s w →
      s ≠ STATE_TGT_ERROR → s ≠ STATE_TGT_CLEANUP_2 → s ≠ STATE_TGT_DONE →
      RuntimeDevel.tgt_handler K C s (w.log (Action.ptl_info s)) = step_t.next w1 s1 →
      ((RuntimeDevel.tgt_suspends s && s1 == s) = false → I n s1 w1) ∧
      ((RuntimeDevel.tgt_suspends s && s1 == s) = true → R { w1 with buf.tgt_state := s1 })) :
    ∀ (n : Nat) (s : tgt_state) (err : Bool) (w : World), I n s w →
      (RuntimeDevel.process_tgt_loop K C n s err w).settles R A := by
  intro n
  induction n with
  | zero =>
    intro s err w hI
    exact absurd hI (h0 s w)
  | succ n ih =>
    intro s err w hI
    by_cases h1 : s = STATE_TGT_ERROR
    · subst h1
      rw [RuntimeDevel.process_tgt_loop]
      exact ih _ _ _ (h_err n w hI)
    by_cases h2 : s = STATE_TGT_CLEANUP_2
    · subst h2
      rw [RuntimeDevel.process_tgt_loop]
      exact h_c2 n w hI
    by_cases h3 : s = STATE_TGT_DONE
    · subst h3
      rw [RuntimeDevel.process_tgt_loop]
      exact h_done n w hI
    cases hh : RuntimeDevel.tgt_handler K C s (w.log (Action.ptl_info s)) with
    | abort w1 =>
      have : RuntimeDevel.process_tgt_loop K C (n + 1) s err w =
          RuntimeDevel.run_result.aborted w1 := by
        cases s <;> first
          | exact absurd rfl h1
          | exact absurd rfl h2
          | exact absurd rfl h3
          | (rw [RuntimeDevel.process_tgt_loop] <;> first
              | (intro hx; cases hx)
              | (simp only [hh]))
      rw [this]
      exact h_abort n s w w1 hI hh
    | next w1 s1 =>
      obtain ⟨hI1, hR⟩ := h_next n s w w1 s1 hI h1 h2 h3 hh
      cases hs : (RuntimeDevel.tgt_suspends s && s1 == s) with
      | true =>
        have : RuntimeDevel.process_tgt_loop K C (n + 1) s err w =
            RuntimeDevel.run_result.returned { w1 with buf.tgt_state := s1 } err := by
          cases s <;> first
            | exact absurd rfl h1
            | exact absurd rfl h2
            | exact absurd rfl h3
            | (rw [RuntimeDevel.process_tgt_loop] <;> first
                | (intro hx; cases hx)
                | (simp only [hh, hs]; rfl))
        rw [this]
        exact hR hs
      | false =>
        rw [loop_next K C n s err w w1 s1 ⟨h1, h2, h3⟩ hh hs]
        exact ih _ _ _ (hI1 hs)

theorem states_of_append (l t : List Action) :
    states_of (l ++ t) = states_of l ++ states_of t := by
  unfold states_of
  rw [List.filterMap_append]

theorem states_of_quiet (t : List Action) (h : ∀ a ∈ t, ∀ s, a ≠ Action.ptl_info s) :
    states_of t = [] := by
  induction t with
  | nil => rfl
  | cons a t ih =>
    have ha := h a (List.mem_cons_self _ _)
    have iht := ih (fun b hb => h b (List.mem_cons_of_mem _ hb))
    cases a <;> first
      | exact absurd rfl (ha _)
      | (simpa [states_of] using iht)

theorem handler_states (K : Consts) (C : Collab) (s : tgt_state) (w : World) :
    states_of (RuntimeDevel.tgt_handler K C s w).world.trace = states_of w.trace := by
  have key : ∃ t, (RuntimeDevel.tgt_handler K C s w).world.trace = w.trace ++ t ∧
      ∀ a ∈ t, ∀ s, a ≠ Action.ptl_info s := by
    by_cases h2 : phase s = 2
    · have hs : s = STATE_TGT_SEND_ACK ∨ s = STATE_TGT_SEND_REPLY := by
        cases s <;> first | exact Or.inl rfl | exact Or.inr rfl | exact absurd h2 (by decide)
      rcases hs with hs | hs <;> subst hs
      · obtain ⟨t, ⟨ht, ha, _, _⟩, _⟩ := tgt_send_ack_step K C w
        refine ⟨t, ht, ?_⟩
        intro a hm s e
        have := ha a hm
        subst e
        simp [sends_code] at this
      · obtain ⟨t, ⟨ht, ha, _, _⟩, _⟩ := tgt_send_reply_step K C w
        refine ⟨t, ht, ?_⟩
        intro a hm s e
        have := ha a hm
        subst e
        simp [sends_code] at this
    · obtain ⟨t, ht, ha⟩ := (trace_ext_iff _ _ _).1 (handler_ext K C s w h2)
      refine ⟨t, ht, ?_⟩
      intro a hm s1 e
      have := ha a hm
      subst e
      cases s <;> simp [logs] at this
  obtain ⟨t, ht, hq⟩ := key
  rw [ht, states_of_append, states_of_quiet t hq, List.append_nil]

theorem rdma_setup_dir (K : Consts) (d : data_t) (buf b : buf_t) (n : tgt_state)
    (h : RuntimeDevel.rdma_setup K d buf = some (b, n)) : b.rdma_dir = buf.rdma_dir := by
  unfold RuntimeDevel.rdma_setup at h
  split at h <;> (try split_ifs at h) <;> cases h <;> rfl

theorem tgt_data_out_dir (K : Consts) (C : Collab) (w : World) :
    (RuntimeDevel.tgt_data_out K C w).dir_goes STATE_TGT_DATA_OUT w.buf.rdma_dir := by
  unfold RuntimeDevel.tgt_data_out step_t.dir_goes
  simp only []
  split
  · simp [step_t.state, dir_ok]
  · split_ifs
    · split
      · split_ifs <;> simp [step_t.state, step_t.world, dir_ok, World.log]
      · simp [step_t.state]
    · simp [step_t.state]
    · split
      · rename_i hr
        have := rdma_setup_dir K _ _ _ _ hr
        simp [step_t.state, step_t.world, dir_ok, this]
      · simp [step_t.state]

theorem tgt_data_in_dir (K : Consts) (C : Collab) (w : World) :
    (RuntimeDevel.tgt_data_in K C w).dir_goes STATE_TGT_DATA_IN w.buf.rdma_dir := by
  unfold RuntimeDevel.tgt_data_in RuntimeDevel.data_in_leave step_t.dir_goes
  simp only []
  split
  · split
    · unfold RuntimeDevel.tgt_copy_in
      split_ifs <;>
        simp [step_t.state, step_t.world, dir_ok, RuntimeDevel.atomic_unlock, World.log]
    · split
      · rename_i hr
        have := rdma_setup_dir K _ _ _ _ hr
        split_ifs <;>
          simp [step_t.state, step_t.world, dir_ok, RuntimeDevel.atomic_unlock, World.log, this]
      · simp [step_t.state]
  · simp [step_t.state]

theorem tgt_wait_rdma_desc_dir (K : Consts) (C : Collab) (w : World) :
    (RuntimeDevel.tgt_wait_rdma_desc K C w).dir_goes STATE_TGT_WAIT_RDMA_DESC
      w.buf.rdma_dir := by
  unfold RuntimeDevel.tgt_wait_rdma_desc step_t.dir_goes
  simp only []
  repeat' split
  all_goals simp [step_t.state, step_t.world, dir_ok, World.log]

theorem tgt_shmem_desc_dir (K : Consts) (C : Collab) (w : World) :
    (RuntimeDevel.tgt_shmem_desc K C w).dir_goes STATE_TGT_SHMEM_DESC w.buf.rdma_dir := by
  unfold RuntimeDevel.tgt_shmem_desc step_t.dir_goes
  simp only []
  repeat' split
  all_goals simp [step_t.state, step_t.world, dir_ok]

theorem tgt_rdma_keeps (K : Consts) (C : Collab) (w : World) :
    (RuntimeDevel.tgt_rdma K C w).world.buf.rdma_dir = w.buf.rdma_dir ∧
    (RuntimeDevel.tgt_rdma K C w).world.buf.le = w.buf.le := by
  have hf : ∀ (b : buf_t) (m : me_t),
      (RuntimeDevel.init_local_offset b m).2.rdma_dir = b.rdma_dir ∧
      (RuntimeDevel.init_local_offset b m).2.le = b.le := by
    intro b m
    obtain ⟨x, y, z, h⟩ := init_local_offset_frame b m
    rw [h]
    exact ⟨rfl, rfl⟩
  unfold RuntimeDevel.tgt_rdma
  simp only []
  repeat' split
  all_goals first
    | exact ⟨rfl, rfl⟩
    | (simp only [step_t.world, (hf _ _).1, (hf _ _).2]; exact ⟨rfl, rfl⟩)

theorem tgt_rdma_keeps_dir (K : Consts) (C : Collab) (w : World) :
    (RuntimeDevel.tgt_rdma K C w).world.buf.rdma_dir = w.buf.rdma_dir :=
  (tgt_rdma_keeps K C w).1

theorem tgt_rdma_in_done (K : Consts) (C : Collab) (w : World)
    (hd : w.buf.rdma_dir = DATA_DIR_IN) :
    (RuntimeDevel.tgt_rdma K C w).state.all
      (fun s1 => s1 == STATE_TGT_ERROR || s1 == STATE_TGT_RDMA || s1 == STATE_TGT_COMM_EVENT) =
      true := by
  have hd1 : ((w.log Action.post_tgt_dma).buf.rdma_dir == DATA_DIR_IN) = true := by
    simp [World.log, hd]
  unfold RuntimeDevel.tgt_rdma
  simp only []
  by_cases h1 : (C.post_tgt_dma w).1 = true
  · rw [if_pos h1]
    rfl
  rw [if_neg h1]
  simp only [hd1, if_true]
  by_cases h2 : ((C.post_tgt_dma w).2.1 != 0) = true
  · simp only [h2, Bool.true_or, if_true]
    rfl
  · have h3 : (C.post_tgt_dma w).2.1 = 0 := by simpa using h2
    split_ifs <;> rfl

theorem tgt_rdma_dir (K : Consts) (C : Collab) (w : World) :
    (RuntimeDevel.tgt_rdma K C w).dir_goes STATE_TGT_RDMA w.buf.rdma_dir := by
  have h1 := tgt_rdma_keeps_dir K C w
  unfold step_t.dir_goes
  cases hd : w.buf.rdma_dir
  · have h2 := tgt_rdma_in_done K C w hd
    rw [h1, hd]
    cases hr : (RuntimeDevel.tgt_rdma K C w).state with
    | none => rfl
    | some s1 =>
      rw [hr] at h2
      simpa [dir_ok] using h2
  · rw [h1, hd]
    cases hr : (RuntimeDevel.tgt_rdma K C w).state with
    | none => rfl
    | some s1 => simp [dir_ok]

theorem handler_dir (K : Consts) (C : Collab) (s : tgt_state) (w : World) :
    (RuntimeDevel.tgt_handler K C s w).dir_goes s w.buf.rdma_dir := by
  cases s
  case STATE_TGT_DATA_OUT => exact tgt_data_out_dir K C w
  case STATE_TGT_DATA_IN => exact tgt_data_in_dir K C w
  case STATE_TGT_WAIT_RDMA_DESC => exact tgt_wait_rdma_desc_dir K C w
  case STATE_TGT_SHMEM_DESC => exact tgt_shmem_desc_dir K C w
  case STATE_TGT_RDMA => exact tgt_rdma_dir K C w
  all_goals
    (unfold step_t.dir_goes
     cases (RuntimeDevel.tgt_handler K C _ w) <;> simp [step_t.state, dir_ok])

theorem rank_step (s s1 : tgt_state) (d d1 : data_dir_t) (hf : follows s s1 = true)
    (hd : dir_ok s d s1 d1 = true) (hs : (RuntimeDevel.tgt_suspends s && s1 == s) = false)
    (hc : s ≠ STATE_TGT_CLEANUP_2) :
    tgt_rank s1 d1 < tgt_rank s d := by
  cases s <;> cases s1 <;> first
    | (exact absurd hf (by decide))
    | (exact absurd hs (by decide))
    | (exact absurd rfl hc)
    | (cases d <;> cases d1 <;> first
        | (exact absurd hd (by decide))
        | decide)

theorem rank_pos (s : tgt_state) (d : data_dir_t) : 0 < tgt_rank s d ∧ tgt_rank s d ≤ 18 := by
  cases s <;> cases d <;> decide

theorem count_snoc (L : List tgt_state) (s T : tgt_state) (P : Prop)
    (hP : s = T → P) :
    ∃ x, (L ++ [s]).count T = L.count T + x ∧ (x = 0 ∨ (x = 1 ∧ P)) := by
  by_cases hs : s = T
  · refine ⟨1, ?_, Or.inr ⟨rfl, hP hs⟩⟩
    rw [List.count_append, List.count_singleton, hs]
    simp
  · refine ⟨0, ?_, Or.inl rfl⟩
    rw [List.count_append, List.count_singleton]
    simp [hs]

theorem within_step (L : List tgt_state) (s : tgt_state) (d : data_dir_t) (r1 : Nat)
    (h : within L (tgt_rank s d)) (hr : r1 < tgt_rank s d) : within (L ++ [s]) r1 := by
  obtain ⟨h1, h2, h3, h4, h5, h6, h7, h8⟩ := h
  obtain ⟨x, ex, hx⟩ := count_snoc L s STATE_TGT_RDMA
    (tgt_rank s d = 11 ∨ tgt_rank s d = 8) (by
      intro e
      subst e
      cases d <;> simp [tgt_rank])
  obtain ⟨y, ey, hy⟩ := count_snoc L s STATE_TGT_DATA_OUT (tgt_rank s d = 13) (by
      intro e
      subst e
      rfl)
  obtain ⟨z, ez, hz⟩ := count_snoc L s STATE_TGT_DATA_IN (tgt_rank s d = 10) (by
      intro e
      subst e
      rfl)
  have e0 : (L ++ [s]).length = L.length + 1 := by simp
  unfold within
  rw [e0, ex, ey, ez]
  generalize tgt_rank s d = r at *
  generalize L.count STATE_TGT_RDMA = a at *
  generalize L.count STATE_TGT_DATA_OUT = b at *
  generalize L.count STATE_TGT_DATA_IN = c at *
  generalize L.length = n at *
  clear ex ey ez e0
  refine ⟨by omega, ?_, ?_, by omega, ?_, by omega, ?_, by omega⟩ <;> intro hh <;> omega

theorem within_bounded (w0 W : World) (L : List tgt_state)
    (hL : states_of W.trace = states_of w0.trace ++ L) (h : within L 0) :
    bounded_since w0 W := by
  obtain ⟨h1, _, _, h4, _, h6, _, h8⟩ := h
  exact ⟨L, hL, by omega, h4, h6, h8⟩

theorem states_logged (w0 w w1 : World) (L : List tgt_state) (s : tgt_state)
    (hL : states_of w.trace = states_of w0.trace ++ L)
    (h1 : states_of w1.trace = states_of (w.log (Action.ptl_info s)).trace) :
    states_of w1.trace = states_of w0.trace ++ (L ++ [s]) := by
  rw [h1]
  simp only [World.log]
  rw [states_of_append, hL, List.append_assoc]
  rfl

theorem follows_not_done (s : tgt_state) (hc : s ≠ STATE_TGT_CLEANUP_2) :
    follows s STATE_TGT_DONE = false := by
  cases s <;> first | rfl | exact absurd rfl hc

theorem suspends_exit (s : tgt_state) (h : RuntimeDevel.tgt_suspends s = true) :
    s = STATE_TGT_WAIT_CONN ∨ s = STATE_TGT_WAIT_RDMA_DESC ∨ s = STATE_TGT_RDMA ∨
    s = STATE_TGT_WAIT_APPEND := by
  cases s <;> first
    | exact absurd h (by decide)
    | exact Or.inl rfl
    | exact Or.inr (Or.inl rfl)
    | exact Or.inr (Or.inr (Or.inl rfl))
    | exact Or.inr (Or.inr (Or.inr rfl))

theorem rank_inv_loop (K : Consts) (C : Collab) (w0 : World) :
    ∀ (n : Nat) (s : tgt_state) (err : Bool) (w : World), rank_inv w0 n s w →
      (RuntimeDevel.process_tgt_loop K C n s err w).settles
        (fun W => tgt_exit W ∧ bounded_since w0 W) (bounded_since w0) := by
  refine loop_settles K C (rank_inv w0) _ _ ?_ ?_ ?_ ?_ ?_ ?_
  · rintro s w ⟨h, _⟩
    have := (rank_pos s w.buf.rdma_dir).1
    omega
  · rintro n w ⟨hr, _, L, hL, hW⟩
    have hd : ∀ W : World, W = (if (w.log (Action.ptl_info STATE_TGT_ERROR)).buf.in_atomic != 0
          then RuntimeDevel.atomic_unlock (w.log (Action.ptl_info STATE_TGT_ERROR))
          else w.log (Action.ptl_info STATE_TGT_ERROR)) →
        W.buf.rdma_dir = w.buf.rdma_dir ∧
        states_of W.trace = states_of (w.log (Action.ptl_info STATE_TGT_ERROR)).trace := by
      intro W e
      subst e
      split_ifs
      · refine ⟨rfl, ?_⟩
        simp only [RuntimeDevel.atomic_unlock, World.log]
        rw [states_of_append (w.trace ++ [Action.ptl_info STATE_TGT_ERROR])]
        simp [states_of]
      · exact ⟨rfl, rfl⟩
    obtain ⟨e1, e2⟩ := hd _ rfl
    refine ⟨?_, (fun h => by cases h), L ++ [STATE_TGT_ERROR], states_logged w0 w _ L _ hL e2, ?_⟩
    · rw [e1]
      have : tgt_rank STATE_TGT_ERROR w.buf.rdma_dir = 5 := rfl
      have : tgt_rank STATE_TGT_CLEANUP w.buf.rdma_dir = 4 := rfl
      omega
    · rw [e1]
      exact within_step L STATE_TGT_ERROR w.buf.rdma_dir _ hW (by decide : (4 : Nat) < 5)
  · rintro n w ⟨hr, _, L, hL, hW⟩
    refine ⟨Or.inr (Or.inr (Or.inr (Or.inr rfl))), ?_⟩
    obtain ⟨t, ht, ha, _⟩ := tgt_cleanup_2_ext (w.log (Action.ptl_info STATE_TGT_CLEANUP_2))
    refine within_bounded w0 _ (L ++ [STATE_TGT_CLEANUP_2]) ?_
      (within_step L STATE_TGT_CLEANUP_2 w.buf.rdma_dir 0 hW (rank_pos _ _).1)
    refine states_logged w0 w _ L _ hL ?_
    simp only [World.log] at ht ⊢
    rw [ht, states_of_append, states_of_append (w.trace ++ [Action.ptl_info STATE_TGT_CLEANUP_2])]
    have : states_of t = [] := by
      refine states_of_quiet t ?_
      intro a hm s e
      rcases ha a hm with ⟨_, e1⟩ | e1 <;> rw [e1] at e <;> cases e
    rw [this]
    simp [states_of]
  · rintro n w ⟨hr, hdone, L, hL, hW⟩
    refine ⟨Or.inr (Or.inr (Or.inr (Or.inr (hdone rfl)))), ?_⟩
    exact within_bounded w0 _ (L ++ [STATE_TGT_DONE]) (states_logged w0 w _ L _ hL rfl)
      (within_step L STATE_TGT_DONE w.buf.rdma_dir 0 hW (rank_pos _ _).1)
  · rintro n s w w1 ⟨hr, _, L, hL, hW⟩ hh
    have hs := handler_states K C s (w.log (Action.ptl_info s))
    rw [hh] at hs
    exact within_bounded w0 _ (L ++ [s]) (states_logged w0 w _ L _ hL hs)
      (within_step L s w.buf.rdma_dir 0 hW (rank_pos s w.buf.rdma_dir).1)
  · rintro n s w w1 s1 ⟨hr, _, L, hL, hW⟩ h1 h2 h3 hh
    have hs := handler_states K C s (w.log (Action.ptl_info s))
    have hg := handler_goes K C s (w.log (Action.ptl_info s)) h1 h2 h3
    have hd := handler_dir K C s (w.log (Action.ptl_info s))
    rw [hh] at hs hg hd
    have hf : follows s s1 = true := by simpa [step_t.goes, step_t.state] using hg
    have hdir : dir_ok s w.buf.rdma_dir s1 w1.buf.rdma_dir = true := by
      simpa [step_t.dir_goes, step_t.state, step_t.world, World.log] using hd
    have hst := states_logged w0 w w1 L s hL hs
    constructor
    · intro hsus
      have hlt := rank_step s s1 _ _ hf hdir hsus h2
      refine ⟨by omega, ?_, L ++ [s], hst, within_step L s w.buf.rdma_dir _ hW hlt⟩
      intro e
      rw [e, follows_not_done s h2] at hf
      cases hf
    · intro hsus
      have h4 : RuntimeDevel.tgt_suspends s = true ∧ s1 = s := by
        simpa using hsus
      have hex := suspends_exit s h4.1
      refine ⟨?_, within_bounded w0 _ (L ++ [s]) hst
        (within_step L s w.buf.rdma_dir 0 hW (rank_pos s w.buf.rdma_dir).1)⟩
      unfold tgt_exit
      rw [h4.2]
      rcases hex with e | e | e | e
      · exact Or.inl e
      · exact Or.inr (Or.inl e)
      · exact Or.inr (Or.inr (Or.inl e))
      · exact Or.inr (Or.inr (Or.inr (Or.inl e)))

/-- C40 (as stated, refuted): a GET of 600 bytes whose reply is described by a KNEM
descriptor, in a build with the InfiniBand transport only. The reply does not fit
inline, `tgt_data_out` has no case for the format and calls `abort()`: the call of
`process_tgt` neither suspends nor reaches `STATE_TGT_DONE`. -/
theorem process_tgt_stopped :
    (RuntimeDevel.process_tgt sample_consts sample_collab 18 knem_get_world).is_aborted = true ∧
    (RuntimeDevel.process_tgt sample_consts sample_collab 18 knem_get_world).status = none ∧
    (RuntimeDevel.process_tgt sample_consts sample_collab 18 knem_get_world).world.buf.mlength =
      600 ∧
    states_of (RuntimeDevel.process_tgt sample_consts sample_collab 18
      knem_get_world).world.trace =
      [STATE_TGT_START, STATE_TGT_GET_MATCH, STATE_TGT_GET_LENGTH, STATE_TGT_DATA,
       STATE_TGT_DATA_OUT] := by
  decide

/-- C40 (amended): for every state of the buffer, every world and every behaviour
of the collaborators, a call of `process_tgt` with room for 18 turns of its loop is
never cut off: it returns, leaving the buffer in one of `STATE_TGT_WAIT_CONN`,
`STATE_TGT_WAIT_RDMA_DESC`, `STATE_TGT_RDMA`, `STATE_TGT_WAIT_APPEND` or
`STATE_TGT_DONE`, or the process is stopped inside a state function (`abort()` or a
failed assertion). In both cases at most 18 state cases were entered, among them
`STATE_TGT_RDMA` at most twice and `STATE_TGT_DATA_OUT` and `STATE_TGT_DATA_IN` at
most once each. -/
theorem process_tgt_terminates (K : Consts) (C : Collab) (w : World) (n : Nat) :
    (RuntimeDevel.process_tgt K C (n + 18) w).cut_off = false ∧
    (∀ W err, RuntimeDevel.process_tgt K C (n + 18) w =
        RuntimeDevel.run_result.returned W err → tgt_exit W) ∧
    bounded_since w (RuntimeDevel.process_tgt K C (n + 18) w).world := by
  have hI : rank_inv w (n + 18) w.buf.tgt_state w := by
    refine ⟨?_, fun h => h, [], by simp, ?_⟩
    · have := (rank_pos w.buf.tgt_state w.buf.rdma_dir).2
      omega
    · have := (rank_pos w.buf.tgt_state w.buf.rdma_dir).2
      exact ⟨by simpa using this, by simp, by simp, by simp, by simp, by simp, by simp,
        by simp⟩
  have h := rank_inv_loop K C w (n + 18) w.buf.tgt_state false w hI
  unfold RuntimeDevel.process_tgt
  cases hr : RuntimeDevel.process_tgt_loop K C (n + 18) w.buf.tgt_state false w with
  | returned W e =>
    rw [hr] at h
    exact ⟨rfl, (fun W1 e1 heq => by cases heq; exact h.1), h.2⟩
  | aborted W =>
    rw [hr] at h
    exact ⟨rfl, (fun W1 e1 heq => by cases heq), h⟩
  | out_of_fuel W s =>
    rw [hr] at h
    exact absurd h (by simp [RuntimeDevel.run_result.settles])

theorem ref_calls_append_info (T t : List Action) (s : tgt_state) :
    ∀ cur, ref_calls cur (T ++ Action.ptl_info s :: t) =
      ref_calls cur T ++ ref_calls (some s) t := by
  induction T with
  | nil =>
    intro cur
    simp [ref_calls, ref_of, next_state]
  | cons a T ih =>
    intro cur
    rw [List.cons_append, ref_calls, ref_calls, ih, List.append_assoc]

theorem ref_calls_append_quiet (t u : List Action) (cur : Option tgt_state)
    (h : ∀ a ∈ t, ∀ s1, a ≠ Action.ptl_info s1) :
    ref_calls cur (t ++ u) = ref_calls cur t ++ ref_calls cur u := by
  induction t with
  | nil => simp [ref_calls]
  | cons a t ih =>
    have ha := h a (List.mem_cons_self _ _)
    have hn : next_state cur a = cur := by
      cases a <;> first | rfl | exact absurd rfl (ha _)
    rw [List.cons_append, ref_calls, ref_calls, hn,
      ih (fun b hb => h b (List.mem_cons_of_mem _ hb)), List.append_assoc]

theorem ref_calls_quiet (cur : Option tgt_state) (t : List Action)
    (h : ∀ a ∈ t, (∀ s1, a ≠ Action.ptl_info s1) ∧ (∀ x, a ≠ Action.le_get x) ∧
      (∀ x, a = Action.le_put x → cur = some STATE_TGT_OVERFLOW_EVENT)) :
    ref_calls cur t = [] := by
  induction t with
  | nil => rfl
  | cons a t ih =>
    obtain ⟨h1, h2, h3⟩ := h a (List.mem_cons_self _ _)
    have iht := ih (fun b hb => h b (List.mem_cons_of_mem _ hb))
    cases a <;> first
      | exact absurd rfl (h1 _)
      | exact absurd rfl (h2 _)
      | (have e := h3 _ rfl
         subst e
         simp only [ref_calls, ref_of, next_state, beq_self_eq_true, if_true, List.nil_append]
         exact iht)
      | (simp only [ref_calls, ref_of, next_state, List.nil_append]
         exact iht)

theorem ref_count_append (l m : List Bool) : ref_count (l ++ m) = ref_count l + ref_count m := by
  unfold ref_count
  rw [List.count_append, List.count_append]
  push_cast
  ring

theorem refs_held_snoc (l : List Bool) (x : Bool) (h : refs_held l)
    (hx : 0 ≤ ref_count (l ++ [x])) : refs_held (l ++ [x]) := by
  intro p hp
  rw [List.prefix_concat_iff] at hp
  rcases hp with e | hp
  · rw [e]
    exact hx
  · exact h p hp

theorem logs_no_ref (s : tgt_state) (a : Action) (hs : s ≠ STATE_TGT_GET_MATCH)
    (h : logs s a = true) :
    (∀ s1, a ≠ Action.ptl_info s1) ∧ (∀ x, a ≠ Action.le_get x) ∧
    (∀ x, a = Action.le_put x → some s = some STATE_TGT_OVERFLOW_EVENT) := by
  cases s <;> first
    | exact absurd rfl hs
    | (cases a <;> first
        | (simp [logs] at h; done)
        | (refine ⟨?_, ?_, ?_⟩ <;> intro x hx <;> first | rfl | cases hx))

theorem rdma_setup_le (K : Consts) (d : data_t) (buf b : buf_t) (n : tgt_state)
    (h : RuntimeDevel.rdma_setup K d buf = some (b, n)) : b.le = buf.le := by
  unfold RuntimeDevel.rdma_setup at h
  split at h <;> (try split_ifs at h) <;> cases h <;> rfl

theorem tgt_get_length_le (K : Consts) (limits : ni_limits_t) (cs : Nat) (buf : buf_t)
    (me : me_t) : (RuntimeDevel.tgt_get_length K limits cs buf me).buf.le = buf.le := by
  rw [tgt_get_length_frame]

theorem state_get_length_le (K : Consts) (w : World) :
    (RuntimeDevel.state_get_length K w).world.buf.le = w.buf.le := by
  unfold RuntimeDevel.state_get_length
  split
  · rfl
  · rename_i h hle
    simp only []
    split <;> simp only [step_t.world, World.log, World.set_le, tgt_get_length_le]

theorem tgt_wait_conn_le (K : Consts) (C : Collab) (w : World) :
    (RuntimeDevel.tgt_wait_conn K C w).world.buf.le = w.buf.le := by
  unfold RuntimeDevel.tgt_wait_conn
  simp only []
  repeat' split
  all_goals rfl

theorem tgt_data_le (K : Consts) (w : World) :
    (RuntimeDevel.tgt_data K w).world.buf.le = w.buf.le := by
  unfold RuntimeDevel.tgt_data
  simp only []
  repeat' split
  all_goals rfl

theorem tgt_data_in_le (K : Consts) (C : Collab) (w : World) :
    (RuntimeDevel.tgt_data_in K C w).world.buf.le = w.buf.le := by
  unfold RuntimeDevel.tgt_data_in RuntimeDevel.data_in_leave
  simp only []
  split
  · split
    · unfold RuntimeDevel.tgt_copy_in
      split_ifs <;> rfl
    · split
      · rename_i hr
        have := rdma_setup_le K _ _ _ _ hr
        split_ifs <;> simp only [step_t.world, RuntimeDevel.atomic_unlock, World.log, this]
      · rfl
  · rfl

theorem tgt_wait_rdma_desc_le (K : Consts) (C : Collab) (w : World) :
    (RuntimeDevel.tgt_wait_rdma_desc K C w).world.buf.le = w.buf.le := by
  unfold RuntimeDevel.tgt_wait_rdma_desc
  simp only []
  repeat' split
  all_goals rfl

theorem tgt_shmem_desc_le (K : Consts) (C : Collab) (w : World) :
    (RuntimeDevel.tgt_shmem_desc K C w).world.buf.le = w.buf.le := by
  unfold RuntimeDevel.tgt_shmem_desc
  simp only []
  repeat' split
  all_goals rfl

theorem tgt_rdma_le (K : Consts) (C : Collab) (w : World) :
    (RuntimeDevel.tgt_rdma K C w).world.buf.le = w.buf.le :=
  (tgt_rdma_keeps K C w).2

theorem tgt_atomic_data_in_le (K : Consts) (C : Collab) (w : World) :
    (RuntimeDevel.tgt_atomic_data_in K C w).world.buf.le = w.buf.le := by
  unfold RuntimeDevel.tgt_atomic_data_in
  split
  · split_ifs
    · rfl
    · rfl
    · split
      · rfl
      · rename_i ha
        unfold RuntimeDevel.atomic_in at ha
        split_ifs at ha <;> cases ha <;> split_ifs <;> rfl
  · rfl

theorem tgt_swap_data_in_le (C : Collab) (w : World) :
    (RuntimeDevel.tgt_swap_data_in C w).world.buf.le = w.buf.le := by
  unfold RuntimeDevel.tgt_swap_data_in
  simp only []
  repeat' split
  all_goals rfl

theorem tgt_data_out_le (K : Consts) (C : Collab) (w : World) :
    (RuntimeDevel.tgt_data_out K C w).world.buf.le = w.buf.le := by
  unfold RuntimeDevel.tgt_data_out
  simp only []
  split
  · rfl
  · split_ifs
    · split
      · split_ifs <;> rfl
      · rfl
    · rfl
    · split
      · rename_i hr
        have := rdma_setup_le K _ _ _ _ hr
        simp only [step_t.world, this]
      · rfl

theorem make_comm_event_le (w : World) (pi : Nat) (le : me_t) :
    (RuntimeDevel.make_comm_event w pi le).buf.le = w.buf.le := by
  unfold RuntimeDevel.make_comm_event
  simp only []
  split_ifs <;> rfl

theorem tgt_comm_event_le (w : World) :
    (RuntimeDevel.tgt_comm_event w).world.buf.le = w.buf.le := by
  unfold RuntimeDevel.tgt_comm_event
  simp only []
  split
  · rfl
  · rename_i w1 h1
    have e1 : w1.buf.le = w.buf.le := by
      split_ifs at h1
      · split at h1
        · cases h1
          exact make_comm_event_le _ _ _
        · cases h1
      · cases h1
        rfl
    split
    · exact e1
    · rename_i w2 h2
      have e2 : w2.buf.le = w1.buf.le := by
        split_ifs at h2
        · split at h2
          · cases h2
            rfl
          · cases h2
        · cases h2
          rfl
      split_ifs <;> exact e2.trans e1

theorem request_drop_le (w : World) :
    (RuntimeDevel.request_drop w).world.buf.le = w.buf.le := by
  unfold RuntimeDevel.request_drop
  simp only []
  split_ifs <;> rfl

theorem tgt_wait_append_le (w : World) :
    (RuntimeDevel.tgt_wait_append w).world.buf.le = w.buf.le := by
  unfold RuntimeDevel.tgt_wait_append
  split_ifs <;> rfl

theorem tgt_overflow_event_le (w : World) :
    (RuntimeDevel.tgt_overflow_event w).world.buf.le = w.buf.le := by
  cases hm : w.buf.matching_le with
  | none =>
    unfold RuntimeDevel.tgt_overflow_event
    simp only [hm]
    rfl
  | some m =>
    cases hpt : w.buf.pt with
    | some pi =>
      rw [tgt_overflow_event_eq w m pi hm hpt]
      rfl
    | none =>
      unfold RuntimeDevel.tgt_overflow_event
      simp only [hm, hpt]
      cases hod : (w.les m).options.PTL_LE_EVENT_OVER_DISABLE <;>
        simp only [Bool.not_false, Bool.not_true, if_true, if_false, Bool.false_eq_true]
      · split_ifs <;> rfl
      · rfl

theorem tgt_cleanup_le (K : Consts) (w : World) :
    (RuntimeDevel.tgt_cleanup K w).world.buf.le = w.buf.le := by
  unfold RuntimeDevel.tgt_cleanup
  simp only []
  repeat' split
  all_goals rfl

theorem tgt_start_check_le (K : Consts) (pi : Nat) (w : World) :
    (tgt_start_check K pi w).world.buf.le = w.buf.le := by
  unfold tgt_start_check
  dsimp only [World.set_pt, World.pt]
  split_ifs <;> rfl

theorem tgt_start_le (K : Consts) (C : Collab) (w : World) :
    (RuntimeDevel.tgt_start K C w).world.buf.le = none := by
  cases hop : valid_operation w.buf.data.operation
  · rw [tgt_start_invalid K C w hop]
    rfl
  · obtain ⟨sb, t, _, h | h | h⟩ := tgt_start_outcome K C w hop
    · rw [h]
      rfl
    · rw [h]
      rfl
    · rw [h, tgt_start_check_le]
      rfl

theorem handler_le (K : Consts) (C : Collab) (s : tgt_state) (w : World)
    (h1 : s ≠ STATE_TGT_START) (h2 : s ≠ STATE_TGT_GET_MATCH) (h3 : phase s ≠ 2) :
    (RuntimeDevel.tgt_handler K C s w).world.buf.le = w.buf.le := by
  cases s
  case STATE_TGT_START => exact absurd rfl h1
  case STATE_TGT_GET_MATCH => exact absurd rfl h2
  case STATE_TGT_SEND_ACK => exact absurd rfl h3
  case STATE_TGT_SEND_REPLY => exact absurd rfl h3
  case STATE_TGT_GET_LENGTH => exact state_get_length_le K w
  case STATE_TGT_WAIT_CONN => exact tgt_wait_conn_le K C w
  case STATE_TGT_DATA => exact tgt_data_le K w
  case STATE_TGT_DATA_IN => exact tgt_data_in_le K C w
  case STATE_TGT_WAIT_RDMA_DESC => exact tgt_wait_rdma_desc_le K C w
  case STATE_TGT_SHMEM_DESC => exact tgt_shmem_desc_le K C w
  case STATE_TGT_RDMA => exact tgt_rdma_le K C w
  case STATE_TGT_ATOMIC_DATA_IN => exact tgt_atomic_data_in_le K C w
  case STATE_TGT_SWAP_DATA_IN => exact tgt_swap_data_in_le C w
  case STATE_TGT_DATA_OUT => exact tgt_data_out_le K C w
  case STATE_TGT_COMM_EVENT => exact tgt_comm_event_le w
  case STATE_TGT_DROP => exact request_drop_le w
  case STATE_TGT_WAIT_APPEND => exact tgt_wait_append_le w
  case STATE_TGT_OVERFLOW_EVENT => exact tgt_overflow_event_le w
  case STATE_TGT_CLEANUP => exact tgt_cleanup_le K w
  case STATE_TGT_ERROR => rfl
  case STATE_TGT_CLEANUP_2 => rfl
  case STATE_TGT_DONE => rfl

theorem quiet_ref_step (K : Consts) (C : Collab) (s : tgt_state) (w : World)
    (h2 : s ≠ STATE_TGT_GET_MATCH) (h3 : phase s ≠ 2) :
    ∃ t, (RuntimeDevel.tgt_handler K C s w).world.trace = w.trace ++ t ∧
      (∀ a ∈ t, ∀ s1, a ≠ Action.ptl_info s1) ∧ ref_calls (some s) t = [] := by
  obtain ⟨t, ht, ha⟩ := (trace_ext_iff _ _ _).1 (handler_ext K C s w h3)
  refine ⟨t, ht, fun a hm => (logs_no_ref s a h2 (ha a hm)).1, ?_⟩
  exact ref_calls_quiet _ _ (fun a hm => logs_no_ref s a h2 (ha a hm))

theorem tgt_get_match_ref_step (K : Consts) (w : World) :
    ref_step STATE_TGT_GET_MATCH w (RuntimeDevel.tgt_get_match K w).world := by
  have hie : ∀ (b : buf_t) (p : pt_t) (m : me_t), (RuntimeDevel.init_events b p m).le = b.le := by
    intro b p m
    unfold RuntimeDevel.init_events
    simp only []
    split_ifs <;> rfl
  unfold RuntimeDevel.tgt_get_match
  cases hpt : w.buf.pt with
  | none =>
    exact ⟨[], by simp [step_t.world], by simp, Or.inl ⟨rfl, rfl⟩⟩
  | some pi =>
    simp only []
    cases hf : RuntimeDevel.find_match K w (w.pt pi) with
    | none =>
      refine ⟨[], ?_, by simp, Or.inr (Or.inr (Or.inr (Or.inl ⟨rfl, ?_, Or.inl rfl⟩)))⟩
      · simp only [step_t.world, List.append_nil]
        split_ifs <;> rfl
      · simp only [step_t.world]
    | some p =>
      obtain ⟨l, h⟩ := p
      simp only []
      by_cases hperm : (RuntimeDevel.check_perm K
          ({ (w.log (Action.le_get h)) with buf.le := some h } : World).buf
          (({ (w.log (Action.le_get h)) with buf.le := some h } : World).les h) != PTL_NI_OK) = true
      · rw [if_pos hperm]
        refine ⟨[Action.le_get h, Action.le_put h], ?_, ?_,
          Or.inr (Or.inr (Or.inr (Or.inl ⟨rfl, rfl, Or.inr ?_⟩)))⟩
        · simp [step_t.world, World.log]
        · intro a hm s1 e
          subst e
          simp at hm
        · simp [ref_calls, ref_of, next_state]
      · rw [if_neg hperm]
        by_cases hl : ((w.les h).ptl_list == PTL_OVERFLOW_LIST) = true
        · refine ⟨[Action.le_get h, Action.buf_get], ?_, ?_,
            Or.inr (Or.inr (Or.inr (Or.inr ⟨rfl, ?_, ?_⟩)))⟩
          · simp [step_t.world, World.log, World.set_pt, hl]
          · intro a hm s1 e
            subst e
            simp at hm
          · simp [ref_calls, ref_of, next_state]
          · simp [step_t.world, World.log, World.set_pt, hl, hie]
        · refine ⟨[Action.le_get h], ?_, ?_,
            Or.inr (Or.inr (Or.inr (Or.inr ⟨rfl, ?_, ?_⟩)))⟩
          · simp [step_t.world, World.log, World.set_pt, hl]
          · intro a hm s1 e
            subst e
            simp at hm
          · simp [ref_calls, ref_of, next_state]
          · simp [step_t.world, World.log, World.set_pt, hl, hie]

theorem send_response_le (K : Consts) (C : Collab) (w : World) :
    (send_response K C w).world.buf.le = w.buf.le := by
  unfold send_response
  simp only []
  repeat' split
  all_goals rfl

theorem send_tail_ref_step (K : Consts) (C : Collab) (s : tgt_state) (hs : phase s = 2)
    (w W0 : World) (ht : W0.trace = w.trace) (hle : W0.buf.le = w.buf.le)
    (hles : W0.les = w.les) :
    ref_step s w (send_response K C (RuntimeDevel.put_priority_le W0)).world := by
  have hne : some s ≠ some STATE_TGT_OVERFLOW_EVENT := by
    intro e
    cases e
    exact absurd hs (by decide)
  obtain ⟨t2, ht2, ha2⟩ := (trace_ext_iff _ _ _).1
    (send_response_ext K C (RuntimeDevel.put_priority_le W0))
  have hq2 : ∀ a ∈ t2, (∀ s1, a ≠ Action.ptl_info s1) ∧ (∀ x, a ≠ Action.le_get x) ∧
      (∀ x, a = Action.le_put x → some s = some STATE_TGT_OVERFLOW_EVENT) := by
    intro a hm
    have := ha2 a hm
    refine ⟨?_, ?_, ?_⟩ <;> intro x e <;> subst e <;> simp [is_send_call] at this
  have hr2 : ref_calls (some s) t2 = [] := ref_calls_quiet _ _ hq2
  have hl2 := send_response_le K C (RuntimeDevel.put_priority_le W0)
  have hpp : ∃ t1, (RuntimeDevel.put_priority_le W0).trace = W0.trace ++ t1 ∧
      ((t1 = [] ∧ (RuntimeDevel.put_priority_le W0).buf.le = W0.buf.le) ∨
       (∃ h, t1 = [Action.le_put h] ∧ W0.buf.le = some h ∧
         (W0.les h).ptl_list = PTL_PRIORITY_LIST ∧
         (RuntimeDevel.put_priority_le W0).buf.le = none)) := by
    unfold RuntimeDevel.put_priority_le
    cases hl : W0.buf.le with
    | none => exact ⟨[], by simp, Or.inl ⟨rfl, by simp [hl]⟩⟩
    | some h =>
      simp only []
      by_cases hp : ((W0.les h).ptl_list == PTL_PRIORITY_LIST) = true
      · rw [if_pos hp]
        exact ⟨[Action.le_put h], rfl, Or.inr ⟨h, rfl, rfl, by simpa using hp, rfl⟩⟩
      · rw [if_neg hp]
        exact ⟨[], by simp, Or.inl ⟨rfl, hl⟩⟩
  obtain ⟨t1, ht1, hc⟩ := hpp
  rcases hc with ⟨e1, el⟩ | ⟨h, e1, eh, ep, el⟩
  · subst e1
    refine ⟨t2, ?_, fun a hm => (hq2 a hm).1, Or.inl ⟨hr2, ?_⟩⟩
    · rw [ht2, ht1, ht, List.append_nil]
    · rw [hl2, el, hle]
  · subst e1
    refine ⟨Action.le_put h :: t2, ?_, ?_, Or.inr (Or.inl ⟨hs, ?_, ?_, h, ?_, ?_⟩)⟩
    · rw [ht2, ht1, ht, List.append_assoc]
      rfl
    · intro a hm s1 e
      rcases List.mem_cons.1 hm with e2 | hm
      · rw [e2] at e
        cases e
      · exact (hq2 a hm).1 s1 e
    · have hso : s ≠ STATE_TGT_OVERFLOW_EVENT := fun e => hne (by rw [e])
      show ref_of (some s) (Action.le_put h) ++
        ref_calls (next_state (some s) (Action.le_put h)) t2 = [false]
      have hn : next_state (some s) (Action.le_put h) = some s := rfl
      rw [hn, hr2]
      simp [ref_of, hso]
    · rw [hl2, el]
    · rw [← hle]
      exact eh
    · rw [← hles]
      exact ep

theorem tgt_send_ack_ref_step (K : Consts) (C : Collab) (w : World) :
    ref_step STATE_TGT_SEND_ACK w (RuntimeDevel.tgt_send_ack K C w).world := by
  rw [tgt_send_ack_eq]
  have hst : ∀ hdr len, (RuntimeDevel.store_ack w hdr len).les = w.les := by
    intro hdr len
    unfold RuntimeDevel.store_ack
    split <;> rfl
  cases hq : ack_choice w.buf.data.ack_req (ack_base K w).1 (ack_base K w).2 with
  | none =>
    have h := store_ack_le w (ack_base K w).1 (ack_base K w).2
    exact ⟨[], by simp [step_t.world, h.2], by simp, Or.inl ⟨rfl, h.1⟩⟩
  | some p =>
    obtain ⟨hdr, len⟩ := p
    simp only []
    have h := store_ack_le w
      (if ack_disabled w then { hdr with operation := OP_NO_ACK } else hdr)
      (if ack_disabled w then sizeof_ack_hdr K - sizeof_le64 - sizeof_le64 else len)
    exact send_tail_ref_step K C STATE_TGT_SEND_ACK rfl w _ h.2 h.1 (hst _ _)

theorem tgt_send_reply_ref_step (K : Consts) (C : Collab) (w : World) :
    ref_step STATE_TGT_SEND_REPLY w (RuntimeDevel.tgt_send_reply C w).world := by
  rw [tgt_send_reply_eq K]
  cases hsb : w.buf.send_buf with
  | none => exact ⟨[], by simp [step_t.world], by simp, Or.inl ⟨rfl, rfl⟩⟩
  | some sb =>
    simp only []
    exact send_tail_ref_step K C STATE_TGT_SEND_REPLY rfl w _ rfl rfl rfl

theorem handler_ref_step (K : Consts) (C : Collab) (s : tgt_state) (w : World) :
    ref_step s w (RuntimeDevel.tgt_handler K C s w).world := by
  by_cases h2 : s = STATE_TGT_GET_MATCH
  · subst h2
    exact tgt_get_match_ref_step K w
  by_cases h3 : phase s = 2
  · have hs : s = STATE_TGT_SEND_ACK ∨ s = STATE_TGT_SEND_REPLY := by
      cases s <;> first | exact Or.inl rfl | exact Or.inr rfl | exact absurd h3 (by decide)
    rcases hs with hs | hs <;> subst hs
    · exact tgt_send_ack_ref_step K C w
    · exact tgt_send_reply_ref_step K C w
  obtain ⟨t, ht, hq, hr⟩ := quiet_ref_step K C s w h2 h3
  by_cases h1 : s = STATE_TGT_START
  · subst h1
    exact ⟨t, ht, hq, Or.inr (Or.inr (Or.inl ⟨rfl, hr, tgt_start_le K C w⟩))⟩
  · exact ⟨t, ht, hq, Or.inl ⟨hr, handler_le K C s w h1 h2 h3⟩⟩

theorem refs_held_nil : refs_held [] := by
  intro p hp
  rw [List.prefix_nil] at hp
  subst hp
  decide

theorem ref_count_true : ref_count [true] = 1 := by decide

theorem ref_count_false : ref_count [false] = -1 := by decide

theorem ref_inv_step (K : Consts) (C : Collab) (w0 w : World) (s : tgt_state)
    (hI : ref_inv w0 s w) :
    ∃ T, (RuntimeDevel.tgt_handler K C s (w.log (Action.ptl_info s))).world.trace =
        w0.trace ++ T ∧
      refs_held (ref_calls none T) ∧
      ref_count (ref_calls none T) =
        (if (RuntimeDevel.tgt_handler K C s (w.log (Action.ptl_info s))).world.buf.le.isSome = true
          then 1 else 0) := by
  obtain ⟨⟨T, hT, hheld, hcount⟩, hgm, _⟩ := hI
  obtain ⟨t, ht, hq, hcases⟩ := handler_ref_step K C s (w.log (Action.ptl_info s))
  have hle0 : (w.log (Action.ptl_info s)).buf.le = w.buf.le := rfl
  have htr : (RuntimeDevel.tgt_handler K C s (w.log (Action.ptl_info s))).world.trace =
      w0.trace ++ (T ++ Action.ptl_info s :: t) := by
    rw [ht]
    simp only [World.log]
    rw [hT]
    simp
  have hrc : ref_calls none (T ++ Action.ptl_info s :: t) =
      ref_calls none T ++ ref_calls (some s) t := ref_calls_append_info T t s none
  have hge : 0 ≤ ref_count (ref_calls none T) := by
    rw [hcount]
    split_ifs <;> decide
  have hgm0 : s = STATE_TGT_GET_MATCH → ref_count (ref_calls none T) = 0 := by
    intro es
    rw [hcount, hgm es]
    simp
  have hsend : ∀ h, phase s = 2 → w.buf.le = some h → ref_count (ref_calls none T) = 1 := by
    intro h hp eh
    have hs : s ≠ STATE_TGT_START := by
      intro e1
      rw [e1] at hp
      exact absurd hp (by decide)
    rw [hcount, eh]
    simp [hs]
  refine ⟨T ++ Action.ptl_info s :: t, htr, ?_, ?_⟩ <;> rw [hrc]
  · rcases hcases with ⟨e, _⟩ | ⟨hp, e, _, h, eh, _⟩ | ⟨_, e, _⟩ | ⟨es, _, e | e⟩ | ⟨_, e, _⟩
    · rw [e, List.append_nil]
      exact hheld
    · rw [e]
      refine refs_held_snoc _ _ hheld ?_
      rw [ref_count_append, hsend h hp (hle0 ▸ eh), ref_count_false]
      decide
    · rw [e, List.append_nil]
      exact hheld
    · rw [e, List.append_nil]
      exact hheld
    · rw [e]
      have h1 : refs_held (ref_calls none T ++ [true]) := by
        refine refs_held_snoc _ _ hheld ?_
        rw [ref_count_append, hgm0 es, ref_count_true]
        decide
      have h2 := refs_held_snoc _ false h1 (by
        rw [ref_count_append, ref_count_append, hgm0 es, ref_count_true, ref_count_false]
        decide)
      simpa using h2
    · rw [e]
      refine refs_held_snoc _ _ hheld ?_
      rw [ref_count_append, ref_count_true]
      omega
  · rw [ref_count_append]
    by_cases hst : s = STATE_TGT_START
    · have hc0 : ref_count (ref_calls none T) = 0 := by
        rw [hcount]
        simp [hst]
      have hn : (RuntimeDevel.tgt_handler K C s (w.log (Action.ptl_info s))).world.buf.le =
          none := by
        rw [hst]
        exact tgt_start_le K C _
      rw [hn, hc0]
      rcases hcases with ⟨e, _⟩ | ⟨hp, _⟩ | ⟨_, e, _⟩ | ⟨es, _⟩ | ⟨es, _⟩
      · rw [e]
        simp [ref_count]
      · rw [hst] at hp
        exact absurd hp (by decide)
      · rw [e]
        simp [ref_count]
      · rw [hst] at es
        cases es
      · rw [hst] at es
        cases es
    · rcases hcases with ⟨e, el⟩ | ⟨hp, e, el, h, eh, _⟩ | ⟨es, _⟩ | ⟨es, el, e | e⟩ | ⟨es, e, el⟩
      · rw [e, el, hle0, hcount]
        simp [ref_count, hst]
      · rw [e, el, ref_count_false, hsend h hp (hle0 ▸ eh)]
        simp
      · exact absurd es hst
      · rw [e, el, hgm0 es]
        simp [ref_count]
      · rw [e, el, hgm0 es]
        simp [ref_count]
      · rw [e, hgm0 es, ref_count_true]
        simp [el]

theorem follows_not_start (s s1 : tgt_state) (h : follows s s1 = true) :
    s1 ≠ STATE_TGT_START ∧ (s1 = STATE_TGT_GET_MATCH → s = STATE_TGT_START) := by
  cases s <;> cases s1 <;> first
    | exact absurd h (by decide)
    | exact ⟨by decide, fun _ => rfl⟩
    | exact ⟨by decide, fun e => by cases e⟩

theorem tgt_cleanup_2_ref (w : World) (cur : Option tgt_state)
    (hc : cur ≠ some STATE_TGT_OVERFLOW_EVENT) :
    ∃ t, (RuntimeDevel.tgt_cleanup_2 w).trace = w.trace ++ t ∧
      (∀ a ∈ t, ∀ s1, a ≠ Action.ptl_info s1) ∧
      ref_calls cur t = (if w.buf.le.isSome = true then [false] else []) ∧
      (RuntimeDevel.tgt_cleanup_2 w).buf.le = none ∧
      (RuntimeDevel.tgt_cleanup_2 w).buf.tgt_state = w.buf.tgt_state ∧
      (∀ h, w.buf.le = some h → ∃ t1, t = Action.le_put h :: t1 ∧ ∀ a ∈ t1, a = Action.conn_put) := by
  have hb : (cur == some STATE_TGT_OVERFLOW_EVENT) = false := by simpa using hc
  unfold RuntimeDevel.tgt_cleanup_2
  cases hle : w.buf.le with
  | none =>
    simp only []
    cases hcn : w.buf.conn
    · refine ⟨[], by simp [hcn], by simp, by simp [ref_calls], ?_, ?_, ?_⟩
      · simp [hcn, hle]
      · simp [hcn]
      · intro h e
        cases e
    · refine ⟨[Action.conn_put], by simp [hcn, World.log], ?_,
        by simp [ref_calls, ref_of], ?_, ?_, ?_⟩
      · intro a hm s1 e
        subst e
        simp at hm
      · simp [hcn, World.log, hle]
      · simp [hcn, World.log]
      · intro h e
        cases e
  | some h =>
    simp only []
    cases hcn : w.buf.conn
    · refine ⟨[Action.le_put h], by simp [hcn, World.log], ?_,
        by simp [ref_calls, ref_of, hb], ?_, ?_, ?_⟩
      · intro a hm s1 e
        subst e
        simp at hm
      · simp [hcn, World.log]
      · simp [hcn, World.log]
      · intro h1 e
        cases e
        exact ⟨[], rfl, by simp⟩
    · refine ⟨[Action.le_put h, Action.conn_put], by simp [hcn, World.log], ?_,
        by simp [ref_calls, ref_of, hb, next_state], ?_, ?_, ?_⟩
      · intro a hm s1 e
        subst e
        simp at hm
      · simp [hcn, World.log]
      · simp [hcn, World.log]
      · intro h1 e
        cases e
        exact ⟨[Action.conn_put], rfl, by simp⟩

theorem ref_inv_mk (w0 W : World) (s1 : tgt_state) (T : List Action)
    (hT : W.trace = w0.trace ++ T) (hh : refs_held (ref_calls none T))
    (hc : ref_count (ref_calls none T) = (if W.buf.le.isSome = true then 1 else 0))
    (h1 : s1 ≠ STATE_TGT_START) (h2 : s1 = STATE_TGT_GET_MATCH → W.buf.le = none)
    (h3 : s1 = STATE_TGT_DONE → W.buf.tgt_state = STATE_TGT_DONE ∧ W.buf.le = none) :
    ref_inv w0 s1 W := by
  refine ⟨⟨T, hT, hh, ?_⟩, h2, h3⟩
  rw [hc]
  simp [h1]

theorem ref_inv_loop (K : Consts) (C : Collab) (w0 : World) (n : Nat) (s : tgt_state)
    (err : Bool) (w : World) (hI : ref_inv w0 s w) :
    (RuntimeDevel.process_tgt_loop K C n s err w).holds
      (fun W => ref_inv w0 W.buf.tgt_state W) (refs_ok_since w0) := by
  refine loop_invariant K C (ref_inv w0) _ _ ?_ ?_ ?_ ?_ ?_ ?_ n s err w hI
  · rintro s w ⟨⟨T, hT, hh, _⟩, _⟩
    exact ⟨T, hT, hh⟩
  · rintro w ⟨⟨T, hT, hh, hc⟩, _, _⟩
    have hc1 : ref_count (ref_calls none T) = (if w.buf.le.isSome = true then 1 else 0) := by
      rw [hc]
      simp
    split_ifs
    · refine ref_inv_mk w0 _ _ (T ++ Action.ptl_info STATE_TGT_ERROR ::
        [Action.atomic_mutex_unlock]) ?_ ?_ ?_ (by decide) (fun e => by cases e)
        (fun e => by cases e)
      · simp [RuntimeDevel.atomic_unlock, World.log, hT]
      · rw [ref_calls_append_info]
        simpa [ref_calls, ref_of, next_state] using hh
      · rw [ref_calls_append_info]
        simpa [ref_calls, ref_of, next_state, RuntimeDevel.atomic_unlock, World.log] using hc1
    · refine ref_inv_mk w0 _ _ (T ++ Action.ptl_info STATE_TGT_ERROR :: []) ?_ ?_ ?_
        (by decide) (fun e => by cases e) (fun e => by cases e)
      · simp [World.log, hT]
      · rw [ref_calls_append_info]
        simpa [ref_calls] using hh
      · rw [ref_calls_append_info]
        simpa [ref_calls, World.log] using hc1
  · rintro w ⟨⟨T, hT, hh, hc⟩, _, _⟩
    have hc1 : ref_count (ref_calls none T) = (if w.buf.le.isSome = true then 1 else 0) := by
      rw [hc]
      simp
    obtain ⟨t, ht, hq, hr, hle, hts, _⟩ := tgt_cleanup_2_ref
      (w.log (Action.ptl_info STATE_TGT_CLEANUP_2)) (some STATE_TGT_CLEANUP_2) (by decide)
    have hle0 : (w.log (Action.ptl_info STATE_TGT_CLEANUP_2)).buf.le = w.buf.le := rfl
    rw [hle0] at hr
    have hrc : ref_calls none (T ++ Action.ptl_info STATE_TGT_CLEANUP_2 ::
        (t ++ [Action.buf_put])) =
        ref_calls none T ++ (if w.buf.le.isSome = true then [false] else []) := by
      rw [ref_calls_append_info, ref_calls_append_quiet t _ _ hq, hr]
      simp [ref_calls, ref_of]
    refine ⟨⟨T ++ Action.ptl_info STATE_TGT_CLEANUP_2 :: (t ++ [Action.buf_put]), ?_, ?_, ?_⟩,
      (fun e => by cases e), fun _ => ⟨rfl, hle⟩⟩
    · simp only [World.log] at ht ⊢
      rw [ht, hT]
      simp
    · rw [hrc]
      split_ifs with hs
      · refine refs_held_snoc _ _ hh ?_
        rw [ref_count_append, hc1, ref_count_false]
        simp [hs]
      · rw [List.append_nil]
        exact hh
    · rw [hrc]
      have hl2 : ({ (RuntimeDevel.tgt_cleanup_2 (w.log (Action.ptl_info STATE_TGT_CLEANUP_2)))
          with buf.tgt_state := STATE_TGT_DONE }.log Action.buf_put).buf.le = none := hle
      rw [hl2]
      split_ifs with hs <;> simp_all [ref_count_append, ref_count_false]
  · rintro w ⟨⟨T, hT, hh, hc⟩, _, hd⟩
    obtain ⟨hd1, hd2⟩ := hd rfl
    refine ⟨⟨T ++ Action.ptl_info STATE_TGT_DONE :: [], ?_, ?_, ?_⟩, ?_, fun _ => ⟨hd1, hd2⟩⟩
    · simp [World.log, hT]
    · rw [ref_calls_append_info]
      simpa [ref_calls] using hh
    · rw [ref_calls_append_info]
      have : (w.log (Action.ptl_info STATE_TGT_DONE)).buf.le = none := hd2
      rw [this]
      have hz : ref_count (ref_calls none T) = 0 := by
        rw [hc, hd2]
        simp
      simp [ref_calls, hz]
    · intro e
      have : (w.log (Action.ptl_info STATE_TGT_DONE)).buf.tgt_state = STATE_TGT_DONE := hd1
      rw [this] at e
      cases e
  · intro s w w1 hI hh
    obtain ⟨T, hT, hheld, _⟩ := ref_inv_step K C w0 w s hI
    rw [hh] at hT
    exact ⟨T, hT, hheld⟩
  · intro s w w1 s1 hI h1 h2 h3 hh
    obtain ⟨T, hT, hheld, hcount⟩ := ref_inv_step K C w0 w s hI
    have hg := handler_goes K C s (w.log (Action.ptl_info s)) h1 h2 h3
    rw [hh] at hT hcount hg
    have hf : follows s s1 = true := by simpa [step_t.goes, step_t.state] using hg
    obtain ⟨f1, f2⟩ := follows_not_start s s1 hf
    have f3 : s1 ≠ STATE_TGT_DONE := by
      intro e
      rw [e, follows_not_done s h2] at hf
      cases hf
    have hgm : s1 = STATE_TGT_GET_MATCH → w1.buf.le = none := by
      intro e
      have hs := f2 e
      have := tgt_start_le K C (w.log (Action.ptl_info STATE_TGT_START))
      rw [hs] at hh
      have hh2 : RuntimeDevel.tgt_start K C (w.log (Action.ptl_info STATE_TGT_START)) =
          step_t.next w1 s1 := hh
      rw [hh2] at this
      exact this
    constructor
    · exact ref_inv_mk w0 w1 s1 T hT hheld hcount f1 hgm (fun e => absurd e f3)
    · intro _
      exact ref_inv_mk w0 _ s1 T hT hheld hcount f1 hgm (fun e => absurd e f3)

theorem ref_inv_reach (K : Consts) (C : Collab) (w0 w : World)
    (h0 : w0.buf.tgt_state = STATE_TGT_START) (h : reach K C same_element w0 w) :
    ref_inv w0 w.buf.tgt_state w := by
  induction h with
  | start =>
    refine ⟨⟨[], by simp, refs_held_nil, ?_⟩, ?_, ?_⟩
    · simp [h0, ref_calls, ref_count]
    · intro e
      rw [h0] at e
      cases e
    · intro e
      rw [h0] at e
      cases e
  | call w W fuel err _ hc ih =>
    have := ref_inv_loop K C w0 fuel w.buf.tgt_state false w ih
    unfold RuntimeDevel.process_tgt at hc
    rw [hc] at this
    exact this
  | env w W _ he ih =>
    obtain ⟨e1, e2, e3⟩ := he
    obtain ⟨⟨T, hT, hh, hc⟩, hg, hd⟩ := ih
    rw [e2]
    refine ⟨⟨T, by rw [e1, hT], hh, by rw [e3]; exact hc⟩, ?_, ?_⟩
    · intro e
      rw [e3]
      exact hg e
    · intro e
      rw [e2, e3]
      exact hd e

theorem send_tail_priority (K : Consts) (C : Collab) (w W0 : World) (h : Nat)
    (ht : W0.trace = w.trace) (hle : W0.buf.le = some h)
    (hp : (W0.les h).ptl_list = PTL_PRIORITY_LIST) :
    ∃ t2, (send_response K C (RuntimeDevel.put_priority_le W0)).world.trace =
        w.trace ++ Action.le_put h :: t2 ∧
      (∀ a ∈ t2, is_send_call a = true) ∧
      (send_response K C (RuntimeDevel.put_priority_le W0)).world.buf.le = none := by
  have hpp : RuntimeDevel.put_priority_le W0 =
      { (W0.log (Action.le_put h)) with buf.le := none } := by
    unfold RuntimeDevel.put_priority_le
    simp [hle, hp]
  obtain ⟨t2, ht2, ha2⟩ := (trace_ext_iff _ _ _).1
    (send_response_ext K C (RuntimeDevel.put_priority_le W0))
  refine ⟨t2, ?_, ha2, ?_⟩
  · rw [ht2, hpp]
    simp [World.log, ht]
  · rw [send_response_le, hpp]

theorem send_tail_release (K : Consts) (C : Collab) (w W0 : World) (h : Nat)
    (ht : W0.trace = w.trace) (hle : W0.buf.le = some h)
    (hp : (W0.les h).ptl_list = PTL_PRIORITY_LIST) :
    ∃ t, (send_response K C (RuntimeDevel.put_priority_le W0)).world.trace = w.trace ++ t ∧
      (responses_of t ≠ [] →
        (send_response K C (RuntimeDevel.put_priority_le W0)).world.buf.le = none ∧
        ∃ t2, t = Action.le_put h :: t2 ∧ ∀ a ∈ t2, is_send_call a = true) := by
  obtain ⟨t2, e1, e2, e3⟩ := send_tail_priority K C w W0 h ht hle hp
  exact ⟨_, e1, fun _ => ⟨e3, t2, rfl, e2⟩⟩

theorem send_priority_release (K : Consts) (C : Collab) (w : World) (h : Nat)
    (hle : w.buf.le = some h) (hp : (w.les h).ptl_list = PTL_PRIORITY_LIST) (r : step_t)
    (hr : r = RuntimeDevel.tgt_send_ack K C w ∨ r = RuntimeDevel.tgt_send_reply C w) :
    ∃ t, r.world.trace = w.trace ++ t ∧
      (responses_of t ≠ [] → r.world.buf.le = none ∧
        ∃ t2, t = Action.le_put h :: t2 ∧ ∀ a ∈ t2, is_send_call a = true) := by
  rcases hr with hr | hr <;> subst hr
  · rw [tgt_send_ack_eq]
    cases hq : ack_choice w.buf.data.ack_req (ack_base K w).1 (ack_base K w).2 with
    | none =>
      have hs := store_ack_le w (ack_base K w).1 (ack_base K w).2
      exact ⟨[], by simp [step_t.world, hs.2], fun hn => absurd rfl hn⟩
    | some p =>
      obtain ⟨hdr, len⟩ := p
      simp only []
      have hs := store_ack_le w
        (if ack_disabled w then { hdr with operation := OP_NO_ACK } else hdr)
        (if ack_disabled w then sizeof_ack_hdr K - sizeof_le64 - sizeof_le64 else len)
      have hl : ∀ hdr len, (RuntimeDevel.store_ack w hdr len).les = w.les := by
        intro hdr len
        unfold RuntimeDevel.store_ack
        split <;> rfl
      exact send_tail_release K C w _ h hs.2 (hs.1.trans hle) (by rw [hl]; exact hp)
  · rw [tgt_send_reply_eq K]
    cases hsb : w.buf.send_buf with
    | none => exact ⟨[], by simp [step_t.world], fun hn => absurd rfl hn⟩
    | some sb =>
      simp only []
      exact send_tail_release K C w _ h rfl hle hp

theorem overflow_reference_kept (K : Consts) (C : Collab) (s : tgt_state) (w : World) (h : Nat)
    (hle : w.buf.le = some h) (ho : (w.les h).ptl_list = PTL_OVERFLOW_LIST)
    (h1 : s ≠ STATE_TGT_START) (h2 : s ≠ STATE_TGT_GET_MATCH) :
    ∃ t, (RuntimeDevel.tgt_handler K C s w).world.trace = w.trace ++ t ∧
      ref_calls (some s) t = [] ∧ (RuntimeDevel.tgt_handler K C s w).world.buf.le = some h := by
  obtain ⟨t, ht, _, hc⟩ := handler_ref_step K C s w
  rcases hc with ⟨e, el⟩ | ⟨_, _, _, h3, eh, ep⟩ | ⟨es, _⟩ | ⟨es, _⟩ | ⟨es, _⟩
  · exact ⟨t, ht, e, el.trans hle⟩
  · rw [hle] at eh
    cases eh
    rw [ho] at ep
    cases ep
  · exact absurd es h1
  · exact absurd es h2
  · exact absurd es h2

/-- C35: the reference a buffer holds on its element in the runtime-devel variant,
with `le_get` and `le_put` counted as +1 and −1 (the `le_put` of
`STATE_TGT_OVERFLOW_EVENT`, which releases `buf->matching.le`, apart). For a buffer
first seen in `STATE_TGT_START` and every sequence of calls of `process_tgt` for
it, with the rest of the runtime leaving `buf->le`, the saved state and the record
of calls alone in between: at no point of the record have more references been
released than taken, and when a call returns with the buffer in `STATE_TGT_DONE`,
`buf->le` is null and as many references were released as taken. In
`tgt_send_ack` and `tgt_send_reply` entered with an element of the priority list,
whenever a response is handed to the transport the reference was released first
and `buf->le` is null afterwards. With an element of the overflow list, no state
function after `tgt_get_match` releases the reference or changes `buf->le`, and
`tgt_cleanup_2` releases it and clears `buf->le`. -/
theorem element_reference_balance (K : Consts) (C : Collab) (w0 : World)
    (h0 : w0.buf.tgt_state = STATE_TGT_START) :
    (∀ w, reach K C same_element w0 w → ∀ fuel,
      refs_ok_since w0 (RuntimeDevel.process_tgt K C fuel w).world ∧
      (∀ W err, RuntimeDevel.process_tgt K C fuel w = RuntimeDevel.run_result.returned W err →
        W.buf.tgt_state = STATE_TGT_DONE →
        W.buf.le = none ∧
        ∃ T, W.trace = w0.trace ++ T ∧ ref_count (ref_calls none T) = 0)) ∧
    (∀ w h, w.buf.le = some h → (w.les h).ptl_list = PTL_PRIORITY_LIST →
      ∀ r, (r = RuntimeDevel.tgt_send_ack K C w ∨ r = RuntimeDevel.tgt_send_reply C w) →
        ∃ t, r.world.trace = w.trace ++ t ∧
          (responses_of t ≠ [] → r.world.buf.le = none ∧
            ∃ t2, t = Action.le_put h :: t2 ∧ ∀ a ∈ t2, is_send_call a = true)) ∧
    (∀ w h, w.buf.le = some h → (w.les h).ptl_list = PTL_OVERFLOW_LIST →
      (∀ s, s ≠ STATE_TGT_START → s ≠ STATE_TGT_GET_MATCH →
        ∃ t, (RuntimeDevel.tgt_handler K C s w).world.trace = w.trace ++ t ∧
          ref_calls (some s) t = [] ∧
          (RuntimeDevel.tgt_handler K C s w).world.buf.le = some h) ∧
      (RuntimeDevel.tgt_cleanup_2 w).buf.le = none ∧
      ∃ t1, (RuntimeDevel.tgt_cleanup_2 w).trace = w.trace ++ Action.le_put h :: t1) := by
  refine ⟨?_, ?_, ?_⟩
  · intro w hr fuel
    have hI := ref_inv_reach K C w0 w h0 hr
    have hl := ref_inv_loop K C w0 fuel w.buf.tgt_state false w hI
    unfold RuntimeDevel.process_tgt
    cases hres : RuntimeDevel.process_tgt_loop K C fuel w.buf.tgt_state false w with
    | returned W e =>
      rw [hres] at hl
      obtain ⟨⟨T, hT, hh, hc⟩, _, hd⟩ := hl
      refine ⟨⟨T, hT, hh⟩, ?_⟩
      intro W1 e1 heq hdone
      cases heq
      obtain ⟨_, hn⟩ := hd hdone
      refine ⟨hn, T, hT, ?_⟩
      rw [hc, hn]
      simp
    | aborted W =>
      rw [hres] at hl
      exact ⟨hl, (fun W1 e1 heq => by cases heq)⟩
    | out_of_fuel W s =>
      rw [hres] at hl
      exact ⟨hl, (fun W1 e1 heq => by cases heq)⟩
  · intro w h hle hp r hr
    exact send_priority_release K C w h hle hp r hr
  · intro w h hle ho
    refine ⟨fun s h1 h2 => overflow_reference_kept K C s w h hle ho h1 h2, ?_⟩
    obtain ⟨t, ht, _, _, hn, _, hput⟩ := tgt_cleanup_2_ref w none (by decide)
    obtain ⟨t1, e1, _⟩ := hput h hle
    exact ⟨hn, t1, by rw [ht, e1]⟩

/-- The theorem `element_reference_balance` on the sample PUT: one call of
`process_tgt` takes it from `STATE_TGT_START` to `STATE_TGT_DONE`; the reference
is taken in `tgt_get_match` and released in `tgt_send_ack`, and `buf->le` is null
at the end. -/
theorem element_reference_balance_witness :
    sample_world.buf.tgt_state = STATE_TGT_START ∧
    (RuntimeDevel.process_tgt sample_consts sample_collab 20 sample_world).status =
      some false ∧
    (RuntimeDevel.process_tgt sample_consts sample_collab 20 sample_world).world.buf.tgt_state =
      STATE_TGT_DONE ∧
    (RuntimeDevel.process_tgt sample_consts sample_collab 20 sample_world).world.buf.le =
      none ∧
    ref_calls none
      (RuntimeDevel.process_tgt sample_consts sample_collab 20 sample_world).world.trace =
      [true, false] ∧
    refs_ok_since sample_world
      (RuntimeDevel.process_tgt sample_consts sample_collab 20 sample_world).world :=
  ⟨rfl, by decide, by decide, by decide, by decide,
   ((element_reference_balance sample_consts sample_collab sample_world rfl).1 sample_world
      (reach.start) 20).1⟩

end Portals
